import Mathlib

/-!
# worldboxsim: the world engine, embedded

A shallow embedding of `internal/world` (terrain policy, entity model, placement,
snapshot, the conflict-phase tick, the peaceful tick with mining and regrowth, and
`Reset`) together with the properties proved about it.

Conventions of the embedding.

* `uint8` values (terrain codes, faction ids, weapon, armor and rank tiers) are natural
  numbers; `int` values are integers; the `uint32` identifier counter is a natural
  number incremented modulo `2 ^ 32`.
* `float64` quantities that are only stored, copied and compared (evasion, the score
  constants `-3, -2, -0.5, 0, 2, 8`) are rationals: every score constant is exactly
  representable, so the arithmetic of `MoveScoreBonus` is exact.
* `time.Time` is an integer number of nanoseconds; `0` is the zero time (`IsZero`).
* A Go map that the code iterates (`Tribes`) is an association list: lookup is by
  key, `range` visits the list in order.  Go leaves the order of `range` unspecified;
  a statement proved for every list covers every order.  Maps that are only read and
  written by key (`resources`, `nextEntityID`) are functions into `Option`.
* Slices are lists.  A read out of range yields a default and a write out of range
  does nothing (the Go code would fault); on a well-formed world (`World.WF`) every
  index the code uses is in range.
* The mutex is not modelled: every operation is taken as it runs under its lock.
-/

namespace Worldbox

/-! ## Constants -/

/-- Side of the square grid (`const GridSize = 100`). -/
def GridSize : Nat := 100

/-- Terrain code of bad or empty land. -/
def TerrainEmpty : Nat := 0
/-- Terrain code of the first faction flat land. -/
def TerrainRed : Nat := 1
/-- Terrain code of the second faction flat land. -/
def TerrainBlue : Nat := 2
/-- Terrain code of the neutral divider. -/
def TerrainBorder : Nat := 4
/-- Terrain code of forest. -/
def TerrainTrees : Nat := 6
/-- Terrain code of rock. -/
def TerrainRocks : Nat := 7
/-- Terrain code of hills. -/
def TerrainHills : Nat := 8
/-- Terrain code of the third faction flat land. -/
def TerrainYellow : Nat := 9
/-- Terrain code of the fourth faction flat land. -/
def TerrainGreen : Nat := 10

/-- Weapon tier: none. -/
def WeaponNone : Nat := 0
/-- Weapon tier: wood. -/
def WeaponWood : Nat := 1
/-- Weapon tier: stone. -/
def WeaponStone : Nat := 2

/-- Armor tier: none. -/
def ArmorNone : Nat := 0
/-- Armor tier: wood. -/
def ArmorWood : Nat := 1
/-- Armor tier: stone. -/
def ArmorStone : Nat := 2

/-- Rank tier: base. -/
def RankBase : Nat := 1
/-- Rank tier: super. -/
def RankSuper : Nat := 2
/-- Rank tier: mega. -/
def RankMega : Nat := 3

/-! ## Data model -/

/-- Tunable rates of the simulation (`type EntityStats`). -/
structure EntityStats where
  MoveChance : ℚ
  ReproductionRate : ℚ
  MaxDensityFraction : ℚ
  ReprodCooldown : Int
deriving DecidableEq

/-- One occupant of a cell (`type Entity`). -/
structure Entity where
  Health : Int
  Tribe : Nat
  Weapon : Nat
  Armor : Nat
  ID : Nat
  Evasion : ℚ
  Rank : Nat
deriving DecidableEq

/-- Ledger of one faction (`type TribeResources`). -/
structure TribeResources where
  Wood : Int
  Stone : Int
deriving DecidableEq

/-- Static configuration of one faction (`type TribeConfig`). -/
structure TribeConfig where
  HomeTerrain : Nat
  EntityVizCode : Nat
  Starters : Int
  Name : String
  DamageBonus : Int
  BaseEvasion : ℚ
  DefenseBonus : Int
deriving DecidableEq

/-- The zero value of `TribeConfig`, which a Go map read yields for an absent key. -/
def TribeConfig.zero : TribeConfig :=
  { HomeTerrain := 0, EntityVizCode := 0, Starters := 0, Name := "",
    DamageBonus := 0, BaseEvasion := 0, DefenseBonus := 0 }

/-- The world state (`type World`), without its mutex. -/
structure World where
  Entities : List (List (Option Entity))
  Terrain : List Nat
  lastReprodTime : List (List Int)
  tickCount : Int
  baseTickInterval : Int
  EntityStats : EntityStats
  warStarted : Bool
  winner : String
  gameOver : Bool
  conversionRate : ℚ
  lastClearedTime : List (List Int)
  resources : Nat → Option TribeResources
  nextEntityID : Nat → Option Nat
  Tribes : List (Nat × TribeConfig)

/-! ## Maps and grids -/

/-- Map read `m[k]` with the comma-ok result: the entry stored under key `k`. -/
def lookupTribe (m : List (Nat × TribeConfig)) (k : Nat) : Option TribeConfig :=
  match m with
  | [] => none
  | (k', c) :: rest => if k' = k then some c else lookupTribe rest k

/-- The keys of a Go map are pairwise distinct. -/
def KeysNodup (m : List (Nat × TribeConfig)) : Prop :=
  (m.map Prod.fst).Nodup

instance (m : List (Nat × TribeConfig)) : Decidable (KeysNodup m) := by
  unfold KeysNodup; infer_instance

/-- Map write `m[k] = v` on a map that is only accessed by key. -/
def setKey {α : Type} (m : Nat → Option α) (k : Nat) (v : α) : Nat → Option α :=
  fun j => if j = k then some v else m j

/-- Read of cell `(x, y)` of a grid stored as rows: `g[y][x]`. -/
def getCell {α : Type} (g : List (List α)) (x y : Nat) (dflt : α) : α :=
  (g.getD y []).getD x dflt

/-- Write of cell `(x, y)` of a grid stored as rows: `g[y][x] = v`. -/
def setCell {α : Type} (g : List (List α)) (x y : Nat) (v : α) : List (List α) :=
  g.set y ((g.getD y []).set x v)

/-- A grid has `GridSize` rows of `GridSize` cells. -/
def GridWF {α : Type} (g : List (List α)) : Prop :=
  g.length = GridSize ∧ ∀ r ∈ g, r.length = GridSize

instance {α : Type} (g : List (List α)) : Decidable (GridWF g) := by
  unfold GridWF; infer_instance

/-- Shape invariant established by `New`: both layers and both timestamp grids
have the full size. -/
def World.WF (w : World) : Prop :=
  GridWF w.Entities ∧ w.Terrain.length = GridSize * GridSize ∧
  GridWF w.lastReprodTime ∧ GridWF w.lastClearedTime

instance (w : World) : Decidable w.WF := by
  unfold World.WF; infer_instance

/-! ## Terrain and tribe policy (`terrainproperties.go`) -/

/-- Embedding of `IsPassable`: the `switch` lists nine codes, everything else is
the `default` branch. -/
def IsPassable (t : Nat) : Bool :=
  if t = TerrainEmpty ∨ t = TerrainRed ∨ t = TerrainBlue ∨ t = TerrainBorder ∨
      t = TerrainHills ∨ t = TerrainTrees ∨ t = TerrainRocks ∨ t = TerrainYellow ∨
      t = TerrainGreen then true
  else false

/-- Embedding of `IsOwnTerrain`. -/
def IsOwnTerrain (t : Nat) (w : World) (tribe : Nat) : Bool :=
  match lookupTribe w.Tribes tribe with
  | some cfg => decide (t = cfg.HomeTerrain)
  | none => false

/-- The loop of `IsEnemyTerrain` over the entries of the registry. -/
def enemyLoop (t : Nat) (tribe : Nat) : List (Nat × TribeConfig) → Bool
  | [] => false
  | (otherTribe, otherCfg) :: rest =>
    if otherTribe ≠ tribe ∧ t = otherCfg.HomeTerrain then true
    else enemyLoop t tribe rest

/-- Embedding of `IsEnemyTerrain`. -/
def IsEnemyTerrain (t : Nat) (w : World) (tribe : Nat) : Bool :=
  match lookupTribe w.Tribes tribe with
  | none => false
  | some _ => enemyLoop t tribe w.Tribes

/-- Embedding of `MoveScoreBonus`. -/
def MoveScoreBonus (t : Nat) (w : World) (myTribe : Nat) : ℚ :=
  if t = TerrainEmpty then -2
  else if t = TerrainBorder then -3
  else if t = TerrainHills then -1/2
  else if IsOwnTerrain t w myTribe then 2
  else if IsEnemyTerrain t w myTribe then 8
  else 0

/-- Embedding of `CanReproduceOn`. -/
def CanReproduceOn (t : Nat) (w : World) (tribe : Nat) : Bool :=
  match lookupTribe w.Tribes tribe with
  | some cfg => decide (t = cfg.HomeTerrain)
  | none => false

/-- Embedding of `World.GetTribeFromHomeTerrain`: the first entry met by the loop
whose home terrain is `t`. -/
def homeLoop (t : Nat) : List (Nat × TribeConfig) → Option Nat
  | [] => none
  | (tribe, cfg) :: rest => if cfg.HomeTerrain = t then some tribe else homeLoop t rest

/-- Embedding of `World.GetTribeFromHomeTerrain`. -/
def GetTribeFromHomeTerrain (w : World) (t : Nat) : Option Nat :=
  homeLoop t w.Tribes

/-! ## Placement and queries (`entity.go`, `world.go`) -/

/-- The three writes of a terrain-painting branch of `PlaceEntity`: the terrain
code, the occupant and the reproduction timestamp of cell `(x, y)`. -/
def paintCell (w : World) (x y : Nat) (typ : Nat) : World :=
  { w with
    Terrain := w.Terrain.set (y * GridSize + x) typ
    Entities := setCell w.Entities x y none
    lastReprodTime := setCell w.lastReprodTime x y 0 }

/-- The entity that placement, reproduction and map loading create for a faction. -/
def freshEntity (tribe : Nat) (id : Nat) (evasion : ℚ) : Entity :=
  { Health := 100, Tribe := tribe, Weapon := WeaponNone, Armor := ArmorNone, ID := id,
    Evasion := evasion, Rank := RankBase }

/-- Value of the identifier counter of a faction; a missing counter is created
at 0 (`new(uint32)`). -/
def counterOf (w : World) (tribe : Nat) : Nat :=
  (w.nextEntityID tribe).getD 0

/-- The writes of the spawning branch of `PlaceEntity` for the faction found. -/
def spawnAt (w : World) (x y : Nat) (tribe : Nat) : World :=
  let id := (counterOf w tribe + 1) % 2 ^ 32
  let cfg := (lookupTribe w.Tribes tribe).getD TribeConfig.zero
  { w with
    nextEntityID := setKey w.nextEntityID tribe id
    Entities := setCell w.Entities x y (some (freshEntity tribe id cfg.BaseEvasion))
    lastReprodTime := setCell w.lastReprodTime x y 0 }

/-- Embedding of `World.PlaceEntity`: the new world and the boolean returned. -/
def PlaceEntity (w : World) (x y : Int) (typ : Nat) : World × Bool :=
  if x < 0 ∨ x ≥ GridSize ∨ y < 0 ∨ y ≥ GridSize then (w, false)
  else if typ > 10 then (w, false)
  else
    let terrain := w.Terrain.getD (y.toNat * GridSize + x.toNat) 0
    if typ = 0 then (paintCell w x.toNat y.toNat 0, true)
    else if typ = 1 ∨ typ = 2 ∨ typ = 4 ∨ typ = 9 ∨ typ = 10 then
      (paintCell w x.toNat y.toNat typ, true)
    else if typ = 3 then
      match GetTribeFromHomeTerrain w terrain with
      | none => (w, false)
      | some tribe =>
        if (getCell w.Entities x.toNat y.toNat none).isSome then (w, false)
        else (spawnAt w x.toNat y.toNat tribe, true)
    else if typ = 6 ∨ typ = 7 ∨ typ = 8 then (paintCell w x.toNat y.toNat typ, true)
    else (w, true)

/-- Embedding of `World.StartWar`. -/
def StartWar (w : World) : World :=
  { w with warStarted := true }

/-- Embedding of `World.GetEntity`. -/
def GetEntity (w : World) (x y : Int) : Option Entity :=
  if x < 0 ∨ x ≥ GridSize ∨ y < 0 ∨ y ≥ GridSize then none
  else getCell w.Entities x.toNat y.toNat none

/-- The byte that `GetGridCopy` writes for cell `(x, y)`. -/
def snapshotByte (w : World) (x y : Nat) : Nat :=
  match getCell w.Entities x y none with
  | some ent =>
    match lookupTribe w.Tribes ent.Tribe with
    | some cfg => cfg.EntityVizCode
    | none => 3
  | none => w.Terrain.getD (y * GridSize + x) 0

/-- Two nested loops over the rows `0 .. rows-1` and the columns `0 .. cols-1`
that write `f x y` at index `y * GridSize + x` of a buffer. -/
def fillLoop (f : Nat → Nat → Nat) (rows cols : Nat) (buf : List Nat) : List Nat :=
  (List.range rows).foldl
    (fun cg y => (List.range cols).foldl (fun cg x => cg.set (y * GridSize + x) (f x y)) cg)
    buf

/-- Embedding of `World.GetGridCopy`. -/
def GetGridCopy (w : World) : List Nat :=
  fillLoop (snapshotByte w) GridSize GridSize (List.replicate (GridSize * GridSize) 0)


/-! ## Equipment and rank bonuses (`resourceslogic.go`, `entity.go`) -/

/-- Embedding of `WeaponType.Bonus`. -/
def WeaponBonus (wt : Nat) : Int :=
  if wt = WeaponWood then 3 else if wt = WeaponStone then 4 else 0

/-- Embedding of `ArmorType.Defensebonus`. -/
def ArmorDefensebonus (a : Nat) : Int :=
  if a = ArmorWood then 2 else if a = ArmorStone then 3 else 0

/-- Embedding of `Rank.DamageBonus`. -/
def RankDamageBonus (r : Nat) : Int :=
  if r = RankSuper then 1 else if r = RankMega then 2 else 0

/-- Embedding of `Rank.ArmorBonus`. -/
def RankArmorBonus (r : Nat) : Int :=
  if r = RankSuper then 1 else if r = RankMega then 2 else 0

/-- Embedding of `Entity.TotalDamage`. -/
def TotalDamage (e : Entity) (w : World) : Int :=
  let baseDamage : Int := 5
  let weaponBonus := WeaponBonus e.Weapon
  let rankBonus := RankDamageBonus e.Rank
  let racialBonus : Int :=
    match lookupTribe w.Tribes e.Tribe with
    | some cfg => cfg.DamageBonus
    | none => 0
  baseDamage + weaponBonus + racialBonus + rankBonus

/-- Embedding of `Entity.TotalArmor`. -/
def TotalArmor (e : Entity) (w : World) : Int :=
  let armorBonus := ArmorDefensebonus e.Armor
  let rankBonus := RankArmorBonus e.Rank
  let racialBonus : Int :=
    match lookupTribe w.Tribes e.Tribe with
    | some cfg => cfg.DefenseBonus
    | none => 0
  armorBonus + rankBonus + racialBonus

/-! ## The conflict-phase tick (`World.Update`)

The entity layer of the source holds pointers and the tick writes `Health` through
them.  Every pointer sits in exactly one cell (placement and reproduction allocate,
a move copies the pointer and clears its origin), so a write through the pointer of
cell `(x, y)` is a write of the record stored in cell `(x, y)`.

The random draws of one tick are an input (`WarDraws`).  Move collection (phase 1)
scores candidate cells in `float64` from centroid distances; its outcome, the list
of collected moves, is part of that input.  Each `rand` call of the later phases is
made at most once per cell (and direction), so its value is indexed by that cell.

The `recover` of `Update` is not modelled: on a well-formed world the tick reads
and writes in range only and raises no fault. -/

/-- The four directions, in the order of the source: up, down, left, right. -/
def directions : List (Int × Int) := [(0, -1), (0, 1), (-1, 0), (1, 0)]

/-- A collected move (`type PotentialMove`); phase 1 only collects in-range cells. -/
structure PotentialMove where
  fromX : Nat
  fromY : Nat
  toX : Nat
  toY : Nat
deriving DecidableEq

/-- The random outcome of one conflict-phase tick. -/
structure WarDraws where
  /-- The moves collected by phase 1, in collection order. -/
  moves : List PotentialMove
  /-- The targets `(tx, ty)` in the order in which `range targetMovers` visits them. -/
  keyOrder : List (Nat × Nat)
  /-- The value of `rand.Intn(len(movers))` drawn for target `(tx, ty)`. -/
  pick : Nat → Nat → Nat
  /-- The value of `rand.Float64()` drawn for the attack of the entity in cell
  `(x, y)` in the direction of index `d`. -/
  hitRoll : Nat → Nat → Nat → ℚ
  /-- The value of `rand.Float64()` drawn for the conversion of cell `(x, y)`. -/
  convRoll : Nat → Nat → ℚ

/-- The loop nest `for y := 0; y < rows; y++ { for x := 0; x < cols; x++ { body } }`
as a state transformer. -/
def loopCells {σ : Type} (rows cols : Nat) (body : Nat → Nat → σ → σ) (s : σ) : σ :=
  (List.range rows).foldl (fun s y => (List.range cols).foldl (fun s x => body x y s) s) s

/-- The loop nest over the whole grid. -/
def forCells {σ : Type} (body : Nat → Nat → σ → σ) (s : σ) : σ :=
  loopCells GridSize GridSize body s

/-- The entity layer together with the reproduction timestamps: the two grids that
move resolution, combat and attrition write. -/
structure Layers where
  ents : List (List (Option Entity))
  reprod : List (List Int)

/-- The entries of `targetMovers[key]`: the collected moves with that target, in
collection order. -/
def moversTo (moves : List PotentialMove) (key : Nat × Nat) : List PotentialMove :=
  moves.filter (fun pm => pm.toX = key.1 ∧ pm.toY = key.2)

/-- Application of the winning move of one target (body of the loop of phase 2).
The moved pointer is read from the entity layer of the start of the tick. -/
def applyWinner (w : World) (d : WarDraws) (st : Layers) (key : Nat × Nat) : Layers :=
  let movers := moversTo d.moves key
  match movers.get? (d.pick key.1 key.2 % movers.length) with
  | none => st
  | some winner =>
    { ents := setCell (setCell st.ents winner.toX winner.toY
                (getCell w.Entities winner.fromX winner.fromY none))
              winner.fromX winner.fromY none
      reprod := setCell (setCell st.reprod winner.toX winner.toY
                  (getCell st.reprod winner.fromX winner.fromY 0))
                winner.fromX winner.fromY 0 }

/-- Phase 2 of the tick: `newEntities` starts as a copy of the entity layer and the
winner of every target is moved. -/
def resolveMoves (w : World) (d : WarDraws) : Layers :=
  d.keyOrder.foldl (applyWinner w d) { ents := w.Entities, reprod := w.lastReprodTime }

/-- One attack: the entity `ent` of cell `(x, y)` hits its neighbour in direction
`dir` (of index `k`) unless the neighbour evades. -/
def attackStep (w : World) (d : WarDraws) (g : List (List (Option Entity)))
    (x y : Nat) (ent : Entity) (acc : List (List Int)) (kdir : Nat × (Int × Int)) :
    List (List Int) :=
  let nx : Int := (x : Int) + kdir.2.1
  let ny : Int := (y : Int) + kdir.2.2
  if nx ≥ 0 ∧ nx < GridSize ∧ ny ≥ 0 ∧ ny < GridSize then
    match getCell g nx.toNat ny.toNat none with
    | some neighbor =>
      if neighbor.Tribe ≠ ent.Tribe then
        if d.hitRoll x y kdir.1 ≥ neighbor.Evasion then
          setCell acc nx.toNat ny.toNat (getCell acc nx.toNat ny.toNat 0 + TotalDamage ent w)
        else acc
      else acc
    | none => acc
  else acc

/-- Body of the fighting loop (phase 2.5) for cell `(x, y)`. -/
def fightBody (w : World) (d : WarDraws) (g : List (List (Option Entity)))
    (x y : Nat) (acc : List (List Int)) : List (List Int) :=
  match getCell g x y none with
  | some ent => directions.enum.foldl (attackStep w d g x y ent) acc
  | none => acc

/-- Phase 2.5: the damage accumulated on every cell, computed on the grid left by
move resolution. -/
def damageAccum (w : World) (d : WarDraws) (g : List (List (Option Entity))) :
    List (List Int) :=
  forCells (fightBody w d g) (List.replicate GridSize (List.replicate GridSize 0))

/-- The damage applied to an entity: incoming minus armor, raised to 1 when lower. -/
def effectiveDmg (incoming defense : Int) : Int :=
  if incoming - defense < 1 then 1 else incoming - defense

/-- Body of the loop that applies damage and removes the dead, for cell `(x, y)`. -/
def damageBody (w : World) (acc : List (List Int)) (x y : Nat) (st : Layers) : Layers :=
  match getCell st.ents x y none with
  | some ent =>
    let incoming := getCell acc x y 0
    let defense := TotalArmor ent w
    let health := ent.Health - effectiveDmg incoming defense
    if health ≤ 0 then
      { ents := setCell st.ents x y none, reprod := setCell st.reprod x y 0 }
    else
      { st with ents := setCell st.ents x y (some { ent with Health := health }) }
  | none => st

/-- Body of the terrain-conversion loop (phase 3) for cell `(x, y)`. -/
def conversionBody (w : World) (d : WarDraws) (g : List (List (Option Entity)))
    (x y : Nat) (terrain : List Nat) : List Nat :=
  match getCell g x y none with
  | some ent =>
    if IsEnemyTerrain (terrain.getD (y * GridSize + x) 0) w ent.Tribe = true ∧
        d.convRoll x y < w.conversionRate then
      match lookupTribe w.Tribes ent.Tribe with
      | some cfg => terrain.set (y * GridSize + x) cfg.HomeTerrain
      | none => terrain
    else terrain
  | none => terrain

/-- Body of the attrition and regeneration loop for cell `(x, y)`. -/
def attritionBody (terrain : List Nat) (x y : Nat) (st : Layers) : Layers :=
  match getCell st.ents x y none with
  | some ent =>
    let t := terrain.getD (y * GridSize + x) 0
    if t = TerrainHills ∨ t = TerrainRocks ∨ t = TerrainTrees then
      if ent.Health - 3 ≤ 0 then
        { ents := setCell st.ents x y none, reprod := setCell st.reprod x y 0 }
      else
        { st with ents := setCell st.ents x y (some { ent with Health := ent.Health - 3 }) }
    else
      if ent.Health < 100 then
        if ent.Health + 3 > 100 then
          { st with ents := setCell st.ents x y (some { ent with Health := 100 }) }
        else
          { st with ents := setCell st.ents x y (some { ent with Health := ent.Health + 3 }) }
      else st
  | none => st

/-- The two grids after the damage of the tick has been applied. -/
def afterCombat (w : World) (d : WarDraws) : Layers :=
  forCells (damageBody w (damageAccum w d (resolveMoves w d).ents)) (resolveMoves w d)

/-- The terrain layer after the conversion loop. -/
def afterConversion (w : World) (d : WarDraws) : List Nat :=
  forCells (conversionBody w d (afterCombat w d).ents) w.Terrain

/-- The two grids after attrition and regeneration: the `newEntities` that the
tick installs. -/
def afterAttrition (w : World) (d : WarDraws) : Layers :=
  forCells (attritionBody (afterConversion w d)) (afterCombat w d)

/-- Body of the census loop: the factions met so far, each once (the keys of
`aliveCounts`, every one of which has a positive count). -/
def censusBody (g : List (List (Option Entity))) (x y : Nat) (seen : List Nat) : List Nat :=
  match getCell g x y none with
  | some ent => if ent.Tribe ∈ seen then seen else seen ++ [ent.Tribe]
  | none => seen

/-- The factions that have a live entity on the grid. -/
def aliveTribes (g : List (List (Option Entity))) : List Nat :=
  forCells (censusBody g) []

/-- The conquest sweep: every cell carrying enemy home terrain of the winner gets
the home terrain of the winner. -/
def conquer (w : World) (winnerTribe : Nat) (winnerHome : Nat) (terrain : List Nat) :
    List Nat :=
  (List.range terrain.length).foldl
    (fun t i =>
      if IsEnemyTerrain (t.getD i 0) w winnerTribe = true then t.set i winnerHome else t)
    terrain

/-- The end of the tick: `newEntities` is installed, the live factions are counted
and, when at most one is left, the game is closed (with the conquest sweep when
the winner is registered).  `terrain` is the terrain layer after conversion and
`final` the grids after attrition. -/
def victoryStep (w : World) (terrain : List Nat) (final : Layers) : World :=
  match aliveTribes final.ents with
  | [] =>
    { w with
      Entities := final.ents, lastReprodTime := final.reprod, Terrain := terrain
      winner := "draw", gameOver := true }
  | [winnerTribe] =>
    match lookupTribe w.Tribes winnerTribe with
    | some winnerCfg =>
      { w with
        Entities := final.ents, lastReprodTime := final.reprod
        winner := toString winnerTribe, gameOver := true
        Terrain := conquer w winnerTribe winnerCfg.HomeTerrain terrain }
    | none =>
      { w with
        Entities := final.ents, lastReprodTime := final.reprod, Terrain := terrain
        winner := toString winnerTribe, gameOver := true }
  | _ => { w with Entities := final.ents, lastReprodTime := final.reprod, Terrain := terrain }

/-- The conflict-phase branch of `World.Update`: the tick run when `warStarted` is
set. -/
def UpdateConflict (w : World) (d : WarDraws) : World :=
  if w.gameOver then w
  else victoryStep w (afterConversion w d) (afterAttrition w d)

/-- Shape invariant of the two grids a tick works on. -/
def LayersWF (st : Layers) : Prop :=
  GridWF st.ents ∧ GridWF st.reprod

instance (st : Layers) : Decidable (LayersWF st) := by
  unfold LayersWF; infer_instance

/-- The occupant and the reproduction timestamp of one cell. -/
def cellOf (st : Layers) (x y : Nat) : Option Entity × Int :=
  (getCell st.ents x y none, getCell st.reprod x y 0)

/-- Effect of the damage loop on the occupant and timestamp of a cell whose
accumulated damage is `incoming`. -/
def damageCell (w : World) (incoming : Int) (c : Option Entity × Int) : Option Entity × Int :=
  match c.1 with
  | some ent =>
    if ent.Health - effectiveDmg incoming (TotalArmor ent w) ≤ 0 then (none, 0)
    else (some { ent with Health := ent.Health - effectiveDmg incoming (TotalArmor ent w) }, c.2)
  | none => c

/-- Effect of the attrition and regeneration loop on the occupant and timestamp of
a cell whose terrain code is `t`. -/
def attritionCell (t : Nat) (c : Option Entity × Int) : Option Entity × Int :=
  match c.1 with
  | some ent =>
    if t = TerrainHills ∨ t = TerrainRocks ∨ t = TerrainTrees then
      if ent.Health - 3 ≤ 0 then (none, 0)
      else (some { ent with Health := ent.Health - 3 }, c.2)
    else
      if ent.Health < 100 then
        if ent.Health + 3 > 100 then (some { ent with Health := 100 }, c.2)
        else (some { ent with Health := ent.Health + 3 }, c.2)
      else c
  | none => c


/-! ## Reset (`world.go`) -/

/-- The three grids that `Reset` clears. -/
structure TimedLayers where
  ents : List (List (Option Entity))
  reprod : List (List Int)
  cleared : List (List Int)

/-- Body of the loop of `Reset` for cell `(x, y)`. -/
def resetBody (x y : Nat) (st : TimedLayers) : TimedLayers :=
  { ents := setCell st.ents x y none
    reprod := setCell st.reprod x y 0
    cleared := setCell st.cleared x y 0 }

/-- The assignments of `Reset` once its loop has produced the grids `st`: fresh
maps for the ledgers and the identifier counters, and the three state fields. -/
def resetWith (w : World) (st : TimedLayers) : World :=
  { w with
    Entities := st.ents
    lastReprodTime := st.reprod
    lastClearedTime := st.cleared
    resources := fun _ => none
    nextEntityID := fun _ => none
    warStarted := false
    gameOver := false
    winner := "" }

/-- Embedding of `World.Reset`. -/
def Reset (w : World) : World :=
  resetWith w
    (forCells resetBody
      { ents := w.Entities, reprod := w.lastReprodTime, cleared := w.lastClearedTime })


/-! ## The peaceful tick (`World.PreWarUpdate`, `HandleMiningAndRegrowth`)

The random draws and the two clock readings of one peaceful tick are an input
(`PeaceDraws`).  Every `rand` call is made at most once per cell, so its value is
indexed by that cell.  The scores compared in phase 1 are the constants of
`MoveScoreBonus`, and the density of phase 3 is a quotient by `10000`; both are
computed exactly.  The amounts of a ledger are `int64` in the source and grow by
one per mined cell; they are integers here.  As for the conflict-phase tick, the
`recover` is not modelled: a well-formed world raises no fault. -/

/-- The random outcome and the clock readings of one peaceful tick. -/
structure PeaceDraws where
  /-- The value of `rand.Float64()` compared with `MoveChance` for cell `(x, y)`. -/
  moveRoll : Nat → Nat → ℚ
  /-- The value of `rand.Float64()` compared with `0.20` (mining impulse). -/
  mineRoll : Nat → Nat → ℚ
  /-- The value of `rand.Intn(len(resourceDirs))` for cell `(x, y)`. -/
  minePick : Nat → Nat → Nat
  /-- The value of `rand.Intn(len(bestDirs))` for cell `(x, y)`. -/
  dirPick : Nat → Nat → Nat
  /-- The targets `(tx, ty)` in the order in which `range targetMovers` visits them. -/
  keyOrder : List (Nat × Nat)
  /-- The value of `rand.Intn(len(movers))` drawn for target `(tx, ty)`. -/
  pick : Nat → Nat → Nat
  /-- The reading `currentTime := time.Now()` of phase 3. -/
  reprodNow : Int
  /-- The value of `rand.Float64()` compared with `ReproductionRate`. -/
  reprodRoll : Nat → Nat → ℚ
  /-- The contents of `directions` after the `rand.Shuffle` made for cell `(x, y)`. -/
  shuffled : Nat → Nat → List (Int × Int)
  /-- The value of `rand.Float64()` compared with `0.02` (crafting). -/
  craftRoll : Nat → Nat → ℚ
  /-- The reading `currentTime := time.Now()` of `HandleMiningAndRegrowth`. -/
  mineNow : Int

/-- The move from `(x, y)` in the direction of index `k`. -/
def moveTo (x y : Nat) (k : Nat) : PotentialMove :=
  let dir := directions.getD k (0, 0)
  { fromX := x, fromY := y, toX := ((x : Int) + dir.1).toNat, toY := ((y : Int) + dir.2).toNat }

/-- The mining impulse: the indices of the directions that lead from `(x, y)` to an
in-range, unoccupied forest or rock cell (`resourceDirs`). -/
def resourceDirs (w : World) (x y : Nat) : List Nat :=
  (directions.enum.filter (fun kd =>
    let nx : Int := (x : Int) + kd.2.1
    let ny : Int := (y : Int) + kd.2.2
    decide (nx ≥ 0 ∧ nx < GridSize ∧ ny ≥ 0 ∧ ny < GridSize) &&
      (decide (getCell w.Entities nx.toNat ny.toNat none = none) &&
        (decide (w.Terrain.getD (ny.toNat * GridSize + nx.toNat) 0 = TerrainTrees) ||
          decide (w.Terrain.getD (ny.toNat * GridSize + nx.toNat) 0 = TerrainRocks))))).map
    Prod.fst

/-- One round of the scoring loop: `st` is `(bestScore, bestDirs)`. -/
def scoreStep (w : World) (x y : Nat) (myTribe : Nat) (st : ℚ × List Nat)
    (kd : Nat × (Int × Int)) : ℚ × List Nat :=
  let nx : Int := (x : Int) + kd.2.1
  let ny : Int := (y : Int) + kd.2.2
  if nx ≥ 0 ∧ nx < GridSize ∧ ny ≥ 0 ∧ ny < GridSize then
    let targetTerrain := w.Terrain.getD (ny.toNat * GridSize + nx.toNat) 0
    if getCell w.Entities nx.toNat ny.toNat none = none ∧ IsPassable targetTerrain = true then
      let score := MoveScoreBonus targetTerrain w myTribe
      if score > st.1 then (score, [kd.1])
      else if score = st.1 then (st.1, st.2 ++ [kd.1])
      else st
    else st
  else st

/-- Body of the loop of phase 1 for cell `(x, y)`. -/
def collectBody (w : World) (d : PeaceDraws) (x y : Nat) (moves : List PotentialMove) :
    List PotentialMove :=
  match getCell w.Entities x y none with
  | none => moves
  | some ent =>
    if d.moveRoll x y < w.EntityStats.MoveChance then
      let rd := resourceDirs w x y
      if rd.length > 0 ∧ d.mineRoll x y < 20 / 100 then
        moves ++ [moveTo x y (rd.getD (d.minePick x y % rd.length) 0)]
      else
        let best := directions.enum.foldl (scoreStep w x y ent.Tribe) (-1, [])
        if best.1 > 0 ∧ best.2.length > 0 then
          moves ++ [moveTo x y (best.2.getD (d.dirPick x y % best.2.length) 0)]
        else moves
    else moves

/-- Phase 1 of the peaceful tick: the collected moves. -/
def collectMoves (w : World) (d : PeaceDraws) : List PotentialMove :=
  forCells (collectBody w d) []

/-- The draws that phase 2 uses, with the moves that phase 1 collected. -/
def moveDraws (w : World) (d : PeaceDraws) : WarDraws :=
  { moves := collectMoves w d, keyOrder := d.keyOrder, pick := d.pick,
    hitRoll := fun _ _ _ => 0, convRoll := fun _ _ => 0 }

/-- Phase 2 of the peaceful tick; the loop is the one of the conflict-phase tick. -/
def peaceMoved (w : World) (d : PeaceDraws) : Layers :=
  resolveMoves w (moveDraws w d)


/-- A recorded birth (`type Spawn`). -/
structure Spawn where
  nx : Nat
  ny : Nat
  tribe : Nat
deriving DecidableEq

/-- Body of the counting loop of phase 3: `tribeCounts[ent.Tribe]++`. -/
def countBody (g : List (List (Option Entity))) (x y : Nat) (c : Nat → Int) : Nat → Int :=
  match getCell g x y none with
  | some ent => fun t => if t = ent.Tribe then c t + 1 else c t
  | none => c

/-- The map `tribeCounts` after the counting loop. -/
def tribeCounts (g : List (List (Option Entity))) : Nat → Int :=
  forCells (countBody g) (fun _ => 0)

/-- The state of the reproduction loop: the two maps, the recorded births and the
reproduction timestamps. -/
structure ReprodState where
  counts : Nat → Int
  skip : Nat → Bool
  spawns : List Spawn
  reprod : List (List Int)

/-- The map `skipReprod` before the reproduction loop: an entry for every faction
counted, true when its density exceeds `MaxDensityFraction`. -/
def skipStart (w : World) (counts : Nat → Int) : Nat → Bool :=
  fun t => decide (0 < counts t) &&
    decide (((counts t : Int) : ℚ) / ((GridSize * GridSize : Nat) : ℚ)
      > w.EntityStats.MaxDensityFraction)

/-- Whether a child of `tribe` can be put in the cell reached from `(x, y)` by
`dir`: the test of the loop over the shuffled directions. -/
def canSpawn (w : World) (g : List (List (Option Entity))) (x y : Nat) (tribe : Nat)
    (dir : Int × Int) : Bool :=
  let nx : Int := (x : Int) + dir.1
  let ny : Int := (y : Int) + dir.2
  decide (nx ≥ 0 ∧ nx < GridSize ∧ ny ≥ 0 ∧ ny < GridSize) &&
    (decide (getCell g nx.toNat ny.toNat none = none) &&
      CanReproduceOn (w.Terrain.getD (ny.toNat * GridSize + nx.toNat) 0) w tribe)

/-- Body of the reproduction loop for cell `(x, y)`; `g` is `newEntities` after
phase 2.  The loop over the shuffled directions stops at the first that passes. -/
def reprodBody (w : World) (d : PeaceDraws) (g : List (List (Option Entity))) (x y : Nat)
    (st : ReprodState) : ReprodState :=
  match getCell g x y none with
  | none => st
  | some ent =>
    if st.skip ent.Tribe = true then st
    else if getCell st.reprod x y 0 ≠ 0 ∧
        d.reprodNow - getCell st.reprod x y 0 < w.EntityStats.ReprodCooldown then st
    else if d.reprodRoll x y < w.EntityStats.ReproductionRate then
      match (d.shuffled x y).find? (canSpawn w g x y ent.Tribe) with
      | none => st
      | some dir =>
        let count := st.counts ent.Tribe + 1
        { counts := fun t => if t = ent.Tribe then count else st.counts t
          skip := fun t =>
            if t = ent.Tribe ∧ ((count : Int) : ℚ) / ((GridSize * GridSize : Nat) : ℚ)
                > w.EntityStats.MaxDensityFraction then true
            else st.skip t
          spawns := st.spawns ++
            [{ nx := ((x : Int) + dir.1).toNat, ny := ((y : Int) + dir.2).toNat,
               tribe := ent.Tribe }]
          reprod := setCell st.reprod x y d.reprodNow }
    else st

/-- Phase 3 of the peaceful tick. -/
def peaceReprod (w : World) (d : PeaceDraws) : ReprodState :=
  forCells (reprodBody w d (peaceMoved w d).ents)
    { counts := tribeCounts (peaceMoved w d).ents
      skip := skipStart w (tribeCounts (peaceMoved w d).ents)
      spawns := []
      reprod := (peaceMoved w d).reprod }

/-- Embedding of `Rank.UpgradeCost`. -/
def RankUpgradeCost (r : Nat) : Int :=
  if r = RankSuper then 50 else if r = RankMega then 100 else 0

/-- The weapon upgrade of the crafting step, on an entity and the ledger of its
faction. -/
def craftWeapon (p : Entity × TribeResources) : Entity × TribeResources :=
  if p.1.Weapon = WeaponNone ∧ p.2.Wood ≥ 3 then
    ({ p.1 with Weapon := WeaponWood }, { p.2 with Wood := p.2.Wood - 3 })
  else if p.1.Weapon = WeaponWood ∧ p.2.Stone ≥ 3 then
    ({ p.1 with Weapon := WeaponStone }, { p.2 with Stone := p.2.Stone - 3 })
  else p

/-- The armor upgrade of the crafting step. -/
def craftArmor (p : Entity × TribeResources) : Entity × TribeResources :=
  if p.1.Armor = ArmorNone ∧ p.2.Wood ≥ 5 then
    ({ p.1 with Armor := ArmorWood }, { p.2 with Wood := p.2.Wood - 5 })
  else if p.1.Armor = ArmorWood ∧ p.2.Stone ≥ 5 then
    ({ p.1 with Armor := ArmorStone }, { p.2 with Stone := p.2.Stone - 5 })
  else p

/-- The rank upgrade of the crafting step. -/
def craftRank (p : Entity × TribeResources) : Entity × TribeResources :=
  if p.1.Rank = RankBase ∧ p.2.Wood ≥ RankUpgradeCost RankSuper then
    ({ p.1 with Rank := RankSuper }, { p.2 with Wood := p.2.Wood - RankUpgradeCost RankSuper })
  else if p.1.Rank = RankSuper ∧ p.2.Wood ≥ RankUpgradeCost RankMega then
    ({ p.1 with Rank := RankMega }, { p.2 with Wood := p.2.Wood - RankUpgradeCost RankMega })
  else p

/-- The state of the crafting loop: `newEntities` and the ledgers. -/
structure CraftState where
  ents : List (List (Option Entity))
  resources : Nat → Option TribeResources

/-- Body of the crafting loop (phase 4) for cell `(x, y)`. -/
def craftBody (w : World) (d : PeaceDraws) (x y : Nat) (st : CraftState) : CraftState :=
  match getCell st.ents x y none with
  | none => st
  | some ent =>
    match lookupTribe w.Tribes ent.Tribe with
    | none => st
    | some cfg =>
      if w.Terrain.getD (y * GridSize + x) 0 = cfg.HomeTerrain ∧ d.craftRoll x y < 2 / 100 then
        match st.resources ent.Tribe with
        | none => st
        | some res =>
          { ents := setCell st.ents x y (some (craftRank (craftArmor (craftWeapon (ent, res)))).1)
            resources :=
              setKey st.resources ent.Tribe (craftRank (craftArmor (craftWeapon (ent, res)))).2 }
      else st

/-- Phase 4 of the peaceful tick. -/
def peaceCrafted (w : World) (d : PeaceDraws) : CraftState :=
  forCells (craftBody w d) { ents := (peaceMoved w d).ents, resources := w.resources }


/-- The state of the loop that applies the recorded births. -/
structure BirthState where
  ents : List (List (Option Entity))
  reprod : List (List Int)
  counters : Nat → Option Nat

/-- Application of one recorded birth at the clock reading `now`. -/
def spawnStep (w : World) (now : Int) (st : BirthState) (s : Spawn) : BirthState :=
  let id := ((st.counters s.tribe).getD 0 + 1) % 2 ^ 32
  let cfg := (lookupTribe w.Tribes s.tribe).getD TribeConfig.zero
  { ents := setCell st.ents s.nx s.ny (some (freshEntity s.tribe id cfg.BaseEvasion))
    reprod := setCell st.reprod s.nx s.ny now
    counters := setKey st.counters s.tribe id }

/-- The grids and the counters once every recorded birth is applied. -/
def peaceBorn (w : World) (d : PeaceDraws) : BirthState :=
  (peaceReprod w d).spawns.foldl (spawnStep w d.reprodNow)
    { ents := (peaceCrafted w d).ents, reprod := (peaceReprod w d).reprod,
      counters := w.nextEntityID }

/-- The world handed to `HandleMiningAndRegrowth`: `w.Entities = newEntities`, with
the timestamps, counters and ledgers written during the tick. -/
def installPeace (w : World) (born : BirthState) (crafted : CraftState) : World :=
  { w with
    Entities := born.ents
    lastReprodTime := born.reprod
    nextEntityID := born.counters
    resources := crafted.resources }

/-- The state of the two loops of `HandleMiningAndRegrowth`. -/
structure MineState where
  terrain : List Nat
  resources : Nat → Option TribeResources
  cleared : List (List Int)

/-- Body of the mining loop for cell `(x, y)`. -/
def mineBody (ents : List (List (Option Entity))) (tribes : List (Nat × TribeConfig))
    (now : Int) (x y : Nat) (st : MineState) : MineState :=
  match getCell ents x y none with
  | none => st
  | some ent =>
    let terrain := st.terrain.getD (y * GridSize + x) 0
    if terrain = TerrainTrees ∨ terrain = TerrainRocks then
      match lookupTribe tribes ent.Tribe with
      | none => st
      | some cfg =>
        let res := (st.resources ent.Tribe).getD { Wood := 0, Stone := 0 }
        { terrain := st.terrain.set (y * GridSize + x) cfg.HomeTerrain
          resources := setKey st.resources ent.Tribe
            (if terrain = TerrainTrees then { res with Wood := res.Wood + 1 }
             else if terrain = TerrainRocks then { res with Stone := res.Stone + 1 }
             else res)
          cleared := if terrain = TerrainTrees then setCell st.cleared x y now else st.cleared }
    else st

/-- Body of the regrowth loop for cell `(x, y)`; 20 s is `20000000000` ns. -/
def regrowBody (ents : List (List (Option Entity))) (tribes : List (Nat × TribeConfig))
    (now : Int) (x y : Nat) (st : MineState) : MineState :=
  if getCell ents x y none = none then
    if getCell st.cleared x y 0 ≠ 0 ∧ now - getCell st.cleared x y 0 ≥ 20000000000 then
      if tribes.any (fun p => decide (st.terrain.getD (y * GridSize + x) 0 = p.2.HomeTerrain)) then
        { st with
          terrain := st.terrain.set (y * GridSize + x) TerrainTrees
          cleared := setCell st.cleared x y 0 }
      else st
    else st
  else st

/-- The mining loop of `HandleMiningAndRegrowth` on the world `w`. -/
def mined (w : World) (now : Int) : MineState :=
  forCells (mineBody w.Entities w.Tribes now)
    { terrain := w.Terrain, resources := w.resources, cleared := w.lastClearedTime }

/-- The regrowth loop, run after the mining loop. -/
def regrown (w : World) (now : Int) : MineState :=
  forCells (regrowBody w.Entities w.Tribes now) (mined w now)

/-- The fields that `HandleMiningAndRegrowth` writes. -/
def withMined (w : World) (st : MineState) : World :=
  { w with Terrain := st.terrain, resources := st.resources, lastClearedTime := st.cleared }

/-- Embedding of `HandleMiningAndRegrowth`, at the clock reading `now`. -/
def HandleMiningAndRegrowth (w : World) (now : Int) : World :=
  withMined w (regrown w now)

/-- Embedding of `World.PreWarUpdate`. -/
def PreWarUpdate (w : World) (d : PeaceDraws) : World :=
  HandleMiningAndRegrowth (installPeace w (peaceBorn w d) (peaceCrafted w d)) d.mineNow

/-- Embedding of `World.Update`: the peaceful tick until the war is started, the
conflict-phase tick afterwards. -/
def Update (w : World) (wd : WarDraws) (pd : PeaceDraws) : World :=
  if w.warStarted then UpdateConflict w wd else PreWarUpdate w pd


/-! ## Construction (`world.go`, `maps.go`) -/

/-- Embedding of `New`: an empty world of full size with the reference rates. -/
def New : World :=
  { Entities := List.replicate GridSize (List.replicate GridSize none)
    Terrain := List.replicate (GridSize * GridSize) 0
    lastReprodTime := List.replicate GridSize (List.replicate GridSize 0)
    tickCount := 0
    baseTickInterval := 250000000
    EntityStats :=
      { MoveChance := 2/10, ReproductionRate := 5/1000, MaxDensityFraction := 30/1000,
        ReprodCooldown := 60000000000 }
    warStarted := false
    winner := ""
    gameOver := false
    conversionRate := 20/100
    lastClearedTime := List.replicate GridSize (List.replicate GridSize 0)
    resources := fun _ => none
    nextEntityID := fun _ => none
    Tribes := [] }

/-- The registry installed by `InitVerticalSplit`. -/
def verticalTribes : List (Nat × TribeConfig) :=
  [ (1, { HomeTerrain := TerrainRed, EntityVizCode := 3, Starters := 20, Name := "Nomads",
          DamageBonus := 2, BaseEvasion := 0, DefenseBonus := 0 }),
    (2, { HomeTerrain := TerrainBlue, EntityVizCode := 5, Starters := 20, Name := "Wanderers",
          DamageBonus := 0, BaseEvasion := 22/100, DefenseBonus := 0 }) ]

/-- The entry that `InitCustomMap` registers for terrain code `terrain` and the
template `Nomads`. -/
def customNomads (terrain : Nat) : TribeConfig :=
  { HomeTerrain := terrain, EntityVizCode := 11, Starters := 20, Name := "Nomads",
    DamageBonus := 2, BaseEvasion := 0, DefenseBonus := 0 }

/-- The entry that `InitCustomMap` registers for terrain code `terrain` and the
template `Norsca`. -/
def customNorsca (terrain : Nat) : TribeConfig :=
  { HomeTerrain := terrain, EntityVizCode := 5, Starters := 20, Name := "Norsca",
    DamageBonus := 0, BaseEvasion := 0, DefenseBonus := 2 }

/-- The entry that `InitCustomMap` registers for terrain code `terrain` and the
template `Wanderers`. -/
def customWanderers (terrain : Nat) : TribeConfig :=
  { HomeTerrain := terrain, EntityVizCode := 3, Starters := 20, Name := "Wanderers",
    DamageBonus := 0, BaseEvasion := 22/100, DefenseBonus := 0 }

/-- A world with the given registry and nothing else: what `New` followed by a map
load leaves before any terrain is painted or entity placed. -/
def withTribes (m : List (Nat × TribeConfig)) : World :=
  { New with Tribes := m }

/-- The empty vertical-split world with cell (5, 5) painted red (1). -/
def redCellWorld : World :=
  paintCell (withTribes verticalTribes) 5 5 1

/-- The world left by `InitCustomMap` on an all-zero terrain with two assignments
whose keys both parse to terrain code 0 (`"0"` and `"00"`), followed by `Reset`:
factions 1 and 2 share home terrain 0, and the grid holds no entity. -/
def sharedHomeWorld : World :=
  withTribes [(1, customNomads 0), (2, customNorsca 0)]

/-- The same world with its registry visited by `range` in the other order. -/
def sharedHomeWorldSwapped : World :=
  withTribes [(2, customNorsca 0), (1, customNomads 0)]


/-- A world whose only entity belongs to a faction that is no longer registered:
the entity of faction 1 placed on the red cell of `redCellWorld`, after
`InitMap("custommap")` has zeroed the terrain and emptied the registry (that
branch leaves the entity layer as it is). -/
def orphanWorld : World :=
  { spawnAt redCellWorld 5 5 1 with
    Terrain := List.replicate (GridSize * GridSize) 0
    Tribes := [] }


/-- The damage that the attack of entity `ent` of cell `(x, y)` in the direction
`kdir` adds to the accumulator of cell `(cx, cy)`. -/
def hitOn (w : World) (d : WarDraws) (g : List (List (Option Entity))) (cx cy x y : Nat)
    (ent : Entity) (kdir : Nat × (Int × Int)) : Int :=
  if ((x : Int) + kdir.2.1 ≥ 0 ∧ (x : Int) + kdir.2.1 < GridSize ∧
      (y : Int) + kdir.2.2 ≥ 0 ∧ (y : Int) + kdir.2.2 < GridSize) ∧
      ((x : Int) + kdir.2.1).toNat = cx ∧ ((y : Int) + kdir.2.2).toNat = cy then
    match getCell g cx cy none with
    | some neighbor =>
      if neighbor.Tribe ≠ ent.Tribe then
        if d.hitRoll x y kdir.1 ≥ neighbor.Evasion then TotalDamage ent w else 0
      else 0
    | none => 0
  else 0

/-- The damage that the occupant of cell `(x, y)`, if any, adds to the accumulator
of cell `(cx, cy)` in the fighting loop. -/
def dealtTo (w : World) (d : WarDraws) (g : List (List (Option Entity))) (cx cy x y : Nat) :
    Int :=
  match getCell g x y none with
  | some ent => (directions.enum.map (hitOn w d g cx cy x y ent)).sum
  | none => 0

/-- Effect of the conversion loop on the terrain code `t` of cell `(x, y)` whose
occupant after combat is `occ`. -/
def conversionCell (w : World) (d : WarDraws) (occ : Option Entity) (x y : Nat) (t : Nat) :
    Nat :=
  match occ with
  | some ent =>
    if IsEnemyTerrain t w ent.Tribe = true ∧ d.convRoll x y < w.conversionRate then
      match lookupTribe w.Tribes ent.Tribe with
      | some cfg => cfg.HomeTerrain
      | none => t
    else t
  | none => t

/-- Two adjacent entities of different factions, before the war: on the registry a
custom map makes for Norsca on red (1) and Wanderers on blue (2), cell (5, 5) is
painted red and cell (6, 5) blue, and a type-3 placement is made on each. -/
def duelPeace : World :=
  spawnAt (spawnAt (paintCell (paintCell
    (withTribes [(1, customNorsca 1), (2, customWanderers 2)]) 5 5 1) 6 5 2) 5 5 1) 6 5 2

/-- The world `duelPeace` after `StartWar`. -/
def duelWorld : World :=
  StartWar duelPeace

/-- Draws of a tick in which no entity moves, no attack is evaded and no
conversion roll succeeds. -/
def duelDraws : WarDraws :=
  { moves := [], keyOrder := [], pick := fun _ _ => 0,
    hitRoll := fun _ _ _ => 1/2, convRoll := fun _ _ => 1/2 }


/-- The damage that the attack in direction `kdir` adds to the accumulator of cell
`(cx, cy)`: it comes from the occupant, if any, of the cell one step against
`kdir`. -/
def hitFrom (w : World) (d : WarDraws) (g : List (List (Option Entity))) (cx cy : Nat)
    (kdir : Nat × (Int × Int)) : Int :=
  if (cx : Int) - kdir.2.1 ≥ 0 ∧ (cx : Int) - kdir.2.1 < GridSize ∧
      (cy : Int) - kdir.2.2 ≥ 0 ∧ (cy : Int) - kdir.2.2 < GridSize then
    match getCell g ((cx : Int) - kdir.2.1).toNat ((cy : Int) - kdir.2.2).toNat none with
    | some ent =>
      hitOn w d g cx cy ((cx : Int) - kdir.2.1).toNat ((cy : Int) - kdir.2.2).toNat ent kdir
    | none => 0
  else 0

/-- The total damage of the occupant of cell `(nx, ny)` when that cell is in range
and its occupant belongs to another faction than `b`; 0 otherwise. -/
def enemyDamage (w : World) (g : List (List (Option Entity))) (b : Entity) (nx ny : Int) :
    Int :=
  if nx ≥ 0 ∧ nx < GridSize ∧ ny ≥ 0 ∧ ny < GridSize then
    match getCell g nx.toNat ny.toNat none with
    | some a => if a.Tribe ≠ b.Tribe then TotalDamage a w else 0
    | none => 0
  else 0


/-- What move collection guarantees about the list it builds: every move goes from
an occupied in-range cell to an unoccupied in-range cell (the guards of phase 1),
and no cell is the origin of two moves (each cell is visited once and appends at
most one move). -/
def MovesValid (w : World) (moves : List PotentialMove) : Prop :=
  (∀ pm ∈ moves, pm.fromX < GridSize ∧ pm.fromY < GridSize ∧ pm.toX < GridSize ∧
    pm.toY < GridSize ∧ getCell w.Entities pm.fromX pm.fromY none ≠ none ∧
    getCell w.Entities pm.toX pm.toY none = none) ∧
  (moves.map (fun pm => (pm.fromX, pm.fromY))).Nodup

instance (w : World) (moves : List PotentialMove) : Decidable (MovesValid w moves) := by
  unfold MovesValid; infer_instance


/-- Faction `t` has a live entity in an in-range cell of the grid. -/
def livesIn (g : List (List (Option Entity))) (t : Nat) : Prop :=
  ∃ x y, x < GridSize ∧ y < GridSize ∧ ∃ e, getCell g x y none = some e ∧ e.Tribe = t


/-- The world after a map load that replaces the terrain layer and the registry and
places no starter (none can be placed when no cell carries a home terrain); the
loaders leave the entities that are already on the grid where they are. -/
def loadRegistry (w : World) (terrain : List Nat) (tribes : List (Nat × TribeConfig)) : World :=
  { w with Terrain := terrain, Tribes := tribes }

/-- A Wanderer of faction 2 stranded under a registry that does not know faction 2:
on the vertical-split registry, cell (5, 5) is painted blue and a type-3 placement
is made on it; then a custom map with an all-zero terrain and the single assignment
of Nomads to red (1) is loaded; then cell (0, 0) is painted red. -/
def strandedPeace : World :=
  paintCell
    (loadRegistry (spawnAt (paintCell (withTribes verticalTribes) 5 5 2) 5 5 2)
      (List.replicate (GridSize * GridSize) 0) [(1, customNomads 1)])
    0 0 1

/-- The world `strandedPeace` after `StartWar`. -/
def strandedWorld : World :=
  StartWar strandedPeace


/-- Draws of a tick of the duel in which the Norscan of cell (5, 5) is the only
entity to collect a move, one cell up, to the free cell (5, 4). -/
def stepDraws : WarDraws :=
  { moves := [{ fromX := 5, fromY := 5, toX := 5, toY := 4 }], keyOrder := [(5, 4)],
    pick := fun _ _ => 0, hitRoll := fun _ _ _ => 1/2, convRoll := fun _ _ => 1/2 }


/-! ## Map loading (`maps.go`)

The starters of a map are placed by random attempts; the cells drawn are an input,
indexed by the faction and the number of the starter.  `rand.Intn(GridSize)` is
the drawn value modulo `GridSize`. -/

/-- The writes of a successful placement attempt of a starter. -/
def placeStarter (w : World) (x y : Nat) (tribe : Nat) (cfg : TribeConfig) : World :=
  { w with
    nextEntityID := setKey w.nextEntityID tribe ((counterOf w tribe + 1) % 2 ^ 32)
    Entities := setCell w.Entities x y
      (some (freshEntity tribe ((counterOf w tribe + 1) % 2 ^ 32) cfg.BaseEvasion)) }

/-- The test of a placement attempt: the cell drawn is unoccupied and carries the
home terrain of the faction. -/
def starterFits (w : World) (cfg : TribeConfig) (c : Nat × Nat) : Bool :=
  decide (getCell w.Entities (c.1 % GridSize) (c.2 % GridSize) none = none) &&
    decide (w.Terrain.getD ((c.2 % GridSize) * GridSize + c.1 % GridSize) 0 = cfg.HomeTerrain)

/-- The attempts for one starter: at most 1000 cells are drawn and the starter is
placed on the first that fits. -/
def tryStarter (w : World) (tribe : Nat) (cfg : TribeConfig) (cells : List (Nat × Nat)) :
    World :=
  match (cells.take 1000).find? (starterFits w cfg) with
  | some c => placeStarter w (c.1 % GridSize) (c.2 % GridSize) tribe cfg
  | none => w

/-- The starters of one faction. -/
def tribeStarters (attempts : Nat → Nat → List (Nat × Nat)) (w : World)
    (p : Nat × TribeConfig) : World :=
  (List.range p.2.Starters.toNat).foldl (fun acc i => tryStarter acc p.1 p.2 (attempts p.1 i)) w

/-- The loop `for tribe, cfg := range w.Tribes` that places the starters. -/
def placeStarters (w : World) (attempts : Nat → Nat → List (Nat × Nat)) : World :=
  w.Tribes.foldl (tribeStarters attempts) w

/-- Map write `m[k] = c` on the registry. -/
def setTribe (m : List (Nat × TribeConfig)) (k : Nat) (c : TribeConfig) :
    List (Nat × TribeConfig) :=
  match m with
  | [] => [(k, c)]
  | (k', c') :: rest => if k' = k then (k, c) :: rest else (k', c') :: setTribe rest k c

/-- Value of a non-empty string of decimal digits. -/
def digitsValue (cs : List Char) : Option Nat :=
  if cs = [] then none
  else cs.foldl
    (fun acc c =>
      match acc with
      | none => none
      | some n => if c.isDigit then some (10 * n + (c.toNat - 48)) else none)
    (some 0)

/-- Embedding of `strconv.Atoi`: an optional sign followed by decimal digits, with
a value that fits in 64 bits; anything else is an error. -/
def Atoi (s : String) : Option Int :=
  let parsed : Option Int :=
    match s.toList with
    | '-' :: rest => (digitsValue rest).map (fun n => -(n : Int))
    | '+' :: rest => (digitsValue rest).map (fun n => (n : Int))
    | cs => (digitsValue cs).map (fun n => (n : Int))
  match parsed with
  | some v => if -(2 ^ 63) ≤ v ∧ v < 2 ^ 63 then some v else none
  | none => none

/-- A stat template of `InitCustomMap` (`type TribeTemplate`). -/
structure TribeTemplate where
  DamageBonus : Int
  BaseEvasion : ℚ
  DefenseBonus : Int
  EntityVizCode : Nat
deriving DecidableEq

/-- The fixed template table of `InitCustomMap`. -/
def tribeTemplates (name : String) : Option TribeTemplate :=
  if name = "Wanderers" then
    some { DamageBonus := 0, BaseEvasion := 22/100, DefenseBonus := 0, EntityVizCode := 3 }
  else if name = "Norsca" then
    some { DamageBonus := 0, BaseEvasion := 0, DefenseBonus := 2, EntityVizCode := 5 }
  else if name = "Nomads" then
    some { DamageBonus := 2, BaseEvasion := 0, DefenseBonus := 0, EntityVizCode := 11 }
  else if name = "Sylvania" then
    some { DamageBonus := 1, BaseEvasion := 12/100, DefenseBonus := 0, EntityVizCode := 12 }
  else none

/-- The registry under construction and the next faction id (a `uint8`). -/
structure RegistryState where
  tribes : List (Nat × TribeConfig)
  tribeID : Nat

/-- Body of the loop of `InitCustomMap` over the assignments `terrainStr ↦
tribeName`; `TerrainType(terrainType)` keeps the low 8 bits. -/
def assignStep (st : RegistryState) (a : String × String) : RegistryState :=
  if a.2 = "none" then st
  else
    match Atoi a.1 with
    | none => st
    | some terrainType =>
      match tribeTemplates a.2 with
      | none => st
      | some template =>
        { tribes := setTribe st.tribes st.tribeID
            { HomeTerrain := (terrainType % 256).toNat
              EntityVizCode := template.EntityVizCode
              Starters := 20
              Name := a.2
              DamageBonus := template.DamageBonus
              BaseEvasion := template.BaseEvasion
              DefenseBonus := template.DefenseBonus }
          tribeID := (st.tribeID + 1) % 256 }

/-- The registry that `InitCustomMap` builds from the assignments, visited in the
order of the list. -/
def customRegistry (assignments : List (String × String)) : List (Nat × TribeConfig) :=
  (assignments.foldl assignStep { tribes := [], tribeID := 1 }).tribes

/-- The builtin `copy(dst, src)`: the first `min (len dst) (len src)` elements of
`dst` are replaced. -/
def copySlice (dst src : List Nat) : List Nat :=
  src.take dst.length ++ dst.drop src.length

/-- Embedding of `World.InitCustomMap`: the new world and the boolean returned. -/
def InitCustomMap (w : World) (terrain : List Nat) (assignments : List (String × String))
    (attempts : Nat → Nat → List (Nat × Nat)) : World × Bool :=
  if terrain.length ≠ GridSize * GridSize then (w, false)
  else if (customRegistry assignments).length = 0 then
    (loadRegistry w (copySlice w.Terrain terrain) (customRegistry assignments), false)
  else
    (placeStarters (loadRegistry w (copySlice w.Terrain terrain) (customRegistry assignments))
      attempts, true)


/-- An assignment that `InitCustomMap` registers: its key is a decimal integer and
its template name is in the table (so it is not `"none"`). -/
def assignable (a : String × String) : Bool :=
  (Atoi a.1).isSome && (tribeTemplates a.2).isSome


/-! ## The simulation ticker (`broadcaster.go`)

`resetUpdateTicker` computes the tick period from the speed multiplier.  The speed
is a `float64` (a positive one: `set_speed` is ignored unless the multiplier is
greater than 0) and the quotient `float64(b.baseIntervalMs) / b.currentSpeed` is a
`float64` division: its result is the exact quotient rounded to the nearest
binary64 number, ties to the even mantissa, and `+Inf` when that number is beyond
the largest one.  A finite `float64` is the rational it denotes; `+Inf` is `none`.
A `time.Duration` is an `int64` number of nanoseconds; the conversion
`time.Duration(f)` truncates toward zero, and the product by `time.Millisecond` is
an `int64` product that wraps modulo `2 ^ 64`. -/

/-- The constant `time.Millisecond`, in nanoseconds. -/
def Millisecond : Int := 1000000

/-- The constant `time.Second`, in nanoseconds. -/
def Second : Int := 1000000000

/-- The value of an `int64` computation whose exact result is `v`. -/
def wrap64 (v : Int) : Int := (v + 2 ^ 63) % 2 ^ 64 - 2 ^ 63

/-- The integer nearest to `q`, the even one of the two when `q` is half-way. -/
def roundHalfEven (q : ℚ) : Int :=
  if q - ⌊q⌋ < 1 / 2 then ⌊q⌋
  else if q - ⌊q⌋ > 1 / 2 then ⌊q⌋ + 1
  else if ⌊q⌋ % 2 = 0 then ⌊q⌋ else ⌊q⌋ + 1

/-- The exponent of the spacing of the binary64 numbers around `q > 0`: with
`2 ^ e ≤ q < 2 ^ (e + 1)` the mantissa has 53 bits and the spacing is
`2 ^ (e - 52)`; below `2 ^ (-1022)` (subnormal numbers) it is `2 ^ (-1074)`. -/
def ulpExp (q : ℚ) : Int := max (Int.log 2 q) (-1022) - 52

/-- The first power of 2 beyond the finite `float64` numbers. -/
def float64Bound : ℚ := 2 ^ (1024 : Int)

/-- The `float64` result of an operation whose exact result is `q > 0`: the
multiple of the spacing nearest to `q`, ties to the even mantissa; `none` (`+Inf`)
when that number is `2 ^ 1024` or more. -/
def roundFloat64 (q : ℚ) : Option ℚ :=
  if (roundHalfEven (q / 2 ^ ulpExp q) : ℚ) * 2 ^ ulpExp q < float64Bound then
    some ((roundHalfEven (q / 2 ^ ulpExp q) : ℚ) * 2 ^ ulpExp q)
  else none

/-- The rational `q > 0` is a finite `float64`: rounding leaves it as it is. -/
def IsFloat64 (q : ℚ) : Prop := roundFloat64 q = some q

instance (q : ℚ) : Decidable (IsFloat64 q) := by
  unfold IsFloat64; infer_instance

/-- The conversion `time.Duration(f)` of a `float64` to `int64`: the fraction is
discarded (truncation toward zero).  When the truncated value does not fit in 64
bits, or `f` is `+Inf`, the Go specification leaves the result to the
implementation: the conversion instruction of amd64 gives `-2 ^ 63`
(`saturating = false`), the one of arm64 the nearest `int64`
(`saturating = true`). -/
def truncToInt64 (saturating : Bool) (f : Option ℚ) : Int :=
  match f with
  | some q =>
    if -(2 ^ 63 : Int) ≤ (if 0 ≤ q then ⌊q⌋ else ⌈q⌉) ∧ (if 0 ≤ q then ⌊q⌋ else ⌈q⌉) < 2 ^ 63 then
      (if 0 ≤ q then ⌊q⌋ else ⌈q⌉)
    else if saturating = true ∧ 0 ≤ q then 2 ^ 63 - 1
    else -(2 ^ 63)
  | none => if saturating = true then 2 ^ 63 - 1 else -(2 ^ 63)

/-- The clamp of `resetUpdateTicker`: at least 10 ms, at most 10 s. -/
def clampInterval (interval : Int) : Int :=
  if interval < 10 * Millisecond then 10 * Millisecond
  else if interval > 10 * Second then 10 * Second
  else interval

/-- The field `baseIntervalMs`, set to 250 by `NewBroadcaster` and never written
again; `float64(250)` is exact. -/
def baseIntervalMs : Int := 250

/-- The period that `resetUpdateTicker` gives to the update ticker for the speed
`currentSpeed`. -/
def tickInterval (saturating : Bool) (currentSpeed : ℚ) : Int :=
  clampInterval (wrap64
    (truncToInt64 saturating (roundFloat64 ((baseIntervalMs : ℚ) / currentSpeed)) * Millisecond))

/-- The `float64` that the multiplier `2.5e-11` denotes. -/
def speedTiny : ℚ := 7737125245533627 / 309485009821345068724781056

/-- The `float64` that the multiplier `0.01` denotes. -/
def speedHundredth : ℚ := 5764607523034235 / 576460752303423488

/-- The `float64` that the multiplier `0.1` denotes. -/
def speedTenth : ℚ := 3602879701896397 / 36028797018963968


/-! ## Divider conversion (`ConvertBordersToTerrain`)

The count of neighbouring codes is a Go map whose keys are among 1, 2, 9 and 10;
it is a function here, an absent key counting 0.  The order in which `range`
visits its keys is an input, given for every cell as a list of codes. -/

/-- The four directions in the order of `ConvertBordersToTerrain`: left, right, up,
down. -/
def borderDirections : List (Int × Int) := [(-1, 0), (1, 0), (0, -1), (0, 1)]

/-- One round of the loop over the neighbours of `(x, y)`:
`adjacentTerrains[neighborTerrain]++` for an in-range neighbour carrying 1, 2, 9
or 10. -/
def countStep (terrain : List Nat) (x y : Nat) (acc : Nat → Int) (dir : Int × Int) :
    Nat → Int :=
  let nx : Int := (x : Int) + dir.1
  let ny : Int := (y : Int) + dir.2
  if nx ≥ 0 ∧ nx < GridSize ∧ ny ≥ 0 ∧ ny < GridSize then
    let neighborTerrain := terrain.getD (ny.toNat * GridSize + nx.toNat) 0
    if neighborTerrain = 1 ∨ neighborTerrain = 2 ∨ neighborTerrain = 9 ∨ neighborTerrain = 10 then
      fun c => if c = neighborTerrain then acc c + 1 else acc c
    else acc
  else acc

/-- The map `adjacentTerrains` of cell `(x, y)`. -/
def adjacentTerrains (terrain : List Nat) (x y : Nat) : Nat → Int :=
  borderDirections.foldl (countStep terrain x y) (fun _ => 0)

/-- One round of the loop that picks the most common code: `st` is
`(maxCount, chosenTerrain)`. -/
def chooseStep (counts : Nat → Int) (st : Int × Nat) (terrain : Nat) : Int × Nat :=
  if counts terrain > st.1 then (counts terrain, terrain) else st

/-- The code chosen for a cell whose count map is `counts`, the keys being visited
in the order `order`. -/
def chosenTerrain (counts : Nat → Int) (order : List Nat) : Nat :=
  ((order.filter (fun c => decide (counts c > 0))).foldl (chooseStep counts) (0, 1)).2

/-- Body of the loop of `ConvertBordersToTerrain` for cell `(x, y)`. -/
def convertBody (order : Nat → Nat → List Nat) (x y : Nat) (terrain : List Nat) : List Nat :=
  if terrain.getD (y * GridSize + x) 0 ≠ TerrainBorder then terrain
  else if adjacentTerrains terrain x y 1 > 0 ∨ adjacentTerrains terrain x y 2 > 0 ∨
      adjacentTerrains terrain x y 9 > 0 ∨ adjacentTerrains terrain x y 10 > 0 then
    terrain.set (y * GridSize + x) (chosenTerrain (adjacentTerrains terrain x y) (order x y))
  else terrain

/-- The terrain layer after the loop of `ConvertBordersToTerrain`. -/
def convertedTerrain (order : Nat → Nat → List Nat) (terrain : List Nat) : List Nat :=
  forCells (convertBody order) terrain

/-- A world with another terrain layer. -/
def withTerrain (w : World) (terrain : List Nat) : World :=
  { w with Terrain := terrain }

/-- Embedding of `World.ConvertBordersToTerrain`. -/
def ConvertBordersToTerrain (w : World) (order : Nat → Nat → List Nat) : World :=
  withTerrain w (convertedTerrain order w.Terrain)

/-- The order given for every cell visits each of the four codes once. -/
def OrderOK (order : Nat → Nat → List Nat) : Prop :=
  ∀ x y, (order x y).Nodup ∧ 1 ∈ order x y ∧ 2 ∈ order x y ∧ 9 ∈ order x y ∧ 10 ∈ order x y

/-- The terrain layer as it is when cell number `i` is visited: the cells before
`i` carry their final code, the others the code they had before the call. -/
def visitTerrain (final start : List Nat) (i : Nat) : List Nat :=
  final.take i ++ start.drop i

/-- A row of three cells on the empty world: red at (3, 5), dividers at (4, 5) and
(5, 5). -/
def chainWorld : World :=
  paintCell (paintCell (paintCell New 3 5 1) 4 5 4) 5 5 4


/-- What holds of the terrain layer once `k` cells have been visited by the loop of
`ConvertBordersToTerrain`: the cells not yet visited carry their code of before the
call, and each cell visited carries what the body wrote when it was visited. -/
def ConvertedUpTo (order : Nat → Nat → List Nat) (start : List Nat) (k : Nat) (s : List Nat) :
    Prop :=
  s.length = start.length ∧ (∀ j, k ≤ j → s.getD j 0 = start.getD j 0) ∧
  (∀ j, j < k →
    s.getD j 0
      = (convertBody order (j % GridSize) (j / GridSize) (visitTerrain s start j)).getD j 0)


/-- What one neighbour adds to the count of code `c`: 1 when the neighbour in
direction `dir` is in range and carries `c`, and `c` is 1, 2, 9 or 10. -/
def neighbourTally (terrain : List Nat) (x y : Nat) (dir : Int × Int) (c : Nat) : Int :=
  if ((x : Int) + dir.1 ≥ 0 ∧ (x : Int) + dir.1 < GridSize ∧
      (y : Int) + dir.2 ≥ 0 ∧ (y : Int) + dir.2 < GridSize) ∧
      (c = 1 ∨ c = 2 ∨ c = 9 ∨ c = 10) ∧
      terrain.getD (((y : Int) + dir.2).toNat * GridSize + ((x : Int) + dir.1).toNat) 0 = c
  then 1 else 0

/-- The order `1, 2, 9, 10` for every cell. -/
def codeOrder : Nat → Nat → List Nat := fun _ _ => [1, 2, 9, 10]


/-! ## Per-connection write locks (`broadcaster.go`, `websocket.go`)

Connections and mutexes are identified by numbers (their addresses).  A handler is
a function on the state of the broadcaster that also records, in order, the lock,
unlock, write and close operations it performs.  A method call through a nil
`*sync.Mutex` (the value a map read yields for an absent key) faults; the state at
the fault is kept.  Acquiring a mutex is recorded when it succeeds. -/

/-- An operation on a mutex or a connection. -/
inductive WireEvent where
  | lock (m : Nat)
  | unlock (m : Nat)
  | write (conn : Nat)
  | close (conn : Nat)
deriving DecidableEq

/-- The part of `type Broadcaster` that the write paths use, with the state of the
mutexes and the record of the operations performed. -/
structure Broadcaster where
  clients : Nat → Bool
  WriteMu : Nat → Option Nat
  /-- The address of the next mutex allocated by `&sync.Mutex{}`. -/
  fresh : Nat
  /-- Whether a mutex is locked. -/
  locked : Nat → Bool
  events : List WireEvent

/-- The end of a handler: it returned, or it faulted on a nil mutex. -/
inductive Ran where
  | done (b : Broadcaster)
  | fault (b : Broadcaster)

/-- The call `b.WriteMu[conn].Lock()`: a map read, then `Lock` on its result. -/
def lockVia (b : Broadcaster) (conn : Nat) : Ran :=
  match b.WriteMu conn with
  | none => Ran.fault b
  | some m =>
    Ran.done { b with
      locked := fun k => if k = m then true else b.locked k
      events := b.events ++ [WireEvent.lock m] }

/-- The call `b.WriteMu[conn].Unlock()`: a map read, then `Unlock` on its result. -/
def unlockVia (b : Broadcaster) (conn : Nat) : Ran :=
  match b.WriteMu conn with
  | none => Ran.fault b
  | some m =>
    Ran.done { b with
      locked := fun k => if k = m then false else b.locked k
      events := b.events ++ [WireEvent.unlock m] }

/-- The call `conn.WriteMessage(...)`. -/
def writeTo (b : Broadcaster) (conn : Nat) : Broadcaster :=
  { b with events := b.events ++ [WireEvent.write conn] }

/-- Embedding of `Broadcaster.sendStatsTo`, from the first use of the connection
on. -/
def sendStatsTo (b : Broadcaster) (conn : Nat) : Ran :=
  match lockVia b conn with
  | Ran.fault b1 => Ran.fault b1
  | Ran.done b1 => unlockVia (writeTo b1 conn) conn

/-- The error branch of the initial send: `conn.Close()` and the two `delete`s. -/
def dropConn (b : Broadcaster) (conn : Nat) : Broadcaster :=
  { b with
    events := b.events ++ [WireEvent.close conn]
    clients := fun c => if c = conn then false else b.clients c
    WriteMu := fun c => if c = conn then none else b.WriteMu c }

/-- The writes of `case conn := <-b.register`: the client is recorded and gets a
new, unlocked mutex. -/
def enrol (b : Broadcaster) (conn : Nat) : Broadcaster :=
  { b with
    clients := fun c => if c = conn then true else b.clients c
    WriteMu := fun c => if c = conn then some b.fresh else b.WriteMu c
    locked := fun k => if k = b.fresh then false else b.locked k
    fresh := b.fresh + 1 }

/-- Embedding of `case conn := <-b.register` of `Broadcaster.Run`; `sendOk` tells
whether the initial `WriteMessage` returned no error. -/
def registerCase (b : Broadcaster) (conn : Nat) (sendOk : Bool) : Ran :=
  match lockVia (enrol b conn) conn with
  | Ran.fault b1 => Ran.fault b1
  | Ran.done b1 =>
    match unlockVia (if sendOk then writeTo b1 conn else dropConn (writeTo b1 conn) conn)
        conn with
    | Ran.fault b2 => Ran.fault b2
    | Ran.done b2 => sendStatsTo b2 conn

/-- The guarded write of the broadcast loops and of the inspect and custom-map
replies: `if mu, ok := b.WriteMu[conn]; ok { mu.Lock(); write; mu.Unlock() }`, the
mutex being unlocked on the error path as well. -/
def guardedWrite (b : Broadcaster) (conn : Nat) : Broadcaster :=
  match b.WriteMu conn with
  | none => b
  | some m =>
    { b with
      locked := fun k => if k = m then false else b.locked k
      events := b.events ++ [WireEvent.lock m, WireEvent.write conn, WireEvent.unlock m] }

/-- Whether every write of a record of operations is made on a connection whose
mutex, as given by `own`, is held at that moment; `held` lists the mutexes held at
the start. -/
def writesGuarded (own : Nat → Option Nat) (held : List Nat) : List WireEvent → Bool
  | [] => true
  | WireEvent.lock m :: rest => writesGuarded own (m :: held) rest
  | WireEvent.unlock m :: rest => writesGuarded own (held.filter (fun k => decide (k ≠ m))) rest
  | WireEvent.write conn :: rest =>
    (match own conn with
      | some m => decide (m ∈ held)
      | none => false) && writesGuarded own held rest
  | WireEvent.close _ :: rest => writesGuarded own held rest

/-- A broadcaster with no client, as `NewBroadcaster` makes it. -/
def NewBroadcaster : Broadcaster :=
  { clients := fun _ => false, WriteMu := fun _ => none, fresh := 0, locked := fun _ => false,
    events := [] }


/-! ## Populations -/

/-- What a cell adds to the population of faction `f`: 1 when it holds an entity of
`f`. -/
def tribeInd (c : Option Entity) (f : Nat) : Int :=
  match c with
  | some e => if e.Tribe = f then 1 else 0
  | none => 0

/-- Embedding of `World.CountEntitiesByTribe`; a faction without entry counts 0. -/
def CountEntitiesByTribe (w : World) : Nat → Int :=
  tribeCounts w.Entities

/-- The number of recorded births of faction `f`. -/
def spawnCount (l : List Spawn) (f : Nat) : Int :=
  (l.map (fun s => if s.tribe = f then (1 : Int) else 0)).sum


/-- What holds of the state of the reproduction loop, `c0` being the populations
after movement and `g` the grid after movement: the running count of a faction is
its population plus its recorded births; a faction that may still reproduce is
within the ceiling; the running count never exceeds the larger of the population
and `floor (MaxDensityFraction * 10000) + 1`; a faction over the ceiling from the
start is skipped and has no recorded birth; every recorded birth targets a cell
that is unoccupied after movement, for a faction that has an entity. -/
def ReprodInv (w : World) (g : List (List (Option Entity))) (c0 : Nat → Int)
    (st : ReprodState) : Prop :=
  (∀ f, st.counts f = c0 f + spawnCount st.spawns f) ∧
  (∀ f, st.skip f = false → 1 ≤ c0 f →
    ((st.counts f : Int) : ℚ) / ((GridSize * GridSize : Nat) : ℚ)
      ≤ w.EntityStats.MaxDensityFraction) ∧
  (∀ f, c0 f + spawnCount st.spawns f
    ≤ max (c0 f) (⌊w.EntityStats.MaxDensityFraction * ((GridSize * GridSize : Nat) : ℚ)⌋ + 1)) ∧
  (∀ f, ((c0 f : Int) : ℚ) / ((GridSize * GridSize : Nat) : ℚ) > w.EntityStats.MaxDensityFraction →
    spawnCount st.spawns f = 0 ∧ (1 ≤ c0 f → st.skip f = true)) ∧
  (∀ s ∈ st.spawns, getCell g s.nx s.ny none = none ∧ s.nx < GridSize ∧ s.ny < GridSize ∧
    1 ≤ c0 s.tribe)


/-! ## Invariants of the peaceful tick -/

/-- The entity `e2` is `e` up to the equipment and the rank, the fields that the
crafting step writes. -/
def upgradeOf (e e2 : Entity) : Prop :=
  e2.Tribe = e.Tribe ∧ e2.ID = e.ID ∧ e2.Health = e.Health ∧ e2.Evasion = e.Evasion

/-- The cell content `b` is the cell content `a` up to the equipment and the rank of
its occupant. -/
def Upgraded (a b : Option Entity) : Prop :=
  (a = none ∧ b = none) ∨ ∃ e e2, a = some e ∧ b = some e2 ∧ upgradeOf e e2

/-- The bound of the density ceiling: `floor (MaxDensityFraction * 100 * 100) + 1`. -/
def densityBound (w : World) : Int :=
  ⌊w.EntityStats.MaxDensityFraction * ((GridSize * GridSize : Nat) : ℚ)⌋ + 1

/-- The test of the reproduction phase: the fraction of the cells that `count`
entities occupy exceeds `MaxDensityFraction`. -/
def overCeiling (w : World) (count : Int) : Prop :=
  ((count : Int) : ℚ) / ((GridSize * GridSize : Nat) : ℚ) > w.EntityStats.MaxDensityFraction


/-- The grid `g` after the occupant of `(ox, oy)` is moved to `(tx, ty)`: what one
winning move does to `newEntities`. -/
def relocate (g : List (List (Option Entity))) (ox oy tx ty : Nat) :
    List (List (Option Entity)) :=
  setCell (setCell g tx ty (getCell g ox oy none)) ox oy none

/-- One move on a well-formed grid, between in-range cells, from an occupied cell to
a free one. -/
def RelocStep (g g2 : List (List (Option Entity))) : Prop :=
  ∃ ox oy tx ty, ox < GridSize ∧ oy < GridSize ∧ tx < GridSize ∧ ty < GridSize ∧
    GridWF g ∧ getCell g ox oy none ≠ none ∧ getCell g tx ty none = none ∧
    g2 = relocate g ox oy tx ty

/-- What the targets still to be visited by move resolution see: the origins of
their contenders hold what they held at the start of the tick, and the targets are
free. -/
def Pending (w : World) (d : WarDraws) (keys : List (Nat × Nat)) (st : Layers) : Prop :=
  ∀ key ∈ keys, ∀ m ∈ moversTo d.moves key,
    cellOf st m.fromX m.fromY
      = (getCell w.Entities m.fromX m.fromY none, getCell w.lastReprodTime m.fromX m.fromY 0) ∧
    getCell st.ents key.1 key.2 none = none

/-- Every entity of the grid belongs to a faction of the registry. -/
def AllRegistered (w : World) : Prop :=
  ∀ x y e, getCell w.Entities x y none = some e → (lookupTribe w.Tribes e.Tribe).isSome = true

/-- No faction of the registry has forest or rock as its home terrain. -/
def NoWildHome (w : World) : Prop :=
  ∀ p ∈ w.Tribes, p.2.HomeTerrain ≠ TerrainTrees ∧ p.2.HomeTerrain ≠ TerrainRocks


/-- Every entity of the grid has a health between 1 and 100. -/
def HealthyGrid (g : List (List (Option Entity))) : Prop :=
  ∀ x y e, getCell g x y none = some e → 1 ≤ e.Health ∧ e.Health ≤ 100

/-- The health invariant of a world. -/
def HealthOK (w : World) : Prop :=
  HealthyGrid w.Entities

/-- A reachable world with one entity, before the war: the vertical-split registry
is loaded on an all-zero terrain (no cell carries a home terrain, so no starter is
placed), cell (5, 5) is painted red (1), and a type-3 placement is made on it. -/
def outpostPeace : World :=
  (PlaceEntity (PlaceEntity
    (placeStarters (loadRegistry New (List.replicate (GridSize * GridSize) 0) verticalTribes)
      (fun _ _ => [])) 5 5 1).1 5 5 3).1

/-- The world `outpostPeace` after `StartWar`. -/
def outpost : World :=
  StartWar outpostPeace


/-! ## Operations and reachable states

The public operations of the engine as a transition relation.  `PlaceEntity`,
`StartWar`, `Update`, `InitCustomMap`, `ConvertBordersToTerrain` and `Reset` are
the functions above, their random draws being inputs.  `InitMap` paints a random
layout of forest, rock and hills before it places the starters with the loop it
shares with `InitCustomMap`; it enters the relation with any full-size terrain
layer and any registry, so that every state the engine can reach is a reachable
state here.  The draws of a tick are those the runtime can produce: the keys of a
Go map are visited once each, and the moves collected by the conflict-phase tick
are valid (`MovesValid`). -/

/-- What `InitMap` and `InitCustomMap` leave as it is: they write the terrain
layer, the registry, the entity layer (starters) and the identifier counters, and
nothing else. -/
def LoadFrame (w w' : World) : Prop :=
  w'.lastReprodTime = w.lastReprodTime ∧ w'.tickCount = w.tickCount ∧
  w'.baseTickInterval = w.baseTickInterval ∧ w'.EntityStats = w.EntityStats ∧
  w'.warStarted = w.warStarted ∧ w'.winner = w.winner ∧ w'.gameOver = w.gameOver ∧
  w'.conversionRate = w.conversionRate ∧ w'.lastClearedTime = w.lastClearedTime ∧
  w'.resources = w.resources

/-- What `ConvertBordersToTerrain` leaves as it is: it writes the terrain layer
only. -/
def BordersFrame (w w' : World) : Prop :=
  w'.Entities = w.Entities ∧ w'.Tribes = w.Tribes ∧ w'.nextEntityID = w.nextEntityID ∧
  LoadFrame w w'

/-- The draws of a tick are such as the runtime produces: the targets of the moves
are visited once each, and the moves that the conflict-phase tick collected are
valid. -/
def TickDraws (w : World) (wd : WarDraws) (pd : PeaceDraws) : Prop :=
  (w.warStarted = true → MovesValid w wd.moves ∧ wd.keyOrder.Nodup) ∧
  (w.warStarted = false → pd.keyOrder.Nodup)

/-- One public operation other than `Reset`. -/
inductive OpStep : World → World → Prop
  | initMap (w : World) (terrain : List Nat) (tribes : List (Nat × TribeConfig))
      (attempts : Nat → Nat → List (Nat × Nat)) :
      terrain.length = GridSize * GridSize →
      OpStep w (placeStarters (loadRegistry w terrain tribes) attempts)
  | initCustomMap (w : World) (terrain : List Nat) (assignments : List (String × String))
      (attempts : Nat → Nat → List (Nat × Nat)) :
      OpStep w (InitCustomMap w terrain assignments attempts).1
  | placeEntity (w : World) (x y : Int) (typ : Nat) : OpStep w (PlaceEntity w x y typ).1
  | convertBorders (w : World) (order : Nat → Nat → List Nat) :
      OpStep w (ConvertBordersToTerrain w order)
  | startWar (w : World) : OpStep w (StartWar w)
  | update (w : World) (wd : WarDraws) (pd : PeaceDraws) :
      TickDraws w wd pd → OpStep w (Update w wd pd)

/-- The states reachable from `New()` through the public operations. -/
inductive Reachable : World → Prop
  | new : Reachable New
  | op (w w' : World) : Reachable w → OpStep w w' → Reachable w'
  | reset (w : World) : Reachable w → Reachable (Reset w)

/-- Draws of a peaceful tick in which no roll passes: nothing moves, reproduces or
crafts. -/
def restDraws : PeaceDraws :=
  { moveRoll := fun _ _ => 1, mineRoll := fun _ _ => 1, minePick := fun _ _ => 0,
    dirPick := fun _ _ => 0, keyOrder := [], pick := fun _ _ => 0, reprodNow := 1,
    reprodRoll := fun _ _ => 1, shuffled := fun _ _ => directions,
    craftRoll := fun _ _ => 1, mineNow := 1 }

/-- The amounts `(wood, stone)` that a ledger map holds for a faction, `(0, 0)`
when it has no entry. -/
def ledgerOf (r : Nat → Option TribeResources) (tribe : Nat) : Int × Int :=
  match r tribe with
  | some res => (res.Wood, res.Stone)
  | none => (0, 0)

/-- Embedding of `World.GetTribeResources`. -/
def GetTribeResources (w : World) (tribe : Nat) : Int × Int :=
  ledgerOf w.resources tribe

/-- No faction has more wood or more stone in `r1` than in `r2`. -/
def LedgerLe (r1 r2 : Nat → Option TribeResources) : Prop :=
  ∀ t, (ledgerOf r1 t).1 ≤ (ledgerOf r2 t).1 ∧ (ledgerOf r1 t).2 ≤ (ledgerOf r2 t).2


/-- Every amount of every ledger is at least 0. -/
def LedgerNonneg (r : Nat → Option TribeResources) : Prop :=
  ∀ t res, r t = some res → 0 ≤ res.Wood ∧ 0 ≤ res.Stone


/-- The entity `e2` is the entity `e` up to its health: same faction, identifier,
weapon, armor, rank and evasion. -/
def sameKit (e e2 : Entity) : Prop :=
  e2.Tribe = e.Tribe ∧ e2.ID = e.ID ∧ e2.Weapon = e.Weapon ∧ e2.Armor = e.Armor ∧
  e2.Rank = e.Rank ∧ e2.Evasion = e.Evasion

instance (e e2 : Entity) : Decidable (sameKit e e2) := by
  unfold sameKit; infer_instance

/-- The direction of index `k` leads from `(x, y)` to an in-range, unoccupied
cell. -/
def goodDir (w : World) (x y : Nat) (k : Nat) : Prop :=
  ∃ dir : Int × Int, directions[k]? = some dir ∧
    ((x : Int) + dir.1 ≥ 0 ∧ (x : Int) + dir.1 < GridSize ∧
      (y : Int) + dir.2 ≥ 0 ∧ (y : Int) + dir.2 < GridSize) ∧
    getCell w.Entities ((x : Int) + dir.1).toNat ((y : Int) + dir.2).toNat none = none


/-- What holds of the moves collected once `k` cells have been visited: each goes
from an occupied, in-range cell visited already to an unoccupied, in-range cell,
and no two leave from the same cell. -/
def CollectedUpTo (w : World) (k : Nat) (moves : List PotentialMove) : Prop :=
  (∀ pm ∈ moves, (pm.fromX < GridSize ∧ pm.fromY < GridSize ∧ pm.toX < GridSize ∧
      pm.toY < GridSize ∧ getCell w.Entities pm.fromX pm.fromY none ≠ none ∧
      getCell w.Entities pm.toX pm.toY none = none) ∧
    pm.fromY * GridSize + pm.fromX < k) ∧
  (moves.map (fun pm => (pm.fromX, pm.fromY))).Nodup


/-! ## Identifiers

The identifier counters are `uint32` and wrap at 2^32.  The creations of an
operation are followed through a chain (`IdChain`) in which every creation takes the
next value of the counter of its faction. -/

/-- Value of a counter map for a faction; a missing counter counts as 0. -/
def counterAt (c : Nat → Option Nat) (f : Nat) : Nat :=
  (c f).getD 0

/-- The identifier invariant of faction `f` on a grid under a counter map: the
identifier of every entity of `f` is at least 1 and at most the counter of `f`, and
two cells whose occupants belong to `f` and have the same identifier are the same
cell. -/
def IdsOK (f : Nat) (g : List (List (Option Entity))) (c : Nat → Option Nat) : Prop :=
  (∀ x y e, getCell g x y none = some e → e.Tribe = f →
    1 ≤ e.ID ∧ e.ID ≤ counterAt c f) ∧
  (∀ x y x2 y2 e e2, getCell g x y none = some e → getCell g x2 y2 none = some e2 →
    e.Tribe = f → e2.Tribe = f → e.ID = e2.ID → x = x2 ∧ y = y2)

/-- The occupants of `g2` come from occupants of `g`, faction and identifier
unchanged, and distinct cells of `g2` from distinct cells of `g`: entities have
moved, changed health or equipment, or left the grid, and none was created. -/
def Descends (g g2 : List (List (Option Entity))) : Prop :=
  ∃ src : Nat → Nat → Nat × Nat,
    (∀ x y e2, getCell g2 x y none = some e2 →
      ∃ e, getCell g (src x y).1 (src x y).2 none = some e ∧
        e2.Tribe = e.Tribe ∧ e2.ID = e.ID) ∧
    (∀ x y x2 y2, getCell g2 x y none ≠ none → getCell g2 x2 y2 none ≠ none →
      src x y = src x2 y2 → x = x2 ∧ y = y2)

/-- The grid after an entity of faction `f` is created in cell `(x, y)` with the
next identifier of the counter map `c` (`atomic.AddUint32(counter, 1)`). -/
def born (g : List (List (Option Entity))) (c : Nat → Option Nat) (x y f : Nat) (ev : ℚ) :
    List (List (Option Entity)) :=
  setCell g x y (some (freshEntity f ((counterAt c f + 1) % 2 ^ 32) ev))

/-- The counter map after an identifier is issued to faction `f`. -/
def issued (c : Nat → Option Nat) (f : Nat) : Nat → Option Nat :=
  setKey c f ((counterAt c f + 1) % 2 ^ 32)

/-- The grid and counters `(g2, c2)` are reached from `(g, c)` by steps that create
no entity (`Descends`) and by creations with the next identifier; `n f` is the
number of entities of faction `f` created on the way. -/
inductive IdChain : (Nat → Nat) → List (List (Option Entity)) → (Nat → Option Nat) →
    List (List (Option Entity)) → (Nat → Option Nat) → Prop
  | refl (n : Nat → Nat) (g : List (List (Option Entity))) (c : Nat → Option Nat) :
      (∀ k, n k = 0) → IdChain n g c g c
  | descend (n : Nat → Nat) (g : List (List (Option Entity))) (c : Nat → Option Nat)
      (g2 : List (List (Option Entity))) (c2 : Nat → Option Nat)
      (g3 : List (List (Option Entity))) :
      IdChain n g c g2 c2 → Descends g2 g3 → IdChain n g c g3 c2
  | birth (n n2 : Nat → Nat) (g : List (List (Option Entity))) (c : Nat → Option Nat)
      (g2 : List (List (Option Entity))) (c2 : Nat → Option Nat) (x y f : Nat) (ev : ℚ) :
      IdChain n g c g2 c2 → (∀ k, n2 k = if k = f then n k + 1 else n k) →
      IdChain n2 g c (born g2 c2 x y f ev) (issued c2 f)

/-- A run from `New()` in which the identifier counter of faction `f` does not wrap:
every operation leaves the counter at least as large as it was.  (An operation
issues fewer than 2^32 identifiers, so the counter wraps in it exactly when it
ends below its value.) -/
inductive FreshRun (f : Nat) : World → Prop
  | new : FreshRun f New
  | op (w w2 : World) : FreshRun f w → OpStep w w2 →
      counterOf w f ≤ counterOf w2 f → FreshRun f w2
  | reset (w : World) : FreshRun f w → FreshRun f (Reset w)

/-- What the starter loop keeps: the grid and counters are reached by a chain from
those it started with, and each population has grown by the number of starters
placed for the faction. -/
def StarterInv (g0 : List (List (Option Entity))) (c0 : Nat → Option Nat) (s : World) : Prop :=
  ∃ n, IdChain n g0 c0 s.Entities s.nextEntityID ∧
    (∀ f, tribeCounts s.Entities f = tribeCounts g0 f + n f) ∧ GridWF s.Entities


/-! ## The reproduction cooldown

An entity is followed through the ticks by the cell it occupies: `posAfter` is the
cell in which the movement phase leaves it. -/

/-- The state of a loop nest when it reaches cell `(x, y)`: the rows above `y` are
done, and the cells of row `y` to the left of `x`. -/
def loopBefore {σ : Type} (cols : Nat) (body : Nat → Nat → σ → σ) (s : σ) (x y : Nat) : σ :=
  (List.range x).foldl (fun s x2 => body x2 y s) (loopCells y cols body s)

/-- The state of the reproduction loop of a peaceful tick when it reaches cell
`(x, y)`. -/
def reprodBefore (w : World) (d : PeaceDraws) (x y : Nat) : ReprodState :=
  loopBefore GridSize (reprodBody w d (peaceMoved w d).ents)
    { counts := tribeCounts (peaceMoved w d).ents
      skip := skipStart w (tribeCounts (peaceMoved w d).ents)
      spawns := []
      reprod := (peaceMoved w d).reprod } x y

/-- The births that the reproduction loop records when it visits cell `(x, y)`:
what the visit appends to `spawns` (one birth at most). -/
def newSpawns (w : World) (d : PeaceDraws) (x y : Nat) : List Spawn :=
  (reprodBody w d (peaceMoved w d).ents x y (reprodBefore w d x y)).spawns.drop
    (reprodBefore w d x y).spawns.length

/-- The move drawn for target `key`, if it has a contender. -/
def winnerOf (d : WarDraws) (key : Nat × Nat) : Option PotentialMove :=
  (moversTo d.moves key).get? (d.pick key.1 key.2 % (moversTo d.moves key).length)

/-- The cell in which move resolution leaves the occupant of cell `(x, y)`: the
target of its move when it collected one, the target is visited and the move is
the one drawn for it; otherwise `(x, y)`. -/
def movedTo (d : WarDraws) (x y : Nat) : Nat × Nat :=
  match d.moves.find? (fun pm => decide (pm.fromX = x ∧ pm.fromY = y)) with
  | none => (x, y)
  | some pm =>
    if (pm.toX, pm.toY) ∈ d.keyOrder ∧ winnerOf d (pm.toX, pm.toY) = some pm then
      (pm.toX, pm.toY)
    else (x, y)

/-- The cell in which the movement phase of a peaceful tick leaves the occupant of
cell `p`. -/
def posAfter (w : World) (d : PeaceDraws) (p : Nat × Nat) : Nat × Nat :=
  movedTo (moveDraws w d) p.1 p.2

/-- The occupant of cell `p` stays out of reproduction through the peaceful ticks
`ds`: in each tick it is carried by the movement phase to a cell at whose visit the
reproduction loop records no birth, and it is still in that cell at the end of the
tick (upgraded by crafting at most), from where the next tick takes it. -/
def Dormant (w : World) (p : Nat × Nat) : List PeaceDraws → Prop
  | [] => True
  | d :: rest =>
    getCell w.Entities p.1 p.2 none ≠ none ∧
    Upgraded (getCell w.Entities p.1 p.2 none)
      (getCell (PreWarUpdate w d).Entities (posAfter w d p).1 (posAfter w d p).2 none) ∧
    newSpawns w d (posAfter w d p).1 (posAfter w d p).2 = [] ∧
    Dormant (PreWarUpdate w d) (posAfter w d p) rest

/-- Cell `p` holds an entity and the reproduction timestamp `t`. -/
def Cooling (w : World) (p : Nat × Nat) (t : Int) : Prop :=
  getCell w.Entities p.1 p.2 none ≠ none ∧ getCell w.lastReprodTime p.1 p.2 0 = t

/-- A world with one entity that can reproduce: on the vertical-split registry,
cells (0, 0) and (0, 1) are painted red (1) and a Nomad is placed on (0, 0). -/
def nursery : World :=
  spawnAt (paintCell (paintCell (withTribes verticalTribes) 0 0 1) 0 1 1) 0 0 1

/-- Draws of a peaceful tick, read at time 1, in which nothing moves or crafts and
every reproduction roll passes, the directions being tried in the order up, down,
left, right. -/
def birthDraws : PeaceDraws :=
  { moveRoll := fun _ _ => 1, mineRoll := fun _ _ => 1, minePick := fun _ _ => 0,
    dirPick := fun _ _ => 0, keyOrder := [], pick := fun _ _ => 0, reprodNow := 1,
    reprodRoll := fun _ _ => 0, shuffled := fun _ _ => directions,
    craftRoll := fun _ _ => 1, mineNow := 1 }


/-- Indicator of the cells where an entity of faction `f` stands on terrain `code`:
1 when cell `(x, y)` holds an entity of `f` and carries `code`, else 0. -/
def standsOn (w : World) (f code x y : Nat) : Int :=
  match getCell w.Entities x y none with
  | some e => if e.Tribe = f ∧ w.Terrain.getD (y * GridSize + x) 0 = code then 1 else 0
  | none => 0

/-- The number of cells of the grid where an entity of faction `f` stands on
terrain `code`. -/
def standingOn (w : World) (f code : Nat) : Int :=
  ∑ y in Finset.range GridSize, ∑ x in Finset.range GridSize, standsOn w f code x y

/-- A Nomad of the vertical-split registry standing on the forest of cell
(5, 5). -/
def quarry : World :=
  spawnAt (paintCell (withTribes verticalTribes) 5 5 TerrainTrees) 5 5 1

/-- Effect of the mining loop on the terrain code and the clear timestamp `c` of a
cell whose occupant is `occ`. -/
def mineCell (tribes : List (Nat × TribeConfig)) (now : Int) (occ : Option Entity)
    (c : Nat × Int) : Nat × Int :=
  match occ with
  | none => c
  | some ent =>
    if c.1 = TerrainTrees ∨ c.1 = TerrainRocks then
      match lookupTribe tribes ent.Tribe with
      | none => c
      | some cfg => (cfg.HomeTerrain, if c.1 = TerrainTrees then now else c.2)
    else c


/-- Effect of the regrowth loop on the terrain code and the clear timestamp `c` of a
cell whose occupant is `occ`. -/
def regrowCell (tribes : List (Nat × TribeConfig)) (now : Int) (occ : Option Entity)
    (c : Nat × Int) : Nat × Int :=
  if occ = none then
    if c.2 ≠ 0 ∧ now - c.2 ≥ 20000000000 then
      if tribes.any (fun p => decide (c.1 = p.2.HomeTerrain)) then (TerrainTrees, 0) else c
    else c
  else c

/-- The vertical-split world with an empty red cell (5, 5) that was cleared at
clock reading 1. -/
def clearing : World :=
  { redCellWorld with lastClearedTime := setCell redCellWorld.lastClearedTime 5 5 1 }


/-- A divider between two colours on the empty world: blue (2) at (3, 5), a divider
(4) at (4, 5) and yellow (9) at (5, 5). -/
def tieWorld : World :=
  paintCell (paintCell (paintCell New 3 5 2) 4 5 4) 5 5 9


/-- The score of the step from `(x, y)` in the direction of index `k` for an entity
of faction `myTribe`: the `MoveScoreBonus` of the neighbour when it is in range,
unoccupied and passable, and nothing otherwise. -/
def stepScore (w : World) (x y : Nat) (myTribe : Nat) (k : Nat) : Option ℚ :=
  match directions[k]? with
  | none => none
  | some dir =>
    if (x : Int) + dir.1 ≥ 0 ∧ (x : Int) + dir.1 < GridSize ∧
        (y : Int) + dir.2 ≥ 0 ∧ (y : Int) + dir.2 < GridSize then
      if getCell w.Entities ((x : Int) + dir.1).toNat ((y : Int) + dir.2).toNat none = none ∧
          IsPassable (w.Terrain.getD
            (((y : Int) + dir.2).toNat * GridSize + ((x : Int) + dir.1).toNat) 0) = true then
        some (MoveScoreBonus (w.Terrain.getD
          (((y : Int) + dir.2).toNat * GridSize + ((x : Int) + dir.1).toNat) 0) w myTribe)
      else none
    else none

/-- What holds of `(bestScore, bestDirs)` once the first `n` directions have been
scored: the best score is at least -1 and is -1 while no direction is kept, every
direction kept is a possible step of that score, and no possible step among the
first `n` scores higher. -/
def ScoredUpTo (w : World) (x y : Nat) (myTribe : Nat) (n : Nat) (st : ℚ × List Nat) : Prop :=
  -1 ≤ st.1 ∧ (st.2 = [] → st.1 = -1) ∧
  (∀ k ∈ st.2, stepScore w x y myTribe k = some st.1) ∧
  (∀ k s, k < n → stepScore w x y myTribe k = some s → s ≤ st.1)

/-- A Nomad of the vertical-split registry alone on the empty terrain, at
(5, 5). -/
def loner : World :=
  spawnAt (withTribes verticalTribes) 5 5 1

/-- Draws of a peaceful tick in which every entity attempts a move and none takes
the mining impulse. -/
def roamDraws : PeaceDraws :=
  { moveRoll := fun _ _ => 0, mineRoll := fun _ _ => 1, minePick := fun _ _ => 0,
    dirPick := fun _ _ => 0, keyOrder := [], pick := fun _ _ => 0, reprodNow := 1,
    reprodRoll := fun _ _ => 1, shuffled := fun _ _ => directions,
    craftRoll := fun _ _ => 1, mineNow := 1 }


/-- The directions as `rand.Shuffle` leaves them are the four directions in some
order, for every cell. -/
def ShuffleOK (d : PeaceDraws) : Prop :=
  ∀ x y, (d.shuffled x y).Perm directions

/-- The entity is as reproduction creates it: health 100, no weapon, no armor, rank
base. -/
def newborn (e : Entity) : Prop :=
  e.Health = 100 ∧ e.Weapon = WeaponNone ∧ e.Armor = ArmorNone ∧ e.Rank = RankBase


/-- Two Nomads of the vertical-split registry on red cells, at (0, 0) and (1, 1),
with one free red cell, (0, 1), next to both. -/
def twins : World :=
  spawnAt (spawnAt (paintCell (paintCell (paintCell (withTribes verticalTribes) 0 0 1) 0 1 1)
    1 1 1) 0 0 1) 1 1 1


/-! ## The built-in maps (`InitVerticalSplit`, `InitFourQuadrants`, `InitNorthSouth`)

The three initialisers paint a base terrain, lay a divider band, stamp forests,
rocks and hills around random centres and place the starters.  The values drawn
are inputs: a cluster carries the draws of its centre, of its size and of its
cells; `rand.Intn(n)` is the drawn value modulo `n`.  A feature loop draws centres
until the required number of valid ones is stamped (`i--; continue` on an invalid
centre); it yields nothing when the draws given run out before that. -/

/-- The registry installed by `InitFourQuadrants`. -/
def fourTribes : List (Nat × TribeConfig) :=
  [ (1, { HomeTerrain := TerrainRed, EntityVizCode := 3, Starters := 20, Name := "Wanderers",
          DamageBonus := 0, BaseEvasion := 22/100, DefenseBonus := 0 }),
    (2, { HomeTerrain := TerrainBlue, EntityVizCode := 5, Starters := 20, Name := "Norsca",
          DamageBonus := 0, BaseEvasion := 0, DefenseBonus := 2 }),
    (3, { HomeTerrain := TerrainYellow, EntityVizCode := 11, Starters := 20, Name := "Nomads",
          DamageBonus := 2, BaseEvasion := 0, DefenseBonus := 0 }),
    (4, { HomeTerrain := TerrainGreen, EntityVizCode := 12, Starters := 20, Name := "Sylvania",
          DamageBonus := 1, BaseEvasion := 12/100, DefenseBonus := 0 }) ]

/-- The registry installed by `InitNorthSouth`. -/
def northSouthTribes : List (Nat × TribeConfig) :=
  [ (1, { HomeTerrain := TerrainRed, EntityVizCode := 3, Starters := 20, Name := "Norsca",
          DamageBonus := 0, BaseEvasion := 0, DefenseBonus := 2 }),
    (2, { HomeTerrain := TerrainBlue, EntityVizCode := 5, Starters := 20, Name := "Sylvania",
          DamageBonus := 1, BaseEvasion := 12/100, DefenseBonus := 0 }) ]

/-- The loop `for i := range w.Terrain { w.Terrain[i] = 0 }`. -/
def clearTerrain (t : List Nat) : List Nat :=
  t.map (fun _ => 0)

/-- Body of the base-painting loop of `InitFourQuadrants`. -/
def paintQuadrants (x y : Nat) (t : List Nat) : List Nat :=
  if x < 50 ∧ y < 50 then t.set (y * GridSize + x) TerrainRed
  else if x > 50 ∧ y < 50 then t.set (y * GridSize + x) TerrainBlue
  else if x < 50 ∧ y > 50 then t.set (y * GridSize + x) TerrainYellow
  else if x > 50 ∧ y > 50 then t.set (y * GridSize + x) TerrainGreen
  else t

/-- Body of the base-painting loop of `InitNorthSouth`. -/
def paintNorthSouth (x y : Nat) (t : List Nat) : List Nat :=
  if y < 50 then t.set (y * GridSize + x) TerrainRed
  else if y > 50 then t.set (y * GridSize + x) TerrainBlue
  else t

/-- The divider of `InitNorthSouth`: row 50. -/
def borderRow (t : List Nat) : List Nat :=
  (List.range GridSize).foldl (fun t x => t.set (50 * GridSize + x) TerrainBorder) t

/-- The divider of `InitFourQuadrants`: column 50 and row 50. -/
def borderCross (t : List Nat) : List Nat :=
  (List.range GridSize).foldl
    (fun t i => (t.set (i * GridSize + 50) TerrainBorder).set (50 * GridSize + i) TerrainBorder) t

/-- The closure `isHomeFlat`: the code is the home terrain of an entry of the
registry. -/
def isHomeFlat (tribes : List (Nat × TribeConfig)) (t : Nat) : Bool :=
  tribes.any (fun p => decide (p.2.HomeTerrain = t))

/-- The draws of one round of a feature loop: the centre, the size of the cluster
and the cells of the cluster. -/
structure Cluster where
  cx : Nat
  cy : Nat
  size : Nat
  cell : Nat → Nat × Nat

/-- One round of the inner loop of a feature loop: the cell drawn around the centre
`(cx, cy)`, at offset `rand.Intn(width) - half` on each axis, gets `code` when it is
in range, is not a divider and carries a home terrain. -/
def stampCell (tribes : List (Nat × TribeConfig)) (code width half : Nat) (cx cy : Nat)
    (t : List Nat) (c : Nat × Nat) : List Nat :=
  let nx : Int := (cx : Int) + ((c.1 % width : Nat) : Int) - (half : Int)
  let ny : Int := (cy : Int) + ((c.2 % width : Nat) : Int) - (half : Int)
  if nx ≥ 0 ∧ nx < GridSize ∧ ny ≥ 0 ∧ ny < GridSize then
    if t.getD (ny.toNat * GridSize + nx.toNat) 0 ≠ TerrainBorder then
      if isHomeFlat tribes (t.getD (ny.toNat * GridSize + nx.toNat) 0) = true then
        t.set (ny.toNat * GridSize + nx.toNat) code
      else t
    else t
  else t

/-- The cluster stamped around a valid centre: `least + rand.Intn(span)` cells. -/
def stampCluster (tribes : List (Nat × TribeConfig)) (code width half least span : Nat)
    (t : List Nat) (c : Cluster) : List Nat :=
  (List.range (least + c.size % span)).foldl
    (fun t j => stampCell tribes code width half (c.cx % GridSize) (c.cy % GridSize) t (c.cell j))
    t

/-- A feature loop that still has `n` clusters to stamp: a round whose centre is a
divider or carries no home terrain is drawn again. -/
def stampClusters (tribes : List (Nat × TribeConfig)) (code width half least span : Nat) :
    List Cluster → Nat → List Nat → Option (List Nat)
  | [], n, t => if n = 0 then some t else none
  | c :: rest, n, t =>
    if n = 0 then some t
    else if t.getD ((c.cy % GridSize) * GridSize + c.cx % GridSize) 0 = TerrainBorder ∨
        isHomeFlat tribes (t.getD ((c.cy % GridSize) * GridSize + c.cx % GridSize) 0) = false then
      stampClusters tribes code width half least span rest n t
    else
      stampClusters tribes code width half least span rest (n - 1)
        (stampCluster tribes code width half least span t c)

/-- The draws of a built-in initialiser. -/
structure LayoutDraws where
  trees : List Cluster
  rocks : List Cluster
  hills : List Cluster
  attempts : Nat → Nat → List (Nat × Nat)

/-- The three feature loops: 25 forests of 12 to 20 trees, 15 clusters of 8 to 15
rocks, 20 areas of 20 to 40 hills. -/
def stampFeatures (tribes : List (Nat × TribeConfig)) (dr : LayoutDraws) (t : List Nat) :
    Option (List Nat) :=
  (stampClusters tribes TerrainTrees 15 7 12 9 dr.trees 25 t).bind (fun t1 =>
    (stampClusters tribes TerrainRocks 11 5 8 8 dr.rocks 15 t1).bind (fun t2 =>
      stampClusters tribes TerrainHills 21 10 20 21 dr.hills 20 t2))

/-- What the three built-in initialisers share: the registry is installed, the
features are stamped on the base terrain and the starters are placed. -/
def layoutWorld (w : World) (tribes : List (Nat × TribeConfig)) (base : List Nat)
    (dr : LayoutDraws) : Option World :=
  (stampFeatures tribes dr base).map
    (fun t => placeStarters (loadRegistry w t tribes) dr.attempts)

/-- Embedding of `InitFourQuadrants`. -/
def InitFourQuadrants (w : World) (dr : LayoutDraws) : Option World :=
  layoutWorld w fourTribes (borderCross (forCells paintQuadrants (clearTerrain w.Terrain))) dr

/-- Embedding of `InitNorthSouth`. -/
def InitNorthSouth (w : World) (dr : LayoutDraws) : Option World :=
  layoutWorld w northSouthTribes (borderRow (forCells paintNorthSouth (clearTerrain w.Terrain)))
    dr

/-- The cluster that draws 0 every time: its centre is (0, 0) and every cell of it
falls outside the grid. -/
def idleCluster : Cluster :=
  { cx := 0, cy := 0, size := 0, cell := fun _ => (0, 0) }

/-- Draws of a built-in initialiser in which every cluster is the idle one and every
starter is tried on (0, 0) only. -/
def idleLayout : LayoutDraws :=
  { trees := List.replicate 25 idleCluster, rocks := List.replicate 15 idleCluster,
    hills := List.replicate 20 idleCluster, attempts := fun _ _ => [(0, 0)] }


/-- Two Nomads that contend for one cell: the world `twins`, in which the cells
(0, 0) and (1, 1) of the two entities carry the reproduction timestamps 7 and 9. -/
def rivals : World :=
  { twins with lastReprodTime := setCell (setCell twins.lastReprodTime 0 0 7) 1 1 9 }

/-- Draws of a tick of `rivals` in which both entities collected a move to the free
red cell (0, 1) between them (the neighbour with the highest score for each), and
the random choice among the two contenders falls on the second. -/
def rivalDraws : WarDraws :=
  { moves := [{ fromX := 0, fromY := 0, toX := 0, toY := 1 },
              { fromX := 1, fromY := 1, toX := 0, toY := 1 }],
    keyOrder := [(0, 1)], pick := fun _ _ => 1,
    hitRoll := fun _ _ _ => 1/2, convRoll := fun _ _ => 1/2 }


/-- A crowded world: on the vertical-split registry every cell is red (1) and each
of the 400 cells of rows 0 to 3 holds a Nomad, with the identifiers 1 to 400. -/
def crowd : World :=
  { withTribes verticalTribes with
    Terrain := List.replicate (GridSize * GridSize) TerrainRed
    Entities := (List.range GridSize).map (fun y => (List.range GridSize).map (fun x =>
      if y < 4 then some (freshEntity 1 (y * GridSize + x + 1) 0) else none))
    nextEntityID := setKey (fun _ => none) 1 400 }


/-- The terrain array of a camp: the cells (5, 5), (6, 5) and (7, 5) carry `code`,
every other cell is empty (0). -/
def campTerrain (code : Nat) : List Nat :=
  (List.range (GridSize * GridSize)).map (fun i =>
    if i = 5 * GridSize + 5 ∨ i = 5 * GridSize + 6 ∨ i = 5 * GridSize + 7 then code else 0)

/-- A camp of three Nomads: on the empty world, the custom map that assigns the
Nomads to red (1) is loaded with the camp terrain in red (no starter is placed),
and a type-3 placement is made on each of the red cells (5, 5), (6, 5), (7, 5). -/
def camp : World :=
  (PlaceEntity (PlaceEntity (PlaceEntity
    (InitCustomMap New (campTerrain TerrainRed) [("1", "Nomads")] (fun _ _ => [])).1
    5 5 3).1 6 5 3).1 7 5 3).1

/-- The camp after the same custom map is loaded with the camp terrain in forest
(6): the three Nomads, which a map load leaves where they are, stand on forest. -/
def campForest : World :=
  (InitCustomMap camp (campTerrain TerrainTrees) [("1", "Nomads")] (fun _ _ => [])).1

/-- The forge: `campForest` after one peaceful tick in which no roll passes.  The
three forest cells are mined: they are red again and the Nomads own 3 wood. -/
def forge : World :=
  Update campForest duelDraws restDraws

/-- Draws of a peaceful tick, read at time 2, in which nothing moves or reproduces
and the only craft roll that passes is the one of cell (5, 5). -/
def craftDraws : PeaceDraws :=
  { moveRoll := fun _ _ => 1, mineRoll := fun _ _ => 1, minePick := fun _ _ => 0,
    dirPick := fun _ _ => 0, keyOrder := [], pick := fun _ _ => 0, reprodNow := 2,
    reprodRoll := fun _ _ => 1, shuffled := fun _ _ => directions,
    craftRoll := fun x y => if x = 5 ∧ y = 5 then 0 else 1, mineNow := 2 }


/-- The state of the crafting loop of a peaceful tick when it reaches cell
`(x, y)`. -/
def craftBefore (w : World) (d : PeaceDraws) (x y : Nat) : CraftState :=
  loopBefore GridSize (craftBody w d)
    { ents := (peaceMoved w d).ents, resources := w.resources } x y


/-- The ground of a grove: on the vertical-split registry, the cells (5, 2), (5, 3)
and (5, 5) are painted red (1) and the cell (5, 4) between them forest (6). -/
def groveGround : World :=
  paintCell (paintCell (paintCell (paintCell (withTribes verticalTribes) 5 2 1) 5 3 1)
    5 4 TerrainTrees) 5 5 1

/-- A grove: a Nomad is placed on the red cell (5, 5) of the ground, below the
forest cell. -/
def grove : World :=
  spawnAt groveGround 5 5 1

/-- Draws of a peaceful tick of the grove, read at time 1: every move roll passes
and the mining impulse is taken, the target (5, 4) is visited; every reproduction
roll passes, the directions being tried in the order up, down, left, right; no
craft roll passes. -/
def groveDraws : PeaceDraws :=
  { moveRoll := fun _ _ => 0, mineRoll := fun _ _ => 0, minePick := fun _ _ => 0,
    dirPick := fun _ _ => 0, keyOrder := [(5, 4)], pick := fun _ _ => 0, reprodNow := 1,
    reprodRoll := fun _ _ => 0, shuffled := fun _ _ => directions,
    craftRoll := fun _ _ => 1, mineNow := 1 }

/-- Draws of a later peaceful tick, read at time 2: every move roll passes and the
mining impulse is not taken, the targets (5, 2) and (5, 5) are visited; every
reproduction roll passes; no craft roll passes. -/
def wanderDraws : PeaceDraws :=
  { moveRoll := fun _ _ => 0, mineRoll := fun _ _ => 1, minePick := fun _ _ => 0,
    dirPick := fun _ _ => 0, keyOrder := [(5, 2), (5, 5)], pick := fun _ _ => 0,
    reprodNow := 2, reprodRoll := fun _ _ => 0, shuffled := fun _ _ => directions,
    craftRoll := fun _ _ => 1, mineNow := 2 }


/-! # Properties -/

/-! ## Registry lemmas -/

theorem lookupTribe_mem {m : List (Nat × TribeConfig)} {k : Nat} {c : TribeConfig}
    (h : lookupTribe m k = some c) : (k, c) ∈ m := by
  induction m with
  | nil => simp [lookupTribe] at h
  | cons p rest ih =>
    obtain ⟨k', c'⟩ := p
    unfold lookupTribe at h
    by_cases hk : k' = k
    · simp [hk] at h
      simp [hk, h]
    · simp [hk] at h
      exact List.mem_cons_of_mem _ (ih h)

theorem lookupTribe_of_mem {m : List (Nat × TribeConfig)} (hn : KeysNodup m) {k : Nat}
    {c : TribeConfig} (h : (k, c) ∈ m) : lookupTribe m k = some c := by
  induction m with
  | nil => simp at h
  | cons p rest ih =>
    obtain ⟨k', c'⟩ := p
    unfold KeysNodup at hn
    simp only [List.map_cons, List.nodup_cons] at hn
    unfold lookupTribe
    rcases List.mem_cons.mp h with heq | hmem
    · cases heq
      simp
    · have hne : k' ≠ k := by
        intro e
        apply hn.1
        rw [e]
        exact List.mem_map_of_mem Prod.fst hmem
      simp only [hne, if_false]
      exact ih hn.2 hmem

theorem enemyLoop_iff (t tribe : Nat) (m : List (Nat × TribeConfig)) :
    enemyLoop t tribe m = true ↔ ∃ g cfg, (g, cfg) ∈ m ∧ g ≠ tribe ∧ cfg.HomeTerrain = t := by
  induction m with
  | nil => simp [enemyLoop]
  | cons p rest ih =>
    obtain ⟨k, c⟩ := p
    unfold enemyLoop
    by_cases hc : k ≠ tribe ∧ t = c.HomeTerrain
    · rw [if_pos hc]
      refine ⟨fun _ => ?_, fun _ => rfl⟩
      exact ⟨k, c, List.mem_cons_self _ _, hc.1, hc.2.symm⟩
    · rw [if_neg hc, ih]
      constructor
      · rintro ⟨g, cfg, hm, hg, ht⟩
        exact ⟨g, cfg, List.mem_cons_of_mem _ hm, hg, ht⟩
      · rintro ⟨g, cfg, hm, hg, ht⟩
        rcases List.mem_cons.mp hm with heq | hmem
        · cases heq
          exact absurd ⟨hg, ht.symm⟩ hc
        · exact ⟨g, cfg, hmem, hg, ht⟩

theorem homeLoop_none_iff (t : Nat) (m : List (Nat × TribeConfig)) :
    homeLoop t m = none ↔ ∀ g cfg, (g, cfg) ∈ m → cfg.HomeTerrain ≠ t := by
  induction m with
  | nil => simp [homeLoop]
  | cons p rest ih =>
    obtain ⟨k, c⟩ := p
    unfold homeLoop
    by_cases hc : c.HomeTerrain = t
    · simp only [hc, if_true]
      constructor
      · intro h; cases h
      · intro h; exact absurd hc (h k c (List.mem_cons_self _ _))
    · rw [if_neg hc, ih]
      constructor
      · intro h g cfg hm
        rcases List.mem_cons.mp hm with heq | hmem
        · cases heq; exact hc
        · exact h g cfg hmem
      · intro h g cfg hm
        exact h g cfg (List.mem_cons_of_mem _ hm)

theorem homeLoop_some {t : Nat} {m : List (Nat × TribeConfig)} {g : Nat}
    (h : homeLoop t m = some g) : ∃ cfg, (g, cfg) ∈ m ∧ cfg.HomeTerrain = t := by
  induction m with
  | nil => simp [homeLoop] at h
  | cons p rest ih =>
    obtain ⟨k, c⟩ := p
    unfold homeLoop at h
    by_cases hc : c.HomeTerrain = t
    · simp only [hc, if_true, Option.some.injEq] at h
      subst h
      exact ⟨c, List.mem_cons_self _ _, hc⟩
    · rw [if_neg hc] at h
      obtain ⟨cfg, hm, ht⟩ := ih h
      exact ⟨cfg, List.mem_cons_of_mem _ hm, ht⟩

/-! ## Grid lemmas -/

theorem getD_set_self {α : Type} (l : List α) (i : Nat) (v d : α) (h : i < l.length) :
    (l.set i v).getD i d = v := by
  simp [List.getD_eq_getElem?_getD, List.getElem?_set_self h]

theorem getD_set_ne {α : Type} (l : List α) (i j : Nat) (v d : α) (h : i ≠ j) :
    (l.set i v).getD j d = l.getD j d := by
  simp [List.getD_eq_getElem?_getD, List.getElem?_set_ne h]

theorem getCell_setCell_self {α : Type} (g : List (List α)) (x y : Nat) (v d : α)
    (hy : y < g.length) (hx : x < (g.getD y []).length) :
    getCell (setCell g x y v) x y d = v := by
  unfold getCell setCell
  rw [getD_set_self _ _ _ _ hy, getD_set_self _ _ _ _ hx]

theorem getCell_setCell_ne {α : Type} (g : List (List α)) (x y x2 y2 : Nat) (v d : α)
    (h : x2 ≠ x ∨ y2 ≠ y) : getCell (setCell g x y v) x2 y2 d = getCell g x2 y2 d := by
  unfold getCell setCell
  by_cases hy : y = y2
  · subst hy
    have hx : x ≠ x2 := by
      rcases h with h | h
      · exact fun e => h e.symm
      · exact absurd rfl h
    by_cases hl : y < g.length
    · rw [getD_set_self _ _ _ _ hl, getD_set_ne _ _ _ _ _ hx]
    · rw [List.set_eq_of_length_le (Nat.le_of_not_lt hl)]
  · rw [getD_set_ne _ _ _ _ _ hy]

theorem GridWF_row {α : Type} {g : List (List α)} (h : GridWF g) {y : Nat}
    (hy : y < GridSize) : (g.getD y []).length = GridSize := by
  have hl : y < g.length := by rw [h.1]; exact hy
  rw [List.getD_eq_getElem _ _ hl]
  exact h.2 _ (List.getElem_mem hl)

theorem GridWF_setCell {α : Type} {g : List (List α)} (h : GridWF g) (x y : Nat) (v : α) :
    GridWF (setCell g x y v) := by
  unfold setCell
  by_cases hy : y < GridSize
  · refine ⟨by rw [List.length_set]; exact h.1, ?_⟩
    intro r hr
    rcases List.mem_or_eq_of_mem_set hr with hm | he
    · exact h.2 r hm
    · rw [he, List.length_set]
      exact GridWF_row h hy
  · have hl : g.length ≤ y := by rw [h.1]; exact Nat.le_of_not_lt hy
    rw [List.set_eq_of_length_le hl]
    exact h

/-! ## Terrain and tribe policy -/

/-- The codes for which `IsPassable` answers true are exactly the nine codes of
its `case` list. -/
theorem IsPassable_iff (t : Nat) :
    IsPassable t = true ↔
      (t = 0 ∨ t = 1 ∨ t = 2 ∨ t = 4 ∨ t = 6 ∨ t = 7 ∨ t = 8 ∨ t = 9 ∨ t = 10) := by
  unfold IsPassable TerrainEmpty TerrainRed TerrainBlue TerrainBorder TerrainHills
    TerrainTrees TerrainRocks TerrainYellow TerrainGreen
  constructor
  · intro h
    by_contra hn
    rw [if_neg (by omega)] at h
    cases h
  · intro h
    rw [if_pos (by omega)]

/-- C6 (code evaluated at the failing input): `IsPassable` answers true for forest
(6) and for rock (7), the two codes the constants declare impassable. -/
theorem IsPassable_forest_rock :
    IsPassable TerrainTrees = true ∧ IsPassable TerrainRocks = true := by
  constructor <;> decide

/-- For a registered faction, the loop of `IsEnemyTerrain` finds an entry exactly
when another registered faction has the home terrain asked for. -/
theorem isEnemyTerrain_registered (w : World) (f t : Nat) (hk : KeysNodup w.Tribes)
    (hf : (lookupTribe w.Tribes f).isSome = true) :
    IsEnemyTerrain t w f = true ↔
      ∃ g cfg, g ≠ f ∧ lookupTribe w.Tribes g = some cfg ∧ cfg.HomeTerrain = t := by
  unfold IsEnemyTerrain
  cases hl : lookupTribe w.Tribes f with
  | none => simp [hl] at hf
  | some c =>
    simp only []
    rw [enemyLoop_iff]
    constructor
    · rintro ⟨g, cfg, hm, hg, ht⟩
      exact ⟨g, cfg, hg, lookupTribe_of_mem hk hm, ht⟩
    · rintro ⟨g, cfg, hg, hm, ht⟩
      exact ⟨g, cfg, lookupTribe_mem hm, hg, ht⟩

/-- C7: for a registry with distinct keys, and a registered faction `f`,
`IsEnemyTerrain t w f` holds exactly when some registered faction other than `f`
has home terrain `t`; for a faction that is not registered it is false for
every `t`. -/
theorem IsEnemyTerrain_iff (w : World) (f : Nat) (hk : KeysNodup w.Tribes) :
    ((lookupTribe w.Tribes f).isSome = true → ∀ t,
      (IsEnemyTerrain t w f = true ↔
        ∃ g cfg, g ≠ f ∧ lookupTribe w.Tribes g = some cfg ∧ cfg.HomeTerrain = t)) ∧
    (lookupTribe w.Tribes f = none → ∀ t, IsEnemyTerrain t w f = false) := by
  constructor
  · intro hf t
    exact isEnemyTerrain_registered w f t hk hf
  · intro hf t
    unfold IsEnemyTerrain
    rw [hf]

/-- Witness of C7 on the registry of the vertical-split map, faction 1. -/
theorem IsEnemyTerrain_iff_witness :
    KeysNodup (withTribes verticalTribes).Tribes ∧
    (((lookupTribe (withTribes verticalTribes).Tribes 1).isSome = true → ∀ t,
      (IsEnemyTerrain t (withTribes verticalTribes) 1 = true ↔
        ∃ g cfg, g ≠ 1 ∧ lookupTribe (withTribes verticalTribes).Tribes g = some cfg ∧
          cfg.HomeTerrain = t)) ∧
    (lookupTribe (withTribes verticalTribes).Tribes 1 = none →
      ∀ t, IsEnemyTerrain t (withTribes verticalTribes) 1 = false)) :=
  ⟨by decide, IsEnemyTerrain_iff (withTribes verticalTribes) 1 (by decide)⟩

/-- C8: `CanReproduceOn t w f` holds exactly when `f` is registered and `t` is its
home terrain, and it always agrees with `IsOwnTerrain t w f`. -/
theorem CanReproduceOn_iff (w : World) (f t : Nat) :
    (CanReproduceOn t w f = true ↔
      ∃ cfg, lookupTribe w.Tribes f = some cfg ∧ t = cfg.HomeTerrain) ∧
    CanReproduceOn t w f = IsOwnTerrain t w f := by
  refine ⟨?_, rfl⟩
  unfold CanReproduceOn
  cases lookupTribe w.Tribes f with
  | none => simp
  | some c => simp

/-- C9, refuted as stated: (a) with the registry a custom map makes for hills (8) as
home terrain of faction 1, code 8 is the home terrain of the registered faction 1
and yet its score is -1/2, not positive; (b) when two registered factions share
home terrain 1, code 1 is the home terrain of another registered faction and yet
the score for faction 1 is 2, not 8. -/
theorem MoveScoreBonus_claim_fails :
    (lookupTribe (withTribes [(1, customNomads 8)]).Tribes 1 = some (customNomads 8) ∧
      (customNomads 8).HomeTerrain = 8 ∧
      ¬ (0 < MoveScoreBonus 8 (withTribes [(1, customNomads 8)]) 1)) ∧
    (lookupTribe (withTribes [(1, customNomads 1), (2, customNorsca 1)]).Tribes 1
        = some (customNomads 1) ∧
      lookupTribe (withTribes [(1, customNomads 1), (2, customNorsca 1)]).Tribes 2
        = some (customNorsca 1) ∧
      (customNorsca 1).HomeTerrain = 1 ∧
      ¬ (2 < MoveScoreBonus 1 (withTribes [(1, customNomads 1), (2, customNorsca 1)]) 1)) := by
  refine ⟨⟨rfl, rfl, ?_⟩, rfl, rfl, rfl, ?_⟩
  · have h : MoveScoreBonus 8 (withTribes [(1, customNomads 8)]) 1 = -1/2 := by
      simp [MoveScoreBonus, TerrainEmpty, TerrainBorder, TerrainHills]
    rw [h]; norm_num
  · have h : MoveScoreBonus 1 (withTribes [(1, customNomads 1), (2, customNorsca 1)]) 1 = 2 := by
      simp [MoveScoreBonus, TerrainEmpty, TerrainBorder, TerrainHills, IsOwnTerrain,
        withTribes, lookupTribe, customNomads]
    rw [h]; norm_num

/-- C9, amended: the score is -2 on empty (0), -3 on border (4) and -1/2 on hills
(8), whoever owns these codes; on every other code it is 2 when the code is the
home terrain of `f`, otherwise 8 when it is the home terrain of another
registered faction, otherwise 0. -/
theorem MoveScoreBonus_cases (w : World) (f t : Nat) (hk : KeysNodup w.Tribes)
    (hf : (lookupTribe w.Tribes f).isSome = true) :
    (t = 0 → MoveScoreBonus t w f = -2) ∧
    (t = 4 → MoveScoreBonus t w f = -3) ∧
    (t = 8 → MoveScoreBonus t w f = -1/2) ∧
    ((t = 0 ∨ t = 4 ∨ t = 8) → MoveScoreBonus t w f < 0) ∧
    (t ≠ 0 → t ≠ 4 → t ≠ 8 →
      (∃ cfg, lookupTribe w.Tribes f = some cfg ∧ cfg.HomeTerrain = t) →
      MoveScoreBonus t w f = 2) ∧
    (t ≠ 0 → t ≠ 4 → t ≠ 8 →
      (¬ ∃ cfg, lookupTribe w.Tribes f = some cfg ∧ cfg.HomeTerrain = t) →
      (∃ g cfg, g ≠ f ∧ lookupTribe w.Tribes g = some cfg ∧ cfg.HomeTerrain = t) →
      MoveScoreBonus t w f = 8) ∧
    (t ≠ 0 → t ≠ 4 → t ≠ 8 →
      (¬ ∃ g cfg, lookupTribe w.Tribes g = some cfg ∧ cfg.HomeTerrain = t) →
      MoveScoreBonus t w f = 0) := by
  have hown : IsOwnTerrain t w f = true ↔
      ∃ cfg, lookupTribe w.Tribes f = some cfg ∧ cfg.HomeTerrain = t := by
    unfold IsOwnTerrain
    cases lookupTribe w.Tribes f with
    | none => simp
    | some c => simp [eq_comm]
  have hen := isEnemyTerrain_registered w f t hk hf
  refine ⟨?_, ?_, ?_, ?_, ?_, ?_, ?_⟩
  · intro h; subst h; simp [MoveScoreBonus, TerrainEmpty]
  · intro h; subst h; simp [MoveScoreBonus, TerrainEmpty, TerrainBorder]
  · intro h; subst h; simp [MoveScoreBonus, TerrainEmpty, TerrainBorder, TerrainHills]
  · rintro (h | h | h) <;> subst h <;>
      norm_num [MoveScoreBonus, TerrainEmpty, TerrainBorder, TerrainHills]
  · intro h0 h4 h8 ho
    simp [MoveScoreBonus, TerrainEmpty, TerrainBorder, TerrainHills, h0, h4, h8, hown.2 ho]
  · intro h0 h4 h8 ho he
    have ho' : IsOwnTerrain t w f = false := by
      cases hb : IsOwnTerrain t w f with
      | false => rfl
      | true => exact absurd (hown.1 hb) ho
    simp [MoveScoreBonus, TerrainEmpty, TerrainBorder, TerrainHills, h0, h4, h8, ho',
      hen.2 he]
  · intro h0 h4 h8 hno
    have ho' : IsOwnTerrain t w f = false := by
      cases hb : IsOwnTerrain t w f with
      | false => rfl
      | true =>
        obtain ⟨cfg, h1, h2⟩ := hown.1 hb
        exact absurd ⟨f, cfg, h1, h2⟩ hno
    have he' : IsEnemyTerrain t w f = false := by
      cases hb : IsEnemyTerrain t w f with
      | false => rfl
      | true =>
        obtain ⟨g, cfg, _, h1, h2⟩ := hen.1 hb
        exact absurd ⟨g, cfg, h1, h2⟩ hno
    simp [MoveScoreBonus, TerrainEmpty, TerrainBorder, TerrainHills, h0, h4, h8, ho', he']

/-- Witness of the amended C9 on the registry of the vertical-split map: faction 1
and its own home terrain, red (1). -/
theorem MoveScoreBonus_cases_witness :
    KeysNodup (withTribes verticalTribes).Tribes ∧
    (lookupTribe (withTribes verticalTribes).Tribes 1).isSome = true ∧
    MoveScoreBonus 1 (withTribes verticalTribes) 1 = 2 :=
  ⟨by decide, by decide,
    (MoveScoreBonus_cases (withTribes verticalTribes) 1 1 (by decide) (by decide)).2.2.2.2.1
      (by decide) (by decide) (by decide) ⟨_, rfl, rfl⟩⟩

/-! ## Placement -/

theorem inRange_toNat {x : Int} (h0 : 0 ≤ x) (h1 : x < GridSize) : x.toNat < GridSize := by
  omega

theorem placeEntity_guard {x y : Int} (hx0 : 0 ≤ x) (hx1 : x < GridSize) (hy0 : 0 ≤ y)
    (hy1 : y < GridSize) : ¬ (x < 0 ∨ x ≥ GridSize ∨ y < 0 ∨ y ≥ GridSize) := by
  omega

/-- Every cell of the terrain layer of a freshly made world carries code 0. -/
theorem withTribes_terrain (m : List (Nat × TribeConfig)) (j : Nat) :
    (withTribes m).Terrain.getD j 0 = 0 := by
  simp only [withTribes, New, List.getD_eq_getElem?_getD, List.getElem?_replicate]
  split <;> rfl

/-- C1: on an in-range cell whose terrain is the home terrain of no registered
faction, or which is occupied, `PlaceEntity` with type 3 returns false and the
world returned is the world given (terrain, entities, cooldowns, counters and all
the rest). -/
theorem PlaceEntity_spawn_rejected (w : World) (x y : Int) (hk : KeysNodup w.Tribes)
    (hx0 : 0 ≤ x) (hx1 : x < GridSize) (hy0 : 0 ≤ y) (hy1 : y < GridSize)
    (h : (∀ g cfg, lookupTribe w.Tribes g = some cfg →
            cfg.HomeTerrain ≠ w.Terrain.getD (y.toNat * GridSize + x.toNat) 0) ∨
         (getCell w.Entities x.toNat y.toNat none).isSome = true) :
    PlaceEntity w x y 3 = (w, false) := by
  unfold PlaceEntity
  rw [if_neg (placeEntity_guard hx0 hx1 hy0 hy1)]
  simp only [show ¬ (3 > 10) by decide, if_false, show ¬ ((3 : Nat) = 0) by decide,
    show ¬ ((3 : Nat) = 1 ∨ (3 : Nat) = 2 ∨ (3 : Nat) = 4 ∨ (3 : Nat) = 9 ∨ (3 : Nat) = 10)
      by decide, if_true]
  cases hg : GetTribeFromHomeTerrain w (w.Terrain.getD (y.toNat * GridSize + x.toNat) 0) with
  | none => rfl
  | some tribe =>
    simp only []
    rcases h with h | h
    · obtain ⟨cfg, hm, ht⟩ := homeLoop_some hg
      exact absurd ht (h tribe cfg (lookupTribe_of_mem hk hm))
    · rw [if_pos h]


/-- Witness of C1: on the vertical-split registry with an unpainted grid, cell (5, 5)
carries code 0, which is the home terrain of no faction. -/
theorem PlaceEntity_spawn_rejected_witness :
    KeysNodup (withTribes verticalTribes).Tribes ∧
    PlaceEntity (withTribes verticalTribes) 5 5 3 = (withTribes verticalTribes, false) :=
  ⟨by decide,
    PlaceEntity_spawn_rejected (withTribes verticalTribes) 5 5 (by decide) (by decide)
      (by decide) (by decide) (by decide)
      (Or.inl (by
        intro g cfg hl
        have hm := lookupTribe_mem hl
        simp only [withTribes, verticalTribes, List.mem_cons, Prod.mk.injEq,
          List.mem_nil_iff, or_false] at hm
        rw [withTribes_terrain]
        rcases hm with ⟨_, rfl⟩ | ⟨_, rfl⟩ <;> decide))⟩


theorem New_WF : New.WF := by
  refine ⟨⟨?_, ?_⟩, ?_, ⟨?_, ?_⟩, ⟨?_, ?_⟩⟩
  · simp [New]
  · intro r hr
    simp only [New] at hr
    rw [List.eq_of_mem_replicate hr, List.length_replicate]
  · simp [New]
  · simp [New]
  · intro r hr
    simp only [New] at hr
    rw [List.eq_of_mem_replicate hr, List.length_replicate]
  · simp [New]
  · intro r hr
    simp only [New] at hr
    rw [List.eq_of_mem_replicate hr, List.length_replicate]

theorem withTribes_WF (m : List (Nat × TribeConfig)) : (withTribes m).WF := New_WF

/-- Every cell of a freshly made world is unoccupied. -/
theorem withTribes_entities (m : List (Nat × TribeConfig)) (x y : Nat) :
    getCell (withTribes m).Entities x y none = none := by
  simp only [withTribes, New, getCell, List.getD_eq_getElem?_getD, List.getElem?_replicate]
  split
  · simp only [Option.getD_some, List.getElem?_replicate]
    split <;> rfl
  · rfl

/-- C2: with a coordinate outside `[0, 100)` or a type above 10, `PlaceEntity`
returns false and the world returned is the world given; `GetEntity` with a
coordinate outside `[0, 100)` returns no entity. -/
theorem PlaceEntity_invalid_rejected (w : World) (x y : Int) (typ : Nat) :
    ((x < 0 ∨ x ≥ GridSize ∨ y < 0 ∨ y ≥ GridSize) ∨ typ > 10 →
      PlaceEntity w x y typ = (w, false)) ∧
    ((x < 0 ∨ x ≥ GridSize ∨ y < 0 ∨ y ≥ GridSize) → GetEntity w x y = none) := by
  constructor
  · intro h
    unfold PlaceEntity
    by_cases hr : x < 0 ∨ x ≥ GridSize ∨ y < 0 ∨ y ≥ GridSize
    · rw [if_pos hr]
    · rw [if_neg hr]
      rcases h with h | h
      · exact absurd h hr
      · rw [if_pos h]
  · intro h
    unfold GetEntity
    rw [if_pos h]

/-- Witness of C2: column -1 with a valid type, type 11 on a valid cell, and a
query at column 100. -/
theorem PlaceEntity_invalid_rejected_witness :
    PlaceEntity New (-1) 0 3 = (New, false) ∧ PlaceEntity New 5 5 11 = (New, false) ∧
    GetEntity New 100 0 = none :=
  ⟨(PlaceEntity_invalid_rejected New (-1) 0 3).1 (Or.inl (Or.inl (by decide))),
   (PlaceEntity_invalid_rejected New 5 5 11).1 (Or.inr (by decide)),
   (PlaceEntity_invalid_rejected New 100 0 0).2 (Or.inr (Or.inl (by decide)))⟩

/-- The terrain-painting branches of `PlaceEntity`, as one equation. -/
theorem placeEntity_paint_eq (w : World) (x y : Int) (typ : Nat)
    (hx0 : 0 ≤ x) (hx1 : x < GridSize) (hy0 : 0 ≤ y) (hy1 : y < GridSize)
    (ht : typ = 0 ∨ typ = 1 ∨ typ = 2 ∨ typ = 4 ∨ typ = 6 ∨ typ = 7 ∨ typ = 8 ∨ typ = 9 ∨
      typ = 10) :
    PlaceEntity w x y typ = (paintCell w x.toNat y.toNat typ, true) := by
  unfold PlaceEntity
  rw [if_neg (placeEntity_guard hx0 hx1 hy0 hy1)]
  rcases ht with h | h | h | h | h | h | h | h | h <;> subst h <;> simp

/-- The spawning branch of `PlaceEntity`, as one equation. -/
theorem placeEntity_spawn_eq (w : World) (x y : Int) (g : Nat)
    (hx0 : 0 ≤ x) (hx1 : x < GridSize) (hy0 : 0 ≤ y) (hy1 : y < GridSize)
    (hfree : getCell w.Entities x.toNat y.toNat none = none)
    (hg : GetTribeFromHomeTerrain w (w.Terrain.getD (y.toNat * GridSize + x.toNat) 0) = some g) :
    PlaceEntity w x y 3 = (spawnAt w x.toNat y.toNat g, true) := by
  unfold PlaceEntity
  rw [if_neg (placeEntity_guard hx0 hx1 hy0 hy1)]
  simp only [show ¬ (3 > 10) by decide, if_false, show ¬ ((3 : Nat) = 0) by decide,
    show ¬ ((3 : Nat) = 1 ∨ (3 : Nat) = 2 ∨ (3 : Nat) = 4 ∨ (3 : Nat) = 9 ∨ (3 : Nat) = 10)
      by decide, if_true, hg, hfree, Option.isSome_none, Bool.false_eq_true]

/-- Distinct in-range cells have distinct flat indices. -/
theorem flatIndex_ne {x y x2 y2 : Nat} (hx : x < GridSize) (hx2 : x2 < GridSize)
    (h : x2 ≠ x ∨ y2 ≠ y) : y * GridSize + x ≠ y2 * GridSize + x2 := by
  unfold GridSize at *
  omega

/-- Painting keeps the shape of the world. -/
theorem paintCell_WF {w : World} (hwf : w.WF) (x y typ : Nat) : (paintCell w x y typ).WF := by
  refine ⟨GridWF_setCell hwf.1 _ _ _, ?_, GridWF_setCell hwf.2.2.1 _ _ _, hwf.2.2.2⟩
  simp only [paintCell, List.length_set]
  exact hwf.2.1

/-- What painting does to the painted cell. -/
theorem paintCell_self {w : World} (hwf : w.WF) {x y : Nat} (typ : Nat)
    (hx : x < GridSize) (hy : y < GridSize) :
    (paintCell w x y typ).Terrain.getD (y * GridSize + x) 0 = typ ∧
    getCell (paintCell w x y typ).Entities x y none = none ∧
    getCell (paintCell w x y typ).lastReprodTime x y 0 = 0 := by
  obtain ⟨hE, hT, hR, _⟩ := hwf
  refine ⟨?_, ?_, ?_⟩
  · simp only [paintCell]
    apply getD_set_self
    rw [hT]
    unfold GridSize at *
    omega
  · simp only [paintCell]
    apply getCell_setCell_self
    · rw [hE.1]; exact hy
    · rw [GridWF_row hE hy]; exact hx
  · simp only [paintCell]
    apply getCell_setCell_self
    · rw [hR.1]; exact hy
    · rw [GridWF_row hR hy]; exact hx

/-- What painting leaves alone. -/
theorem paintCell_other (w : World) {x y : Nat} (typ : Nat) (hx : x < GridSize)
    {x2 y2 : Nat} (hx2 : x2 < GridSize) (hne : x2 ≠ x ∨ y2 ≠ y) :
    (paintCell w x y typ).Terrain.getD (y2 * GridSize + x2) 0
        = w.Terrain.getD (y2 * GridSize + x2) 0 ∧
    getCell (paintCell w x y typ).Entities x2 y2 none = getCell w.Entities x2 y2 none ∧
    getCell (paintCell w x y typ).lastReprodTime x2 y2 0
        = getCell w.lastReprodTime x2 y2 0 := by
  refine ⟨?_, ?_, ?_⟩
  · simp only [paintCell]
    exact getD_set_ne _ _ _ _ _ (flatIndex_ne hx hx2 hne)
  · simp only [paintCell]
    exact getCell_setCell_ne _ _ _ _ _ _ _ hne
  · simp only [paintCell]
    exact getCell_setCell_ne _ _ _ _ _ _ _ hne

/-- C4: for an in-range cell of a well-formed world and a type among 0, 1, 2, 4,
6, 7, 8, 9, 10, `PlaceEntity` returns true, the cell then carries that terrain
code, has no occupant and an empty reproduction timestamp, and every other
in-range cell keeps its terrain code, its occupant and its timestamp. -/
theorem PlaceEntity_paint (w : World) (x y : Int) (typ : Nat) (hwf : w.WF)
    (hx0 : 0 ≤ x) (hx1 : x < GridSize) (hy0 : 0 ≤ y) (hy1 : y < GridSize)
    (ht : typ = 0 ∨ typ = 1 ∨ typ = 2 ∨ typ = 4 ∨ typ = 6 ∨ typ = 7 ∨ typ = 8 ∨ typ = 9 ∨
      typ = 10) :
    (PlaceEntity w x y typ).2 = true ∧
    (PlaceEntity w x y typ).1.Terrain.getD (y.toNat * GridSize + x.toNat) 0 = typ ∧
    getCell (PlaceEntity w x y typ).1.Entities x.toNat y.toNat none = none ∧
    getCell (PlaceEntity w x y typ).1.lastReprodTime x.toNat y.toNat 0 = 0 ∧
    ∀ x2 y2 : Nat, x2 < GridSize → y2 < GridSize → (x2 ≠ x.toNat ∨ y2 ≠ y.toNat) →
      (PlaceEntity w x y typ).1.Terrain.getD (y2 * GridSize + x2) 0
          = w.Terrain.getD (y2 * GridSize + x2) 0 ∧
      getCell (PlaceEntity w x y typ).1.Entities x2 y2 none = getCell w.Entities x2 y2 none ∧
      getCell (PlaceEntity w x y typ).1.lastReprodTime x2 y2 0
          = getCell w.lastReprodTime x2 y2 0 := by
  have hxn := inRange_toNat hx0 hx1
  have hyn := inRange_toNat hy0 hy1
  rw [placeEntity_paint_eq w x y typ hx0 hx1 hy0 hy1 ht]
  obtain ⟨h1, h2, h3⟩ := paintCell_self hwf typ hxn hyn
  exact ⟨rfl, h1, h2, h3, fun x2 y2 hx2 _ hne => paintCell_other w typ hxn hx2 hne⟩

/-- Witness of C4: painting blue (2) on cell (5, 5) of the empty world. -/
theorem PlaceEntity_paint_witness :
    New.WF ∧ (PlaceEntity New 5 5 2).2 = true ∧
    (PlaceEntity New 5 5 2).1.Terrain.getD ((5 : Int).toNat * GridSize + (5 : Int).toNat) 0 = 2 :=
  ⟨New_WF,
    (PlaceEntity_paint New 5 5 2 New_WF (by decide) (by decide) (by decide) (by decide)
      (by decide)).1,
    (PlaceEntity_paint New 5 5 2 New_WF (by decide) (by decide) (by decide) (by decide)
      (by decide)).2.1⟩


/-- C3, refuted as stated: in a world where the registered factions 1 and 2 share
home terrain 0, cell (5, 5) is in range, unoccupied and carries the home terrain of
faction 2, yet the entity placed belongs to faction 1; when the registry is visited
in the other order the entity belongs to faction 2 although the cell equally
carries the home terrain of faction 1. -/
theorem PlaceEntity_spawn_claim_fails :
    (lookupTribe sharedHomeWorld.Tribes 2 = some (customNorsca 0) ∧
      (customNorsca 0).HomeTerrain = sharedHomeWorld.Terrain.getD (5 * GridSize + 5) 0 ∧
      getCell sharedHomeWorld.Entities 5 5 none = none ∧
      getCell (PlaceEntity sharedHomeWorld 5 5 3).1.Entities 5 5 none
        = some (freshEntity 1 1 0) ∧
      (freshEntity 1 1 0).Tribe ≠ 2) ∧
    (lookupTribe sharedHomeWorldSwapped.Tribes 1 = some (customNomads 0) ∧
      (customNomads 0).HomeTerrain = sharedHomeWorldSwapped.Terrain.getD (5 * GridSize + 5) 0 ∧
      getCell sharedHomeWorldSwapped.Entities 5 5 none = none ∧
      getCell (PlaceEntity sharedHomeWorldSwapped 5 5 3).1.Entities 5 5 none
        = some (freshEntity 2 1 0) ∧
      (freshEntity 2 1 0).Tribe ≠ 1) := by
  have hcell : ∀ m, getCell (withTribes m).Entities (5 : Int).toNat (5 : Int).toNat none = none :=
    fun m => withTribes_entities m _ _
  have hrow : ∀ m, (5 : Int).toNat < ((withTribes m).Entities.getD (5 : Int).toNat []).length := by
    intro m
    rw [GridWF_row (withTribes_WF m).1 (by decide)]
    decide
  have hlen : ∀ m, (5 : Int).toNat < (withTribes m).Entities.length := by
    intro m
    rw [(withTribes_WF m).1.1]
    decide
  refine ⟨⟨rfl, ?_, withTribes_entities _ _ _, ?_, by decide⟩,
    rfl, ?_, withTribes_entities _ _ _, ?_, by decide⟩
  · rw [sharedHomeWorld, withTribes_terrain]; rfl
  · rw [placeEntity_spawn_eq sharedHomeWorld 5 5 1 (by decide) (by decide) (by decide)
      (by decide) (hcell _) (by rw [sharedHomeWorld, withTribes_terrain]; rfl)]
    exact getCell_setCell_self _ _ _ _ _ (hlen _) (hrow _)
  · rw [sharedHomeWorldSwapped, withTribes_terrain]; rfl
  · rw [placeEntity_spawn_eq sharedHomeWorldSwapped 5 5 2 (by decide) (by decide) (by decide)
      (by decide) (hcell _) (by rw [sharedHomeWorldSwapped, withTribes_terrain]; rfl)]
    exact getCell_setCell_self _ _ _ _ _ (hlen _) (hrow _)

/-- C3, amended: on an in-range, unoccupied cell of a well-formed world whose
terrain is the home terrain of a registered faction `f`, `PlaceEntity` with type 3
returns true and the cell then holds an entity of a registered faction `g` whose
home terrain is that terrain (`g = f` when no other registered faction has this
home terrain), with health 100, no weapon, no armor, rank base, the base evasion
configured for `g`, and as ID the previous counter of `g` plus one modulo `2 ^ 32`
(the counter is 0 when `g` has none, and it is advanced to the ID); the terrain
layer is unchanged and every other cell keeps its occupant. -/
theorem PlaceEntity_spawn (w : World) (x y : Int) (f : Nat) (cfgF : TribeConfig)
    (hwf : w.WF) (hk : KeysNodup w.Tribes)
    (hx0 : 0 ≤ x) (hx1 : x < GridSize) (hy0 : 0 ≤ y) (hy1 : y < GridSize)
    (hfree : getCell w.Entities x.toNat y.toNat none = none)
    (hf : lookupTribe w.Tribes f = some cfgF)
    (hhome : cfgF.HomeTerrain = w.Terrain.getD (y.toNat * GridSize + x.toNat) 0) :
    ∃ g cfg, lookupTribe w.Tribes g = some cfg ∧
      cfg.HomeTerrain = w.Terrain.getD (y.toNat * GridSize + x.toNat) 0 ∧
      ((∀ g2 cfg2, lookupTribe w.Tribes g2 = some cfg2 →
          cfg2.HomeTerrain = cfgF.HomeTerrain → g2 = f) → g = f) ∧
      (PlaceEntity w x y 3).2 = true ∧
      getCell (PlaceEntity w x y 3).1.Entities x.toNat y.toNat none
        = some { Health := 100, Tribe := g, Weapon := WeaponNone, Armor := ArmorNone,
                 ID := (counterOf w g + 1) % 2 ^ 32, Evasion := cfg.BaseEvasion,
                 Rank := RankBase } ∧
      (counterOf w g + 1 < 2 ^ 32 → (counterOf w g + 1) % 2 ^ 32 = counterOf w g + 1) ∧
      counterOf (PlaceEntity w x y 3).1 g = (counterOf w g + 1) % 2 ^ 32 ∧
      (PlaceEntity w x y 3).1.Terrain = w.Terrain ∧
      ∀ x2 y2 : Nat, (x2 ≠ x.toNat ∨ y2 ≠ y.toNat) →
        getCell (PlaceEntity w x y 3).1.Entities x2 y2 none = getCell w.Entities x2 y2 none := by
  have hxn := inRange_toNat hx0 hx1
  have hyn := inRange_toNat hy0 hy1
  cases hg : GetTribeFromHomeTerrain w (w.Terrain.getD (y.toNat * GridSize + x.toNat) 0) with
  | none =>
    exact absurd hhome ((homeLoop_none_iff _ _).1 hg f cfgF (lookupTribe_mem hf))
  | some g =>
    obtain ⟨cfg, hm, ht⟩ := homeLoop_some hg
    have hl := lookupTribe_of_mem hk hm
    rw [placeEntity_spawn_eq w x y g hx0 hx1 hy0 hy1 hfree hg]
    refine ⟨g, cfg, hl, ht, ?_, rfl, ?_, ?_, ?_, rfl, ?_⟩
    · intro huniq
      exact huniq g cfg hl (ht.trans hhome.symm)
    · simp only [spawnAt, hl, Option.getD_some]
      apply getCell_setCell_self
      · rw [hwf.1.1]; exact hyn
      · rw [GridWF_row hwf.1 hyn]; exact hxn
    · intro hlt
      exact Nat.mod_eq_of_lt hlt
    · simp [spawnAt, counterOf, setKey]
    · intro x2 y2 hne
      simp only [spawnAt]
      exact getCell_setCell_ne _ _ _ _ _ _ _ hne

/-- Witness of the amended C3: on the vertical-split registry, with cell (5, 5)
painted red (1), a type-3 placement there succeeds. -/
theorem PlaceEntity_spawn_witness :
    redCellWorld.WF ∧ KeysNodup redCellWorld.Tribes ∧
    ∃ g cfg, lookupTribe redCellWorld.Tribes g = some cfg ∧
      (PlaceEntity redCellWorld 5 5 3).2 = true :=
  have hwf : redCellWorld.WF := paintCell_WF (withTribes_WF _) _ _ _
  have hs := paintCell_self (withTribes_WF verticalTribes) 1
    (show 5 < GridSize by decide) (show 5 < GridSize by decide)
  have hres := PlaceEntity_spawn redCellWorld 5 5 1 (verticalTribes.head (by decide)).2 hwf
    (by decide) (by decide) (by decide) (by decide) (by decide) hs.2.1 rfl
    (by rw [show (5 : Int).toNat = 5 from rfl]; exact hs.1.symm)
  ⟨hwf, by decide, by
    obtain ⟨g, cfg, h1, _, _, h4, _⟩ := hres
    exact ⟨g, cfg, h1, h4⟩⟩

/-! ## Snapshot -/

/-- One row of the copy loop keeps the length of the buffer. -/
theorem fillRow_length (f : Nat → Nat → Nat) (y cols : Nat) (buf : List Nat) :
    ((List.range cols).foldl (fun cg x => cg.set (y * GridSize + x) (f x y)) buf).length
      = buf.length := by
  induction cols with
  | zero => simp
  | succ n ih => rw [List.range_succ, List.foldl_append]; simpa using ih

/-- One row of the copy loop: the entries it has written and the entries it has
left alone. -/
theorem fillRow_get (f : Nat → Nat → Nat) (y cols : Nat) (buf : List Nat) (j : Nat) :
    ((List.range cols).foldl (fun cg x => cg.set (y * GridSize + x) (f x y)) buf)[j]?
      = if y * GridSize ≤ j ∧ j < y * GridSize + cols ∧ j < buf.length
        then some (f (j - y * GridSize) y) else buf[j]? := by
  induction cols with
  | zero =>
    have hno : ¬ (y * GridSize ≤ j ∧ j < y * GridSize + 0 ∧ j < buf.length) := by omega
    rw [if_neg hno]
    rfl
  | succ n ih =>
    rw [List.range_succ, List.foldl_append]
    simp only [List.foldl_cons, List.foldl_nil]
    rw [List.getElem?_set, fillRow_length]
    by_cases hj : y * GridSize + n = j
    · subst hj
      by_cases hl : y * GridSize + n < buf.length
      · simp [hl]
      · have hn : buf[y * GridSize + n]? = none := by
          rw [List.getElem?_eq_none_iff]; omega
        simp [hl, hn]
    · rw [if_neg hj, ih]
      by_cases hc : y * GridSize ≤ j ∧ j < y * GridSize + n ∧ j < buf.length
      · rw [if_pos hc, if_pos (by omega)]
      · rw [if_neg hc, if_neg (by omega)]

theorem fillLoop_succ (f : Nat → Nat → Nat) (rows cols : Nat) (buf : List Nat) :
    fillLoop f (rows + 1) cols buf
      = (List.range cols).foldl (fun cg x => cg.set (rows * GridSize + x) (f x rows))
          (fillLoop f rows cols buf) := by
  unfold fillLoop
  rw [List.range_succ, List.foldl_append]
  rfl

theorem fillLoop_length (f : Nat → Nat → Nat) (rows cols : Nat) (buf : List Nat) :
    (fillLoop f rows cols buf).length = buf.length := by
  induction rows with
  | zero => simp [fillLoop]
  | succ n ih => rw [fillLoop_succ, fillRow_length, ih]

/-- The copy loop after `rows` full rows: entry `j` below `rows * GridSize` holds
the byte of cell `(j % GridSize, j / GridSize)`. -/
theorem fillLoop_get (f : Nat → Nat → Nat) (rows : Nat) (buf : List Nat) (j : Nat) :
    (fillLoop f rows GridSize buf)[j]?
      = if j < rows * GridSize ∧ j < buf.length
        then some (f (j % GridSize) (j / GridSize)) else buf[j]? := by
  induction rows with
  | zero =>
    have hno : ¬ (j < 0 * GridSize ∧ j < buf.length) := by omega
    rw [if_neg hno]
    rfl
  | succ n ih =>
    rw [fillLoop_succ, fillRow_get, fillLoop_length, ih]
    by_cases h1 : n * GridSize ≤ j ∧ j < n * GridSize + GridSize ∧ j < buf.length
    · rw [if_pos h1, if_pos ⟨by rw [Nat.succ_mul]; omega, h1.2.2⟩]
      have hq : j / GridSize = n := by
        apply Nat.div_eq_of_lt_le
        · rw [Nat.mul_comm] at h1; rw [Nat.mul_comm]; exact h1.1
        · rw [Nat.succ_mul]; exact h1.2.1
      have hr : j % GridSize = j - n * GridSize := by
        have := Nat.div_add_mod j GridSize
        rw [hq, Nat.mul_comm] at this
        omega
      rw [hq, hr]
    · rw [if_neg h1]
      by_cases h2 : j < n * GridSize ∧ j < buf.length
      · rw [if_pos h2, if_pos ⟨by rw [Nat.succ_mul]; omega, h2.2⟩]
      · rw [if_neg h2, if_neg]
        rw [Nat.succ_mul]
        omega

/-- The snapshot has one byte per cell and entry `y * GridSize + x` is the byte of
cell `(x, y)`. -/
theorem getGridCopy_get (w : World) :
    (GetGridCopy w).length = GridSize * GridSize ∧
    ∀ x y : Nat, x < GridSize → y < GridSize →
      (GetGridCopy w).getD (y * GridSize + x) 0 = snapshotByte w x y := by
  constructor
  · unfold GetGridCopy
    rw [fillLoop_length, List.length_replicate]
  · intro x y hx hy
    unfold GetGridCopy
    rw [List.getD_eq_getElem?_getD, fillLoop_get, List.length_replicate]
    have hlt : y * GridSize + x < GridSize * GridSize := by
      unfold GridSize at *
      nlinarith
    rw [if_pos ⟨hlt, hlt⟩]
    have hq : (y * GridSize + x) / GridSize = y := by
      unfold GridSize at *
      omega
    have hr : (y * GridSize + x) % GridSize = x := by
      unfold GridSize at *
      omega
    rw [hq, hr]
    rfl


/-- C5, refuted as stated: in `orphanWorld` cell (5, 5) is occupied by an entity of
faction 1, the registry has no entry (hence no display code) for faction 1, and
the snapshot byte of the cell is the fallback 3, which is not the display code a
plain map read would give for the missing entry either. -/
theorem GetGridCopy_claim_fails :
    getCell orphanWorld.Entities 5 5 none = some (freshEntity 1 1 0) ∧
    (¬ ∃ cfg, lookupTribe orphanWorld.Tribes (freshEntity 1 1 0).Tribe = some cfg ∧
        (GetGridCopy orphanWorld).getD (5 * GridSize + 5) 0 = cfg.EntityVizCode) ∧
    (GetGridCopy orphanWorld).getD (5 * GridSize + 5) 0 = 3 ∧
    (GetGridCopy orphanWorld).getD (5 * GridSize + 5) 0 ≠ TribeConfig.zero.EntityVizCode := by
  have hwf : redCellWorld.WF := paintCell_WF (withTribes_WF _) _ _ _
  have hcell : getCell orphanWorld.Entities 5 5 none = some (freshEntity 1 1 0) := by
    have h5 : (5 : Nat) < GridSize := by decide
    exact getCell_setCell_self _ _ _ _ _ (by rw [hwf.1.1]; exact h5)
      (by rw [GridWF_row hwf.1 h5]; exact h5)
  have hbyte : (GetGridCopy orphanWorld).getD (5 * GridSize + 5) 0 = 3 := by
    rw [(getGridCopy_get orphanWorld).2 5 5 (by decide) (by decide)]
    unfold snapshotByte
    rw [hcell]
    rfl
  refine ⟨hcell, ?_, hbyte, ?_⟩
  · rintro ⟨cfg, hl, _⟩
    cases hl
  · rw [hbyte]
    decide

/-- C5, amended: the snapshot has exactly `100 * 100` entries; entry `y * 100 + x`
is the display code of the occupant's faction when the cell is occupied by an
entity of a registered faction, the fallback code 3 when it is occupied by an
entity of a faction that is not registered, and the terrain code of the cell when
it is unoccupied.  (`GetGridCopy` only reads the world: the embedding returns the
copy and the world is untouched.) -/
theorem GetGridCopy_bytes (w : World) :
    (GetGridCopy w).length = GridSize * GridSize ∧
    ∀ x y : Nat, x < GridSize → y < GridSize →
      (∀ ent cfg, getCell w.Entities x y none = some ent →
        lookupTribe w.Tribes ent.Tribe = some cfg →
        (GetGridCopy w).getD (y * GridSize + x) 0 = cfg.EntityVizCode) ∧
      (∀ ent, getCell w.Entities x y none = some ent →
        lookupTribe w.Tribes ent.Tribe = none →
        (GetGridCopy w).getD (y * GridSize + x) 0 = 3) ∧
      (getCell w.Entities x y none = none →
        (GetGridCopy w).getD (y * GridSize + x) 0 = w.Terrain.getD (y * GridSize + x) 0) := by
  refine ⟨(getGridCopy_get w).1, ?_⟩
  intro x y hx hy
  rw [(getGridCopy_get w).2 x y hx hy]
  unfold snapshotByte
  refine ⟨?_, ?_, ?_⟩
  · intro ent cfg he hc
    rw [he]
    simp only [hc]
  · intro ent he hc
    rw [he]
    simp only [hc]
  · intro he
    rw [he]

/-- Witness of the amended C5: in the world with one red cell at (5, 5) and no
entity, the snapshot byte of that cell is its terrain code. -/
theorem GetGridCopy_bytes_witness :
    (5 : Nat) < GridSize ∧ getCell redCellWorld.Entities 5 5 none = none ∧
    (GetGridCopy redCellWorld).getD (5 * GridSize + 5) 0
      = redCellWorld.Terrain.getD (5 * GridSize + 5) 0 :=
  have hfree : getCell redCellWorld.Entities 5 5 none = none :=
    (paintCell_self (withTribes_WF verticalTribes) 1
      (show 5 < GridSize by decide) (show 5 < GridSize by decide)).2.1
  ⟨by decide, hfree,
    ((GetGridCopy_bytes redCellWorld).2 5 5 (by decide) (by decide)).2.2 hfree⟩


/-! ## Loop nests -/

theorem getCell_setCell_cases {α : Type} (g : List (List α)) (x y x2 y2 : Nat) (v d : α) :
    getCell (setCell g x y v) x2 y2 d = v ∨
    getCell (setCell g x y v) x2 y2 d = getCell g x2 y2 d := by
  by_cases hne : x2 ≠ x ∨ y2 ≠ y
  · exact Or.inr (getCell_setCell_ne g x y x2 y2 v d hne)
  · have hx : x2 = x := by
      by_contra h
      exact hne (Or.inl h)
    have hy : y2 = y := by
      by_contra h
      exact hne (Or.inr h)
    subst hx
    subst hy
    by_cases hl : y2 < g.length
    · by_cases hr : x2 < (g.getD y2 []).length
      · exact Or.inl (getCell_setCell_self g x2 y2 v d hl hr)
      · right
        unfold getCell setCell
        rw [getD_set_self _ _ _ _ hl, List.set_eq_of_length_le (Nat.le_of_not_lt hr)]
    · right
      unfold getCell setCell
      rw [List.set_eq_of_length_le (Nat.le_of_not_lt hl)]

theorem loopCells_succ {σ : Type} (rows cols : Nat) (body : Nat → Nat → σ → σ) (s : σ) :
    loopCells (rows + 1) cols body s
      = (List.range cols).foldl (fun s x => body x rows s) (loopCells rows cols body s) := by
  unfold loopCells
  rw [List.range_succ, List.foldl_append]
  rfl

/-- An invariant of the body is an invariant of one row of the loop nest. -/
theorem rowLoop_inv {σ : Type} (body : Nat → Nat → σ → σ) (I : σ → Prop) (y : Nat)
    (hI : ∀ x s, I s → I (body x y s)) (cols : Nat) (s : σ) (hs : I s) :
    I ((List.range cols).foldl (fun s x => body x y s) s) := by
  induction cols with
  | zero => exact hs
  | succ n ih =>
    rw [List.range_succ, List.foldl_append]
    exact hI n _ ih

/-- An invariant of the body is an invariant of the loop nest. -/
theorem loopCells_inv {σ : Type} (body : Nat → Nat → σ → σ) (I : σ → Prop)
    (hI : ∀ x y s, I s → I (body x y s)) (rows cols : Nat) (s : σ) (hs : I s) :
    I (loopCells rows cols body s) := by
  induction rows with
  | zero => exact hs
  | succ n ih =>
    rw [loopCells_succ]
    exact rowLoop_inv body I n (fun x s h => hI x n s h) cols _ ih

/-- One row of a loop nest whose body, at cell `(x, y)`, changes the observation
`π` only when `(x, y)` is the observed cell `(cx, cy)`, and there by `F`. -/
theorem rowLoop_local {σ β : Type} (body : Nat → Nat → σ → σ) (π : σ → β) (F : β → β)
    (I : σ → Prop) (cx cy y : Nat)
    (hI : ∀ x s, I s → I (body x y s))
    (hother : ∀ x s, x < GridSize → I s → (x ≠ cx ∨ y ≠ cy) → π (body x y s) = π s)
    (hself : ∀ s, I s → y = cy → π (body cx y s) = F (π s))
    (cols : Nat) (hc : cols ≤ GridSize) (s : σ) (hs : I s) :
    π ((List.range cols).foldl (fun s x => body x y s) s)
      = if y = cy ∧ cx < cols then F (π s) else π s := by
  induction cols with
  | zero =>
    have hno : ¬ (y = cy ∧ cx < 0) := by omega
    rw [if_neg hno]
    rfl
  | succ n ih =>
    rw [List.range_succ, List.foldl_append]
    simp only [List.foldl_cons, List.foldl_nil]
    have hprev := ih (by omega)
    have hinv := rowLoop_inv body I y hI n s hs
    by_cases hxy : n = cx ∧ y = cy
    · obtain ⟨hn, hy⟩ := hxy
      subst hn
      rw [hself _ hinv hy, hprev, if_neg (by omega), if_pos ⟨hy, by omega⟩]
    · have hne : n ≠ cx ∨ y ≠ cy := by
        by_contra h
        exact hxy ⟨by_contra fun h1 => h (Or.inl h1), by_contra fun h2 => h (Or.inr h2)⟩
      rw [hother n _ (by omega) hinv hne, hprev]
      by_cases hcond : y = cy ∧ cx < n
      · rw [if_pos hcond, if_pos ⟨hcond.1, by omega⟩]
      · rw [if_neg hcond, if_neg]
        rintro ⟨h1, h2⟩
        have : cx ≠ n := fun e => hxy ⟨e.symm, h1⟩
        exact hcond ⟨h1, by omega⟩

/-- A loop nest whose body, at cell `(x, y)`, changes the observation `π` only when
`(x, y)` is the observed cell, and there by `F`: over the whole grid, the
observation of an in-range cell is changed exactly once. -/
theorem loopCells_local {σ β : Type} (body : Nat → Nat → σ → σ) (π : σ → β) (F : β → β)
    (I : σ → Prop) (cx cy : Nat)
    (hI : ∀ x y s, I s → I (body x y s))
    (hother : ∀ x y s, x < GridSize → I s → (x ≠ cx ∨ y ≠ cy) → π (body x y s) = π s)
    (hself : ∀ s, I s → π (body cx cy s) = F (π s))
    (rows : Nat) (s : σ) (hs : I s) :
    π (loopCells rows GridSize body s) = if cy < rows ∧ cx < GridSize then F (π s) else π s := by
  induction rows with
  | zero =>
    have hno : ¬ (cy < 0 ∧ cx < GridSize) := by omega
    rw [if_neg hno]
    rfl
  | succ n ih =>
    rw [loopCells_succ]
    have hinv := loopCells_inv body I hI n GridSize s hs
    rw [rowLoop_local body π F I cx cy n (fun x s h => hI x n s h)
      (fun x s hx h hne => hother x n s hx h hne)
      (fun s h hy => by subst hy; exact hself s h) GridSize (Nat.le_refl _) _ hinv, ih]
    by_cases hn : n = cy
    · subst hn
      by_cases hx : cx < GridSize
      · rw [if_pos ⟨rfl, hx⟩, if_neg (by omega), if_pos ⟨by omega, hx⟩]
      · rw [if_neg (by tauto), if_neg (by tauto), if_neg (by tauto)]
    · rw [if_neg (by tauto)]
      by_cases hcond : cy < n ∧ cx < GridSize
      · rw [if_pos hcond, if_pos ⟨by omega, hcond.2⟩]
      · rw [if_neg hcond, if_neg]
        rintro ⟨h1, h2⟩
        exact hcond ⟨by omega, h2⟩

/-- A loop nest whose body adds `δ x y` to the observation `m`: the loop adds the
sum of `δ` over the cells visited. -/
theorem loopCells_additive {σ : Type} (body : Nat → Nat → σ → σ) (m : σ → Int)
    (δ : Nat → Nat → Int) (I : σ → Prop)
    (hI : ∀ x y s, I s → I (body x y s))
    (hstep : ∀ x y s, I s → m (body x y s) = m s + δ x y)
    (rows cols : Nat) (s : σ) (hs : I s) :
    m (loopCells rows cols body s)
      = m s + ∑ y in Finset.range rows, ∑ x in Finset.range cols, δ x y := by
  have hrow : ∀ (y n : Nat) (s : σ), I s →
      m ((List.range n).foldl (fun s x => body x y s) s)
        = m s + ∑ x in Finset.range n, δ x y := by
    intro y n s hs
    induction n with
    | zero => simp
    | succ k ih =>
      rw [List.range_succ, List.foldl_append]
      simp only [List.foldl_cons, List.foldl_nil]
      rw [hstep k y _ (rowLoop_inv body I y (fun x s h => hI x y s h) k s hs), ih,
        Finset.sum_range_succ]
      ring
  induction rows with
  | zero => simp [loopCells]
  | succ n ih =>
    rw [loopCells_succ, hrow n cols _ (loopCells_inv body I hI n cols s hs), ih,
      Finset.sum_range_succ]
    ring


/-! ## The conflict-phase tick -/

theorem cellOf_set_ents_self {st : Layers} (h : LayersWF st) {x y : Nat} (hx : x < GridSize)
    (hy : y < GridSize) (v : Option Entity) :
    getCell (setCell st.ents x y v) x y none = v :=
  getCell_setCell_self _ _ _ _ _ (by rw [h.1.1]; exact hy) (by rw [GridWF_row h.1 hy]; exact hx)

theorem cellOf_set_reprod_self {st : Layers} (h : LayersWF st) {x y : Nat} (hx : x < GridSize)
    (hy : y < GridSize) (v : Int) :
    getCell (setCell st.reprod x y v) x y 0 = v :=
  getCell_setCell_self _ _ _ _ _ (by rw [h.2.1]; exact hy) (by rw [GridWF_row h.2 hy]; exact hx)

theorem applyWinner_WF (w : World) (d : WarDraws) (st : Layers) (key : Nat × Nat)
    (h : LayersWF st) : LayersWF (applyWinner w d st key) := by
  unfold applyWinner
  dsimp only []
  cases (moversTo d.moves key).get? (d.pick key.1 key.2 % (moversTo d.moves key).length) with
  | none => exact h
  | some winner =>
    exact ⟨GridWF_setCell (GridWF_setCell h.1 _ _ _) _ _ _,
      GridWF_setCell (GridWF_setCell h.2 _ _ _) _ _ _⟩

theorem foldl_inv {σ κ : Type} (f : σ → κ → σ) (I : σ → Prop) (hI : ∀ s k, I s → I (f s k))
    (l : List κ) (s : σ) (hs : I s) : I (l.foldl f s) := by
  induction l generalizing s with
  | nil => exact hs
  | cons k rest ih => exact ih _ (hI s k hs)

theorem resolveMoves_WF (w : World) (d : WarDraws) (hwf : w.WF) :
    LayersWF (resolveMoves w d) :=
  foldl_inv (applyWinner w d) LayersWF (fun s k h => applyWinner_WF w d s k h) _ _
    ⟨hwf.1, hwf.2.2.1⟩

/-- Move resolution creates no entity and alters none: every occupant of the grid
it leaves is, field for field, an occupant of the grid at the start of the tick. -/
theorem resolveMoves_from_start (w : World) (d : WarDraws) (x y : Nat) (e : Entity)
    (h : getCell (resolveMoves w d).ents x y none = some e) :
    ∃ x0 y0, getCell w.Entities x0 y0 none = some e := by
  have key : ∀ st : Layers,
      (∀ x y e, getCell st.ents x y none = some e →
        ∃ x0 y0, getCell w.Entities x0 y0 none = some e) →
      ∀ k, ∀ x y e, getCell (applyWinner w d st k).ents x y none = some e →
        ∃ x0 y0, getCell w.Entities x0 y0 none = some e := by
    intro st hst k x y e he
    unfold applyWinner at he
    dsimp only [] at he
    cases hm : (moversTo d.moves k).get? (d.pick k.1 k.2 % (moversTo d.moves k).length) with
    | none =>
      rw [hm] at he
      exact hst x y e he
    | some winner =>
      rw [hm] at he
      simp only [] at he
      rcases getCell_setCell_cases (setCell st.ents winner.toX winner.toY
          (getCell w.Entities winner.fromX winner.fromY none))
          winner.fromX winner.fromY x y none none with h1 | h1
      · rw [h1] at he
        cases he
      · rw [h1] at he
        rcases getCell_setCell_cases st.ents winner.toX winner.toY x y
            (getCell w.Entities winner.fromX winner.fromY none) none with h2 | h2
        · rw [h2] at he
          exact ⟨_, _, he⟩
        · rw [h2] at he
          exact hst x y e he
  exact foldl_inv (applyWinner w d)
    (fun st => ∀ x y e, getCell st.ents x y none = some e →
      ∃ x0 y0, getCell w.Entities x0 y0 none = some e)
    (fun s k hs => key s hs k) d.keyOrder _ (fun x y e he => ⟨x, y, he⟩) x y e h

theorem damageBody_WF (w : World) (acc : List (List Int)) (x y : Nat) (st : Layers)
    (h : LayersWF st) : LayersWF (damageBody w acc x y st) := by
  unfold damageBody
  cases getCell st.ents x y none with
  | none => exact h
  | some ent =>
    simp only []
    split
    · exact ⟨GridWF_setCell h.1 _ _ _, GridWF_setCell h.2 _ _ _⟩
    · exact ⟨GridWF_setCell h.1 _ _ _, h.2⟩

theorem damageBody_other (w : World) (acc : List (List Int)) (x y cx cy : Nat) (st : Layers)
    (hne : x ≠ cx ∨ y ≠ cy) : cellOf (damageBody w acc x y st) cx cy = cellOf st cx cy := by
  have hne2 : cx ≠ x ∨ cy ≠ y := by
    rcases hne with h | h
    · exact Or.inl (fun e => h e.symm)
    · exact Or.inr (fun e => h e.symm)
  unfold damageBody cellOf
  cases getCell st.ents x y none with
  | none => rfl
  | some ent =>
    simp only []
    split
    · simp only [getCell_setCell_ne _ _ _ _ _ _ _ hne2]
    · simp only [getCell_setCell_ne _ _ _ _ _ _ _ hne2]

theorem damageBody_self (w : World) (acc : List (List Int)) (cx cy : Nat) (st : Layers)
    (h : LayersWF st) (hx : cx < GridSize) (hy : cy < GridSize) :
    cellOf (damageBody w acc cx cy st) cx cy
      = damageCell w (getCell acc cx cy 0) (cellOf st cx cy) := by
  unfold damageBody damageCell cellOf
  cases hc : getCell st.ents cx cy none with
  | none => simp only [hc]
  | some ent =>
    simp only []
    split
    · simp only [cellOf_set_ents_self h hx hy, cellOf_set_reprod_self h hx hy]
    · simp only [cellOf_set_ents_self h hx hy]

/-- The damage loop, cell by cell. -/
theorem afterCombat_cell (w : World) (d : WarDraws) (hwf : w.WF) (cx cy : Nat)
    (hx : cx < GridSize) (hy : cy < GridSize) :
    cellOf (afterCombat w d) cx cy
      = damageCell w (getCell (damageAccum w d (resolveMoves w d).ents) cx cy 0)
          (cellOf (resolveMoves w d) cx cy) := by
  unfold afterCombat forCells
  rw [loopCells_local (damageBody w (damageAccum w d (resolveMoves w d).ents))
    (fun st => cellOf st cx cy)
    (damageCell w (getCell (damageAccum w d (resolveMoves w d).ents) cx cy 0)) LayersWF cx cy
    (fun x y s h => damageBody_WF w _ x y s h)
    (fun x y s _ _ hne => damageBody_other w _ x y cx cy s hne)
    (fun s h => damageBody_self w _ cx cy s h hx hy) GridSize _ (resolveMoves_WF w d hwf)]
  rw [if_pos ⟨hy, hx⟩]

theorem afterCombat_WF (w : World) (d : WarDraws) (hwf : w.WF) : LayersWF (afterCombat w d) :=
  loopCells_inv _ LayersWF (fun x y s h => damageBody_WF w _ x y s h) _ _ _
    (resolveMoves_WF w d hwf)

theorem attritionBody_WF (terrain : List Nat) (x y : Nat) (st : Layers)
    (h : LayersWF st) : LayersWF (attritionBody terrain x y st) := by
  unfold attritionBody
  cases getCell st.ents x y none with
  | none => exact h
  | some ent =>
    simp only []
    split
    · split
      · exact ⟨GridWF_setCell h.1 _ _ _, GridWF_setCell h.2 _ _ _⟩
      · exact ⟨GridWF_setCell h.1 _ _ _, h.2⟩
    · split
      · split
        · exact ⟨GridWF_setCell h.1 _ _ _, h.2⟩
        · exact ⟨GridWF_setCell h.1 _ _ _, h.2⟩
      · exact h

theorem attritionBody_other (terrain : List Nat) (x y cx cy : Nat) (st : Layers)
    (hne : x ≠ cx ∨ y ≠ cy) : cellOf (attritionBody terrain x y st) cx cy = cellOf st cx cy := by
  have hne2 : cx ≠ x ∨ cy ≠ y := by
    rcases hne with h | h
    · exact Or.inl (fun e => h e.symm)
    · exact Or.inr (fun e => h e.symm)
  unfold attritionBody cellOf
  cases getCell st.ents x y none with
  | none => rfl
  | some ent =>
    simp only []
    split
    · split <;> simp only [getCell_setCell_ne _ _ _ _ _ _ _ hne2]
    · split
      · split <;> simp only [getCell_setCell_ne _ _ _ _ _ _ _ hne2]
      · rfl

theorem attritionBody_self (terrain : List Nat) (cx cy : Nat) (st : Layers)
    (h : LayersWF st) (hx : cx < GridSize) (hy : cy < GridSize) :
    cellOf (attritionBody terrain cx cy st) cx cy
      = attritionCell (terrain.getD (cy * GridSize + cx) 0) (cellOf st cx cy) := by
  unfold attritionBody attritionCell cellOf
  cases hc : getCell st.ents cx cy none with
  | none => simp only [hc]
  | some ent =>
    simp only []
    split
    · split
      · simp only [cellOf_set_ents_self h hx hy, cellOf_set_reprod_self h hx hy]
      · simp only [cellOf_set_ents_self h hx hy]
    · split
      · split <;> simp only [cellOf_set_ents_self h hx hy]
      · simp only [hc]

/-- The attrition and regeneration loop, cell by cell. -/
theorem afterAttrition_cell (w : World) (d : WarDraws) (hwf : w.WF) (cx cy : Nat)
    (hx : cx < GridSize) (hy : cy < GridSize) :
    cellOf (afterAttrition w d) cx cy
      = attritionCell ((afterConversion w d).getD (cy * GridSize + cx) 0)
          (cellOf (afterCombat w d) cx cy) := by
  unfold afterAttrition forCells
  rw [loopCells_local (attritionBody (afterConversion w d))
    (fun st => cellOf st cx cy)
    (attritionCell ((afterConversion w d).getD (cy * GridSize + cx) 0)) LayersWF cx cy
    (fun x y s h => attritionBody_WF _ x y s h)
    (fun x y s _ _ hne => attritionBody_other _ x y cx cy s hne)
    (fun s h => attritionBody_self _ cx cy s h hx hy) GridSize _ (afterCombat_WF w d hwf)]
  rw [if_pos ⟨hy, hx⟩]

theorem victoryStep_entities (w : World) (terrain : List Nat) (final : Layers) :
    (victoryStep w terrain final).Entities = final.ents := by
  unfold victoryStep
  generalize aliveTribes final.ents = al
  rcases al with _ | ⟨t, _ | ⟨t2, rest⟩⟩
  · rfl
  · dsimp only []
    cases lookupTribe w.Tribes t <;> rfl
  · rfl

/-- The entity layer installed by a tick that is not frozen. -/
theorem updateConflict_entities (w : World) (d : WarDraws) (hgo : w.gameOver = false) :
    (UpdateConflict w d).Entities = (afterAttrition w d).ents := by
  unfold UpdateConflict
  rw [if_neg (by rw [hgo]; decide)]
  exact victoryStep_entities _ _ _

theorem cellOf_fst (st : Layers) (x y : Nat) :
    (cellOf st x y).1 = getCell st.ents x y none := rfl

theorem cellOf_snd (st : Layers) (x y : Nat) :
    (cellOf st x y).2 = getCell st.reprod x y 0 := rfl

/-! ## The fighting loop -/

theorem attackStep_WF (w : World) (d : WarDraws) (g : List (List (Option Entity)))
    (x y : Nat) (ent : Entity) (acc : List (List Int)) (kdir : Nat × (Int × Int))
    (h : GridWF acc) : GridWF (attackStep w d g x y ent acc kdir) := by
  unfold attackStep
  dsimp only []
  split
  · split
    · split
      · split
        · exact GridWF_setCell h _ _ _
        · exact h
      · exact h
    · exact h
  · exact h

/-- One attack adds `hitOn` to the accumulator of every in-range cell. -/
theorem attackStep_get (w : World) (d : WarDraws) (g : List (List (Option Entity)))
    (x y : Nat) (ent : Entity) (acc : List (List Int)) (kdir : Nat × (Int × Int))
    (cx cy : Nat) (h : GridWF acc) (hcx : cx < GridSize) (hcy : cy < GridSize) :
    getCell (attackStep w d g x y ent acc kdir) cx cy 0
      = getCell acc cx cy 0 + hitOn w d g cx cy x y ent kdir := by
  unfold attackStep hitOn
  dsimp only []
  by_cases hr : (x : Int) + kdir.2.1 ≥ 0 ∧ (x : Int) + kdir.2.1 < GridSize ∧
      (y : Int) + kdir.2.2 ≥ 0 ∧ (y : Int) + kdir.2.2 < GridSize
  · rw [if_pos hr]
    by_cases ht : ((x : Int) + kdir.2.1).toNat = cx ∧ ((y : Int) + kdir.2.2).toNat = cy
    · rw [if_pos ⟨hr, ht⟩, ht.1, ht.2]
      cases getCell g cx cy none with
      | none => simp
      | some nb =>
        dsimp only []
        by_cases h1 : nb.Tribe ≠ ent.Tribe
        · rw [if_pos h1, if_pos h1]
          by_cases h2 : d.hitRoll x y kdir.1 ≥ nb.Evasion
          · rw [if_pos h2, if_pos h2]
            exact getCell_setCell_self _ _ _ _ _ (by rw [h.1]; exact hcy)
              (by rw [GridWF_row h hcy]; exact hcx)
          · rw [if_neg h2, if_neg h2]
            simp
        · rw [if_neg h1, if_neg h1]
          simp
    · rw [if_neg (fun hh => ht hh.2)]
      have hne : cx ≠ ((x : Int) + kdir.2.1).toNat ∨ cy ≠ ((y : Int) + kdir.2.2).toNat := by
        by_contra hcon
        apply ht
        constructor
        · by_contra h1
          exact hcon (Or.inl (fun e => h1 e.symm))
        · by_contra h2
          exact hcon (Or.inr (fun e => h2 e.symm))
      rw [add_zero]
      split
      · split
        · split
          · exact getCell_setCell_ne _ _ _ _ _ _ _ hne
          · rfl
        · rfl
      · rfl
  · rw [if_neg hr, if_neg (fun hh => hr hh.1), add_zero]

theorem foldl_additive {σ κ : Type} (f : σ → κ → σ) (m : σ → Int) (δ : κ → Int)
    (I : σ → Prop) (hI : ∀ s k, I s → I (f s k))
    (hstep : ∀ s k, I s → m (f s k) = m s + δ k) (l : List κ) (s : σ) (hs : I s) :
    m (l.foldl f s) = m s + (l.map δ).sum := by
  induction l generalizing s with
  | nil => simp
  | cons k rest ih =>
    rw [List.foldl_cons, ih _ (hI s k hs), hstep s k hs, List.map_cons, List.sum_cons]
    ring

theorem fightBody_WF (w : World) (d : WarDraws) (g : List (List (Option Entity)))
    (x y : Nat) (acc : List (List Int)) (h : GridWF acc) : GridWF (fightBody w d g x y acc) := by
  unfold fightBody
  cases getCell g x y none with
  | none => exact h
  | some ent =>
    exact foldl_inv _ GridWF (fun s k hs => attackStep_WF w d g x y ent s k hs) _ _ h

/-- The body of the fighting loop at cell `(x, y)` adds `dealtTo` to the
accumulator of every in-range cell. -/
theorem fightBody_get (w : World) (d : WarDraws) (g : List (List (Option Entity)))
    (x y : Nat) (acc : List (List Int)) (cx cy : Nat) (h : GridWF acc)
    (hcx : cx < GridSize) (hcy : cy < GridSize) :
    getCell (fightBody w d g x y acc) cx cy 0
      = getCell acc cx cy 0 + dealtTo w d g cx cy x y := by
  unfold fightBody dealtTo
  cases getCell g x y none with
  | none => simp
  | some ent =>
    exact foldl_additive (attackStep w d g x y ent) (fun a => getCell a cx cy 0)
      (hitOn w d g cx cy x y ent) GridWF (fun s k hs => attackStep_WF w d g x y ent s k hs)
      (fun s k hs => attackStep_get w d g x y ent s k cx cy hs hcx hcy) _ acc h

theorem zeroGrid_WF : GridWF (List.replicate GridSize (List.replicate GridSize (0 : Int))) := by
  refine ⟨List.length_replicate _ _, ?_⟩
  intro r hr
  rw [List.eq_of_mem_replicate hr, List.length_replicate]

theorem zeroGrid_get (x y : Nat) :
    getCell (List.replicate GridSize (List.replicate GridSize (0 : Int))) x y 0 = 0 := by
  simp only [getCell, List.getD_eq_getElem?_getD, List.getElem?_replicate]
  split
  · simp only [Option.getD_some, List.getElem?_replicate]
    split <;> rfl
  · rfl

/-- The fighting loop, cell by cell: the damage accumulated on an in-range cell is
the sum, over all cells, of what their occupants deal to it. -/
theorem damageAccum_cell (w : World) (d : WarDraws) (g : List (List (Option Entity)))
    (cx cy : Nat) (hcx : cx < GridSize) (hcy : cy < GridSize) :
    getCell (damageAccum w d g) cx cy 0
      = ∑ y in Finset.range GridSize, ∑ x in Finset.range GridSize, dealtTo w d g cx cy x y := by
  unfold damageAccum forCells
  rw [loopCells_additive (fightBody w d g) (fun a => getCell a cx cy 0)
    (fun x y => dealtTo w d g cx cy x y) GridWF
    (fun x y s hs => fightBody_WF w d g x y s hs)
    (fun x y s hs => fightBody_get w d g x y s cx cy hs hcx hcy) GridSize GridSize _ zeroGrid_WF]
  rw [zeroGrid_get, zero_add]


/-! ## The conversion loop -/

theorem conversionBody_length (w : World) (d : WarDraws) (g : List (List (Option Entity)))
    (x y : Nat) (t : List Nat) :
    (conversionBody w d g x y t).length = t.length := by
  unfold conversionBody
  cases getCell g x y none with
  | none => rfl
  | some ent =>
    dsimp only []
    split
    · cases lookupTribe w.Tribes ent.Tribe with
      | none => rfl
      | some cfg => exact List.length_set _ _ _
    · rfl

theorem conversionBody_other (w : World) (d : WarDraws) (g : List (List (Option Entity)))
    (x y cx cy : Nat) (t : List Nat) (hx : x < GridSize) (hcx : cx < GridSize)
    (hne : x ≠ cx ∨ y ≠ cy) :
    (conversionBody w d g x y t).getD (cy * GridSize + cx) 0 = t.getD (cy * GridSize + cx) 0 := by
  have hidx : y * GridSize + x ≠ cy * GridSize + cx := by
    apply flatIndex_ne hx hcx
    rcases hne with h | h
    · exact Or.inl (fun e => h e.symm)
    · exact Or.inr (fun e => h e.symm)
  unfold conversionBody
  cases getCell g x y none with
  | none => rfl
  | some ent =>
    dsimp only []
    split
    · cases lookupTribe w.Tribes ent.Tribe with
      | none => rfl
      | some cfg => exact getD_set_ne _ _ _ _ _ hidx
    · rfl

theorem conversionBody_self (w : World) (d : WarDraws) (g : List (List (Option Entity)))
    (cx cy : Nat) (t : List Nat) (hlen : cy * GridSize + cx < t.length) :
    (conversionBody w d g cx cy t).getD (cy * GridSize + cx) 0
      = conversionCell w d (getCell g cx cy none) cx cy (t.getD (cy * GridSize + cx) 0) := by
  unfold conversionBody conversionCell
  cases getCell g cx cy none with
  | none => rfl
  | some ent =>
    dsimp only []
    split
    · cases lookupTribe w.Tribes ent.Tribe with
      | none => rfl
      | some cfg => exact getD_set_self _ _ _ _ hlen
    · rfl

/-- The conversion loop, cell by cell. -/
theorem afterConversion_cell (w : World) (d : WarDraws) (hwf : w.WF) (cx cy : Nat)
    (hx : cx < GridSize) (hy : cy < GridSize) :
    (afterConversion w d).getD (cy * GridSize + cx) 0
      = conversionCell w d (getCell (afterCombat w d).ents cx cy none) cx cy
          (w.Terrain.getD (cy * GridSize + cx) 0) := by
  have hidx : cy * GridSize + cx < GridSize * GridSize := by
    unfold GridSize at *
    omega
  unfold afterConversion forCells
  rw [loopCells_local (conversionBody w d (afterCombat w d).ents)
    (fun t => t.getD (cy * GridSize + cx) 0)
    (conversionCell w d (getCell (afterCombat w d).ents cx cy none) cx cy)
    (fun t => t.length = GridSize * GridSize) cx cy
    (fun x y s h => (conversionBody_length w d _ x y s).trans h)
    (fun x y s hx2 _ hne => conversionBody_other w d _ x y cx cy s hx2 hx hne)
    (fun s h => conversionBody_self w d _ cx cy s (lt_of_lt_of_eq hidx h.symm)) GridSize _
    hwf.2.1]
  rw [if_pos ⟨hy, hx⟩]


/-! ## A duel: the tick evaluated on two adjacent enemies -/

theorem spawnAt_WF {w : World} (hwf : w.WF) (x y tribe : Nat) : (spawnAt w x y tribe).WF :=
  ⟨GridWF_setCell hwf.1 _ _ _, hwf.2.1, GridWF_setCell hwf.2.2.1 _ _ _, hwf.2.2.2⟩

theorem duelPeace_WF : duelPeace.WF :=
  spawnAt_WF (spawnAt_WF (paintCell_WF (paintCell_WF (withTribes_WF _) _ _ _) _ _ _) _ _ _) _ _ _

theorem StartWar_layers (w : World) :
    (StartWar w).Entities = w.Entities ∧ (StartWar w).Terrain = w.Terrain ∧
    (StartWar w).lastReprodTime = w.lastReprodTime ∧
    (StartWar w).lastClearedTime = w.lastClearedTime ∧ (StartWar w).Tribes = w.Tribes ∧
    (StartWar w).gameOver = w.gameOver ∧ (StartWar w).conversionRate = w.conversionRate :=
  ⟨rfl, rfl, rfl, rfl, rfl, rfl, rfl⟩

theorem StartWar_WF {w : World} (hwf : w.WF) : (StartWar w).WF := by
  unfold World.WF
  rw [(StartWar_layers w).1, (StartWar_layers w).2.1, (StartWar_layers w).2.2.1,
    (StartWar_layers w).2.2.2.1]
  exact hwf

theorem duelWorld_WF : duelWorld.WF := StartWar_WF duelPeace_WF

/-- The entity layer of the duel: the Wanderer at (6, 5), the Norscan at (5, 5),
and nothing else. -/
theorem duel_ents (x y : Nat) :
    getCell duelWorld.Entities x y none
      = if x = 6 ∧ y = 5 then some (freshEntity 2 1 (22/100))
        else if x = 5 ∧ y = 5 then some (freshEntity 1 1 0) else none := by
  have h5 : (5 : Nat) < GridSize := by decide
  have h6 : (6 : Nat) < GridSize := by decide
  have hE0 : GridWF (withTribes [(1, customNorsca 1), (2, customWanderers 2)]).Entities :=
    (withTribes_WF _).1
  have hE2 := GridWF_setCell (GridWF_setCell hE0 5 5 none) 6 5 none
  have hE3 := GridWF_setCell hE2 5 5 (some (freshEntity 1 1 0))
  rw [duelWorld, (StartWar_layers duelPeace).1]
  show getCell (setCell (setCell (setCell (setCell
      (withTribes [(1, customNorsca 1), (2, customWanderers 2)]).Entities 5 5 none) 6 5 none)
      5 5 (some (freshEntity 1 1 0))) 6 5 (some (freshEntity 2 1 (22/100)))) x y none = _
  by_cases hA : x = 6 ∧ y = 5
  · rw [if_pos hA, hA.1, hA.2]
    exact getCell_setCell_self _ _ _ _ _ (by rw [hE3.1]; exact h5)
      (by rw [GridWF_row hE3 h5]; exact h6)
  · rw [if_neg hA, getCell_setCell_ne _ _ _ _ _ _ _ (by omega)]
    by_cases hB : x = 5 ∧ y = 5
    · rw [if_pos hB, hB.1, hB.2]
      exact getCell_setCell_self _ _ _ _ _ (by rw [hE2.1]; exact h5)
        (by rw [GridWF_row hE2 h5]; exact h5)
    · rw [if_neg hB, getCell_setCell_ne _ _ _ _ _ _ _ (by omega),
        getCell_setCell_ne _ _ _ _ _ _ _ (by omega),
        getCell_setCell_ne _ _ _ _ _ _ _ (by omega)]
      exact withTribes_entities _ x y

theorem duel_resolve :
    resolveMoves duelWorld duelDraws
      = { ents := duelWorld.Entities, reprod := duelWorld.lastReprodTime } := rfl

theorem duel_attacker_damage : TotalDamage (freshEntity 2 1 (22/100)) duelWorld = 5 := rfl

theorem duel_defender_armor : TotalArmor (freshEntity 1 1 0) duelWorld = 2 := rfl

/-- In the duel, the only damage dealt to cell (5, 5) comes from cell (6, 5). -/
theorem duel_dealt (x y : Nat) :
    dealtTo duelWorld duelDraws duelWorld.Entities 5 5 x y = if x = 6 ∧ y = 5 then 5 else 0 := by
  unfold dealtTo
  rw [duel_ents x y]
  by_cases hA : x = 6 ∧ y = 5
  · rw [if_pos hA, if_pos hA, hA.1, hA.2]
    simp only [directions, List.enum, List.enumFrom, List.map, List.sum_cons, List.sum_nil,
      hitOn, duel_ents, duel_attacker_damage]
    norm_num [GridSize, freshEntity, duelDraws, show Int.toNat 4 = 4 from rfl,
      show Int.toNat 5 = 5 from rfl, show Int.toNat 6 = 6 from rfl,
      show Int.toNat 7 = 7 from rfl]
  · rw [if_neg hA, if_neg hA]
    by_cases hB : x = 5 ∧ y = 5
    · rw [if_pos hB, hB.1, hB.2]
      simp only [directions, List.enum, List.enumFrom, List.map, List.sum_cons, List.sum_nil,
        hitOn]
      norm_num [GridSize, show Int.toNat 4 = 4 from rfl, show Int.toNat 5 = 5 from rfl,
        show Int.toNat 6 = 6 from rfl]
    · rw [if_neg hB]

/-- In the duel, 5 damage is accumulated on the Norscan of cell (5, 5). -/
theorem duel_accum :
    getCell (damageAccum duelWorld duelDraws duelWorld.Entities) 5 5 0 = 5 := by
  rw [damageAccum_cell duelWorld duelDraws _ 5 5 (by decide) (by decide)]
  rw [Finset.sum_eq_single 5]
  · rw [Finset.sum_eq_single 6]
    · rw [duel_dealt]
      simp
    · intro x _ hx
      rw [duel_dealt, if_neg (fun h => hx h.1)]
    · intro h
      exact absurd (Finset.mem_range.2 (by decide)) h
  · intro y _ hy
    apply Finset.sum_eq_zero
    intro x _
    rw [duel_dealt, if_neg (fun h => hy h.2)]
  · intro h
    exact absurd (Finset.mem_range.2 (by decide)) h


/-- The damage applied is at least 1, whatever the incoming damage and the armor. -/
theorem effectiveDmg_ge_one (incoming defense : Int) : 1 ≤ effectiveDmg incoming defense := by
  unfold effectiveDmg
  split <;> omega

/-- A survivor of the damage loop has lost the applied damage and nothing else. -/
theorem damageCell_some {w : World} {incoming : Int} {c : Option Entity × Int} {e e1 : Entity}
    (hc : c.1 = some e) (h : (damageCell w incoming c).1 = some e1) :
    e1.Health = e.Health - effectiveDmg incoming (TotalArmor e w) := by
  unfold damageCell at h
  rw [hc] at h
  dsimp only [] at h
  split at h
  · cases h
  · cases h
    rfl

/-- A cell that is empty after the damage loop stays empty in the attrition loop. -/
theorem attritionCell_none {t : Nat} {c : Option Entity × Int} (hc : c.1 = none) :
    (attritionCell t c).1 = none := by
  unfold attritionCell
  rw [hc]
  exact hc

/-- A survivor of the attrition and regeneration loop: 3 lower on hills, rock and
forest, at most 3 higher elsewhere. -/
theorem attritionCell_some {t : Nat} {c : Option Entity × Int} {e1 e2 : Entity}
    (hc : c.1 = some e1) (h : (attritionCell t c).1 = some e2) :
    e2.Health ≤ e1.Health + 3 ∧
    ((t = TerrainHills ∨ t = TerrainRocks ∨ t = TerrainTrees) → e2.Health = e1.Health - 3) := by
  unfold attritionCell at h
  rw [hc] at h
  dsimp only [] at h
  by_cases ht : t = TerrainHills ∨ t = TerrainRocks ∨ t = TerrainTrees
  · rw [if_pos ht] at h
    split at h
    · cases h
    · cases h
      exact ⟨by dsimp only []; omega, fun _ => rfl⟩
  · rw [if_neg ht] at h
    refine ⟨?_, fun h' => absurd h' ht⟩
    split at h
    · split at h
      · cases h
        dsimp only []
        omega
      · cases h
        dsimp only []
        omega
    · rw [hc] at h
      cases h
      omega

/-- C10, amended: in a conflict-phase tick of a well-formed world that is not
frozen, take the entity `e` that move resolution leaves in an in-range cell (it is
an entity of the start of the tick, with its health of the start of the tick).
If it survives the damage loop, its health right after that loop is its health at
the start minus `max (incoming - TotalArmor) 1`, hence at least 1 lower, whatever
its armor and whether or not an attack landed on it.  If it survives the tick, its
health at the end of the tick is at most 2 higher than at the start (regeneration
gives back up to 3), and at least 4 lower when its cell is hills, rock or forest. -/
theorem conflict_health_floor (w : World) (d : WarDraws) (hwf : w.WF)
    (hgo : w.gameOver = false) (x y : Nat) (hx : x < GridSize) (hy : y < GridSize)
    (e : Entity) (he : getCell (resolveMoves w d).ents x y none = some e) :
    (∃ x0 y0, getCell w.Entities x0 y0 none = some e) ∧
    (∀ e1, getCell (afterCombat w d).ents x y none = some e1 →
      e1.Health = e.Health -
          effectiveDmg (getCell (damageAccum w d (resolveMoves w d).ents) x y 0)
            (TotalArmor e w) ∧
      e1.Health ≤ e.Health - 1) ∧
    (∀ e2, getCell (UpdateConflict w d).Entities x y none = some e2 →
      e2.Health ≤ e.Health + 2 ∧
      (((afterConversion w d).getD (y * GridSize + x) 0 = TerrainHills ∨
        (afterConversion w d).getD (y * GridSize + x) 0 = TerrainRocks ∨
        (afterConversion w d).getD (y * GridSize + x) 0 = TerrainTrees) →
        e2.Health ≤ e.Health - 4)) := by
  have hcombat := afterCombat_cell w d hwf x y hx hy
  have hattr := afterAttrition_cell w d hwf x y hx hy
  have hfloor := effectiveDmg_ge_one
    (getCell (damageAccum w d (resolveMoves w d).ents) x y 0) (TotalArmor e w)
  have hstart : (cellOf (resolveMoves w d) x y).1 = some e := by
    rw [cellOf_fst]
    exact he
  refine ⟨resolveMoves_from_start w d x y e he, ?_, ?_⟩
  · intro e1 h1
    have h1' : (damageCell w (getCell (damageAccum w d (resolveMoves w d).ents) x y 0)
        (cellOf (resolveMoves w d) x y)).1 = some e1 := by
      rw [← hcombat, cellOf_fst]
      exact h1
    have hh := damageCell_some hstart h1'
    exact ⟨hh, by omega⟩
  · intro e2 h2
    rw [updateConflict_entities w d hgo] at h2
    have h2' : (attritionCell ((afterConversion w d).getD (y * GridSize + x) 0)
        (cellOf (afterCombat w d) x y)).1 = some e2 := by
      rw [← hattr, cellOf_fst]
      exact h2
    cases hc : (cellOf (afterCombat w d) x y).1 with
    | none =>
      rw [attritionCell_none hc] at h2'
      cases h2'
    | some e1 =>
      have hh : e1.Health = e.Health -
          effectiveDmg (getCell (damageAccum w d (resolveMoves w d).ents) x y 0)
            (TotalArmor e w) := by
        apply damageCell_some hstart
        rw [← hcombat]
        exact hc
      obtain ⟨ha, hb⟩ := attritionCell_some hc h2'
      refine ⟨by omega, fun ht => ?_⟩
      have := hb ht
      omega


theorem spawnAt_terrain (w : World) (x y tribe : Nat) : (spawnAt w x y tribe).Terrain = w.Terrain :=
  rfl

theorem duel_gameOver : duelWorld.gameOver = false := rfl

/-- In the duel, cell (5, 5) is red (1). -/
theorem duel_terrain : duelWorld.Terrain.getD (5 * GridSize + 5) 0 = 1 := by
  rw [duelWorld, (StartWar_layers duelPeace).2.1, duelPeace, spawnAt_terrain, spawnAt_terrain,
    (paintCell_other _ 2 (show 6 < GridSize by decide) (show 5 < GridSize by decide)
      (Or.inl (by decide))).1]
  exact (paintCell_self (withTribes_WF _) 1 (show 5 < GridSize by decide)
    (show 5 < GridSize by decide)).1

/-- In the duel, the Norscan of cell (5, 5) leaves the damage loop with health 97. -/
theorem duel_afterCombat :
    getCell (afterCombat duelWorld duelDraws).ents 5 5 none
      = some { freshEntity 1 1 0 with Health := 97 } := by
  have h := afterCombat_cell duelWorld duelDraws duelWorld_WF 5 5 (by decide) (by decide)
  rw [duel_resolve] at h
  dsimp only [] at h
  rw [duel_accum] at h
  have hc : (cellOf { ents := duelWorld.Entities, reprod := duelWorld.lastReprodTime } 5 5).1
      = some (freshEntity 1 1 0) := by
    rw [cellOf_fst]
    dsimp only []
    rw [duel_ents]
    simp
  rw [← cellOf_fst, h]
  unfold damageCell
  rw [hc]
  dsimp only []
  rw [duel_defender_armor]
  rfl

/-- In the duel, cell (5, 5) is still red (1) after the conversion loop. -/
theorem duel_afterConversion :
    (afterConversion duelWorld duelDraws).getD (5 * GridSize + 5) 0 = 1 := by
  rw [afterConversion_cell duelWorld duelDraws duelWorld_WF 5 5 (by decide) (by decide),
    duel_afterCombat, duel_terrain]
  unfold conversionCell
  dsimp only []
  have hno : ¬ (IsEnemyTerrain 1 duelWorld 1 = true ∧
      duelDraws.convRoll 5 5 < duelWorld.conversionRate) := by
    intro hh
    have : IsEnemyTerrain 1 duelWorld 1 = false := rfl
    rw [this] at hh
    exact Bool.false_ne_true hh.1
  exact if_neg hno

theorem duel_accum_moved :
    getCell (damageAccum duelWorld duelDraws (resolveMoves duelWorld duelDraws).ents) 5 5 0
      = 5 := by
  rw [duel_resolve]
  exact duel_accum

/-- Regeneration below the cap: 3 health is given back. -/
theorem attritionCell_regen {t : Nat} {c : Option Entity × Int} {e : Entity}
    (hc : c.1 = some e)
    (ht : ¬ (t = TerrainHills ∨ t = TerrainRocks ∨ t = TerrainTrees))
    (h1 : e.Health < 100) (h2 : ¬ (e.Health + 3 > 100)) :
    (attritionCell t c).1 = some { e with Health := e.Health + 3 } := by
  unfold attritionCell
  rw [hc]
  dsimp only []
  rw [if_neg ht, if_pos h1, if_neg h2]

/-- In the duel, the Norscan of cell (5, 5) ends the tick with health 100. -/
theorem duel_final :
    getCell (UpdateConflict duelWorld duelDraws).Entities 5 5 none
      = some (freshEntity 1 1 0) := by
  have hc : (cellOf (afterCombat duelWorld duelDraws) 5 5).1
      = some { freshEntity 1 1 0 with Health := 97 } := by
    rw [cellOf_fst]
    exact duel_afterCombat
  rw [updateConflict_entities duelWorld duelDraws duel_gameOver, ← cellOf_fst,
    afterAttrition_cell duelWorld duelDraws duelWorld_WF 5 5 (by decide) (by decide),
    attritionCell_regen hc (by rw [duel_afterConversion]; decide) (by decide) (by decide)]
  rfl

/-- C10, refuted as stated: in the duel, the Norscan of cell (5, 5) starts the tick
with health 100; the Wanderer of the adjacent cell (6, 5) belongs to another
faction and its attack is not evaded (roll 1/2 against evasion 0), so that 5
damage is accumulated on the Norscan; the Norscan survives the tick, and its
health at the end of the tick is 100 again (3 lost to the attack, 3 regenerated),
not 99 or less. -/
theorem conflict_floor_claim_fails :
    getCell duelWorld.Entities 5 5 none = some (freshEntity 1 1 0) ∧
    getCell duelWorld.Entities 6 5 none = some (freshEntity 2 1 (22/100)) ∧
    (freshEntity 2 1 (22/100)).Tribe ≠ (freshEntity 1 1 0).Tribe ∧
    duelDraws.hitRoll 6 5 2 ≥ (freshEntity 1 1 0).Evasion ∧
    getCell (damageAccum duelWorld duelDraws (resolveMoves duelWorld duelDraws).ents) 5 5 0 = 5 ∧
    getCell (UpdateConflict duelWorld duelDraws).Entities 5 5 none = some (freshEntity 1 1 0) ∧
    ¬ ((freshEntity 1 1 0).Health ≤ (freshEntity 1 1 0).Health - 1) := by
  refine ⟨?_, ?_, by decide, ?_, ?_, ?_, by decide⟩
  · rw [duel_ents]
    simp
  · rw [duel_ents]
    simp
  · show (0 : ℚ) ≤ 1/2
    norm_num
  · exact duel_accum_moved
  · exact duel_final

/-- Witness of the amended C10, on the duel: the Norscan of cell (5, 5). -/
theorem conflict_health_floor_witness :
    duelWorld.WF ∧ duelWorld.gameOver = false ∧
    getCell (resolveMoves duelWorld duelDraws).ents 5 5 none = some (freshEntity 1 1 0) ∧
    (∀ e1, getCell (afterCombat duelWorld duelDraws).ents 5 5 none = some e1 →
      e1.Health ≤ (freshEntity 1 1 0).Health - 1) ∧
    (∀ e2, getCell (UpdateConflict duelWorld duelDraws).Entities 5 5 none = some e2 →
      e2.Health ≤ (freshEntity 1 1 0).Health + 2) :=
  have he : getCell (resolveMoves duelWorld duelDraws).ents 5 5 none
      = some (freshEntity 1 1 0) := by
    rw [duel_resolve]
    dsimp only []
    rw [duel_ents]
    simp
  have h := conflict_health_floor duelWorld duelDraws duelWorld_WF duel_gameOver 5 5
    (by decide) (by decide) (freshEntity 1 1 0) he
  ⟨duelWorld_WF, duel_gameOver, he, fun e1 h1 => (h.2.1 e1 h1).2, fun e2 h2 => (h.2.2 e2 h2).1⟩


/-! ## The fighting loop, neighbour by neighbour -/

/-- A sum over the grid of a function that vanishes off one cell. -/
theorem sum_cells_single (f : Nat → Nat → Int) (ax ay : Int)
    (hsupp : ∀ x y : Nat, ((x : Int) ≠ ax ∨ (y : Int) ≠ ay) → f x y = 0) :
    ∑ y in Finset.range GridSize, ∑ x in Finset.range GridSize, f x y
      = if ax ≥ 0 ∧ ax < GridSize ∧ ay ≥ 0 ∧ ay < GridSize then f ax.toNat ay.toNat else 0 := by
  by_cases hr : ax ≥ 0 ∧ ax < GridSize ∧ ay ≥ 0 ∧ ay < GridSize
  · rw [if_pos hr]
    rw [Finset.sum_eq_single ay.toNat]
    · rw [Finset.sum_eq_single ax.toNat]
      · intro x _ hx
        apply hsupp
        left
        omega
      · intro h
        exfalso
        apply h
        rw [Finset.mem_range]
        omega
    · intro y _ hy
      apply Finset.sum_eq_zero
      intro x _
      apply hsupp
      right
      omega
    · intro h
      exfalso
      apply h
      rw [Finset.mem_range]
      omega
  · rw [if_neg hr]
    apply Finset.sum_eq_zero
    intro y hy
    apply Finset.sum_eq_zero
    intro x hx
    apply hsupp
    rw [Finset.mem_range] at hx hy
    omega

/-- Summing a list of grid functions cell by cell, or summing their grid sums. -/
theorem sum_cells_list {κ : Type} (l : List κ) (f : κ → Nat → Nat → Int) :
    ∑ y in Finset.range GridSize, ∑ x in Finset.range GridSize, (l.map (fun k => f k x y)).sum
      = (l.map (fun k =>
          ∑ y in Finset.range GridSize, ∑ x in Finset.range GridSize, f k x y)).sum := by
  induction l with
  | nil => simp
  | cons k rest ih =>
    simp only [List.map_cons, List.sum_cons, Finset.sum_add_distrib]
    rw [ih]

/-- An attack adds nothing to a cell it is not aimed at. -/
theorem hitOn_support (w : World) (d : WarDraws) (g : List (List (Option Entity)))
    (cx cy x y : Nat) (ent : Entity) (kdir : Nat × (Int × Int))
    (h : (x : Int) ≠ (cx : Int) - kdir.2.1 ∨ (y : Int) ≠ (cy : Int) - kdir.2.2) :
    hitOn w d g cx cy x y ent kdir = 0 := by
  unfold hitOn
  rw [if_neg]
  rintro ⟨⟨h1, _, h3, _⟩, h5, h6⟩
  omega

/-- The fighting loop, neighbour by neighbour: the damage accumulated on an
in-range cell is the sum, over the four directions, of the damage of the attack
made in that direction by the occupant of the cell one step against it. -/
theorem damageAccum_directions (w : World) (d : WarDraws) (g : List (List (Option Entity)))
    (cx cy : Nat) (hcx : cx < GridSize) (hcy : cy < GridSize) :
    getCell (damageAccum w d g) cx cy 0 = (directions.enum.map (hitFrom w d g cx cy)).sum := by
  rw [damageAccum_cell w d g cx cy hcx hcy]
  have hterm : ∀ x y, dealtTo w d g cx cy x y
      = (directions.enum.map (fun kdir =>
          match getCell g x y none with
          | some ent => hitOn w d g cx cy x y ent kdir
          | none => 0)).sum := by
    intro x y
    unfold dealtTo
    cases getCell g x y none with
    | none => simp
    | some ent => rfl
  simp only [hterm]
  rw [sum_cells_list directions.enum
    (fun kdir x y => match getCell g x y none with
      | some ent => hitOn w d g cx cy x y ent kdir
      | none => 0)]
  congr 1
  apply List.map_congr_left
  intro kdir _
  rw [sum_cells_single _ ((cx : Int) - kdir.2.1) ((cy : Int) - kdir.2.2)]
  · rfl
  · intro x y hne
    cases getCell g x y none with
    | none => rfl
    | some ent => exact hitOn_support w d g cx cy x y ent kdir hne


/-- When no attack against `b`, the occupant of `(cx, cy)`, is evaded, the attack in
direction `kdir` adds the total damage of the enemy one step against `kdir`. -/
theorem hitFrom_noEvasion (w : World) (d : WarDraws) (g : List (List (Option Entity)))
    (cx cy : Nat) (hcx : cx < GridSize) (hcy : cy < GridSize) (b : Entity)
    (hb : getCell g cx cy none = some b) (hno : ∀ x y k, d.hitRoll x y k ≥ b.Evasion)
    (kdir : Nat × (Int × Int)) :
    hitFrom w d g cx cy kdir
      = enemyDamage w g b ((cx : Int) - kdir.2.1) ((cy : Int) - kdir.2.2) := by
  unfold hitFrom enemyDamage
  by_cases hr : (cx : Int) - kdir.2.1 ≥ 0 ∧ (cx : Int) - kdir.2.1 < GridSize ∧
      (cy : Int) - kdir.2.2 ≥ 0 ∧ (cy : Int) - kdir.2.2 < GridSize
  · rw [if_pos hr, if_pos hr]
    cases getCell g ((cx : Int) - kdir.2.1).toNat ((cy : Int) - kdir.2.2).toNat none with
    | none => rfl
    | some ent =>
      dsimp only []
      unfold hitOn
      have hax : ((((cx : Int) - kdir.2.1).toNat : Nat) : Int) = (cx : Int) - kdir.2.1 :=
        Int.toNat_of_nonneg hr.1
      have hay : ((((cy : Int) - kdir.2.2).toNat : Nat) : Int) = (cy : Int) - kdir.2.2 :=
        Int.toNat_of_nonneg hr.2.2.1
      have hcond : ((((cx : Int) - kdir.2.1).toNat : Int) + kdir.2.1 ≥ 0 ∧
          (((cx : Int) - kdir.2.1).toNat : Int) + kdir.2.1 < GridSize ∧
          (((cy : Int) - kdir.2.2).toNat : Int) + kdir.2.2 ≥ 0 ∧
          (((cy : Int) - kdir.2.2).toNat : Int) + kdir.2.2 < GridSize) ∧
          ((((cx : Int) - kdir.2.1).toNat : Int) + kdir.2.1).toNat = cx ∧
          ((((cy : Int) - kdir.2.2).toNat : Int) + kdir.2.2).toNat = cy := by
        rw [hax, hay]
        unfold GridSize at *
        omega
      rw [if_pos hcond, hb]
      dsimp only []
      by_cases ht : b.Tribe ≠ ent.Tribe
      · rw [if_pos ht, if_pos (hno _ _ _), if_pos (fun e => ht e.symm)]
      · rw [if_neg ht, if_neg (fun e => ht (fun e2 => e e2.symm))]
  · rw [if_neg hr, if_neg hr]

/-- The damage accumulated on the occupant `b` of an in-range cell when no attack
against it is evaded: the total damage of its enemies below, above, right and left. -/
theorem damageAccum_noEvasion (w : World) (d : WarDraws) (g : List (List (Option Entity)))
    (cx cy : Nat) (hcx : cx < GridSize) (hcy : cy < GridSize) (b : Entity)
    (hb : getCell g cx cy none = some b) (hno : ∀ x y k, d.hitRoll x y k ≥ b.Evasion) :
    getCell (damageAccum w d g) cx cy 0
      = enemyDamage w g b cx ((cy : Int) + 1) + enemyDamage w g b cx ((cy : Int) - 1)
        + enemyDamage w g b ((cx : Int) + 1) cy + enemyDamage w g b ((cx : Int) - 1) cy := by
  rw [damageAccum_directions w d g cx cy hcx hcy]
  simp only [directions, List.enum, List.enumFrom, List.map, List.sum_cons, List.sum_nil,
    hitFrom_noEvasion w d g cx cy hcx hcy b hb hno]
  have e1 : (cx : Int) - 0 = cx := by ring
  have e2 : (cy : Int) - (-1) = (cy : Int) + 1 := by ring
  have e3 : (cy : Int) - 0 = cy := by ring
  have e4 : (cx : Int) - (-1) = (cx : Int) + 1 := by ring
  rw [e1, e2, e3, e4]
  ring

/-- C12: `TotalDamage` is 5 plus the weapon bonus (none 0, wood 3, stone 4), the
rank bonus (base 0, super 1, mega 2) and the racial damage bonus of the faction;
`TotalArmor` is the armor bonus (none 0, wood 2, stone 3) plus the rank bonus
(0, 1, 2) and the racial defense bonus; both racial terms are 0 for a faction that
is not registered.  In the fighting loop run on a grid `g` (the grid left by move
resolution, from which nothing has been removed yet), when no attack against the
occupant `b` of an in-range cell is evaded, the damage accumulated on that cell is
the sum of `TotalDamage` over the occupants of the four orthogonally adjacent
in-range cells that belong to another faction than `b`. -/
theorem combat_totals (w : World) (d : WarDraws) (g : List (List (Option Entity))) :
    (WeaponBonus WeaponNone = 0 ∧ WeaponBonus WeaponWood = 3 ∧ WeaponBonus WeaponStone = 4) ∧
    (ArmorDefensebonus ArmorNone = 0 ∧ ArmorDefensebonus ArmorWood = 2 ∧
      ArmorDefensebonus ArmorStone = 3) ∧
    (RankDamageBonus RankBase = 0 ∧ RankDamageBonus RankSuper = 1 ∧ RankDamageBonus RankMega = 2) ∧
    (RankArmorBonus RankBase = 0 ∧ RankArmorBonus RankSuper = 1 ∧ RankArmorBonus RankMega = 2) ∧
    (∀ e : Entity,
      (∀ cfg, lookupTribe w.Tribes e.Tribe = some cfg →
        TotalDamage e w = 5 + WeaponBonus e.Weapon + RankDamageBonus e.Rank + cfg.DamageBonus ∧
        TotalArmor e w = ArmorDefensebonus e.Armor + RankArmorBonus e.Rank + cfg.DefenseBonus) ∧
      (lookupTribe w.Tribes e.Tribe = none →
        TotalDamage e w = 5 + WeaponBonus e.Weapon + RankDamageBonus e.Rank ∧
        TotalArmor e w = ArmorDefensebonus e.Armor + RankArmorBonus e.Rank)) ∧
    (∀ (cx cy : Nat) (b : Entity), cx < GridSize → cy < GridSize →
      getCell g cx cy none = some b → (∀ x y k, d.hitRoll x y k ≥ b.Evasion) →
      getCell (damageAccum w d g) cx cy 0
        = enemyDamage w g b cx ((cy : Int) + 1) + enemyDamage w g b cx ((cy : Int) - 1)
          + enemyDamage w g b ((cx : Int) + 1) cy + enemyDamage w g b ((cx : Int) - 1) cy) := by
  refine ⟨by decide, by decide, by decide, by decide, ?_, ?_⟩
  · intro e
    constructor
    · intro cfg hc
      unfold TotalDamage TotalArmor
      rw [hc]
      constructor
      · dsimp only []
        ring
      · rfl
    · intro hc
      unfold TotalDamage TotalArmor
      rw [hc]
      constructor
      · dsimp only []
        ring
      · dsimp only []
        ring
  · intro cx cy b hcx hcy hb hno
    exact damageAccum_noEvasion w d g cx cy hcx hcy b hb hno

/-- Witness of C12, on the duel: the damage accumulated on the Norscan of cell
(5, 5), whose evasion is 0. -/
theorem combat_totals_witness :
    (5 : Nat) < GridSize ∧ getCell duelWorld.Entities 5 5 none = some (freshEntity 1 1 0) ∧
    (∀ x y k, duelDraws.hitRoll x y k ≥ (freshEntity 1 1 0).Evasion) ∧
    getCell (damageAccum duelWorld duelDraws duelWorld.Entities) 5 5 0
      = enemyDamage duelWorld duelWorld.Entities (freshEntity 1 1 0) (5 : Nat) (((5 : Nat) : Int) + 1)
        + enemyDamage duelWorld duelWorld.Entities (freshEntity 1 1 0) (5 : Nat) (((5 : Nat) : Int) - 1)
        + enemyDamage duelWorld duelWorld.Entities (freshEntity 1 1 0) (((5 : Nat) : Int) + 1) (5 : Nat)
        + enemyDamage duelWorld duelWorld.Entities (freshEntity 1 1 0) (((5 : Nat) : Int) - 1) (5 : Nat) :=
  have hb : getCell duelWorld.Entities 5 5 none = some (freshEntity 1 1 0) := by
    rw [duel_ents]
    simp
  have hno : ∀ x y k, duelDraws.hitRoll x y k ≥ (freshEntity 1 1 0).Evasion := by
    intro x y k
    show (0 : ℚ) ≤ 1/2
    norm_num
  ⟨by decide, hb, hno,
    (combat_totals duelWorld duelDraws duelWorld.Entities).2.2.2.2.2 5 5 (freshEntity 1 1 0)
      (by decide) (by decide) hb hno⟩


/-! ## The damage loop -/

theorem effectiveDmg_eq_max (incoming defense : Int) :
    effectiveDmg incoming defense = max (incoming - defense) 1 := by
  unfold effectiveDmg
  split
  · rw [max_eq_right (by omega)]
  · rw [max_eq_left (by omega)]

/-- C11, amended: in the damage loop of a conflict-phase tick of a well-formed
world, the health removed from the entity `e` that move resolution left in an
in-range cell is `max (incoming - TotalArmor) 1`, whatever the accumulated incoming
damage (also when it is 0); the entity is removed, and the reproduction timestamp
of its cell emptied, when this brings its health to 0 or less, and otherwise it
stays in its cell with every other field and the timestamp unchanged. -/
theorem combat_damage_applied (w : World) (d : WarDraws) (hwf : w.WF) (x y : Nat)
    (hx : x < GridSize) (hy : y < GridSize) (e : Entity)
    (he : getCell (resolveMoves w d).ents x y none = some e) :
    (e.Health - max (getCell (damageAccum w d (resolveMoves w d).ents) x y 0 - TotalArmor e w) 1
        ≤ 0 →
      getCell (afterCombat w d).ents x y none = none ∧
      getCell (afterCombat w d).reprod x y 0 = 0) ∧
    (¬ (e.Health -
        max (getCell (damageAccum w d (resolveMoves w d).ents) x y 0 - TotalArmor e w) 1 ≤ 0) →
      getCell (afterCombat w d).ents x y none
        = some { e with Health := (e.Health -
            max (getCell (damageAccum w d (resolveMoves w d).ents) x y 0 - TotalArmor e w) 1) } ∧
      getCell (afterCombat w d).reprod x y 0 = getCell (resolveMoves w d).reprod x y 0) := by
  have hcombat := afterCombat_cell w d hwf x y hx hy
  have hstart : (cellOf (resolveMoves w d) x y).1 = some e := by
    rw [cellOf_fst]
    exact he
  unfold damageCell at hcombat
  rw [hstart] at hcombat
  dsimp only [] at hcombat
  rw [effectiveDmg_eq_max] at hcombat
  constructor
  · intro hdead
    rw [if_pos hdead] at hcombat
    rw [← cellOf_fst, ← cellOf_snd, hcombat]
    exact ⟨rfl, rfl⟩
  · intro hlive
    rw [if_neg hlive] at hcombat
    rw [← cellOf_fst, ← cellOf_snd (afterCombat w d), hcombat]
    exact ⟨rfl, rfl⟩


/-! ## Move resolution -/

theorem mem_moversTo {moves : List PotentialMove} {key : Nat × Nat} {pm : PotentialMove} :
    pm ∈ moversTo moves key ↔ pm ∈ moves ∧ pm.toX = key.1 ∧ pm.toY = key.2 := by
  unfold moversTo
  simp [List.mem_filter]

/-- The move applied for a target leaves alone every cell that is neither the
target nor the origin of a contender for that target. -/
theorem applyWinner_frame (w : World) (d : WarDraws) (st : Layers) (key : Nat × Nat)
    (cx cy : Nat)
    (h : ∀ pm ∈ moversTo d.moves key,
      (cx ≠ pm.toX ∨ cy ≠ pm.toY) ∧ (cx ≠ pm.fromX ∨ cy ≠ pm.fromY)) :
    cellOf (applyWinner w d st key) cx cy = cellOf st cx cy := by
  unfold applyWinner
  dsimp only []
  cases hm : (moversTo d.moves key).get? (d.pick key.1 key.2 % (moversTo d.moves key).length) with
  | none => rfl
  | some winner =>
    dsimp only []
    obtain ⟨h1, h2⟩ := h winner (List.get?_mem hm)
    unfold cellOf
    dsimp only []
    rw [getCell_setCell_ne _ _ _ _ _ _ _ h2, getCell_setCell_ne _ _ _ _ _ _ _ h1,
      getCell_setCell_ne _ _ _ _ _ _ _ h2, getCell_setCell_ne _ _ _ _ _ _ _ h1]

theorem resolve_frame (w : World) (d : WarDraws) (keys : List (Nat × Nat)) (cx cy : Nat)
    (h : ∀ key ∈ keys, ∀ pm ∈ moversTo d.moves key,
      (cx ≠ pm.toX ∨ cy ≠ pm.toY) ∧ (cx ≠ pm.fromX ∨ cy ≠ pm.fromY))
    (st : Layers) :
    cellOf (keys.foldl (applyWinner w d) st) cx cy = cellOf st cx cy := by
  induction keys generalizing st with
  | nil => rfl
  | cons k rest ih =>
    rw [List.foldl_cons, ih (fun key hk => h key (List.mem_cons_of_mem _ hk)),
      applyWinner_frame w d st k cx cy (h k (List.mem_cons_self _ _))]

/-- A contender for another target touches neither the target `T` nor the origin of
a contender for `T`. -/
theorem movers_disjoint {w : World} {moves : List PotentialMove} (hv : MovesValid w moves)
    {T key : Nat × Nat} (hne : key ≠ T) {pm m : PotentialMove}
    (hpm : pm ∈ moversTo moves key) (hm : m ∈ moversTo moves T) :
    ((T.1 ≠ pm.toX ∨ T.2 ≠ pm.toY) ∧ (T.1 ≠ pm.fromX ∨ T.2 ≠ pm.fromY)) ∧
    ((m.fromX ≠ pm.toX ∨ m.fromY ≠ pm.toY) ∧ (m.fromX ≠ pm.fromX ∨ m.fromY ≠ pm.fromY)) := by
  obtain ⟨hpm1, hpx, hpy⟩ := mem_moversTo.1 hpm
  obtain ⟨hm1, hmx, hmy⟩ := mem_moversTo.1 hm
  obtain ⟨_, _, _, _, hpocc, hpfree⟩ := hv.1 pm hpm1
  obtain ⟨_, _, _, _, hmocc, hmfree⟩ := hv.1 m hm1
  have key_ne : T.1 ≠ pm.toX ∨ T.2 ≠ pm.toY := by
    by_contra hcon
    apply hne
    have h1 : T.1 = pm.toX := by
      by_contra h
      exact hcon (Or.inl h)
    have h2 : T.2 = pm.toY := by
      by_contra h
      exact hcon (Or.inr h)
    exact Prod.ext (by rw [← hpx, h1]) (by rw [← hpy, h2])
  refine ⟨⟨key_ne, ?_⟩, ?_, ?_⟩
  · by_contra hcon
    have h1 : T.1 = pm.fromX := by
      by_contra h
      exact hcon (Or.inl h)
    have h2 : T.2 = pm.fromY := by
      by_contra h
      exact hcon (Or.inr h)
    apply hpocc
    rw [← h1, ← h2, ← hmx, ← hmy]
    exact hmfree
  · by_contra hcon
    have h1 : m.fromX = pm.toX := by
      by_contra h
      exact hcon (Or.inl h)
    have h2 : m.fromY = pm.toY := by
      by_contra h
      exact hcon (Or.inr h)
    apply hmocc
    rw [h1, h2]
    exact hpfree
  · by_contra hcon
    have h1 : m.fromX = pm.fromX := by
      by_contra h
      exact hcon (Or.inl h)
    have h2 : m.fromY = pm.fromY := by
      by_contra h
      exact hcon (Or.inr h)
    have hsame : m = pm :=
      List.inj_on_of_nodup_map hv.2 hm1 hpm1 (Prod.ext h1 h2)
    rcases key_ne with h | h
    · exact h (by rw [← hsame, hmx])
    · exact h (by rw [← hsame, hmy])


/-- The move applied for target `T` on a state that still shows the start of the
tick at `T` and at the origins of its contenders. -/
theorem applyWinner_target (w : World) (d : WarDraws) (hv : MovesValid w d.moves)
    (T : Nat × Nat) (st : Layers) (hst : LayersWF st) (winner : PotentialMove)
    (hw : (moversTo d.moves T).get? (d.pick T.1 T.2 % (moversTo d.moves T).length) = some winner)
    (hkeep : ∀ m ∈ moversTo d.moves T,
      cellOf st m.fromX m.fromY
        = (getCell w.Entities m.fromX m.fromY none, getCell w.lastReprodTime m.fromX m.fromY 0)) :
    cellOf (applyWinner w d st T) T.1 T.2
        = (getCell w.Entities winner.fromX winner.fromY none,
           getCell w.lastReprodTime winner.fromX winner.fromY 0) ∧
    cellOf (applyWinner w d st T) winner.fromX winner.fromY = (none, 0) ∧
    ∀ pm ∈ moversTo d.moves T, pm ≠ winner →
      cellOf (applyWinner w d st T) pm.fromX pm.fromY
        = (getCell w.Entities pm.fromX pm.fromY none,
           getCell w.lastReprodTime pm.fromX pm.fromY 0) := by
  have hwm : winner ∈ moversTo d.moves T := List.get?_mem hw
  obtain ⟨hw1, hwx, hwy⟩ := mem_moversTo.1 hwm
  obtain ⟨hfx, hfy, htx, hty, hocc, hfree⟩ := hv.1 winner hw1
  have hne : winner.toX ≠ winner.fromX ∨ winner.toY ≠ winner.fromY := by
    by_contra hcon
    have h1 : winner.toX = winner.fromX := by
      by_contra h
      exact hcon (Or.inl h)
    have h2 : winner.toY = winner.fromY := by
      by_contra h
      exact hcon (Or.inr h)
    apply hocc
    rw [← h1, ← h2]
    exact hfree
  have hr : getCell st.reprod winner.fromX winner.fromY 0
      = getCell w.lastReprodTime winner.fromX winner.fromY 0 := by
    have := hkeep winner hwm
    rw [← cellOf_snd, this]
  have hst2 : LayersWF
      { ents := setCell st.ents winner.toX winner.toY
          (getCell w.Entities winner.fromX winner.fromY none)
        reprod := setCell st.reprod winner.toX winner.toY
          (getCell st.reprod winner.fromX winner.fromY 0) } :=
    ⟨GridWF_setCell hst.1 _ _ _, GridWF_setCell hst.2 _ _ _⟩
  unfold applyWinner
  dsimp only []
  rw [hw]
  dsimp only []
  refine ⟨?_, ?_, ?_⟩
  · unfold cellOf
    dsimp only []
    rw [← hwx, ← hwy, getCell_setCell_ne _ _ _ _ _ _ _ hne, getCell_setCell_ne _ _ _ _ _ _ _ hne,
      cellOf_set_ents_self hst htx hty, cellOf_set_reprod_self hst htx hty, hr]
  · unfold cellOf
    dsimp only []
    rw [cellOf_set_ents_self hst2 hfx hfy, cellOf_set_reprod_self hst2 hfx hfy]
  · intro pm hpm hpw
    obtain ⟨hp1, hpx, hpy⟩ := mem_moversTo.1 hpm
    obtain ⟨_, _, _, _, hpocc, _⟩ := hv.1 pm hp1
    have hfrom : pm.fromX ≠ winner.fromX ∨ pm.fromY ≠ winner.fromY := by
      by_contra hcon
      have h1 : pm.fromX = winner.fromX := by
        by_contra h
        exact hcon (Or.inl h)
      have h2 : pm.fromY = winner.fromY := by
        by_contra h
        exact hcon (Or.inr h)
      exact hpw (List.inj_on_of_nodup_map hv.2 hp1 hw1 (Prod.ext h1 h2))
    have hto : pm.fromX ≠ winner.toX ∨ pm.fromY ≠ winner.toY := by
      by_contra hcon
      have h1 : pm.fromX = winner.toX := by
        by_contra h
        exact hcon (Or.inl h)
      have h2 : pm.fromY = winner.toY := by
        by_contra h
        exact hcon (Or.inr h)
      apply hpocc
      rw [h1, h2]
      exact hfree
    rw [← hkeep pm hpm]
    unfold cellOf
    dsimp only []
    rw [getCell_setCell_ne _ _ _ _ _ _ _ hfrom, getCell_setCell_ne _ _ _ _ _ _ _ hto,
      getCell_setCell_ne _ _ _ _ _ _ _ hfrom, getCell_setCell_ne _ _ _ _ _ _ _ hto]

/-- C13: in the move-resolution step (the same loop in the peaceful and in the
conflict-phase tick), run on the moves that collection can build (`MovesValid`) and
with the targets visited once each in any order, take a target `T` with at least
one contender.  The contender drawn, `winner`, is one of them; afterwards the
destination `T` holds the entity and the reproduction timestamp that the origin of
`winner` had at the start of the tick (an entity, since origins are occupied), the
origin of `winner` is vacant with an empty timestamp, and every other contender
for `T` is still at its origin, with the timestamp of that cell unchanged.  Phase 1
of the peaceful tick collects such moves (`collectMoves_valid`). -/
theorem resolveMoves_contested (w : World) (d : WarDraws) (hwf : w.WF)
    (hv : MovesValid w d.moves) (hnd : d.keyOrder.Nodup) (T : Nat × Nat)
    (hT : T ∈ d.keyOrder) (hK : moversTo d.moves T ≠ []) :
    ∃ winner, winner ∈ moversTo d.moves T ∧
      (moversTo d.moves T).get? (d.pick T.1 T.2 % (moversTo d.moves T).length) = some winner ∧
      getCell w.Entities winner.fromX winner.fromY none ≠ none ∧
      cellOf (resolveMoves w d) T.1 T.2
        = (getCell w.Entities winner.fromX winner.fromY none,
           getCell w.lastReprodTime winner.fromX winner.fromY 0) ∧
      cellOf (resolveMoves w d) winner.fromX winner.fromY = (none, 0) ∧
      ∀ pm ∈ moversTo d.moves T, pm ≠ winner →
        cellOf (resolveMoves w d) pm.fromX pm.fromY
          = (getCell w.Entities pm.fromX pm.fromY none,
             getCell w.lastReprodTime pm.fromX pm.fromY 0) := by
  have hlen : 0 < (moversTo d.moves T).length := List.length_pos.2 hK
  have hidx : d.pick T.1 T.2 % (moversTo d.moves T).length < (moversTo d.moves T).length :=
    Nat.mod_lt _ hlen
  obtain ⟨winner, hw⟩ : ∃ winner,
      (moversTo d.moves T).get? (d.pick T.1 T.2 % (moversTo d.moves T).length) = some winner :=
    ⟨_, List.get?_eq_get hidx⟩
  have hwm : winner ∈ moversTo d.moves T := List.get?_mem hw
  obtain ⟨l1, l2, hsplit⟩ := List.append_of_mem hT
  have hnd2 : (T :: (l1 ++ l2)).Nodup := by
    rw [← List.nodup_middle, ← hsplit]
    exact hnd
  have hTnot : T ∉ l1 ++ l2 := (List.nodup_cons.1 hnd2).1
  have hother : ∀ key ∈ l1 ++ l2, key ≠ T := fun key hk e => hTnot (e ▸ hk)
  have hframeT : ∀ keys : List (Nat × Nat), (∀ key ∈ keys, key ≠ T) → ∀ st : Layers,
      cellOf (keys.foldl (applyWinner w d) st) T.1 T.2 = cellOf st T.1 T.2 := by
    intro keys hk st
    apply resolve_frame
    intro key hkey pm hpm
    exact (movers_disjoint hv (hk key hkey) hpm hwm).1
  have hframeO : ∀ keys : List (Nat × Nat), (∀ key ∈ keys, key ≠ T) →
      ∀ m ∈ moversTo d.moves T, ∀ st : Layers,
      cellOf (keys.foldl (applyWinner w d) st) m.fromX m.fromY = cellOf st m.fromX m.fromY := by
    intro keys hk m hm st
    apply resolve_frame
    intro key hkey pm hpm
    exact (movers_disjoint hv (hk key hkey) hpm hm).2
  have h1 : ∀ key ∈ l1, key ≠ T := fun key hk => hother key (List.mem_append_left _ hk)
  have h2 : ∀ key ∈ l2, key ≠ T := fun key hk => hother key (List.mem_append_right _ hk)
  have hres : resolveMoves w d
      = l2.foldl (applyWinner w d)
          (applyWinner w d
            (l1.foldl (applyWinner w d) { ents := w.Entities, reprod := w.lastReprodTime }) T) := by
    unfold resolveMoves
    rw [hsplit, List.foldl_append, List.foldl_cons]
  have hst1 : LayersWF (l1.foldl (applyWinner w d)
      { ents := w.Entities, reprod := w.lastReprodTime }) :=
    foldl_inv (applyWinner w d) LayersWF (fun s k h => applyWinner_WF w d s k h) _ _
      ⟨hwf.1, hwf.2.2.1⟩
  have hkeep : ∀ m ∈ moversTo d.moves T,
      cellOf (l1.foldl (applyWinner w d) { ents := w.Entities, reprod := w.lastReprodTime })
          m.fromX m.fromY
        = (getCell w.Entities m.fromX m.fromY none,
           getCell w.lastReprodTime m.fromX m.fromY 0) := by
    intro m hm
    rw [hframeO l1 h1 m hm]
    rfl
  obtain ⟨hA, hB, hC⟩ := applyWinner_target w d hv T _ hst1 winner hw hkeep
  refine ⟨winner, hwm, hw, (hv.1 winner (mem_moversTo.1 hwm).1).2.2.2.2.1, ?_, ?_, ?_⟩
  · rw [hres, hframeT l2 h2, hA]
  · rw [hres, hframeO l2 h2 winner hwm, hB]
  · intro pm hpm hpw
    rw [hres, hframeO l2 h2 pm hpm, hC pm hpm hpw]


/-! ## The census and the conquest sweep -/

theorem mem_censusBody (g : List (List (Option Entity))) (x y : Nat) (seen : List Nat)
    (t : Nat) :
    t ∈ censusBody g x y seen ↔
      t ∈ seen ∨ ∃ e, getCell g x y none = some e ∧ e.Tribe = t := by
  unfold censusBody
  cases getCell g x y none with
  | none => simp
  | some ent =>
    dsimp only []
    by_cases hm : ent.Tribe ∈ seen
    · rw [if_pos hm]
      constructor
      · exact Or.inl
      · rintro (h | ⟨e, he, ht⟩)
        · exact h
        · cases he
          rw [← ht]
          exact hm
    · rw [if_neg hm, List.mem_append, List.mem_singleton]
      constructor
      · rintro (h | h)
        · exact Or.inl h
        · exact Or.inr ⟨ent, rfl, h.symm⟩
      · rintro (h | ⟨e, he, ht⟩)
        · exact Or.inl h
        · cases he
          exact Or.inr ht.symm

theorem censusBody_nodup (g : List (List (Option Entity))) (x y : Nat) (seen : List Nat)
    (h : seen.Nodup) : (censusBody g x y seen).Nodup := by
  unfold censusBody
  cases getCell g x y none with
  | none => exact h
  | some ent =>
    dsimp only []
    by_cases hm : ent.Tribe ∈ seen
    · rw [if_pos hm]
      exact h
    · rw [if_neg hm]
      apply List.Nodup.append h (List.nodup_singleton _)
      intro a ha hb
      rw [List.mem_singleton] at hb
      exact hm (hb ▸ ha)

theorem mem_censusRow (g : List (List (Option Entity))) (y cols : Nat) (seen : List Nat)
    (t : Nat) :
    t ∈ (List.range cols).foldl (fun s x => censusBody g x y s) seen ↔
      t ∈ seen ∨ ∃ x, x < cols ∧ ∃ e, getCell g x y none = some e ∧ e.Tribe = t := by
  induction cols with
  | zero => simp
  | succ n ih =>
    rw [List.range_succ, List.foldl_append]
    simp only [List.foldl_cons, List.foldl_nil]
    rw [mem_censusBody, ih]
    constructor
    · rintro ((h | ⟨x, hx, h⟩) | h)
      · exact Or.inl h
      · exact Or.inr ⟨x, by omega, h⟩
      · exact Or.inr ⟨n, by omega, h⟩
    · rintro (h | ⟨x, hx, h⟩)
      · exact Or.inl (Or.inl h)
      · by_cases hxn : x = n
        · subst hxn
          exact Or.inr h
        · exact Or.inl (Or.inr ⟨x, by omega, h⟩)

theorem mem_censusLoop (g : List (List (Option Entity))) (rows cols : Nat) (seen : List Nat)
    (t : Nat) :
    t ∈ loopCells rows cols (censusBody g) seen ↔
      t ∈ seen ∨ ∃ x y, x < cols ∧ y < rows ∧ ∃ e, getCell g x y none = some e ∧ e.Tribe = t := by
  induction rows with
  | zero => simp [loopCells]
  | succ n ih =>
    rw [loopCells_succ, mem_censusRow, ih]
    constructor
    · rintro ((h | ⟨x, y, hx, hy, h⟩) | ⟨x, hx, h⟩)
      · exact Or.inl h
      · exact Or.inr ⟨x, y, hx, by omega, h⟩
      · exact Or.inr ⟨x, n, hx, by omega, h⟩
    · rintro (h | ⟨x, y, hx, hy, h⟩)
      · exact Or.inl (Or.inl h)
      · by_cases hyn : y = n
        · subst hyn
          exact Or.inr ⟨x, hx, h⟩
        · exact Or.inl (Or.inr ⟨x, y, hx, by omega, h⟩)

/-- The census lists exactly the factions that have a live entity. -/
theorem mem_aliveTribes (g : List (List (Option Entity))) (t : Nat) :
    t ∈ aliveTribes g ↔ livesIn g t := by
  unfold aliveTribes forCells livesIn
  rw [mem_censusLoop]
  constructor
  · rintro (h | ⟨x, y, hx, hy, h⟩)
    · cases h
    · exact ⟨x, y, hx, hy, h⟩
  · rintro ⟨x, y, hx, hy, h⟩
    exact Or.inr ⟨x, y, hx, hy, h⟩

/-- The census lists every faction once. -/
theorem aliveTribes_nodup (g : List (List (Option Entity))) : (aliveTribes g).Nodup :=
  loopCells_inv (censusBody g) List.Nodup (fun x y s h => censusBody_nodup g x y s h) _ _ _
    List.nodup_nil

theorem aliveTribes_nil_iff (g : List (List (Option Entity))) :
    aliveTribes g = [] ↔ ∀ t, ¬ livesIn g t := by
  constructor
  · intro h t hl
    have := (mem_aliveTribes g t).2 hl
    rw [h] at this
    cases this
  · intro h
    apply List.eq_nil_iff_forall_not_mem.2
    intro t ht
    exact h t ((mem_aliveTribes g t).1 ht)

theorem aliveTribes_single_iff (g : List (List (Option Entity))) (t : Nat) :
    aliveTribes g = [t] ↔ livesIn g t ∧ ∀ t2, livesIn g t2 → t2 = t := by
  constructor
  · intro h
    constructor
    · apply (mem_aliveTribes g t).1
      rw [h]
      exact List.mem_singleton_self t
    · intro t2 h2
      have := (mem_aliveTribes g t2).2 h2
      rw [h] at this
      exact List.mem_singleton.1 this
  · rintro ⟨h1, h2⟩
    have hmem : ∀ a, a ∈ aliveTribes g → a = t := fun a ha => h2 a ((mem_aliveTribes g a).1 ha)
    have hnd := aliveTribes_nodup g
    have ht := (mem_aliveTribes g t).2 h1
    generalize aliveTribes g = l at hmem hnd ht
    match l, hmem, hnd, ht with
    | [], _, _, ht => cases ht
    | [a], hmem, _, _ => rw [hmem a (List.mem_singleton_self a)]
    | a :: b :: rest, hmem, hnd, _ =>
      exfalso
      have ha := hmem a (List.mem_cons_self _ _)
      have hb := hmem b (List.mem_cons_of_mem _ (List.mem_cons_self _ _))
      rw [List.nodup_cons] at hnd
      apply hnd.1
      rw [ha, ← hb]
      exact List.mem_cons_self _ _

theorem aliveTribes_many_iff (g : List (List (Option Entity))) :
    (∃ a b rest, aliveTribes g = a :: b :: rest) ↔
      ∃ t1 t2, t1 ≠ t2 ∧ livesIn g t1 ∧ livesIn g t2 := by
  constructor
  · rintro ⟨a, b, rest, h⟩
    have hnd := aliveTribes_nodup g
    rw [h] at hnd
    refine ⟨a, b, ?_, ?_, ?_⟩
    · intro e
      rw [List.nodup_cons] at hnd
      apply hnd.1
      rw [e]
      exact List.mem_cons_self _ _
    · apply (mem_aliveTribes g a).1
      rw [h]
      exact List.mem_cons_self _ _
    · apply (mem_aliveTribes g b).1
      rw [h]
      exact List.mem_cons_of_mem _ (List.mem_cons_self _ _)
  · rintro ⟨t1, t2, hne, h1, h2⟩
    have m1 := (mem_aliveTribes g t1).2 h1
    have m2 := (mem_aliveTribes g t2).2 h2
    generalize aliveTribes g = l at m1 m2
    match l, m1, m2 with
    | [], m1, _ => cases m1
    | [a], m1, m2 =>
      exfalso
      rw [List.mem_singleton] at m1 m2
      exact hne (m1.trans m2.symm)
    | a :: b :: rest, _, _ => exact ⟨a, b, rest, rfl⟩


/-- The conquest sweep after its first `n` cells. -/
theorem conquer_upto (w : World) (winnerTribe winnerHome : Nat) (terrain : List Nat)
    (n : Nat) (i : Nat) :
    ((List.range n).foldl
        (fun t j =>
          if IsEnemyTerrain (t.getD j 0) w winnerTribe = true then t.set j winnerHome else t)
        terrain).length = terrain.length ∧
    ((List.range n).foldl
        (fun t j =>
          if IsEnemyTerrain (t.getD j 0) w winnerTribe = true then t.set j winnerHome else t)
        terrain).getD i 0
      = if i < n ∧ i < terrain.length ∧ IsEnemyTerrain (terrain.getD i 0) w winnerTribe = true
        then winnerHome else terrain.getD i 0 := by
  induction n generalizing i with
  | zero =>
    refine ⟨rfl, ?_⟩
    rw [if_neg (by omega)]
    rfl
  | succ k ih =>
    rw [List.range_succ, List.foldl_append]
    simp only [List.foldl_cons, List.foldl_nil]
    have hk := (ih k).2
    rw [if_neg (by omega)] at hk
    rw [hk]
    by_cases he : IsEnemyTerrain (terrain.getD k 0) w winnerTribe = true
    · rw [if_pos he]
      refine ⟨by rw [List.length_set]; exact (ih i).1, ?_⟩
      by_cases hik : k = i
      · subst hik
        by_cases hl : k < terrain.length
        · rw [getD_set_self _ _ _ _ (by rw [(ih k).1]; exact hl), if_pos ⟨by omega, hl, he⟩]
        · rw [List.set_eq_of_length_le (by rw [(ih k).1]; omega), hk, if_neg (by omega)]
      · rw [getD_set_ne _ _ _ _ _ hik, (ih i).2]
        by_cases hc : i < k ∧ i < terrain.length ∧
            IsEnemyTerrain (terrain.getD i 0) w winnerTribe = true
        · rw [if_pos hc, if_pos ⟨by omega, hc.2⟩]
        · rw [if_neg hc, if_neg]
          rintro ⟨h1, h2⟩
          exact hc ⟨by omega, h2⟩
    · rw [if_neg he]
      refine ⟨(ih i).1, ?_⟩
      rw [(ih i).2]
      by_cases hc : i < k ∧ i < terrain.length ∧
          IsEnemyTerrain (terrain.getD i 0) w winnerTribe = true
      · rw [if_pos hc, if_pos ⟨by omega, hc.2⟩]
      · rw [if_neg hc, if_neg]
        rintro ⟨h1, h2, h3⟩
        by_cases hik : i = k
        · subst hik
          exact he h3
        · exact hc ⟨by omega, h2, h3⟩

/-- The conquest sweep, cell by cell: a cell carrying enemy home terrain of the
winner gets the home terrain of the winner, every other cell is unchanged. -/
theorem conquer_get (w : World) (winnerTribe winnerHome : Nat) (terrain : List Nat) (i : Nat) :
    (conquer w winnerTribe winnerHome terrain).length = terrain.length ∧
    (conquer w winnerTribe winnerHome terrain).getD i 0
      = if IsEnemyTerrain (terrain.getD i 0) w winnerTribe = true ∧ i < terrain.length
        then winnerHome else terrain.getD i 0 := by
  unfold conquer
  refine ⟨(conquer_upto w winnerTribe winnerHome terrain terrain.length i).1, ?_⟩
  rw [(conquer_upto w winnerTribe winnerHome terrain terrain.length i).2]
  by_cases hc : IsEnemyTerrain (terrain.getD i 0) w winnerTribe = true ∧ i < terrain.length
  · rw [if_pos hc, if_pos ⟨hc.2, hc.2, hc.1⟩]
  · rw [if_neg hc, if_neg]
    rintro ⟨_, h2, h3⟩
    exact hc ⟨h3, h2⟩

/-- What the end of the tick never writes. -/
theorem victoryStep_frame (w : World) (terrain : List Nat) (final : Layers) :
    (victoryStep w terrain final).Entities = final.ents ∧
    (victoryStep w terrain final).lastReprodTime = final.reprod ∧
    (victoryStep w terrain final).resources = w.resources ∧
    (victoryStep w terrain final).lastClearedTime = w.lastClearedTime ∧
    (victoryStep w terrain final).warStarted = w.warStarted ∧
    (victoryStep w terrain final).Tribes = w.Tribes ∧
    (victoryStep w terrain final).nextEntityID = w.nextEntityID ∧
    (victoryStep w terrain final).EntityStats = w.EntityStats ∧
    (victoryStep w terrain final).conversionRate = w.conversionRate := by
  unfold victoryStep
  generalize aliveTribes final.ents = al
  rcases al with _ | ⟨t, _ | ⟨t2, rest⟩⟩
  · exact ⟨rfl, rfl, rfl, rfl, rfl, rfl, rfl, rfl, rfl⟩
  · dsimp only []
    cases lookupTribe w.Tribes t <;> exact ⟨rfl, rfl, rfl, rfl, rfl, rfl, rfl, rfl, rfl⟩
  · exact ⟨rfl, rfl, rfl, rfl, rfl, rfl, rfl, rfl, rfl⟩

/-- The end of the tick when no faction is left. -/
theorem victoryStep_none (w : World) (terrain : List Nat) (final : Layers)
    (h : aliveTribes final.ents = []) :
    (victoryStep w terrain final).gameOver = true ∧
    (victoryStep w terrain final).winner = "draw" ∧
    (victoryStep w terrain final).Terrain = terrain := by
  unfold victoryStep
  rw [h]
  exact ⟨rfl, rfl, rfl⟩

/-- The end of the tick when exactly one faction is left. -/
theorem victoryStep_one (w : World) (terrain : List Nat) (final : Layers) (t : Nat)
    (h : aliveTribes final.ents = [t]) :
    (victoryStep w terrain final).gameOver = true ∧
    (victoryStep w terrain final).winner = toString t ∧
    (∀ cfg, lookupTribe w.Tribes t = some cfg →
      (victoryStep w terrain final).Terrain = conquer w t cfg.HomeTerrain terrain) ∧
    (lookupTribe w.Tribes t = none → (victoryStep w terrain final).Terrain = terrain) := by
  unfold victoryStep
  rw [h]
  dsimp only []
  cases hl : lookupTribe w.Tribes t with
  | none =>
    refine ⟨rfl, rfl, ?_, fun _ => rfl⟩
    intro cfg hc
    cases hc
  | some c =>
    refine ⟨rfl, rfl, ?_, ?_⟩
    · intro cfg hc
      cases hc
      rfl
    · intro hc
      cases hc

/-- The end of the tick when two or more factions are left. -/
theorem victoryStep_many (w : World) (terrain : List Nat) (final : Layers) (a b : Nat)
    (rest : List Nat) (h : aliveTribes final.ents = a :: b :: rest) :
    (victoryStep w terrain final).gameOver = w.gameOver ∧
    (victoryStep w terrain final).winner = w.winner ∧
    (victoryStep w terrain final).Terrain = terrain := by
  unfold victoryStep
  rw [h]
  exact ⟨rfl, rfl, rfl⟩

theorem updateConflict_eq (w : World) (d : WarDraws) (hgo : w.gameOver = false) :
    UpdateConflict w d = victoryStep w (afterConversion w d) (afterAttrition w d) := by
  unfold UpdateConflict
  rw [if_neg (by rw [hgo]; decide)]

/-- C15: a conflict-phase tick started with `gameOver` false ends with `gameOver`
true and winner `"draw"` when no faction has a live entity on the grid it installs,
with `gameOver` true and the decimal string of the faction as winner when exactly
one faction has, and with `gameOver` still false and the winner string untouched
(empty, if it was empty) when two or more factions have; so `gameOver` is true at
the end exactly when at most one faction has live entities. -/
theorem victory_check (w : World) (d : WarDraws) (hgo : w.gameOver = false) :
    ((∀ t, ¬ livesIn (UpdateConflict w d).Entities t) →
      (UpdateConflict w d).gameOver = true ∧ (UpdateConflict w d).winner = "draw") ∧
    (∀ t, livesIn (UpdateConflict w d).Entities t →
      (∀ t2, livesIn (UpdateConflict w d).Entities t2 → t2 = t) →
      (UpdateConflict w d).gameOver = true ∧ (UpdateConflict w d).winner = toString t) ∧
    ((∃ t1 t2, t1 ≠ t2 ∧ livesIn (UpdateConflict w d).Entities t1 ∧
        livesIn (UpdateConflict w d).Entities t2) →
      (UpdateConflict w d).gameOver = false ∧ (UpdateConflict w d).winner = w.winner ∧
      (w.winner = "" → (UpdateConflict w d).winner = "")) ∧
    ((UpdateConflict w d).gameOver = true ↔
      ∀ t1 t2, livesIn (UpdateConflict w d).Entities t1 →
        livesIn (UpdateConflict w d).Entities t2 → t1 = t2) := by
  rw [updateConflict_eq w d hgo, (victoryStep_frame w _ _).1]
  generalize afterConversion w d = terrain
  generalize afterAttrition w d = final
  have hnone := fun h => victoryStep_none w terrain final ((aliveTribes_nil_iff final.ents).2 h)
  have hone := fun t h1 h2 =>
    victoryStep_one w terrain final t ((aliveTribes_single_iff final.ents t).2 ⟨h1, h2⟩)
  have hmany : (∃ t1 t2, t1 ≠ t2 ∧ livesIn final.ents t1 ∧ livesIn final.ents t2) →
      (victoryStep w terrain final).gameOver = false ∧
      (victoryStep w terrain final).winner = w.winner := by
    intro h
    obtain ⟨a, b, rest, hal⟩ := (aliveTribes_many_iff final.ents).2 h
    have := victoryStep_many w terrain final a b rest hal
    exact ⟨this.1.trans hgo, this.2.1⟩
  refine ⟨fun h => ⟨(hnone h).1, (hnone h).2.1⟩,
    fun t h1 h2 => ⟨(hone t h1 h2).1, (hone t h1 h2).2.1⟩,
    fun h => ⟨(hmany h).1, (hmany h).2, fun he => (hmany h).2.trans he⟩, ?_⟩
  constructor
  · intro hover t1 t2 h1 h2
    by_contra hne
    have := (hmany ⟨t1, t2, hne, h1, h2⟩).1
    rw [hover] at this
    cases this
  · intro hall
    by_cases hex : ∃ t, livesIn final.ents t
    · obtain ⟨t, ht⟩ := hex
      exact (hone t ht (fun t2 h2 => hall t2 t h2 ht)).1
    · exact (hnone (fun t ht => hex ⟨t, ht⟩)).1


/-! ## The whole tick, cell by cell -/

theorem resolveMoves_nil (w : World) (d : WarDraws) (h : d.keyOrder = []) :
    resolveMoves w d = { ents := w.Entities, reprod := w.lastReprodTime } := by
  unfold resolveMoves
  rw [h]
  rfl

theorem afterConversion_length (w : World) (d : WarDraws) (hwf : w.WF) :
    (afterConversion w d).length = GridSize * GridSize :=
  loopCells_inv (conversionBody w d (afterCombat w d).ents)
    (fun t => t.length = GridSize * GridSize)
    (fun x y s h => (conversionBody_length w d _ x y s).trans h) _ _ _ hwf.2.1

/-- The occupant of an in-range cell at the end of a tick that is not frozen, from
the occupant that move resolution left there. -/
theorem updateConflict_cell (w : World) (d : WarDraws) (hwf : w.WF) (hgo : w.gameOver = false)
    (x y : Nat) (hx : x < GridSize) (hy : y < GridSize) :
    getCell (UpdateConflict w d).Entities x y none
      = (attritionCell ((afterConversion w d).getD (y * GridSize + x) 0)
          (damageCell w (getCell (damageAccum w d (resolveMoves w d).ents) x y 0)
            (cellOf (resolveMoves w d) x y))).1 := by
  rw [updateConflict_entities w d hgo, ← cellOf_fst, afterAttrition_cell w d hwf x y hx hy,
    afterCombat_cell w d hwf x y hx hy]

theorem damageCell_none {w : World} {incoming : Int} {c : Option Entity × Int}
    (hc : c.1 = none) : (damageCell w incoming c).1 = none := by
  unfold damageCell
  rw [hc]
  exact hc

/-- A cell left empty by move resolution is empty at the end of the tick. -/
theorem updateConflict_cell_none (w : World) (d : WarDraws) (hwf : w.WF)
    (hgo : w.gameOver = false) (x y : Nat) (hx : x < GridSize) (hy : y < GridSize)
    (h : getCell (resolveMoves w d).ents x y none = none) :
    getCell (UpdateConflict w d).Entities x y none = none := by
  rw [updateConflict_cell w d hwf hgo x y hx hy]
  apply attritionCell_none
  apply damageCell_none
  rw [cellOf_fst]
  exact h

theorem enemyDamage_empty (w : World) (g : List (List (Option Entity))) (b : Entity)
    (nx ny : Int) (h : getCell g nx.toNat ny.toNat none = none) :
    enemyDamage w g b nx ny = 0 := by
  unfold enemyDamage
  rw [h]
  split <;> rfl

/-- A survivor of the damage loop keeps every field but its health. -/
theorem damageCell_survivor {w : World} {incoming : Int} {c : Option Entity × Int}
    {e : Entity} (hc : c.1 = some e)
    (hlive : ¬ (e.Health - effectiveDmg incoming (TotalArmor e w) ≤ 0)) :
    damageCell w incoming c
      = (some { e with Health := (e.Health - effectiveDmg incoming (TotalArmor e w)) }, c.2) := by
  unfold damageCell
  rw [hc]
  dsimp only []
  rw [if_neg hlive]


/-! ## A lone entity: the tick evaluated on the stranded Wanderer -/

theorem paintCell_entities (w : World) (x y typ : Nat) :
    (paintCell w x y typ).Entities = setCell w.Entities x y none := rfl

theorem paintCell_terrain (w : World) (x y typ : Nat) :
    (paintCell w x y typ).Terrain = w.Terrain.set (y * GridSize + x) typ := rfl

theorem loadRegistry_layers (w : World) (terrain : List Nat) (tribes : List (Nat × TribeConfig)) :
    (loadRegistry w terrain tribes).Entities = w.Entities ∧
    (loadRegistry w terrain tribes).Terrain = terrain ∧
    (loadRegistry w terrain tribes).lastReprodTime = w.lastReprodTime ∧
    (loadRegistry w terrain tribes).lastClearedTime = w.lastClearedTime :=
  ⟨rfl, rfl, rfl, rfl⟩

theorem loadRegistry_WF {w : World} (hwf : w.WF) (terrain : List Nat)
    (tribes : List (Nat × TribeConfig)) (hlen : terrain.length = GridSize * GridSize) :
    (loadRegistry w terrain tribes).WF := by
  unfold World.WF
  rw [(loadRegistry_layers w terrain tribes).1, (loadRegistry_layers w terrain tribes).2.1,
    (loadRegistry_layers w terrain tribes).2.2.1, (loadRegistry_layers w terrain tribes).2.2.2]
  exact ⟨hwf.1, hlen, hwf.2.2.1, hwf.2.2.2⟩

theorem strandedWorld_WF : strandedWorld.WF :=
  StartWar_WF (paintCell_WF (loadRegistry_WF
    (spawnAt_WF (paintCell_WF (withTribes_WF _) _ _ _) _ _ _) _ _ (List.length_replicate _ _))
    _ _ _)

theorem stranded_gameOver : strandedWorld.gameOver = false := rfl

theorem stranded_tribes : strandedWorld.Tribes = [(1, customNomads 1)] := rfl

/-- The entity layer of the stranded world: the Wanderer at (5, 5) and nothing
else. -/
theorem stranded_ents (x y : Nat) :
    getCell strandedWorld.Entities x y none
      = if x = 5 ∧ y = 5 then some (freshEntity 2 1 (22/100)) else none := by
  have h5 : (5 : Nat) < GridSize := by decide
  have hE0 : GridWF (withTribes verticalTribes).Entities := (withTribes_WF _).1
  have hE1 := GridWF_setCell hE0 5 5 none
  rw [strandedWorld, (StartWar_layers strandedPeace).1]
  show getCell (setCell (setCell (setCell (withTribes verticalTribes).Entities 5 5 none)
      5 5 (some (freshEntity 2 1 (22/100)))) 0 0 none) x y none = _
  by_cases hA : x = 5 ∧ y = 5
  · rw [if_pos hA, hA.1, hA.2, getCell_setCell_ne _ _ _ _ _ _ _ (by omega)]
    exact getCell_setCell_self _ _ _ _ _ (by rw [hE1.1]; exact h5)
      (by rw [GridWF_row hE1 h5]; exact h5)
  · rw [if_neg hA]
    rcases getCell_setCell_cases (setCell (setCell (withTribes verticalTribes).Entities 5 5 none)
        5 5 (some (freshEntity 2 1 (22/100)))) 0 0 x y none none with h | h
    · exact h
    · rw [h, getCell_setCell_ne _ _ _ _ _ _ _ (by omega),
        getCell_setCell_ne _ _ _ _ _ _ _ (by omega)]
      exact withTribes_entities _ x y

/-- The terrain layer of the stranded world: red (1) at index 0, 0 elsewhere. -/
theorem stranded_terrain (i : Nat) :
    strandedWorld.Terrain.getD i 0 = if i = 0 then 1 else 0 := by
  rw [strandedWorld, (StartWar_layers strandedPeace).2.1, strandedPeace, paintCell_terrain,
    (loadRegistry_layers _ _ _).2.1]
  by_cases hi : i = 0
  · rw [if_pos hi, hi]
    exact getD_set_self _ _ _ _ (by rw [List.length_replicate]; decide)
  · rw [if_neg hi, getD_set_ne _ _ _ _ _ (by omega), List.getD_eq_getElem?_getD,
      List.getElem?_replicate]
    split <;> rfl

theorem stranded_armor : TotalArmor (freshEntity 2 1 (22/100)) strandedWorld = 0 := rfl

/-- In the stranded world no damage is accumulated on the Wanderer. -/
theorem stranded_accum :
    getCell (damageAccum strandedWorld duelDraws strandedWorld.Entities) 5 5 0 = 0 := by
  have hb : getCell strandedWorld.Entities 5 5 none = some (freshEntity 2 1 (22/100)) := by
    rw [stranded_ents]
    simp
  have hno : ∀ x y k, duelDraws.hitRoll x y k ≥ (freshEntity 2 1 (22/100)).Evasion := by
    intro x y k
    show (22/100 : ℚ) ≤ 1/2
    norm_num
  rw [damageAccum_noEvasion strandedWorld duelDraws _ 5 5 (by decide) (by decide) _ hb hno]
  have hnone : ∀ nx ny : Int, ¬ (nx.toNat = 5 ∧ ny.toNat = 5) →
      enemyDamage strandedWorld strandedWorld.Entities (freshEntity 2 1 (22/100)) nx ny = 0 := by
    intro nx ny hne
    apply enemyDamage_empty
    rw [stranded_ents, if_neg hne]
  rw [hnone _ _ (by omega), hnone _ _ (by omega), hnone _ _ (by omega), hnone _ _ (by omega)]
  rfl

theorem stranded_resolve :
    resolveMoves strandedWorld duelDraws
      = { ents := strandedWorld.Entities, reprod := strandedWorld.lastReprodTime } :=
  resolveMoves_nil _ _ rfl

/-- In the stranded world the Wanderer leaves the damage loop with health 99. -/
theorem stranded_afterCombat :
    getCell (afterCombat strandedWorld duelDraws).ents 5 5 none
      = some { freshEntity 2 1 (22/100) with Health := 99 } := by
  have hc : (cellOf { ents := strandedWorld.Entities, reprod := strandedWorld.lastReprodTime }
      5 5).1 = some (freshEntity 2 1 (22/100)) := by
    rw [cellOf_fst]
    dsimp only []
    rw [stranded_ents]
    simp
  rw [← cellOf_fst, afterCombat_cell strandedWorld duelDraws strandedWorld_WF 5 5 (by decide)
    (by decide), stranded_resolve]
  dsimp only []
  rw [stranded_accum, damageCell_survivor hc (by rw [stranded_armor]; decide), stranded_armor]
  rfl

/-- A conversion roll that fails leaves the terrain code of the cell alone. -/
theorem conversionCell_noRoll (w : World) (d : WarDraws) (occ : Option Entity) (x y t : Nat)
    (h : ¬ (d.convRoll x y < w.conversionRate)) : conversionCell w d occ x y t = t := by
  unfold conversionCell
  cases occ with
  | none => rfl
  | some ent =>
    dsimp only []
    rw [if_neg (fun hh => h hh.2)]

/-- Regeneration at the cap: health goes back to 100. -/
theorem attritionCell_cap {t : Nat} {c : Option Entity × Int} {e : Entity}
    (hc : c.1 = some e)
    (ht : ¬ (t = TerrainHills ∨ t = TerrainRocks ∨ t = TerrainTrees))
    (h1 : e.Health < 100) (h2 : e.Health + 3 > 100) :
    (attritionCell t c).1 = some { e with Health := 100 } := by
  unfold attritionCell
  rw [hc]
  dsimp only []
  rw [if_neg ht, if_pos h1, if_pos h2]

theorem stranded_rate : strandedWorld.conversionRate = 20/100 := rfl

theorem duelDraws_convRoll (x y : Nat) : duelDraws.convRoll x y = 1/2 := rfl

/-- In the stranded world the conversion loop changes no cell. -/
theorem stranded_afterConversion (x y : Nat) (hx : x < GridSize) (hy : y < GridSize) :
    (afterConversion strandedWorld duelDraws).getD (y * GridSize + x) 0
      = strandedWorld.Terrain.getD (y * GridSize + x) 0 := by
  rw [afterConversion_cell strandedWorld duelDraws strandedWorld_WF x y hx hy]
  apply conversionCell_noRoll
  rw [stranded_rate, duelDraws_convRoll]
  norm_num

/-- In the stranded world the Wanderer ends the tick where it was, with health 100,
and every other cell ends the tick empty. -/
theorem stranded_final (x y : Nat) (hx : x < GridSize) (hy : y < GridSize) :
    getCell (UpdateConflict strandedWorld duelDraws).Entities x y none
      = if x = 5 ∧ y = 5 then some (freshEntity 2 1 (22/100)) else none := by
  by_cases hA : x = 5 ∧ y = 5
  · rw [if_pos hA, hA.1, hA.2]
    have hc : (cellOf (afterCombat strandedWorld duelDraws) 5 5).1
        = some { freshEntity 2 1 (22/100) with Health := 99 } := by
      rw [cellOf_fst]
      exact stranded_afterCombat
    rw [updateConflict_entities strandedWorld duelDraws stranded_gameOver, ← cellOf_fst,
      afterAttrition_cell strandedWorld duelDraws strandedWorld_WF 5 5 (by decide) (by decide),
      attritionCell_cap hc
        (by rw [stranded_afterConversion 5 5 (by decide) (by decide), stranded_terrain]; decide)
        (by decide) (by decide)]
    rfl
  · rw [if_neg hA]
    apply updateConflict_cell_none strandedWorld duelDraws strandedWorld_WF stranded_gameOver
      x y hx hy
    rw [stranded_resolve]
    dsimp only []
    rw [stranded_ents, if_neg hA]

/-- In the stranded world faction 2, and only faction 2, has a live entity at the
end of the tick. -/
theorem stranded_alive :
    livesIn (UpdateConflict strandedWorld duelDraws).Entities 2 ∧
    ∀ t, livesIn (UpdateConflict strandedWorld duelDraws).Entities t → t = 2 := by
  constructor
  · refine ⟨5, 5, by decide, by decide, freshEntity 2 1 (22/100), ?_, rfl⟩
    rw [stranded_final 5 5 (by decide) (by decide)]
    simp
  · rintro t ⟨x, y, hx, hy, e, he, ht⟩
    rw [stranded_final x y hx hy] at he
    by_cases hA : x = 5 ∧ y = 5
    · rw [if_pos hA] at he
      cases he
      exact ht.symm
    · rw [if_neg hA] at he
      cases he


theorem stranded_moved :
    getCell (resolveMoves strandedWorld duelDraws).ents 5 5 none
      = some (freshEntity 2 1 (22/100)) := by
  rw [stranded_resolve]
  dsimp only []
  rw [stranded_ents]
  simp

theorem stranded_accum_moved :
    getCell (damageAccum strandedWorld duelDraws (resolveMoves strandedWorld duelDraws).ents)
      5 5 0 = 0 := by
  rw [stranded_resolve]
  exact stranded_accum

/-- C11, refuted as stated: in the stranded world the Wanderer of cell (5, 5) has no
neighbour, the damage accumulated on it is 0, and yet the damage loop takes 1 from
its health (100 before, 99 after), not 0. -/
theorem combat_zero_claim_fails :
    getCell (resolveMoves strandedWorld duelDraws).ents 5 5 none
      = some (freshEntity 2 1 (22/100)) ∧
    getCell (damageAccum strandedWorld duelDraws (resolveMoves strandedWorld duelDraws).ents)
      5 5 0 = 0 ∧
    getCell (afterCombat strandedWorld duelDraws).ents 5 5 none
      = some { freshEntity 2 1 (22/100) with Health := 99 } ∧
    (freshEntity 2 1 (22/100)).Health - 99 ≠ 0 :=
  ⟨stranded_moved, stranded_accum_moved, stranded_afterCombat, by decide⟩

/-- Witness of the amended C11, on the stranded world: the Wanderer of cell (5, 5),
whose health 100 is not brought to 0 by a damage of `max (0 - 0) 1`. -/
theorem combat_damage_applied_witness :
    strandedWorld.WF ∧
    getCell (resolveMoves strandedWorld duelDraws).ents 5 5 none
      = some (freshEntity 2 1 (22/100)) ∧
    getCell (afterCombat strandedWorld duelDraws).ents 5 5 none
      = some { freshEntity 2 1 (22/100) with Health := ((freshEntity 2 1 (22/100)).Health -
          max (getCell (damageAccum strandedWorld duelDraws
            (resolveMoves strandedWorld duelDraws).ents) 5 5 0
            - TotalArmor (freshEntity 2 1 (22/100)) strandedWorld) 1) } :=
  ⟨strandedWorld_WF, stranded_moved,
    ((combat_damage_applied strandedWorld duelDraws strandedWorld_WF 5 5 (by decide) (by decide)
      (freshEntity 2 1 (22/100)) stranded_moved).2 (by
        rw [stranded_accum_moved, stranded_armor]
        decide)).1⟩

/-! ## Victory and conquest -/

/-- C14, amended: when a conflict-phase tick of a well-formed world, started with
`gameOver` false, ends with exactly one faction `t` having live entities, `gameOver`
becomes true and the winner is the decimal string of `t`.  When `t` is registered,
the conquest sweep gives the home terrain of `t` to every cell that carried, after
the conversion step, the home terrain of a registered faction other than `t`, and
leaves every other cell as the conversion step left it; so, when moreover no other
registered faction has the same home terrain as `t`, no cell carries the home
terrain of a registered faction other than `t` afterwards.  When `t` is not
registered there is no sweep: the terrain layer is as the conversion step left
it. -/
theorem conquest_sweep (w : World) (d : WarDraws) (hwf : w.WF) (hk : KeysNodup w.Tribes)
    (hgo : w.gameOver = false) (t : Nat)
    (hone : livesIn (UpdateConflict w d).Entities t)
    (honly : ∀ t2, livesIn (UpdateConflict w d).Entities t2 → t2 = t) :
    (UpdateConflict w d).gameOver = true ∧ (UpdateConflict w d).winner = toString t ∧
    (∀ cfg, lookupTribe w.Tribes t = some cfg →
      (∀ i, i < GridSize * GridSize →
        ((∃ g cfg2, g ≠ t ∧ lookupTribe w.Tribes g = some cfg2 ∧
            cfg2.HomeTerrain = (afterConversion w d).getD i 0) →
          (UpdateConflict w d).Terrain.getD i 0 = cfg.HomeTerrain) ∧
        ((¬ ∃ g cfg2, g ≠ t ∧ lookupTribe w.Tribes g = some cfg2 ∧
            cfg2.HomeTerrain = (afterConversion w d).getD i 0) →
          (UpdateConflict w d).Terrain.getD i 0 = (afterConversion w d).getD i 0)) ∧
      ((∀ g cfg2, g ≠ t → lookupTribe w.Tribes g = some cfg2 →
          cfg2.HomeTerrain ≠ cfg.HomeTerrain) →
        ∀ i, i < GridSize * GridSize → ∀ g cfg2, g ≠ t → lookupTribe w.Tribes g = some cfg2 →
          (UpdateConflict w d).Terrain.getD i 0 ≠ cfg2.HomeTerrain)) ∧
    (lookupTribe w.Tribes t = none → (UpdateConflict w d).Terrain = afterConversion w d) := by
  have hlen := afterConversion_length w d hwf
  rw [updateConflict_eq w d hgo, (victoryStep_frame w _ _).1] at hone honly
  rw [updateConflict_eq w d hgo]
  generalize afterConversion w d = terrain at hlen hone honly ⊢
  generalize afterAttrition w d = final at hone honly ⊢
  obtain ⟨h1, h2, h3, h4⟩ :=
    victoryStep_one w terrain final t ((aliveTribes_single_iff final.ents t).2 ⟨hone, honly⟩)
  refine ⟨h1, h2, ?_, h4⟩
  intro cfg hcfg
  have hreg : (lookupTribe w.Tribes t).isSome = true := by rw [hcfg]; rfl
  have hcell : ∀ i, i < GridSize * GridSize →
      ((∃ g cfg2, g ≠ t ∧ lookupTribe w.Tribes g = some cfg2 ∧
          cfg2.HomeTerrain = terrain.getD i 0) →
        (victoryStep w terrain final).Terrain.getD i 0 = cfg.HomeTerrain) ∧
      ((¬ ∃ g cfg2, g ≠ t ∧ lookupTribe w.Tribes g = some cfg2 ∧
          cfg2.HomeTerrain = terrain.getD i 0) →
        (victoryStep w terrain final).Terrain.getD i 0 = terrain.getD i 0) := by
    intro i hi
    rw [h3 cfg hcfg, (conquer_get w t cfg.HomeTerrain terrain i).2]
    have hen := isEnemyTerrain_registered w t (terrain.getD i 0) hk hreg
    constructor
    · intro hex
      rw [if_pos ⟨hen.2 hex, by rw [hlen]; exact hi⟩]
    · intro hex
      rw [if_neg (fun hh => hex (hen.1 hh.1))]
  refine ⟨hcell, ?_⟩
  intro huniq i hi g cfg2 hg hl heq
  by_cases hex : ∃ g cfg2, g ≠ t ∧ lookupTribe w.Tribes g = some cfg2 ∧
      cfg2.HomeTerrain = terrain.getD i 0
  · rw [(hcell i hi).1 hex] at heq
    exact huniq g cfg2 hg hl heq.symm
  · apply hex
    refine ⟨g, cfg2, hg, hl, ?_⟩
    rw [← (hcell i hi).2 hex, heq]

/-- C14, refuted as stated: the tick of the stranded world ends with exactly one
faction, 2, having live entities; `gameOver` becomes true and the winner is `"2"`;
faction 1 is registered, is not the winner, and cell (0, 0) still carries its home
terrain, red (1): faction 2 has no registry entry, so the sweep did not run. -/
theorem conquest_claim_fails :
    strandedWorld.gameOver = false ∧
    livesIn (UpdateConflict strandedWorld duelDraws).Entities 2 ∧
    (∀ t, livesIn (UpdateConflict strandedWorld duelDraws).Entities t → t = 2) ∧
    (UpdateConflict strandedWorld duelDraws).gameOver = true ∧
    (UpdateConflict strandedWorld duelDraws).winner = "2" ∧
    lookupTribe (UpdateConflict strandedWorld duelDraws).Tribes 1 = some (customNomads 1) ∧
    (1 : Nat) ≠ 2 ∧
    (UpdateConflict strandedWorld duelDraws).Terrain.getD (0 * GridSize + 0) 0
      = (customNomads 1).HomeTerrain := by
  have halive := stranded_alive
  rw [updateConflict_eq strandedWorld duelDraws stranded_gameOver,
    (victoryStep_frame strandedWorld _ _).1] at halive
  have hone := victoryStep_one strandedWorld (afterConversion strandedWorld duelDraws)
    (afterAttrition strandedWorld duelDraws) 2
    ((aliveTribes_single_iff _ 2).2 halive)
  refine ⟨stranded_gameOver, stranded_alive.1, stranded_alive.2, ?_, ?_, ?_, by decide, ?_⟩
  · rw [updateConflict_eq strandedWorld duelDraws stranded_gameOver]
    exact hone.1
  · rw [updateConflict_eq strandedWorld duelDraws stranded_gameOver]
    exact hone.2.1
  · rw [updateConflict_eq strandedWorld duelDraws stranded_gameOver,
      (victoryStep_frame strandedWorld _ _).2.2.2.2.2.1, stranded_tribes]
    rfl
  · rw [updateConflict_eq strandedWorld duelDraws stranded_gameOver,
      hone.2.2.2 (by rw [stranded_tribes]; rfl),
      stranded_afterConversion 0 0 (by decide) (by decide), stranded_terrain]
    rfl


/-- Witness of the amended C14, on the stranded world and its surviving faction 2. -/
theorem conquest_sweep_witness :
    strandedWorld.WF ∧ KeysNodup strandedWorld.Tribes ∧ strandedWorld.gameOver = false ∧
    livesIn (UpdateConflict strandedWorld duelDraws).Entities 2 ∧
    (∀ t2, livesIn (UpdateConflict strandedWorld duelDraws).Entities t2 → t2 = 2) ∧
    (UpdateConflict strandedWorld duelDraws).gameOver = true ∧
    (UpdateConflict strandedWorld duelDraws).winner = toString 2 :=
  have h := conquest_sweep strandedWorld duelDraws strandedWorld_WF
    (by rw [stranded_tribes]; decide) stranded_gameOver 2 stranded_alive.1 stranded_alive.2
  ⟨strandedWorld_WF, by rw [stranded_tribes]; decide, stranded_gameOver, stranded_alive.1,
    stranded_alive.2, h.1, h.2.1⟩

/-- Witness of C15, on the stranded world: one faction is left at the end of the
tick, the game is over and the winner is that faction. -/
theorem victory_check_witness :
    strandedWorld.gameOver = false ∧
    (UpdateConflict strandedWorld duelDraws).gameOver = true ∧
    (UpdateConflict strandedWorld duelDraws).winner = toString 2 :=
  ⟨stranded_gameOver,
    (victory_check strandedWorld duelDraws stranded_gameOver).2.1 2 stranded_alive.1
      stranded_alive.2⟩

theorem stepDraws_valid : MovesValid duelWorld stepDraws.moves := by
  constructor
  · intro pm hpm
    have hpm2 : pm = { fromX := 5, fromY := 5, toX := 5, toY := 4 } := List.mem_singleton.1 hpm
    subst hpm2
    refine ⟨by decide, by decide, by decide, by decide, ?_, ?_⟩
    · rw [duel_ents]
      simp
    · rw [duel_ents]
      simp
  · exact List.nodup_singleton _


/-! ## Reset -/

theorem resetWith_fields (w : World) (st : TimedLayers) :
    (resetWith w st).Entities = st.ents ∧ (resetWith w st).lastReprodTime = st.reprod ∧
    (resetWith w st).lastClearedTime = st.cleared ∧
    (resetWith w st).resources = (fun _ => none) ∧
    (resetWith w st).nextEntityID = (fun _ => none) ∧
    (resetWith w st).warStarted = false ∧ (resetWith w st).gameOver = false ∧
    (resetWith w st).winner = "" ∧ (resetWith w st).Terrain = w.Terrain ∧
    (resetWith w st).Tribes = w.Tribes :=
  ⟨rfl, rfl, rfl, rfl, rfl, rfl, rfl, rfl, rfl, rfl⟩

theorem resetBody_WF (x y : Nat) (st : TimedLayers)
    (h : GridWF st.ents ∧ GridWF st.reprod ∧ GridWF st.cleared) :
    GridWF (resetBody x y st).ents ∧ GridWF (resetBody x y st).reprod ∧
      GridWF (resetBody x y st).cleared :=
  ⟨GridWF_setCell h.1 _ _ _, GridWF_setCell h.2.1 _ _ _, GridWF_setCell h.2.2 _ _ _⟩

/-- What the three grids hold at one cell. -/
theorem timedCell_eq (s : TimedLayers) (cx cy : Nat) (v : Option Entity × Int × Int)
    (h : (getCell s.ents cx cy none, getCell s.reprod cx cy 0, getCell s.cleared cx cy 0) = v) :
    getCell s.ents cx cy none = v.1 ∧ getCell s.reprod cx cy 0 = v.2.1 ∧
      getCell s.cleared cx cy 0 = v.2.2 := by
  subst h
  exact ⟨rfl, rfl, rfl⟩

/-- The loop of `Reset`, cell by cell. -/
theorem resetLoop_cell (st : TimedLayers)
    (h : GridWF st.ents ∧ GridWF st.reprod ∧ GridWF st.cleared) (cx cy : Nat)
    (hx : cx < GridSize) (hy : cy < GridSize) :
    getCell (forCells resetBody st).ents cx cy none = none ∧
    getCell (forCells resetBody st).reprod cx cy 0 = 0 ∧
    getCell (forCells resetBody st).cleared cx cy 0 = 0 := by
  have hloc := loopCells_local resetBody
    (fun s : TimedLayers =>
      (getCell s.ents cx cy none, getCell s.reprod cx cy 0, getCell s.cleared cx cy 0))
    (fun _ => (none, 0, 0))
    (fun s => GridWF s.ents ∧ GridWF s.reprod ∧ GridWF s.cleared) cx cy
    (fun x y s hs => resetBody_WF x y s hs)
    (fun x y s _ _ hne => by
      have hne2 : cx ≠ x ∨ cy ≠ y := by
        rcases hne with h1 | h1
        · exact Or.inl (fun e => h1 e.symm)
        · exact Or.inr (fun e => h1 e.symm)
      unfold resetBody
      dsimp only []
      rw [getCell_setCell_ne _ _ _ _ _ _ _ hne2, getCell_setCell_ne _ _ _ _ _ _ _ hne2,
        getCell_setCell_ne _ _ _ _ _ _ _ hne2])
    (fun s hs => by
      unfold resetBody
      dsimp only []
      rw [getCell_setCell_self _ _ _ _ _ (by rw [hs.1.1]; exact hy)
          (by rw [GridWF_row hs.1 hy]; exact hx),
        getCell_setCell_self _ _ _ _ _ (by rw [hs.2.1.1]; exact hy)
          (by rw [GridWF_row hs.2.1 hy]; exact hx),
        getCell_setCell_self _ _ _ _ _ (by rw [hs.2.2.1]; exact hy)
          (by rw [GridWF_row hs.2.2 hy]; exact hx)])
    GridSize st h
  rw [if_pos ⟨hy, hx⟩] at hloc
  exact timedCell_eq (forCells resetBody st) cx cy (none, 0, 0) hloc

/-- C18: after `Reset` of a well-formed world every in-range cell is unoccupied and
has an empty reproduction timestamp and an empty clear timestamp, the ledgers and
the identifier counters have no entry, `warStarted` and `gameOver` are false, the
winner is empty, and the terrain layer is the one given. -/
theorem Reset_clears (w : World) (hwf : w.WF) :
    (∀ x y, x < GridSize → y < GridSize →
      getCell (Reset w).Entities x y none = none ∧
      getCell (Reset w).lastReprodTime x y 0 = 0 ∧
      getCell (Reset w).lastClearedTime x y 0 = 0) ∧
    (∀ t, (Reset w).resources t = none) ∧ (∀ t, (Reset w).nextEntityID t = none) ∧
    (Reset w).warStarted = false ∧ (Reset w).gameOver = false ∧ (Reset w).winner = "" ∧
    (Reset w).Terrain = w.Terrain := by
  unfold Reset
  obtain ⟨f1, f2, f3, f4, f5, f6, f7, f8, f9, _⟩ := resetWith_fields w
    (forCells resetBody
      { ents := w.Entities, reprod := w.lastReprodTime, cleared := w.lastClearedTime })
  refine ⟨?_, ?_, ?_, f6, f7, f8, f9⟩
  · intro x y hx hy
    rw [f1, f2, f3]
    exact resetLoop_cell _ ⟨hwf.1, hwf.2.2.1, hwf.2.2.2⟩ x y hx hy
  · intro t
    rw [f4]
  · intro t
    rw [f5]

/-- Witness of C18, on the stranded world: its one entity is gone after `Reset`. -/
theorem Reset_clears_witness :
    strandedWorld.WF ∧ getCell (Reset strandedWorld).Entities 5 5 none = none ∧
    (Reset strandedWorld).warStarted = false ∧
    (Reset strandedWorld).Terrain = strandedWorld.Terrain :=
  have h := Reset_clears strandedWorld strandedWorld_WF
  ⟨strandedWorld_WF, ((h.1 5 5 (by decide) (by decide)).1), h.2.2.2.1, h.2.2.2.2.2.2⟩


/-! ## The phase flags -/

theorem PlaceEntity_frame (w : World) (x y : Int) (typ : Nat) :
    (PlaceEntity w x y typ).1.warStarted = w.warStarted ∧
    (PlaceEntity w x y typ).1.gameOver = w.gameOver ∧
    (PlaceEntity w x y typ).1.resources = w.resources := by
  unfold PlaceEntity
  dsimp only []
  repeat' split
  all_goals exact ⟨rfl, rfl, rfl⟩

/-! ## What the map operations leave alone -/

theorem placeStarter_frame (w : World) (x y tribe : Nat) (cfg : TribeConfig) :
    (placeStarter w x y tribe cfg).Terrain = w.Terrain ∧
    (placeStarter w x y tribe cfg).Tribes = w.Tribes ∧
    LoadFrame w (placeStarter w x y tribe cfg) :=
  ⟨rfl, rfl, rfl, rfl, rfl, rfl, rfl, rfl, rfl, rfl, rfl, rfl⟩

theorem LoadFrame_refl (w : World) : LoadFrame w w :=
  ⟨rfl, rfl, rfl, rfl, rfl, rfl, rfl, rfl, rfl, rfl⟩

theorem LoadFrame_trans {a b c : World} (h1 : LoadFrame a b) (h2 : LoadFrame b c) :
    LoadFrame a c :=
  ⟨h2.1.trans h1.1, h2.2.1.trans h1.2.1, h2.2.2.1.trans h1.2.2.1,
    h2.2.2.2.1.trans h1.2.2.2.1, h2.2.2.2.2.1.trans h1.2.2.2.2.1,
    h2.2.2.2.2.2.1.trans h1.2.2.2.2.2.1, h2.2.2.2.2.2.2.1.trans h1.2.2.2.2.2.2.1,
    h2.2.2.2.2.2.2.2.1.trans h1.2.2.2.2.2.2.2.1,
    h2.2.2.2.2.2.2.2.2.1.trans h1.2.2.2.2.2.2.2.2.1,
    h2.2.2.2.2.2.2.2.2.2.trans h1.2.2.2.2.2.2.2.2.2⟩

theorem tryStarter_frame (w : World) (tribe : Nat) (cfg : TribeConfig)
    (cells : List (Nat × Nat)) :
    (tryStarter w tribe cfg cells).Terrain = w.Terrain ∧
    (tryStarter w tribe cfg cells).Tribes = w.Tribes ∧
    LoadFrame w (tryStarter w tribe cfg cells) := by
  unfold tryStarter
  cases (cells.take 1000).find? (starterFits w cfg) with
  | none => exact ⟨rfl, rfl, LoadFrame_refl w⟩
  | some c => exact placeStarter_frame w _ _ tribe cfg

/-- Placing starters writes the entity layer and the identifier counters only. -/
theorem placeStarters_frame (w : World) (attempts : Nat → Nat → List (Nat × Nat)) :
    (placeStarters w attempts).Terrain = w.Terrain ∧
    (placeStarters w attempts).Tribes = w.Tribes ∧
    LoadFrame w (placeStarters w attempts) := by
  unfold placeStarters
  apply foldl_inv (tribeStarters attempts)
    (fun s => s.Terrain = w.Terrain ∧ s.Tribes = w.Tribes ∧ LoadFrame w s)
  · intro s p hs
    unfold tribeStarters
    apply foldl_inv (fun acc i => tryStarter acc p.1 p.2 (attempts p.1 i))
      (fun s => s.Terrain = w.Terrain ∧ s.Tribes = w.Tribes ∧ LoadFrame w s)
    · intro s2 i hs2
      have h := tryStarter_frame s2 p.1 p.2 (attempts p.1 i)
      exact ⟨h.1.trans hs2.1, h.2.1.trans hs2.2.1, LoadFrame_trans hs2.2.2 h.2.2⟩
    · exact hs
  · exact ⟨rfl, rfl, LoadFrame_refl w⟩

theorem loadRegistry_frame (w : World) (terrain : List Nat)
    (tribes : List (Nat × TribeConfig)) : LoadFrame w (loadRegistry w terrain tribes) :=
  ⟨rfl, rfl, rfl, rfl, rfl, rfl, rfl, rfl, rfl, rfl⟩

theorem InitCustomMap_frame (w : World) (terrain : List Nat)
    (assignments : List (String × String)) (attempts : Nat → Nat → List (Nat × Nat)) :
    LoadFrame w (InitCustomMap w terrain assignments attempts).1 := by
  unfold InitCustomMap
  split_ifs
  · exact LoadFrame_refl w
  · exact loadRegistry_frame w _ _
  · exact LoadFrame_trans (loadRegistry_frame w _ _) (placeStarters_frame _ attempts).2.2

theorem withTerrain_fields (w : World) (t : List Nat) :
    (withTerrain w t).Terrain = t ∧ BordersFrame w (withTerrain w t) :=
  ⟨rfl, rfl, rfl, rfl, rfl, rfl, rfl, rfl, rfl, rfl, rfl, rfl, rfl, rfl⟩

theorem ConvertBordersToTerrain_fields (w : World) (order : Nat → Nat → List Nat) :
    (ConvertBordersToTerrain w order).Terrain = convertedTerrain order w.Terrain ∧
    BordersFrame w (ConvertBordersToTerrain w order) := by
  unfold ConvertBordersToTerrain
  exact withTerrain_fields w _

/-- The fields that no operation other than `Update` and `Reset` writes. -/
theorem OpStep_frame {w w2 : World} (h : OpStep w w2) :
    (∃ wd pd, w2 = Update w wd pd) ∨
    (w2.warStarted = w.warStarted ∨ w2.warStarted = true) ∧ w2.gameOver = w.gameOver ∧
      w2.resources = w.resources := by
  cases h
  case initMap terrain tribes attempts hlen =>
    have hf := LoadFrame_trans (loadRegistry_frame w terrain tribes)
      (placeStarters_frame (loadRegistry w terrain tribes) attempts).2.2
    exact Or.inr ⟨Or.inl hf.2.2.2.2.1, hf.2.2.2.2.2.2.1, hf.2.2.2.2.2.2.2.2.2⟩
  case initCustomMap terrain assignments attempts =>
    have hf := InitCustomMap_frame w terrain assignments attempts
    exact Or.inr ⟨Or.inl hf.2.2.2.2.1, hf.2.2.2.2.2.2.1, hf.2.2.2.2.2.2.2.2.2⟩
  case placeEntity x y typ =>
    exact Or.inr ⟨Or.inl (PlaceEntity_frame w x y typ).1, (PlaceEntity_frame w x y typ).2.1,
      (PlaceEntity_frame w x y typ).2.2⟩
  case convertBorders order =>
    have hf := (ConvertBordersToTerrain_fields w order).2.2.2.2
    exact Or.inr ⟨Or.inl hf.2.2.2.2.1, hf.2.2.2.2.2.2.1, hf.2.2.2.2.2.2.2.2.2⟩
  case startWar => exact Or.inr ⟨Or.inr rfl, rfl, rfl⟩
  case update wd pd _ => exact Or.inl ⟨wd, pd, rfl⟩

theorem installPeace_frame (w : World) (born : BirthState) (crafted : CraftState) :
    (installPeace w born crafted).warStarted = w.warStarted ∧
    (installPeace w born crafted).gameOver = w.gameOver ∧
    (installPeace w born crafted).resources = crafted.resources ∧
    (installPeace w born crafted).Entities = born.ents ∧
    (installPeace w born crafted).Tribes = w.Tribes ∧
    (installPeace w born crafted).Terrain = w.Terrain ∧
    (installPeace w born crafted).lastClearedTime = w.lastClearedTime :=
  ⟨rfl, rfl, rfl, rfl, rfl, rfl, rfl⟩

theorem withMined_frame (w : World) (st : MineState) :
    (withMined w st).warStarted = w.warStarted ∧ (withMined w st).gameOver = w.gameOver ∧
    (withMined w st).resources = st.resources ∧ (withMined w st).Entities = w.Entities ∧
    (withMined w st).Terrain = st.terrain ∧ (withMined w st).lastClearedTime = st.cleared :=
  ⟨rfl, rfl, rfl, rfl, rfl, rfl⟩

theorem updateConflict_frozen (w : World) (d : WarDraws) (hgo : w.gameOver = true) :
    UpdateConflict w d = w := by
  unfold UpdateConflict
  rw [if_pos hgo]

/-- The conflict-phase tick writes neither the flag `warStarted`, nor the ledgers,
nor the clear timestamps, nor the registry. -/
theorem updateConflict_frame (w : World) (d : WarDraws) :
    (UpdateConflict w d).warStarted = w.warStarted ∧
    (UpdateConflict w d).resources = w.resources ∧
    (UpdateConflict w d).lastClearedTime = w.lastClearedTime ∧
    (UpdateConflict w d).Tribes = w.Tribes := by
  cases hgo : w.gameOver with
  | true =>
    rw [updateConflict_frozen w d hgo]
    exact ⟨rfl, rfl, rfl, rfl⟩
  | false =>
    rw [updateConflict_eq w d hgo]
    have h := victoryStep_frame w (afterConversion w d) (afterAttrition w d)
    exact ⟨h.2.2.2.2.1, h.2.2.1, h.2.2.2.1, h.2.2.2.2.2.1⟩

/-- No operation other than `Reset` clears the flag `warStarted`. -/
theorem OpStep_warStarted {w w' : World} (h : OpStep w w') (hs : w.warStarted = true) :
    w'.warStarted = true := by
  rcases OpStep_frame h with ⟨wd, pd, hu⟩ | ⟨hw | hw, _, _⟩
  · rw [hu]
    unfold Update
    rw [if_pos hs, (updateConflict_frame w wd).1]
    exact hs
  · rw [hw]
    exact hs
  · exact hw

theorem Reset_flags (w : World) :
    (Reset w).warStarted = false ∧ (Reset w).gameOver = false ∧
    (Reset w).resources = (fun _ => none) := by
  unfold Reset
  exact ⟨(resetWith_fields w _).2.2.2.2.2.1, (resetWith_fields w _).2.2.2.2.2.2.1,
    (resetWith_fields w _).2.2.2.1⟩

/-- The draws of the examples, in which nothing moves, are draws of a tick. -/
theorem quietDraws_tick (w : World) : TickDraws w duelDraws restDraws :=
  ⟨fun _ => ⟨⟨fun _ h => absurd h (List.not_mem_nil _), List.nodup_nil⟩, List.nodup_nil⟩,
    fun _ => List.nodup_nil⟩

theorem New_entities (x y : Nat) : getCell New.Entities x y none = none :=
  withTribes_entities [] x y

theorem startedNew_flags :
    (StartWar New).warStarted = true ∧ (StartWar New).gameOver = false :=
  ⟨rfl, rfl⟩

/-- C17, refuted as stated: `StartWar` sets the flag on the new world and `Reset`,
one of the operations listed, clears it. -/
theorem warStarted_claim_fails :
    Reachable (StartWar New) ∧ (StartWar New).warStarted = true ∧
    Reachable (Reset (StartWar New)) ∧ (Reset (StartWar New)).warStarted = false :=
  ⟨Reachable.op _ _ Reachable.new (OpStep.startWar New), startedNew_flags.1,
    Reachable.reset _ (Reachable.op _ _ Reachable.new (OpStep.startWar New)),
    (Reset_flags (StartWar New)).1⟩

/-- C17, amended: once `warStarted` is true, no sequence of the operations
`Update`, `PlaceEntity`, `InitMap`, `InitCustomMap`, `ConvertBordersToTerrain` and
`StartWar` makes it false again; `Reset` is the one operation that clears it. -/
theorem warStarted_oneway (w w' : World) (hs : w.warStarted = true)
    (hsteps : Relation.ReflTransGen OpStep w w') :
    w'.warStarted = true ∧ (Reset w').warStarted = false := by
  refine ⟨?_, (Reset_flags w').1⟩
  induction hsteps with
  | refl => exact hs
  | tail _ hstep ih => exact OpStep_warStarted hstep ih

/-- Witness of the amended C17: the war started on the new world, then one tick. -/
theorem warStarted_oneway_witness :
    (StartWar New).warStarted = true ∧
    Relation.ReflTransGen OpStep (StartWar New) (Update (StartWar New) duelDraws restDraws) ∧
    (Update (StartWar New) duelDraws restDraws).warStarted = true :=
  ⟨startedNew_flags.1,
    Relation.ReflTransGen.single (OpStep.update (StartWar New) duelDraws restDraws (quietDraws_tick _)),
    (warStarted_oneway (StartWar New) (Update (StartWar New) duelDraws restDraws)
      startedNew_flags.1
      (Relation.ReflTransGen.single (OpStep.update (StartWar New) duelDraws restDraws (quietDraws_tick _)))).1⟩


/-! ## The ledgers -/

theorem ledgerOf_setKey (r : Nat → Option TribeResources) (k : Nat) (v : TribeResources)
    (t : Nat) :
    ledgerOf (setKey r k v) t = if t = k then (v.Wood, v.Stone) else ledgerOf r t := by
  unfold ledgerOf setKey
  by_cases h : t = k
  · rw [if_pos h, if_pos h]
  · rw [if_neg h, if_neg h]

theorem ledgerOf_some {r : Nat → Option TribeResources} {k : Nat} {v : TribeResources}
    (h : r k = some v) : ledgerOf r k = (v.Wood, v.Stone) := by
  unfold ledgerOf
  rw [h]

theorem LedgerLe_refl (r : Nat → Option TribeResources) : LedgerLe r r :=
  fun _ => ⟨le_refl _, le_refl _⟩

theorem LedgerLe_trans {r1 r2 r3 : Nat → Option TribeResources} (h12 : LedgerLe r1 r2)
    (h23 : LedgerLe r2 r3) : LedgerLe r1 r3 :=
  fun t => ⟨le_trans (h12 t).1 (h23 t).1, le_trans (h12 t).2 (h23 t).2⟩

/-- The three upgrades of the crafting step take from the ledger, under a guard
that keeps the amounts at or above 0. -/
theorem craftWeapon_ledger (p : Entity × TribeResources) :
    (craftWeapon p).2.Wood ≤ p.2.Wood ∧ (craftWeapon p).2.Stone ≤ p.2.Stone ∧
    (0 ≤ p.2.Wood → 0 ≤ (craftWeapon p).2.Wood) ∧
    (0 ≤ p.2.Stone → 0 ≤ (craftWeapon p).2.Stone) := by
  unfold craftWeapon
  split_ifs with h1 h2
  · refine ⟨?_, ?_, ?_, ?_⟩ <;> dsimp only [] <;> omega
  · refine ⟨?_, ?_, ?_, ?_⟩ <;> dsimp only [] <;> omega
  · exact ⟨le_refl _, le_refl _, id, id⟩

theorem craftArmor_ledger (p : Entity × TribeResources) :
    (craftArmor p).2.Wood ≤ p.2.Wood ∧ (craftArmor p).2.Stone ≤ p.2.Stone ∧
    (0 ≤ p.2.Wood → 0 ≤ (craftArmor p).2.Wood) ∧
    (0 ≤ p.2.Stone → 0 ≤ (craftArmor p).2.Stone) := by
  unfold craftArmor
  split_ifs with h1 h2
  · refine ⟨?_, ?_, ?_, ?_⟩ <;> dsimp only [] <;> omega
  · refine ⟨?_, ?_, ?_, ?_⟩ <;> dsimp only [] <;> omega
  · exact ⟨le_refl _, le_refl _, id, id⟩

theorem RankUpgradeCost_values : RankUpgradeCost RankSuper = 50 ∧ RankUpgradeCost RankMega = 100 :=
  ⟨rfl, rfl⟩

theorem craftRank_ledger (p : Entity × TribeResources) :
    (craftRank p).2.Wood ≤ p.2.Wood ∧ (craftRank p).2.Stone ≤ p.2.Stone ∧
    (0 ≤ p.2.Wood → 0 ≤ (craftRank p).2.Wood) ∧
    (0 ≤ p.2.Stone → 0 ≤ (craftRank p).2.Stone) := by
  unfold craftRank
  rw [RankUpgradeCost_values.1, RankUpgradeCost_values.2]
  split_ifs with h1 h2
  · refine ⟨?_, ?_, ?_, ?_⟩ <;> dsimp only [] <;> omega
  · refine ⟨?_, ?_, ?_, ?_⟩ <;> dsimp only [] <;> omega
  · exact ⟨le_refl _, le_refl _, id, id⟩

theorem craft_ledger (p : Entity × TribeResources) :
    (craftRank (craftArmor (craftWeapon p))).2.Wood ≤ p.2.Wood ∧
    (craftRank (craftArmor (craftWeapon p))).2.Stone ≤ p.2.Stone ∧
    (0 ≤ p.2.Wood → 0 ≤ (craftRank (craftArmor (craftWeapon p))).2.Wood) ∧
    (0 ≤ p.2.Stone → 0 ≤ (craftRank (craftArmor (craftWeapon p))).2.Stone) := by
  have h1 := craftWeapon_ledger p
  have h2 := craftArmor_ledger (craftWeapon p)
  have h3 := craftRank_ledger (craftArmor (craftWeapon p))
  exact ⟨le_trans h3.1 (le_trans h2.1 h1.1), le_trans h3.2.1 (le_trans h2.2.1 h1.2.1),
    fun h => h3.2.2.1 (h2.2.2.1 (h1.2.2.1 h)), fun h => h3.2.2.2 (h2.2.2.2 (h1.2.2.2 h))⟩


/-- One round of the crafting loop only takes from the ledgers, and keeps every
amount at or above 0. -/
theorem craftBody_ledger (w : World) (d : PeaceDraws) (x y : Nat) (st : CraftState) :
    LedgerLe (craftBody w d x y st).resources st.resources ∧
    (LedgerNonneg st.resources → LedgerNonneg (craftBody w d x y st).resources) := by
  unfold craftBody
  cases getCell st.ents x y none with
  | none => exact ⟨LedgerLe_refl _, id⟩
  | some ent =>
    dsimp only []
    cases lookupTribe w.Tribes ent.Tribe with
    | none => exact ⟨LedgerLe_refl _, id⟩
    | some cfg =>
      dsimp only []
      split_ifs with hc
      · cases hr : st.resources ent.Tribe with
        | none => exact ⟨LedgerLe_refl _, id⟩
        | some res =>
          dsimp only []
          have hcraft := craft_ledger (ent, res)
          constructor
          · intro t
            rw [ledgerOf_setKey]
            by_cases ht : t = ent.Tribe
            · rw [if_pos ht, ht, ledgerOf_some hr]
              exact ⟨hcraft.1, hcraft.2.1⟩
            · rw [if_neg ht]
              exact ⟨le_refl _, le_refl _⟩
          · intro hnn t r ht
            unfold setKey at ht
            by_cases hk : t = ent.Tribe
            · rw [if_pos hk] at ht
              cases ht
              exact ⟨hcraft.2.2.1 (hnn _ _ hr).1, hcraft.2.2.2 (hnn _ _ hr).2⟩
            · rw [if_neg hk] at ht
              exact hnn t r ht
      · exact ⟨LedgerLe_refl _, id⟩

/-- The credit of one mined cell: one unit of wood on forest, of stone on rock. -/
theorem mineCredit_ge (terrain : Nat) (res : TribeResources) :
    res.Wood ≤ (if terrain = TerrainTrees then { res with Wood := res.Wood + 1 }
      else if terrain = TerrainRocks then { res with Stone := res.Stone + 1 } else res).Wood ∧
    res.Stone ≤ (if terrain = TerrainTrees then { res with Wood := res.Wood + 1 }
      else if terrain = TerrainRocks then { res with Stone := res.Stone + 1 } else res).Stone := by
  split_ifs <;> simp

/-- One round of the mining loop only adds to the ledgers. -/
theorem mineBody_ledger (ents : List (List (Option Entity))) (tribes : List (Nat × TribeConfig))
    (now : Int) (x y : Nat) (st : MineState) :
    LedgerLe st.resources (mineBody ents tribes now x y st).resources ∧
    (LedgerNonneg st.resources → LedgerNonneg (mineBody ents tribes now x y st).resources) := by
  unfold mineBody
  cases getCell ents x y none with
  | none => exact ⟨LedgerLe_refl _, id⟩
  | some ent =>
    dsimp only []
    by_cases hres : st.terrain.getD (y * GridSize + x) 0 = TerrainTrees ∨
        st.terrain.getD (y * GridSize + x) 0 = TerrainRocks
    · rw [if_pos hres]
      cases lookupTribe tribes ent.Tribe with
      | none => exact ⟨LedgerLe_refl _, id⟩
      | some cfg =>
        dsimp only []
        have hge := mineCredit_ge (st.terrain.getD (y * GridSize + x) 0)
          ((st.resources ent.Tribe).getD { Wood := 0, Stone := 0 })
        generalize (if st.terrain.getD (y * GridSize + x) 0 = TerrainTrees then
            { (st.resources ent.Tribe).getD { Wood := 0, Stone := 0 } with
              Wood := ((st.resources ent.Tribe).getD { Wood := 0, Stone := 0 }).Wood + 1 }
          else if st.terrain.getD (y * GridSize + x) 0 = TerrainRocks then
            { (st.resources ent.Tribe).getD { Wood := 0, Stone := 0 } with
              Stone := ((st.resources ent.Tribe).getD { Wood := 0, Stone := 0 }).Stone + 1 }
          else (st.resources ent.Tribe).getD { Wood := 0, Stone := 0 }) = credited at hge ⊢
        have hold : ledgerOf st.resources ent.Tribe
            = (((st.resources ent.Tribe).getD { Wood := 0, Stone := 0 }).Wood,
               ((st.resources ent.Tribe).getD { Wood := 0, Stone := 0 }).Stone) := by
          unfold ledgerOf
          cases st.resources ent.Tribe <;> rfl
        constructor
        · intro t
          rw [ledgerOf_setKey]
          by_cases ht : t = ent.Tribe
          · rw [if_pos ht, ht, hold]
            exact hge
          · rw [if_neg ht]
            exact ⟨le_refl _, le_refl _⟩
        · intro hnn t r ht
          unfold setKey at ht
          by_cases hk : t = ent.Tribe
          · rw [if_pos hk] at ht
            cases ht
            have h0 : 0 ≤ ((st.resources ent.Tribe).getD { Wood := 0, Stone := 0 }).Wood ∧
                0 ≤ ((st.resources ent.Tribe).getD { Wood := 0, Stone := 0 }).Stone := by
              cases hr : st.resources ent.Tribe with
              | none => exact ⟨le_refl _, le_refl _⟩
              | some res => exact hnn _ _ hr
            exact ⟨le_trans h0.1 hge.1, le_trans h0.2 hge.2⟩
          · rw [if_neg hk] at ht
            exact hnn t r ht
    · rw [if_neg hres]
      exact ⟨LedgerLe_refl _, id⟩

/-- The regrowth loop does not touch the ledgers. -/
theorem regrowBody_resources (ents : List (List (Option Entity)))
    (tribes : List (Nat × TribeConfig)) (now : Int) (x y : Nat) (st : MineState) :
    (regrowBody ents tribes now x y st).resources = st.resources := by
  unfold regrowBody
  split_ifs <;> rfl


/-- The crafting loop as a whole. -/
theorem craftLoop_ledger (w : World) (d : PeaceDraws) (st : CraftState) :
    LedgerLe (forCells (craftBody w d) st).resources st.resources ∧
    (LedgerNonneg st.resources → LedgerNonneg (forCells (craftBody w d) st).resources) :=
  loopCells_inv (craftBody w d)
    (fun s => LedgerLe s.resources st.resources ∧
      (LedgerNonneg st.resources → LedgerNonneg s.resources))
    (fun x y s hs =>
      ⟨LedgerLe_trans (craftBody_ledger w d x y s).1 hs.1,
        fun h => (craftBody_ledger w d x y s).2 (hs.2 h)⟩)
    GridSize GridSize st ⟨LedgerLe_refl _, id⟩

/-- The mining loop as a whole. -/
theorem mineLoop_ledger (ents : List (List (Option Entity))) (tribes : List (Nat × TribeConfig))
    (now : Int) (st : MineState) :
    LedgerLe st.resources (forCells (mineBody ents tribes now) st).resources ∧
    (LedgerNonneg st.resources →
      LedgerNonneg (forCells (mineBody ents tribes now) st).resources) :=
  loopCells_inv (mineBody ents tribes now)
    (fun s => LedgerLe st.resources s.resources ∧
      (LedgerNonneg st.resources → LedgerNonneg s.resources))
    (fun x y s hs =>
      ⟨LedgerLe_trans hs.1 (mineBody_ledger ents tribes now x y s).1,
        fun h => (mineBody_ledger ents tribes now x y s).2 (hs.2 h)⟩)
    GridSize GridSize st ⟨LedgerLe_refl _, id⟩

/-- The regrowth loop as a whole leaves the ledgers as the mining loop made them. -/
theorem regrowLoop_resources (ents : List (List (Option Entity)))
    (tribes : List (Nat × TribeConfig)) (now : Int) (st : MineState) :
    (forCells (regrowBody ents tribes now) st).resources = st.resources :=
  loopCells_inv (regrowBody ents tribes now) (fun s => s.resources = st.resources)
    (fun x y s hs => (regrowBody_resources ents tribes now x y s).trans hs)
    GridSize GridSize st rfl

theorem peaceCrafted_ledger (w : World) (d : PeaceDraws) :
    LedgerLe (peaceCrafted w d).resources w.resources ∧
    (LedgerNonneg w.resources → LedgerNonneg (peaceCrafted w d).resources) := by
  unfold peaceCrafted
  exact craftLoop_ledger w d { ents := (peaceMoved w d).ents, resources := w.resources }

theorem mined_ledger (w : World) (now : Int) :
    LedgerLe w.resources (mined w now).resources ∧
    (LedgerNonneg w.resources → LedgerNonneg (mined w now).resources) := by
  unfold mined
  exact mineLoop_ledger w.Entities w.Tribes now
    { terrain := w.Terrain, resources := w.resources, cleared := w.lastClearedTime }

/-- The ledgers at the end of a peaceful tick are those the mining loop made from
the ledgers the crafting loop left. -/
theorem PreWarUpdate_resources (w : World) (d : PeaceDraws) :
    (PreWarUpdate w d).resources
      = (mined (installPeace w (peaceBorn w d) (peaceCrafted w d)) d.mineNow).resources := by
  unfold PreWarUpdate HandleMiningAndRegrowth
  rw [(withMined_frame _ _).2.2.1]
  unfold regrown
  exact regrowLoop_resources _ _ _ _

theorem PreWarUpdate_nonneg (w : World) (d : PeaceDraws) (h : LedgerNonneg w.resources) :
    LedgerNonneg (PreWarUpdate w d).resources := by
  rw [PreWarUpdate_resources]
  apply (mined_ledger _ _).2
  rw [(installPeace_frame _ _ _).2.2.1]
  exact (peaceCrafted_ledger w d).2 h

theorem OpStep_nonneg {w w' : World} (h : OpStep w w') (hinv : LedgerNonneg w.resources) :
    LedgerNonneg w'.resources := by
  rcases OpStep_frame h with ⟨wd, pd, hu⟩ | ⟨_, _, hr⟩
  · rw [hu]
    unfold Update
    split_ifs
    · rw [(updateConflict_frame w wd).2.1]
      exact hinv
    · exact PreWarUpdate_nonneg w pd hinv
  · rw [hr]
    exact hinv

theorem Reachable_nonneg {w : World} (h : Reachable w) : LedgerNonneg w.resources := by
  induction h with
  | new =>
    intro t res ht
    cases ht
  | op w w' _ hstep ih => exact OpStep_nonneg hstep ih
  | reset w _ _ =>
    rw [(Reset_flags w).2.2]
    intro t res ht
    cases ht

/-- C19: in every state reachable from `New()` through the public operations every
amount of wood and of stone is at least 0.  In a peaceful tick the ledgers the
crafting loop leaves hold, for every faction, no more wood and no more stone than
at the start of the tick (movement and reproduction, which run before it, do not
write them); the ledgers the mining loop leaves hold no less than those; and the
ledgers at the end of the tick are those the mining loop left (the births applied
before it and the regrowth loop run after it do not write them). -/
theorem ledger_invariant (w : World) (h : Reachable w) :
    (∀ t res, w.resources t = some res → 0 ≤ res.Wood ∧ 0 ≤ res.Stone) ∧
    (∀ t, 0 ≤ (GetTribeResources w t).1 ∧ 0 ≤ (GetTribeResources w t).2) ∧
    (∀ d : PeaceDraws,
      LedgerLe (peaceCrafted w d).resources w.resources ∧
      LedgerLe (peaceCrafted w d).resources
        (mined (installPeace w (peaceBorn w d) (peaceCrafted w d)) d.mineNow).resources ∧
      (PreWarUpdate w d).resources
        = (mined (installPeace w (peaceBorn w d) (peaceCrafted w d)) d.mineNow).resources) := by
  have hnn := Reachable_nonneg h
  refine ⟨hnn, ?_, ?_⟩
  · intro t
    unfold GetTribeResources ledgerOf
    cases hr : w.resources t with
    | none => exact ⟨le_refl _, le_refl _⟩
    | some res => exact hnn t res hr
  · intro d
    refine ⟨(peaceCrafted_ledger w d).1, ?_, PreWarUpdate_resources w d⟩
    have hm := (mined_ledger (installPeace w (peaceBorn w d) (peaceCrafted w d)) d.mineNow).1
    rw [(installPeace_frame _ _ _).2.2.1] at hm
    exact hm


/-! ## What the conflict-phase tick leaves alone -/

theorem sameKit_refl (e : Entity) : sameKit e e := ⟨rfl, rfl, rfl, rfl, rfl, rfl⟩

theorem sameKit_trans {a b c : Entity} (h1 : sameKit a b) (h2 : sameKit b c) : sameKit a c :=
  ⟨h2.1.trans h1.1, h2.2.1.trans h1.2.1, h2.2.2.1.trans h1.2.2.1,
    h2.2.2.2.1.trans h1.2.2.2.1, h2.2.2.2.2.1.trans h1.2.2.2.2.1,
    h2.2.2.2.2.2.trans h1.2.2.2.2.2⟩

/-- The damage loop writes the health of a survivor and nothing else of it. -/
theorem damageCell_keeps {w : World} {incoming : Int} {c : Option Entity × Int} {e2 : Entity}
    (h : (damageCell w incoming c).1 = some e2) : ∃ e, c.1 = some e ∧ sameKit e e2 := by
  unfold damageCell at h
  cases hc : c.1 with
  | none =>
    rw [hc] at h
    dsimp only [] at h
    rw [hc] at h
    cases h
  | some e =>
    rw [hc] at h
    dsimp only [] at h
    split at h
    · cases h
    · cases h
      exact ⟨e, rfl, rfl, rfl, rfl, rfl, rfl, rfl⟩

/-- The attrition and regeneration loop writes the health of a survivor and nothing
else of it. -/
theorem attritionCell_keeps {t : Nat} {c : Option Entity × Int} {e2 : Entity}
    (h : (attritionCell t c).1 = some e2) : ∃ e, c.1 = some e ∧ sameKit e e2 := by
  unfold attritionCell at h
  cases hc : c.1 with
  | none =>
    rw [hc] at h
    dsimp only [] at h
    rw [hc] at h
    cases h
  | some e =>
    rw [hc] at h
    dsimp only [] at h
    refine ⟨e, rfl, ?_⟩
    split_ifs at h
    all_goals first
      | (rw [hc] at h
         cases h
         exact sameKit_refl _)
      | (cases h
         exact ⟨rfl, rfl, rfl, rfl, rfl, rfl⟩)

/-- Every entity on the grid at the end of a conflict-phase tick was on the grid at
its start, with the same faction, identifier, weapon, armor, rank and evasion. -/
theorem updateConflict_survivor (w : World) (d : WarDraws) (hwf : w.WF) (x y : Nat)
    (hx : x < GridSize) (hy : y < GridSize) (e2 : Entity)
    (h : getCell (UpdateConflict w d).Entities x y none = some e2) :
    ∃ x0 y0 e, getCell w.Entities x0 y0 none = some e ∧ sameKit e e2 := by
  cases hgo : w.gameOver with
  | true =>
    rw [updateConflict_frozen w d hgo] at h
    exact ⟨x, y, e2, h, sameKit_refl _⟩
  | false =>
    rw [updateConflict_cell w d hwf hgo x y hx hy] at h
    obtain ⟨e1, h1, k1⟩ := attritionCell_keeps h
    obtain ⟨e0, h0, k0⟩ := damageCell_keeps h1
    rw [cellOf_fst] at h0
    obtain ⟨x0, y0, hstart⟩ := resolveMoves_from_start w d x y e0 h0
    exact ⟨x0, y0, e0, hstart, sameKit_trans k0 k1⟩

/-- An invariant of the loop nest indexed by the number of cells visited. -/
theorem loopCells_indexed {σ : Type} (body : Nat → Nat → σ → σ) (I : Nat → σ → Prop)
    (cols : Nat)
    (hI : ∀ x y s, x < cols → I (y * cols + x) s → I (y * cols + x + 1) (body x y s))
    (rows : Nat) (s : σ) (hs : I 0 s) : I (rows * cols) (loopCells rows cols body s) := by
  induction rows with
  | zero =>
    rw [Nat.zero_mul]
    exact hs
  | succ n ih =>
    rw [loopCells_succ]
    have hrow : ∀ k, k ≤ cols →
        I (n * cols + k)
          ((List.range k).foldl (fun s x => body x n s) (loopCells n cols body s)) := by
      intro k
      induction k with
      | zero =>
        intro _
        exact ih
      | succ j ihj =>
        intro hj
        rw [List.range_succ, List.foldl_append]
        exact hI j n _ (by omega) (ihj (by omega))
    rw [Nat.succ_mul]
    exact hrow cols (le_refl _)

theorem foldl_inv_mem {σ κ : Type} (f : σ → κ → σ) (I : σ → Prop) (l : List κ)
    (hI : ∀ s k, k ∈ l → I s → I (f s k)) (s : σ) (hs : I s) : I (l.foldl f s) := by
  induction l generalizing s with
  | nil => exact hs
  | cons k rest ih =>
    exact ih (fun s k2 hk hs2 => hI s k2 (List.mem_cons_of_mem _ hk) hs2) _
      (hI s k (List.mem_cons_self _ _) hs)

/-- An occupied cell of a full-size grid is in range. -/
theorem getCell_some_inRange {g : List (List (Option Entity))} (h : GridWF g) {x y : Nat}
    {e : Entity} (he : getCell g x y none = some e) : x < GridSize ∧ y < GridSize := by
  unfold getCell at he
  by_cases hy : y < GridSize
  · by_cases hx : x < GridSize
    · exact ⟨hx, hy⟩
    · rw [List.getD_eq_default _ _ (by rw [GridWF_row h hy]; omega)] at he
      cases he
  · rw [List.getD_eq_default g _ (by rw [h.1]; omega)] at he
    cases he

theorem moveTo_good (w : World) (x y k : Nat) (h : goodDir w x y k) :
    (moveTo x y k).fromX = x ∧ (moveTo x y k).fromY = y ∧
    (moveTo x y k).toX < GridSize ∧ (moveTo x y k).toY < GridSize ∧
    getCell w.Entities (moveTo x y k).toX (moveTo x y k).toY none = none := by
  obtain ⟨dir, hd, hr, he⟩ := h
  unfold moveTo
  rw [List.getD_eq_getElem?_getD, hd]
  dsimp only [Option.getD_some]
  exact ⟨rfl, rfl, inRange_toNat hr.1 hr.2.1, inRange_toNat hr.2.2.1 hr.2.2.2, he⟩

theorem resourceDirs_good (w : World) (x y k : Nat) (h : k ∈ resourceDirs w x y) :
    goodDir w x y k := by
  unfold resourceDirs at h
  obtain ⟨kd, hkd, hk⟩ := List.mem_map.1 h
  obtain ⟨hmem, hcond⟩ := List.mem_filter.1 hkd
  obtain ⟨k2, dir⟩ := kd
  dsimp only [] at hk hcond
  subst hk
  simp only [Bool.and_eq_true, decide_eq_true_eq] at hcond
  exact ⟨dir, List.mk_mem_enum_iff_getElem?.1 hmem, hcond.1, hcond.2.1⟩

theorem scoreStep_good (w : World) (x y tribe : Nat) (st : ℚ × List Nat)
    (kd : Nat × (Int × Int)) (hkd : kd ∈ directions.enum)
    (hst : ∀ k ∈ st.2, goodDir w x y k) :
    ∀ k ∈ (scoreStep w x y tribe st kd).2, goodDir w x y k := by
  obtain ⟨k2, dir⟩ := kd
  have hd := List.mk_mem_enum_iff_getElem?.1 hkd
  unfold scoreStep
  dsimp only []
  split_ifs with h1 h2 h3 h4
  · intro k hk
    rw [List.mem_singleton.1 hk]
    exact ⟨dir, hd, h1, h2.1⟩
  · intro k hk
    rcases List.mem_append.1 hk with hk | hk
    · exact hst k hk
    · rw [List.mem_singleton.1 hk]
      exact ⟨dir, hd, h1, h2.1⟩
  · exact hst
  · exact hst
  · exact hst


theorem getD_mem_of_pos {l : List Nat} (n : Nat) (h : l.length > 0) :
    l.getD (n % l.length) 0 ∈ l := by
  rw [List.getD_eq_getElem _ _ (Nat.mod_lt _ h)]
  exact List.getElem_mem _

theorem CollectedUpTo_skip {w : World} {k : Nat} {moves : List PotentialMove}
    (h : CollectedUpTo w k moves) : CollectedUpTo w (k + 1) moves :=
  ⟨fun pm hpm => ⟨(h.1 pm hpm).1, Nat.lt_succ_of_lt (h.1 pm hpm).2⟩, h.2⟩

/-- The move that cell `(x, y)` adds, in a good direction. -/
theorem CollectedUpTo_add {w : World} (hwf : w.WF) {x y kk : Nat} {moves : List PotentialMove}
    {ent : Entity} (hent : getCell w.Entities x y none = some ent)
    (hgood : goodDir w x y kk) (h : CollectedUpTo w (y * GridSize + x) moves) :
    CollectedUpTo w (y * GridSize + x + 1) (moves ++ [moveTo x y kk]) := by
  obtain ⟨hfx, hfy, htx, hty, hempty⟩ := moveTo_good w x y kk hgood
  have hr := getCell_some_inRange hwf.1 hent
  constructor
  · intro pm hpm
    rcases List.mem_append.1 hpm with hold | hnew
    · exact ⟨(h.1 pm hold).1, Nat.lt_succ_of_lt (h.1 pm hold).2⟩
    · rw [List.mem_singleton.1 hnew, hfx, hfy]
      refine ⟨⟨hr.1, hr.2, htx, hty, ?_, hempty⟩, Nat.lt_succ_self _⟩
      rw [hent]
      exact Option.some_ne_none _
  · rw [List.map_append, List.nodup_append]
    refine ⟨h.2, List.nodup_singleton _, ?_⟩
    intro p hp1 hp2
    obtain ⟨pm, hpm, hpe⟩ := List.mem_map.1 hp1
    rw [List.map_singleton, List.mem_singleton, hfx, hfy] at hp2
    have hlt := (h.1 pm hpm).2
    rw [hp2] at hpe
    have h1 : pm.fromX = x := congrArg Prod.fst hpe
    have h2 : pm.fromY = y := congrArg Prod.snd hpe
    rw [h1, h2] at hlt
    exact Nat.lt_irrefl _ hlt

theorem collectBody_step (w : World) (d : PeaceDraws) (hwf : w.WF) (x y : Nat)
    (moves : List PotentialMove) (h : CollectedUpTo w (y * GridSize + x) moves) :
    CollectedUpTo w (y * GridSize + x + 1) (collectBody w d x y moves) := by
  unfold collectBody
  cases hent : getCell w.Entities x y none with
  | none => exact CollectedUpTo_skip h
  | some ent =>
    dsimp only []
    split_ifs with hroll hmine hbest
    · exact CollectedUpTo_add hwf hent
        (resourceDirs_good w x y _ (getD_mem_of_pos _ hmine.1)) h
    · refine CollectedUpTo_add hwf hent ?_ h
      have hall := foldl_inv_mem (scoreStep w x y ent.Tribe)
        (fun st => ∀ k ∈ st.2, goodDir w x y k) directions.enum
        (fun st kd hkd hst => scoreStep_good w x y ent.Tribe st kd hkd hst) (-1, [])
        (fun k hk => absurd hk (List.not_mem_nil k))
      exact hall _ (getD_mem_of_pos _ hbest.2)
    · exact CollectedUpTo_skip h
    · exact CollectedUpTo_skip h

/-- Phase 1 of the peaceful tick collects valid moves: each from an occupied cell
to an unoccupied in-range cell, at most one per origin. -/
theorem collectMoves_valid (w : World) (d : PeaceDraws) (hwf : w.WF) :
    MovesValid w (collectMoves w d) := by
  have h := loopCells_indexed (collectBody w d) (CollectedUpTo w) GridSize
    (fun x y s _ hs => collectBody_step w d hwf x y s hs) GridSize []
    ⟨fun pm hpm => absurd hpm (List.not_mem_nil pm), List.nodup_nil⟩
  unfold collectMoves forCells
  exact ⟨fun pm hpm => (h.1 pm hpm).1, h.2⟩


/-! ## Custom maps -/

theorem Atoi_one : Atoi "1" = some 1 := by decide

theorem customRegistry_unknown : customRegistry [("1", "Elves")] = [] := by decide

theorem customRegistry_mixed :
    customRegistry [("1", "Elves"), ("2", "Norsca")] = [(1, customNorsca 2)] := by decide


theorem copySlice_same {dst src : List Nat} (h : src.length = dst.length) :
    copySlice dst src = src := by
  unfold copySlice
  rw [← h, List.take_length, List.drop_eq_nil_of_le (le_of_eq h.symm), List.append_nil]

theorem setTribe_ne_nil (m : List (Nat × TribeConfig)) (k : Nat) (c : TribeConfig) :
    setTribe m k c ≠ [] := by
  cases m with
  | nil => simp [setTribe]
  | cons p rest =>
    obtain ⟨k2, c2⟩ := p
    unfold setTribe
    split <;> simp

/-- An assignment that is not assignable is skipped. -/
theorem assignStep_skip (st : RegistryState) (a : String × String)
    (h : assignable a = false) : assignStep st a = st := by
  unfold assignable at h
  unfold assignStep
  split
  · rfl
  · cases ha : Atoi a.1 with
    | none => rfl
    | some v =>
      cases ht : tribeTemplates a.2 with
      | none => rfl
      | some t => simp [ha, ht] at h

/-- An assignable assignment leaves a registry that is not empty. -/
theorem assignStep_take (st : RegistryState) (a : String × String)
    (h : assignable a = true) : (assignStep st a).tribes ≠ [] := by
  unfold assignable at h
  unfold assignStep
  have hnone : a.2 ≠ "none" := by
    intro e
    rw [e] at h
    simp [tribeTemplates] at h
  rw [if_neg hnone]
  cases ha : Atoi a.1 with
  | none => simp [ha] at h
  | some v =>
    cases ht : tribeTemplates a.2 with
    | none => simp [ha, ht] at h
    | some t => exact setTribe_ne_nil _ _ _

theorem assignStep_keeps (st : RegistryState) (a : String × String) (h : st.tribes ≠ []) :
    (assignStep st a).tribes ≠ [] := by
  cases ha : assignable a with
  | false => rw [assignStep_skip st a ha]; exact h
  | true => exact assignStep_take st a ha

theorem assignLoop_filter (l : List (String × String)) (st : RegistryState) :
    l.foldl assignStep st = (l.filter assignable).foldl assignStep st := by
  induction l generalizing st with
  | nil => rfl
  | cons a rest ih =>
    cases ha : assignable a with
    | false => rw [List.foldl_cons, assignStep_skip st a ha, List.filter_cons_of_neg (by simp [ha]), ih]
    | true => rw [List.foldl_cons, List.filter_cons_of_pos ha, List.foldl_cons, ih]

theorem assignLoop_nil_iff (l : List (String × String)) (st : RegistryState) :
    (l.foldl assignStep st).tribes = [] ↔ st.tribes = [] ∧ ∀ a ∈ l, assignable a = false := by
  induction l generalizing st with
  | nil => simp
  | cons a rest ih =>
    rw [List.foldl_cons, ih]
    cases ha : assignable a with
    | false =>
      rw [assignStep_skip st a ha]
      constructor
      · rintro ⟨h1, h2⟩
        refine ⟨h1, ?_⟩
        intro b hb
        rcases List.mem_cons.1 hb with e | hm
        · rw [e]; exact ha
        · exact h2 b hm
      · rintro ⟨h1, h2⟩
        exact ⟨h1, fun b hb => h2 b (List.mem_cons_of_mem _ hb)⟩
    | true =>
      constructor
      · rintro ⟨h1, _⟩
        exact absurd h1 (assignStep_take st a ha)
      · rintro ⟨_, h2⟩
        have := h2 a (List.mem_cons_self _ _)
        rw [ha] at this
        cases this

theorem customRegistry_nil_iff (l : List (String × String)) :
    customRegistry l = [] ↔ ∀ a ∈ l, assignable a = false := by
  unfold customRegistry
  rw [assignLoop_nil_iff]
  simp


/-- What `InitCustomMap` does on a well-sized terrain array. -/
theorem initCustomMap_sized (w : World) (terrain : List Nat)
    (assignments : List (String × String)) (attempts : Nat → Nat → List (Nat × Nat))
    (hw : w.Terrain.length = GridSize * GridSize)
    (hlen : terrain.length = GridSize * GridSize) :
    (InitCustomMap w terrain assignments attempts).1.Terrain = terrain ∧
    (InitCustomMap w terrain assignments attempts).1.Tribes = customRegistry assignments ∧
    ((InitCustomMap w terrain assignments attempts).2 = false ↔
      ∀ a ∈ assignments, assignable a = false) ∧
    ((InitCustomMap w terrain assignments attempts).2 = false →
      (InitCustomMap w terrain assignments attempts).1.Entities = w.Entities) ∧
    LoadFrame w (InitCustomMap w terrain assignments attempts).1 := by
  unfold InitCustomMap
  rw [if_neg (by rw [hlen]; exact fun h => h rfl), copySlice_same (hlen.trans hw.symm)]
  by_cases h0 : (customRegistry assignments).length = 0
  · rw [if_pos h0]
    have hnil : customRegistry assignments = [] := List.length_eq_zero.1 h0
    exact ⟨rfl, rfl, ⟨fun _ => (customRegistry_nil_iff _).1 hnil, fun _ => rfl⟩, fun _ => rfl,
      LoadFrame_refl w⟩
  · rw [if_neg h0]
    have hf := placeStarters_frame (loadRegistry w terrain (customRegistry assignments)) attempts
    refine ⟨hf.1, hf.2.1, ⟨fun h => (by cases h), fun h => ?_⟩, fun h => (by cases h), hf.2.2⟩
    exact absurd (List.length_eq_zero.2 ((customRegistry_nil_iff _).2 h)) h0

/-- C23: for every world and every terrain array whose length is not `100 * 100`
(shorter, longer or empty), and whatever the assignments and the draws,
`InitCustomMap` returns false and the world returned is the world given: terrain
layer, registry, entity layer and all the rest are unchanged. -/
theorem InitCustomMap_bad_size (w : World) (terrain : List Nat)
    (assignments : List (String × String)) (attempts : Nat → Nat → List (Nat × Nat))
    (h : terrain.length ≠ GridSize * GridSize) :
    InitCustomMap w terrain assignments attempts = (w, false) := by
  unfold InitCustomMap
  rw [if_pos h]

/-- Witness of C23: the empty terrain array, on the new world. -/
theorem InitCustomMap_bad_size_witness :
    ([] : List Nat).length ≠ GridSize * GridSize ∧
    InitCustomMap New [] [("1", "Nomads")] (fun _ _ => []) = (New, false) :=
  ⟨by decide, InitCustomMap_bad_size New [] [("1", "Nomads")] (fun _ _ => []) (by decide)⟩

/-- C24, amended: on a well-sized terrain array, an assignment whose template name
is not in the table is skipped, as is one named `"none"` or one whose key is not a
decimal integer: the registry built is the one built from the other assignments.
The terrain layer becomes the array given and the registry becomes the registry
built.  `InitCustomMap` returns false exactly when every assignment is skipped; the
entity layer is then unchanged, but the terrain layer is the array given and the
registry is empty. -/
theorem InitCustomMap_unknown_skipped (w : World) (terrain : List Nat)
    (assignments : List (String × String)) (attempts : Nat → Nat → List (Nat × Nat))
    (hw : w.Terrain.length = GridSize * GridSize)
    (hlen : terrain.length = GridSize * GridSize) :
    (∀ a, tribeTemplates a.2 = none → assignable a = false) ∧
    customRegistry assignments = customRegistry (assignments.filter assignable) ∧
    (InitCustomMap w terrain assignments attempts).1.Terrain = terrain ∧
    (InitCustomMap w terrain assignments attempts).1.Tribes = customRegistry assignments ∧
    ((InitCustomMap w terrain assignments attempts).2 = false ↔
      ∀ a ∈ assignments, assignable a = false) ∧
    ((InitCustomMap w terrain assignments attempts).2 = false →
      (InitCustomMap w terrain assignments attempts).1.Entities = w.Entities ∧
      (InitCustomMap w terrain assignments attempts).1.Tribes = []) := by
  have h := initCustomMap_sized w terrain assignments attempts hw hlen
  refine ⟨?_, ?_, h.1, h.2.1, h.2.2.1, ?_⟩
  · intro a ha
    unfold assignable
    rw [ha]
    simp
  · unfold customRegistry
    rw [assignLoop_filter]
  · intro hfalse
    refine ⟨h.2.2.2.1 hfalse, ?_⟩
    rw [h.2.1]
    exact (customRegistry_nil_iff _).2 (h.2.2.1.1 hfalse)

theorem replicate_getD_zero (v : Nat) : (List.replicate (GridSize * GridSize) v).getD 0 0 = v := by
  rw [List.getD_eq_getElem?_getD, List.getElem?_replicate, if_pos (by decide)]
  rfl

/-- C24, refuted as stated: on the empty vertical-split world, a well-sized array of
rock and the one assignment of the unknown name `Elves` make `InitCustomMap` return
false with the terrain layer overwritten (cell 0 now carries 7) and the registry
emptied; and with a second assignment, of `Norsca`, the same call returns true. -/
theorem InitCustomMap_claim_fails :
    tribeTemplates "Elves" = none ∧
    (InitCustomMap (withTribes verticalTribes) (List.replicate (GridSize * GridSize) 7)
      [("1", "Elves")] (fun _ _ => [])).2 = false ∧
    (InitCustomMap (withTribes verticalTribes) (List.replicate (GridSize * GridSize) 7)
      [("1", "Elves")] (fun _ _ => [])).1.Terrain.getD 0 0 = 7 ∧
    (withTribes verticalTribes).Terrain.getD 0 0 = 0 ∧
    (InitCustomMap (withTribes verticalTribes) (List.replicate (GridSize * GridSize) 7)
      [("1", "Elves")] (fun _ _ => [])).1.Tribes = [] ∧
    (withTribes verticalTribes).Tribes = verticalTribes ∧
    (InitCustomMap (withTribes verticalTribes) (List.replicate (GridSize * GridSize) 7)
      [("1", "Elves"), ("2", "Norsca")] (fun _ _ => [])).2 = true := by
  have hw : (withTribes verticalTribes).Terrain.length = GridSize * GridSize :=
    (withTribes_WF verticalTribes).2.1
  have hlen : (List.replicate (GridSize * GridSize) 7).length = GridSize * GridSize :=
    List.length_replicate _ _
  have h1 := initCustomMap_sized (withTribes verticalTribes) _ [("1", "Elves")]
    (fun _ _ => []) hw hlen
  have h2 := initCustomMap_sized (withTribes verticalTribes) _
    [("1", "Elves"), ("2", "Norsca")] (fun _ _ => []) hw hlen
  refine ⟨by decide, h1.2.2.1.2 (by decide), ?_, withTribes_terrain _ 0, ?_, rfl, ?_⟩
  · rw [h1.1]
    exact replicate_getD_zero 7
  · rw [h1.2.1]
    decide
  · cases hb : (InitCustomMap (withTribes verticalTribes)
        (List.replicate (GridSize * GridSize) 7) [("1", "Elves"), ("2", "Norsca")]
        (fun _ _ => [])).2 with
    | true => rfl
    | false =>
      have := h2.2.2.1.1 hb ("2", "Norsca") (by simp)
      revert this
      decide

/-- Witness of the amended C24: the same call on the empty vertical-split world. -/
theorem InitCustomMap_unknown_skipped_witness :
    (withTribes verticalTribes).Terrain.length = GridSize * GridSize ∧
    (List.replicate (GridSize * GridSize) 7).length = GridSize * GridSize ∧
    (InitCustomMap (withTribes verticalTribes) (List.replicate (GridSize * GridSize) 7)
      [("1", "Elves"), ("2", "Norsca")] (fun _ _ => [])).1.Tribes
        = customRegistry [("1", "Elves"), ("2", "Norsca")] :=
  ⟨(withTribes_WF verticalTribes).2.1, List.length_replicate _ _,
    (InitCustomMap_unknown_skipped (withTribes verticalTribes)
      (List.replicate (GridSize * GridSize) 7) [("1", "Elves"), ("2", "Norsca")]
      (fun _ _ => []) (withTribes_WF verticalTribes).2.1 (List.length_replicate _ _)).2.2.2.1⟩


/-! ## The simulation ticker -/

theorem wrap64_inRange (v : Int) (h : -(2 ^ 63 : Int) ≤ v ∧ v < 2 ^ 63) : wrap64 v = v := by
  unfold wrap64
  rw [Int.emod_eq_of_lt (by omega) (by omega)]
  omega

theorem clampInterval_bounds (v : Int) :
    10 * Millisecond ≤ clampInterval v ∧ clampInterval v ≤ 10 * Second := by
  unfold clampInterval Millisecond Second
  split_ifs <;> omega

theorem clampInterval_mono {a b : Int} (h : a ≤ b) : clampInterval a ≤ clampInterval b := by
  unfold clampInterval Millisecond Second
  split_ifs <;> omega

/-- The exponent of a positive rational between two consecutive powers of 2. -/
theorem log2_eq (q : ℚ) (e : Int) (hq : 0 < q) (h1 : (2 : ℚ) ^ e ≤ q)
    (h2 : q < (2 : ℚ) ^ (e + 1)) : Int.log 2 q = e := by
  apply le_antisymm
  · have := (Int.lt_zpow_iff_log_lt (b := 2) (by norm_num) hq (x := e + 1)).1 h2
    omega
  · exact (Int.zpow_le_iff_le_log (b := 2) (by norm_num) hq).1 h1

theorem roundHalfEven_int (z : Int) : roundHalfEven (z : ℚ) = z := by
  unfold roundHalfEven
  simp

theorem roundHalfEven_near (q : ℚ) (z : Int) (h1 : (z : ℚ) - 1 / 2 < q)
    (h2 : q < z + 1 / 2) : roundHalfEven q = z := by
  unfold roundHalfEven
  by_cases hz : (z : ℚ) ≤ q
  · have hf : ⌊q⌋ = z := Int.floor_eq_iff.2 ⟨hz, by linarith⟩
    rw [hf, if_pos (by linarith)]
  · have hf : ⌊q⌋ = z - 1 := Int.floor_eq_iff.2 ⟨by push_cast; linarith, by push_cast; linarith⟩
    rw [hf]
    push_cast
    rw [if_neg (by linarith), if_pos (by linarith)]
    omega

theorem roundHalfEven_nonneg (q : ℚ) (hq : 0 ≤ q) : 0 ≤ roundHalfEven q := by
  have hf : 0 ≤ ⌊q⌋ := Int.floor_nonneg.2 hq
  unfold roundHalfEven
  split_ifs <;> omega

/-- The `float64` result of an operation with a positive exact result is not
negative. -/
theorem roundFloat64_nonneg (q r : ℚ) (hq : 0 ≤ q) (h : roundFloat64 q = some r) : 0 ≤ r := by
  unfold roundFloat64 at h
  split_ifs at h
  cases h
  have h1 : (0 : ℚ) ≤ (roundHalfEven (q / 2 ^ ulpExp q) : ℚ) := by
    exact_mod_cast roundHalfEven_nonneg _ (div_nonneg hq (by positivity))
  positivity

/-- The rounding of a rational that is a multiple of the spacing around it. -/
theorem roundFloat64_exact (q : ℚ) (e m : Int) (hq : 0 < q) (h1 : (2 : ℚ) ^ e ≤ q)
    (h2 : q < (2 : ℚ) ^ (e + 1)) (he : -1022 ≤ e) (he2 : e ≤ 1023)
    (hm : q = (m : ℚ) * 2 ^ (e - 52)) : roundFloat64 q = some q := by
  have hu : ulpExp q = e - 52 := by
    unfold ulpExp
    rw [log2_eq q e hq h1 h2, max_eq_left he]
  have hpos : (0 : ℚ) < 2 ^ (e - 52) := by positivity
  have hr : roundHalfEven (q / 2 ^ (e - 52)) = m := by
    rw [hm, mul_div_assoc, div_self (ne_of_gt hpos), mul_one]
    exact roundHalfEven_int m
  have hlt : q < float64Bound := by
    have h3 : (2 : ℚ) ^ (e + 1) ≤ 2 ^ (1024 : Int) :=
      zpow_le_zpow_right₀ (by norm_num) (by omega)
    unfold float64Bound
    linarith
  unfold roundFloat64
  rw [hu, hr, ← hm, if_pos hlt]

/-- While the product does not overflow, the period is the clamp of the truncated
`float64` quotient in milliseconds. -/
theorem tickInterval_small (sat : Bool) (s q : ℚ) (hs : 0 < s)
    (hq : roundFloat64 ((250 : ℚ) / s) = some q) (h : ⌊q⌋ ≤ 9223372036854) :
    tickInterval sat s = clampInterval (⌊q⌋ * Millisecond) := by
  have hq0 : 0 ≤ q := roundFloat64_nonneg _ q (by positivity) hq
  have hf0 : 0 ≤ ⌊q⌋ := Int.floor_nonneg.2 hq0
  have hcast : ((baseIntervalMs : Int) : ℚ) = (250 : ℚ) := by
    unfold baseIntervalMs
    norm_num
  unfold tickInterval
  rw [hcast, hq]
  unfold truncToInt64
  dsimp only []
  rw [if_pos hq0, if_pos ⟨by omega, by omega⟩, wrap64_inRange _ (by unfold Millisecond; omega)]

/-- When the truncated quotient does not fit in `int64`, or the quotient is `+Inf`,
the period is 10 ms, with either conversion. -/
theorem tickInterval_beyond (sat : Bool) (s : ℚ)
    (h : roundFloat64 ((250 : ℚ) / s) = none ∨
      ∃ q, roundFloat64 ((250 : ℚ) / s) = some q ∧ 2 ^ 63 ≤ ⌊q⌋) :
    tickInterval sat s = 10 * Millisecond := by
  have hcast : ((baseIntervalMs : Int) : ℚ) = (250 : ℚ) := by
    unfold baseIntervalMs
    norm_num
  have hval : truncToInt64 sat (roundFloat64 ((250 : ℚ) / s)) = 2 ^ 63 - 1 ∨
      truncToInt64 sat (roundFloat64 ((250 : ℚ) / s)) = -(2 ^ 63) := by
    rcases h with h | ⟨q, hq, hbig⟩
    · rw [h]
      unfold truncToInt64
      dsimp only []
      split_ifs
      · exact Or.inl rfl
      · exact Or.inr rfl
    · have hq0 : 0 ≤ q := by
        by_contra hneg
        have : ⌊q⌋ < 0 := Int.floor_lt.2 (by push_cast; linarith [not_le.1 hneg])
        omega
      rw [hq]
      unfold truncToInt64
      dsimp only []
      rw [if_pos hq0, if_neg (by omega)]
      split_ifs
      · exact Or.inl rfl
      · exact Or.inr rfl
  unfold tickInterval
  rw [hcast]
  rcases hval with hv | hv
  · rw [hv]
    decide
  · rw [hv]
    decide

theorem speedTiny_float : IsFloat64 speedTiny :=
  roundFloat64_exact speedTiny (-36) 7737125245533627 (by unfold speedTiny; norm_num)
    (by unfold speedTiny; norm_num) (by unfold speedTiny; norm_num) (by decide) (by decide)
    (by unfold speedTiny; norm_num)

theorem speedHundredth_float : IsFloat64 speedHundredth :=
  roundFloat64_exact speedHundredth (-7) 5764607523034235 (by unfold speedHundredth; norm_num)
    (by unfold speedHundredth; norm_num) (by unfold speedHundredth; norm_num) (by decide)
    (by decide) (by unfold speedHundredth; norm_num)

theorem speedTenth_float : IsFloat64 speedTenth :=
  roundFloat64_exact speedTenth (-4) 7205759403792794 (by unfold speedTenth; norm_num)
    (by unfold speedTenth; norm_num) (by unfold speedTenth; norm_num) (by decide) (by decide)
    (by unfold speedTenth; norm_num)

/-- The rounding of a quotient that lies within half a spacing of the integer `z`
times the spacing. -/
theorem roundFloat64_near (q : ℚ) (e z : Int) (hq : 0 < q) (h1 : (2 : ℚ) ^ e ≤ q)
    (h2 : q < (2 : ℚ) ^ (e + 1)) (he : -1022 ≤ e)
    (hlo : (z : ℚ) - 1 / 2 < q / 2 ^ (e - 52)) (hhi : q / 2 ^ (e - 52) < z + 1 / 2)
    (hfin : (z : ℚ) * 2 ^ (e - 52) < 2 ^ (64 : Int)) :
    roundFloat64 q = some ((z : ℚ) * 2 ^ (e - 52)) := by
  have hu : ulpExp q = e - 52 := by
    unfold ulpExp
    rw [log2_eq q e hq h1 h2, max_eq_left he]
  unfold roundFloat64
  have hb : (z : ℚ) * 2 ^ (e - 52) < float64Bound := by
    have h3 : (2 : ℚ) ^ (64 : Int) ≤ 2 ^ (1024 : Int) :=
      zpow_le_zpow_right₀ (by norm_num) (by decide)
    unfold float64Bound
    linarith
  rw [hu, roundHalfEven_near _ z hlo hhi, if_pos hb]

/-- The `float64` quotient `250 / 2.5e-11` is `10 ^ 13`; the exact quotient is a
little less. -/
theorem speedTiny_quotient :
    roundFloat64 ((250 : ℚ) / speedTiny) = some 10000000000000 := by
  have h := roundFloat64_near ((250 : ℚ) / speedTiny) 43 5120000000000000
    (by unfold speedTiny; norm_num) (by unfold speedTiny; norm_num)
    (by unfold speedTiny; norm_num) (by decide) (by unfold speedTiny; norm_num)
    (by unfold speedTiny; norm_num) (by norm_num)
  rw [h]
  norm_num

theorem speedHundredth_quotient :
    roundFloat64 ((250 : ℚ) / speedHundredth) = some 25000 := by
  have h := roundFloat64_near ((250 : ℚ) / speedHundredth) 14 6871947673600000
    (by unfold speedHundredth; norm_num) (by unfold speedHundredth; norm_num)
    (by unfold speedHundredth; norm_num) (by decide) (by unfold speedHundredth; norm_num)
    (by unfold speedHundredth; norm_num) (by norm_num)
  rw [h]
  norm_num

theorem speedTenth_quotient :
    roundFloat64 ((250 : ℚ) / speedTenth) = some 2500 := by
  have h := roundFloat64_near ((250 : ℚ) / speedTenth) 11 5497558138880000
    (by unfold speedTenth; norm_num) (by unfold speedTenth; norm_num)
    (by unfold speedTenth; norm_num) (by decide) (by unfold speedTenth; norm_num)
    (by unfold speedTenth; norm_num) (by norm_num)
  rw [h]
  norm_num

theorem truncToInt64_int (sat : Bool) (n : Int) (h : -(2 ^ 63 : Int) ≤ n ∧ n < 2 ^ 63) :
    truncToInt64 sat (some (n : ℚ)) = n := by
  have hn : (if (0 : ℚ) ≤ (n : ℚ) then ⌊(n : ℚ)⌋ else ⌈(n : ℚ)⌉) = n := by
    split <;> simp
  unfold truncToInt64
  dsimp only []
  rw [hn, if_pos h]

/-- The period at the speed `2.5e-11`: the product `10 ^ 13 * 10 ^ 6` wraps to a
negative `int64`, and the period is 10 ms. -/
theorem speedTiny_period (sat : Bool) : tickInterval sat speedTiny = 10 * Millisecond := by
  have hcast : ((baseIntervalMs : Int) : ℚ) = (250 : ℚ) := by
    unfold baseIntervalMs
    norm_num
  have hq : (10000000000000 : ℚ) = ((10000000000000 : Int) : ℚ) := by norm_num
  unfold tickInterval
  rw [hcast, speedTiny_quotient, hq, truncToInt64_int sat _ (by decide)]
  decide

theorem speedHundredth_period (sat : Bool) :
    tickInterval sat speedHundredth = 10 * Second := by
  have hf : ⌊(25000 : ℚ)⌋ = 25000 := by
    have h : (25000 : ℚ) = ((25000 : Int) : ℚ) := by norm_num
    rw [h, Int.floor_intCast]
  rw [tickInterval_small sat speedHundredth 25000 (by unfold speedHundredth; norm_num)
    speedHundredth_quotient (by rw [hf]; decide), hf]
  decide

theorem speedTenth_period (sat : Bool) :
    tickInterval sat speedTenth = 2500 * Millisecond := by
  have hf : ⌊(2500 : ℚ)⌋ = 2500 := by
    have h : (2500 : ℚ) = ((2500 : Int) : ℚ) := by norm_num
    rw [h, Int.floor_intCast]
  rw [tickInterval_small sat speedTenth 2500 (by unfold speedTenth; norm_num)
    speedTenth_quotient (by rw [hf]; decide), hf]
  decide

/-- C28, as the code runs.  The period always lies between 10 ms and 10 s.  For a
`float64` speed `s > 0`, with `q` the `float64` quotient `250 / s` (the exact
quotient rounded to nearest): while `trunc q` is at most 9223372036854, so that its
product by `time.Millisecond` fits in 64 bits, the period is
`clamp(trunc q ms, 10 ms, 10 s)`; when `trunc q` does not fit in `int64`, or `q` is
`+Inf`, the period is 10 ms.  At the speed `2.5e-11` the quotient is `10 ^ 13`, the
product `10 ^ 19` wraps to a negative `int64` and the period is 10 ms, where the
clamp of the product taken exactly is 10 s; the period at the larger speed `0.01`
is 10 s, so the period is not non-increasing in the speed.  At the speed `0.1` the
period is 2500 ms: the quotient is rounded to 2500, while the quotient of the exact
rationals truncates to 2499. -/
theorem tickInterval_spec :
    (∀ sat s, 10 * Millisecond ≤ tickInterval sat s ∧ tickInterval sat s ≤ 10 * Second) ∧
    (∀ sat s q, 0 < s → IsFloat64 s → roundFloat64 ((250 : ℚ) / s) = some q →
      ⌊q⌋ ≤ 9223372036854 → tickInterval sat s = clampInterval (⌊q⌋ * Millisecond)) ∧
    (∀ sat s, 0 < s → IsFloat64 s →
      (roundFloat64 ((250 : ℚ) / s) = none ∨
        ∃ q, roundFloat64 ((250 : ℚ) / s) = some q ∧ 2 ^ 63 ≤ ⌊q⌋) →
      tickInterval sat s = 10 * Millisecond) ∧
    (0 < speedTiny ∧ IsFloat64 speedTiny ∧
      roundFloat64 ((250 : ℚ) / speedTiny) = some 10000000000000 ∧
      (∀ sat, tickInterval sat speedTiny = 10 * Millisecond) ∧
      clampInterval (10000000000000 * Millisecond) = 10 * Second ∧
      clampInterval (⌊(250 : ℚ) / speedTiny⌋ * Millisecond) = 10 * Second) ∧
    (speedTiny < speedHundredth ∧ IsFloat64 speedHundredth ∧
      (∀ sat, tickInterval sat speedHundredth = 10 * Second) ∧
      10 * Millisecond < 10 * Second) ∧
    (IsFloat64 speedTenth ∧ (∀ sat, tickInterval sat speedTenth = 2500 * Millisecond) ∧
      ⌊(250 : ℚ) / speedTenth⌋ = 2499) := by
  refine ⟨fun sat s => clampInterval_bounds _,
    fun sat s q hs _ hq h => tickInterval_small sat s q hs hq h,
    fun sat s _ _ h => tickInterval_beyond sat s h,
    ⟨by unfold speedTiny; norm_num, speedTiny_float, speedTiny_quotient, speedTiny_period,
      by decide, ?_⟩,
    ⟨by unfold speedTiny speedHundredth; norm_num, speedHundredth_float,
      speedHundredth_period, by decide⟩,
    ⟨speedTenth_float, speedTenth_period, ?_⟩⟩
  · have hf : ⌊(250 : ℚ) / speedTiny⌋ = 9999999999999 :=
      Int.floor_eq_iff.2 ⟨by unfold speedTiny; norm_num, by unfold speedTiny; norm_num⟩
    rw [hf]
    decide
  · exact Int.floor_eq_iff.2 ⟨by unfold speedTenth; norm_num, by unfold speedTenth; norm_num⟩

/-- Witness of C28 at the speed `0.1`: the `float64` quotient is 2500 and the
period is 2500 ms. -/
theorem tickInterval_spec_witness :
    0 < speedTenth ∧ IsFloat64 speedTenth ∧
    roundFloat64 ((250 : ℚ) / speedTenth) = some 2500 ∧ ⌊(2500 : ℚ)⌋ ≤ 9223372036854 ∧
    tickInterval false speedTenth = clampInterval (⌊(2500 : ℚ)⌋ * Millisecond) :=
  have hf : ⌊(2500 : ℚ)⌋ = 2500 := by
    have h : (2500 : ℚ) = ((2500 : Int) : ℚ) := by norm_num
    rw [h, Int.floor_intCast]
  have hpos : 0 < speedTenth := by unfold speedTenth; norm_num
  have hle : ⌊(2500 : ℚ)⌋ ≤ 9223372036854 := by rw [hf]; decide
  ⟨hpos, speedTenth_float, speedTenth_quotient, hle,
    tickInterval_spec.2.1 false speedTenth 2500 hpos speedTenth_float speedTenth_quotient hle⟩


/-! ## Divider conversion -/

theorem list_eq_of_getD {l1 l2 : List Nat} (hlen : l1.length = l2.length)
    (h : ∀ j, j < l1.length → l1.getD j 0 = l2.getD j 0) : l1 = l2 := by
  apply List.ext_getElem?_iff.mpr
  intro n
  by_cases hn : n < l1.length
  · have h1 := h n hn
    rw [List.getD_eq_getElem?_getD, List.getD_eq_getElem?_getD,
      List.getElem?_eq_getElem hn, List.getElem?_eq_getElem (hlen ▸ hn)] at h1
    rw [List.getElem?_eq_getElem hn, List.getElem?_eq_getElem (hlen ▸ hn)]
    exact congrArg some h1
  · rw [List.getElem?_eq_none_iff.mpr (Nat.le_of_not_lt hn),
      List.getElem?_eq_none_iff.mpr (hlen ▸ Nat.le_of_not_lt hn)]

theorem visitTerrain_length (final start : List Nat) (i : Nat)
    (hlen : final.length = start.length) (hi : i ≤ final.length) :
    (visitTerrain final start i).length = final.length := by
  unfold visitTerrain
  rw [List.length_append, List.length_take, List.length_drop]
  omega

theorem visitTerrain_getD (final start : List Nat) (i j : Nat) (hi : i ≤ final.length) :
    (visitTerrain final start i).getD j 0
      = if j < i then final.getD j 0 else start.getD j 0 := by
  unfold visitTerrain
  have hl : (final.take i).length = i := by
    rw [List.length_take]
    omega
  by_cases hj : j < i
  · rw [if_pos hj, List.getD_eq_getElem?_getD, List.getElem?_append_left (by rw [hl]; exact hj),
      List.getElem?_take_of_lt hj, List.getD_eq_getElem?_getD]
  · rw [if_neg hj, List.getD_eq_getElem?_getD,
      List.getElem?_append_right (by rw [hl]; omega), hl, List.getElem?_drop,
      List.getD_eq_getElem?_getD]
    congr 2
    omega

theorem convertBody_length (order : Nat → Nat → List Nat) (x y : Nat) (t : List Nat) :
    (convertBody order x y t).length = t.length := by
  unfold convertBody
  split_ifs
  · rfl
  · exact List.length_set _ _ _
  · rfl

theorem convertBody_other (order : Nat → Nat → List Nat) (x y : Nat) (t : List Nat) (j : Nat)
    (hj : j ≠ y * GridSize + x) : (convertBody order x y t).getD j 0 = t.getD j 0 := by
  unfold convertBody
  split_ifs
  · rfl
  · exact getD_set_ne _ _ _ _ _ (fun e => hj e.symm)
  · rfl


/-- An invariant of the loop nest indexed by the number of cells visited, with both
loop bounds available to the step. -/
theorem loopCells_bounded {σ : Type} (body : Nat → Nat → σ → σ) (I : Nat → σ → Prop)
    (cols rows : Nat)
    (hI : ∀ x y s, x < cols → y < rows → I (y * cols + x) s → I (y * cols + x + 1) (body x y s))
    (s : σ) (hs : I 0 s) : I (rows * cols) (loopCells rows cols body s) := by
  induction rows with
  | zero =>
    rw [Nat.zero_mul]
    exact hs
  | succ n ih =>
    rw [loopCells_succ]
    have hprev := ih (fun x y s hx hy h => hI x y s hx (Nat.lt_succ_of_lt hy) h)
    have hrow : ∀ k, k ≤ cols →
        I (n * cols + k)
          ((List.range k).foldl (fun s x => body x n s) (loopCells n cols body s)) := by
      intro k
      induction k with
      | zero =>
        intro _
        exact hprev
      | succ j ihj =>
        intro hj
        rw [List.range_succ, List.foldl_append]
        exact hI j n _ (by omega) (Nat.lt_succ_self n) (ihj (by omega))
    rw [Nat.succ_mul]
    exact hrow cols (le_refl _)

theorem convert_step (order : Nat → Nat → List Nat) (start : List Nat)
    (hlen : start.length = GridSize * GridSize) (x y : Nat) (hx : x < GridSize)
    (hy : y < GridSize) (s : List Nat) (h : ConvertedUpTo order start (y * GridSize + x) s) :
    ConvertedUpTo order start (y * GridSize + x + 1) (convertBody order x y s) := by
  obtain ⟨hl, hrest, hdone⟩ := h
  have hk : y * GridSize + x < GridSize * GridSize := by
    unfold GridSize at *
    omega
  have hxy : (y * GridSize + x) % GridSize = x ∧ (y * GridSize + x) / GridSize = y := by
    unfold GridSize at *
    omega
  have hvisit : ∀ j, j ≤ y * GridSize + x →
      visitTerrain (convertBody order x y s) start j = visitTerrain s start j := by
    intro j hj
    have hjl : j ≤ s.length := by rw [hl, hlen]; omega
    apply list_eq_of_getD
    · rw [visitTerrain_length _ _ _ ((convertBody_length order x y s).trans hl)
          (by rw [convertBody_length]; exact hjl),
        visitTerrain_length _ _ _ hl hjl, convertBody_length]
    · intro j2 _
      rw [visitTerrain_getD _ _ _ _ (by rw [convertBody_length]; exact hjl),
        visitTerrain_getD _ _ _ _ hjl]
      by_cases h2 : j2 < j
      · rw [if_pos h2, if_pos h2, convertBody_other order x y s j2 (by omega)]
      · rw [if_neg h2, if_neg h2]
  have hself : visitTerrain s start (y * GridSize + x) = s := by
    have hjl : y * GridSize + x ≤ s.length := by rw [hl, hlen]; omega
    apply list_eq_of_getD
    · exact visitTerrain_length _ _ _ hl hjl
    · intro j2 _
      rw [visitTerrain_getD _ _ _ _ hjl]
      by_cases h2 : j2 < y * GridSize + x
      · rw [if_pos h2]
      · rw [if_neg h2, hrest j2 (by omega)]
  refine ⟨(convertBody_length order x y s).trans hl, ?_, ?_⟩
  · intro j hj
    rw [convertBody_other order x y s j (by omega)]
    exact hrest j (by omega)
  · intro j hj
    rw [hvisit j (by omega)]
    by_cases hjk : j = y * GridSize + x
    · rw [hjk, hxy.1, hxy.2, hself]
    · rw [convertBody_other order x y s j hjk]
      exact hdone j (by omega)

/-- The loop of `ConvertBordersToTerrain`, cell by cell: the final code of a cell is
the one the body writes on the terrain as it is when the cell is visited. -/
theorem convertedTerrain_cell (order : Nat → Nat → List Nat) (start : List Nat)
    (hlen : start.length = GridSize * GridSize) :
    (convertedTerrain order start).length = GridSize * GridSize ∧
    ∀ j, j < GridSize * GridSize →
      (convertedTerrain order start).getD j 0
        = (convertBody order (j % GridSize) (j / GridSize)
            (visitTerrain (convertedTerrain order start) start j)).getD j 0 := by
  have h := loopCells_bounded (convertBody order) (ConvertedUpTo order start) GridSize GridSize
    (fun x y s hx hy hs => convert_step order start hlen x y hx hy s hs) start
    ⟨rfl, fun _ _ => rfl, fun j hj => absurd hj (Nat.not_lt_zero j)⟩
  unfold convertedTerrain forCells
  exact ⟨h.1.trans hlen, h.2.2⟩


theorem countStep_apply (terrain : List Nat) (x y : Nat) (acc : Nat → Int) (dir : Int × Int)
    (c : Nat) :
    countStep terrain x y acc dir c = acc c + neighbourTally terrain x y dir c := by
  unfold countStep neighbourTally
  dsimp only []
  by_cases hr : (x : Int) + dir.1 ≥ 0 ∧ (x : Int) + dir.1 < GridSize ∧
      (y : Int) + dir.2 ≥ 0 ∧ (y : Int) + dir.2 < GridSize
  · rw [if_pos hr]
    by_cases hc : terrain.getD (((y : Int) + dir.2).toNat * GridSize
          + ((x : Int) + dir.1).toNat) 0 = 1 ∨
        terrain.getD (((y : Int) + dir.2).toNat * GridSize + ((x : Int) + dir.1).toNat) 0 = 2 ∨
        terrain.getD (((y : Int) + dir.2).toNat * GridSize + ((x : Int) + dir.1).toNat) 0 = 9 ∨
        terrain.getD (((y : Int) + dir.2).toNat * GridSize + ((x : Int) + dir.1).toNat) 0 = 10
    · rw [if_pos hc]
      by_cases he : c = terrain.getD (((y : Int) + dir.2).toNat * GridSize
          + ((x : Int) + dir.1).toNat) 0
      · rw [if_pos he, if_pos ⟨hr, by rw [he]; exact hc, he.symm⟩]
      · rw [if_neg he, if_neg (fun h => he h.2.2.symm), add_zero]
    · rw [if_neg hc, if_neg, add_zero]
      rintro ⟨_, h2, h3⟩
      apply hc
      rw [h3]
      exact h2
  · rw [if_neg hr, if_neg (fun h => hr h.1), add_zero]

/-- The count map of a cell, neighbour by neighbour. -/
theorem adjacentTerrains_eq (terrain : List Nat) (x y c : Nat) :
    adjacentTerrains terrain x y c
      = neighbourTally terrain x y (-1, 0) c + neighbourTally terrain x y (1, 0) c
        + neighbourTally terrain x y (0, -1) c + neighbourTally terrain x y (0, 1) c := by
  unfold adjacentTerrains borderDirections
  simp only [List.foldl_cons, List.foldl_nil, countStep_apply]
  ring

theorem neighbourTally_range (terrain : List Nat) (x y : Nat) (dir : Int × Int) (c : Nat) :
    0 ≤ neighbourTally terrain x y dir c ∧
    (neighbourTally terrain x y dir c > 0 → c = 1 ∨ c = 2 ∨ c = 9 ∨ c = 10) := by
  unfold neighbourTally
  split_ifs with h
  · exact ⟨by decide, fun _ => h.2.1⟩
  · exact ⟨le_refl _, fun h0 => absurd h0 (by decide)⟩

/-- Only the codes 1, 2, 9 and 10 are counted. -/
theorem adjacentTerrains_codes (terrain : List Nat) (x y c : Nat)
    (h : adjacentTerrains terrain x y c > 0) : c = 1 ∨ c = 2 ∨ c = 9 ∨ c = 10 := by
  rw [adjacentTerrains_eq] at h
  have h1 := neighbourTally_range terrain x y (-1, 0) c
  have h2 := neighbourTally_range terrain x y (1, 0) c
  have h3 := neighbourTally_range terrain x y (0, -1) c
  have h4 := neighbourTally_range terrain x y (0, 1) c
  by_contra hc
  have e1 : neighbourTally terrain x y (-1, 0) c = 0 := by
    have := h1.2; omega
  have e2 : neighbourTally terrain x y (1, 0) c = 0 := by
    have := h2.2; omega
  have e3 : neighbourTally terrain x y (0, -1) c = 0 := by
    have := h3.2; omega
  have e4 : neighbourTally terrain x y (0, 1) c = 0 := by
    have := h4.2; omega
  omega

/-- The loop that picks the most common code ends on a key whose count is the
largest among the keys visited. -/
theorem chooseLoop_max (counts : Nat → Int) (l : List Nat) (st : Int × Nat)
    (hst : 0 ≤ st.1 ∧ (0 < st.1 → counts st.2 = st.1)) :
    (0 ≤ (l.foldl (chooseStep counts) st).1 ∧
      (0 < (l.foldl (chooseStep counts) st).1 →
        counts (l.foldl (chooseStep counts) st).2 = (l.foldl (chooseStep counts) st).1)) ∧
    st.1 ≤ (l.foldl (chooseStep counts) st).1 ∧
    ∀ c ∈ l, counts c ≤ (l.foldl (chooseStep counts) st).1 := by
  induction l generalizing st with
  | nil => exact ⟨hst, le_refl _, fun c hc => absurd hc (List.not_mem_nil c)⟩
  | cons k rest ih =>
    rw [List.foldl_cons]
    have hnext : 0 ≤ (chooseStep counts st k).1 ∧
        (0 < (chooseStep counts st k).1 →
          counts (chooseStep counts st k).2 = (chooseStep counts st k).1) ∧
        st.1 ≤ (chooseStep counts st k).1 ∧ counts k ≤ (chooseStep counts st k).1 := by
      unfold chooseStep
      split_ifs with h
      · exact ⟨by dsimp only []; omega, fun _ => rfl, by dsimp only []; omega, le_refl _⟩
      · exact ⟨hst.1, hst.2, le_refl _, by omega⟩
    obtain ⟨h1, h2, h3⟩ := ih (chooseStep counts st k) ⟨hnext.1, hnext.2.1⟩
    refine ⟨h1, le_trans hnext.2.2.1 h2, ?_⟩
    intro c hc
    rcases List.mem_cons.1 hc with e | hm
    · rw [e]
      exact le_trans hnext.2.2.2 h2
    · exact h3 c hm

/-- The code chosen has a positive count, not below the count of any key of the
order, provided some key of the order has a positive count. -/
theorem chosenTerrain_max (counts : Nat → Int) (order : List Nat) (c0 : Nat)
    (hc0 : c0 ∈ order) (hpos : counts c0 > 0) :
    counts (chosenTerrain counts order) > 0 ∧
    ∀ c ∈ order, counts c ≤ counts (chosenTerrain counts order) := by
  unfold chosenTerrain
  obtain ⟨⟨_, heq⟩, _, hall⟩ := chooseLoop_max counts
    (order.filter (fun c => decide (counts c > 0))) (0, 1) ⟨le_refl _, fun h => absurd h (by decide)⟩
  have hmem : c0 ∈ order.filter (fun c => decide (counts c > 0)) :=
    List.mem_filter.2 ⟨hc0, by simpa using hpos⟩
  have hbig := hall c0 hmem
  have hp : 0 < ((order.filter (fun c => decide (counts c > 0))).foldl (chooseStep counts)
      (0, 1)).1 := by omega
  rw [heq hp]
  refine ⟨hp, ?_⟩
  intro c hc
  by_cases hcp : counts c > 0
  · exact hall c (List.mem_filter.2 ⟨hc, by simpa using hcp⟩)
  · omega


/-- The rule of the conversion for one cell, on the terrain as it is when the cell
is visited. -/
theorem convert_cell_rule (order : Nat → Nat → List Nat) (start : List Nat)
    (hlen : start.length = GridSize * GridSize) (hok : OrderOK order) (x y : Nat)
    (hx : x < GridSize) (hy : y < GridSize) :
    (∀ j, (visitTerrain (convertedTerrain order start) start (y * GridSize + x)).getD j 0
        = if j < y * GridSize + x then (convertedTerrain order start).getD j 0
          else start.getD j 0) ∧
    (start.getD (y * GridSize + x) 0 ≠ TerrainBorder →
      (convertedTerrain order start).getD (y * GridSize + x) 0
        = start.getD (y * GridSize + x) 0) ∧
    (start.getD (y * GridSize + x) 0 = TerrainBorder →
      (∀ c, adjacentTerrains
          (visitTerrain (convertedTerrain order start) start (y * GridSize + x)) x y c ≤ 0) →
      (convertedTerrain order start).getD (y * GridSize + x) 0 = TerrainBorder) ∧
    (start.getD (y * GridSize + x) 0 = TerrainBorder →
      (∃ c, adjacentTerrains
          (visitTerrain (convertedTerrain order start) start (y * GridSize + x)) x y c > 0) →
      adjacentTerrains (visitTerrain (convertedTerrain order start) start (y * GridSize + x))
          x y ((convertedTerrain order start).getD (y * GridSize + x) 0) > 0 ∧
      ∀ c, adjacentTerrains
          (visitTerrain (convertedTerrain order start) start (y * GridSize + x)) x y c
        ≤ adjacentTerrains
          (visitTerrain (convertedTerrain order start) start (y * GridSize + x)) x y
          ((convertedTerrain order start).getD (y * GridSize + x) 0)) := by
  have hk : y * GridSize + x < GridSize * GridSize := by
    unfold GridSize at *
    omega
  have hxy : (y * GridSize + x) % GridSize = x ∧ (y * GridSize + x) / GridSize = y := by
    unfold GridSize at *
    omega
  obtain ⟨hfl, hcell⟩ := convertedTerrain_cell order start hlen
  have hc := hcell _ hk
  rw [hxy.1, hxy.2] at hc
  have hlive : ∀ j, (visitTerrain (convertedTerrain order start) start (y * GridSize + x)).getD j 0
      = if j < y * GridSize + x then (convertedTerrain order start).getD j 0
        else start.getD j 0 :=
    fun j => visitTerrain_getD _ _ _ _ (by rw [hfl]; omega)
  have hll : (visitTerrain (convertedTerrain order start) start (y * GridSize + x)).length
      = GridSize * GridSize :=
    (visitTerrain_length _ _ _ (hfl.trans hlen.symm) (by rw [hfl]; omega)).trans hfl
  have hmid : (visitTerrain (convertedTerrain order start) start (y * GridSize + x)).getD
      (y * GridSize + x) 0 = start.getD (y * GridSize + x) 0 := by
    rw [hlive, if_neg (Nat.lt_irrefl _)]
  generalize visitTerrain (convertedTerrain order start) start (y * GridSize + x) = live
    at hc hlive hll hmid ⊢
  unfold convertBody at hc
  rw [hmid] at hc
  refine ⟨hlive, ?_, ?_, ?_⟩
  · intro hne
    rw [if_pos hne, hmid] at hc
    exact hc
  · intro hb hnone
    rw [if_neg (fun h => h hb), if_neg, hmid] at hc
    · rw [hc, hb]
    · intro h
      rcases h with h | h | h | h
      · exact absurd h (not_lt.2 (hnone 1))
      · exact absurd h (not_lt.2 (hnone 2))
      · exact absurd h (not_lt.2 (hnone 9))
      · exact absurd h (not_lt.2 (hnone 10))
  · intro hb hsome
    obtain ⟨c0, hc0⟩ := hsome
    have hcode := adjacentTerrains_codes live x y c0 hc0
    have hany : adjacentTerrains live x y 1 > 0 ∨ adjacentTerrains live x y 2 > 0 ∨
        adjacentTerrains live x y 9 > 0 ∨ adjacentTerrains live x y 10 > 0 := by
      rcases hcode with e | e | e | e
      · exact Or.inl (e ▸ hc0)
      · exact Or.inr (Or.inl (e ▸ hc0))
      · exact Or.inr (Or.inr (Or.inl (e ▸ hc0)))
      · exact Or.inr (Or.inr (Or.inr (e ▸ hc0)))
    rw [if_neg (fun h => h hb), if_pos hany, getD_set_self _ _ _ _ (by rw [hll]; exact hk)] at hc
    have hord : c0 ∈ order x y := by
      rcases hcode with e | e | e | e
      · rw [e]; exact (hok x y).2.1
      · rw [e]; exact (hok x y).2.2.1
      · rw [e]; exact (hok x y).2.2.2.1
      · rw [e]; exact (hok x y).2.2.2.2
    have hmax := chosenTerrain_max (adjacentTerrains live x y) (order x y) c0 hord hc0
    rw [hc]
    refine ⟨hmax.1, ?_⟩
    intro c
    by_cases hcp : adjacentTerrains live x y c > 0
    · have hcc := adjacentTerrains_codes live x y c hcp
      apply hmax.2
      rcases hcc with e | e | e | e
      · rw [e]; exact (hok x y).2.1
      · rw [e]; exact (hok x y).2.2.1
      · rw [e]; exact (hok x y).2.2.2.1
      · rw [e]; exact (hok x y).2.2.2.2
    · have := hmax.1
      omega


theorem tally_left (t : List Nat) (x y c : Nat) (hx0 : 0 < x) (hx : x < GridSize)
    (hy : y < GridSize) :
    neighbourTally t x y (-1, 0) c
      = if (c = 1 ∨ c = 2 ∨ c = 9 ∨ c = 10) ∧ t.getD (y * GridSize + (x - 1)) 0 = c then 1
        else 0 := by
  unfold neighbourTally
  have h1 : ((y : Int) + (0 : Int)).toNat = y := by omega
  have h2 : ((x : Int) + (-1 : Int)).toNat = x - 1 := by omega
  dsimp only []
  rw [h1, h2]
  have hr : ((x : Int) + -1 ≥ 0 ∧ (x : Int) + -1 < GridSize ∧
      (y : Int) + 0 ≥ 0 ∧ (y : Int) + 0 < GridSize) := by
    unfold GridSize at *
    omega
  simp only [hr, true_and]

theorem tally_right (t : List Nat) (x y c : Nat) (hx : x + 1 < GridSize) (hy : y < GridSize) :
    neighbourTally t x y (1, 0) c
      = if (c = 1 ∨ c = 2 ∨ c = 9 ∨ c = 10) ∧ t.getD (y * GridSize + (x + 1)) 0 = c then 1
        else 0 := by
  unfold neighbourTally
  have h1 : ((y : Int) + (0 : Int)).toNat = y := by omega
  have h2 : ((x : Int) + (1 : Int)).toNat = x + 1 := by omega
  dsimp only []
  rw [h1, h2]
  have hr : ((x : Int) + 1 ≥ 0 ∧ (x : Int) + 1 < GridSize ∧
      (y : Int) + 0 ≥ 0 ∧ (y : Int) + 0 < GridSize) := by
    unfold GridSize at *
    omega
  simp only [hr, true_and]

theorem tally_up (t : List Nat) (x y c : Nat) (hx : x < GridSize) (hy0 : 0 < y)
    (hy : y < GridSize) :
    neighbourTally t x y (0, -1) c
      = if (c = 1 ∨ c = 2 ∨ c = 9 ∨ c = 10) ∧ t.getD ((y - 1) * GridSize + x) 0 = c then 1
        else 0 := by
  unfold neighbourTally
  have h1 : ((y : Int) + (-1 : Int)).toNat = y - 1 := by omega
  have h2 : ((x : Int) + (0 : Int)).toNat = x := by omega
  dsimp only []
  rw [h1, h2]
  have hr : ((x : Int) + 0 ≥ 0 ∧ (x : Int) + 0 < GridSize ∧
      (y : Int) + -1 ≥ 0 ∧ (y : Int) + -1 < GridSize) := by
    unfold GridSize at *
    omega
  simp only [hr, true_and]

theorem tally_down (t : List Nat) (x y c : Nat) (hx : x < GridSize) (hy : y + 1 < GridSize) :
    neighbourTally t x y (0, 1) c
      = if (c = 1 ∨ c = 2 ∨ c = 9 ∨ c = 10) ∧ t.getD ((y + 1) * GridSize + x) 0 = c then 1
        else 0 := by
  unfold neighbourTally
  have h1 : ((y : Int) + (1 : Int)).toNat = y + 1 := by omega
  have h2 : ((x : Int) + (0 : Int)).toNat = x := by omega
  dsimp only []
  rw [h1, h2]
  have hr : ((x : Int) + 0 ≥ 0 ∧ (x : Int) + 0 < GridSize ∧
      (y : Int) + 1 ≥ 0 ∧ (y : Int) + 1 < GridSize) := by
    unfold GridSize at *
    omega
  simp only [hr, true_and]

/-- The count map of an inner cell whose four neighbours carry `l`, `r`, `u`, `d`. -/
theorem adjacentTerrains_inner (t : List Nat) (x y c l r u d : Nat) (hx0 : 0 < x)
    (hx : x + 1 < GridSize) (hy0 : 0 < y) (hy : y + 1 < GridSize)
    (hl : t.getD (y * GridSize + (x - 1)) 0 = l) (hr : t.getD (y * GridSize + (x + 1)) 0 = r)
    (hu : t.getD ((y - 1) * GridSize + x) 0 = u) (hd : t.getD ((y + 1) * GridSize + x) 0 = d) :
    adjacentTerrains t x y c
      = (if (c = 1 ∨ c = 2 ∨ c = 9 ∨ c = 10) ∧ l = c then 1 else 0)
        + (if (c = 1 ∨ c = 2 ∨ c = 9 ∨ c = 10) ∧ r = c then 1 else 0)
        + (if (c = 1 ∨ c = 2 ∨ c = 9 ∨ c = 10) ∧ u = c then 1 else 0)
        + (if (c = 1 ∨ c = 2 ∨ c = 9 ∨ c = 10) ∧ d = c then 1 else 0) := by
  rw [adjacentTerrains_eq, tally_left t x y c hx0 (by omega) (by omega),
    tally_right t x y c hx (by omega), tally_up t x y c (by omega) hy0 (by omega),
    tally_down t x y c (by omega) hy, hl, hr, hu, hd]

theorem chain_terrain (j : Nat) :
    chainWorld.Terrain.getD j 0
      = if j = 505 then 4 else if j = 504 then 4 else if j = 503 then 1 else 0 := by
  have e3 : 5 * GridSize + 3 = 503 := rfl
  have e4 : 5 * GridSize + 4 = 504 := rfl
  have e5 : 5 * GridSize + 5 = 505 := rfl
  rw [chainWorld, paintCell_terrain, paintCell_terrain, paintCell_terrain, e3, e4, e5]
  have hlen : New.Terrain.length = 10000 := New_WF.2.1
  by_cases h5 : j = 505
  · rw [if_pos h5, h5]
    exact getD_set_self _ _ _ _ (by rw [List.length_set, List.length_set, hlen]; decide)
  · rw [if_neg h5, getD_set_ne _ _ _ _ _ (fun e => h5 e.symm)]
    by_cases h4 : j = 504
    · rw [if_pos h4, h4]
      exact getD_set_self _ _ _ _ (by rw [List.length_set, hlen]; decide)
    · rw [if_neg h4, getD_set_ne _ _ _ _ _ (fun e => h4 e.symm)]
      by_cases h3 : j = 503
      · rw [if_pos h3, h3]
        exact getD_set_self _ _ _ _ (by rw [hlen]; decide)
      · rw [if_neg h3, getD_set_ne _ _ _ _ _ (fun e => h3 e.symm)]
        exact withTribes_terrain [] j

theorem chain_length : chainWorld.Terrain.length = GridSize * GridSize := by
  rw [chainWorld, paintCell_terrain, paintCell_terrain, paintCell_terrain, List.length_set,
    List.length_set, List.length_set]
  exact New_WF.2.1

theorem codeOrder_ok : OrderOK codeOrder := by
  intro x y
  unfold codeOrder
  decide


theorem chain_unchanged (x y : Nat) (hx : x < GridSize) (hy : y < GridSize)
    (h : chainWorld.Terrain.getD (y * GridSize + x) 0 ≠ TerrainBorder) :
    (convertedTerrain codeOrder chainWorld.Terrain).getD (y * GridSize + x) 0
      = chainWorld.Terrain.getD (y * GridSize + x) 0 :=
  (convert_cell_rule codeOrder chainWorld.Terrain chain_length codeOrder_ok x y hx hy).2.1 h

theorem chain_final_503 :
    (convertedTerrain codeOrder chainWorld.Terrain).getD (5 * GridSize + 3) 0 = 1 := by
  rw [chain_unchanged 3 5 (by decide) (by decide) (by rw [chain_terrain]; decide),
    chain_terrain]
  rfl

theorem chain_final_404 :
    (convertedTerrain codeOrder chainWorld.Terrain).getD (4 * GridSize + 4) 0 = 0 := by
  rw [chain_unchanged 4 4 (by decide) (by decide) (by rw [chain_terrain]; decide),
    chain_terrain]
  rfl

theorem chain_final_405 :
    (convertedTerrain codeOrder chainWorld.Terrain).getD (4 * GridSize + 5) 0 = 0 := by
  rw [chain_unchanged 5 4 (by decide) (by decide) (by rw [chain_terrain]; decide),
    chain_terrain]
  rfl

/-- A cell whose count map has code 1 only gets code 1. -/
theorem only_red {cnt : Nat → Int} {l r u d v : Nat}
    (hcnt : ∀ c, cnt c
      = (if (c = 1 ∨ c = 2 ∨ c = 9 ∨ c = 10) ∧ l = c then 1 else 0)
        + (if (c = 1 ∨ c = 2 ∨ c = 9 ∨ c = 10) ∧ r = c then 1 else 0)
        + (if (c = 1 ∨ c = 2 ∨ c = 9 ∨ c = 10) ∧ u = c then 1 else 0)
        + (if (c = 1 ∨ c = 2 ∨ c = 9 ∨ c = 10) ∧ d = c then 1 else 0))
    (hl : l = 1) (hr : r = 0 ∨ r = 4) (hu : u = 0 ∨ u = 4) (hd : d = 0 ∨ d = 4)
    (hv : cnt v > 0) : cnt 1 > 0 ∧ v = 1 := by
  constructor
  · rw [hcnt 1, hl]
    split_ifs <;> omega
  · rw [hcnt v] at hv
    by_contra hne
    split_ifs at hv <;> omega

theorem chain_final_504 :
    (convertedTerrain codeOrder chainWorld.Terrain).getD (5 * GridSize + 4) 0 = 1 := by
  obtain ⟨hlive, _, _, hmaj⟩ :=
    convert_cell_rule codeOrder chainWorld.Terrain chain_length codeOrder_ok 4 5
      (by decide) (by decide)
  have hb : chainWorld.Terrain.getD (5 * GridSize + 4) 0 = TerrainBorder := by
    rw [chain_terrain]
    rfl
  have hcnt := fun c => adjacentTerrains_inner
    (visitTerrain (convertedTerrain codeOrder chainWorld.Terrain) chainWorld.Terrain
      (5 * GridSize + 4)) 4 5 c 1 4 0 0 (by decide) (by decide) (by decide) (by decide)
    (by rw [hlive, if_pos (by decide)]; exact chain_final_503)
    (by rw [hlive, if_neg (by decide), chain_terrain]; rfl)
    (by rw [hlive, if_pos (by decide)]; exact chain_final_404)
    (by rw [hlive, if_neg (by decide), chain_terrain]; rfl)
  have hone : adjacentTerrains
      (visitTerrain (convertedTerrain codeOrder chainWorld.Terrain) chainWorld.Terrain
        (5 * GridSize + 4)) 4 5 1 > 0 := by
    rw [hcnt 1]
    decide
  exact (only_red hcnt rfl (Or.inr rfl) (Or.inl rfl) (Or.inl rfl) (hmaj hb ⟨1, hone⟩).1).2

theorem chain_final_505 :
    (convertedTerrain codeOrder chainWorld.Terrain).getD (5 * GridSize + 5) 0 = 1 := by
  obtain ⟨hlive, _, _, hmaj⟩ :=
    convert_cell_rule codeOrder chainWorld.Terrain chain_length codeOrder_ok 5 5
      (by decide) (by decide)
  have hb : chainWorld.Terrain.getD (5 * GridSize + 5) 0 = TerrainBorder := by
    rw [chain_terrain]
    rfl
  have hcnt := fun c => adjacentTerrains_inner
    (visitTerrain (convertedTerrain codeOrder chainWorld.Terrain) chainWorld.Terrain
      (5 * GridSize + 5)) 5 5 c 1 0 0 0 (by decide) (by decide) (by decide) (by decide)
    (by rw [hlive, if_pos (by decide)]; exact chain_final_504)
    (by rw [hlive, if_neg (by decide), chain_terrain]; rfl)
    (by rw [hlive, if_pos (by decide)]; exact chain_final_405)
    (by rw [hlive, if_neg (by decide), chain_terrain]; rfl)
  have hone : adjacentTerrains
      (visitTerrain (convertedTerrain codeOrder chainWorld.Terrain) chainWorld.Terrain
        (5 * GridSize + 5)) 5 5 1 > 0 := by
    rw [hcnt 1]
    decide
  exact (only_red hcnt rfl (Or.inl rfl) (Or.inl rfl) (Or.inl rfl) (hmaj hb ⟨1, hone⟩).1).2

/-- Before the call no neighbour of cell (5, 5) of the chain carries 1, 2, 9 or
10. -/
theorem chain_before (c : Nat) : adjacentTerrains chainWorld.Terrain 5 5 c = 0 := by
  rw [adjacentTerrains_inner chainWorld.Terrain 5 5 c 4 0 0 0 (by decide) (by decide)
    (by decide) (by decide) (by rw [chain_terrain]; rfl) (by rw [chain_terrain]; rfl)
    (by rw [chain_terrain]; rfl) (by rw [chain_terrain]; rfl)]
  split_ifs <;> omega


/-- C29, amended: `ConvertBordersToTerrain` leaves the entity layer and every cell
that is not a divider (code 4) unchanged.  The cells are visited row by row and
written in place, so the neighbours of a divider are counted on the terrain as it
is when the divider is visited: the cells before it (its up and left neighbours
among them) carry their final code, the others their code of before the call.  A
divider with no neighbour carrying 1, 2, 9 or 10 at that moment stays a divider; a
divider with such a neighbour gets a code that the largest number of its neighbours
carries at that moment (one of them, whichever the iteration order of the count map
picks, when several codes tie). -/
theorem ConvertBordersToTerrain_rule (w : World) (order : Nat → Nat → List Nat)
    (hlen : w.Terrain.length = GridSize * GridSize) (hok : OrderOK order) (x y : Nat)
    (hx : x < GridSize) (hy : y < GridSize) :
    (ConvertBordersToTerrain w order).Entities = w.Entities ∧
    (∀ j, (visitTerrain (ConvertBordersToTerrain w order).Terrain w.Terrain
          (y * GridSize + x)).getD j 0
        = if j < y * GridSize + x then (ConvertBordersToTerrain w order).Terrain.getD j 0
          else w.Terrain.getD j 0) ∧
    (w.Terrain.getD (y * GridSize + x) 0 ≠ TerrainBorder →
      (ConvertBordersToTerrain w order).Terrain.getD (y * GridSize + x) 0
        = w.Terrain.getD (y * GridSize + x) 0) ∧
    (w.Terrain.getD (y * GridSize + x) 0 = TerrainBorder →
      (∀ c, adjacentTerrains
          (visitTerrain (ConvertBordersToTerrain w order).Terrain w.Terrain
            (y * GridSize + x)) x y c ≤ 0) →
      (ConvertBordersToTerrain w order).Terrain.getD (y * GridSize + x) 0 = TerrainBorder) ∧
    (w.Terrain.getD (y * GridSize + x) 0 = TerrainBorder →
      (∃ c, adjacentTerrains
          (visitTerrain (ConvertBordersToTerrain w order).Terrain w.Terrain
            (y * GridSize + x)) x y c > 0) →
      adjacentTerrains
          (visitTerrain (ConvertBordersToTerrain w order).Terrain w.Terrain (y * GridSize + x))
          x y ((ConvertBordersToTerrain w order).Terrain.getD (y * GridSize + x) 0) > 0 ∧
      ∀ c, adjacentTerrains
          (visitTerrain (ConvertBordersToTerrain w order).Terrain w.Terrain
            (y * GridSize + x)) x y c
        ≤ adjacentTerrains
          (visitTerrain (ConvertBordersToTerrain w order).Terrain w.Terrain
            (y * GridSize + x)) x y
          ((ConvertBordersToTerrain w order).Terrain.getD (y * GridSize + x) 0)) := by
  rw [(ConvertBordersToTerrain_fields w order).1]
  exact ⟨(ConvertBordersToTerrain_fields w order).2.1,
    convert_cell_rule order w.Terrain hlen hok x y hx hy⟩

/-- C29, refuted as stated: in the chain, cell (5, 5) is a divider none of whose
neighbours carries 1, 2, 9 or 10 before the call (they carry 4, 0, 0 and 0, and
every count on the terrain of before the call is 0), so the claim leaves it a
divider; the call gives it code 1, taken from its left neighbour (4, 5), a divider
converted just before it. -/
theorem ConvertBorders_claim_fails :
    chainWorld.Terrain.getD (5 * GridSize + 5) 0 = TerrainBorder ∧
    chainWorld.Terrain.getD (5 * GridSize + 4) 0 = 4 ∧
    chainWorld.Terrain.getD (5 * GridSize + 6) 0 = 0 ∧
    chainWorld.Terrain.getD (4 * GridSize + 5) 0 = 0 ∧
    chainWorld.Terrain.getD (6 * GridSize + 5) 0 = 0 ∧
    (∀ c, adjacentTerrains chainWorld.Terrain 5 5 c = 0) ∧
    OrderOK codeOrder ∧
    (ConvertBordersToTerrain chainWorld codeOrder).Terrain.getD (5 * GridSize + 5) 0 = 1 := by
  refine ⟨?_, ?_, ?_, ?_, ?_, chain_before, codeOrder_ok, ?_⟩
  · rw [chain_terrain]; rfl
  · rw [chain_terrain]; rfl
  · rw [chain_terrain]; rfl
  · rw [chain_terrain]; rfl
  · rw [chain_terrain]; rfl
  · rw [(ConvertBordersToTerrain_fields chainWorld codeOrder).1]
    exact chain_final_505

/-- Witness of the amended C29, on the chain at the red cell (3, 5), which is not a
divider and keeps its code. -/
theorem ConvertBordersToTerrain_rule_witness :
    chainWorld.Terrain.length = GridSize * GridSize ∧ OrderOK codeOrder ∧
    (ConvertBordersToTerrain chainWorld codeOrder).Entities = chainWorld.Entities ∧
    (ConvertBordersToTerrain chainWorld codeOrder).Terrain.getD (5 * GridSize + 3) 0
      = chainWorld.Terrain.getD (5 * GridSize + 3) 0 :=
  have h := ConvertBordersToTerrain_rule chainWorld codeOrder chain_length codeOrder_ok 3 5
    (by decide) (by decide)
  ⟨chain_length, codeOrder_ok, h.1, h.2.2.1 (by rw [chain_terrain]; decide)⟩


/-! ## Per-connection write locks -/

theorem lockVia_enrol (b : Broadcaster) (conn : Nat) :
    lockVia (enrol b conn) conn
      = Ran.done { enrol b conn with
          locked := fun k => if k = b.fresh then true else (enrol b conn).locked k
          events := b.events ++ [WireEvent.lock b.fresh] } := by
  unfold lockVia
  have h : (enrol b conn).WriteMu conn = some b.fresh := by
    unfold enrol
    simp
  rw [h]
  rfl

/-- C30: every write of the registration path, of `sendStatsTo` and of the guarded
writes (broadcast loops, inspect and custom-map replies) is made between the
acquisition and the release of the mutex registered for the connection.  When the
initial send succeeds, the registration path releases the mutex it took, twice
over (initial snapshot, then statistics).  When the initial send fails, the path
deletes the map entry of the connection before `b.WriteMu[conn].Unlock()`: the map
read yields nil, the call faults, and the mutex taken is still locked: it is never
released. -/
theorem registerCase_locks (b : Broadcaster) (conn : Nat) :
    (∃ b2, registerCase b conn false = Ran.fault b2 ∧ b2.locked b.fresh = true ∧
      b2.WriteMu conn = none ∧
      b2.events = b.events ++
        [WireEvent.lock b.fresh, WireEvent.write conn, WireEvent.close conn]) ∧
    (∃ b2, registerCase b conn true = Ran.done b2 ∧ b2.locked b.fresh = false ∧
      b2.WriteMu conn = some b.fresh ∧
      b2.events = b.events ++
        [WireEvent.lock b.fresh, WireEvent.write conn, WireEvent.unlock b.fresh,
         WireEvent.lock b.fresh, WireEvent.write conn, WireEvent.unlock b.fresh]) ∧
    (∀ m, b.WriteMu conn = some m →
      sendStatsTo b conn = Ran.done { b with
        locked := fun k => if k = m then false else b.locked k
        events := b.events ++ [WireEvent.lock m, WireEvent.write conn, WireEvent.unlock m] }) ∧
    (∀ m, b.WriteMu conn = some m →
      (guardedWrite b conn).events
        = b.events ++ [WireEvent.lock m, WireEvent.write conn, WireEvent.unlock m]) ∧
    (b.WriteMu conn = none → guardedWrite b conn = b) ∧
    (∀ m, writesGuarded (fun c => if c = conn then some m else none) []
      [WireEvent.lock m, WireEvent.write conn, WireEvent.unlock m] = true) ∧
    (∀ m, writesGuarded (fun c => if c = conn then some m else none) []
      [WireEvent.lock m, WireEvent.write conn, WireEvent.close conn] = true) := by
  refine ⟨?_, ?_, ?_, ?_, ?_, ?_, ?_⟩
  · unfold registerCase
    rw [lockVia_enrol]
    simp [unlockVia, dropConn, writeTo, enrol]
  · unfold registerCase
    rw [lockVia_enrol]
    simp [unlockVia, writeTo, enrol, sendStatsTo, lockVia]
  · intro m hm
    simp [sendStatsTo, lockVia, unlockVia, writeTo, hm]
    funext k
    by_cases hk : k = m <;> simp [hk]
  · intro m hm
    simp [guardedWrite, hm]
  · intro hn
    simp [guardedWrite, hn]
  · intro m
    simp [writesGuarded]
  · intro m
    simp [writesGuarded]


/-- Witness of C30: the first registration on a new broadcaster, with a failing
initial send, faults with mutex 0 still locked. -/
theorem registerCase_locks_witness :
    ∃ b2, registerCase NewBroadcaster 7 false = Ran.fault b2 ∧ b2.locked 0 = true :=
  match (registerCase_locks NewBroadcaster 7).1 with
  | ⟨b2, h1, h2, _⟩ => ⟨b2, h1, h2⟩


/-! ## The shape of the reachable states -/

theorem afterAttrition_WF (w : World) (d : WarDraws) (hwf : w.WF) :
    LayersWF (afterAttrition w d) :=
  loopCells_inv _ LayersWF (fun x y s h => attritionBody_WF _ x y s h) _ _ _
    (afterCombat_WF w d hwf)

theorem victoryStep_terrain_length (w : World) (terrain : List Nat) (final : Layers) :
    (victoryStep w terrain final).Terrain.length = terrain.length := by
  rcases hal : aliveTribes final.ents with _ | ⟨t, _ | ⟨t2, rest⟩⟩
  · rw [(victoryStep_none w terrain final hal).2.2]
  · have hone := victoryStep_one w terrain final t hal
    cases hl : lookupTribe w.Tribes t with
    | none => rw [hone.2.2.2 hl]
    | some cfg => rw [hone.2.2.1 cfg hl, (conquer_get w t cfg.HomeTerrain terrain 0).1]
  · rw [(victoryStep_many w terrain final t t2 rest hal).2.2]

theorem UpdateConflict_WF (w : World) (d : WarDraws) (hwf : w.WF) : (UpdateConflict w d).WF := by
  cases hgo : w.gameOver with
  | true =>
    rw [updateConflict_frozen w d hgo]
    exact hwf
  | false =>
    rw [updateConflict_eq w d hgo]
    have hf := victoryStep_frame w (afterConversion w d) (afterAttrition w d)
    have ha := afterAttrition_WF w d hwf
    unfold World.WF
    rw [hf.1, hf.2.1, hf.2.2.2.1, victoryStep_terrain_length, afterConversion_length w d hwf]
    exact ⟨ha.1, rfl, ha.2, hwf.2.2.2⟩

theorem tryStarter_WF (w : World) (tribe : Nat) (cfg : TribeConfig)
    (cells : List (Nat × Nat)) (hwf : w.WF) : (tryStarter w tribe cfg cells).WF := by
  unfold tryStarter
  cases (cells.take 1000).find? (starterFits w cfg) with
  | none => exact hwf
  | some c => exact ⟨GridWF_setCell hwf.1 _ _ _, hwf.2.1, hwf.2.2.1, hwf.2.2.2⟩

theorem placeStarters_WF (w : World) (attempts : Nat → Nat → List (Nat × Nat)) (hwf : w.WF) :
    (placeStarters w attempts).WF := by
  unfold placeStarters
  apply foldl_inv (tribeStarters attempts) World.WF _ _ _ hwf
  intro s p hs
  unfold tribeStarters
  exact foldl_inv (fun acc i => tryStarter acc p.1 p.2 (attempts p.1 i)) World.WF
    (fun s2 i hs2 => tryStarter_WF s2 p.1 p.2 (attempts p.1 i) hs2) _ _ hs

theorem InitCustomMap_WF (w : World) (terrain : List Nat)
    (assignments : List (String × String)) (attempts : Nat → Nat → List (Nat × Nat))
    (hwf : w.WF) : (InitCustomMap w terrain assignments attempts).1.WF := by
  unfold InitCustomMap
  split_ifs with h1 h2
  · exact hwf
  · have hl : terrain.length = GridSize * GridSize := not_not.1 h1
    rw [copySlice_same (hl.trans hwf.2.1.symm)]
    exact loadRegistry_WF hwf terrain _ hl
  · have hl : terrain.length = GridSize * GridSize := not_not.1 h1
    rw [copySlice_same (hl.trans hwf.2.1.symm)]
    exact placeStarters_WF _ attempts (loadRegistry_WF hwf terrain _ hl)

theorem PlaceEntity_WF (w : World) (x y : Int) (typ : Nat) (hwf : w.WF) :
    (PlaceEntity w x y typ).1.WF := by
  unfold PlaceEntity
  dsimp only []
  repeat' split
  all_goals first
    | exact hwf
    | exact paintCell_WF hwf _ _ _
    | exact spawnAt_WF hwf _ _ _

theorem ConvertBordersToTerrain_WF (w : World) (order : Nat → Nat → List Nat) (hwf : w.WF) :
    (ConvertBordersToTerrain w order).WF := by
  obtain ⟨ht, he, _, _, hf⟩ := ConvertBordersToTerrain_fields w order
  unfold World.WF
  rw [ht, he, hf.1, hf.2.2.2.2.2.2.2.2.1, (convertedTerrain_cell order w.Terrain hwf.2.1).1]
  exact ⟨hwf.1, rfl, hwf.2.2.1, hwf.2.2.2⟩

theorem Reset_WF (w : World) (hwf : w.WF) : (Reset w).WF := by
  unfold Reset
  have hloop := loopCells_inv resetBody
    (fun s => GridWF s.ents ∧ GridWF s.reprod ∧ GridWF s.cleared)
    (fun x y s hs => resetBody_WF x y s hs) GridSize GridSize
    { ents := w.Entities, reprod := w.lastReprodTime, cleared := w.lastClearedTime }
    ⟨hwf.1, hwf.2.2.1, hwf.2.2.2⟩
  obtain ⟨f1, f2, f3, _, _, _, _, _, f9, _⟩ := resetWith_fields w
    (forCells resetBody
      { ents := w.Entities, reprod := w.lastReprodTime, cleared := w.lastClearedTime })
  unfold World.WF
  rw [f1, f2, f3, f9]
  exact ⟨hloop.1, hwf.2.1, hloop.2.1, hloop.2.2⟩


theorem reprodBody_WF (w : World) (d : PeaceDraws) (g : List (List (Option Entity)))
    (x y : Nat) (st : ReprodState) (h : GridWF st.reprod) :
    GridWF (reprodBody w d g x y st).reprod := by
  unfold reprodBody
  cases getCell g x y none with
  | none => exact h
  | some ent =>
    dsimp only []
    split_ifs
    · exact h
    · exact h
    · cases (d.shuffled x y).find? (canSpawn w g x y ent.Tribe) with
      | none => exact h
      | some dir => exact GridWF_setCell h _ _ _
    · exact h

theorem craftBody_WF (w : World) (d : PeaceDraws) (x y : Nat) (st : CraftState)
    (h : GridWF st.ents) : GridWF (craftBody w d x y st).ents := by
  unfold craftBody
  cases getCell st.ents x y none with
  | none => exact h
  | some ent =>
    dsimp only []
    cases lookupTribe w.Tribes ent.Tribe with
    | none => exact h
    | some cfg =>
      dsimp only []
      split_ifs
      · cases st.resources ent.Tribe with
        | none => exact h
        | some res => exact GridWF_setCell h _ _ _
      · exact h

theorem spawnStep_WF (w : World) (now : Int) (st : BirthState) (s : Spawn)
    (h : GridWF st.ents ∧ GridWF st.reprod) :
    GridWF (spawnStep w now st s).ents ∧ GridWF (spawnStep w now st s).reprod :=
  ⟨GridWF_setCell h.1 _ _ _, GridWF_setCell h.2 _ _ _⟩

theorem mineBody_WF (ents : List (List (Option Entity))) (tribes : List (Nat × TribeConfig))
    (now : Int) (x y : Nat) (st : MineState)
    (h : st.terrain.length = GridSize * GridSize ∧ GridWF st.cleared) :
    (mineBody ents tribes now x y st).terrain.length = GridSize * GridSize ∧
      GridWF (mineBody ents tribes now x y st).cleared := by
  unfold mineBody
  cases getCell ents x y none with
  | none => exact h
  | some ent =>
    dsimp only []
    by_cases hres : st.terrain.getD (y * GridSize + x) 0 = TerrainTrees ∨
        st.terrain.getD (y * GridSize + x) 0 = TerrainRocks
    · rw [if_pos hres]
      cases lookupTribe tribes ent.Tribe with
      | none => exact h
      | some cfg =>
        dsimp only []
        refine ⟨by rw [List.length_set]; exact h.1, ?_⟩
        split_ifs
        · exact GridWF_setCell h.2 _ _ _
        · exact h.2
    · rw [if_neg hres]
      exact h

theorem regrowBody_WF (ents : List (List (Option Entity))) (tribes : List (Nat × TribeConfig))
    (now : Int) (x y : Nat) (st : MineState)
    (h : st.terrain.length = GridSize * GridSize ∧ GridWF st.cleared) :
    (regrowBody ents tribes now x y st).terrain.length = GridSize * GridSize ∧
      GridWF (regrowBody ents tribes now x y st).cleared := by
  unfold regrowBody
  split_ifs
  · exact ⟨by dsimp only []; rw [List.length_set]; exact h.1, GridWF_setCell h.2 _ _ _⟩
  · exact h
  · exact h
  · exact h

theorem installPeace_layers (w : World) (born : BirthState) (crafted : CraftState) :
    (installPeace w born crafted).lastReprodTime = born.reprod ∧
    (installPeace w born crafted).nextEntityID = born.counters ∧
    (installPeace w born crafted).EntityStats = w.EntityStats :=
  ⟨rfl, rfl, rfl⟩

theorem withMined_layers (w : World) (st : MineState) :
    (withMined w st).lastReprodTime = w.lastReprodTime ∧
    (withMined w st).nextEntityID = w.nextEntityID ∧
    (withMined w st).Tribes = w.Tribes ∧ (withMined w st).EntityStats = w.EntityStats :=
  ⟨rfl, rfl, rfl, rfl⟩

theorem peaceMoved_WF (w : World) (d : PeaceDraws) (hwf : w.WF) : LayersWF (peaceMoved w d) :=
  resolveMoves_WF w (moveDraws w d) hwf

theorem reprodLoop_WF (w : World) (d : PeaceDraws) (g : List (List (Option Entity)))
    (st : ReprodState) (h : GridWF st.reprod) :
    GridWF (forCells (reprodBody w d g) st).reprod :=
  loopCells_inv (reprodBody w d g) (fun s => GridWF s.reprod)
    (fun x y s hs => reprodBody_WF w d g x y s hs) GridSize GridSize st h

theorem craftLoop_WF (w : World) (d : PeaceDraws) (st : CraftState) (h : GridWF st.ents) :
    GridWF (forCells (craftBody w d) st).ents :=
  loopCells_inv (craftBody w d) (fun s => GridWF s.ents)
    (fun x y s hs => craftBody_WF w d x y s hs) GridSize GridSize st h

theorem spawnLoop_WF (w : World) (now : Int) (l : List Spawn) (st : BirthState)
    (h : GridWF st.ents ∧ GridWF st.reprod) :
    GridWF (l.foldl (spawnStep w now) st).ents ∧ GridWF (l.foldl (spawnStep w now) st).reprod :=
  foldl_inv (spawnStep w now) (fun s => GridWF s.ents ∧ GridWF s.reprod)
    (fun s k hs => spawnStep_WF w now s k hs) l st h

theorem mineLoop_WF (ents : List (List (Option Entity))) (tribes : List (Nat × TribeConfig))
    (now : Int) (st : MineState)
    (h : st.terrain.length = GridSize * GridSize ∧ GridWF st.cleared) :
    (forCells (mineBody ents tribes now) st).terrain.length = GridSize * GridSize ∧
      GridWF (forCells (mineBody ents tribes now) st).cleared :=
  loopCells_inv (mineBody ents tribes now)
    (fun s => s.terrain.length = GridSize * GridSize ∧ GridWF s.cleared)
    (fun x y s hs => mineBody_WF ents tribes now x y s hs) GridSize GridSize st h

theorem regrowLoop_WF (ents : List (List (Option Entity))) (tribes : List (Nat × TribeConfig))
    (now : Int) (st : MineState)
    (h : st.terrain.length = GridSize * GridSize ∧ GridWF st.cleared) :
    (forCells (regrowBody ents tribes now) st).terrain.length = GridSize * GridSize ∧
      GridWF (forCells (regrowBody ents tribes now) st).cleared :=
  loopCells_inv (regrowBody ents tribes now)
    (fun s => s.terrain.length = GridSize * GridSize ∧ GridWF s.cleared)
    (fun x y s hs => regrowBody_WF ents tribes now x y s hs) GridSize GridSize st h

theorem peaceReprod_WF (w : World) (d : PeaceDraws) (hwf : w.WF) :
    GridWF (peaceReprod w d).reprod := by
  unfold peaceReprod
  exact reprodLoop_WF w d _
    { counts := tribeCounts (peaceMoved w d).ents
      skip := skipStart w (tribeCounts (peaceMoved w d).ents)
      spawns := []
      reprod := (peaceMoved w d).reprod } (peaceMoved_WF w d hwf).2

theorem peaceCrafted_WF (w : World) (d : PeaceDraws) (hwf : w.WF) :
    GridWF (peaceCrafted w d).ents := by
  unfold peaceCrafted
  exact craftLoop_WF w d { ents := (peaceMoved w d).ents, resources := w.resources }
    (peaceMoved_WF w d hwf).1

theorem spawnLoop_WF_from (w : World) (now : Int) (l : List Spawn)
    (ents : List (List (Option Entity))) (reprod : List (List Int)) (counters : Nat → Option Nat)
    (he : GridWF ents) (hr : GridWF reprod) :
    GridWF (l.foldl (spawnStep w now)
      { ents := ents, reprod := reprod, counters := counters }).ents ∧
    GridWF (l.foldl (spawnStep w now)
      { ents := ents, reprod := reprod, counters := counters }).reprod :=
  spawnLoop_WF w now l { ents := ents, reprod := reprod, counters := counters } ⟨he, hr⟩

theorem peaceBorn_WF (w : World) (d : PeaceDraws) (hwf : w.WF) :
    GridWF (peaceBorn w d).ents ∧ GridWF (peaceBorn w d).reprod := by
  unfold peaceBorn
  exact spawnLoop_WF_from w d.reprodNow _ _ _ _ (peaceCrafted_WF w d hwf)
    (peaceReprod_WF w d hwf)

theorem installPeace_WF (w : World) (d : PeaceDraws) (hwf : w.WF) :
    (installPeace w (peaceBorn w d) (peaceCrafted w d)).WF := by
  unfold World.WF
  rw [(installPeace_frame _ _ _).2.2.2.1, (installPeace_frame _ _ _).2.2.2.2.2.1,
    (installPeace_layers _ _ _).1, (installPeace_frame _ _ _).2.2.2.2.2.2]
  exact ⟨(peaceBorn_WF w d hwf).1, hwf.2.1, (peaceBorn_WF w d hwf).2, hwf.2.2.2⟩

theorem HandleMiningAndRegrowth_WF (w : World) (now : Int) (hwf : w.WF) :
    (HandleMiningAndRegrowth w now).WF := by
  have hm : (mined w now).terrain.length = GridSize * GridSize ∧ GridWF (mined w now).cleared := by
    unfold mined
    exact mineLoop_WF w.Entities w.Tribes now
      { terrain := w.Terrain, resources := w.resources, cleared := w.lastClearedTime }
      ⟨hwf.2.1, hwf.2.2.2⟩
  have hr : (regrown w now).terrain.length = GridSize * GridSize ∧
      GridWF (regrown w now).cleared := by
    unfold regrown
    exact regrowLoop_WF w.Entities w.Tribes now (mined w now) hm
  unfold HandleMiningAndRegrowth World.WF
  rw [(withMined_frame _ _).2.2.2.1, (withMined_frame _ _).2.2.2.2.1,
    (withMined_layers _ _).1, (withMined_frame _ _).2.2.2.2.2]
  exact ⟨hwf.1, hr.1, hwf.2.2.1, hr.2⟩

theorem PreWarUpdate_WF (w : World) (d : PeaceDraws) (hwf : w.WF) : (PreWarUpdate w d).WF := by
  unfold PreWarUpdate
  exact HandleMiningAndRegrowth_WF _ _ (installPeace_WF w d hwf)

theorem Update_WF (w : World) (wd : WarDraws) (pd : PeaceDraws) (hwf : w.WF) :
    (Update w wd pd).WF := by
  unfold Update
  split_ifs
  · exact UpdateConflict_WF w wd hwf
  · exact PreWarUpdate_WF w pd hwf

theorem OpStep_WF {w w2 : World} (h : OpStep w w2) (hwf : w.WF) : w2.WF := by
  cases h
  case initMap terrain tribes attempts hlen =>
    exact placeStarters_WF _ attempts (loadRegistry_WF hwf terrain tribes hlen)
  case initCustomMap terrain assignments attempts =>
    exact InitCustomMap_WF w terrain assignments attempts hwf
  case placeEntity x y typ => exact PlaceEntity_WF w x y typ hwf
  case convertBorders order => exact ConvertBordersToTerrain_WF w order hwf
  case startWar => exact StartWar_WF hwf
  case update wd pd _ => exact Update_WF w wd pd hwf

/-- Every reachable state is well formed: its grids have the full size. -/
theorem Reachable_WF {w : World} (h : Reachable w) : w.WF := by
  induction h with
  | new => exact New_WF
  | op w w2 _ hstep ih => exact OpStep_WF hstep ih
  | reset w _ ih => exact Reset_WF w ih


/-! ## Populations -/

theorem countBody_apply (g : List (List (Option Entity))) (x y : Nat) (c : Nat → Int)
    (f : Nat) : countBody g x y c f = c f + tribeInd (getCell g x y none) f := by
  unfold countBody tribeInd
  cases getCell g x y none with
  | none => simp
  | some e =>
    dsimp only []
    split_ifs with h1 h2 h2
    · rfl
    · exact absurd h1.symm h2
    · exact absurd h2.symm h1
    · simp

/-- The population of a faction is the number of cells that hold one of its
entities. -/
theorem tribeCounts_sum (g : List (List (Option Entity))) (f : Nat) :
    tribeCounts g f
      = ∑ y in Finset.range GridSize, ∑ x in Finset.range GridSize,
          tribeInd (getCell g x y none) f := by
  unfold tribeCounts forCells
  rw [loopCells_additive (countBody g) (fun c => c f)
    (fun x y => tribeInd (getCell g x y none) f) (fun _ => True) (fun _ _ _ _ => trivial)
    (fun x y s _ => countBody_apply g x y s f) GridSize GridSize _ trivial]
  simp

theorem tribeInd_range (c : Option Entity) (f : Nat) : 0 ≤ tribeInd c f ∧ tribeInd c f ≤ 1 := by
  unfold tribeInd
  cases c with
  | none => exact ⟨le_refl _, Int.zero_le_ofNat 1⟩
  | some e =>
    dsimp only []
    split_ifs
    · exact ⟨Int.zero_le_ofNat 1, le_refl _⟩
    · exact ⟨le_refl _, Int.zero_le_ofNat 1⟩

theorem tribeCounts_le_of {g1 g2 : List (List (Option Entity))} {f : Nat}
    (h : ∀ x y, x < GridSize → y < GridSize →
      tribeInd (getCell g1 x y none) f ≤ tribeInd (getCell g2 x y none) f) :
    tribeCounts g1 f ≤ tribeCounts g2 f := by
  rw [tribeCounts_sum, tribeCounts_sum]
  apply Finset.sum_le_sum
  intro y hy
  apply Finset.sum_le_sum
  intro x hx
  exact h x y (Finset.mem_range.1 hx) (Finset.mem_range.1 hy)

theorem tribeCounts_eq_of {g1 g2 : List (List (Option Entity))} {f : Nat}
    (h : ∀ x y, x < GridSize → y < GridSize →
      tribeInd (getCell g1 x y none) f = tribeInd (getCell g2 x y none) f) :
    tribeCounts g1 f = tribeCounts g2 f :=
  le_antisymm (tribeCounts_le_of (fun x y hx hy => le_of_eq (h x y hx hy)))
    (tribeCounts_le_of (fun x y hx hy => le_of_eq (h x y hx hy).symm))

theorem tribeCounts_nonneg (g : List (List (Option Entity))) (f : Nat) : 0 ≤ tribeCounts g f := by
  rw [tribeCounts_sum]
  apply Finset.sum_nonneg
  intro y _
  apply Finset.sum_nonneg
  intro x _
  exact (tribeInd_range _ f).1

/-- A faction with an entity on the grid has a population of at least 1. -/
theorem tribeCounts_pos {g : List (List (Option Entity))} {x y : Nat} {e : Entity}
    (hx : x < GridSize) (hy : y < GridSize) (he : getCell g x y none = some e) :
    1 ≤ tribeCounts g e.Tribe := by
  rw [tribeCounts_sum]
  have hrow : tribeInd (getCell g x y none) e.Tribe
      ≤ ∑ x2 in Finset.range GridSize, tribeInd (getCell g x2 y none) e.Tribe :=
    Finset.single_le_sum (f := fun x2 => tribeInd (getCell g x2 y none) e.Tribe)
      (fun i _ => (tribeInd_range _ _).1) (Finset.mem_range.2 hx)
  have hall : (∑ x2 in Finset.range GridSize, tribeInd (getCell g x2 y none) e.Tribe)
      ≤ ∑ y2 in Finset.range GridSize, ∑ x2 in Finset.range GridSize,
          tribeInd (getCell g x2 y2 none) e.Tribe :=
    Finset.single_le_sum
      (f := fun y2 => ∑ x2 in Finset.range GridSize, tribeInd (getCell g x2 y2 none) e.Tribe)
      (fun i _ => Finset.sum_nonneg (fun j _ => (tribeInd_range _ _).1)) (Finset.mem_range.2 hy)
  have hone : tribeInd (getCell g x y none) e.Tribe = 1 := by
    rw [he]
    unfold tribeInd
    simp
  omega

/-- A write of one cell changes a population by what the cell held and what it
holds now. -/
theorem tribeCounts_setCell (g : List (List (Option Entity))) (hg : GridWF g) (x y : Nat)
    (hx : x < GridSize) (hy : y < GridSize) (v : Option Entity) (f : Nat) :
    tribeCounts (setCell g x y v) f
      = tribeCounts g f - tribeInd (getCell g x y none) f + tribeInd v f := by
  rw [tribeCounts_sum, tribeCounts_sum]
  have hpt : ∀ x2 y2 : Nat, tribeInd (getCell (setCell g x y v) x2 y2 none) f
      = tribeInd (getCell g x2 y2 none) f
        + (if x2 = x ∧ y2 = y then tribeInd v f - tribeInd (getCell g x y none) f else 0) := by
    intro x2 y2
    by_cases hc : x2 = x ∧ y2 = y
    · rw [if_pos hc, hc.1, hc.2, getCell_setCell_self _ _ _ _ _ (by rw [hg.1]; exact hy)
        (by rw [GridWF_row hg hy]; exact hx)]
      ring
    · rw [if_neg hc, getCell_setCell_ne _ _ _ _ _ _ _ (by
        by_contra hn
        exact hc ⟨by_contra (fun h => hn (Or.inl h)), by_contra (fun h => hn (Or.inr h))⟩)]
      ring
  simp only [hpt, Finset.sum_add_distrib]
  rw [sum_cells_single
    (fun x2 y2 => if x2 = x ∧ y2 = y then tribeInd v f - tribeInd (getCell g x y none) f else 0)
    (x : Int) (y : Int) (by
      intro x2 y2 hne
      dsimp only []
      rw [if_neg]
      rintro ⟨h1, h2⟩
      rcases hne with h | h
      · exact h (by rw [h1])
      · exact h (by rw [h2]))]
  rw [if_pos (by unfold GridSize at *; omega)]
  simp only [Int.toNat_ofNat, and_self, if_true]
  ring


/-! ## The density ceiling -/

theorem spawnCount_append (l : List Spawn) (s : Spawn) (f : Nat) :
    spawnCount (l ++ [s]) f = spawnCount l f + (if s.tribe = f then 1 else 0) := by
  unfold spawnCount
  simp

theorem spawnCount_nonneg (l : List Spawn) (f : Nat) : 0 ≤ spawnCount l f := by
  unfold spawnCount
  apply List.sum_nonneg
  intro v hv
  obtain ⟨s, _, hs⟩ := List.mem_map.1 hv
  rw [← hs]
  split_ifs
  · exact Int.zero_le_ofNat 1
  · exact le_refl _

theorem spawnCount_pos_mem {l : List Spawn} {f : Nat} (h : spawnCount l f ≠ 0) :
    ∃ s ∈ l, s.tribe = f := by
  induction l with
  | nil => exact absurd rfl h
  | cons s rest ih =>
    by_cases hs : s.tribe = f
    · exact ⟨s, List.mem_cons_self _ _, hs⟩
    · have : spawnCount (s :: rest) f = spawnCount rest f := by
        unfold spawnCount
        simp [hs]
      rw [this] at h
      obtain ⟨s2, h2, h3⟩ := ih h
      exact ⟨s2, List.mem_cons_of_mem _ h2, h3⟩

theorem cells_pos : (0 : ℚ) < ((GridSize * GridSize : Nat) : ℚ) := by
  unfold GridSize
  norm_num

/-- The test `density > MaxDensityFraction` fails exactly when the count is at most
`floor (MaxDensityFraction * 10000)`. -/
theorem density_le_iff (c : Int) (m : ℚ) :
    (c : ℚ) / ((GridSize * GridSize : Nat) : ℚ) ≤ m
      ↔ c ≤ ⌊m * ((GridSize * GridSize : Nat) : ℚ)⌋ := by
  rw [div_le_iff₀ cells_pos, Int.le_floor]

theorem canSpawn_target {w : World} {g : List (List (Option Entity))} {x y tribe : Nat}
    {dir : Int × Int} (h : canSpawn w g x y tribe dir = true) :
    getCell g ((x : Int) + dir.1).toNat ((y : Int) + dir.2).toNat none = none ∧
    ((x : Int) + dir.1).toNat < GridSize ∧ ((y : Int) + dir.2).toNat < GridSize ∧
    CanReproduceOn (w.Terrain.getD (((y : Int) + dir.2).toNat * GridSize
      + ((x : Int) + dir.1).toNat) 0) w tribe = true := by
  unfold canSpawn at h
  simp only [Bool.and_eq_true, decide_eq_true_eq] at h
  exact ⟨h.2.1, inRange_toNat h.1.1 h.1.2.1, inRange_toNat h.1.2.2.1 h.1.2.2.2, h.2.2⟩


/-- One round of the reproduction loop keeps `ReprodInv`. -/
theorem reprodBody_inv (w : World) (d : PeaceDraws) (g : List (List (Option Entity)))
    (hg : GridWF g) (x y : Nat) (st : ReprodState)
    (h : ReprodInv w g (tribeCounts g) st) :
    ReprodInv w g (tribeCounts g) (reprodBody w d g x y st) := by
  unfold reprodBody
  cases hent : getCell g x y none with
  | none => exact h
  | some ent =>
    dsimp only []
    by_cases hskip : st.skip ent.Tribe = true
    · rw [if_pos hskip]
      exact h
    rw [if_neg hskip]
    split_ifs with hcool hroll
    · exact h
    · cases hfind : (d.shuffled x y).find? (canSpawn w g x y ent.Tribe) with
      | none => exact h
      | some dir =>
        dsimp only []
        obtain ⟨hA, hB, hC, hD, hE⟩ := h
        have hr := getCell_some_inRange hg hent
        have hpos : 1 ≤ tribeCounts g ent.Tribe := tribeCounts_pos hr.1 hr.2 hent
        have hsk : st.skip ent.Tribe = false := by
          cases hb : st.skip ent.Tribe with
          | true => exact absurd hb hskip
          | false => rfl
        have hwithin := (density_le_iff _ _).1 (hB ent.Tribe hsk hpos)
        have htarget := canSpawn_target (List.find?_some hfind)
        refine ⟨?_, ?_, ?_, ?_, ?_⟩
        · intro f
          dsimp only []
          rw [spawnCount_append]
          dsimp only []
          by_cases hf : f = ent.Tribe
          · rw [if_pos hf, if_pos hf.symm, hf, hA ent.Tribe]
            ring
          · rw [if_neg hf, if_neg (fun e => hf e.symm), hA f]
            ring
        · intro f hfalse hone
          dsimp only [] at hfalse ⊢
          by_cases hf : f = ent.Tribe
          · rw [if_pos hf]
            by_contra hover
            rw [if_pos ⟨hf, not_le.1 hover⟩] at hfalse
            cases hfalse
          · rw [if_neg hf]
            rw [if_neg (fun hc => hf hc.1)] at hfalse
            exact hB f hfalse hone
        · intro f
          dsimp only []
          rw [spawnCount_append]
          dsimp only []
          by_cases hf : ent.Tribe = f
          · rw [if_pos hf, ← hf, ← add_assoc, ← hA ent.Tribe]
            exact le_max_of_le_right (by omega)
          · rw [if_neg hf, add_zero]
            exact hC f
        · intro f hover
          dsimp only []
          rw [spawnCount_append]
          dsimp only []
          by_cases hf : ent.Tribe = f
          · exfalso
            have := (hD f hover).2 (hf ▸ hpos)
            rw [← hf, hsk] at this
            cases this
          · rw [if_neg hf, add_zero]
            refine ⟨(hD f hover).1, fun hone => ?_⟩
            rw [if_neg (fun hc => hf hc.1.symm)]
            exact (hD f hover).2 hone
        · intro s hs
          rcases List.mem_append.1 hs with hold | hnew
          · exact hE s hold
          · rw [List.mem_singleton.1 hnew]
            exact ⟨htarget.1, htarget.2.1, htarget.2.2.1, hpos⟩
    · exact h


theorem reprodLoop_inv (w : World) (d : PeaceDraws) (g : List (List (Option Entity)))
    (hg : GridWF g) (st : ReprodState) (h : ReprodInv w g (tribeCounts g) st) :
    ReprodInv w g (tribeCounts g) (forCells (reprodBody w d g) st) :=
  loopCells_inv (reprodBody w d g) (ReprodInv w g (tribeCounts g))
    (fun x y s hs => reprodBody_inv w d g hg x y s hs) GridSize GridSize st h

theorem reprodStart_inv (w : World) (g : List (List (Option Entity))) (r : List (List Int)) :
    ReprodInv w g (tribeCounts g)
      { counts := tribeCounts g, skip := skipStart w (tribeCounts g), spawns := [], reprod := r } := by
  have hz : ∀ f, spawnCount [] f = 0 := fun f => rfl
  refine ⟨?_, ?_, ?_, ?_, ?_⟩
  · intro f
    dsimp only []
    rw [hz, add_zero]
  · intro f hfalse hone
    dsimp only [] at hfalse ⊢
    unfold skipStart at hfalse
    by_contra hover
    have h1 : decide (0 < tribeCounts g f) = true := decide_eq_true (by omega)
    have h2 : decide (((tribeCounts g f : Int) : ℚ) / ((GridSize * GridSize : Nat) : ℚ)
        > w.EntityStats.MaxDensityFraction) = true := decide_eq_true (not_le.1 hover)
    rw [h1, h2] at hfalse
    cases hfalse
  · intro f
    dsimp only []
    rw [hz, add_zero]
    exact le_max_left _ _
  · intro f hover
    dsimp only []
    refine ⟨hz f, fun hone => ?_⟩
    unfold skipStart
    rw [decide_eq_true (show 0 < tribeCounts g f by omega), decide_eq_true hover]
    rfl
  · intro s hs
    cases hs

theorem peaceReprod_inv (w : World) (d : PeaceDraws) (hwf : w.WF) :
    ReprodInv w (peaceMoved w d).ents (tribeCounts (peaceMoved w d).ents) (peaceReprod w d) :=
  reprodLoop_inv w d _ (peaceMoved_WF w d hwf).1 _ (reprodStart_inv w _ _)

theorem craftWeapon_upgrade (p : Entity × TribeResources) : upgradeOf p.1 (craftWeapon p).1 := by
  unfold craftWeapon upgradeOf
  split_ifs <;> exact ⟨rfl, rfl, rfl, rfl⟩

theorem craftArmor_upgrade (p : Entity × TribeResources) : upgradeOf p.1 (craftArmor p).1 := by
  unfold craftArmor upgradeOf
  split_ifs <;> exact ⟨rfl, rfl, rfl, rfl⟩

theorem craftRank_upgrade (p : Entity × TribeResources) : upgradeOf p.1 (craftRank p).1 := by
  unfold craftRank upgradeOf
  split_ifs <;> exact ⟨rfl, rfl, rfl, rfl⟩

theorem upgradeOf_trans {a b c : Entity} (h1 : upgradeOf a b) (h2 : upgradeOf b c) :
    upgradeOf a c :=
  ⟨h2.1.trans h1.1, h2.2.1.trans h1.2.1, h2.2.2.1.trans h1.2.2.1, h2.2.2.2.trans h1.2.2.2⟩

theorem crafted_upgrade (ent : Entity) (res : TribeResources) :
    upgradeOf ent (craftRank (craftArmor (craftWeapon (ent, res)))).1 :=
  upgradeOf_trans (upgradeOf_trans (craftWeapon_upgrade (ent, res)) (craftArmor_upgrade _))
    (craftRank_upgrade _)

theorem Upgraded_refl (a : Option Entity) : Upgraded a a := by
  cases a with
  | none => exact Or.inl ⟨rfl, rfl⟩
  | some e => exact Or.inr ⟨e, e, rfl, rfl, rfl, rfl, rfl, rfl⟩

theorem Upgraded_trans {a b c : Option Entity} (h1 : Upgraded a b) (h2 : Upgraded b c) :
    Upgraded a c := by
  rcases h1 with ⟨ha, hb⟩ | ⟨e, e2, ha, hb, hu⟩
  · rcases h2 with ⟨_, hc⟩ | ⟨e3, e4, hb2, _, _⟩
    · exact Or.inl ⟨ha, hc⟩
    · rw [hb] at hb2
      cases hb2
  · rcases h2 with ⟨hb2, _⟩ | ⟨e3, e4, hb2, hc, hu2⟩
    · rw [hb] at hb2
      cases hb2
    · rw [hb] at hb2
      cases hb2
      exact Or.inr ⟨e, e4, ha, hc, upgradeOf_trans hu hu2⟩

/-- One round of the crafting loop changes a cell by an upgrade at most. -/
theorem craftBody_upgraded (w : World) (d : PeaceDraws) (x y : Nat) (st : CraftState)
    (cx cy : Nat) :
    Upgraded (getCell st.ents cx cy none) (getCell (craftBody w d x y st).ents cx cy none) := by
  unfold craftBody
  cases hent : getCell st.ents x y none with
  | none => exact Upgraded_refl _
  | some ent =>
    dsimp only []
    cases lookupTribe w.Tribes ent.Tribe with
    | none => exact Upgraded_refl _
    | some cfg =>
      dsimp only []
      split_ifs with hc
      · cases st.resources ent.Tribe with
        | none => exact Upgraded_refl _
        | some res =>
          dsimp only []
          by_cases hxy : cx = x ∧ cy = y
          · rw [hxy.1, hxy.2]
            rcases getCell_setCell_cases st.ents x y x y
              (some (craftRank (craftArmor (craftWeapon (ent, res)))).1) none with h | h
            · rw [h, hent]
              exact Or.inr ⟨ent, _, rfl, rfl, crafted_upgrade ent res⟩
            · rw [h]
              exact Upgraded_refl _
          · rw [getCell_setCell_ne _ _ _ _ _ _ _ (by
              by_contra hn
              exact hxy ⟨by_contra (fun h => hn (Or.inl h)), by_contra (fun h => hn (Or.inr h))⟩)]
            exact Upgraded_refl _
      · exact Upgraded_refl _

theorem craftLoop_upgraded (w : World) (d : PeaceDraws) (g : List (List (Option Entity)))
    (st : CraftState) (h : ∀ cx cy, Upgraded (getCell g cx cy none) (getCell st.ents cx cy none)) :
    ∀ cx cy, Upgraded (getCell g cx cy none)
      (getCell (forCells (craftBody w d) st).ents cx cy none) :=
  loopCells_inv (craftBody w d)
    (fun s => ∀ cx cy, Upgraded (getCell g cx cy none) (getCell s.ents cx cy none))
    (fun x y s hs cx cy => Upgraded_trans (hs cx cy) (craftBody_upgraded w d x y s cx cy))
    GridSize GridSize st h

/-- Crafting changes equipment and rank only: every cell of the crafted grid holds
the occupant that phase 2 left there, upgraded at most. -/
theorem peaceCrafted_upgraded (w : World) (d : PeaceDraws) (cx cy : Nat) :
    Upgraded (getCell (peaceMoved w d).ents cx cy none)
      (getCell (peaceCrafted w d).ents cx cy none) :=
  craftLoop_upgraded w d (peaceMoved w d).ents
    { ents := (peaceMoved w d).ents, resources := w.resources }
    (fun _ _ => Upgraded_refl _) cx cy

theorem Upgraded_tribeInd {a b : Option Entity} (h : Upgraded a b) (f : Nat) :
    tribeInd b f = tribeInd a f := by
  rcases h with ⟨ha, hb⟩ | ⟨e, e2, ha, hb, hu⟩
  · rw [ha, hb]
  · rw [ha, hb]
    unfold tribeInd
    dsimp only []
    rw [hu.1]

theorem peaceCrafted_counts (w : World) (d : PeaceDraws) (f : Nat) :
    tribeCounts (peaceCrafted w d).ents f = tribeCounts (peaceMoved w d).ents f :=
  tribeCounts_eq_of (fun x y _ _ => Upgraded_tribeInd (peaceCrafted_upgraded w d x y) f)

theorem spawnCount_cons (s : Spawn) (l : List Spawn) (f : Nat) :
    spawnCount (s :: l) f = (if s.tribe = f then 1 else 0) + spawnCount l f := by
  unfold spawnCount
  simp

/-- The births applied to a grid raise a population by the number of births recorded
for the faction at most. -/
theorem births_count_le (w : World) (now : Int) (f : Nat) (l : List Spawn)
    (hl : ∀ s ∈ l, s.nx < GridSize ∧ s.ny < GridSize) (st : BirthState)
    (hst : GridWF st.ents) :
    tribeCounts (l.foldl (spawnStep w now) st).ents f ≤ tribeCounts st.ents f + spawnCount l f := by
  induction l generalizing st with
  | nil =>
    show tribeCounts st.ents f ≤ tribeCounts st.ents f + 0
    omega
  | cons s rest ih =>
    rw [List.foldl_cons, spawnCount_cons]
    have hs := hl s (List.mem_cons_self _ _)
    have hstep : tribeCounts (spawnStep w now st s).ents f
        ≤ tribeCounts st.ents f + (if s.tribe = f then 1 else 0) := by
      unfold spawnStep
      dsimp only []
      rw [tribeCounts_setCell _ hst _ _ hs.1 hs.2]
      have h0 := (tribeInd_range (getCell st.ents s.nx s.ny none) f).1
      have h1 : tribeInd (some (freshEntity s.tribe
          (((st.counters s.tribe).getD 0 + 1) % 2 ^ 32)
          ((lookupTribe w.Tribes s.tribe).getD TribeConfig.zero).BaseEvasion)) f
          = if s.tribe = f then 1 else 0 := rfl
      rw [h1]
      omega
    have hwf2 : GridWF (spawnStep w now st s).ents := GridWF_setCell hst _ _ _
    have := ih (fun s2 h2 => hl s2 (List.mem_cons_of_mem _ h2)) (spawnStep w now st s) hwf2
    omega

theorem PreWarUpdate_entities (w : World) (d : PeaceDraws) :
    (PreWarUpdate w d).Entities = (peaceBorn w d).ents := rfl

theorem births_count_from (w : World) (now : Int) (f : Nat) (l : List Spawn)
    (hl : ∀ s ∈ l, s.nx < GridSize ∧ s.ny < GridSize) (ents : List (List (Option Entity)))
    (reprod : List (List Int)) (counters : Nat → Option Nat) (hst : GridWF ents) :
    tribeCounts (l.foldl (spawnStep w now)
      { ents := ents, reprod := reprod, counters := counters }).ents f
      ≤ tribeCounts ents f + spawnCount l f :=
  births_count_le w now f l hl { ents := ents, reprod := reprod, counters := counters } hst

theorem peaceBorn_count_le (w : World) (d : PeaceDraws) (hwf : w.WF) (f : Nat) :
    tribeCounts (peaceBorn w d).ents f
      ≤ tribeCounts (peaceMoved w d).ents f + spawnCount (peaceReprod w d).spawns f := by
  have hinv := peaceReprod_inv w d hwf
  have hb := births_count_from w d.reprodNow f (peaceReprod w d).spawns
    (fun s hs => ⟨(hinv.2.2.2.2 s hs).2.1, (hinv.2.2.2.2 s hs).2.2.1⟩)
    (peaceCrafted w d).ents (peaceReprod w d).reprod w.nextEntityID (peaceCrafted_WF w d hwf)
  rw [peaceCrafted_counts] at hb
  exact hb

/-- The bound of the reference configuration (`MaxDensityFraction = 0.030`). -/
theorem densityBound_New : densityBound New = 301 := by
  unfold densityBound
  have h : New.EntityStats.MaxDensityFraction * ((GridSize * GridSize : Nat) : ℚ)
      = ((300 : Int) : ℚ) := by
    show (30 / 1000 : ℚ) * ((GridSize * GridSize : Nat) : ℚ) = ((300 : Int) : ℚ)
    unfold GridSize
    norm_num
  rw [h, Int.floor_intCast]
  rfl

/-- C21: in a peaceful tick, whatever the draws, the population of a faction at the
end of the tick is at most the larger of its population after the movement phase
and `floor (MaxDensityFraction * 100 * 100) + 1`; and for a faction whose fraction
of the cells exceeds `MaxDensityFraction` after the movement phase, no birth is
recorded and the population at the end of the tick is at most the one after the
movement phase. -/
theorem density_ceiling (w : World) (d : PeaceDraws) (f : Nat) (hwf : w.WF) :
    tribeCounts (PreWarUpdate w d).Entities f
        ≤ max (tribeCounts (peaceMoved w d).ents f) (densityBound w) ∧
    (overCeiling w (tribeCounts (peaceMoved w d).ents f) →
      spawnCount (peaceReprod w d).spawns f = 0 ∧
      tribeCounts (PreWarUpdate w d).Entities f ≤ tribeCounts (peaceMoved w d).ents f) := by
  have hinv := peaceReprod_inv w d hwf
  have hb := peaceBorn_count_le w d hwf f
  rw [PreWarUpdate_entities]
  refine ⟨le_trans hb (hinv.2.2.1 f), fun hover => ?_⟩
  have hz := (hinv.2.2.2.1 f hover).1
  refine ⟨hz, ?_⟩
  rw [hz, add_zero] at hb
  exact hb

/-! ## Movement as a chain of relocations -/

theorem ne_cell_of_ne {a b c e : Nat} (h : ¬ (a = c ∧ b = e)) : a ≠ c ∨ b ≠ e := by
  by_contra hn
  exact h ⟨by_contra (fun h1 => hn (Or.inl h1)), by_contra (fun h2 => hn (Or.inr h2))⟩

theorem getCell_set_self {g : List (List (Option Entity))} (hg : GridWF g) {x y : Nat}
    (hx : x < GridSize) (hy : y < GridSize) (v : Option Entity) :
    getCell (setCell g x y v) x y none = v :=
  getCell_setCell_self _ _ _ _ _ (by rw [hg.1]; exact hy) (by rw [GridWF_row hg hy]; exact hx)

/-- The cells of a grid after one move. -/
theorem relocate_cell {g : List (List (Option Entity))} (hg : GridWF g) {ox oy tx ty : Nat}
    (hox : ox < GridSize) (hoy : oy < GridSize) (htx : tx < GridSize) (hty : ty < GridSize)
    (x y : Nat) :
    getCell (relocate g ox oy tx ty) x y none
      = if x = ox ∧ y = oy then none
        else if x = tx ∧ y = ty then getCell g ox oy none
        else getCell g x y none := by
  unfold relocate
  by_cases h1 : x = ox ∧ y = oy
  · rw [if_pos h1, h1.1, h1.2, getCell_set_self (GridWF_setCell hg _ _ _) hox hoy]
  · rw [if_neg h1, getCell_setCell_ne _ _ _ _ _ _ _ (ne_cell_of_ne h1)]
    by_cases h2 : x = tx ∧ y = ty
    · rw [if_pos h2, h2.1, h2.2, getCell_set_self hg htx hty]
    · rw [if_neg h2, getCell_setCell_ne _ _ _ _ _ _ _ (ne_cell_of_ne h2)]

theorem RelocStep_WF {g g2 : List (List (Option Entity))} (h : RelocStep g g2) : GridWF g2 := by
  obtain ⟨ox, oy, tx, ty, _, _, _, _, hg, _, _, rfl⟩ := h
  exact GridWF_setCell (GridWF_setCell hg _ _ _) _ _ _

/-- A move changes no population. -/
theorem RelocStep_counts {g g2 : List (List (Option Entity))} (h : RelocStep g g2) (f : Nat) :
    tribeCounts g2 f = tribeCounts g f := by
  obtain ⟨ox, oy, tx, ty, hox, hoy, htx, hty, hg, hocc, hfree, rfl⟩ := h
  unfold relocate
  have hne : ¬ (ox = tx ∧ oy = ty) := by
    rintro ⟨h1, h2⟩
    apply hocc
    rw [h1, h2]
    exact hfree
  rw [tribeCounts_setCell _ (GridWF_setCell hg _ _ _) _ _ hox hoy,
    tribeCounts_setCell _ hg _ _ htx hty,
    getCell_setCell_ne _ _ _ _ _ _ _ (ne_cell_of_ne hne), hfree]
  have h0 : tribeInd none f = 0 := rfl
  rw [h0]
  ring

/-- Every occupant of the grid after a move is an occupant of the grid before. -/
theorem RelocStep_from {g g2 : List (List (Option Entity))} (h : RelocStep g g2) {x y : Nat}
    {e : Entity} (he : getCell g2 x y none = some e) :
    ∃ x0 y0, getCell g x0 y0 none = some e := by
  obtain ⟨ox, oy, tx, ty, hox, hoy, htx, hty, hg, _, _, rfl⟩ := h
  rw [relocate_cell hg hox hoy htx hty] at he
  split_ifs at he
  · exact ⟨ox, oy, he⟩
  · exact ⟨x, y, he⟩

/-- Every occupant of the grid before a move is an occupant of the grid after. -/
theorem RelocStep_to {g g2 : List (List (Option Entity))} (h : RelocStep g g2) {x y : Nat}
    {e : Entity} (he : getCell g x y none = some e) :
    ∃ x2 y2, getCell g2 x2 y2 none = some e := by
  obtain ⟨ox, oy, tx, ty, hox, hoy, htx, hty, hg, hocc, hfree, rfl⟩ := h
  have hne : ¬ (tx = ox ∧ ty = oy) := by
    rintro ⟨h1, h2⟩
    apply hocc
    rw [← h1, ← h2]
    exact hfree
  by_cases h1 : x = ox ∧ y = oy
  · refine ⟨tx, ty, ?_⟩
    rw [relocate_cell hg hox hoy htx hty, if_neg hne, if_pos ⟨rfl, rfl⟩, ← h1.1, ← h1.2]
    exact he
  · refine ⟨x, y, ?_⟩
    rw [relocate_cell hg hox hoy htx hty, if_neg h1, if_neg]
    · exact he
    · rintro ⟨h2, h3⟩
      rw [h2, h3, hfree] at he
      cases he

theorem applyWinner_none (w : World) (d : WarDraws) (st : Layers) (key : Nat × Nat)
    (h : (moversTo d.moves key).get? (d.pick key.1 key.2 % (moversTo d.moves key).length) = none) :
    applyWinner w d st key = st := by
  unfold applyWinner
  dsimp only []
  rw [h]

theorem applyWinner_some (w : World) (d : WarDraws) (st : Layers) (key : Nat × Nat)
    (winner : PotentialMove)
    (h : (moversTo d.moves key).get? (d.pick key.1 key.2 % (moversTo d.moves key).length)
      = some winner) :
    applyWinner w d st key
      = { ents := setCell (setCell st.ents winner.toX winner.toY
                    (getCell w.Entities winner.fromX winner.fromY none))
                  winner.fromX winner.fromY none
          reprod := setCell (setCell st.reprod winner.toX winner.toY
                      (getCell st.reprod winner.fromX winner.fromY 0))
                    winner.fromX winner.fromY 0 } := by
  unfold applyWinner
  dsimp only []
  rw [h]

/-- What the targets still to be visited see: the origins of their contenders hold
what they held at the start of the tick, and the targets are free. -/
theorem Pending_step (w : World) (d : WarDraws) (hv : MovesValid w d.moves) (k : Nat × Nat)
    (rest : List (Nat × Nat)) (hk : k ∉ rest) (st : Layers) (h : Pending w d (k :: rest) st) :
    Pending w d rest (applyWinner w d st k) := by
  intro key hkey m hm
  have hne : k ≠ key := fun e => hk (e ▸ hkey)
  obtain ⟨h1, h2⟩ := h key (List.mem_cons_of_mem _ hkey) m hm
  have hfO : cellOf (applyWinner w d st k) m.fromX m.fromY = cellOf st m.fromX m.fromY :=
    applyWinner_frame w d st k _ _ (fun pm hpm => (movers_disjoint hv hne hpm hm).2)
  have hfT : cellOf (applyWinner w d st k) key.1 key.2 = cellOf st key.1 key.2 :=
    applyWinner_frame w d st k _ _ (fun pm hpm => (movers_disjoint hv hne hpm hm).1)
  refine ⟨by rw [hfO, h1], ?_⟩
  rw [← cellOf_fst, hfT, cellOf_fst]
  exact h2

/-- The entity layer after the targets `keys` are visited is reached from the one
before by a chain of moves. -/
theorem resolve_reloc (w : World) (d : WarDraws) (hv : MovesValid w d.moves)
    (keys : List (Nat × Nat)) (hnd : keys.Nodup) (st : Layers) (hst : LayersWF st)
    (h : Pending w d keys st) :
    Relation.ReflTransGen RelocStep st.ents (keys.foldl (applyWinner w d) st).ents := by
  induction keys generalizing st with
  | nil => exact Relation.ReflTransGen.refl
  | cons k rest ih =>
    rw [List.foldl_cons]
    have hk := (List.nodup_cons.1 hnd).1
    have hrest := ih (List.nodup_cons.1 hnd).2 (applyWinner w d st k) (applyWinner_WF w d st k hst)
      (Pending_step w d hv k rest hk st h)
    refine Relation.ReflTransGen.trans ?_ hrest
    cases hw : (moversTo d.moves k).get? (d.pick k.1 k.2 % (moversTo d.moves k).length) with
    | none =>
      rw [applyWinner_none w d st k hw]
    | some winner =>
      rw [applyWinner_some w d st k winner hw]
      have hwm : winner ∈ moversTo d.moves k := List.get?_mem hw
      obtain ⟨hw1, hwx, hwy⟩ := mem_moversTo.1 hwm
      obtain ⟨hfx, hfy, htx, hty, hocc, _⟩ := hv.1 winner hw1
      obtain ⟨h1, h2⟩ := h k (List.mem_cons_self _ _) winner hwm
      have hO : getCell st.ents winner.fromX winner.fromY none
          = getCell w.Entities winner.fromX winner.fromY none := by
        rw [← cellOf_fst, h1]
      apply Relation.ReflTransGen.single
      refine ⟨winner.fromX, winner.fromY, winner.toX, winner.toY, hfx, hfy, htx, hty, hst.1,
        by rw [hO]; exact hocc, by rw [hwx, hwy]; exact h2, ?_⟩
      unfold relocate
      dsimp only []
      rw [hO]

theorem Pending_start (w : World) (d : WarDraws) (hv : MovesValid w d.moves)
    (keys : List (Nat × Nat)) :
    Pending w d keys { ents := w.Entities, reprod := w.lastReprodTime } := by
  intro key _ m hm
  obtain ⟨hm1, hmx, hmy⟩ := mem_moversTo.1 hm
  refine ⟨rfl, ?_⟩
  show getCell w.Entities key.1 key.2 none = none
  rw [← hmx, ← hmy]
  exact (hv.1 m hm1).2.2.2.2.2

/-- Move resolution is a chain of moves from the entity layer of the start of the
tick. -/
theorem resolveMoves_reloc (w : World) (d : WarDraws) (hwf : w.WF) (hv : MovesValid w d.moves)
    (hnd : d.keyOrder.Nodup) :
    Relation.ReflTransGen RelocStep w.Entities (resolveMoves w d).ents :=
  resolve_reloc w d hv d.keyOrder hnd { ents := w.Entities, reprod := w.lastReprodTime }
    ⟨hwf.1, hwf.2.2.1⟩ (Pending_start w d hv _)

theorem peaceMoved_reloc (w : World) (d : PeaceDraws) (hwf : w.WF) (hnd : d.keyOrder.Nodup) :
    Relation.ReflTransGen RelocStep w.Entities (peaceMoved w d).ents :=
  resolveMoves_reloc w (moveDraws w d) hwf (collectMoves_valid w d hwf) hnd

theorem reloc_counts {g g2 : List (List (Option Entity))}
    (h : Relation.ReflTransGen RelocStep g g2) (f : Nat) : tribeCounts g2 f = tribeCounts g f := by
  induction h with
  | refl => rfl
  | tail _ hstep ih => rw [RelocStep_counts hstep, ih]

theorem reloc_from {g g2 : List (List (Option Entity))}
    (h : Relation.ReflTransGen RelocStep g g2) {x y : Nat} {e : Entity}
    (he : getCell g2 x y none = some e) : ∃ x0 y0, getCell g x0 y0 none = some e := by
  induction h generalizing x y with
  | refl => exact ⟨x, y, he⟩
  | tail _ hstep ih =>
    obtain ⟨x1, y1, h1⟩ := RelocStep_from hstep he
    exact ih h1

theorem reloc_to {g g2 : List (List (Option Entity))}
    (h : Relation.ReflTransGen RelocStep g g2) {x y : Nat} {e : Entity}
    (he : getCell g x y none = some e) : ∃ x2 y2, getCell g2 x2 y2 none = some e := by
  induction h with
  | refl => exact ⟨x, y, he⟩
  | tail _ hstep ih =>
    obtain ⟨x1, y1, h1⟩ := ih
    exact RelocStep_to hstep h1

/-! ## Mining under the occupants, and the populations of a peaceful tick -/

theorem cellIndex_inj {x y cx cy : Nat} (hx : x < GridSize) (hcx : cx < GridSize)
    (hne : x ≠ cx ∨ y ≠ cy) : y * GridSize + x ≠ cy * GridSize + cx := by
  unfold GridSize at *
  omega

theorem cellIndex_lt {x y : Nat} (hx : x < GridSize) (hy : y < GridSize) :
    y * GridSize + x < GridSize * GridSize := by
  unfold GridSize at *
  omega

/-- The mining loop, seen from an occupied cell whose occupant is registered: a
forest or rock code is replaced by the home terrain of the occupant. -/
theorem mineLoop_cell (ents : List (List (Option Entity))) (tribes : List (Nat × TribeConfig))
    (now : Int) (cx cy : Nat) (hx : cx < GridSize) (hy : cy < GridSize) (e : Entity)
    (cfg : TribeConfig) (he : getCell ents cx cy none = some e)
    (hcfg : lookupTribe tribes e.Tribe = some cfg) (st : MineState)
    (hst : st.terrain.length = GridSize * GridSize ∧ GridWF st.cleared) :
    (forCells (mineBody ents tribes now) st).terrain.getD (cy * GridSize + cx) 0
      = if st.terrain.getD (cy * GridSize + cx) 0 = TerrainTrees ∨
          st.terrain.getD (cy * GridSize + cx) 0 = TerrainRocks then cfg.HomeTerrain
        else st.terrain.getD (cy * GridSize + cx) 0 := by
  unfold forCells
  rw [loopCells_local (mineBody ents tribes now)
    (fun s => s.terrain.getD (cy * GridSize + cx) 0)
    (fun t => if t = TerrainTrees ∨ t = TerrainRocks then cfg.HomeTerrain else t)
    (fun s => s.terrain.length = GridSize * GridSize ∧ GridWF s.cleared) cx cy
    (fun x y s hs => mineBody_WF ents tribes now x y s hs) ?_ ?_ GridSize st hst,
    if_pos ⟨hy, hx⟩]
  · intro x y s hxr hs hne
    dsimp only []
    unfold mineBody
    cases getCell ents x y none with
    | none => rfl
    | some ent =>
      dsimp only []
      by_cases hres : s.terrain.getD (y * GridSize + x) 0 = TerrainTrees ∨
          s.terrain.getD (y * GridSize + x) 0 = TerrainRocks
      · rw [if_pos hres]
        cases lookupTribe tribes ent.Tribe with
        | none => rfl
        | some c =>
          dsimp only []
          exact getD_set_ne _ _ _ _ _ (cellIndex_inj hxr hx hne)
      · rw [if_neg hres]
  · intro s hs
    dsimp only []
    unfold mineBody
    rw [he]
    dsimp only []
    by_cases hres : s.terrain.getD (cy * GridSize + cx) 0 = TerrainTrees ∨
        s.terrain.getD (cy * GridSize + cx) 0 = TerrainRocks
    · rw [if_pos hres, if_pos hres, hcfg]
      dsimp only []
      exact getD_set_self _ _ _ _ (by rw [hs.1]; exact cellIndex_lt hx hy)
    · rw [if_neg hres, if_neg hres]

/-- The regrowth loop leaves the terrain under an occupant alone. -/
theorem regrowLoop_cell (ents : List (List (Option Entity))) (tribes : List (Nat × TribeConfig))
    (now : Int) (cx cy : Nat) (hx : cx < GridSize) (hy : cy < GridSize) (e : Entity)
    (he : getCell ents cx cy none = some e) (st : MineState) :
    (forCells (regrowBody ents tribes now) st).terrain.getD (cy * GridSize + cx) 0
      = st.terrain.getD (cy * GridSize + cx) 0 := by
  unfold forCells
  rw [loopCells_local (regrowBody ents tribes now)
    (fun s => s.terrain.getD (cy * GridSize + cx) 0) (fun t => t) (fun _ => True) cx cy
    (fun _ _ _ _ => trivial) ?_ ?_ GridSize st trivial, if_pos ⟨hy, hx⟩]
  · intro x y s hxr _ hne
    dsimp only []
    unfold regrowBody
    split_ifs
    · dsimp only []
      exact getD_set_ne _ _ _ _ _ (cellIndex_inj hxr hx hne)
    all_goals rfl
  · intro s _
    dsimp only []
    unfold regrowBody
    rw [if_neg (by rw [he]; exact fun h => by cases h)]

/-- After `HandleMiningAndRegrowth`, the terrain under a registered occupant whose
home terrain is neither forest nor rock is neither forest nor rock. -/
theorem HandleMiningAndRegrowth_clears (w : World) (now : Int) (hwf : w.WF) (x y : Nat)
    (e : Entity) (cfg : TribeConfig) (he : getCell w.Entities x y none = some e)
    (hcfg : lookupTribe w.Tribes e.Tribe = some cfg)
    (hhome : cfg.HomeTerrain ≠ TerrainTrees ∧ cfg.HomeTerrain ≠ TerrainRocks) :
    (HandleMiningAndRegrowth w now).Terrain.getD (y * GridSize + x) 0 ≠ TerrainTrees ∧
    (HandleMiningAndRegrowth w now).Terrain.getD (y * GridSize + x) 0 ≠ TerrainRocks := by
  have hr := getCell_some_inRange hwf.1 he
  have hT : (HandleMiningAndRegrowth w now).Terrain = (regrown w now).terrain := rfl
  rw [hT]
  unfold regrown
  rw [regrowLoop_cell w.Entities w.Tribes now x y hr.1 hr.2 e he]
  unfold mined
  rw [mineLoop_cell w.Entities w.Tribes now x y hr.1 hr.2 e cfg he hcfg _ ⟨hwf.2.1, hwf.2.2.2⟩]
  dsimp only []
  split_ifs with h
  · exact hhome
  · exact ⟨fun h1 => h (Or.inl h1), fun h2 => h (Or.inr h2)⟩

/-- A faction with a population of at least 1 has an entity on the grid. -/
theorem tribeCounts_pos_inv {g : List (List (Option Entity))} {f : Nat}
    (h : 1 ≤ tribeCounts g f) : ∃ x y e, getCell g x y none = some e ∧ e.Tribe = f := by
  by_contra hno
  have hz : tribeCounts g f = 0 := by
    rw [tribeCounts_sum]
    apply Finset.sum_eq_zero
    intro y _
    apply Finset.sum_eq_zero
    intro x _
    unfold tribeInd
    cases hc : getCell g x y none with
    | none => rfl
    | some e =>
      dsimp only []
      rw [if_neg]
      intro ht
      exact hno ⟨x, y, e, hc, ht⟩
  omega

theorem Upgraded_some {a b : Option Entity} (h : Upgraded a b) {e2 : Entity} (hb : b = some e2) :
    ∃ e, a = some e ∧ upgradeOf e e2 := by
  rcases h with ⟨_, hb2⟩ | ⟨e, e3, ha, hb2, hu⟩
  · rw [hb] at hb2
    cases hb2
  · rw [hb] at hb2
    cases hb2
    exact ⟨e, ha, hu⟩

theorem Upgraded_none {a b : Option Entity} (h : Upgraded a b) (ha : a = none) : b = none := by
  rcases h with ⟨_, hb⟩ | ⟨e, e2, ha2, _, _⟩
  · exact hb
  · rw [ha] at ha2
    cases ha2

/-- An invariant of every occupant of the grid that the births keep: it holds after
the births when it holds of the grid before and of every child. -/
theorem births_all (w : World) (now : Int) (P : Entity → Prop) (l : List Spawn)
    (hl : ∀ s ∈ l, ∀ id ev, P (freshEntity s.tribe id ev)) (st : BirthState)
    (hst : ∀ x y e, getCell st.ents x y none = some e → P e) :
    ∀ x y e, getCell (l.foldl (spawnStep w now) st).ents x y none = some e → P e := by
  induction l generalizing st with
  | nil => exact hst
  | cons s rest ih =>
    rw [List.foldl_cons]
    apply ih (fun s2 h2 => hl s2 (List.mem_cons_of_mem _ h2))
    intro x y e he
    unfold spawnStep at he
    dsimp only [] at he
    rcases getCell_setCell_cases st.ents s.nx s.ny x y
      (some (freshEntity s.tribe (((st.counters s.tribe).getD 0 + 1) % 2 ^ 32)
        ((lookupTribe w.Tribes s.tribe).getD TribeConfig.zero).BaseEvasion)) none with h | h
    · rw [h] at he
      cases he
      exact hl s (List.mem_cons_self _ _) _ _
    · rw [h] at he
      exact hst x y e he

theorem births_all_from (w : World) (now : Int) (P : Entity → Prop) (l : List Spawn)
    (hl : ∀ s ∈ l, ∀ id ev, P (freshEntity s.tribe id ev)) (ents : List (List (Option Entity)))
    (reprod : List (List Int)) (counters : Nat → Option Nat)
    (hst : ∀ x y e, getCell ents x y none = some e → P e) :
    ∀ x y e, getCell (l.foldl (spawnStep w now)
      { ents := ents, reprod := reprod, counters := counters }).ents x y none = some e → P e :=
  births_all w now P l hl { ents := ents, reprod := reprod, counters := counters } hst

/-- The births leave alone every cell that no recorded birth targets. -/
theorem births_keep (w : World) (now : Int) (l : List Spawn) (x y : Nat)
    (hl : ∀ s ∈ l, s.nx ≠ x ∨ s.ny ≠ y) (st : BirthState) :
    getCell (l.foldl (spawnStep w now) st).ents x y none = getCell st.ents x y none ∧
    getCell (l.foldl (spawnStep w now) st).reprod x y 0 = getCell st.reprod x y 0 := by
  induction l generalizing st with
  | nil => exact ⟨rfl, rfl⟩
  | cons s rest ih =>
    rw [List.foldl_cons]
    have h1 := ih (fun s2 h2 => hl s2 (List.mem_cons_of_mem _ h2)) (spawnStep w now st s)
    have hne : x ≠ s.nx ∨ y ≠ s.ny := by
      rcases hl s (List.mem_cons_self _ _) with h | h
      · exact Or.inl (fun e => h e.symm)
      · exact Or.inr (fun e => h e.symm)
    refine ⟨h1.1.trans ?_, h1.2.trans ?_⟩
    · unfold spawnStep
      dsimp only []
      exact getCell_setCell_ne _ _ _ _ _ _ _ hne
    · unfold spawnStep
      dsimp only []
      exact getCell_setCell_ne _ _ _ _ _ _ _ hne

theorem births_keep_from (w : World) (now : Int) (l : List Spawn) (x y : Nat)
    (hl : ∀ s ∈ l, s.nx ≠ x ∨ s.ny ≠ y) (ents : List (List (Option Entity)))
    (reprod : List (List Int)) (counters : Nat → Option Nat) :
    getCell (l.foldl (spawnStep w now)
      { ents := ents, reprod := reprod, counters := counters }).ents x y none
      = getCell ents x y none ∧
    getCell (l.foldl (spawnStep w now)
      { ents := ents, reprod := reprod, counters := counters }).reprod x y 0
      = getCell reprod x y 0 :=
  births_keep w now l x y hl { ents := ents, reprod := reprod, counters := counters }

/-- A cell occupied after the movement phase is not the target of a recorded
birth. -/
theorem spawns_miss (w : World) (d : PeaceDraws) (hwf : w.WF) {x y : Nat}
    (hocc : getCell (peaceMoved w d).ents x y none ≠ none) :
    ∀ s ∈ (peaceReprod w d).spawns, s.nx ≠ x ∨ s.ny ≠ y := by
  intro s hs
  have hfree := ((peaceReprod_inv w d hwf).2.2.2.2 s hs).1
  by_contra hn
  have h1 : s.nx = x := by_contra (fun h => hn (Or.inl h))
  have h2 : s.ny = y := by_contra (fun h => hn (Or.inr h))
  rw [h1, h2] at hfree
  exact hocc hfree

/-- An occupant of the crafted grid is still in its cell after the births. -/
theorem peaceBorn_keeps (w : World) (d : PeaceDraws) (hwf : w.WF) {x y : Nat}
    (hocc : getCell (peaceMoved w d).ents x y none ≠ none) :
    getCell (peaceBorn w d).ents x y none = getCell (peaceCrafted w d).ents x y none ∧
    getCell (peaceBorn w d).reprod x y 0 = getCell (peaceReprod w d).reprod x y 0 :=
  births_keep_from w d.reprodNow (peaceReprod w d).spawns x y (spawns_miss w d hwf hocc)
    (peaceCrafted w d).ents (peaceReprod w d).reprod w.nextEntityID

/-- No population falls in a peaceful tick. -/
theorem peaceBorn_counts_ge (w : World) (d : PeaceDraws) (hwf : w.WF) (hnd : d.keyOrder.Nodup)
    (f : Nat) : tribeCounts w.Entities f ≤ tribeCounts (peaceBorn w d).ents f := by
  rw [← reloc_counts (peaceMoved_reloc w d hwf hnd) f, ← peaceCrafted_counts w d f]
  apply tribeCounts_le_of
  intro x y _ _
  by_cases hocc : getCell (peaceMoved w d).ents x y none = none
  · rw [Upgraded_none (peaceCrafted_upgraded w d x y) hocc]
    exact (tribeInd_range _ f).1
  · rw [(peaceBorn_keeps w d hwf hocc).1]

/-- Every entity of the grid at the end of the births belongs to the faction of an
entity of the start of the tick. -/
theorem peaceBorn_tribe (w : World) (d : PeaceDraws) (hwf : w.WF) (x y : Nat) (e : Entity)
    (he : getCell (peaceBorn w d).ents x y none = some e) :
    ∃ x0 y0 e0, getCell w.Entities x0 y0 none = some e0 ∧ e0.Tribe = e.Tribe := by
  have hmoved : ∀ x y e, getCell (peaceMoved w d).ents x y none = some e →
      ∃ x0 y0 e0, getCell w.Entities x0 y0 none = some e0 ∧ e0.Tribe = e.Tribe := by
    intro x y e h
    obtain ⟨x0, y0, h0⟩ := resolveMoves_from_start w (moveDraws w d) x y e h
    exact ⟨x0, y0, e, h0, rfl⟩
  refine births_all_from w d.reprodNow
    (fun e => ∃ x0 y0 e0, getCell w.Entities x0 y0 none = some e0 ∧ e0.Tribe = e.Tribe)
    (peaceReprod w d).spawns ?_ (peaceCrafted w d).ents (peaceReprod w d).reprod w.nextEntityID
    ?_ x y e he
  · intro s hs id ev
    obtain ⟨x1, y1, e1, h1, ht⟩ := tribeCounts_pos_inv ((peaceReprod_inv w d hwf).2.2.2.2 s hs).2.2.2
    obtain ⟨x0, y0, e0, h0, ht0⟩ := hmoved x1 y1 e1 h1
    exact ⟨x0, y0, e0, h0, ht0.trans ht⟩
  · intro x y e h
    obtain ⟨e1, h1, hu⟩ := Upgraded_some (peaceCrafted_upgraded w d x y) h
    obtain ⟨x0, y0, e0, h0, ht0⟩ := hmoved x y e1 h1
    exact ⟨x0, y0, e0, h0, ht0.trans hu.1.symm⟩

/-- C27: take a peaceful tick started in a well-formed world in which every entity
belongs to a registered faction and no registered faction has forest (6) or rock
(7) as its home terrain, with the targets of move resolution visited once each.
At the end of the tick no occupied cell has terrain 6 or 7, and no faction has
fewer entities than at the start of the tick. -/
theorem peaceful_tick_settles (w : World) (d : PeaceDraws) (hwf : w.WF)
    (hnd : d.keyOrder.Nodup) (hreg : AllRegistered w) (hhome : NoWildHome w) :
    (∀ x y, getCell (PreWarUpdate w d).Entities x y none ≠ none →
      (PreWarUpdate w d).Terrain.getD (y * GridSize + x) 0 ≠ TerrainTrees ∧
      (PreWarUpdate w d).Terrain.getD (y * GridSize + x) 0 ≠ TerrainRocks) ∧
    (∀ f, tribeCounts w.Entities f ≤ tribeCounts (PreWarUpdate w d).Entities f) := by
  refine ⟨fun x y hocc => ?_, fun f => ?_⟩
  · rw [PreWarUpdate_entities] at hocc
    cases he : getCell (peaceBorn w d).ents x y none with
    | none => exact absurd he hocc
    | some e =>
      obtain ⟨x0, y0, e0, h0, ht⟩ := peaceBorn_tribe w d hwf x y e he
      have hsome := hreg x0 y0 e0 h0
      rw [ht] at hsome
      obtain ⟨cfg, hcfg⟩ := Option.isSome_iff_exists.1 hsome
      unfold PreWarUpdate
      exact HandleMiningAndRegrowth_clears _ d.mineNow (installPeace_WF w d hwf) x y e cfg he hcfg
        (hhome _ (lookupTribe_mem hcfg))
  · rw [PreWarUpdate_entities]
    exact peaceBorn_counts_ge w d hwf hnd f

theorem duelPeace_registered : AllRegistered duelPeace := by
  intro x y e he
  have h := duel_ents x y
  rw [duelWorld, (StartWar_layers duelPeace).1, he] at h
  split_ifs at h
  · cases h
    rfl
  · cases h
    rfl

theorem duelPeace_homes : NoWildHome duelPeace := by
  intro p hp
  have hT : duelPeace.Tribes = [(1, customNorsca 1), (2, customWanderers 2)] := rfl
  rw [hT] at hp
  simp only [List.mem_cons, List.mem_singleton, List.not_mem_nil, or_false] at hp
  rcases hp with rfl | rfl <;> exact ⟨by decide, by decide⟩

/-! ## The health invariant -/

theorem HealthyGrid_setCell {g : List (List (Option Entity))} (hg : HealthyGrid g) (x y : Nat)
    (v : Option Entity) (hv : ∀ e, v = some e → 1 ≤ e.Health ∧ e.Health ≤ 100) :
    HealthyGrid (setCell g x y v) := by
  intro x2 y2 e he
  rcases getCell_setCell_cases g x y x2 y2 v none with h | h
  · rw [h] at he
    exact hv e he
  · rw [h] at he
    exact hg x2 y2 e he

theorem fresh_healthy (tribe id : Nat) (ev : ℚ) (e : Entity)
    (h : some (freshEntity tribe id ev) = some e) : 1 ≤ e.Health ∧ e.Health ≤ 100 := by
  cases h
  show (1 : Int) ≤ 100 ∧ (100 : Int) ≤ 100
  exact ⟨by decide, le_refl _⟩

theorem none_healthy (e : Entity) (h : (none : Option Entity) = some e) :
    1 ≤ e.Health ∧ e.Health ≤ 100 := by
  cases h

theorem tryStarter_healthy (w : World) (tribe : Nat) (cfg : TribeConfig)
    (cells : List (Nat × Nat)) (h : HealthOK w) : HealthOK (tryStarter w tribe cfg cells) := by
  unfold tryStarter
  cases (cells.take 1000).find? (starterFits w cfg) with
  | none => exact h
  | some c => exact HealthyGrid_setCell h _ _ _ (fresh_healthy _ _ _)

theorem placeStarters_healthy (w : World) (attempts : Nat → Nat → List (Nat × Nat))
    (h : HealthOK w) : HealthOK (placeStarters w attempts) := by
  unfold placeStarters
  apply foldl_inv (tribeStarters attempts) HealthOK _ _ _ h
  intro s p hs
  unfold tribeStarters
  exact foldl_inv (fun acc i => tryStarter acc p.1 p.2 (attempts p.1 i)) HealthOK
    (fun s2 i hs2 => tryStarter_healthy s2 p.1 p.2 (attempts p.1 i) hs2) _ _ hs

theorem InitCustomMap_healthy (w : World) (terrain : List Nat)
    (assignments : List (String × String)) (attempts : Nat → Nat → List (Nat × Nat))
    (h : HealthOK w) : HealthOK (InitCustomMap w terrain assignments attempts).1 := by
  unfold InitCustomMap
  split_ifs
  · exact h
  · exact h
  · exact placeStarters_healthy _ attempts h

theorem PlaceEntity_healthy (w : World) (x y : Int) (typ : Nat) (h : HealthOK w) :
    HealthOK (PlaceEntity w x y typ).1 := by
  unfold PlaceEntity
  dsimp only []
  repeat' split
  all_goals first
    | exact h
    | exact HealthyGrid_setCell h _ _ _ none_healthy
    | exact HealthyGrid_setCell h _ _ _ (fresh_healthy _ _ _)

/-- The damage loop leaves a survivor with a health of at least 1, below the one it
had. -/
theorem damageCell_health {w : World} {incoming : Int} {c : Option Entity × Int} {e2 : Entity}
    (h : (damageCell w incoming c).1 = some e2) :
    ∃ e, c.1 = some e ∧ 1 ≤ e2.Health ∧ e2.Health < e.Health := by
  unfold damageCell at h
  cases hc : c.1 with
  | none =>
    rw [hc] at h
    dsimp only [] at h
    rw [hc] at h
    cases h
  | some e =>
    rw [hc] at h
    dsimp only [] at h
    have hd : 1 ≤ effectiveDmg incoming (TotalArmor e w) := by
      unfold effectiveDmg
      split_ifs <;> omega
    split at h
    · cases h
    · cases h
      refine ⟨e, rfl, ?_, ?_⟩
      · show 1 ≤ e.Health - effectiveDmg incoming (TotalArmor e w)
        omega
      · show e.Health - effectiveDmg incoming (TotalArmor e w) < e.Health
        omega

/-- The attrition and regeneration loop leaves a survivor with a health of at least
1 when it had one, and of at most 100 unless it is at most the health it had. -/
theorem attritionCell_health {t : Nat} {c : Option Entity × Int} {e2 : Entity}
    (h : (attritionCell t c).1 = some e2) :
    ∃ e, c.1 = some e ∧ (1 ≤ e.Health → 1 ≤ e2.Health) ∧
      (e2.Health ≤ 100 ∨ e2.Health ≤ e.Health) := by
  unfold attritionCell at h
  cases hc : c.1 with
  | none =>
    rw [hc] at h
    dsimp only [] at h
    rw [hc] at h
    cases h
  | some e =>
    rw [hc] at h
    dsimp only [] at h
    refine ⟨e, rfl, ?_⟩
    split_ifs at h
    all_goals first
      | (cases h
         done)
      | (cases h
         dsimp only []
         omega)
      | (rw [hc] at h
         cases h
         exact ⟨fun h0 => h0, Or.inr (le_refl _)⟩)

/-- Every entity at the end of a conflict-phase tick that is not frozen was on the
grid at its start; its health is at least 1, and at most 100 unless it is below
the health it had. -/
theorem updateConflict_health (w : World) (d : WarDraws) (hwf : w.WF)
    (hgo : w.gameOver = false) (x y : Nat) (e2 : Entity)
    (h : getCell (UpdateConflict w d).Entities x y none = some e2) :
    ∃ x0 y0 e, getCell w.Entities x0 y0 none = some e ∧ 1 ≤ e2.Health ∧
      (e2.Health ≤ 100 ∨ e2.Health < e.Health) := by
  have hr := getCell_some_inRange (UpdateConflict_WF w d hwf).1 h
  rw [updateConflict_cell w d hwf hgo x y hr.1 hr.2] at h
  obtain ⟨e1, h1, k1, k2⟩ := attritionCell_health h
  obtain ⟨e0, h0, k3, k4⟩ := damageCell_health h1
  rw [cellOf_fst] at h0
  obtain ⟨x0, y0, hstart⟩ := resolveMoves_from_start w d x y e0 h0
  exact ⟨x0, y0, e0, hstart, k1 k3, by omega⟩

theorem UpdateConflict_healthy (w : World) (d : WarDraws) (hwf : w.WF) (h : HealthOK w) :
    HealthOK (UpdateConflict w d) := by
  cases hgo : w.gameOver with
  | true =>
    rw [updateConflict_frozen w d hgo]
    exact h
  | false =>
    intro x y e2 he
    obtain ⟨x0, y0, e, h0, k1, k2⟩ := updateConflict_health w d hwf hgo x y e2 he
    have := h x0 y0 e h0
    exact ⟨k1, by omega⟩

theorem PreWarUpdate_healthy (w : World) (d : PeaceDraws) (h : HealthOK w) :
    HealthOK (PreWarUpdate w d) := by
  unfold HealthOK
  rw [PreWarUpdate_entities]
  refine births_all_from w d.reprodNow (fun e => 1 ≤ e.Health ∧ e.Health ≤ 100)
    (peaceReprod w d).spawns (fun s _ id ev => fresh_healthy s.tribe id ev _ rfl)
    (peaceCrafted w d).ents (peaceReprod w d).reprod w.nextEntityID ?_
  intro x y e he
  obtain ⟨e1, h1, hu⟩ := Upgraded_some (peaceCrafted_upgraded w d x y) he
  obtain ⟨x0, y0, h0⟩ := resolveMoves_from_start w (moveDraws w d) x y e1 h1
  have := h x0 y0 e1 h0
  rw [hu.2.2.1]
  exact this

theorem Update_healthy (w : World) (wd : WarDraws) (pd : PeaceDraws) (hwf : w.WF)
    (h : HealthOK w) : HealthOK (Update w wd pd) := by
  unfold Update
  split_ifs
  · exact UpdateConflict_healthy w wd hwf h
  · exact PreWarUpdate_healthy w pd h

theorem OpStep_healthy {w w2 : World} (hs : OpStep w w2) (hwf : w.WF) (h : HealthOK w) :
    HealthOK w2 := by
  cases hs
  case initMap terrain tribes attempts hlen => exact placeStarters_healthy _ attempts h
  case initCustomMap terrain assignments attempts =>
    exact InitCustomMap_healthy w terrain assignments attempts h
  case placeEntity x y typ => exact PlaceEntity_healthy w x y typ h
  case convertBorders order =>
    unfold HealthOK
    rw [(ConvertBordersToTerrain_fields w order).2.1]
    exact h
  case startWar => exact h
  case update wd pd _ => exact Update_healthy w wd pd hwf h

/-- The grid left by `Reset` is empty. -/
theorem Reset_empty (w : World) (hwf : w.WF) (x y : Nat) :
    getCell (Reset w).Entities x y none = none := by
  cases hc : getCell (Reset w).Entities x y none with
  | none => rfl
  | some e =>
    exfalso
    have hr := getCell_some_inRange (Reset_WF w hwf).1 hc
    unfold Reset at hc
    rw [(resetWith_fields w _).1,
      (resetLoop_cell _ ⟨hwf.1, hwf.2.2.1, hwf.2.2.2⟩ x y hr.1 hr.2).1] at hc
    cases hc

theorem Reachable_healthy {w : World} (h : Reachable w) : HealthOK w := by
  induction h with
  | new =>
    intro x y e he
    rw [New_entities] at he
    cases he
  | op w w2 hr hstep ih => exact OpStep_healthy hstep (Reachable_WF hr) ih
  | reset w hr _ =>
    intro x y e he
    rw [Reset_empty w (Reachable_WF hr)] at he
    cases he

theorem outpost_reachable : Reachable outpost :=
  Reachable.op _ _
    (Reachable.op _ _
      (Reachable.op _ _
        (Reachable.op _ _ Reachable.new
          (OpStep.initMap New (List.replicate (GridSize * GridSize) 0) verticalTribes
            (fun _ _ => []) (List.length_replicate _ _)))
        (OpStep.placeEntity _ 5 5 1))
      (OpStep.placeEntity _ 5 5 3))
    (OpStep.startWar _)

/-- C25: in every state reachable from `New()` through the public operations, every
entity of the entity layer has a health between 1 and 100; and a conflict-phase
tick of such a state that is not frozen, whatever its draws, leaves no entity with
a health of 0 or less and none with a health above 100: every survivor is an
entity of the start of the tick, equipment and identifier unchanged, and has a
health of at least 1 and at most 100. -/
theorem health_invariant (w : World) (h : Reachable w) :
    HealthOK w ∧
    ∀ d : WarDraws, w.gameOver = false → ∀ x y e2,
      getCell (UpdateConflict w d).Entities x y none = some e2 →
      (∃ x0 y0 e, getCell w.Entities x0 y0 none = some e ∧ sameKit e e2) ∧
      1 ≤ e2.Health ∧ e2.Health ≤ 100 := by
  refine ⟨Reachable_healthy h, fun d hgo x y e2 he => ?_⟩
  have hwf := Reachable_WF h
  have hr := getCell_some_inRange (UpdateConflict_WF w d hwf).1 he
  refine ⟨updateConflict_survivor w d hwf x y hr.1 hr.2 e2 he, ?_⟩
  exact UpdateConflict_healthy w d hwf (Reachable_healthy h) x y e2 he

theorem health_invariant_witness :
    Reachable outpost ∧ HealthOK outpost ∧
    ∀ d : WarDraws, outpost.gameOver = false → ∀ x y e2,
      getCell (UpdateConflict outpost d).Entities x y none = some e2 →
      (∃ x0 y0 e, getCell outpost.Entities x0 y0 none = some e ∧ sameKit e e2) ∧
      1 ≤ e2.Health ∧ e2.Health ≤ 100 :=
  ⟨outpost_reachable, health_invariant outpost outpost_reachable⟩

/-! ## Identifiers -/

theorem pow32 : (2 : Nat) ^ 32 = 4294967296 := by norm_num

theorem counterAt_issued (c : Nat → Option Nat) (f k : Nat) :
    counterAt (issued c f) k
      = if k = f then (counterAt c f + 1) % 2 ^ 32 else counterAt c k := by
  unfold issued counterAt setKey
  split_ifs <;> rfl

/-- A read of a written grid: the cell written holds the value written, every
other cell what it held. -/
theorem getCell_setCell_some {g : List (List (Option Entity))} {x y a b : Nat}
    {v : Option Entity} {e : Entity} (h : getCell (setCell g x y v) a b none = some e) :
    (a = x ∧ b = y ∧ v = some e) ∨ ((a ≠ x ∨ b ≠ y) ∧ getCell g a b none = some e) := by
  by_cases hc : a = x ∧ b = y
  · left
    refine ⟨hc.1, hc.2, ?_⟩
    rw [hc.1, hc.2] at h
    by_cases hl : y < g.length
    · by_cases hr : x < (g.getD y []).length
      · rw [getCell_setCell_self g x y v none hl hr] at h
        exact h
      · exfalso
        unfold getCell setCell at h
        rw [getD_set_self _ _ _ _ hl, List.set_eq_of_length_le (Nat.le_of_not_lt hr)] at h
        rw [List.getD_eq_getElem?_getD, List.getElem?_eq_none (Nat.le_of_not_lt hr)] at h
        cases h
    · exfalso
      unfold getCell setCell at h
      rw [List.set_eq_of_length_le (Nat.le_of_not_lt hl)] at h
      rw [List.getD_eq_getElem?_getD (l := g), List.getElem?_eq_none (Nat.le_of_not_lt hl)] at h
      cases h
  · right
    have hne := ne_cell_of_ne hc
    rw [getCell_setCell_ne _ _ _ _ _ _ _ hne] at h
    exact ⟨hne, h⟩

theorem Descends_refl (g : List (List (Option Entity))) : Descends g g :=
  ⟨fun x y => (x, y), fun _ _ e2 h => ⟨e2, h, rfl, rfl⟩,
    fun _ _ _ _ _ _ h => ⟨congrArg Prod.fst h, congrArg Prod.snd h⟩⟩

theorem Descends_trans {g g2 g3 : List (List (Option Entity))} (h1 : Descends g g2)
    (h2 : Descends g2 g3) : Descends g g3 := by
  obtain ⟨s1, a1, b1⟩ := h1
  obtain ⟨s2, a2, b2⟩ := h2
  refine ⟨fun x y => s1 (s2 x y).1 (s2 x y).2, ?_, ?_⟩
  · intro x y e3 h
    obtain ⟨e2, h2, t2, i2⟩ := a2 x y e3 h
    obtain ⟨e, h1, t1, i1⟩ := a1 _ _ e2 h2
    exact ⟨e, h1, t2.trans t1, i2.trans i1⟩
  · intro x y x2 y2 hx hx2 heq
    have occ : ∀ x y, getCell g3 x y none ≠ none →
        getCell g2 (s2 x y).1 (s2 x y).2 none ≠ none := by
      intro x y hne
      cases h3 : getCell g3 x y none with
      | none => exact absurd h3 hne
      | some e3 =>
        obtain ⟨e2, h2, _, _⟩ := a2 x y e3 h3
        rw [h2]
        exact fun h => by cases h
    have := b1 _ _ _ _ (occ x y hx) (occ x2 y2 hx2) heq
    exact b2 x y x2 y2 hx hx2 (Prod.ext this.1 this.2)

/-- A grid whose cells each hold what the same cell of `g` held, up to health and
equipment, or nothing. -/
theorem Descends_cellwise {g g2 : List (List (Option Entity))}
    (h : ∀ x y e2, getCell g2 x y none = some e2 →
      ∃ e, getCell g x y none = some e ∧ e2.Tribe = e.Tribe ∧ e2.ID = e.ID) :
    Descends g g2 :=
  ⟨fun x y => (x, y), h, fun _ _ _ _ _ _ heq => ⟨congrArg Prod.fst heq, congrArg Prod.snd heq⟩⟩

theorem Descends_clear (g : List (List (Option Entity))) (x y : Nat) :
    Descends g (setCell g x y none) := by
  apply Descends_cellwise
  intro a b e2 h
  rcases getCell_setCell_some h with ⟨_, _, hv⟩ | ⟨_, hold⟩
  · cases hv
  · exact ⟨e2, hold, rfl, rfl⟩

theorem RelocStep_descends {g g2 : List (List (Option Entity))} (h : RelocStep g g2) :
    Descends g g2 := by
  obtain ⟨ox, oy, tx, ty, hox, hoy, htx, hty, hg, hocc, hfree, rfl⟩ := h
  refine ⟨fun x y => if x = tx ∧ y = ty then (ox, oy) else (x, y), ?_, ?_⟩
  · intro x y e2 he
    rw [relocate_cell hg hox hoy htx hty] at he
    dsimp only []
    split_ifs at he with h1 h2
    · rw [if_pos h2]
      exact ⟨e2, he, rfl, rfl⟩
    · rw [if_neg h2]
      exact ⟨e2, he, rfl, rfl⟩
  · intro x y x2 y2 hx hx2 heq
    have notO : ∀ a b, getCell (relocate g ox oy tx ty) a b none ≠ none → ¬ (a = ox ∧ b = oy) := by
      intro a b hne hab
      apply hne
      rw [relocate_cell hg hox hoy htx hty, if_pos hab]
    have h1 := notO x y hx
    have h2 := notO x2 y2 hx2
    dsimp only [] at heq
    by_cases hT : x = tx ∧ y = ty
    · by_cases hT2 : x2 = tx ∧ y2 = ty
      · exact ⟨hT.1.trans hT2.1.symm, hT.2.trans hT2.2.symm⟩
      · rw [if_pos hT, if_neg hT2] at heq
        exact absurd ⟨(congrArg Prod.fst heq).symm, (congrArg Prod.snd heq).symm⟩ h2
    · by_cases hT2 : x2 = tx ∧ y2 = ty
      · rw [if_neg hT, if_pos hT2] at heq
        exact absurd ⟨congrArg Prod.fst heq, congrArg Prod.snd heq⟩ h1
      · rw [if_neg hT, if_neg hT2] at heq
        exact ⟨congrArg Prod.fst heq, congrArg Prod.snd heq⟩

theorem reloc_descends {g g2 : List (List (Option Entity))}
    (h : Relation.ReflTransGen RelocStep g g2) : Descends g g2 := by
  induction h with
  | refl => exact Descends_refl _
  | tail _ hstep ih => exact Descends_trans ih (RelocStep_descends hstep)

theorem IdsOK_descends {f : Nat} {g g2 : List (List (Option Entity))} {c : Nat → Option Nat}
    (h : IdsOK f g c) (hd : Descends g g2) : IdsOK f g2 c := by
  obtain ⟨src, a, b⟩ := hd
  refine ⟨?_, ?_⟩
  · intro x y e2 he ht
    obtain ⟨e, h1, t, i⟩ := a x y e2 he
    rw [i]
    exact h.1 _ _ e h1 (t.symm.trans ht)
  · intro x y x2 y2 e e2 he he2 ht ht2 hi
    obtain ⟨s, h1, t1, i1⟩ := a x y e he
    obtain ⟨s2, h2, t2, i2⟩ := a x2 y2 e2 he2
    have := h.2 _ _ _ _ s s2 h1 h2 (t1.symm.trans ht) (t2.symm.trans ht2)
      (by rw [← i1, ← i2, hi])
    exact b x y x2 y2 (by rw [he]; exact fun h => by cases h)
      (by rw [he2]; exact fun h => by cases h) (Prod.ext this.1 this.2)

/-- The counters at the end of a chain: each has advanced, modulo 2^32, by the number
of entities created for its faction. -/
theorem IdChain_counter {n : Nat → Nat} {g g2 : List (List (Option Entity))}
    {c c2 : Nat → Option Nat} (h : IdChain n g c g2 c2) (f : Nat)
    (hc : counterAt c f < 2 ^ 32) : counterAt c2 f = (counterAt c f + n f) % 2 ^ 32 := by
  induction h with
  | refl n g c hn =>
    rw [hn f, Nat.add_zero, Nat.mod_eq_of_lt hc]
  | descend n g c g2 c2 g3 _ _ ih => exact ih hc
  | birth n n2 g c g2 c2 x y f2 ev _ hn ih =>
    rw [counterAt_issued, hn f]
    have := ih hc
    rw [pow32] at *
    split_ifs with hf
    · subst hf
      omega
    · exact this

/-- Along a chain in which the counter of faction `f` does not wrap, the identifier
invariant of `f` is kept, the counter advances by the number of entities created
for `f`, and every occupant of the grid reached that belongs to `f` either has the
identifier of an occupant of the first grid that belongs to `f`, or carries an
identifier issued on the way. -/
theorem IdChain_ok {f : Nat} {n : Nat → Nat} {g g2 : List (List (Option Entity))}
    {c c2 : Nat → Option Nat} (h : IdChain n g c g2 c2) (hok : IdsOK f g c)
    (hb : counterAt c f + n f < 2 ^ 32) :
    IdsOK f g2 c2 ∧ counterAt c2 f = counterAt c f + n f ∧
    ∀ x y e2, getCell g2 x y none = some e2 → e2.Tribe = f →
      (∃ x0 y0 e, getCell g x0 y0 none = some e ∧ e.Tribe = f ∧ e.ID = e2.ID) ∨
      (counterAt c f < e2.ID ∧ e2.ID ≤ counterAt c2 f) := by
  induction h with
  | refl n g c hn =>
    refine ⟨hok, by rw [hn f, Nat.add_zero], fun x y e2 he ht => ?_⟩
    exact Or.inl ⟨x, y, e2, he, ht, rfl⟩
  | descend n g c g2 c2 g3 _ hd ih =>
    obtain ⟨i1, i2, i3⟩ := ih hok hb
    refine ⟨IdsOK_descends i1 hd, i2, fun x y e3 he ht => ?_⟩
    obtain ⟨src, a, _⟩ := hd
    obtain ⟨e2, h2, t, i⟩ := a x y e3 he
    rcases i3 _ _ e2 h2 (t.symm.trans ht) with ⟨x0, y0, e, h0, t0, i0⟩ | hnew
    · exact Or.inl ⟨x0, y0, e, h0, t0, i0.trans i.symm⟩
    · right
      rw [i]
      exact hnew
  | birth n n2 g c g2 c2 x y f2 ev _ hn ih =>
    have hb1 : counterAt c f + n f < 2 ^ 32 := by
      have := hb
      rw [hn f] at this
      split_ifs at this <;> omega
    obtain ⟨i1, i2, i3⟩ := ih hok hb1
    by_cases hf : f2 = f
    · subst hf
      have hf2 := hb
      rw [hn f2, if_pos rfl] at hf2
      have hid : (counterAt c2 f2 + 1) % 2 ^ 32 = counterAt c2 f2 + 1 := by
        apply Nat.mod_eq_of_lt
        rw [i2]
        omega
      have hself : counterAt (issued c2 f2) f2 = counterAt c2 f2 + 1 := by
        rw [counterAt_issued, if_pos rfl, hid]
      have hfresh : ∀ e, some (freshEntity f2 ((counterAt c2 f2 + 1) % 2 ^ 32) ev) = some e →
          e.ID = counterAt c2 f2 + 1 := by
        intro e he
        cases he
        exact hid
      refine ⟨⟨?_, ?_⟩, ?_, ?_⟩
      · intro a b e he ht
        unfold born at he
        rcases getCell_setCell_some he with ⟨_, _, hv⟩ | ⟨_, hold⟩
        · rw [hfresh e hv, hself]
          omega
        · have := i1.1 a b e hold ht
          omega
      · intro a b a2 b2 e e2 he he2 ht ht2 hi
        unfold born at he he2
        rcases getCell_setCell_some he with ⟨ha, hb2, hv⟩ | ⟨_, hold⟩
        · rcases getCell_setCell_some he2 with ⟨ha2, hb3, _⟩ | ⟨_, hold2⟩
          · exact ⟨ha.trans ha2.symm, hb2.trans hb3.symm⟩
          · exfalso
            have := (i1.1 a2 b2 e2 hold2 ht2).2
            rw [← hi, hfresh e hv] at this
            omega
        · rcases getCell_setCell_some he2 with ⟨_, _, hv2⟩ | ⟨_, hold2⟩
          · exfalso
            have := (i1.1 a b e hold ht).2
            rw [hi, hfresh e2 hv2] at this
            omega
          · exact i1.2 a b a2 b2 e e2 hold hold2 ht ht2 hi
      · rw [hself, i2, hn f2, if_pos rfl]
        ring
      · intro a b e he ht
        unfold born at he
        rcases getCell_setCell_some he with ⟨_, _, hv⟩ | ⟨_, hold⟩
        · right
          rw [hfresh e hv, hself, i2]
          omega
        · rcases i3 a b e hold ht with hcar | hnew
          · exact Or.inl hcar
          · right
            rw [hself]
            omega
    · have hsame : counterAt (issued c2 f2) f = counterAt c2 f := by
        rw [counterAt_issued, if_neg (fun e => hf e.symm)]
      have hother : ∀ e, some (freshEntity f2 ((counterAt c2 f2 + 1) % 2 ^ 32) ev) = some e →
          e.Tribe = f → False := by
        intro e he ht
        cases he
        exact hf ht
      refine ⟨⟨?_, ?_⟩, ?_, ?_⟩
      · intro a b e he ht
        unfold born at he
        rcases getCell_setCell_some he with ⟨_, _, hv⟩ | ⟨_, hold⟩
        · exact absurd ht (fun h => hother e hv h)
        · rw [hsame]
          exact i1.1 a b e hold ht
      · intro a b a2 b2 e e2 he he2 ht ht2 hi
        unfold born at he he2
        rcases getCell_setCell_some he with ⟨_, _, hv⟩ | ⟨_, hold⟩
        · exact absurd ht (fun h => hother e hv h)
        · rcases getCell_setCell_some he2 with ⟨_, _, hv2⟩ | ⟨_, hold2⟩
          · exact absurd ht2 (fun h => hother e2 hv2 h)
          · exact i1.2 a b a2 b2 e e2 hold hold2 ht ht2 hi
      · rw [hsame, i2, hn f, if_neg (fun e => hf e.symm)]
      · intro a b e he ht
        unfold born at he
        rcases getCell_setCell_some he with ⟨_, _, hv⟩ | ⟨_, hold⟩
        · exact absurd ht (fun h => hother e hv h)
        · rw [hsame]
          exact i3 a b e hold ht

theorem IdChain_trans {n m : Nat → Nat} {g g2 g3 : List (List (Option Entity))}
    {c c2 c3 : Nat → Option Nat} (h1 : IdChain n g c g2 c2) (h2 : IdChain m g2 c2 g3 c3) :
    IdChain (fun k => n k + m k) g c g3 c3 := by
  induction h2 with
  | refl m g2 c2 hm =>
    have : (fun k => n k + m k) = n := by
      funext k
      rw [hm k, Nat.add_zero]
    rw [this]
    exact h1
  | descend m g2 c2 g3 c3 g4 _ hd ih => exact IdChain.descend _ _ _ _ _ _ (ih h1) hd
  | birth m m2 g2 c2 g3 c3 x y f ev _ hm ih =>
    refine IdChain.birth _ _ _ _ _ _ x y f ev (ih h1) ?_
    intro k
    dsimp only []
    rw [hm k]
    split_ifs <;> omega

theorem IdChain_congr {n n2 : Nat → Nat} {g g2 : List (List (Option Entity))}
    {c c2 : Nat → Option Nat} (h : IdChain n g c g2 c2) (hn : ∀ k, n2 k = n k) :
    IdChain n2 g c g2 c2 := by
  have : n2 = n := funext hn
  rw [this]
  exact h

theorem IdChain_start (g : List (List (Option Entity))) (c : Nat → Option Nat) :
    IdChain (fun _ => 0) g c g c :=
  IdChain.refl _ g c (fun _ => rfl)

theorem IdChain_descends {g g2 : List (List (Option Entity))} (c : Nat → Option Nat)
    (h : Descends g g2) : IdChain (fun _ => 0) g c g2 c :=
  IdChain.descend _ _ _ _ _ _ (IdChain_start g c) h

theorem IdChain_born (g : List (List (Option Entity))) (c : Nat → Option Nat) (x y f : Nat)
    (ev : ℚ) : IdChain (fun k => if k = f then 1 else 0) g c (born g c x y f ev) (issued c f) :=
  IdChain.birth _ _ _ _ _ _ x y f ev (IdChain_start g c) (fun k => by split_ifs <;> rfl)

/-- No population exceeds the number of cells. -/
theorem tribeCounts_le_cells (g : List (List (Option Entity))) (f : Nat) :
    tribeCounts g f ≤ 10000 := by
  rw [tribeCounts_sum]
  have h1 : ∀ y ∈ Finset.range GridSize,
      (∑ x in Finset.range GridSize, tribeInd (getCell g x y none) f) ≤ 100 := by
    intro y _
    have := Finset.sum_le_sum (s := Finset.range GridSize)
      (f := fun x => tribeInd (getCell g x y none) f) (g := fun _ => (1 : Int))
      (fun x _ => (tribeInd_range _ f).2)
    simp only [Finset.sum_const, Finset.card_range, nsmul_eq_mul, mul_one] at this
    have hG : ((GridSize : Nat) : Int) = 100 := rfl
    rw [hG] at this
    exact this
  have := Finset.sum_le_sum h1
  simp only [Finset.sum_const, Finset.card_range, nsmul_eq_mul] at this
  have hG : ((GridSize : Nat) : Int) = 100 := rfl
  rw [hG] at this
  omega

theorem PlaceEntity_chain (w : World) (x y : Int) (typ : Nat) :
    ∃ n, IdChain n w.Entities w.nextEntityID (PlaceEntity w x y typ).1.Entities
      (PlaceEntity w x y typ).1.nextEntityID ∧ ∀ f, n f ≤ 10000 := by
  have hsame : ∃ n, IdChain n w.Entities w.nextEntityID w.Entities w.nextEntityID ∧
      ∀ f, n f ≤ 10000 := ⟨_, IdChain_start _ _, fun _ => Nat.zero_le _⟩
  have hpaint : ∀ a b t, ∃ n, IdChain n w.Entities w.nextEntityID (paintCell w a b t).Entities
      (paintCell w a b t).nextEntityID ∧ ∀ f, n f ≤ 10000 :=
    fun a b t => ⟨_, IdChain_descends _ (Descends_clear w.Entities a b), fun _ => Nat.zero_le _⟩
  have hspawn : ∀ a b t, ∃ n, IdChain n w.Entities w.nextEntityID (spawnAt w a b t).Entities
      (spawnAt w a b t).nextEntityID ∧ ∀ f, n f ≤ 10000 := by
    intro a b t
    refine ⟨_, IdChain_born w.Entities w.nextEntityID a b t
      ((lookupTribe w.Tribes t).getD TribeConfig.zero).BaseEvasion, fun f => ?_⟩
    dsimp only []
    split_ifs <;> omega
  unfold PlaceEntity
  dsimp only []
  repeat' split
  all_goals first
    | exact hsame
    | exact hpaint _ _ _
    | exact hspawn _ _ _

theorem tryStarter_chain (g0 : List (List (Option Entity))) (c0 : Nat → Option Nat)
    (w : World) (tribe : Nat) (cfg : TribeConfig) (cells : List (Nat × Nat))
    (h : StarterInv g0 c0 w) : StarterInv g0 c0 (tryStarter w tribe cfg cells) := by
  unfold tryStarter
  cases hf : (cells.take 1000).find? (starterFits w cfg) with
  | none => exact h
  | some c =>
    dsimp only []
    obtain ⟨n, hch, hcnt, hwf⟩ := h
    have hfit := List.find?_some hf
    unfold starterFits at hfit
    simp only [Bool.and_eq_true, decide_eq_true_eq] at hfit
    have hx : c.1 % GridSize < GridSize := Nat.mod_lt _ (by decide)
    have hy : c.2 % GridSize < GridSize := Nat.mod_lt _ (by decide)
    refine ⟨fun k => if k = tribe then n k + 1 else n k,
      IdChain.birth _ _ _ _ _ _ (c.1 % GridSize) (c.2 % GridSize) tribe cfg.BaseEvasion hch
        (fun _ => rfl), ?_, GridWF_setCell hwf _ _ _⟩
    intro f
    show tribeCounts (setCell w.Entities (c.1 % GridSize) (c.2 % GridSize)
      (some (freshEntity tribe ((counterOf w tribe + 1) % 2 ^ 32) cfg.BaseEvasion))) f = _
    rw [tribeCounts_setCell _ hwf _ _ hx hy, hfit.1, hcnt f]
    have h0 : tribeInd none f = 0 := rfl
    have h1 : tribeInd (some (freshEntity tribe ((counterOf w tribe + 1) % 2 ^ 32)
        cfg.BaseEvasion)) f = if tribe = f then 1 else 0 := rfl
    rw [h0, h1]
    show _ = tribeCounts g0 f + (((if f = tribe then n f + 1 else n f : Nat)) : Int)
    by_cases hk : f = tribe
    · rw [if_pos hk, if_pos hk.symm]
      push_cast
      ring
    · rw [if_neg hk, if_neg (fun e => hk e.symm)]
      ring

theorem placeStarters_chain (w : World) (attempts : Nat → Nat → List (Nat × Nat))
    (hwf : GridWF w.Entities) :
    ∃ n, IdChain n w.Entities w.nextEntityID (placeStarters w attempts).Entities
      (placeStarters w attempts).nextEntityID ∧ ∀ f, n f ≤ 10000 := by
  have hinv : StarterInv w.Entities w.nextEntityID (placeStarters w attempts) := by
    unfold placeStarters
    apply foldl_inv (tribeStarters attempts) (StarterInv w.Entities w.nextEntityID)
    · intro s p hs
      unfold tribeStarters
      exact foldl_inv (fun acc i => tryStarter acc p.1 p.2 (attempts p.1 i))
        (StarterInv w.Entities w.nextEntityID)
        (fun s2 i hs2 => tryStarter_chain _ _ s2 p.1 p.2 (attempts p.1 i) hs2) _ _ hs
    · exact ⟨_, IdChain_start _ _, fun f => by simp, hwf⟩
  obtain ⟨n, hch, hcnt, _⟩ := hinv
  refine ⟨n, hch, fun f => ?_⟩
  have h1 := hcnt f
  have h2 := tribeCounts_le_cells (placeStarters w attempts).Entities f
  have h3 := tribeCounts_nonneg w.Entities f
  omega

theorem InitCustomMap_chain (w : World) (terrain : List Nat)
    (assignments : List (String × String)) (attempts : Nat → Nat → List (Nat × Nat))
    (hwf : GridWF w.Entities) :
    ∃ n, IdChain n w.Entities w.nextEntityID
      (InitCustomMap w terrain assignments attempts).1.Entities
      (InitCustomMap w terrain assignments attempts).1.nextEntityID ∧ ∀ f, n f ≤ 10000 := by
  unfold InitCustomMap
  split_ifs
  · exact ⟨_, IdChain_start _ _, fun _ => Nat.zero_le _⟩
  · exact ⟨_, IdChain_start _ _, fun _ => Nat.zero_le _⟩
  · exact placeStarters_chain (loadRegistry w (copySlice w.Terrain terrain)
      (customRegistry assignments)) attempts hwf

/-- The conflict-phase tick creates no entity. -/
theorem UpdateConflict_descends (w : World) (d : WarDraws) (hwf : w.WF)
    (hv : MovesValid w d.moves) (hnd : d.keyOrder.Nodup) :
    Descends w.Entities (UpdateConflict w d).Entities := by
  cases hgo : w.gameOver with
  | true =>
    rw [updateConflict_frozen w d hgo]
    exact Descends_refl _
  | false =>
    refine Descends_trans (reloc_descends (resolveMoves_reloc w d hwf hv hnd))
      (Descends_cellwise ?_)
    intro x y e2 h
    have hr := getCell_some_inRange (UpdateConflict_WF w d hwf).1 h
    rw [updateConflict_cell w d hwf hgo x y hr.1 hr.2] at h
    obtain ⟨e1, h1, k1⟩ := attritionCell_keeps h
    obtain ⟨e0, h0, k0⟩ := damageCell_keeps h1
    rw [cellOf_fst] at h0
    exact ⟨e0, h0, k1.1.trans k0.1, k1.2.1.trans k0.2.1⟩

theorem victoryStep_counters (w : World) (terrain : List Nat) (final : Layers) :
    (victoryStep w terrain final).nextEntityID = w.nextEntityID := by
  unfold victoryStep
  generalize aliveTribes final.ents = al
  rcases al with _ | ⟨t, _ | ⟨t2, rest⟩⟩
  · rfl
  · dsimp only []
    cases lookupTribe w.Tribes t <;> rfl
  · rfl

theorem UpdateConflict_counters (w : World) (d : WarDraws) :
    (UpdateConflict w d).nextEntityID = w.nextEntityID := by
  cases hgo : w.gameOver with
  | true => rw [updateConflict_frozen w d hgo]
  | false =>
    rw [updateConflict_eq w d hgo]
    exact victoryStep_counters _ _ _

/-- The births applied, as a chain: one creation for each recorded birth. -/
theorem births_chain (w : World) (now : Int) (l : List Spawn) (st : BirthState) :
    IdChain (fun f => l.countP (fun s => decide (s.tribe = f))) st.ents st.counters
      (l.foldl (spawnStep w now) st).ents (l.foldl (spawnStep w now) st).counters := by
  induction l generalizing st with
  | nil => exact IdChain_start _ _
  | cons s rest ih =>
    rw [List.foldl_cons]
    have h1 : IdChain (fun k => if k = s.tribe then 1 else 0) st.ents st.counters
        (spawnStep w now st s).ents (spawnStep w now st s).counters :=
      IdChain_born st.ents st.counters s.nx s.ny s.tribe
        ((lookupTribe w.Tribes s.tribe).getD TribeConfig.zero).BaseEvasion
    refine IdChain_congr (IdChain_trans h1 (ih (spawnStep w now st s))) ?_
    intro k
    rw [List.countP_cons]
    by_cases hk : k = s.tribe
    · rw [if_pos hk, hk]
      simp
      omega
    · rw [if_neg hk]
      have : decide (s.tribe = k) = false := decide_eq_false (fun e => hk e.symm)
      simp [this]

theorem births_chain_from (w : World) (now : Int) (l : List Spawn)
    (ents : List (List (Option Entity))) (reprod : List (List Int))
    (counters : Nat → Option Nat) :
    IdChain (fun f => l.countP (fun s => decide (s.tribe = f))) ents counters
      (l.foldl (spawnStep w now) { ents := ents, reprod := reprod, counters := counters }).ents
      (l.foldl (spawnStep w now) { ents := ents, reprod := reprod, counters := counters }).counters :=
  births_chain w now l { ents := ents, reprod := reprod, counters := counters }

/-- Each cell records one birth at most. -/
theorem reprodBody_spawns (w : World) (d : PeaceDraws) (g : List (List (Option Entity)))
    (x y : Nat) (st : ReprodState) :
    (reprodBody w d g x y st).spawns.length ≤ st.spawns.length + 1 := by
  unfold reprodBody
  cases getCell g x y none with
  | none => exact Nat.le_succ _
  | some ent =>
    dsimp only []
    split_ifs
    · exact Nat.le_succ _
    · exact Nat.le_succ _
    · cases (d.shuffled x y).find? (canSpawn w g x y ent.Tribe) with
      | none => exact Nat.le_succ _
      | some dir =>
        dsimp only []
        rw [List.length_append]
        exact le_refl _
    · exact Nat.le_succ _

theorem reprodLoop_spawns (w : World) (d : PeaceDraws) (g : List (List (Option Entity)))
    (st : ReprodState) (h : st.spawns.length = 0) :
    (forCells (reprodBody w d g) st).spawns.length ≤ GridSize * GridSize :=
  loopCells_indexed (reprodBody w d g) (fun k s => s.spawns.length ≤ k) GridSize
    (fun x y s _ hs => le_trans (reprodBody_spawns w d g x y s) (Nat.succ_le_succ hs))
    GridSize st (by show st.spawns.length ≤ 0; rw [h])

theorem peaceReprod_spawns (w : World) (d : PeaceDraws) :
    (peaceReprod w d).spawns.length ≤ 10000 :=
  reprodLoop_spawns w d _ _ rfl

theorem PreWarUpdate_counters (w : World) (d : PeaceDraws) :
    (PreWarUpdate w d).nextEntityID = (peaceBorn w d).counters := rfl

/-- The peaceful tick, as a chain: the entities move and craft, then the recorded
births are applied. -/
theorem PreWarUpdate_chain (w : World) (d : PeaceDraws) (hwf : w.WF) (hnd : d.keyOrder.Nodup) :
    ∃ n, IdChain n w.Entities w.nextEntityID (PreWarUpdate w d).Entities
      (PreWarUpdate w d).nextEntityID ∧ ∀ f, n f ≤ 10000 := by
  have hmove : Descends w.Entities (peaceMoved w d).ents :=
    reloc_descends (peaceMoved_reloc w d hwf hnd)
  have hcraft : Descends (peaceMoved w d).ents (peaceCrafted w d).ents := by
    apply Descends_cellwise
    intro x y e2 h
    obtain ⟨e, h1, hu⟩ := Upgraded_some (peaceCrafted_upgraded w d x y) h
    exact ⟨e, h1, hu.1, hu.2.1⟩
  have hb := births_chain_from w d.reprodNow (peaceReprod w d).spawns (peaceCrafted w d).ents
    (peaceReprod w d).reprod w.nextEntityID
  rw [PreWarUpdate_entities, PreWarUpdate_counters]
  refine ⟨_, IdChain_trans (IdChain_descends w.nextEntityID (Descends_trans hmove hcraft)) hb,
    fun f => ?_⟩
  dsimp only []
  have h1 := List.countP_le_length (fun s => decide (s.tribe = f)) (l := (peaceReprod w d).spawns)
  have h2 := peaceReprod_spawns w d
  omega

theorem OpStep_chain {w w2 : World} (h : OpStep w w2) (hwf : w.WF) :
    ∃ n, IdChain n w.Entities w.nextEntityID w2.Entities w2.nextEntityID ∧
      ∀ f, n f ≤ 10000 := by
  cases h
  case initMap terrain tribes attempts hlen =>
    exact placeStarters_chain (loadRegistry w terrain tribes) attempts hwf.1
  case initCustomMap terrain assignments attempts =>
    exact InitCustomMap_chain w terrain assignments attempts hwf.1
  case placeEntity x y typ => exact PlaceEntity_chain w x y typ
  case convertBorders order =>
    rw [(ConvertBordersToTerrain_fields w order).2.1,
      (ConvertBordersToTerrain_fields w order).2.2.2.1]
    exact ⟨_, IdChain_start _ _, fun _ => Nat.zero_le _⟩
  case startWar => exact ⟨_, IdChain_start _ _, fun _ => Nat.zero_le _⟩
  case update wd pd htd =>
    unfold Update
    cases hws : w.warStarted with
    | true =>
      rw [if_pos rfl, UpdateConflict_counters]
      obtain ⟨hv, hnd⟩ := htd.1 hws
      exact ⟨_, IdChain_descends _ (UpdateConflict_descends w wd hwf hv hnd),
        fun _ => Nat.zero_le _⟩
    | false =>
      rw [if_neg (by decide)]
      exact PreWarUpdate_chain w pd hwf (htd.2 hws)

theorem FreshRun_reachable {f : Nat} {w : World} (h : FreshRun f w) : Reachable w := by
  induction h with
  | new => exact Reachable.new
  | op w w2 _ hs _ ih => exact Reachable.op w w2 ih hs
  | reset w _ ih => exact Reachable.reset w ih

/-- An operation that does not leave the counter of faction `f` below its value
issues the identifiers of `f` without wrapping: the identifier invariant of `f` is
kept, the counter stays below 2^32 and advances by the number of entities created
for `f`, and every entity of `f` afterwards either has the identifier of an entity
of `f` of before or carries an identifier above the counter of before. -/
theorem fresh_step {f : Nat} {w w2 : World} (hs : OpStep w w2) (hwf : w.WF)
    (hok : IdsOK f w.Entities w.nextEntityID) (hlt : counterOf w f < 2 ^ 32)
    (hmono : counterOf w f ≤ counterOf w2 f) :
    IdsOK f w2.Entities w2.nextEntityID ∧ counterOf w2 f < 2 ^ 32 ∧
    (∃ n, IdChain n w.Entities w.nextEntityID w2.Entities w2.nextEntityID ∧
      counterOf w2 f = counterOf w f + n f) ∧
    ∀ x y e2, getCell w2.Entities x y none = some e2 → e2.Tribe = f →
      (∃ x0 y0 e, getCell w.Entities x0 y0 none = some e ∧ e.Tribe = f ∧ e.ID = e2.ID) ∨
      (counterOf w f < e2.ID ∧ e2.ID ≤ counterOf w2 f) := by
  obtain ⟨n, hch, hn⟩ := OpStep_chain hs hwf
  have hcf : counterAt w2.nextEntityID f = (counterAt w.nextEntityID f + n f) % 2 ^ 32 :=
    IdChain_counter hch f hlt
  have hb : counterAt w.nextEntityID f + n f < 2 ^ 32 := by
    have h1 : counterAt w.nextEntityID f ≤ counterAt w2.nextEntityID f := hmono
    have h2 : counterAt w.nextEntityID f < 2 ^ 32 := hlt
    have h3 := hn f
    rw [pow32] at *
    omega
  obtain ⟨i1, i2, i3⟩ := IdChain_ok hch hok hb
  refine ⟨i1, ?_, ⟨n, hch, i2⟩, i3⟩
  show counterAt w2.nextEntityID f < 2 ^ 32
  rw [hcf]
  exact Nat.mod_lt _ (by norm_num)

theorem FreshRun_inv {f : Nat} {w : World} (h : FreshRun f w) :
    IdsOK f w.Entities w.nextEntityID ∧ counterOf w f < 2 ^ 32 := by
  induction h with
  | new =>
    refine ⟨⟨fun x y e he => ?_, fun x y x2 y2 e e2 he => ?_⟩, ?_⟩
    · rw [New_entities] at he
      cases he
    · rw [New_entities] at he
      cases he
    · show (0 : Nat) < 2 ^ 32
      norm_num
  | op w w2 hr hs hmono ih =>
    have := fresh_step hs (Reachable_WF (FreshRun_reachable hr)) ih.1 ih.2 hmono
    exact ⟨this.1, this.2.1⟩
  | reset w hr _ =>
    have hwf := Reachable_WF (FreshRun_reachable hr)
    refine ⟨⟨fun x y e he => ?_, fun x y x2 y2 e e2 he => ?_⟩, ?_⟩
    · rw [Reset_empty w hwf] at he
      cases he
    · rw [Reset_empty w hwf] at he
      cases he
    · have hc : (Reset w).nextEntityID = fun _ => none := by
        unfold Reset
        exact (resetWith_fields w _).2.2.2.2.1
      unfold counterOf
      rw [hc]
      show (0 : Nat) < 2 ^ 32
      norm_num

theorem tryStarter_idle (w : World) (tribe : Nat) (cfg : TribeConfig) :
    tryStarter w tribe cfg [] = w := rfl

theorem placeStarters_idle (w : World) : placeStarters w (fun _ _ => []) = w := by
  unfold placeStarters
  apply foldl_inv (tribeStarters (fun _ _ => [])) (fun s => s = w) _ _ _ rfl
  intro s p hs
  unfold tribeStarters
  exact foldl_inv (fun acc i => tryStarter acc p.1 p.2 []) (fun s => s = w)
    (fun s2 i hs2 => by
      show tryStarter s2 p.1 p.2 [] = w
      rw [tryStarter_idle]
      exact hs2) _ _ hs

theorem PlaceEntity_counter_mono (w : World) (x y : Int) (typ : Nat)
    (h : ∀ f, counterOf w f + 1 < 2 ^ 32) (f : Nat) :
    counterOf w f ≤ counterOf (PlaceEntity w x y typ).1 f := by
  have hspawn : ∀ a b t, counterOf w f ≤ counterOf (spawnAt w a b t) f := by
    intro a b t
    show counterOf w f ≤ counterAt (issued w.nextEntityID t) f
    rw [counterAt_issued]
    split_ifs with hf
    · rw [hf]
      have := h t
      show counterOf w t ≤ (counterOf w t + 1) % 2 ^ 32
      rw [Nat.mod_eq_of_lt this]
      exact Nat.le_succ _
    · exact le_refl _
  unfold PlaceEntity
  dsimp only []
  repeat' split
  all_goals first
    | exact le_refl _
    | exact hspawn _ _ _

theorem PlaceEntity_counter_zero (w : World) (x y : Int) (typ : Nat) (htyp : typ ≠ 3)
    (h : ∀ f, counterOf w f = 0) (f : Nat) : counterOf (PlaceEntity w x y typ).1 f = 0 := by
  unfold PlaceEntity
  dsimp only []
  repeat' split
  all_goals exact h f

theorem outpostPeace_fresh (f : Nat) : FreshRun f outpostPeace := by
  have h1 : FreshRun f (placeStarters
      (loadRegistry New (List.replicate (GridSize * GridSize) 0) verticalTribes)
      (fun _ _ => [])) :=
    FreshRun.op _ _ FreshRun.new
      (OpStep.initMap New (List.replicate (GridSize * GridSize) 0) verticalTribes
        (fun _ _ => []) (List.length_replicate _ _))
      (Nat.zero_le _)
  have z1 : ∀ k, counterOf (placeStarters
      (loadRegistry New (List.replicate (GridSize * GridSize) 0) verticalTribes)
      (fun _ _ => [])) k = 0 := by
    intro k
    rw [placeStarters_idle]
    rfl
  have z2 := PlaceEntity_counter_zero _ 5 5 1 (by decide) z1
  have h2 := FreshRun.op _ _ h1 (OpStep.placeEntity _ 5 5 1)
    (by rw [z1 f]; exact Nat.zero_le _)
  exact FreshRun.op _ _ h2 (OpStep.placeEntity _ 5 5 3)
    (PlaceEntity_counter_mono _ 5 5 3 (fun k => by rw [z2 k]; norm_num) f)

/-- C26: take a faction `f` and a run from `New()` through the public operations in
which the identifier counter of `f` does not wrap (no operation leaves it below
its value; an operation issues at most 10000 identifiers, so this is the case
while fewer than 2^32 identifiers have been issued to `f` since the last `Reset`).
In every state of the run the identifier of every live entity of `f` is between 1
and the counter of `f`, and no two live entities of `f` share an identifier.  And
for every further operation of that kind: entities are moved, changed or removed,
and created one at a time, each creation taking the counter of its faction plus 1
as identifier (`IdChain`), so that the counter of `f` advances by the number of
entities created for `f`; every entity of `f` afterwards has the identifier of an
entity of `f` of before, or an identifier above the counter of before the
operation, hence above every identifier issued to `f` since the last `Reset`. -/
theorem identifier_invariant (f : Nat) (w : World) (h : FreshRun f w) :
    IdsOK f w.Entities w.nextEntityID ∧
    ∀ w2, OpStep w w2 → counterOf w f ≤ counterOf w2 f →
      (∃ n, IdChain n w.Entities w.nextEntityID w2.Entities w2.nextEntityID ∧
        counterOf w2 f = counterOf w f + n f) ∧
      ∀ x y e2, getCell w2.Entities x y none = some e2 → e2.Tribe = f →
        (∃ x0 y0 e, getCell w.Entities x0 y0 none = some e ∧ e.Tribe = f ∧ e.ID = e2.ID) ∨
        (counterOf w f < e2.ID ∧ e2.ID ≤ counterOf w2 f) := by
  have hinv := FreshRun_inv h
  refine ⟨hinv.1, fun w2 hs hmono => ?_⟩
  have := fresh_step hs (Reachable_WF (FreshRun_reachable h)) hinv.1 hinv.2 hmono
  exact ⟨this.2.2.1, this.2.2.2⟩

theorem identifier_invariant_witness :
    FreshRun 1 outpostPeace ∧ IdsOK 1 outpostPeace.Entities outpostPeace.nextEntityID ∧
    ∀ w2, OpStep outpostPeace w2 → counterOf outpostPeace 1 ≤ counterOf w2 1 →
      (∃ n, IdChain n outpostPeace.Entities outpostPeace.nextEntityID w2.Entities
          w2.nextEntityID ∧
        counterOf w2 1 = counterOf outpostPeace 1 + n 1) ∧
      ∀ x y e2, getCell w2.Entities x y none = some e2 → e2.Tribe = 1 →
        (∃ x0 y0 e, getCell outpostPeace.Entities x0 y0 none = some e ∧
          e.Tribe = 1 ∧ e.ID = e2.ID) ∨
        (counterOf outpostPeace 1 < e2.ID ∧ e2.ID ≤ counterOf w2 1) :=
  ⟨outpostPeace_fresh 1, identifier_invariant 1 outpostPeace (outpostPeace_fresh 1)⟩

/-! ## The reproduction cooldown -/

theorem range_split {n x : Nat} (hx : x < n) :
    List.range n = List.range x ++ x :: List.range' (x + 1) (n - x - 1) := by
  have h1 : List.range n = List.range' 0 ((n - x) + x) := by
    rw [List.range_eq_range']
    congr 1
    omega
  have h2 : List.range' x (n - x) = x :: List.range' (x + 1) (n - x - 1) := by
    have : n - x = (n - x - 1) + 1 := by omega
    rw [this, List.range'_succ]
    simp
  rw [h1, List.range_eq_range', ← List.range'_append_1, Nat.zero_add, h2]

theorem rowLoop_split {σ : Type} (body : Nat → Nat → σ → σ) (cols x y : Nat) (hx : x < cols)
    (s : σ) :
    (List.range cols).foldl (fun s x2 => body x2 y s) s
      = (List.range' (x + 1) (cols - x - 1)).foldl (fun s x2 => body x2 y s)
          (body x y ((List.range x).foldl (fun s x2 => body x2 y s) s)) := by
  rw [range_split hx, List.foldl_append, List.foldl_cons]

/-- An invariant of the body that holds once cell `(x, y)` is visited holds at the
end of the loop nest. -/
theorem loop_after_visit {σ : Type} (body : Nat → Nat → σ → σ) (I : σ → Prop)
    (hI : ∀ x y s, I s → I (body x y s)) (rows cols : Nat) (s : σ) (x y : Nat)
    (hx : x < cols) (hy : y < rows) (h : I (body x y (loopBefore cols body s x y))) :
    I (loopCells rows cols body s) := by
  have hsplit : loopCells rows cols body s
      = (List.range' (y + 1) (rows - y - 1)).foldl
          (fun s y2 => (List.range cols).foldl (fun s x2 => body x2 y2 s) s)
          ((List.range cols).foldl (fun s x2 => body x2 y s) (loopCells y cols body s)) := by
    unfold loopCells
    rw [range_split hy, List.foldl_append, List.foldl_cons]
  rw [hsplit]
  apply foldl_inv _ I (fun s2 y2 hs2 => foldl_inv _ I (fun s3 x3 hs3 => hI x3 y2 s3 hs3) _ _ hs2)
  rw [rowLoop_split body cols x y hx]
  apply foldl_inv _ I (fun s3 x3 hs3 => hI x3 y s3 hs3)
  exact h

/-- An invariant of the body holds when the loop nest reaches a cell. -/
theorem loopBefore_inv {σ : Type} (body : Nat → Nat → σ → σ) (I : σ → Prop)
    (hI : ∀ x y s, I s → I (body x y s)) (cols : Nat) (s : σ) (x y : Nat) (hs : I s) :
    I (loopBefore cols body s x y) := by
  unfold loopBefore
  exact foldl_inv _ I (fun s3 x3 hs3 => hI x3 y s3 hs3) _ _
    (loopCells_inv body I hI y cols s hs)

/-- The two outcomes of a visit of the reproduction loop: nothing, or a birth
recorded next to an occupied cell whose timestamp becomes the reading of the
clock. -/
theorem reprodBody_cases (w : World) (d : PeaceDraws) (g : List (List (Option Entity)))
    (x y : Nat) (st : ReprodState) :
    reprodBody w d g x y st = st ∨
    ∃ s, (reprodBody w d g x y st).spawns = st.spawns ++ [s] ∧
      (reprodBody w d g x y st).reprod = setCell st.reprod x y d.reprodNow ∧
      getCell g x y none ≠ none ∧
      ¬ (getCell st.reprod x y 0 ≠ 0 ∧
        d.reprodNow - getCell st.reprod x y 0 < w.EntityStats.ReprodCooldown) := by
  unfold reprodBody
  cases hent : getCell g x y none with
  | none => exact Or.inl rfl
  | some ent =>
    dsimp only []
    by_cases hskip : st.skip ent.Tribe = true
    · rw [if_pos hskip]
      exact Or.inl rfl
    rw [if_neg hskip]
    by_cases hcool : getCell st.reprod x y 0 ≠ 0 ∧
        d.reprodNow - getCell st.reprod x y 0 < w.EntityStats.ReprodCooldown
    · rw [if_pos hcool]
      exact Or.inl rfl
    rw [if_neg hcool]
    by_cases hroll : d.reprodRoll x y < w.EntityStats.ReproductionRate
    · rw [if_pos hroll]
      cases (d.shuffled x y).find? (canSpawn w g x y ent.Tribe) with
      | none => exact Or.inl rfl
      | some dir =>
        dsimp only []
        exact Or.inr ⟨_, rfl, rfl, (fun h => by cases h), hcool⟩
    · rw [if_neg hroll]
      exact Or.inl rfl

theorem reprodBody_reprod_WF (w : World) (d : PeaceDraws) (g : List (List (Option Entity)))
    (x y : Nat) (st : ReprodState) (h : GridWF st.reprod) :
    GridWF (reprodBody w d g x y st).reprod := by
  rcases reprodBody_cases w d g x y st with h1 | ⟨s, _, h2, _⟩
  · rw [h1]
    exact h
  · rw [h2]
    exact GridWF_setCell h _ _ _

/-- A visit of the reproduction loop keeps a timestamp that makes the cooldown
active at its cell, and every timestamp equal to the reading of the clock. -/
theorem reprodBody_stamp (w : World) (d : PeaceDraws) (g : List (List (Option Entity)))
    (cx cy : Nat) (t : Int)
    (ht : t = d.reprodNow ∨ (t ≠ 0 ∧ d.reprodNow - t < w.EntityStats.ReprodCooldown))
    (x y : Nat) (st : ReprodState)
    (h : GridWF st.reprod ∧ getCell st.reprod cx cy 0 = t) :
    GridWF (reprodBody w d g x y st).reprod ∧
      getCell (reprodBody w d g x y st).reprod cx cy 0 = t := by
  refine ⟨reprodBody_reprod_WF w d g x y st h.1, ?_⟩
  rcases reprodBody_cases w d g x y st with h1 | ⟨s, _, h2, _, hcool⟩
  · rw [h1]
    exact h.2
  · rw [h2]
    by_cases hc : cx = x ∧ cy = y
    · rw [hc.1, hc.2] at h
      rcases ht with ht | ht
      · rcases getCell_setCell_cases st.reprod x y x y d.reprodNow 0 with h3 | h3
        · rw [hc.1, hc.2, h3, ht]
        · rw [hc.1, hc.2, h3]
          exact h.2
      · exfalso
        apply hcool
        rw [h.2]
        exact ht
    · rw [getCell_setCell_ne _ _ _ _ _ _ _ (ne_cell_of_ne hc)]
      exact h.2

/-- A visit of a cell whose cooldown is active changes nothing. -/
theorem reprodBody_cooling (w : World) (d : PeaceDraws) (g : List (List (Option Entity)))
    (x y : Nat) (st : ReprodState) (t : Int) (h : getCell st.reprod x y 0 = t) (ht : t ≠ 0)
    (hc : d.reprodNow - t < w.EntityStats.ReprodCooldown) :
    reprodBody w d g x y st = st := by
  rcases reprodBody_cases w d g x y st with h1 | ⟨s, _, _, _, hcool⟩
  · exact h1
  · exfalso
    apply hcool
    rw [h]
    exact ⟨ht, hc⟩

theorem applyWinner_eq (w : World) (d : WarDraws) (st : Layers) (key : Nat × Nat) :
    applyWinner w d st key
      = match winnerOf d key with
        | none => st
        | some winner =>
          { ents := setCell (setCell st.ents winner.toX winner.toY
                      (getCell w.Entities winner.fromX winner.fromY none))
                    winner.fromX winner.fromY none
            reprod := setCell (setCell st.reprod winner.toX winner.toY
                        (getCell st.reprod winner.fromX winner.fromY 0))
                      winner.fromX winner.fromY 0 } := rfl

/-- Move resolution, seen from a visited target with a winner: the target receives
the occupant and the timestamp of the origin of the winner, and every other
contender stays where it is. -/
theorem resolve_key (w : World) (d : WarDraws) (hwf : w.WF)
    (hv : MovesValid w d.moves) (hnd : d.keyOrder.Nodup) (T : Nat × Nat)
    (hT : T ∈ d.keyOrder) (winner : PotentialMove) (hw : winnerOf d T = some winner) :
    cellOf (resolveMoves w d) T.1 T.2
        = (getCell w.Entities winner.fromX winner.fromY none,
           getCell w.lastReprodTime winner.fromX winner.fromY 0) ∧
    ∀ pm ∈ moversTo d.moves T, pm ≠ winner →
      cellOf (resolveMoves w d) pm.fromX pm.fromY
        = (getCell w.Entities pm.fromX pm.fromY none,
           getCell w.lastReprodTime pm.fromX pm.fromY 0) := by
  have hwm : winner ∈ moversTo d.moves T := List.get?_mem hw
  obtain ⟨l1, l2, hsplit⟩ := List.append_of_mem hT
  have hnd2 : (T :: (l1 ++ l2)).Nodup := by
    rw [← List.nodup_middle, ← hsplit]
    exact hnd
  have hTnot : T ∉ l1 ++ l2 := (List.nodup_cons.1 hnd2).1
  have hother : ∀ key ∈ l1 ++ l2, key ≠ T := fun key hk e => hTnot (e ▸ hk)
  have hframeT : ∀ keys : List (Nat × Nat), (∀ key ∈ keys, key ≠ T) → ∀ st : Layers,
      cellOf (keys.foldl (applyWinner w d) st) T.1 T.2 = cellOf st T.1 T.2 := by
    intro keys hk st
    apply resolve_frame
    intro key hkey pm hpm
    exact (movers_disjoint hv (hk key hkey) hpm hwm).1
  have hframeO : ∀ keys : List (Nat × Nat), (∀ key ∈ keys, key ≠ T) →
      ∀ m ∈ moversTo d.moves T, ∀ st : Layers,
      cellOf (keys.foldl (applyWinner w d) st) m.fromX m.fromY = cellOf st m.fromX m.fromY := by
    intro keys hk m hm st
    apply resolve_frame
    intro key hkey pm hpm
    exact (movers_disjoint hv (hk key hkey) hpm hm).2
  have h1 : ∀ key ∈ l1, key ≠ T := fun key hk => hother key (List.mem_append_left _ hk)
  have h2 : ∀ key ∈ l2, key ≠ T := fun key hk => hother key (List.mem_append_right _ hk)
  have hres : resolveMoves w d
      = l2.foldl (applyWinner w d)
          (applyWinner w d
            (l1.foldl (applyWinner w d) { ents := w.Entities, reprod := w.lastReprodTime }) T) := by
    unfold resolveMoves
    rw [hsplit, List.foldl_append, List.foldl_cons]
  have hst1 : LayersWF (l1.foldl (applyWinner w d)
      { ents := w.Entities, reprod := w.lastReprodTime }) :=
    foldl_inv (applyWinner w d) LayersWF (fun s k h => applyWinner_WF w d s k h) _ _
      ⟨hwf.1, hwf.2.2.1⟩
  have hkeep : ∀ m ∈ moversTo d.moves T,
      cellOf (l1.foldl (applyWinner w d) { ents := w.Entities, reprod := w.lastReprodTime })
          m.fromX m.fromY
        = (getCell w.Entities m.fromX m.fromY none,
           getCell w.lastReprodTime m.fromX m.fromY 0) := by
    intro m hm
    rw [hframeO l1 h1 m hm]
    rfl
  obtain ⟨hA, _, hC⟩ := applyWinner_target w d hv T _ hst1 winner hw hkeep
  refine ⟨?_, ?_⟩
  · rw [hres, hframeT l2 h2, hA]
  · intro pm hpm hpw
    rw [hres, hframeO l2 h2 pm hpm, hC pm hpm hpw]

/-- Move resolution carries the occupant of a cell, with its timestamp, to the cell
`movedTo`. -/
theorem resolve_track (w : World) (d : WarDraws) (hwf : w.WF) (hv : MovesValid w d.moves)
    (hnd : d.keyOrder.Nodup) (x y : Nat) (hocc : getCell w.Entities x y none ≠ none) :
    cellOf (resolveMoves w d) (movedTo d x y).1 (movedTo d x y).2
      = (getCell w.Entities x y none, getCell w.lastReprodTime x y 0) := by
  have hstay_free : (∀ pm ∈ d.moves, ¬ (pm.fromX = x ∧ pm.fromY = y)) →
      cellOf (resolveMoves w d) x y
        = (getCell w.Entities x y none, getCell w.lastReprodTime x y 0) := by
    intro hno
    unfold resolveMoves
    rw [resolve_frame w d d.keyOrder x y]
    · rfl
    · intro key _ pm hpm
      obtain ⟨hpm1, _, _⟩ := mem_moversTo.1 hpm
      obtain ⟨_, _, _, _, _, hfree⟩ := hv.1 pm hpm1
      refine ⟨?_, ?_⟩
      · by_contra hcon
        have h1 : x = pm.toX := by_contra (fun h => hcon (Or.inl h))
        have h2 : y = pm.toY := by_contra (fun h => hcon (Or.inr h))
        apply hocc
        rw [h1, h2]
        exact hfree
      · by_contra hcon
        have h1 : x = pm.fromX := by_contra (fun h => hcon (Or.inl h))
        have h2 : y = pm.fromY := by_contra (fun h => hcon (Or.inr h))
        exact hno pm hpm1 ⟨h1.symm, h2.symm⟩
  unfold movedTo
  cases hf : d.moves.find? (fun pm => decide (pm.fromX = x ∧ pm.fromY = y)) with
  | none =>
    dsimp only []
    apply hstay_free
    intro pm hpm hxy
    have := List.find?_eq_none.1 hf pm hpm
    simp only [decide_eq_true_eq] at this
    exact this hxy
  | some pm =>
    dsimp only []
    have hpm : pm ∈ d.moves := List.mem_of_find?_eq_some hf
    have hfrom : pm.fromX = x ∧ pm.fromY = y := by
      have := List.find?_some hf
      simpa using this
    have hmem : pm ∈ moversTo d.moves (pm.toX, pm.toY) := mem_moversTo.2 ⟨hpm, rfl, rfl⟩
    by_cases hc : (pm.toX, pm.toY) ∈ d.keyOrder ∧ winnerOf d (pm.toX, pm.toY) = some pm
    · rw [if_pos hc]
      have := (resolve_key w d hwf hv hnd (pm.toX, pm.toY) hc.1 pm hc.2).1
      rw [hfrom.1, hfrom.2] at this
      exact this
    · rw [if_neg hc]
      by_cases hT : (pm.toX, pm.toY) ∈ d.keyOrder
      · have hlen : 0 < (moversTo d.moves (pm.toX, pm.toY)).length :=
          List.length_pos.2 (List.ne_nil_of_mem hmem)
        obtain ⟨winner, hw⟩ : ∃ winner, winnerOf d (pm.toX, pm.toY) = some winner :=
          ⟨_, List.get?_eq_get (Nat.mod_lt _ hlen)⟩
        have hne : pm ≠ winner := by
          intro e
          exact hc ⟨hT, hw.trans (congrArg some e.symm)⟩
        have := (resolve_key w d hwf hv hnd (pm.toX, pm.toY) hT winner hw).2 pm hmem hne
        rw [hfrom.1, hfrom.2] at this
        exact this
      · unfold resolveMoves
        rw [resolve_frame w d d.keyOrder x y]
        · rfl
        · intro key hkey pm2 hpm2
          have hne : key ≠ (pm.toX, pm.toY) := fun e => hT (e ▸ hkey)
          have := (movers_disjoint hv hne hpm2 hmem).2
          rw [hfrom.1, hfrom.2] at this
          exact this

theorem PreWarUpdate_reprod (w : World) (d : PeaceDraws) :
    (PreWarUpdate w d).lastReprodTime = (peaceBorn w d).reprod := rfl

theorem PreWarUpdate_stats (w : World) (d : PeaceDraws) :
    (PreWarUpdate w d).EntityStats = w.EntityStats := rfl

theorem Upgraded_occupied {a b : Option Entity} (h : Upgraded a b) (ha : a ≠ none) :
    b ≠ none := by
  rcases h with ⟨h1, _⟩ | ⟨e, e2, _, hb, _⟩
  · exact absurd h1 ha
  · rw [hb]
    exact fun h => by cases h

/-- The movement phase of a peaceful tick carries the occupant of a cell, with its
timestamp, to the cell `posAfter`. -/
theorem peaceMoved_track (w : World) (d : PeaceDraws) (hwf : w.WF) (hnd : d.keyOrder.Nodup)
    (p : Nat × Nat) (hocc : getCell w.Entities p.1 p.2 none ≠ none) :
    getCell (peaceMoved w d).ents (posAfter w d p).1 (posAfter w d p).2 none
      = getCell w.Entities p.1 p.2 none ∧
    getCell (peaceMoved w d).reprod (posAfter w d p).1 (posAfter w d p).2 0
      = getCell w.lastReprodTime p.1 p.2 0 := by
  have h := resolve_track w (moveDraws w d) hwf (collectMoves_valid w d hwf) hnd p.1 p.2 hocc
  exact ⟨congrArg Prod.fst h, congrArg Prod.snd h⟩

/-- The timestamp of a cell, throughout the reproduction loop, when it makes the
cooldown active or is the reading of the clock. -/
theorem reprodLoop_stamp (w : World) (d : PeaceDraws) (cx cy : Nat) (t : Int)
    (ht : t = d.reprodNow ∨ (t ≠ 0 ∧ d.reprodNow - t < w.EntityStats.ReprodCooldown))
    (hwf : w.WF) (h : getCell (peaceMoved w d).reprod cx cy 0 = t) :
    (∀ x y, GridWF (reprodBefore w d x y).reprod ∧
      getCell (reprodBefore w d x y).reprod cx cy 0 = t) ∧
    getCell (peaceReprod w d).reprod cx cy 0 = t := by
  refine ⟨fun x y => ?_, ?_⟩
  · unfold reprodBefore
    exact loopBefore_inv (reprodBody w d (peaceMoved w d).ents)
      (fun s => GridWF s.reprod ∧ getCell s.reprod cx cy 0 = t)
      (fun x2 y2 s hs => reprodBody_stamp w d _ cx cy t ht x2 y2 s hs) GridSize _ x y
      ⟨(peaceMoved_WF w d hwf).2, h⟩
  · unfold peaceReprod forCells
    exact (loopCells_inv (reprodBody w d (peaceMoved w d).ents)
      (fun s => GridWF s.reprod ∧ getCell s.reprod cx cy 0 = t)
      (fun x2 y2 s hs => reprodBody_stamp w d _ cx cy t ht x2 y2 s hs) GridSize GridSize _
      ⟨(peaceMoved_WF w d hwf).2, h⟩).2

/-- One peaceful tick within the cooldown: the entity is carried to `posAfter`, no
birth is recorded at the visit of that cell, and at the end of the tick the entity
is in that cell with its timestamp. -/
theorem cooling_tick (w : World) (d : PeaceDraws) (hwf : w.WF) (hnd : d.keyOrder.Nodup)
    (p : Nat × Nat) (t : Int) (hc : Cooling w p t) (ht : t ≠ 0)
    (hlt : d.reprodNow - t < w.EntityStats.ReprodCooldown) :
    Upgraded (getCell w.Entities p.1 p.2 none)
      (getCell (PreWarUpdate w d).Entities (posAfter w d p).1 (posAfter w d p).2 none) ∧
    newSpawns w d (posAfter w d p).1 (posAfter w d p).2 = [] ∧
    Cooling (PreWarUpdate w d) (posAfter w d p) t := by
  obtain ⟨hE, hR⟩ := peaceMoved_track w d hwf hnd p hc.1
  rw [hc.2] at hR
  have hocc : getCell (peaceMoved w d).ents (posAfter w d p).1 (posAfter w d p).2 none ≠ none := by
    rw [hE]
    exact hc.1
  obtain ⟨hbefore, hfinal⟩ := reprodLoop_stamp w d _ _ t (Or.inr ⟨ht, hlt⟩) hwf hR
  have hkeep := peaceBorn_keeps w d hwf hocc
  have hup : Upgraded (getCell w.Entities p.1 p.2 none)
      (getCell (PreWarUpdate w d).Entities (posAfter w d p).1 (posAfter w d p).2 none) := by
    rw [PreWarUpdate_entities, hkeep.1, ← hE]
    exact peaceCrafted_upgraded w d _ _
  refine ⟨hup, ?_, Upgraded_occupied hup hc.1, ?_⟩
  · unfold newSpawns
    rw [reprodBody_cooling w d _ _ _ _ t (hbefore _ _).2 ht hlt, List.drop_length]
  · show getCell (PreWarUpdate w d).lastReprodTime (posAfter w d p).1 (posAfter w d p).2 0 = t
    rw [PreWarUpdate_reprod, hkeep.2, hfinal]

/-- A run of peaceful ticks within the cooldown. -/
theorem dormant_run (t : Int) (ht : t ≠ 0) (ds : List PeaceDraws) (w : World) (p : Nat × Nat)
    (hwf : w.WF) (hc : Cooling w p t)
    (hds : ∀ d ∈ ds, d.keyOrder.Nodup ∧ d.reprodNow - t < w.EntityStats.ReprodCooldown) :
    Dormant w p ds := by
  induction ds generalizing w p with
  | nil => exact trivial
  | cons d rest ih =>
    obtain ⟨hnd, hlt⟩ := hds d (List.mem_cons_self _ _)
    obtain ⟨h1, h2, h3⟩ := cooling_tick w d hwf hnd p t hc ht hlt
    refine ⟨hc.1, h1, h2, ih (PreWarUpdate w d) (posAfter w d p) (PreWarUpdate_WF w d hwf) h3 ?_⟩
    intro d2 hd2
    rw [PreWarUpdate_stats]
    exact hds d2 (List.mem_cons_of_mem _ hd2)

/-- The births applied write a child and the reading of the clock in the target of
every recorded birth. -/
theorem births_stamp (w : World) (now : Int) (s : Spawn) (hx : s.nx < GridSize)
    (hy : s.ny < GridSize) (l : List Spawn) (hs : s ∈ l) (st : BirthState)
    (hwf : GridWF st.ents ∧ GridWF st.reprod) :
    getCell (l.foldl (spawnStep w now) st).ents s.nx s.ny none ≠ none ∧
    getCell (l.foldl (spawnStep w now) st).reprod s.nx s.ny 0 = now := by
  have hWF : ∀ (st : BirthState) (s2 : Spawn), GridWF st.ents ∧ GridWF st.reprod →
      GridWF (spawnStep w now st s2).ents ∧ GridWF (spawnStep w now st s2).reprod :=
    fun st s2 h => ⟨GridWF_setCell h.1 _ _ _, GridWF_setCell h.2 _ _ _⟩
  have hkeep : ∀ (st : BirthState) (s2 : Spawn),
      (GridWF st.ents ∧ GridWF st.reprod) ∧ getCell st.ents s.nx s.ny none ≠ none ∧
        getCell st.reprod s.nx s.ny 0 = now →
      (GridWF (spawnStep w now st s2).ents ∧ GridWF (spawnStep w now st s2).reprod) ∧
        getCell (spawnStep w now st s2).ents s.nx s.ny none ≠ none ∧
        getCell (spawnStep w now st s2).reprod s.nx s.ny 0 = now := by
    intro st s2 h
    refine ⟨hWF st s2 h.1, ?_, ?_⟩
    · unfold spawnStep
      dsimp only []
      by_cases hc : s.nx = s2.nx ∧ s.ny = s2.ny
      · rw [← hc.1, ← hc.2, getCell_set_self h.1.1 hx hy]
        exact fun h => by cases h
      · rw [getCell_setCell_ne _ _ _ _ _ _ _ (ne_cell_of_ne hc)]
        exact h.2.1
    · unfold spawnStep
      dsimp only []
      rcases getCell_setCell_cases st.reprod s2.nx s2.ny s.nx s.ny now 0 with h3 | h3
      · exact h3
      · rw [h3]
        exact h.2.2
  induction l generalizing st with
  | nil => cases hs
  | cons s2 rest ih =>
    rw [List.foldl_cons]
    rcases List.mem_cons.1 hs with heq | hrest
    · have hstep : (GridWF (spawnStep w now st s2).ents ∧ GridWF (spawnStep w now st s2).reprod) ∧
          getCell (spawnStep w now st s2).ents s.nx s.ny none ≠ none ∧
          getCell (spawnStep w now st s2).reprod s.nx s.ny 0 = now := by
        refine ⟨hWF st s2 hwf, ?_, ?_⟩
        · unfold spawnStep
          dsimp only []
          rw [← heq, getCell_set_self hwf.1 hx hy]
          exact fun h => by cases h
        · unfold spawnStep
          dsimp only []
          rw [← heq]
          exact getCell_setCell_self _ _ _ _ _ (by rw [hwf.2.1]; exact hy)
            (by rw [GridWF_row hwf.2 hy]; exact hx)
      exact (foldl_inv (spawnStep w now)
        (fun st => (GridWF st.ents ∧ GridWF st.reprod) ∧
          getCell st.ents s.nx s.ny none ≠ none ∧ getCell st.reprod s.nx s.ny 0 = now)
        hkeep rest _ hstep).2
    · exact ih hrest _ (hWF st s2 hwf)

theorem births_stamp_from (w : World) (now : Int) (s : Spawn) (hx : s.nx < GridSize)
    (hy : s.ny < GridSize) (l : List Spawn) (hs : s ∈ l) (ents : List (List (Option Entity)))
    (reprod : List (List Int)) (counters : Nat → Option Nat)
    (hwf : GridWF ents ∧ GridWF reprod) :
    getCell (l.foldl (spawnStep w now)
      { ents := ents, reprod := reprod, counters := counters }).ents s.nx s.ny none ≠ none ∧
    getCell (l.foldl (spawnStep w now)
      { ents := ents, reprod := reprod, counters := counters }).reprod s.nx s.ny 0 = now :=
  births_stamp w now s hx hy l hs { ents := ents, reprod := reprod, counters := counters } hwf

theorem reprodBody_spawns_grow (w : World) (d : PeaceDraws) (g : List (List (Option Entity)))
    (x y : Nat) (st : ReprodState) (s : Spawn) (h : s ∈ st.spawns) :
    s ∈ (reprodBody w d g x y st).spawns := by
  rcases reprodBody_cases w d g x y st with h1 | ⟨s2, h2, _, _, _⟩
  · rw [h1]
    exact h
  · rw [h2]
    exact List.mem_append_left _ h

/-- A tick in which a birth is recorded at the visit of cell `(x, y)`: at the end of
the tick that cell holds an entity with the reading of the clock as timestamp, and
so does the target of the birth. -/
theorem reproduce_stamps (w : World) (d : PeaceDraws) (hwf : w.WF) (x y : Nat) (s : Spawn)
    (hs : s ∈ newSpawns w d x y) :
    Cooling (PreWarUpdate w d) (x, y) d.reprodNow ∧
    Cooling (PreWarUpdate w d) (s.nx, s.ny) d.reprodNow := by
  have hgWF := (peaceMoved_WF w d hwf)
  have hbWF : GridWF (reprodBefore w d x y).reprod := by
    unfold reprodBefore
    exact loopBefore_inv (reprodBody w d (peaceMoved w d).ents) (fun s => GridWF s.reprod)
      (fun x2 y2 s hs => reprodBody_reprod_WF w d _ x2 y2 s hs) GridSize _ x y hgWF.2
  unfold newSpawns at hs
  rcases reprodBody_cases w d (peaceMoved w d).ents x y (reprodBefore w d x y) with
    h1 | ⟨s2, h2, h3, hocc, _⟩
  · rw [h1, List.drop_length] at hs
    cases hs
  · rw [h2, List.drop_left] at hs
    have hs2 : s = s2 := List.mem_singleton.1 hs
    cases hent : getCell (peaceMoved w d).ents x y none with
    | none => exact absurd hent hocc
    | some ent =>
      have hr := getCell_some_inRange hgWF.1 hent
      have hvisit : (GridWF (reprodBody w d (peaceMoved w d).ents x y
            (reprodBefore w d x y)).reprod ∧
          getCell (reprodBody w d (peaceMoved w d).ents x y (reprodBefore w d x y)).reprod
            x y 0 = d.reprodNow) ∧
          s ∈ (reprodBody w d (peaceMoved w d).ents x y (reprodBefore w d x y)).spawns := by
        refine ⟨⟨reprodBody_reprod_WF w d _ x y _ hbWF, ?_⟩, ?_⟩
        · rw [h3]
          exact getCell_setCell_self _ _ _ _ _ (by rw [hbWF.1]; exact hr.2)
            (by rw [GridWF_row hbWF hr.2]; exact hr.1)
        · rw [h2, hs2]
          exact List.mem_append_right _ (List.mem_singleton.2 rfl)
      have hfinal : (GridWF (peaceReprod w d).reprod ∧
          getCell (peaceReprod w d).reprod x y 0 = d.reprodNow) ∧
          s ∈ (peaceReprod w d).spawns := by
        unfold peaceReprod forCells
        unfold reprodBefore at hvisit
        exact loop_after_visit (reprodBody w d (peaceMoved w d).ents)
          (fun st => (GridWF st.reprod ∧ getCell st.reprod x y 0 = d.reprodNow) ∧ s ∈ st.spawns)
          (fun x2 y2 st hst => ⟨reprodBody_stamp w d _ x y d.reprodNow (Or.inl rfl) x2 y2 st hst.1,
            reprodBody_spawns_grow w d _ x2 y2 st s hst.2⟩)
          GridSize GridSize _ x y hr.1 hr.2 hvisit
      have hinv := (peaceReprod_inv w d hwf).2.2.2.2 s hfinal.2
      have hkeep := peaceBorn_keeps w d hwf hocc
      have hchild := births_stamp_from w d.reprodNow s hinv.2.1 hinv.2.2.1
        (peaceReprod w d).spawns hfinal.2 (peaceCrafted w d).ents (peaceReprod w d).reprod
        w.nextEntityID ⟨peaceCrafted_WF w d hwf, hfinal.1.1⟩
      refine ⟨⟨?_, ?_⟩, ⟨?_, ?_⟩⟩
      · show getCell (PreWarUpdate w d).Entities x y none ≠ none
        rw [PreWarUpdate_entities, hkeep.1]
        exact Upgraded_occupied (peaceCrafted_upgraded w d x y) hocc
      · show getCell (PreWarUpdate w d).lastReprodTime x y 0 = d.reprodNow
        rw [PreWarUpdate_reprod, hkeep.2]
        exact hfinal.1.2
      · show getCell (PreWarUpdate w d).Entities s.nx s.ny none ≠ none
        rw [PreWarUpdate_entities]
        exact hchild.1
      · show getCell (PreWarUpdate w d).lastReprodTime s.nx s.ny 0 = d.reprodNow
        rw [PreWarUpdate_reprod]
        exact hchild.2

/-- A visit of the reproduction loop that passes every test records a birth. -/
theorem reprodBody_birth (w : World) (d : PeaceDraws) (g : List (List (Option Entity)))
    (x y : Nat) (st : ReprodState) (ent : Entity) (dir : Int × Int)
    (hent : getCell g x y none = some ent) (hskip : st.skip ent.Tribe = false)
    (hstamp : getCell st.reprod x y 0 = 0)
    (hroll : d.reprodRoll x y < w.EntityStats.ReproductionRate)
    (hfind : (d.shuffled x y).find? (canSpawn w g x y ent.Tribe) = some dir) :
    (reprodBody w d g x y st).spawns
      = st.spawns ++ [{ nx := ((x : Int) + dir.1).toNat, ny := ((y : Int) + dir.2).toNat,
                        tribe := ent.Tribe }] := by
  unfold reprodBody
  rw [hent]
  dsimp only []
  rw [if_neg (by rw [hskip]; exact fun h => by cases h),
    if_neg (by rw [hstamp]; exact fun h => h.1 rfl), if_pos hroll, hfind]

theorem tribeCounts_empty (g : List (List (Option Entity)))
    (h : ∀ x y, getCell g x y none = none) (f : Nat) : tribeCounts g f = 0 := by
  have h0 := tribeCounts_nonneg g f
  by_contra hne
  obtain ⟨x, y, e, he, _⟩ := tribeCounts_pos_inv (g := g) (f := f) (by omega)
  rw [h x y] at he
  cases he

theorem reprodBefore_origin (w : World) (d : PeaceDraws) :
    reprodBefore w d 0 0
      = { counts := tribeCounts (peaceMoved w d).ents
          skip := skipStart w (tribeCounts (peaceMoved w d).ents)
          spawns := []
          reprod := (peaceMoved w d).reprod } := rfl

theorem nursery_WF : nursery.WF :=
  spawnAt_WF (paintCell_WF (paintCell_WF (withTribes_WF _) _ _ _) _ _ _) _ _ _

/-- The grid of `nursery` before the placement is empty. -/
theorem nursery_ground (x y : Nat) :
    getCell (paintCell (paintCell (withTribes verticalTribes) 0 0 1) 0 1 1).Entities x y none
      = none := by
  cases hc : getCell (paintCell (paintCell (withTribes verticalTribes) 0 0 1) 0 1 1).Entities
      x y none with
  | none => rfl
  | some e =>
    exfalso
    rw [paintCell_entities] at hc
    rcases getCell_setCell_some hc with ⟨_, _, hv⟩ | ⟨_, h2⟩
    · cases hv
    · rw [paintCell_entities] at h2
      rcases getCell_setCell_some h2 with ⟨_, _, hv⟩ | ⟨_, h3⟩
      · cases hv
      · rw [withTribes_entities] at h3
        cases h3

theorem nursery_birth :
    ({ nx := 0, ny := 1, tribe := 1 } : Spawn) ∈ newSpawns nursery birthDraws 0 0 := by
  have hG : GridWF (paintCell (paintCell (withTribes verticalTribes) 0 0 1) 0 1 1).Entities :=
    (paintCell_WF (paintCell_WF (withTribes_WF _) _ _ _) _ _ _).1
  have hR : GridWF
      (paintCell (paintCell (withTribes verticalTribes) 0 0 1) 0 1 1).lastReprodTime :=
    (paintCell_WF (paintCell_WF (withTribes_WF _) _ _ _) _ _ _).2.2.1
  have h0 : (0 : Nat) < GridSize := by decide
  have h1 : (1 : Nat) < GridSize := by decide
  have hmoved : peaceMoved nursery birthDraws
      = { ents := nursery.Entities, reprod := nursery.lastReprodTime } := rfl
  have hent : getCell (peaceMoved nursery birthDraws).ents 0 0 none
      = some (freshEntity 1
          ((counterOf (paintCell (paintCell (withTribes verticalTribes) 0 0 1) 0 1 1) 1 + 1)
            % 2 ^ 32)
          ((lookupTribe (paintCell (paintCell (withTribes verticalTribes) 0 0 1) 0 1 1).Tribes
            1).getD TribeConfig.zero).BaseEvasion) := by
    rw [hmoved]
    exact getCell_set_self hG h0 h0 _
  have hcount : tribeCounts (peaceMoved nursery birthDraws).ents 1 = 1 := by
    rw [hmoved]
    have e1 : tribeCounts nursery.Entities 1
        = tribeCounts (setCell
            (paintCell (paintCell (withTribes verticalTribes) 0 0 1) 0 1 1).Entities 0 0
            (some (freshEntity 1
              ((counterOf (paintCell (paintCell (withTribes verticalTribes) 0 0 1) 0 1 1) 1 + 1)
                % 2 ^ 32)
              ((lookupTribe
                (paintCell (paintCell (withTribes verticalTribes) 0 0 1) 0 1 1).Tribes
                1).getD TribeConfig.zero).BaseEvasion))) 1 := rfl
    have e2 : ∀ (id : Nat) (ev : ℚ), tribeInd (some (freshEntity 1 id ev)) 1 = 1 :=
      fun _ _ => rfl
    have e3 : tribeInd none 1 = 0 := rfl
    show tribeCounts nursery.Entities 1 = 1
    rw [e1, tribeCounts_setCell _ hG 0 0 h0 h0, tribeCounts_empty _ nursery_ground,
      nursery_ground, e2, e3]
    rfl
  have hskip : (reprodBefore nursery birthDraws 0 0).skip 1 = false := by
    rw [reprodBefore_origin]
    dsimp only []
    unfold skipStart
    rw [hcount]
    have hlow : ¬ ((((1 : Int) : ℚ)) / ((GridSize * GridSize : Nat) : ℚ)
        > nursery.EntityStats.MaxDensityFraction) := by
      show ¬ ((((1 : Int) : ℚ)) / ((GridSize * GridSize : Nat) : ℚ) > 30 / 1000)
      unfold GridSize
      norm_num
    rw [decide_eq_false hlow, Bool.and_false]
  have hstamp : getCell (reprodBefore nursery birthDraws 0 0).reprod 0 0 0 = 0 := by
    rw [reprodBefore_origin]
    dsimp only []
    rw [hmoved]
    exact getCell_setCell_self _ _ _ _ _ (by rw [hR.1]; exact h0)
      (by rw [GridWF_row hR h0]; exact h0)
  have hroll : birthDraws.reprodRoll 0 0 < nursery.EntityStats.ReproductionRate := by
    show (0 : ℚ) < 5 / 1000
    norm_num
  have hup : canSpawn nursery (peaceMoved nursery birthDraws).ents 0 0 1 (0, -1) = false := by
    unfold canSpawn
    dsimp only []
    rw [decide_eq_false (by decide), Bool.false_and]
  have hdown : canSpawn nursery (peaceMoved nursery birthDraws).ents 0 0 1 (0, 1) = true := by
    unfold canSpawn
    dsimp only []
    have hcell : getCell (peaceMoved nursery birthDraws).ents 0 1 none = none := by
      rw [hmoved]
      show getCell (setCell _ 0 0 _) 0 1 none = none
      rw [getCell_setCell_ne _ _ _ _ _ _ _ (Or.inr (by decide)), nursery_ground]
    have hterr : nursery.Terrain.getD (1 * GridSize + 0) 0 = 1 := by
      rw [nursery, spawnAt_terrain]
      exact (paintCell_self (paintCell_WF (withTribes_WF _) _ _ _) 1 h0 h1).1
    have hcan : CanReproduceOn 1 nursery 1 = true := rfl
    have hx : ((0 : Nat) : Int) + (0 : Int) = 0 := rfl
    have hy : ((0 : Nat) : Int) + (1 : Int) = 1 := rfl
    have h1n : Int.toNat 1 = 1 := rfl
    rw [hx, hy, Int.toNat_zero, h1n, hcell, hterr, hcan]
    rfl
  have hfind : (birthDraws.shuffled 0 0).find?
      (canSpawn nursery (peaceMoved nursery birthDraws).ents 0 0
        (freshEntity 1
          ((counterOf (paintCell (paintCell (withTribes verticalTribes) 0 0 1) 0 1 1) 1 + 1)
            % 2 ^ 32)
          ((lookupTribe (paintCell (paintCell (withTribes verticalTribes) 0 0 1) 0 1 1).Tribes
            1).getD TribeConfig.zero).BaseEvasion).Tribe) = some (0, 1) := by
    show directions.find? (canSpawn nursery (peaceMoved nursery birthDraws).ents 0 0 1)
      = some (0, 1)
    unfold directions
    rw [List.find?_cons_of_neg _ (by rw [hup]; exact fun h => by cases h),
      List.find?_cons_of_pos _ hdown]
  unfold newSpawns
  rw [reprodBody_birth nursery birthDraws _ 0 0 _ _ (0, 1) hent hskip hstamp hroll hfind]
  rw [List.drop_left]
  exact List.mem_singleton.2 rfl

/-- C22: take a peaceful tick of a well-formed world, read at a time `t0` that is
not the zero time (no reading of the clock is), in which the reproduction loop
records a birth `s` at the visit of cell `(x, y)`: the entity that the movement
phase left in `(x, y)` reproduces.  At the end of that tick the parent is in
`(x, y)` and a child in the target `(s.nx, s.ny)`, both with timestamp `t0`.  Then
through every sequence of later peaceful ticks read at times `t` with
`t - t0 < ReprodCooldown` (the targets of move resolution being visited once each),
the parent and the child are dormant: each tick carries the entity, with its
timestamp, to the cell `posAfter` whatever move it makes, the reproduction loop
records no birth at the visit of that cell, and the entity is still there at the
end of the tick. -/
theorem cooldown_window (w : World) (d0 : PeaceDraws) (ds : List PeaceDraws) (x y : Nat)
    (s : Spawn) (hwf : w.WF) (h0 : d0.reprodNow ≠ 0) (hs : s ∈ newSpawns w d0 x y)
    (hds : ∀ d ∈ ds, d.keyOrder.Nodup ∧
      d.reprodNow - d0.reprodNow < w.EntityStats.ReprodCooldown) :
    Cooling (PreWarUpdate w d0) (x, y) d0.reprodNow ∧
    Cooling (PreWarUpdate w d0) (s.nx, s.ny) d0.reprodNow ∧
    Dormant (PreWarUpdate w d0) (x, y) ds ∧
    Dormant (PreWarUpdate w d0) (s.nx, s.ny) ds := by
  obtain ⟨hp, hc⟩ := reproduce_stamps w d0 hwf x y s hs
  have hwf1 := PreWarUpdate_WF w d0 hwf
  have hds1 : ∀ d ∈ ds, d.keyOrder.Nodup ∧
      d.reprodNow - d0.reprodNow < (PreWarUpdate w d0).EntityStats.ReprodCooldown := by
    intro d hd
    rw [PreWarUpdate_stats]
    exact hds d hd
  exact ⟨hp, hc, dormant_run d0.reprodNow h0 ds _ _ hwf1 hp hds1,
    dormant_run d0.reprodNow h0 ds _ _ hwf1 hc hds1⟩

/-! ## The conflict-phase tick creates nothing -/

/-- What the damage and attrition steps leave in a cell counts, for every faction,
at most what move resolution left there. -/
theorem updateConflict_ind_le (w : World) (d : WarDraws) (hwf : w.WF)
    (hgo : w.gameOver = false) (f x y : Nat) (hx : x < GridSize) (hy : y < GridSize) :
    tribeInd (getCell (UpdateConflict w d).Entities x y none) f
      ≤ tribeInd (getCell (resolveMoves w d).ents x y none) f := by
  cases h : getCell (UpdateConflict w d).Entities x y none with
  | none => exact (tribeInd_range _ f).1
  | some e2 =>
    have h2 := h
    rw [updateConflict_cell w d hwf hgo x y hx hy] at h2
    obtain ⟨e1, h1, k1⟩ := attritionCell_keeps h2
    obtain ⟨e0, h0, k0⟩ := damageCell_keeps h1
    rw [cellOf_fst] at h0
    rw [h0]
    unfold tribeInd
    dsimp only []
    rw [k1.1, k0.1]

/-- C39: in a conflict-phase tick, for every outcome of the draws (the moves
proposed are those of entities towards free in-range cells, one per entity, and the
targets are visited once each), no faction has more live entities at the end of the
tick than at its start; the entities at the end descend from distinct entities of
the start, faction and identifier kept; and each of them was on the grid at the
start with the same faction, identifier, weapon, armor, rank and evasion: nothing
is created. -/
theorem conflict_tick_creates_nothing (w : World) (d : WarDraws) (hwf : w.WF)
    (hv : MovesValid w d.moves) (hnd : d.keyOrder.Nodup) :
    (∀ f, tribeCounts (UpdateConflict w d).Entities f ≤ tribeCounts w.Entities f) ∧
    Descends w.Entities (UpdateConflict w d).Entities ∧
    (∀ x y e2, getCell (UpdateConflict w d).Entities x y none = some e2 →
      ∃ x0 y0 e, getCell w.Entities x0 y0 none = some e ∧ sameKit e e2) := by
  refine ⟨?_, UpdateConflict_descends w d hwf hv hnd, ?_⟩
  · intro f
    cases hgo : w.gameOver with
    | true =>
      rw [updateConflict_frozen w d hgo]
    | false =>
      rw [← reloc_counts (resolveMoves_reloc w d hwf hv hnd) f]
      exact tribeCounts_le_of (fun x y hx hy => updateConflict_ind_le w d hwf hgo f x y hx hy)
  · intro x y e2 h
    have hr := getCell_some_inRange (UpdateConflict_WF w d hwf).1 h
    exact updateConflict_survivor w d hwf x y hr.1 hr.2 e2 h

/-- Witness of C39, on the duel with the Norscan stepping north: neither faction
has gained an entity at the end of the tick. -/
theorem conflict_tick_creates_nothing_witness :
    duelWorld.WF ∧ MovesValid duelWorld stepDraws.moves ∧ stepDraws.keyOrder.Nodup ∧
    ∀ f, tribeCounts (UpdateConflict duelWorld stepDraws).Entities f
      ≤ tribeCounts duelWorld.Entities f :=
  ⟨duelWorld_WF, stepDraws_valid, List.nodup_singleton _,
    (conflict_tick_creates_nothing duelWorld stepDraws duelWorld_WF stepDraws_valid
      (List.nodup_singleton _)).1⟩


/-! ## Terrain in a conflict-phase tick without victory -/

/-- A loop nest whose body adds `δ x y` to the observation `m`, under an invariant
indexed by the number of cells visited. -/
theorem loopCells_additive_indexed {σ : Type} (body : Nat → Nat → σ → σ) (m : σ → Int)
    (δ : Nat → Nat → Int) (I : Nat → σ → Prop) (cols : Nat)
    (hI : ∀ x y s, x < cols → I (y * cols + x) s → I (y * cols + x + 1) (body x y s))
    (hstep : ∀ x y s, x < cols → I (y * cols + x) s → m (body x y s) = m s + δ x y)
    (rows : Nat) (s : σ) (hs : I 0 s) :
    m (loopCells rows cols body s)
      = m s + ∑ y in Finset.range rows, ∑ x in Finset.range cols, δ x y := by
  have hrow : ∀ (y n : Nat) (s2 : σ), n ≤ cols → I (y * cols) s2 →
      I (y * cols + n) ((List.range n).foldl (fun s x => body x y s) s2) ∧
      m ((List.range n).foldl (fun s x => body x y s) s2)
        = m s2 + ∑ x in Finset.range n, δ x y := by
    intro y n s2
    induction n with
    | zero =>
      intro _ h
      exact ⟨h, by simp⟩
    | succ k ih =>
      intro hk h
      obtain ⟨h1, h2⟩ := ih (by omega) h
      rw [List.range_succ, List.foldl_append]
      simp only [List.foldl_cons, List.foldl_nil]
      refine ⟨hI k y _ (by omega) h1, ?_⟩
      rw [hstep k y _ (by omega) h1, h2, Finset.sum_range_succ]
      ring
  have hall : ∀ n, I (n * cols) (loopCells n cols body s) ∧
      m (loopCells n cols body s)
        = m s + ∑ y in Finset.range n, ∑ x in Finset.range cols, δ x y := by
    intro n
    induction n with
    | zero =>
      rw [Nat.zero_mul]
      exact ⟨hs, by simp [loopCells]⟩
    | succ n ih =>
      obtain ⟨h1, h2⟩ := ih
      obtain ⟨h3, h4⟩ := hrow n cols _ (le_refl _) h1
      rw [loopCells_succ, Nat.succ_mul]
      refine ⟨h3, ?_⟩
      rw [h4, h2, Finset.sum_range_succ]
      ring
  exact (hall rows).2

/-- The mining loop, cell by cell: the terrain code and the clear timestamp of an
in-range cell are written once, by the visit of that cell. -/
theorem mineLoop_view (ents : List (List (Option Entity))) (tribes : List (Nat × TribeConfig))
    (now : Int) (cx cy : Nat) (hx : cx < GridSize) (hy : cy < GridSize) (st : MineState)
    (hst : st.terrain.length = GridSize * GridSize ∧ GridWF st.cleared) :
    ((forCells (mineBody ents tribes now) st).terrain.getD (cy * GridSize + cx) 0,
      getCell (forCells (mineBody ents tribes now) st).cleared cx cy 0)
      = mineCell tribes now (getCell ents cx cy none)
          (st.terrain.getD (cy * GridSize + cx) 0, getCell st.cleared cx cy 0) := by
  unfold forCells
  have h := loopCells_local (mineBody ents tribes now)
    (fun s => (s.terrain.getD (cy * GridSize + cx) 0, getCell s.cleared cx cy 0))
    (mineCell tribes now (getCell ents cx cy none))
    (fun s => s.terrain.length = GridSize * GridSize ∧ GridWF s.cleared) cx cy
    (fun x y s hs => mineBody_WF ents tribes now x y s hs) ?_ ?_ GridSize st hst
  · rw [if_pos ⟨hy, hx⟩] at h
    exact h
  · intro x y s hxr hs hne
    dsimp only []
    unfold mineBody
    cases getCell ents x y none with
    | none => rfl
    | some ent =>
      dsimp only []
      by_cases hres : s.terrain.getD (y * GridSize + x) 0 = TerrainTrees ∨
          s.terrain.getD (y * GridSize + x) 0 = TerrainRocks
      · rw [if_pos hres]
        cases lookupTribe tribes ent.Tribe with
        | none => rfl
        | some c =>
          dsimp only []
          rw [getD_set_ne _ _ _ _ _ (cellIndex_inj hxr hx hne)]
          by_cases ht : s.terrain.getD (y * GridSize + x) 0 = TerrainTrees
          · rw [if_pos ht, getCell_setCell_ne _ _ _ _ _ _ _ (by omega)]
          · rw [if_neg ht]
      · rw [if_neg hres]
  · intro s hs
    dsimp only []
    unfold mineBody mineCell
    cases getCell ents cx cy none with
    | none => rfl
    | some ent =>
      dsimp only []
      by_cases hres : s.terrain.getD (cy * GridSize + cx) 0 = TerrainTrees ∨
          s.terrain.getD (cy * GridSize + cx) 0 = TerrainRocks
      · rw [if_pos hres, if_pos hres]
        cases lookupTribe tribes ent.Tribe with
        | none => rfl
        | some c =>
          dsimp only []
          rw [getD_set_self _ _ _ _ (by rw [hs.1]; exact cellIndex_lt hx hy)]
          by_cases ht : s.terrain.getD (cy * GridSize + cx) 0 = TerrainTrees
          · rw [if_pos ht, if_pos ht,
              getCell_setCell_self _ _ _ _ _ (by rw [hs.2.1]; exact hy)
                (by rw [GridWF_row hs.2 hy]; exact hx)]
          · rw [if_neg ht, if_neg ht]
      · rw [if_neg hres, if_neg hres]

theorem ledgerOf_getD (r : Nat → Option TribeResources) (t : Nat) :
    ledgerOf r t = (((r t).getD { Wood := 0, Stone := 0 }).Wood,
      ((r t).getD { Wood := 0, Stone := 0 }).Stone) := by
  unfold ledgerOf
  cases r t <;> rfl

/-- What the visit of one cell by the mining loop adds to the ledger of faction
`f`, when the cell still carries its terrain code of before the loop. -/
theorem mineBody_credit (w : World) (now : Int) (x y : Nat) (st : MineState)
    (hterr : st.terrain.getD (y * GridSize + x) 0 = w.Terrain.getD (y * GridSize + x) 0)
    (f : Nat) :
    (ledgerOf (mineBody w.Entities w.Tribes now x y st).resources f).1
      = (ledgerOf st.resources f).1
        + (if (lookupTribe w.Tribes f).isSome then standsOn w f TerrainTrees x y else 0) ∧
    (ledgerOf (mineBody w.Entities w.Tribes now x y st).resources f).2
      = (ledgerOf st.resources f).2
        + (if (lookupTribe w.Tribes f).isSome then standsOn w f TerrainRocks x y else 0) := by
  unfold mineBody standsOn
  rw [hterr]
  cases getCell w.Entities x y none with
  | none => simp
  | some e =>
    dsimp only []
    by_cases hres : w.Terrain.getD (y * GridSize + x) 0 = TerrainTrees ∨
        w.Terrain.getD (y * GridSize + x) 0 = TerrainRocks
    · rw [if_pos hres]
      cases hl : lookupTribe w.Tribes e.Tribe with
      | none =>
        dsimp only []
        have hz : ∀ code : Nat, (if (lookupTribe w.Tribes f).isSome = true then
            (if e.Tribe = f ∧ w.Terrain.getD (y * GridSize + x) 0 = code then (1 : Int) else 0)
            else 0) = 0 := by
          intro code
          by_cases hf : e.Tribe = f
          · rw [← hf, hl]
            rfl
          · have hn : ¬ (e.Tribe = f ∧ w.Terrain.getD (y * GridSize + x) 0 = code) :=
              fun h => hf h.1
            rw [if_neg hn]
            simp
        rw [hz, hz]
        simp
      | some cfg =>
        dsimp only []
        rw [ledgerOf_setKey]
        by_cases hf : f = e.Tribe
        · subst hf
          rw [if_pos rfl, hl, ledgerOf_getD st.resources e.Tribe]
          rcases hres with ht | ht
          · rw [ht]
            simp [TerrainTrees, TerrainRocks]
          · rw [ht]
            simp [TerrainTrees, TerrainRocks]
        · have h1 : ¬ (e.Tribe = f ∧ w.Terrain.getD (y * GridSize + x) 0 = TerrainTrees) :=
            fun h => hf h.1.symm
          have h2 : ¬ (e.Tribe = f ∧ w.Terrain.getD (y * GridSize + x) 0 = TerrainRocks) :=
            fun h => hf h.1.symm
          rw [if_neg hf, if_neg h1, if_neg h2]
          simp
    · rw [if_neg hres]
      have h1 : ¬ (e.Tribe = f ∧ w.Terrain.getD (y * GridSize + x) 0 = TerrainTrees) :=
        fun h => hres (Or.inl h.2)
      have h2 : ¬ (e.Tribe = f ∧ w.Terrain.getD (y * GridSize + x) 0 = TerrainRocks) :=
        fun h => hres (Or.inr h.2)
      rw [if_neg h1, if_neg h2]
      simp

/-- The ledgers after the mining loop: a registered faction is credited one wood
for each forest cell and one stone for each rock cell its entities stand on. -/
theorem mineLoop_credit (w : World) (now : Int) (hwf : w.WF) (f : Nat) :
    (ledgerOf (mined w now).resources f).1
      = (ledgerOf w.resources f).1
        + (if (lookupTribe w.Tribes f).isSome then standingOn w f TerrainTrees else 0) ∧
    (ledgerOf (mined w now).resources f).2
      = (ledgerOf w.resources f).2
        + (if (lookupTribe w.Tribes f).isSome then standingOn w f TerrainRocks else 0) := by
  have hI : ∀ x y (s : MineState), x < GridSize →
      (s.terrain.length = GridSize * GridSize ∧ GridWF s.cleared ∧
        ∀ j, y * GridSize + x ≤ j → s.terrain.getD j 0 = w.Terrain.getD j 0) →
      ((mineBody w.Entities w.Tribes now x y s).terrain.length = GridSize * GridSize ∧
        GridWF (mineBody w.Entities w.Tribes now x y s).cleared ∧
        ∀ j, y * GridSize + x + 1 ≤ j →
          (mineBody w.Entities w.Tribes now x y s).terrain.getD j 0 = w.Terrain.getD j 0) := by
    intro x y s _ hs
    have hwf2 := mineBody_WF w.Entities w.Tribes now x y s ⟨hs.1, hs.2.1⟩
    refine ⟨hwf2.1, hwf2.2, ?_⟩
    intro j hj
    rw [← hs.2.2 j (by omega)]
    unfold mineBody
    cases getCell w.Entities x y none with
    | none => rfl
    | some e =>
      dsimp only []
      by_cases hres : s.terrain.getD (y * GridSize + x) 0 = TerrainTrees ∨
          s.terrain.getD (y * GridSize + x) 0 = TerrainRocks
      · rw [if_pos hres]
        cases lookupTribe w.Tribes e.Tribe with
        | none => rfl
        | some cfg => exact getD_set_ne _ _ _ _ _ (by omega)
      · rw [if_neg hres]
  have hstart : (w.Terrain.length = GridSize * GridSize ∧ GridWF w.lastClearedTime ∧
      ∀ j, 0 ≤ j → w.Terrain.getD j 0 = w.Terrain.getD j 0) :=
    ⟨hwf.2.1, hwf.2.2.2, fun _ _ => rfl⟩
  constructor
  · have h := loopCells_additive_indexed (mineBody w.Entities w.Tribes now)
      (fun s => (ledgerOf s.resources f).1)
      (fun x y => if (lookupTribe w.Tribes f).isSome then standsOn w f TerrainTrees x y else 0)
      (fun k s => s.terrain.length = GridSize * GridSize ∧ GridWF s.cleared ∧
        ∀ j, k ≤ j → s.terrain.getD j 0 = w.Terrain.getD j 0) GridSize hI
      (fun x y s _ hs => (mineBody_credit w now x y s (hs.2.2 _ (le_refl _)) f).1) GridSize
      { terrain := w.Terrain, resources := w.resources, cleared := w.lastClearedTime } hstart
    unfold mined forCells
    refine h.trans ?_
    show (ledgerOf w.resources f).1 + (∑ y in Finset.range GridSize,
      ∑ x in Finset.range GridSize,
        if (lookupTribe w.Tribes f).isSome = true then standsOn w f TerrainTrees x y else 0) = _
    unfold standingOn
    by_cases hf : (lookupTribe w.Tribes f).isSome = true
    · simp only [if_pos hf]
    · simp only [if_neg hf, Finset.sum_const_zero]
  · have h := loopCells_additive_indexed (mineBody w.Entities w.Tribes now)
      (fun s => (ledgerOf s.resources f).2)
      (fun x y => if (lookupTribe w.Tribes f).isSome then standsOn w f TerrainRocks x y else 0)
      (fun k s => s.terrain.length = GridSize * GridSize ∧ GridWF s.cleared ∧
        ∀ j, k ≤ j → s.terrain.getD j 0 = w.Terrain.getD j 0) GridSize hI
      (fun x y s _ hs => (mineBody_credit w now x y s (hs.2.2 _ (le_refl _)) f).2) GridSize
      { terrain := w.Terrain, resources := w.resources, cleared := w.lastClearedTime } hstart
    unfold mined forCells
    refine h.trans ?_
    show (ledgerOf w.resources f).2 + (∑ y in Finset.range GridSize,
      ∑ x in Finset.range GridSize,
        if (lookupTribe w.Tribes f).isSome = true then standsOn w f TerrainRocks x y else 0) = _
    unfold standingOn
    by_cases hf : (lookupTribe w.Tribes f).isSome = true
    · simp only [if_pos hf]
    · simp only [if_neg hf, Finset.sum_const_zero]

/-- C31: in the mining step of a peaceful tick on a well-formed world, every
in-range cell occupied by an entity of a registered faction whose terrain is forest
or rock gets the home terrain of that faction; its clear timestamp is set to the
current time when it was forest and is left as it was when it was rock; every
other cell keeps its terrain code (and its clear timestamp); and the wood of a
registered faction increases by exactly the number of forest cells, its stone by
exactly the number of rock cells, that its entities stand on. -/
theorem mining_step (w : World) (now : Int) (hwf : w.WF) :
    (∀ x y e cfg, x < GridSize → y < GridSize → getCell w.Entities x y none = some e →
      lookupTribe w.Tribes e.Tribe = some cfg →
      (w.Terrain.getD (y * GridSize + x) 0 = TerrainTrees →
        (mined w now).terrain.getD (y * GridSize + x) 0 = cfg.HomeTerrain ∧
        getCell (mined w now).cleared x y 0 = now) ∧
      (w.Terrain.getD (y * GridSize + x) 0 = TerrainRocks →
        (mined w now).terrain.getD (y * GridSize + x) 0 = cfg.HomeTerrain ∧
        getCell (mined w now).cleared x y 0 = getCell w.lastClearedTime x y 0)) ∧
    (∀ x y, x < GridSize → y < GridSize →
      ¬ (∃ e cfg, getCell w.Entities x y none = some e ∧
          lookupTribe w.Tribes e.Tribe = some cfg ∧
          (w.Terrain.getD (y * GridSize + x) 0 = TerrainTrees ∨
            w.Terrain.getD (y * GridSize + x) 0 = TerrainRocks)) →
      (mined w now).terrain.getD (y * GridSize + x) 0 = w.Terrain.getD (y * GridSize + x) 0 ∧
      getCell (mined w now).cleared x y 0 = getCell w.lastClearedTime x y 0) ∧
    (∀ f, (lookupTribe w.Tribes f).isSome = true →
      (ledgerOf (mined w now).resources f).1
        = (ledgerOf w.resources f).1 + standingOn w f TerrainTrees ∧
      (ledgerOf (mined w now).resources f).2
        = (ledgerOf w.resources f).2 + standingOn w f TerrainRocks) := by
  have hview : ∀ x y, x < GridSize → y < GridSize →
      ((mined w now).terrain.getD (y * GridSize + x) 0, getCell (mined w now).cleared x y 0)
        = mineCell w.Tribes now (getCell w.Entities x y none)
            (w.Terrain.getD (y * GridSize + x) 0, getCell w.lastClearedTime x y 0) :=
    fun x y hx hy => mineLoop_view w.Entities w.Tribes now x y hx hy
      { terrain := w.Terrain, resources := w.resources, cleared := w.lastClearedTime }
      ⟨hwf.2.1, hwf.2.2.2⟩
  refine ⟨?_, ?_, ?_⟩
  · intro x y e cfg hx hy he hcfg
    have h := hview x y hx hy
    unfold mineCell at h
    rw [he] at h
    dsimp only [] at h
    rw [hcfg] at h
    dsimp only [] at h
    constructor
    · intro ht
      rw [if_pos (Or.inl ht), if_pos ht] at h
      exact ⟨congrArg Prod.fst h, congrArg Prod.snd h⟩
    · intro ht
      have hnt : ¬ w.Terrain.getD (y * GridSize + x) 0 = TerrainTrees := by
        rw [ht]
        decide
      rw [if_pos (Or.inr ht), if_neg hnt] at h
      exact ⟨congrArg Prod.fst h, congrArg Prod.snd h⟩
  · intro x y hx hy hno
    have h := hview x y hx hy
    have hsame : mineCell w.Tribes now (getCell w.Entities x y none)
        (w.Terrain.getD (y * GridSize + x) 0, getCell w.lastClearedTime x y 0)
        = (w.Terrain.getD (y * GridSize + x) 0, getCell w.lastClearedTime x y 0) := by
      unfold mineCell
      cases he : getCell w.Entities x y none with
      | none => rfl
      | some e =>
        dsimp only []
        by_cases hres : w.Terrain.getD (y * GridSize + x) 0 = TerrainTrees ∨
            w.Terrain.getD (y * GridSize + x) 0 = TerrainRocks
        · rw [if_pos hres]
          cases hl : lookupTribe w.Tribes e.Tribe with
          | none => rfl
          | some cfg => exact absurd ⟨e, cfg, he, hl, hres⟩ hno
        · rw [if_neg hres]
    rw [hsame] at h
    exact ⟨congrArg Prod.fst h, congrArg Prod.snd h⟩
  · intro f hf
    have h := mineLoop_credit w now hwf f
    rw [if_pos hf, if_pos hf] at h
    exact h

theorem quarry_WF : quarry.WF :=
  spawnAt_WF (paintCell_WF (withTribes_WF _) _ _ _) _ _ _

/-- Witness of C31, on the quarry at clock reading 7: the forest of cell (5, 5)
becomes red, the home terrain of the Nomad that stands on it, and its clear
timestamp becomes 7. -/
theorem mining_step_witness :
    quarry.WF ∧ (5 : Nat) < GridSize ∧
    getCell quarry.Entities 5 5 none = some (freshEntity 1 1 0) ∧
    lookupTribe quarry.Tribes 1 = some (verticalTribes.getD 0 (0, TribeConfig.zero)).2 ∧
    quarry.Terrain.getD (5 * GridSize + 5) 0 = TerrainTrees ∧
    (mined quarry 7).terrain.getD (5 * GridSize + 5) 0 = TerrainRed ∧
    getCell (mined quarry 7).cleared 5 5 0 = 7 :=
  have h5 : (5 : Nat) < GridSize := by decide
  have hp : (paintCell (withTribes verticalTribes) 5 5 TerrainTrees).WF :=
    paintCell_WF (withTribes_WF _) _ _ _
  have he : getCell quarry.Entities 5 5 none = some (freshEntity 1 1 0) :=
    getCell_setCell_self _ _ _ _ _ (by rw [hp.1.1]; exact h5)
      (by rw [GridWF_row hp.1 h5]; exact h5)
  have hl : lookupTribe quarry.Tribes 1 = some (verticalTribes.getD 0 (0, TribeConfig.zero)).2 :=
    rfl
  have ht : quarry.Terrain.getD (5 * GridSize + 5) 0 = TerrainTrees :=
    (paintCell_self (withTribes_WF verticalTribes) TerrainTrees h5 h5).1
  have h := ((mining_step quarry 7 quarry_WF).1 5 5 (freshEntity 1 1 0) _ h5 h5 he hl).1 ht
  ⟨quarry_WF, h5, he, hl, ht, h.1, h.2⟩


/-! ## The regrowth step -/

/-- The regrowth loop, cell by cell: the terrain code and the clear timestamp of an
in-range cell are written once, by the visit of that cell. -/
theorem regrowLoop_view (ents : List (List (Option Entity)))
    (tribes : List (Nat × TribeConfig)) (now : Int) (cx cy : Nat) (hx : cx < GridSize)
    (hy : cy < GridSize) (st : MineState)
    (hst : st.terrain.length = GridSize * GridSize ∧ GridWF st.cleared) :
    ((forCells (regrowBody ents tribes now) st).terrain.getD (cy * GridSize + cx) 0,
      getCell (forCells (regrowBody ents tribes now) st).cleared cx cy 0)
      = regrowCell tribes now (getCell ents cx cy none)
          (st.terrain.getD (cy * GridSize + cx) 0, getCell st.cleared cx cy 0) := by
  unfold forCells
  have h := loopCells_local (regrowBody ents tribes now)
    (fun s => (s.terrain.getD (cy * GridSize + cx) 0, getCell s.cleared cx cy 0))
    (regrowCell tribes now (getCell ents cx cy none))
    (fun s => s.terrain.length = GridSize * GridSize ∧ GridWF s.cleared) cx cy
    (fun x y s hs => regrowBody_WF ents tribes now x y s hs) ?_ ?_ GridSize st hst
  · rw [if_pos ⟨hy, hx⟩] at h
    exact h
  · intro x y s hxr hs hne
    dsimp only []
    unfold regrowBody
    by_cases h1 : getCell ents x y none = none
    · rw [if_pos h1]
      by_cases h2 : getCell s.cleared x y 0 ≠ 0 ∧ now - getCell s.cleared x y 0 ≥ 20000000000
      · rw [if_pos h2]
        by_cases h3 : tribes.any
            (fun p => decide (s.terrain.getD (y * GridSize + x) 0 = p.2.HomeTerrain)) = true
        · rw [if_pos h3]
          dsimp only []
          rw [getD_set_ne _ _ _ _ _ (cellIndex_inj hxr hx hne),
            getCell_setCell_ne _ _ _ _ _ _ _ (by omega)]
        · rw [if_neg h3]
      · rw [if_neg h2]
    · rw [if_neg h1]
  · intro s hs
    dsimp only []
    unfold regrowBody regrowCell
    by_cases h1 : getCell ents cx cy none = none
    · rw [if_pos h1, if_pos h1]
      dsimp only []
      by_cases h2 : getCell s.cleared cx cy 0 ≠ 0 ∧
          now - getCell s.cleared cx cy 0 ≥ 20000000000
      · rw [if_pos h2, if_pos h2]
        by_cases h3 : tribes.any
            (fun p => decide (s.terrain.getD (cy * GridSize + cx) 0 = p.2.HomeTerrain)) = true
        · rw [if_pos h3, if_pos h3]
          dsimp only []
          rw [getD_set_self _ _ _ _ (by rw [hs.1]; exact cellIndex_lt hx hy),
            getCell_setCell_self _ _ _ _ _ (by rw [hs.2.1]; exact hy)
              (by rw [GridWF_row hs.2 hy]; exact hx)]
        · rw [if_neg h3, if_neg h3]
      · rw [if_neg h2, if_neg h2]
    · rw [if_neg h1, if_neg h1]

theorem mined_WF (w : World) (now : Int) (hwf : w.WF) :
    (mined w now).terrain.length = GridSize * GridSize ∧ GridWF (mined w now).cleared :=
  loopCells_inv (mineBody w.Entities w.Tribes now)
    (fun s => s.terrain.length = GridSize * GridSize ∧ GridWF s.cleared)
    (fun x y s hs => mineBody_WF w.Entities w.Tribes now x y s hs) _ _ _ ⟨hwf.2.1, hwf.2.2.2⟩

/-- C32: in the regrowth step of a peaceful tick on a well-formed world, with the
clock reading `now` taken as an input, an in-range cell reverts to forest and has
its clear timestamp emptied when it is unoccupied, its clear timestamp is non-empty
and at least 20 seconds old, and its current terrain is the home terrain of some
entry of the registry; a cell that fails one of these conditions keeps its terrain
and its timestamp.  The terrain and the timestamp that the step reads are those
left by the mining step run just before, which for an unoccupied cell are those
the cell had before the mining step. -/
theorem regrowth_step (w : World) (now : Int) (hwf : w.WF) (x y : Nat) (hx : x < GridSize)
    (hy : y < GridSize) :
    ((getCell w.Entities x y none = none ∧ getCell (mined w now).cleared x y 0 ≠ 0 ∧
        now - getCell (mined w now).cleared x y 0 ≥ 20000000000 ∧
        ∃ p ∈ w.Tribes, (mined w now).terrain.getD (y * GridSize + x) 0 = p.2.HomeTerrain) →
      (regrown w now).terrain.getD (y * GridSize + x) 0 = TerrainTrees ∧
      getCell (regrown w now).cleared x y 0 = 0) ∧
    (¬ (getCell w.Entities x y none = none ∧ getCell (mined w now).cleared x y 0 ≠ 0 ∧
        now - getCell (mined w now).cleared x y 0 ≥ 20000000000 ∧
        ∃ p ∈ w.Tribes, (mined w now).terrain.getD (y * GridSize + x) 0 = p.2.HomeTerrain) →
      (regrown w now).terrain.getD (y * GridSize + x) 0
        = (mined w now).terrain.getD (y * GridSize + x) 0 ∧
      getCell (regrown w now).cleared x y 0 = getCell (mined w now).cleared x y 0) ∧
    (getCell w.Entities x y none = none →
      (mined w now).terrain.getD (y * GridSize + x) 0 = w.Terrain.getD (y * GridSize + x) 0 ∧
      getCell (mined w now).cleared x y 0 = getCell w.lastClearedTime x y 0) := by
  have h := regrowLoop_view w.Entities w.Tribes now x y hx hy (mined w now) (mined_WF w now hwf)
  have hany : ∀ t : Nat, (w.Tribes.any (fun p => decide (t = p.2.HomeTerrain)) = true)
      ↔ ∃ p ∈ w.Tribes, t = p.2.HomeTerrain := by
    intro t
    rw [List.any_eq_true]
    constructor
    · rintro ⟨p, hp, hd⟩
      exact ⟨p, hp, of_decide_eq_true hd⟩
    · rintro ⟨p, hp, hd⟩
      exact ⟨p, hp, decide_eq_true hd⟩
  unfold regrowCell at h
  dsimp only [] at h
  refine ⟨?_, ?_, ?_⟩
  · rintro ⟨h1, h2, h3, h4⟩
    rw [if_pos h1, if_pos ⟨h2, h3⟩, if_pos ((hany _).2 h4)] at h
    exact ⟨congrArg Prod.fst h, congrArg Prod.snd h⟩
  · intro hno
    have hsame : (if getCell w.Entities x y none = none then
          if getCell (mined w now).cleared x y 0 ≠ 0 ∧
              now - getCell (mined w now).cleared x y 0 ≥ 20000000000 then
            if w.Tribes.any (fun p =>
                decide ((mined w now).terrain.getD (y * GridSize + x) 0 = p.2.HomeTerrain))
                = true then (TerrainTrees, (0 : Int))
            else ((mined w now).terrain.getD (y * GridSize + x) 0,
              getCell (mined w now).cleared x y 0)
          else ((mined w now).terrain.getD (y * GridSize + x) 0,
            getCell (mined w now).cleared x y 0)
        else ((mined w now).terrain.getD (y * GridSize + x) 0,
          getCell (mined w now).cleared x y 0))
        = ((mined w now).terrain.getD (y * GridSize + x) 0,
          getCell (mined w now).cleared x y 0) := by
      by_cases h1 : getCell w.Entities x y none = none
      · rw [if_pos h1]
        by_cases h2 : getCell (mined w now).cleared x y 0 ≠ 0 ∧
            now - getCell (mined w now).cleared x y 0 ≥ 20000000000
        · rw [if_pos h2]
          by_cases h3 : w.Tribes.any (fun p =>
              decide ((mined w now).terrain.getD (y * GridSize + x) 0 = p.2.HomeTerrain)) = true
          · exact absurd ⟨h1, h2.1, h2.2, (hany _).1 h3⟩ hno
          · rw [if_neg h3]
        · rw [if_neg h2]
      · rw [if_neg h1]
    rw [hsame] at h
    exact ⟨congrArg Prod.fst h, congrArg Prod.snd h⟩
  · intro h1
    have hm := mineLoop_view w.Entities w.Tribes now x y hx hy
      { terrain := w.Terrain, resources := w.resources, cleared := w.lastClearedTime }
      ⟨hwf.2.1, hwf.2.2.2⟩
    unfold mineCell at hm
    rw [h1] at hm
    exact ⟨congrArg Prod.fst hm, congrArg Prod.snd hm⟩

theorem clearing_WF : clearing.WF :=
  have h : redCellWorld.WF := paintCell_WF (withTribes_WF _) _ _ _
  ⟨h.1, h.2.1, h.2.2.1, GridWF_setCell h.2.2.2 _ _ _⟩

/-- Witness of C32, on the clearing at clock reading 20 s + 1 ns: the empty red
cell (5, 5), cleared at reading 1, is forest again and its timestamp is empty. -/
theorem regrowth_step_witness :
    clearing.WF ∧ (5 : Nat) < GridSize ∧
    (getCell clearing.Entities 5 5 none = none ∧
      getCell (mined clearing 20000000001).cleared 5 5 0 ≠ 0 ∧
      20000000001 - getCell (mined clearing 20000000001).cleared 5 5 0 ≥ 20000000000 ∧
      ∃ p ∈ clearing.Tribes,
        (mined clearing 20000000001).terrain.getD (5 * GridSize + 5) 0 = p.2.HomeTerrain) ∧
    (regrown clearing 20000000001).terrain.getD (5 * GridSize + 5) 0 = TerrainTrees ∧
    getCell (regrown clearing 20000000001).cleared 5 5 0 = 0 :=
  have h5 : (5 : Nat) < GridSize := by decide
  have hr : redCellWorld.WF := paintCell_WF (withTribes_WF _) _ _ _
  have hall := regrowth_step clearing 20000000001 clearing_WF 5 5 h5 h5
  have he : getCell clearing.Entities 5 5 none = none :=
    (paintCell_self (withTribes_WF verticalTribes) 1 h5 h5).2.1
  have hc : getCell clearing.lastClearedTime 5 5 0 = 1 :=
    getCell_setCell_self _ _ _ _ _ (by rw [hr.2.2.2.1]; exact h5)
      (by rw [GridWF_row hr.2.2.2 h5]; exact h5)
  have ht : clearing.Terrain.getD (5 * GridSize + 5) 0 = 1 :=
    (paintCell_self (withTribes_WF verticalTribes) 1 h5 h5).1
  have hm := hall.2.2 he
  have hcond : getCell clearing.Entities 5 5 none = none ∧
      getCell (mined clearing 20000000001).cleared 5 5 0 ≠ 0 ∧
      20000000001 - getCell (mined clearing 20000000001).cleared 5 5 0 ≥ 20000000000 ∧
      ∃ p ∈ clearing.Tribes,
        (mined clearing 20000000001).terrain.getD (5 * GridSize + 5) 0 = p.2.HomeTerrain := by
    rw [hm.1, hm.2, hc, ht]
    refine ⟨he, by decide, by decide, ?_⟩
    exact ⟨verticalTribes.getD 0 (0, TribeConfig.zero), List.mem_cons_self _ _, rfl⟩
  ⟨clearing_WF, h5, hcond, hall.1 hcond⟩


/-! ## The crafting step -/

/-- The crafting loop does not touch an entity that does not stand on the home
terrain of its faction. -/
theorem craftLoop_away (w : World) (d : PeaceDraws) (cx cy : Nat) (ent : Entity)
    (cfg : TribeConfig) (hcfg : lookupTribe w.Tribes ent.Tribe = some cfg)
    (haway : w.Terrain.getD (cy * GridSize + cx) 0 ≠ cfg.HomeTerrain) (st : CraftState)
    (hst : getCell st.ents cx cy none = some ent) :
    getCell (forCells (craftBody w d) st).ents cx cy none = some ent := by
  unfold forCells
  apply loopCells_inv (craftBody w d) (fun s => getCell s.ents cx cy none = some ent) _ _ _ _ hst
  intro x y s hs
  unfold craftBody
  cases hocc : getCell s.ents x y none with
  | none => exact hs
  | some e =>
    dsimp only []
    cases hl : lookupTribe w.Tribes e.Tribe with
    | none => exact hs
    | some c =>
      dsimp only []
      by_cases hev : w.Terrain.getD (y * GridSize + x) 0 = c.HomeTerrain ∧
          d.craftRoll x y < 2 / 100
      · rw [if_pos hev]
        cases s.resources e.Tribe with
        | none => exact hs
        | some res =>
          dsimp only []
          have hne : cx ≠ x ∨ cy ≠ y := by
            by_contra hcon
            have h1 : cx = x := by
              by_contra h
              exact hcon (Or.inl h)
            have h2 : cy = y := by
              by_contra h
              exact hcon (Or.inr h)
            subst h1
            subst h2
            rw [hs] at hocc
            cases hocc
            rw [hcfg] at hl
            cases hl
            exact haway hev.1
          rw [getCell_setCell_ne _ _ _ _ _ _ _ hne]
          exact hs
      · rw [if_neg hev]
        exact hs

/-! ## Ties in the divider conversion -/

/-- The loop that picks the most common code keeps the first key, in the order of
the iteration, that carries the highest count. -/
theorem chooseLoop_first (counts : Nat → Int) (l : List Nat) (st : Int × Nat) (hst : 0 ≤ st.1) :
    (((l.filter (fun c => decide (counts c > 0))).foldl (chooseStep counts) st) = st ∧
      ∀ c ∈ l, counts c ≤ st.1) ∨
    ∃ pre post,
      l = pre ++ ((l.filter (fun c => decide (counts c > 0))).foldl (chooseStep counts) st).2
        :: post ∧
      counts ((l.filter (fun c => decide (counts c > 0))).foldl (chooseStep counts) st).2
        = ((l.filter (fun c => decide (counts c > 0))).foldl (chooseStep counts) st).1 ∧
      st.1 < ((l.filter (fun c => decide (counts c > 0))).foldl (chooseStep counts) st).1 ∧
      (∀ c ∈ pre,
        counts c < ((l.filter (fun c => decide (counts c > 0))).foldl (chooseStep counts) st).1) ∧
      ∀ c ∈ post,
        counts c ≤ ((l.filter (fun c => decide (counts c > 0))).foldl (chooseStep counts) st).1 := by
  induction l generalizing st with
  | nil => exact Or.inl ⟨rfl, fun c hc => absurd hc (List.not_mem_nil c)⟩
  | cons k rest ih =>
    by_cases hpos : counts k > 0
    · rw [List.filter_cons_of_pos (by simpa using hpos), List.foldl_cons]
      by_cases hgt : counts k > st.1
      · have hstep : chooseStep counts st k = (counts k, k) := by
          unfold chooseStep
          rw [if_pos hgt]
        rw [hstep]
        rcases ih (counts k, k) (le_of_lt hpos) with ⟨heq, hall⟩ | ⟨pre, post, hl, hc, hlt, hpre, hpost⟩
        · right
          rw [heq]
          exact ⟨[], rest, rfl, rfl, hgt, fun c hc => absurd hc (List.not_mem_nil c), hall⟩
        · right
          refine ⟨k :: pre, post, ?_, hc, lt_trans hgt hlt, ?_, hpost⟩
          · rw [List.cons_append, ← hl]
          · intro c hc2
            rcases List.mem_cons.1 hc2 with e | hm
            · rw [e]
              exact hlt
            · exact hpre c hm
      · have hstep : chooseStep counts st k = st := by
          unfold chooseStep
          rw [if_neg hgt]
        rw [hstep]
        rcases ih st hst with ⟨heq, hall⟩ | ⟨pre, post, hl, hc, hlt, hpre, hpost⟩
        · left
          refine ⟨heq, ?_⟩
          intro c hc2
          rcases List.mem_cons.1 hc2 with e | hm
          · rw [e]
            omega
          · exact hall c hm
        · right
          refine ⟨k :: pre, post, ?_, hc, hlt, ?_, hpost⟩
          · rw [List.cons_append, ← hl]
          · intro c hc2
            rcases List.mem_cons.1 hc2 with e | hm
            · rw [e]
              omega
            · exact hpre c hm
    · rw [List.filter_cons_of_neg (by simpa using hpos)]
      rcases ih st hst with ⟨heq, hall⟩ | ⟨pre, post, hl, hc, hlt, hpre, hpost⟩
      · left
        refine ⟨heq, ?_⟩
        intro c hc2
        rcases List.mem_cons.1 hc2 with e | hm
        · rw [e]
          omega
        · exact hall c hm
      · right
        refine ⟨k :: pre, post, ?_, hc, hlt, ?_, hpost⟩
        · rw [List.cons_append, ← hl]
        · intro c hc2
          rcases List.mem_cons.1 hc2 with e | hm
          · rw [e]
            omega
          · exact hpre c hm

/-- The code chosen, when some key of the order has a positive count: the first key
of the order that carries the highest count. -/
theorem chosenTerrain_first (counts : Nat → Int) (order : List Nat) (c0 : Nat)
    (hc0 : c0 ∈ order) (hpos : counts c0 > 0) :
    ∃ pre post, order = pre ++ chosenTerrain counts order :: post ∧
      0 < counts (chosenTerrain counts order) ∧
      (∀ c ∈ pre, counts c < counts (chosenTerrain counts order)) ∧
      ∀ c ∈ post, counts c ≤ counts (chosenTerrain counts order) := by
  unfold chosenTerrain
  rcases chooseLoop_first counts order (0, 1) (le_refl _) with
    ⟨_, hall⟩ | ⟨pre, post, hl, hc, hlt, hpre, hpost⟩
  · have := hall c0 hc0
    exact absurd hpos (not_lt.2 this)
  · refine ⟨pre, post, hl, ?_, ?_, ?_⟩
    · rw [hc]
      exact hlt
    · rw [hc]
      exact hpre
    · rw [hc]
      exact hpost

/-- A divider with a coloured neighbour, on the terrain as it is when it is
visited, gets the code that the choosing loop returns. -/
theorem convert_cell_chosen (order : Nat → Nat → List Nat) (start : List Nat)
    (hlen : start.length = GridSize * GridSize) (x y : Nat) (hx : x < GridSize)
    (hy : y < GridSize) (hb : start.getD (y * GridSize + x) 0 = TerrainBorder)
    (hsome : ∃ c, adjacentTerrains
      (visitTerrain (convertedTerrain order start) start (y * GridSize + x)) x y c > 0) :
    (convertedTerrain order start).getD (y * GridSize + x) 0
      = chosenTerrain
          (adjacentTerrains (visitTerrain (convertedTerrain order start) start
            (y * GridSize + x)) x y) (order x y) := by
  have hk : y * GridSize + x < GridSize * GridSize := cellIndex_lt hx hy
  have hxy : (y * GridSize + x) % GridSize = x ∧ (y * GridSize + x) / GridSize = y := by
    unfold GridSize at *
    omega
  obtain ⟨hfl, hcell⟩ := convertedTerrain_cell order start hlen
  have hc := hcell _ hk
  rw [hxy.1, hxy.2] at hc
  have hlive : ∀ j, (visitTerrain (convertedTerrain order start) start (y * GridSize + x)).getD j 0
      = if j < y * GridSize + x then (convertedTerrain order start).getD j 0
        else start.getD j 0 :=
    fun j => visitTerrain_getD _ _ _ _ (by rw [hfl]; omega)
  have hll : (visitTerrain (convertedTerrain order start) start (y * GridSize + x)).length
      = GridSize * GridSize :=
    (visitTerrain_length _ _ _ (hfl.trans hlen.symm) (by rw [hfl]; omega)).trans hfl
  have hmid : (visitTerrain (convertedTerrain order start) start (y * GridSize + x)).getD
      (y * GridSize + x) 0 = start.getD (y * GridSize + x) 0 := by
    rw [hlive, if_neg (Nat.lt_irrefl _)]
  generalize visitTerrain (convertedTerrain order start) start (y * GridSize + x) = live
    at hc hlive hll hmid hsome ⊢
  unfold convertBody at hc
  rw [hmid] at hc
  obtain ⟨c0, hc0⟩ := hsome
  have hcode := adjacentTerrains_codes live x y c0 hc0
  have hany : adjacentTerrains live x y 1 > 0 ∨ adjacentTerrains live x y 2 > 0 ∨
      adjacentTerrains live x y 9 > 0 ∨ adjacentTerrains live x y 10 > 0 := by
    rcases hcode with e | e | e | e
    · exact Or.inl (e ▸ hc0)
    · exact Or.inr (Or.inl (e ▸ hc0))
    · exact Or.inr (Or.inr (Or.inl (e ▸ hc0)))
    · exact Or.inr (Or.inr (Or.inr (e ▸ hc0)))
  rw [if_neg (fun h => h hb), if_pos hany, getD_set_self _ _ _ _ (by rw [hll]; exact hk)] at hc
  exact hc

/-- C38, as the code runs: a divider cell with a coloured neighbour (on the terrain
as it is when the cell is visited) is converted to the first key, in the iteration
order of the count map, that carries the highest count; every key met before it
has a strictly lower count.  So when several codes tie for the highest count the
cell gets the one of them that the iteration meets first, and it gets red (1) only
if red is itself one of them. -/
theorem tie_follows_order (w : World) (order : Nat → Nat → List Nat)
    (hlen : w.Terrain.length = GridSize * GridSize) (hok : OrderOK order) (x y : Nat)
    (hx : x < GridSize) (hy : y < GridSize)
    (hb : w.Terrain.getD (y * GridSize + x) 0 = TerrainBorder)
    (hsome : ∃ c, adjacentTerrains
      (visitTerrain (ConvertBordersToTerrain w order).Terrain w.Terrain (y * GridSize + x))
      x y c > 0) :
    (∃ pre post,
      order x y
        = pre ++ (ConvertBordersToTerrain w order).Terrain.getD (y * GridSize + x) 0 :: post ∧
      (∀ c ∈ pre, adjacentTerrains
          (visitTerrain (ConvertBordersToTerrain w order).Terrain w.Terrain (y * GridSize + x))
          x y c
        < adjacentTerrains
          (visitTerrain (ConvertBordersToTerrain w order).Terrain w.Terrain (y * GridSize + x))
          x y ((ConvertBordersToTerrain w order).Terrain.getD (y * GridSize + x) 0)) ∧
      ∀ c ∈ post, adjacentTerrains
          (visitTerrain (ConvertBordersToTerrain w order).Terrain w.Terrain (y * GridSize + x))
          x y c
        ≤ adjacentTerrains
          (visitTerrain (ConvertBordersToTerrain w order).Terrain w.Terrain (y * GridSize + x))
          x y ((ConvertBordersToTerrain w order).Terrain.getD (y * GridSize + x) 0)) ∧
    0 < adjacentTerrains
      (visitTerrain (ConvertBordersToTerrain w order).Terrain w.Terrain (y * GridSize + x))
      x y ((ConvertBordersToTerrain w order).Terrain.getD (y * GridSize + x) 0) := by
  rw [(ConvertBordersToTerrain_fields w order).1] at hsome ⊢
  have hch := convert_cell_chosen order w.Terrain hlen x y hx hy hb hsome
  obtain ⟨c0, hc0⟩ := hsome
  have hord : c0 ∈ order x y := by
    rcases adjacentTerrains_codes _ x y c0 hc0 with e | e | e | e
    · rw [e]; exact (hok x y).2.1
    · rw [e]; exact (hok x y).2.2.1
    · rw [e]; exact (hok x y).2.2.2.1
    · rw [e]; exact (hok x y).2.2.2.2
  obtain ⟨pre, post, hl, hp, hpre, hpost⟩ := chosenTerrain_first _ (order x y) c0 hord hc0
  rw [hch]
  exact ⟨⟨pre, post, hl, hpre, hpost⟩, hp⟩

theorem tie_terrain (j : Nat) :
    tieWorld.Terrain.getD j 0
      = if j = 505 then 9 else if j = 504 then 4 else if j = 503 then 2 else 0 := by
  have e3 : 5 * GridSize + 3 = 503 := rfl
  have e4 : 5 * GridSize + 4 = 504 := rfl
  have e5 : 5 * GridSize + 5 = 505 := rfl
  rw [tieWorld, paintCell_terrain, paintCell_terrain, paintCell_terrain, e3, e4, e5]
  have hlen : New.Terrain.length = 10000 := New_WF.2.1
  by_cases h5 : j = 505
  · rw [if_pos h5, h5]
    exact getD_set_self _ _ _ _ (by rw [List.length_set, List.length_set, hlen]; decide)
  · rw [if_neg h5, getD_set_ne _ _ _ _ _ (fun e => h5 e.symm)]
    by_cases h4 : j = 504
    · rw [if_pos h4, h4]
      exact getD_set_self _ _ _ _ (by rw [List.length_set, hlen]; decide)
    · rw [if_neg h4, getD_set_ne _ _ _ _ _ (fun e => h4 e.symm)]
      by_cases h3 : j = 503
      · rw [if_pos h3, h3]
        exact getD_set_self _ _ _ _ (by rw [hlen]; decide)
      · rw [if_neg h3, getD_set_ne _ _ _ _ _ (fun e => h3 e.symm)]
        exact withTribes_terrain [] j

theorem tie_length : tieWorld.Terrain.length = GridSize * GridSize := by
  rw [tieWorld, paintCell_terrain, paintCell_terrain, paintCell_terrain, List.length_set,
    List.length_set, List.length_set]
  exact New_WF.2.1

/-- The count map of the divider (4, 5) of the tie world when it is visited: one
blue neighbour on its left, one yellow neighbour on its right, nothing above and
below. -/
theorem tie_counts (order : Nat → Nat → List Nat) (hok : OrderOK order) (c : Nat) :
    adjacentTerrains
        (visitTerrain (convertedTerrain order tieWorld.Terrain) tieWorld.Terrain
          (5 * GridSize + 4)) 4 5 c
      = (if (c = 1 ∨ c = 2 ∨ c = 9 ∨ c = 10) ∧ 2 = c then 1 else 0)
        + (if (c = 1 ∨ c = 2 ∨ c = 9 ∨ c = 10) ∧ 9 = c then 1 else 0)
        + (if (c = 1 ∨ c = 2 ∨ c = 9 ∨ c = 10) ∧ 0 = c then 1 else 0)
        + (if (c = 1 ∨ c = 2 ∨ c = 9 ∨ c = 10) ∧ 0 = c then 1 else 0) := by
  obtain ⟨hlive, _, _, _⟩ :=
    convert_cell_rule order tieWorld.Terrain tie_length hok 4 5 (by decide) (by decide)
  have hkeep : ∀ x y, x < GridSize → y < GridSize →
      tieWorld.Terrain.getD (y * GridSize + x) 0 ≠ TerrainBorder →
      (convertedTerrain order tieWorld.Terrain).getD (y * GridSize + x) 0
        = tieWorld.Terrain.getD (y * GridSize + x) 0 :=
    fun x y hx hy h =>
      (convert_cell_rule order tieWorld.Terrain tie_length hok x y hx hy).2.1 h
  exact adjacentTerrains_inner _ 4 5 c 2 9 0 0 (by decide) (by decide) (by decide) (by decide)
    (by
      rw [hlive, if_pos (by decide)]
      show (convertedTerrain order tieWorld.Terrain).getD (5 * GridSize + 3) 0 = 2
      rw [hkeep 3 5 (by decide) (by decide) (by rw [tie_terrain]; decide), tie_terrain]
      rfl)
    (by rw [hlive, if_neg (by decide), tie_terrain]; rfl)
    (by
      rw [hlive, if_pos (by decide)]
      show (convertedTerrain order tieWorld.Terrain).getD (4 * GridSize + 4) 0 = 0
      rw [hkeep 4 4 (by decide) (by decide) (by rw [tie_terrain]; decide), tie_terrain]
      rfl)
    (by rw [hlive, if_neg (by decide), tie_terrain]; rfl)

/-- Under the order 1, 2, 9, 10, a tie between blue and yellow goes to blue. -/
theorem chosen_blue (cnt : Nat → Int) (h1 : cnt 1 = 0) (h2 : cnt 2 = 1) (h9 : cnt 9 = 1)
    (h10 : cnt 10 = 0) : chosenTerrain cnt [1, 2, 9, 10] = 2 := by
  unfold chosenTerrain
  simp [List.filter, h1, h2, h9, h10, chooseStep]

/-- The tie of C38 on the tie world: around the divider (4, 5), blue (2) and yellow
(9) are each carried by one neighbour and red (1) by none; whatever the iteration
order of the count map, the divider is converted to blue or to yellow, never to
red; under the order 1, 2, 9, 10 it is converted to blue. -/
theorem tie_not_red :
    tieWorld.Terrain.getD (5 * GridSize + 4) 0 = TerrainBorder ∧
    (∀ order, OrderOK order →
      adjacentTerrains (visitTerrain (ConvertBordersToTerrain tieWorld order).Terrain
        tieWorld.Terrain (5 * GridSize + 4)) 4 5 2 = 1 ∧
      adjacentTerrains (visitTerrain (ConvertBordersToTerrain tieWorld order).Terrain
        tieWorld.Terrain (5 * GridSize + 4)) 4 5 9 = 1 ∧
      (∀ c, adjacentTerrains (visitTerrain (ConvertBordersToTerrain tieWorld order).Terrain
        tieWorld.Terrain (5 * GridSize + 4)) 4 5 c ≤ 1) ∧
      ((ConvertBordersToTerrain tieWorld order).Terrain.getD (5 * GridSize + 4) 0 = 2 ∨
        (ConvertBordersToTerrain tieWorld order).Terrain.getD (5 * GridSize + 4) 0 = 9) ∧
      (ConvertBordersToTerrain tieWorld order).Terrain.getD (5 * GridSize + 4) 0 ≠ 1) ∧
    (ConvertBordersToTerrain tieWorld codeOrder).Terrain.getD (5 * GridSize + 4) 0 = 2 := by
  have hb : tieWorld.Terrain.getD (5 * GridSize + 4) 0 = TerrainBorder := by
    rw [tie_terrain]
    rfl
  have hall : ∀ order, OrderOK order →
      adjacentTerrains (visitTerrain (ConvertBordersToTerrain tieWorld order).Terrain
        tieWorld.Terrain (5 * GridSize + 4)) 4 5 2 = 1 ∧
      adjacentTerrains (visitTerrain (ConvertBordersToTerrain tieWorld order).Terrain
        tieWorld.Terrain (5 * GridSize + 4)) 4 5 9 = 1 ∧
      (∀ c, adjacentTerrains (visitTerrain (ConvertBordersToTerrain tieWorld order).Terrain
        tieWorld.Terrain (5 * GridSize + 4)) 4 5 c ≤ 1) ∧
      ((ConvertBordersToTerrain tieWorld order).Terrain.getD (5 * GridSize + 4) 0 = 2 ∨
        (ConvertBordersToTerrain tieWorld order).Terrain.getD (5 * GridSize + 4) 0 = 9) ∧
      (ConvertBordersToTerrain tieWorld order).Terrain.getD (5 * GridSize + 4) 0 ≠ 1 := by
    intro order hok
    rw [(ConvertBordersToTerrain_fields tieWorld order).1]
    have hcnt := tie_counts order hok
    have h2 : adjacentTerrains (visitTerrain (convertedTerrain order tieWorld.Terrain)
        tieWorld.Terrain (5 * GridSize + 4)) 4 5 2 = 1 := by
      rw [hcnt 2]
      decide
    have h9 : adjacentTerrains (visitTerrain (convertedTerrain order tieWorld.Terrain)
        tieWorld.Terrain (5 * GridSize + 4)) 4 5 9 = 1 := by
      rw [hcnt 9]
      decide
    have hle : ∀ c, adjacentTerrains (visitTerrain (convertedTerrain order tieWorld.Terrain)
        tieWorld.Terrain (5 * GridSize + 4)) 4 5 c ≤ 1 := by
      intro c
      rw [hcnt c]
      split_ifs <;> omega
    have hpos := ((convert_cell_rule order tieWorld.Terrain tie_length hok 4 5 (by decide)
      (by decide)).2.2.2 hb ⟨2, by rw [h2]; decide⟩).1
    have hv : (convertedTerrain order tieWorld.Terrain).getD (5 * GridSize + 4) 0 = 2 ∨
        (convertedTerrain order tieWorld.Terrain).getD (5 * GridSize + 4) 0 = 9 := by
      rw [hcnt] at hpos
      by_contra hne
      rw [not_or] at hne
      split_ifs at hpos <;> omega
    refine ⟨h2, h9, hle, hv, ?_⟩
    rcases hv with e | e <;> rw [e] <;> decide
  refine ⟨hb, hall, ?_⟩
  rw [(ConvertBordersToTerrain_fields tieWorld codeOrder).1,
    convert_cell_chosen codeOrder tieWorld.Terrain tie_length 4 5 (by decide) (by decide) hb
      ⟨2, by
        have := (hall codeOrder codeOrder_ok).1
        rw [(ConvertBordersToTerrain_fields tieWorld codeOrder).1] at this
        rw [this]
        decide⟩]
  have hcnt := tie_counts codeOrder codeOrder_ok
  exact chosen_blue _ (by rw [hcnt 1]; decide) (by rw [hcnt 2]; decide) (by rw [hcnt 9]; decide)
    (by rw [hcnt 10]; decide)

/-- Witness of C38, on the tie world under the order 1, 2, 9, 10: the code given to
the divider (4, 5) has a positive count. -/
theorem tie_follows_order_witness :
    tieWorld.Terrain.length = GridSize * GridSize ∧ OrderOK codeOrder ∧ (4 : Nat) < GridSize ∧
    tieWorld.Terrain.getD (5 * GridSize + 4) 0 = TerrainBorder ∧
    (∃ c, adjacentTerrains
      (visitTerrain (ConvertBordersToTerrain tieWorld codeOrder).Terrain tieWorld.Terrain
        (5 * GridSize + 4)) 4 5 c > 0) ∧
    0 < adjacentTerrains
      (visitTerrain (ConvertBordersToTerrain tieWorld codeOrder).Terrain tieWorld.Terrain
        (5 * GridSize + 4)) 4 5
      ((ConvertBordersToTerrain tieWorld codeOrder).Terrain.getD (5 * GridSize + 4) 0) :=
  have hb : tieWorld.Terrain.getD (5 * GridSize + 4) 0 = TerrainBorder := by
    rw [tie_terrain]
    rfl
  have hsome : ∃ c, adjacentTerrains
      (visitTerrain (ConvertBordersToTerrain tieWorld codeOrder).Terrain tieWorld.Terrain
        (5 * GridSize + 4)) 4 5 c > 0 := by
    refine ⟨2, ?_⟩
    rw [(ConvertBordersToTerrain_fields tieWorld codeOrder).1, tie_counts codeOrder codeOrder_ok]
    decide
  ⟨tie_length, codeOrder_ok, by decide, hb, hsome,
    (tie_follows_order tieWorld codeOrder tie_length codeOrder_ok 4 5 (by decide) (by decide)
      hb hsome).2⟩


/-! ## The scoring loop of move collection -/

theorem scoreStep_inv (w : World) (x y t n : Nat) (dir : Int × Int)
    (hd : directions[n]? = some dir) (st : ℚ × List Nat) (h : ScoredUpTo w x y t n st) :
    ScoredUpTo w x y t (n + 1) (scoreStep w x y t st (n, dir)) := by
  obtain ⟨h1, h2, h3, h4⟩ := h
  have hs : stepScore w x y t n
      = if (x : Int) + dir.1 ≥ 0 ∧ (x : Int) + dir.1 < GridSize ∧
          (y : Int) + dir.2 ≥ 0 ∧ (y : Int) + dir.2 < GridSize then
          if getCell w.Entities ((x : Int) + dir.1).toNat ((y : Int) + dir.2).toNat none = none ∧
              IsPassable (w.Terrain.getD
                (((y : Int) + dir.2).toNat * GridSize + ((x : Int) + dir.1).toNat) 0) = true then
            some (MoveScoreBonus (w.Terrain.getD
              (((y : Int) + dir.2).toNat * GridSize + ((x : Int) + dir.1).toNat) 0) w t)
          else none
        else none := by
    unfold stepScore
    rw [hd]
  have hskip : stepScore w x y t n = none → ScoredUpTo w x y t (n + 1) st := by
    intro hnone
    refine ⟨h1, h2, h3, ?_⟩
    intro k s hk hks
    rcases Nat.lt_succ_iff_lt_or_eq.1 hk with hlt | heq
    · exact h4 k s hlt hks
    · rw [heq, hnone] at hks
      cases hks
  unfold scoreStep
  dsimp only []
  by_cases hr : (x : Int) + dir.1 ≥ 0 ∧ (x : Int) + dir.1 < GridSize ∧
      (y : Int) + dir.2 ≥ 0 ∧ (y : Int) + dir.2 < GridSize
  · rw [if_pos hr] at hs ⊢
    by_cases hc : getCell w.Entities ((x : Int) + dir.1).toNat ((y : Int) + dir.2).toNat none
          = none ∧
        IsPassable (w.Terrain.getD
          (((y : Int) + dir.2).toNat * GridSize + ((x : Int) + dir.1).toNat) 0) = true
    · rw [if_pos hc] at hs ⊢
      generalize MoveScoreBonus (w.Terrain.getD
        (((y : Int) + dir.2).toNat * GridSize + ((x : Int) + dir.1).toNat) 0) w t = sc at hs ⊢
      by_cases hgt : sc > st.1
      · rw [if_pos hgt]
        refine ⟨le_trans h1 (le_of_lt hgt), (fun hnil => by cases hnil), ?_, ?_⟩
        · intro k hk
          rw [List.mem_singleton.1 hk]
          exact hs
        · intro k s hk hks
          rcases Nat.lt_succ_iff_lt_or_eq.1 hk with hlt | heq
          · exact le_trans (h4 k s hlt hks) (le_of_lt hgt)
          · rw [heq, hs] at hks
            cases hks
            exact le_refl _
      · rw [if_neg hgt]
        by_cases heq : sc = st.1
        · rw [if_pos heq]
          refine ⟨h1, fun hnil => absurd hnil (by simp), ?_, ?_⟩
          · intro k hk
            rcases List.mem_append.1 hk with hk | hk
            · exact h3 k hk
            · rw [List.mem_singleton.1 hk, hs, heq]
          · intro k s hk hks
            rcases Nat.lt_succ_iff_lt_or_eq.1 hk with hlt | he
            · exact h4 k s hlt hks
            · rw [he, hs] at hks
              cases hks
              exact le_of_eq heq
        · rw [if_neg heq]
          refine ⟨h1, h2, h3, ?_⟩
          intro k s hk hks
          rcases Nat.lt_succ_iff_lt_or_eq.1 hk with hlt | he
          · exact h4 k s hlt hks
          · rw [he, hs] at hks
            cases hks
            exact le_of_not_lt hgt
    · rw [if_neg hc] at hs ⊢
      exact hskip hs
  · rw [if_neg hr] at hs ⊢
    exact hskip hs

/-- The scoring loop over the four directions. -/
theorem scoreLoop_inv (w : World) (x y t : Nat) :
    ScoredUpTo w x y t 4 (directions.enum.foldl (scoreStep w x y t) (-1, [])) := by
  have h0 : ScoredUpTo w x y t 0 (-1, []) :=
    ⟨le_refl _, fun _ => rfl, fun k hk => absurd hk (List.not_mem_nil k),
      fun k s hk _ => absurd hk (Nat.not_lt_zero k)⟩
  have e : directions.enum = [(0, (0, -1)), (1, (0, 1)), (2, (-1, 0)), (3, (1, 0))] := rfl
  rw [e]
  simp only [List.foldl_cons, List.foldl_nil]
  exact scoreStep_inv w x y t 3 _ rfl _ (scoreStep_inv w x y t 2 _ rfl _
    (scoreStep_inv w x y t 1 _ rfl _ (scoreStep_inv w x y t 0 _ rfl _ h0)))

theorem stepScore_lt (w : World) (x y t k : Nat) (s : ℚ)
    (h : stepScore w x y t k = some s) : k < 4 := by
  by_contra hk
  unfold stepScore at h
  have hnone : directions[k]? = none := List.getElem?_eq_none (by
    show 4 ≤ k
    omega)
  rw [hnone] at h
  cases h

/-- The visit of one cell by move collection, for an entity that attempts a move
and does not take the mining impulse, in terms of the scores of the four steps. -/
theorem collectBody_scored (w : World) (d : PeaceDraws) (x y : Nat)
    (moves : List PotentialMove) (ent : Entity) (he : getCell w.Entities x y none = some ent)
    (hroll : d.moveRoll x y < w.EntityStats.MoveChance)
    (hnomine : ¬ ((resourceDirs w x y).length > 0 ∧ d.mineRoll x y < 20 / 100)) :
    ((∃ k s, stepScore w x y ent.Tribe k = some s ∧ 0 < s) →
      ∃ k s, collectBody w d x y moves = moves ++ [moveTo x y k] ∧
        stepScore w x y ent.Tribe k = some s ∧ 0 < s ∧
        ∀ k2 s2, stepScore w x y ent.Tribe k2 = some s2 → s2 ≤ s) ∧
    ((¬ ∃ k s, stepScore w x y ent.Tribe k = some s ∧ 0 < s) →
      collectBody w d x y moves = moves) := by
  have hinv := scoreLoop_inv w x y ent.Tribe
  have hbody : collectBody w d x y moves
      = if (directions.enum.foldl (scoreStep w x y ent.Tribe) (-1, [])).1 > 0 ∧
          (directions.enum.foldl (scoreStep w x y ent.Tribe) (-1, [])).2.length > 0 then
          moves ++ [moveTo x y
            ((directions.enum.foldl (scoreStep w x y ent.Tribe) (-1, [])).2.getD
              (d.dirPick x y
                % (directions.enum.foldl (scoreStep w x y ent.Tribe) (-1, [])).2.length) 0)]
        else moves := by
    unfold collectBody
    rw [he]
    dsimp only []
    rw [if_pos hroll, if_neg hnomine]
  rw [hbody]
  generalize directions.enum.foldl (scoreStep w x y ent.Tribe) (-1, []) = best at hinv ⊢
  obtain ⟨h1, h2, h3, h4⟩ := hinv
  constructor
  · rintro ⟨k, s, hks, hpos⟩
    have hle := h4 k s (stepScore_lt w x y ent.Tribe k s hks) hks
    have hbest : best.1 > 0 := lt_of_lt_of_le hpos hle
    have hlen : best.2.length > 0 := by
      apply List.length_pos.2
      intro hnil
      have := h2 hnil
      rw [this] at hbest
      exact absurd hbest (by norm_num)
    rw [if_pos ⟨hbest, hlen⟩]
    exact ⟨_, best.1, rfl, h3 _ (getD_mem_of_pos _ hlen), hbest,
      fun k2 s2 h => h4 k2 s2 (stepScore_lt w x y ent.Tribe k2 s2 h) h⟩
  · intro hno
    have hcond : ¬ (best.1 > 0 ∧ best.2.length > 0) := by
      rintro ⟨hb, hl⟩
      exact hno ⟨_, best.1, h3 _ (getD_mem_of_pos 0 hl), hb⟩
    rw [if_neg hcond]

/-- C35, amended: in move collection, an entity that attempts a move and does not
take the mining impulse proposes a move exactly when it has an in-range,
unoccupied, passable orthogonal neighbour whose `MoveScoreBonus` is greater than 0;
the move proposed then goes to such a neighbour, and the `MoveScoreBonus` of that
neighbour is the highest among the in-range, unoccupied, passable neighbours.  When
no such neighbour has a `MoveScoreBonus` greater than 0, it proposes no move. -/
theorem move_collection_rule (w : World) (d : PeaceDraws) (x y : Nat)
    (moves : List PotentialMove) (ent : Entity) (he : getCell w.Entities x y none = some ent)
    (hroll : d.moveRoll x y < w.EntityStats.MoveChance)
    (hnomine : ¬ ((resourceDirs w x y).length > 0 ∧ d.mineRoll x y < 20 / 100)) :
    ((∃ k s, stepScore w x y ent.Tribe k = some s ∧ 0 < s) →
      ∃ k s, collectBody w d x y moves = moves ++ [moveTo x y k] ∧
        stepScore w x y ent.Tribe k = some s ∧ 0 < s ∧
        ∀ k2 s2, stepScore w x y ent.Tribe k2 = some s2 → s2 ≤ s) ∧
    ((¬ ∃ k s, stepScore w x y ent.Tribe k = some s ∧ 0 < s) →
      collectBody w d x y moves = moves) :=
  collectBody_scored w d x y moves ent he hroll hnomine

theorem loner_ents (x y : Nat) :
    getCell loner.Entities x y none
      = if x = 5 ∧ y = 5 then some (freshEntity 1 1 0) else none := by
  have h5 : (5 : Nat) < GridSize := by decide
  have hE0 : GridWF (withTribes verticalTribes).Entities := (withTribes_WF _).1
  show getCell (setCell (withTribes verticalTribes).Entities 5 5 (some (freshEntity 1 1 0)))
    x y none = _
  by_cases hA : x = 5 ∧ y = 5
  · rw [if_pos hA, hA.1, hA.2]
    exact getCell_setCell_self _ _ _ _ _ (by rw [hE0.1]; exact h5)
      (by rw [GridWF_row hE0 h5]; exact h5)
  · rw [if_neg hA, getCell_setCell_ne _ _ _ _ _ _ _ (by omega)]
    exact withTribes_entities _ x y

theorem loner_terrain (j : Nat) : loner.Terrain.getD j 0 = 0 :=
  withTribes_terrain verticalTribes j

/-- Around the loner every step is possible and scores -2. -/
theorem loner_score (k : Nat) (hk : k < 4) : stepScore loner 5 5 1 k = some (-2) := by
  have hpass : IsPassable 0 = true := rfl
  have hsc : MoveScoreBonus 0 loner 1 = -2 := by
    unfold MoveScoreBonus
    exact if_pos rfl
  have hstep : ∀ dir : Int × Int, directions[k]? = some dir →
      ((5 : Nat) : Int) + dir.1 ≥ 0 ∧ ((5 : Nat) : Int) + dir.1 < GridSize ∧
        ((5 : Nat) : Int) + dir.2 ≥ 0 ∧ ((5 : Nat) : Int) + dir.2 < GridSize →
      ¬ ((((5 : Nat) : Int) + dir.1).toNat = 5 ∧ (((5 : Nat) : Int) + dir.2).toNat = 5) →
      stepScore loner 5 5 1 k = some (-2) := by
    intro dir hd hr hne
    unfold stepScore
    rw [hd]
    dsimp only []
    rw [if_pos hr, loner_ents, if_neg hne, loner_terrain, if_pos ⟨rfl, hpass⟩, hsc]
  interval_cases k
  · exact hstep (0, -1) rfl (by decide) (by decide)
  · exact hstep (0, 1) rfl (by decide) (by decide)
  · exact hstep (-1, 0) rfl (by decide) (by decide)
  · exact hstep (1, 0) rfl (by decide) (by decide)

/-- C35, refuted as stated: the loner attempts a move (roll 0 against the move
chance 2/10) and does not take the mining impulse (no forest or rock around it);
its four orthogonal neighbours are in range, unoccupied and passable (empty
terrain, score -2); yet it proposes no move. -/
theorem move_collection_claim_fails :
    getCell loner.Entities 5 5 none = some (freshEntity 1 1 0) ∧
    roamDraws.moveRoll 5 5 < loner.EntityStats.MoveChance ∧
    ¬ ((resourceDirs loner 5 5).length > 0 ∧ roamDraws.mineRoll 5 5 < 20 / 100) ∧
    (∀ k, k < 4 → stepScore loner 5 5 1 k = some (-2)) ∧
    collectBody loner roamDraws 5 5 [] = [] := by
  have he : getCell loner.Entities 5 5 none = some (freshEntity 1 1 0) := by
    rw [loner_ents, if_pos ⟨rfl, rfl⟩]
  have hroll : roamDraws.moveRoll 5 5 < loner.EntityStats.MoveChance := by
    show (0 : ℚ) < 2 / 10
    norm_num
  have hnomine : ¬ ((resourceDirs loner 5 5).length > 0 ∧ roamDraws.mineRoll 5 5 < 20 / 100) := by
    rintro ⟨_, h⟩
    have h2 : ¬ ((1 : ℚ) < 20 / 100) := by norm_num
    exact h2 h
  refine ⟨he, hroll, hnomine, loner_score, ?_⟩
  apply (collectBody_scored loner roamDraws 5 5 [] (freshEntity 1 1 0) he hroll hnomine).2
  rintro ⟨k, s, hks, hpos⟩
  have hks2 : stepScore loner 5 5 1 k = some s := hks
  rw [loner_score k (stepScore_lt loner 5 5 1 k s hks2)] at hks2
  cases hks2
  exact absurd hpos (by norm_num)

/-- Witness of the amended C35, on the loner: no step around it scores above 0, and
it proposes no move. -/
theorem move_collection_rule_witness :
    getCell loner.Entities 5 5 none = some (freshEntity 1 1 0) ∧
    roamDraws.moveRoll 5 5 < loner.EntityStats.MoveChance ∧
    ¬ ((resourceDirs loner 5 5).length > 0 ∧ roamDraws.mineRoll 5 5 < 20 / 100) ∧
    (¬ ∃ k s, stepScore loner 5 5 (freshEntity 1 1 0).Tribe k = some s ∧ 0 < s) ∧
    collectBody loner roamDraws 5 5 [] = [] :=
  have he : getCell loner.Entities 5 5 none = some (freshEntity 1 1 0) := by
    rw [loner_ents, if_pos ⟨rfl, rfl⟩]
  have hroll : roamDraws.moveRoll 5 5 < loner.EntityStats.MoveChance := by
    show (0 : ℚ) < 2 / 10
    norm_num
  have hnomine : ¬ ((resourceDirs loner 5 5).length > 0 ∧ roamDraws.mineRoll 5 5 < 20 / 100) := by
    rintro ⟨_, h⟩
    have h2 : ¬ ((1 : ℚ) < 20 / 100) := by norm_num
    exact h2 h
  have hno : ¬ ∃ k s, stepScore loner 5 5 (freshEntity 1 1 0).Tribe k = some s ∧ 0 < s := by
    rintro ⟨k, s, hks, hpos⟩
    have hks2 : stepScore loner 5 5 1 k = some s := hks
    rw [loner_score k (stepScore_lt loner 5 5 1 k s hks2)] at hks2
    cases hks2
    exact absurd hpos (by norm_num)
  ⟨he, hroll, hnomine, hno,
    (move_collection_rule loner roamDraws 5 5 [] (freshEntity 1 1 0) he hroll hnomine).2 hno⟩


/-! ## The entities created by reproduction -/

/-- A birth recorded by a visit of the reproduction loop: the cell visited holds
the parent, and the target is reached by one of the shuffled directions that
passes the test of the loop. -/
theorem reprodBody_record (w : World) (d : PeaceDraws) (g : List (List (Option Entity)))
    (x y : Nat) (st : ReprodState) (s : Spawn)
    (hs : (reprodBody w d g x y st).spawns = st.spawns ++ [s]) :
    ∃ ent dir, getCell g x y none = some ent ∧ dir ∈ d.shuffled x y ∧
      canSpawn w g x y ent.Tribe dir = true ∧
      s = { nx := ((x : Int) + dir.1).toNat, ny := ((y : Int) + dir.2).toNat,
            tribe := ent.Tribe } := by
  have hno : st.spawns ≠ st.spawns ++ [s] := by
    intro h
    have := congrArg List.length h
    rw [List.length_append, List.length_singleton] at this
    omega
  unfold reprodBody at hs
  cases hent : getCell g x y none with
  | none =>
    rw [hent] at hs
    exact absurd hs hno
  | some ent =>
    rw [hent] at hs
    dsimp only [] at hs
    by_cases hskip : st.skip ent.Tribe = true
    · rw [if_pos hskip] at hs
      exact absurd hs hno
    · rw [if_neg hskip] at hs
      by_cases hcool : getCell st.reprod x y 0 ≠ 0 ∧
          d.reprodNow - getCell st.reprod x y 0 < w.EntityStats.ReprodCooldown
      · rw [if_pos hcool] at hs
        exact absurd hs hno
      · rw [if_neg hcool] at hs
        by_cases hroll : d.reprodRoll x y < w.EntityStats.ReproductionRate
        · rw [if_pos hroll] at hs
          cases hfind : (d.shuffled x y).find? (canSpawn w g x y ent.Tribe) with
          | none =>
            rw [hfind] at hs
            exact absurd hs hno
          | some dir =>
            rw [hfind] at hs
            dsimp only [] at hs
            have hlast := List.append_cancel_left hs
            refine ⟨ent, dir, rfl, List.mem_of_find?_eq_some hfind,
              List.find?_some hfind, ?_⟩
            exact (List.singleton_inj.1 hlast).symm
        · rw [if_neg hroll] at hs
          exact absurd hs hno

/-- What every birth recorded by the reproduction loop satisfies: it was recorded at
the visit of a cell next to its target, for the faction of the occupant of that
cell, towards a cell that passes the test of the loop. -/
theorem reprodLoop_records (w : World) (d : PeaceDraws) (g : List (List (Option Entity)))
    (st : ReprodState)
    (hst : ∀ s ∈ st.spawns, ∃ x y ent dir, getCell g x y none = some ent ∧
      dir ∈ d.shuffled x y ∧ canSpawn w g x y ent.Tribe dir = true ∧
      s = { nx := ((x : Int) + dir.1).toNat, ny := ((y : Int) + dir.2).toNat,
            tribe := ent.Tribe }) :
    ∀ s ∈ (forCells (reprodBody w d g) st).spawns, ∃ x y ent dir,
      getCell g x y none = some ent ∧ dir ∈ d.shuffled x y ∧
      canSpawn w g x y ent.Tribe dir = true ∧
      s = { nx := ((x : Int) + dir.1).toNat, ny := ((y : Int) + dir.2).toNat,
            tribe := ent.Tribe } := by
  unfold forCells
  apply loopCells_inv (reprodBody w d g)
    (fun st => ∀ s ∈ st.spawns, ∃ x y ent dir, getCell g x y none = some ent ∧
      dir ∈ d.shuffled x y ∧ canSpawn w g x y ent.Tribe dir = true ∧
      s = { nx := ((x : Int) + dir.1).toNat, ny := ((y : Int) + dir.2).toNat,
            tribe := ent.Tribe }) _ _ _ _ hst
  intro x y s0 h0 s hs
  rcases reprodBody_cases w d g x y s0 with h1 | ⟨s2, h2, _, _, _⟩
  · rw [h1] at hs
    exact h0 s hs
  · rw [h2] at hs
    rcases List.mem_append.1 hs with hm | hm
    · exact h0 s hm
    · rw [List.mem_singleton.1 hm]
      obtain ⟨ent, dir, h⟩ := reprodBody_record w d g x y s0 s2 h2
      exact ⟨x, y, ent, dir, h⟩

/-- The births applied leave, in the target of a recorded birth, the child of the
last birth recorded for that target. -/
theorem births_last (w : World) (now : Int) (nx ny : Nat) (hx : nx < GridSize)
    (hy : ny < GridSize) (l : List Spawn) (hex : ∃ s ∈ l, s.nx = nx ∧ s.ny = ny)
    (st : BirthState) (hst : GridWF st.ents) :
    ∃ s2 ∈ l, s2.nx = nx ∧ s2.ny = ny ∧ ∃ id,
      getCell (l.foldl (spawnStep w now) st).ents nx ny none
        = some (freshEntity s2.tribe id
            ((lookupTribe w.Tribes s2.tribe).getD TribeConfig.zero).BaseEvasion) := by
  induction l generalizing st with
  | nil =>
    obtain ⟨s, hs, _⟩ := hex
    cases hs
  | cons s rest ih =>
    rw [List.foldl_cons]
    have hwf2 : GridWF (spawnStep w now st s).ents := GridWF_setCell hst _ _ _
    by_cases hrest : ∃ s3 ∈ rest, s3.nx = nx ∧ s3.ny = ny
    · obtain ⟨s2, hm, h1, h2, h3⟩ := ih hrest (spawnStep w now st s) hwf2
      exact ⟨s2, List.mem_cons_of_mem _ hm, h1, h2, h3⟩
    · have hs : s.nx = nx ∧ s.ny = ny := by
        obtain ⟨s0, hm, h0⟩ := hex
        rcases List.mem_cons.1 hm with e | hm2
        · rw [← e]
          exact h0
        · exact absurd ⟨s0, hm2, h0⟩ hrest
      have hmiss : ∀ s3 ∈ rest, s3.nx ≠ nx ∨ s3.ny ≠ ny := by
        intro s3 hm
        by_contra hn
        exact hrest ⟨s3, hm, by_contra (fun h => hn (Or.inl h)),
          by_contra (fun h => hn (Or.inr h))⟩
      refine ⟨s, List.mem_cons_self _ _, hs.1, hs.2,
        ((st.counters s.tribe).getD 0 + 1) % 2 ^ 32, ?_⟩
      rw [(births_keep w now rest nx ny hmiss (spawnStep w now st s)).1]
      unfold spawnStep
      dsimp only []
      rw [hs.1, hs.2]
      exact getCell_set_self hst hx hy _

theorem births_last_from (w : World) (now : Int) (nx ny : Nat) (hx : nx < GridSize)
    (hy : ny < GridSize) (l : List Spawn) (hex : ∃ s ∈ l, s.nx = nx ∧ s.ny = ny)
    (ents : List (List (Option Entity))) (reprod : List (List Int))
    (counters : Nat → Option Nat) (hst : GridWF ents) :
    ∃ s2 ∈ l, s2.nx = nx ∧ s2.ny = ny ∧ ∃ id,
      getCell (l.foldl (spawnStep w now)
        { ents := ents, reprod := reprod, counters := counters }).ents nx ny none
        = some (freshEntity s2.tribe id
            ((lookupTribe w.Tribes s2.tribe).getD TribeConfig.zero).BaseEvasion) :=
  births_last w now nx ny hx hy l hex { ents := ents, reprod := reprod, counters := counters }
    hst

/-- A birth recorded at the visit of a cell is among the births of the tick. -/
theorem newSpawns_recorded (w : World) (d : PeaceDraws) (hwf : w.WF) (x y : Nat) (s : Spawn)
    (hs : s ∈ newSpawns w d x y) :
    s ∈ (peaceReprod w d).spawns ∧
    ∃ ent dir, getCell (peaceMoved w d).ents x y none = some ent ∧ dir ∈ d.shuffled x y ∧
      canSpawn w (peaceMoved w d).ents x y ent.Tribe dir = true ∧
      s = { nx := ((x : Int) + dir.1).toNat, ny := ((y : Int) + dir.2).toNat,
            tribe := ent.Tribe } := by
  unfold newSpawns at hs
  rcases reprodBody_cases w d (peaceMoved w d).ents x y (reprodBefore w d x y) with
    h1 | ⟨s2, h2, _, _, _⟩
  · rw [h1, List.drop_length] at hs
    cases hs
  · have hrec := reprodBody_record w d (peaceMoved w d).ents x y (reprodBefore w d x y) s2 h2
    rw [h2, List.drop_left] at hs
    have hs2 : s = s2 := List.mem_singleton.1 hs
    rw [← hs2] at hrec h2
    refine ⟨?_, hrec⟩
    obtain ⟨ent, _, hent, _⟩ := hrec
    have hr := getCell_some_inRange (peaceMoved_WF w d hwf).1 hent
    have hvisit : s ∈ (reprodBody w d (peaceMoved w d).ents x y
        (reprodBefore w d x y)).spawns := by
      rw [h2]
      exact List.mem_append_right _ (List.mem_singleton.2 rfl)
    unfold peaceReprod forCells
    unfold reprodBefore at hvisit
    exact loop_after_visit (reprodBody w d (peaceMoved w d).ents) (fun st => s ∈ st.spawns)
      (fun x2 y2 st hst => reprodBody_spawns_grow w d _ x2 y2 st s hst)
      GridSize GridSize _ x y hr.1 hr.2 hvisit

/-- What the test of the reproduction loop guarantees about the target. -/
theorem canSpawn_home {w : World} {g : List (List (Option Entity))} {x y tribe : Nat}
    {dir : Int × Int} (h : canSpawn w g x y tribe dir = true) :
    (((x : Int) + dir.1).toNat : Int) = (x : Int) + dir.1 ∧
    (((y : Int) + dir.2).toNat : Int) = (y : Int) + dir.2 ∧
    ∃ cfg, lookupTribe w.Tribes tribe = some cfg ∧
      w.Terrain.getD (((y : Int) + dir.2).toNat * GridSize + ((x : Int) + dir.1).toNat) 0
        = cfg.HomeTerrain := by
  have ht := (canSpawn_target h).2.2.2
  unfold canSpawn at h
  simp only [Bool.and_eq_true, decide_eq_true_eq] at h
  exact ⟨Int.toNat_of_nonneg h.1.1, Int.toNat_of_nonneg h.1.2.2.1,
    (CanReproduceOn_iff w tribe _).1.1 ht⟩

theorem fresh_newborn (tribe id : Nat) (ev : ℚ) : newborn (freshEntity tribe id ev) :=
  ⟨rfl, rfl, rfl, rfl⟩

/-- C34: take a peaceful tick of a well-formed world in which the reproduction loop
records a birth `s` at the visit of cell `(x, y)`, the shuffled directions being
the four directions in some order.  The cell `(x, y)` holds the parent after
movement; the birth is recorded for the faction of the parent, which is
registered; its target is in range, orthogonally adjacent to the parent (one step
in one of the four directions), unoccupied after movement, and its terrain is the
home terrain of that faction.  The entity that the application of the birth puts
in the target has the faction of the parent, health 100, no weapon, no armor, rank
base and the base evasion of the faction.  At the end of the tick the target holds
an entity with health 100, no weapon, no armor, rank base, whose faction has the
terrain of the target as home terrain and whose evasion is the base evasion of
that faction (the child of the last birth recorded for this target), and the cell
of the parent and the target are both occupied with the reading of the clock as
reproduction timestamp. -/
theorem reproduction_child (w : World) (d : PeaceDraws) (hwf : w.WF) (hsh : ShuffleOK d)
    (x y : Nat) (s : Spawn) (hs : s ∈ newSpawns w d x y) :
    ∃ parent cfg dir,
      getCell (peaceMoved w d).ents x y none = some parent ∧ s.tribe = parent.Tribe ∧
      lookupTribe w.Tribes s.tribe = some cfg ∧
      dir ∈ directions ∧ (s.nx : Int) = (x : Int) + dir.1 ∧ (s.ny : Int) = (y : Int) + dir.2 ∧
      s.nx < GridSize ∧ s.ny < GridSize ∧
      getCell (peaceMoved w d).ents s.nx s.ny none = none ∧
      w.Terrain.getD (s.ny * GridSize + s.nx) 0 = cfg.HomeTerrain ∧
      (∀ st : BirthState, GridWF st.ents →
        ∃ e, getCell (spawnStep w d.reprodNow st s).ents s.nx s.ny none = some e ∧
          e.Tribe = parent.Tribe ∧ newborn e ∧ e.Evasion = cfg.BaseEvasion) ∧
      (∃ e cfg2, getCell (PreWarUpdate w d).Entities s.nx s.ny none = some e ∧ newborn e ∧
        lookupTribe w.Tribes e.Tribe = some cfg2 ∧
        w.Terrain.getD (s.ny * GridSize + s.nx) 0 = cfg2.HomeTerrain ∧
        e.Evasion = cfg2.BaseEvasion) ∧
      Cooling (PreWarUpdate w d) (x, y) d.reprodNow ∧
      Cooling (PreWarUpdate w d) (s.nx, s.ny) d.reprodNow := by
  obtain ⟨hmem, parent, dir, hparent, hdir, hcan, hseq⟩ := newSpawns_recorded w d hwf x y s hs
  have htarget := canSpawn_target hcan
  obtain ⟨hnx, hny, cfg, hcfg, hhome⟩ := canSpawn_home hcan
  have hstamps := reproduce_stamps w d hwf x y s hs
  have hsx : s.nx = ((x : Int) + dir.1).toNat := by rw [hseq]
  have hsy : s.ny = ((y : Int) + dir.2).toNat := by rw [hseq]
  have hst : s.tribe = parent.Tribe := by rw [hseq]
  have hxr : s.nx < GridSize := by
    rw [hsx]
    exact htarget.2.1
  have hyr : s.ny < GridSize := by
    rw [hsy]
    exact htarget.2.2.1
  refine ⟨parent, cfg, dir, hparent, hst, by rw [hst]; exact hcfg,
    (hsh x y).subset hdir, by rw [hsx]; exact hnx, by rw [hsy]; exact hny, hxr, hyr,
    by rw [hsx, hsy]; exact htarget.1, by rw [hsx, hsy]; exact hhome, ?_, ?_, hstamps.1,
    hstamps.2⟩
  · intro st hg
    refine ⟨freshEntity s.tribe (((st.counters s.tribe).getD 0 + 1) % 2 ^ 32)
      ((lookupTribe w.Tribes s.tribe).getD TribeConfig.zero).BaseEvasion, ?_, hst,
      fresh_newborn _ _ _, ?_⟩
    · unfold spawnStep
      exact getCell_set_self hg hxr hyr _
    · show ((lookupTribe w.Tribes s.tribe).getD TribeConfig.zero).BaseEvasion = cfg.BaseEvasion
      rw [hst, hcfg]
      rfl
  · obtain ⟨s2, hm2, h2x, h2y, id, hcell⟩ := births_last_from w d.reprodNow s.nx s.ny hxr hyr
      (peaceReprod w d).spawns ⟨s, hmem, rfl, rfl⟩ (peaceCrafted w d).ents
      (peaceReprod w d).reprod w.nextEntityID (peaceCrafted_WF w d hwf)
    obtain ⟨x2, y2, ent2, dir2, _, _, hcan2, hseq2⟩ :=
      reprodLoop_records w d (peaceMoved w d).ents _
        (fun s0 h0 => absurd h0 (List.not_mem_nil s0)) s2 hm2
    obtain ⟨_, _, cfg2, hcfg2, hhome2⟩ := canSpawn_home hcan2
    have h2t : s2.tribe = ent2.Tribe := by rw [hseq2]
    have h2nx : s2.nx = ((x2 : Int) + dir2.1).toNat := by rw [hseq2]
    have h2ny : s2.ny = ((y2 : Int) + dir2.2).toNat := by rw [hseq2]
    refine ⟨_, cfg2, hcell, fresh_newborn _ _ _, ?_, ?_, ?_⟩
    · show lookupTribe w.Tribes s2.tribe = some cfg2
      rw [h2t]
      exact hcfg2
    · rw [← h2x, ← h2y, h2nx, h2ny]
      exact hhome2
    · show ((lookupTribe w.Tribes s2.tribe).getD TribeConfig.zero).BaseEvasion
        = cfg2.BaseEvasion
      rw [h2t, hcfg2]
      rfl

theorem birthDraws_shuffle : ShuffleOK birthDraws :=
  fun _ _ => List.Perm.refl _

/-- Witness of C34, on the nursery: the birth recorded at the visit of (0, 0)
targets (0, 1), which holds a child stamped with the reading of the clock at the
end of the tick. -/
theorem reproduction_child_witness :
    nursery.WF ∧ ShuffleOK birthDraws ∧
    ({ nx := 0, ny := 1, tribe := 1 } : Spawn) ∈ newSpawns nursery birthDraws 0 0 ∧
    Cooling (PreWarUpdate nursery birthDraws) (0, 1) birthDraws.reprodNow :=
  ⟨nursery_WF, birthDraws_shuffle, nursery_birth, by
    obtain ⟨_, _, _, h⟩ := reproduction_child nursery birthDraws nursery_WF birthDraws_shuffle
      0 0 { nx := 0, ny := 1, tribe := 1 } nursery_birth
    exact h.2.2.2.2.2.2.2.2.2.2.2.2.2⟩


/-! ## The targets of the births of a tick -/

/-- A loop nest whose body does something at two cells only: the loop is the visit
of the first followed by the visit of the second. -/
theorem forCells_two {σ : Type} (body : Nat → Nat → σ → σ) (x1 y1 x2 y2 : Nat)
    (hx1 : x1 < GridSize) (hy1 : y1 < GridSize) (hx2 : x2 < GridSize) (hy2 : y2 < GridSize)
    (hlt : y1 * GridSize + x1 < y2 * GridSize + x2)
    (hid : ∀ x y s, (x ≠ x1 ∨ y ≠ y1) → (x ≠ x2 ∨ y ≠ y2) → body x y s = s) (s : σ) :
    forCells body s = body x2 y2 (body x1 y1 s) := by
  have h := loopCells_indexed body
    (fun k st => st = if k ≤ y1 * GridSize + x1 then s
      else if k ≤ y2 * GridSize + x2 then body x1 y1 s else body x2 y2 (body x1 y1 s))
    GridSize ?_ GridSize s (by
      show s = if 0 ≤ y1 * GridSize + x1 then s else _
      rw [if_pos (Nat.zero_le _)])
  · unfold forCells
    rw [h, if_neg, if_neg]
    · unfold GridSize at *
      omega
    · unfold GridSize at *
      omega
  · intro x y st hx hst
    by_cases hc1 : x = x1 ∧ y = y1
    · rw [hc1.1, hc1.2] at hst ⊢
      rw [if_pos (le_refl _)] at hst
      have h1 : ¬ (y1 * GridSize + x1 + 1 ≤ y1 * GridSize + x1) := by omega
      have h2 : y1 * GridSize + x1 + 1 ≤ y2 * GridSize + x2 := by omega
      rw [hst, if_neg h1, if_pos h2]
    · by_cases hc2 : x = x2 ∧ y = y2
      · rw [hc2.1, hc2.2] at hst ⊢
        have h0 : ¬ (y2 * GridSize + x2 ≤ y1 * GridSize + x1) := by omega
        rw [if_neg h0, if_pos (le_refl _)] at hst
        have h1 : ¬ (y2 * GridSize + x2 + 1 ≤ y1 * GridSize + x1) := by omega
        have h2 : ¬ (y2 * GridSize + x2 + 1 ≤ y2 * GridSize + x2) := by omega
        rw [hst, if_neg h1, if_neg h2]
      · have hn1 : x ≠ x1 ∨ y ≠ y1 := by
          by_contra hn
          exact hc1 ⟨by_contra (fun h => hn (Or.inl h)), by_contra (fun h => hn (Or.inr h))⟩
        have hn2 : x ≠ x2 ∨ y ≠ y2 := by
          by_contra hn
          exact hc2 ⟨by_contra (fun h => hn (Or.inl h)), by_contra (fun h => hn (Or.inr h))⟩
        have hi1 : y * GridSize + x ≠ y1 * GridSize + x1 := cellIndex_inj hx hx1 hn1
        have hi2 : y * GridSize + x ≠ y2 * GridSize + x2 := cellIndex_inj hx hx2 hn2
        rw [hid x y st hn1 hn2]
        by_cases ha : y * GridSize + x ≤ y1 * GridSize + x1
        · have ha2 : y * GridSize + x + 1 ≤ y1 * GridSize + x1 := by omega
          rw [if_pos ha] at hst
          rw [if_pos ha2]
          exact hst
        · have ha2 : ¬ (y * GridSize + x + 1 ≤ y1 * GridSize + x1) := by omega
          rw [if_neg ha] at hst
          rw [if_neg ha2]
          by_cases hb : y * GridSize + x ≤ y2 * GridSize + x2
          · have hb2 : y * GridSize + x + 1 ≤ y2 * GridSize + x2 := by omega
            rw [if_pos hb] at hst
            rw [if_pos hb2]
            exact hst
          · have hb2 : ¬ (y * GridSize + x + 1 ≤ y2 * GridSize + x2) := by omega
            rw [if_neg hb] at hst
            rw [if_neg hb2]
            exact hst

/-- Births whose targets are pairwise distinct and unoccupied raise the population
of a faction by exactly the number of births recorded for it. -/
theorem births_count_eq (w : World) (now : Int) (f : Nat) (l : List Spawn)
    (hl : ∀ s ∈ l, s.nx < GridSize ∧ s.ny < GridSize)
    (hnd : (l.map (fun s => (s.nx, s.ny))).Nodup) (st : BirthState) (hst : GridWF st.ents)
    (hfree : ∀ s ∈ l, getCell st.ents s.nx s.ny none = none) :
    tribeCounts (l.foldl (spawnStep w now) st).ents f = tribeCounts st.ents f + spawnCount l f := by
  induction l generalizing st with
  | nil =>
    show tribeCounts st.ents f = tribeCounts st.ents f + 0
    omega
  | cons s rest ih =>
    rw [List.foldl_cons, spawnCount_cons]
    have hs := hl s (List.mem_cons_self _ _)
    rw [List.map_cons, List.nodup_cons] at hnd
    have hstep : tribeCounts (spawnStep w now st s).ents f
        = tribeCounts st.ents f + (if s.tribe = f then 1 else 0) := by
      unfold spawnStep
      dsimp only []
      rw [tribeCounts_setCell _ hst _ _ hs.1 hs.2, hfree s (List.mem_cons_self _ _)]
      have h0 : tribeInd none f = 0 := rfl
      have h1 : tribeInd (some (freshEntity s.tribe
          (((st.counters s.tribe).getD 0 + 1) % 2 ^ 32)
          ((lookupTribe w.Tribes s.tribe).getD TribeConfig.zero).BaseEvasion)) f
          = if s.tribe = f then 1 else 0 := rfl
      rw [h0, h1]
      omega
    have hwf2 : GridWF (spawnStep w now st s).ents := GridWF_setCell hst _ _ _
    have hfree2 : ∀ s2 ∈ rest, getCell (spawnStep w now st s).ents s2.nx s2.ny none = none := by
      intro s2 h2
      have hne : s2.nx ≠ s.nx ∨ s2.ny ≠ s.ny := by
        by_contra hn
        have e1 : s2.nx = s.nx := by_contra (fun h => hn (Or.inl h))
        have e2 : s2.ny = s.ny := by_contra (fun h => hn (Or.inr h))
        apply hnd.1
        rw [List.mem_map]
        exact ⟨s2, h2, by rw [e1, e2]⟩
      unfold spawnStep
      dsimp only []
      rw [getCell_setCell_ne _ _ _ _ _ _ _ hne]
      exact hfree s2 (List.mem_cons_of_mem _ h2)
    rw [ih (fun s2 h2 => hl s2 (List.mem_cons_of_mem _ h2)) hnd.2 (spawnStep w now st s) hwf2
      hfree2, hstep]
    ring

theorem births_count_eq_from (w : World) (now : Int) (f : Nat) (l : List Spawn)
    (hl : ∀ s ∈ l, s.nx < GridSize ∧ s.ny < GridSize)
    (hnd : (l.map (fun s => (s.nx, s.ny))).Nodup) (ents : List (List (Option Entity)))
    (reprod : List (List Int)) (counters : Nat → Option Nat) (hst : GridWF ents)
    (hfree : ∀ s ∈ l, getCell ents s.nx s.ny none = none) :
    tribeCounts (l.foldl (spawnStep w now)
      { ents := ents, reprod := reprod, counters := counters }).ents f
      = tribeCounts ents f + spawnCount l f :=
  births_count_eq w now f l hl hnd { ents := ents, reprod := reprod, counters := counters } hst
    hfree

/-- C40, amended: in a peaceful tick of a well-formed world, every birth collected
targets an in-range cell that is unoccupied after movement, but the targets need
not be pairwise distinct (two parents can record the same free cell, and the later
birth then replaces the earlier child).  The per-faction count used for the density
check is the population after movement plus the births recorded for the faction;
applying the births adds at most one live entity per birth, so that count is at
least the real population of the faction at the end of the tick; and when the
targets are pairwise distinct, applying the births adds exactly one live entity per
birth and the count equals the real population at the end of the tick. -/
theorem spawn_targets_rule (w : World) (d : PeaceDraws) (hwf : w.WF) :
    (∀ s ∈ (peaceReprod w d).spawns, s.nx < GridSize ∧ s.ny < GridSize ∧
      getCell (peaceMoved w d).ents s.nx s.ny none = none) ∧
    (∀ f, (peaceReprod w d).counts f
      = tribeCounts (peaceMoved w d).ents f + spawnCount (peaceReprod w d).spawns f) ∧
    (∀ f, tribeCounts (PreWarUpdate w d).Entities f ≤ (peaceReprod w d).counts f) ∧
    (((peaceReprod w d).spawns.map (fun s => (s.nx, s.ny))).Nodup →
      ∀ f, tribeCounts (PreWarUpdate w d).Entities f = (peaceReprod w d).counts f) := by
  have hinv := peaceReprod_inv w d hwf
  refine ⟨fun s hs => ⟨(hinv.2.2.2.2 s hs).2.1, (hinv.2.2.2.2 s hs).2.2.1,
    (hinv.2.2.2.2 s hs).1⟩, hinv.1, ?_, ?_⟩
  · intro f
    rw [hinv.1 f, PreWarUpdate_entities]
    exact peaceBorn_count_le w d hwf f
  · intro hnd f
    rw [hinv.1 f, PreWarUpdate_entities, ← peaceCrafted_counts]
    exact births_count_eq_from w d.reprodNow f (peaceReprod w d).spawns
      (fun s hs => ⟨(hinv.2.2.2.2 s hs).2.1, (hinv.2.2.2.2 s hs).2.2.1⟩) hnd
      (peaceCrafted w d).ents (peaceReprod w d).reprod w.nextEntityID (peaceCrafted_WF w d hwf)
      (fun s hs => Upgraded_none (peaceCrafted_upgraded w d s.nx s.ny) (hinv.2.2.2.2 s hs).1)

/-- The grid of `twins` before the placements is empty. -/
theorem twins_ground (x y : Nat) :
    getCell (paintCell (paintCell (paintCell (withTribes verticalTribes) 0 0 1) 0 1 1)
      1 1 1).Entities x y none = none := by
  cases hc : getCell (paintCell (paintCell (paintCell (withTribes verticalTribes) 0 0 1) 0 1 1)
      1 1 1).Entities x y none with
  | none => rfl
  | some e =>
    exfalso
    rw [paintCell_entities] at hc
    rcases getCell_setCell_some hc with ⟨_, _, hv⟩ | ⟨_, h1⟩
    · cases hv
    · rw [paintCell_entities] at h1
      rcases getCell_setCell_some h1 with ⟨_, _, hv⟩ | ⟨_, h2⟩
      · cases hv
      · rw [paintCell_entities] at h2
        rcases getCell_setCell_some h2 with ⟨_, _, hv⟩ | ⟨_, h3⟩
        · cases hv
        · rw [withTribes_entities] at h3
          cases h3

theorem twins_WF : twins.WF :=
  spawnAt_WF (spawnAt_WF (paintCell_WF (paintCell_WF (paintCell_WF (withTribes_WF _) _ _ _)
    _ _ _) _ _ _) _ _ _) _ _ _

/-- The entity layer of `twins`: a Nomad at (1, 1), a Nomad at (0, 0), and nothing
else. -/
theorem twins_ents (x y : Nat) :
    getCell twins.Entities x y none
      = if x = 1 ∧ y = 1 then some (freshEntity 1 2 0)
        else if x = 0 ∧ y = 0 then some (freshEntity 1 1 0) else none := by
  have h0 : (0 : Nat) < GridSize := by decide
  have h1 : (1 : Nat) < GridSize := by decide
  have hG : GridWF (paintCell (paintCell (paintCell (withTribes verticalTribes) 0 0 1) 0 1 1)
      1 1 1).Entities :=
    (paintCell_WF (paintCell_WF (paintCell_WF (withTribes_WF _) _ _ _) _ _ _) _ _ _).1
  have hG1 := GridWF_setCell hG 0 0 (some (freshEntity 1 1 0))
  show getCell (setCell (setCell
      (paintCell (paintCell (paintCell (withTribes verticalTribes) 0 0 1) 0 1 1) 1 1 1).Entities
      0 0 (some (freshEntity 1 1 0))) 1 1 (some (freshEntity 1 2 0))) x y none = _
  by_cases hA : x = 1 ∧ y = 1
  · rw [if_pos hA, hA.1, hA.2]
    exact getCell_set_self hG1 h1 h1 _
  · rw [if_neg hA, getCell_setCell_ne _ _ _ _ _ _ _ (by omega)]
    by_cases hB : x = 0 ∧ y = 0
    · rw [if_pos hB, hB.1, hB.2]
      exact getCell_set_self hG h0 h0 _
    · rw [if_neg hB, getCell_setCell_ne _ _ _ _ _ _ _ (by omega)]
      exact twins_ground x y

theorem twins_moved :
    peaceMoved twins birthDraws
      = { ents := twins.Entities, reprod := twins.lastReprodTime } := rfl

/-- No reproduction timestamp is set in `twins`. -/
theorem twins_stamps (x y : Nat) : getCell twins.lastReprodTime x y 0 = 0 := by
  show getCell (setCell (setCell
      (paintCell (paintCell (paintCell (withTribes verticalTribes) 0 0 1) 0 1 1)
        1 1 1).lastReprodTime 0 0 0) 1 1 0) x y 0 = 0
  have hp : ∀ (w : World) (a b c : Nat), (∀ x y, getCell w.lastReprodTime x y 0 = 0) →
      ∀ x y, getCell (paintCell w a b c).lastReprodTime x y 0 = 0 := by
    intro w a b c hw x y
    show getCell (setCell w.lastReprodTime a b 0) x y 0 = 0
    rcases getCell_setCell_cases w.lastReprodTime a b x y 0 0 with h | h
    · exact h
    · rw [h]
      exact hw x y
  have hbase : ∀ x y, getCell (withTribes verticalTribes).lastReprodTime x y 0 = 0 :=
    fun x y => zeroGrid_get x y
  have h3 := hp _ 1 1 1 (hp _ 0 1 1 (hp _ 0 0 1 hbase))
  rcases getCell_setCell_cases (setCell
      (paintCell (paintCell (paintCell (withTribes verticalTribes) 0 0 1) 0 1 1)
        1 1 1).lastReprodTime 0 0 0) 1 1 x y 0 0 with h | h
  · exact h
  · rw [h]
    rcases getCell_setCell_cases
      (paintCell (paintCell (paintCell (withTribes verticalTribes) 0 0 1) 0 1 1)
        1 1 1).lastReprodTime 0 0 x y 0 0 with h2 | h2
    · exact h2
    · rw [h2]
      exact h3 x y

/-- The terrain of `twins`: red at (0, 0), (0, 1) and (1, 1), empty elsewhere. -/
theorem twins_terrain (j : Nat) :
    twins.Terrain.getD j 0 = if j = 101 ∨ j = 100 ∨ j = 0 then 1 else 0 := by
  have e0 : 0 * GridSize + 0 = 0 := rfl
  have e1 : 1 * GridSize + 0 = 100 := rfl
  have e2 : 1 * GridSize + 1 = 101 := rfl
  rw [twins, spawnAt_terrain, spawnAt_terrain, paintCell_terrain, paintCell_terrain,
    paintCell_terrain, e0, e1, e2]
  have hlen : (withTribes verticalTribes).Terrain.length = 10000 := (withTribes_WF _).2.1
  by_cases h5 : j = 101
  · rw [if_pos (Or.inl h5), h5]
    exact getD_set_self _ _ _ _ (by rw [List.length_set, List.length_set, hlen]; decide)
  · rw [getD_set_ne _ _ _ _ _ (fun e => h5 e.symm)]
    by_cases h4 : j = 100
    · rw [if_pos (Or.inr (Or.inl h4)), h4]
      exact getD_set_self _ _ _ _ (by rw [List.length_set, hlen]; decide)
    · rw [getD_set_ne _ _ _ _ _ (fun e => h4 e.symm)]
      by_cases h3 : j = 0
      · rw [if_pos (Or.inr (Or.inr h3)), h3]
        exact getD_set_self _ _ _ _ (by rw [hlen]; decide)
      · rw [if_neg (by omega), getD_set_ne _ _ _ _ _ (fun e => h3 e.symm)]
        exact withTribes_terrain verticalTribes j

/-- Two Nomads are on the grid of `twins`. -/
theorem twins_count : tribeCounts twins.Entities 1 = 2 := by
  have h0 : (0 : Nat) < GridSize := by decide
  have h1 : (1 : Nat) < GridSize := by decide
  have hG : GridWF (paintCell (paintCell (paintCell (withTribes verticalTribes) 0 0 1) 0 1 1)
      1 1 1).Entities :=
    (paintCell_WF (paintCell_WF (paintCell_WF (withTribes_WF _) _ _ _) _ _ _) _ _ _).1
  have hG1 := GridWF_setCell hG 0 0 (some (freshEntity 1 1 0))
  have e1 : tribeCounts twins.Entities 1
      = tribeCounts (setCell (setCell
          (paintCell (paintCell (paintCell (withTribes verticalTribes) 0 0 1) 0 1 1)
            1 1 1).Entities 0 0 (some (freshEntity 1 1 0))) 1 1 (some (freshEntity 1 2 0))) 1 :=
    rfl
  have e2 : ∀ (id : Nat) (ev : ℚ), tribeInd (some (freshEntity 1 id ev)) 1 = 1 := fun _ _ => rfl
  have e3 : tribeInd none 1 = 0 := rfl
  rw [e1, tribeCounts_setCell _ hG1 1 1 h1 h1, tribeCounts_setCell _ hG 0 0 h0 h0,
    tribeCounts_empty _ twins_ground, twins_ground,
    getCell_setCell_ne _ _ _ _ _ _ _ (Or.inl (by decide)), twins_ground, e2, e2, e3]
  rfl

/-- A visit of the reproduction loop that passes every test, in full. -/
theorem reprodBody_birth_full (w : World) (d : PeaceDraws) (g : List (List (Option Entity)))
    (x y : Nat) (st : ReprodState) (ent : Entity) (dir : Int × Int)
    (hent : getCell g x y none = some ent) (hskip : st.skip ent.Tribe = false)
    (hstamp : getCell st.reprod x y 0 = 0)
    (hroll : d.reprodRoll x y < w.EntityStats.ReproductionRate)
    (hfind : (d.shuffled x y).find? (canSpawn w g x y ent.Tribe) = some dir) :
    reprodBody w d g x y st
      = { counts := fun t => if t = ent.Tribe then st.counts ent.Tribe + 1 else st.counts t
          skip := fun t =>
            if t = ent.Tribe ∧ (((st.counts ent.Tribe + 1 : Int)) : ℚ)
                / ((GridSize * GridSize : Nat) : ℚ) > w.EntityStats.MaxDensityFraction then true
            else st.skip t
          spawns := st.spawns ++
            [{ nx := ((x : Int) + dir.1).toNat, ny := ((y : Int) + dir.2).toNat,
               tribe := ent.Tribe }]
          reprod := setCell st.reprod x y d.reprodNow } := by
  unfold reprodBody
  rw [hent]
  dsimp only []
  rw [if_neg (by rw [hskip]; exact fun h => by cases h),
    if_neg (by rw [hstamp]; exact fun h => h.1 rfl), if_pos hroll, hfind]

theorem twins_roll (x y : Nat) :
    birthDraws.reprodRoll x y < twins.EntityStats.ReproductionRate := by
  show (0 : ℚ) < 5 / 1000
  norm_num

theorem twins_canReproduce (t : Nat) : CanReproduceOn t twins 1 = decide (t = 1) := rfl

/-- The test of the reproduction loop around the two Nomads of `twins`: from (0, 0)
only the step down passes among the first two directions, from (1, 1) the step
left is the first that passes. -/
theorem twins_canSpawn :
    canSpawn twins twins.Entities 0 0 1 (0, -1) = false ∧
    canSpawn twins twins.Entities 0 0 1 (0, 1) = true ∧
    canSpawn twins twins.Entities 1 1 1 (0, -1) = false ∧
    canSpawn twins twins.Entities 1 1 1 (0, 1) = false ∧
    canSpawn twins twins.Entities 1 1 1 (-1, 0) = true := by
  have hgen : ∀ (x y : Nat) (dir : Int × Int) (tx ty : Nat),
      ((x : Int) + dir.1 ≥ 0 ∧ (x : Int) + dir.1 < GridSize ∧
        (y : Int) + dir.2 ≥ 0 ∧ (y : Int) + dir.2 < GridSize) →
      ((x : Int) + dir.1).toNat = tx → ((y : Int) + dir.2).toNat = ty →
      canSpawn twins twins.Entities x y 1 dir
        = (decide (getCell twins.Entities tx ty none = none) &&
            decide (twins.Terrain.getD (ty * GridSize + tx) 0 = 1)) := by
    intro x y dir tx ty hr hx hy
    unfold canSpawn
    dsimp only []
    rw [hx, hy, decide_eq_true hr, Bool.true_and, twins_canReproduce]
  refine ⟨?_, ?_, ?_, ?_, ?_⟩
  · unfold canSpawn
    dsimp only []
    rw [decide_eq_false (by decide), Bool.false_and]
  · rw [hgen 0 0 (0, 1) 0 1 (by decide) rfl rfl, twins_ents, twins_terrain]
    decide
  · rw [hgen 1 1 (0, -1) 1 0 (by decide) rfl (by decide), twins_ents, twins_terrain]
    decide
  · rw [hgen 1 1 (0, 1) 1 2 (by decide) rfl rfl, twins_ents, twins_terrain]
    decide
  · rw [hgen 1 1 (-1, 0) 0 1 (by decide) (by decide) rfl, twins_ents, twins_terrain]
    decide

theorem twins_low (c : Int) (hc3 : c ≤ 3) :
    ¬ (((c : Int) : ℚ) / ((GridSize * GridSize : Nat) : ℚ)
      > twins.EntityStats.MaxDensityFraction) := by
  show ¬ (((c : Int) : ℚ) / ((GridSize * GridSize : Nat) : ℚ) > 30 / 1000)
  have hq : ((c : Int) : ℚ) ≤ 3 := by exact_mod_cast hc3
  unfold GridSize
  rw [not_lt, div_le_iff₀ (by norm_num)]
  norm_num
  linarith

/-- The visits of (0, 0) and (1, 1) by the reproduction loop of `twins`, from a
state in which the Nomads are not skipped and neither cell is stamped: each
records a birth for cell (0, 1). -/
theorem twins_visits (counts : Nat → Int) (skip : Nat → Bool) (spawns : List Spawn)
    (reprod : List (List Int)) (hskip : skip 1 = false) (hcount : counts 1 ≤ 2)
    (h00 : getCell reprod 0 0 0 = 0) (h11 : getCell reprod 1 1 0 = 0) :
    (reprodBody twins birthDraws twins.Entities 1 1
      (reprodBody twins birthDraws twins.Entities 0 0
        { counts := counts, skip := skip, spawns := spawns, reprod := reprod })).spawns
      = spawns ++ [{ nx := 0, ny := 1, tribe := 1 }] ++ [{ nx := 0, ny := 1, tribe := 1 }] := by
  have hc := twins_canSpawn
  have hent0 : getCell twins.Entities 0 0 none = some (freshEntity 1 1 0) := by
    rw [twins_ents]
    decide
  have hent1 : getCell twins.Entities 1 1 none = some (freshEntity 1 2 0) := by
    rw [twins_ents]
    decide
  have hfind0 : (birthDraws.shuffled 0 0).find?
      (canSpawn twins twins.Entities 0 0 (freshEntity 1 1 0).Tribe) = some (0, 1) := by
    show directions.find? (canSpawn twins twins.Entities 0 0 1) = some (0, 1)
    unfold directions
    rw [List.find?_cons_of_neg _ (by rw [hc.1]; exact fun h => by cases h),
      List.find?_cons_of_pos _ hc.2.1]
  have hfind1 : (birthDraws.shuffled 1 1).find?
      (canSpawn twins twins.Entities 1 1 (freshEntity 1 2 0).Tribe) = some (-1, 0) := by
    show directions.find? (canSpawn twins twins.Entities 1 1 1) = some (-1, 0)
    unfold directions
    rw [List.find?_cons_of_neg _ (by rw [hc.2.2.1]; exact fun h => by cases h),
      List.find?_cons_of_neg _ (by rw [hc.2.2.2.1]; exact fun h => by cases h),
      List.find?_cons_of_pos _ hc.2.2.2.2]
  have hA := reprodBody_birth_full twins birthDraws twins.Entities 0 0
    { counts := counts, skip := skip, spawns := spawns, reprod := reprod }
    (freshEntity 1 1 0) (0, 1) hent0 hskip h00 (twins_roll 0 0) hfind0
  have hskipA : (reprodBody twins birthDraws twins.Entities 0 0
      { counts := counts, skip := skip, spawns := spawns, reprod := reprod }).skip
      (freshEntity 1 2 0).Tribe = false := by
    rw [hA]
    show (if (1 : Nat) = 1 ∧ (((counts 1 + 1 : Int)) : ℚ)
        / ((GridSize * GridSize : Nat) : ℚ) > twins.EntityStats.MaxDensityFraction then true
      else skip 1) = false
    rw [if_neg (fun h => twins_low _ (by omega) h.2)]
    exact hskip
  have hstampA : getCell (reprodBody twins birthDraws twins.Entities 0 0
      { counts := counts, skip := skip, spawns := spawns, reprod := reprod }).reprod 1 1 0
      = 0 := by
    rw [hA]
    show getCell (setCell reprod 0 0 birthDraws.reprodNow) 1 1 0 = 0
    rw [getCell_setCell_ne _ _ _ _ _ _ _ (Or.inl (by decide))]
    exact h11
  rw [reprodBody_birth twins birthDraws twins.Entities 1 1 _ (freshEntity 1 2 0) (-1, 0)
    hent1 hskipA hstampA (twins_roll 1 1) hfind1, hA]
  rfl

/-- The births of the tick of `twins` in which every reproduction roll passes: the
Nomad of (0, 0) and the Nomad of (1, 1) both record a birth for cell (0, 1). -/
theorem twins_spawns :
    (peaceReprod twins birthDraws).spawns
      = [{ nx := 0, ny := 1, tribe := 1 }, { nx := 0, ny := 1, tribe := 1 }] := by
  have h0 : (0 : Nat) < GridSize := by decide
  have h1 : (1 : Nat) < GridSize := by decide
  have hskip0 : (skipStart twins (tribeCounts twins.Entities)) 1 = false := by
    unfold skipStart
    rw [twins_count, decide_eq_false (twins_low 2 (by decide)), Bool.and_false]
  have hloop : peaceReprod twins birthDraws
      = reprodBody twins birthDraws twins.Entities 1 1
          (reprodBody twins birthDraws twins.Entities 0 0
            { counts := tribeCounts twins.Entities
              skip := skipStart twins (tribeCounts twins.Entities)
              spawns := []
              reprod := twins.lastReprodTime }) := by
    show forCells (reprodBody twins birthDraws twins.Entities) _ = _
    apply forCells_two _ 0 0 1 1 h0 h0 h1 h1 (by decide)
    intro x y s hn1 hn2
    unfold reprodBody
    rw [twins_ents, if_neg (by omega), if_neg (by omega)]
  rw [hloop]
  exact twins_visits (tribeCounts twins.Entities) (skipStart twins (tribeCounts twins.Entities))
    [] twins.lastReprodTime hskip0 (by rw [twins_count]) (twins_stamps 0 0) (twins_stamps 1 1)

/-- Two births recorded for the same free cell add one entity. -/
theorem births_twice (w : World) (now : Int) (s : Spawn) (hx : s.nx < GridSize)
    (hy : s.ny < GridSize) (ents : List (List (Option Entity))) (reprod : List (List Int))
    (counters : Nat → Option Nat) (hst : GridWF ents)
    (hfree : getCell ents s.nx s.ny none = none) (f : Nat) :
    tribeCounts ([s, s].foldl (spawnStep w now)
      { ents := ents, reprod := reprod, counters := counters }).ents f
      = tribeCounts ents f + (if s.tribe = f then 1 else 0) := by
  have hind : ∀ (id : Nat) (ev : ℚ), tribeInd (some (freshEntity s.tribe id ev)) f
      = if s.tribe = f then 1 else 0 := fun _ _ => rfl
  have h0 : tribeInd none f = 0 := rfl
  simp only [List.foldl_cons, List.foldl_nil]
  unfold spawnStep
  dsimp only []
  rw [tribeCounts_setCell _ (GridWF_setCell hst _ _ _) _ _ hx hy, getCell_set_self hst hx hy,
    tribeCounts_setCell _ hst _ _ hx hy, hfree, hind, hind, h0]
  ring

/-- C40, refuted as stated: in the tick of `twins` in which every reproduction roll
passes, the two births collected target the same cell (0, 1); the count of Nomads
used for the density check ends at 4 (2 after movement plus 2 births), while the
population of Nomads at the end of the tick is 3: the second birth replaces the
child of the first. -/
theorem spawn_targets_claim_fails :
    twins.WF ∧
    (peaceReprod twins birthDraws).spawns
      = [{ nx := 0, ny := 1, tribe := 1 }, { nx := 0, ny := 1, tribe := 1 }] ∧
    ¬ ((peaceReprod twins birthDraws).spawns.map (fun s => (s.nx, s.ny))).Nodup ∧
    tribeCounts (peaceMoved twins birthDraws).ents 1 = 2 ∧
    (peaceReprod twins birthDraws).counts 1 = 4 ∧
    tribeCounts (PreWarUpdate twins birthDraws).Entities 1 = 3 := by
  have hmoved : tribeCounts (peaceMoved twins birthDraws).ents 1 = 2 := by
    rw [twins_moved]
    exact twins_count
  have hinv := peaceReprod_inv twins birthDraws twins_WF
  refine ⟨twins_WF, twins_spawns, ?_, hmoved, ?_, ?_⟩
  · rw [twins_spawns]
    decide
  · rw [hinv.1 1, hmoved, twins_spawns]
    rfl
  · have hfree : getCell (peaceCrafted twins birthDraws).ents 0 1 none = none := by
      apply Upgraded_none (peaceCrafted_upgraded twins birthDraws 0 1)
      rw [twins_moved]
      show getCell twins.Entities 0 1 none = none
      rw [twins_ents]
      decide
    have hb := births_twice twins birthDraws.reprodNow { nx := 0, ny := 1, tribe := 1 }
      (by decide) (by decide) (peaceCrafted twins birthDraws).ents
      (peaceReprod twins birthDraws).reprod twins.nextEntityID
      (peaceCrafted_WF twins birthDraws twins_WF) hfree 1
    rw [peaceCrafted_counts, hmoved] at hb
    rw [PreWarUpdate_entities]
    unfold peaceBorn
    rw [twins_spawns]
    exact hb

/-- Witness of the amended C40, on `twins`: the count of Nomads used for the density
check is at least their population at the end of the tick. -/
theorem spawn_targets_rule_witness :
    twins.WF ∧
    tribeCounts (PreWarUpdate twins birthDraws).Entities 1
      ≤ (peaceReprod twins birthDraws).counts 1 :=
  ⟨twins_WF, (spawn_targets_rule twins birthDraws twins_WF).2.2.1 1⟩


/-! ## The starters of a map -/

theorem paintQuadrants_length (x y : Nat) (t : List Nat) :
    (paintQuadrants x y t).length = t.length := by
  unfold paintQuadrants
  split_ifs <;> simp

theorem paintNorthSouth_length (x y : Nat) (t : List Nat) :
    (paintNorthSouth x y t).length = t.length := by
  unfold paintNorthSouth
  split_ifs <;> simp

theorem stampCluster_idle (tribes : List (Nat × TribeConfig))
    (code width half least span : Nat) (hhalf : 0 < half) (t : List Nat) :
    stampCluster tribes code width half least span t idleCluster = t := by
  unfold stampCluster
  apply foldl_inv
    (fun t j => stampCell tribes code width half (idleCluster.cx % GridSize)
      (idleCluster.cy % GridSize) t (idleCluster.cell j)) (fun s => s = t) _ _ t rfl
  intro s j hs
  rw [hs]
  unfold stampCell
  dsimp only []
  rw [if_neg]
  rintro ⟨h1, _⟩
  have e : ((idleCluster.cx % GridSize : Nat) : Int)
      + (((idleCluster.cell j).1 % width : Nat) : Int) - (half : Int) = -(half : Int) := by
    show ((0 % GridSize : Nat) : Int) + ((0 % width : Nat) : Int) - (half : Int) = -(half : Int)
    rw [Nat.zero_mod, Nat.zero_mod]
    simp
  rw [e] at h1
  omega

/-- A feature loop fed with idle clusters, on a terrain whose cell (0, 0) carries a
home terrain: it comes to its end and stamps nothing. -/
theorem stampClusters_idle (tribes : List (Nat × TribeConfig))
    (code width half least span : Nat) (hhalf : 0 < half) (t : List Nat)
    (hb : t.getD 0 0 ≠ TerrainBorder) (hh : isHomeFlat tribes (t.getD 0 0) = true)
    (k n : Nat) (hn : n ≤ k) :
    stampClusters tribes code width half least span (List.replicate k idleCluster) n t
      = some t := by
  induction k generalizing n with
  | zero =>
    have hn0 : n = 0 := by omega
    rw [hn0]
    rfl
  | succ j ih =>
    rw [List.replicate_succ]
    unfold stampClusters
    by_cases h0 : n = 0
    · rw [if_pos h0]
    · rw [if_neg h0]
      have hidx : (idleCluster.cy % GridSize) * GridSize + idleCluster.cx % GridSize = 0 := rfl
      rw [hidx, if_neg (by
        rintro (h | h)
        · exact hb h
        · rw [hh] at h
          cases h), stampCluster_idle tribes code width half least span hhalf t]
      exact ih (n - 1) (by omega)

theorem stampFeatures_idle (tribes : List (Nat × TribeConfig)) (t : List Nat)
    (hb : t.getD 0 0 ≠ TerrainBorder) (hh : isHomeFlat tribes (t.getD 0 0) = true) :
    stampFeatures tribes idleLayout t = some t := by
  unfold stampFeatures
  have e1 : idleLayout.trees = List.replicate 25 idleCluster := rfl
  have e2 : idleLayout.rocks = List.replicate 15 idleCluster := rfl
  have e3 : idleLayout.hills = List.replicate 20 idleCluster := rfl
  rw [e1, e2, e3, stampClusters_idle tribes _ _ 7 _ _ (by decide) t hb hh 25 25 (le_refl _),
    Option.some_bind,
    stampClusters_idle tribes _ _ 5 _ _ (by decide) t hb hh 15 15 (le_refl _), Option.some_bind,
    stampClusters_idle tribes _ _ 10 _ _ (by decide) t hb hh 20 20 (le_refl _)]

/-- Cell (0, 0) of the base terrain of the four quadrants is red. -/
theorem quadrantsBase_origin (t : List Nat) (hlen : t.length = GridSize * GridSize) :
    (borderCross (forCells paintQuadrants (clearTerrain t))).getD 0 0 = TerrainRed := by
  have hpaint : (forCells paintQuadrants (clearTerrain t)).getD 0 0 = TerrainRed := by
    have h := loopCells_local paintQuadrants (fun s => s.getD 0 0) (fun _ => TerrainRed)
      (fun s => s.length = GridSize * GridSize) 0 0
      (fun x y s hs => (paintQuadrants_length x y s).trans hs)
      (fun x y s hx _ hne => by
        have hi : y * GridSize + x ≠ 0 := by
          have := cellIndex_inj hx (show 0 < GridSize by decide) hne
          simpa using this
        show (paintQuadrants x y s).getD 0 0 = s.getD 0 0
        unfold paintQuadrants
        split_ifs
        · exact getD_set_ne _ _ _ _ _ hi
        · exact getD_set_ne _ _ _ _ _ hi
        · exact getD_set_ne _ _ _ _ _ hi
        · exact getD_set_ne _ _ _ _ _ hi
        · rfl)
      (fun s hs => by
        show (paintQuadrants 0 0 s).getD 0 0 = TerrainRed
        unfold paintQuadrants
        rw [if_pos ⟨by decide, by decide⟩]
        exact getD_set_self _ _ _ _ (by rw [hs]; decide))
      GridSize (clearTerrain t) (by
        show (clearTerrain t).length = GridSize * GridSize
        unfold clearTerrain
        rw [List.length_map]
        exact hlen)
    rw [if_pos ⟨by decide, by decide⟩] at h
    exact h
  unfold borderCross
  exact foldl_inv
    (fun (t : List Nat) (i : Nat) =>
      (t.set (i * GridSize + 50) TerrainBorder).set (50 * GridSize + i) TerrainBorder)
    (fun (s : List Nat) => s.getD 0 0 = TerrainRed)
    (fun s i hs => by
      have h1 : i * GridSize + 50 ≠ 0 := by omega
      have h2 : 50 * GridSize + i ≠ 0 := by
        unfold GridSize
        omega
      show ((s.set (i * GridSize + 50) TerrainBorder).set (50 * GridSize + i)
        TerrainBorder).getD 0 0 = TerrainRed
      rw [getD_set_ne _ _ _ _ _ h2, getD_set_ne _ _ _ _ _ h1]
      exact hs) _ _ hpaint

/-- Cell (0, 0) of the base terrain of north and south is red. -/
theorem northSouthBase_origin (t : List Nat) (hlen : t.length = GridSize * GridSize) :
    (borderRow (forCells paintNorthSouth (clearTerrain t))).getD 0 0 = TerrainRed := by
  have hpaint : (forCells paintNorthSouth (clearTerrain t)).getD 0 0 = TerrainRed := by
    have h := loopCells_local paintNorthSouth (fun s => s.getD 0 0) (fun _ => TerrainRed)
      (fun s => s.length = GridSize * GridSize) 0 0
      (fun x y s hs => (paintNorthSouth_length x y s).trans hs)
      (fun x y s hx _ hne => by
        have hi : y * GridSize + x ≠ 0 := by
          have := cellIndex_inj hx (show 0 < GridSize by decide) hne
          simpa using this
        show (paintNorthSouth x y s).getD 0 0 = s.getD 0 0
        unfold paintNorthSouth
        split_ifs
        · exact getD_set_ne _ _ _ _ _ hi
        · exact getD_set_ne _ _ _ _ _ hi
        · rfl)
      (fun s hs => by
        show (paintNorthSouth 0 0 s).getD 0 0 = TerrainRed
        unfold paintNorthSouth
        rw [if_pos (by decide)]
        exact getD_set_self _ _ _ _ (by rw [hs]; decide))
      GridSize (clearTerrain t) (by
        show (clearTerrain t).length = GridSize * GridSize
        unfold clearTerrain
        rw [List.length_map]
        exact hlen)
    rw [if_pos ⟨by decide, by decide⟩] at h
    exact h
  unfold borderRow
  exact foldl_inv (fun (t : List Nat) (x : Nat) => t.set (50 * GridSize + x) TerrainBorder)
    (fun (s : List Nat) => s.getD 0 0 = TerrainRed)
    (fun s x hs => by
      have hne : 50 * GridSize + x ≠ 0 := by
        unfold GridSize
        omega
      show (s.set (50 * GridSize + x) TerrainBorder).getD 0 0 = TerrainRed
      rw [getD_set_ne _ _ _ _ _ hne]
      exact hs) _ _ hpaint

/-- A run of `InitFourQuadrants` that comes to its end. -/
theorem InitFourQuadrants_returns (w : World) (hwf : w.WF) :
    InitFourQuadrants w idleLayout
      = some (placeStarters
          (loadRegistry w (borderCross (forCells paintQuadrants (clearTerrain w.Terrain)))
            fourTribes) idleLayout.attempts) := by
  unfold InitFourQuadrants layoutWorld
  have ho := quadrantsBase_origin w.Terrain hwf.2.1
  rw [stampFeatures_idle fourTribes _ (by rw [ho]; decide) (by rw [ho]; decide)]
  rfl

/-- A run of `InitNorthSouth` that comes to its end. -/
theorem InitNorthSouth_returns (w : World) (hwf : w.WF) :
    InitNorthSouth w idleLayout
      = some (placeStarters
          (loadRegistry w (borderRow (forCells paintNorthSouth (clearTerrain w.Terrain)))
            northSouthTribes) idleLayout.attempts) := by
  unfold InitNorthSouth layoutWorld
  have ho := northSouthBase_origin w.Terrain hwf.2.1
  rw [stampFeatures_idle northSouthTribes _ (by rw [ho]; decide) (by rw [ho]; decide)]
  rfl

/-- A loop nest whose body acts on one cell only comes down to the visit of that
cell. -/
theorem forCells_one {σ : Type} (body : Nat → Nat → σ → σ) (x1 y1 : Nat)
    (hx1 : x1 < GridSize) (hy1 : y1 < GridSize)
    (hid : ∀ x y s, (x ≠ x1 ∨ y ≠ y1) → body x y s = s) (s : σ) :
    forCells body s = body x1 y1 s := by
  have h := loopCells_indexed body
    (fun k st => st = if k ≤ y1 * GridSize + x1 then s else body x1 y1 s)
    GridSize ?_ GridSize s (by
      show s = if 0 ≤ y1 * GridSize + x1 then s else _
      rw [if_pos (Nat.zero_le _)])
  · unfold forCells
    rw [h, if_neg]
    unfold GridSize at *
    omega
  · intro x y st hx hst
    by_cases hc1 : x = x1 ∧ y = y1
    · rw [hc1.1, hc1.2] at hst ⊢
      rw [if_pos (le_refl _)] at hst
      have h1 : ¬ (y1 * GridSize + x1 + 1 ≤ y1 * GridSize + x1) := by omega
      rw [hst, if_neg h1]
    · have hn1 : x ≠ x1 ∨ y ≠ y1 := by
        by_contra hn
        exact hc1 ⟨by_contra (fun h => hn (Or.inl h)), by_contra (fun h => hn (Or.inr h))⟩
      have hi1 : y * GridSize + x ≠ y1 * GridSize + x1 := cellIndex_inj hx hx1 hn1
      rw [hid x y st hn1]
      by_cases ha : y * GridSize + x ≤ y1 * GridSize + x1
      · have ha2 : y * GridSize + x + 1 ≤ y1 * GridSize + x1 := by omega
        rw [if_pos ha] at hst
        rw [if_pos ha2]
        exact hst
      · have ha2 : ¬ (y * GridSize + x + 1 ≤ y1 * GridSize + x1) := by omega
        rw [if_neg ha] at hst
        rw [if_neg ha2]
        exact hst

/-- An invariant indexed by the number of cells visited holds, with the index of the
cell, when the loop nest reaches a cell. -/
theorem loopBefore_indexed {σ : Type} (body : Nat → Nat → σ → σ) (I : Nat → σ → Prop)
    (cols : Nat)
    (hI : ∀ x y s, x < cols → I (y * cols + x) s → I (y * cols + x + 1) (body x y s))
    (s : σ) (hs : I 0 s) (x y : Nat) (hx : x ≤ cols) :
    I (y * cols + x) (loopBefore cols body s x y) := by
  unfold loopBefore
  have h0 := loopCells_indexed body I cols hI y s hs
  have hrow : ∀ k, k ≤ cols →
      I (y * cols + k)
        ((List.range k).foldl (fun s x2 => body x2 y s) (loopCells y cols body s)) := by
    intro k
    induction k with
    | zero =>
      intro _
      exact h0
    | succ j ihj =>
      intro hj
      rw [List.range_succ, List.foldl_append]
      exact hI j y _ (by omega) (ihj (by omega))
  exact hrow x hx

/-- A loop nest reaches a cell in the state it started from when its body acts on
no cell before that one. -/
theorem loopBefore_idle {σ : Type} (body : Nat → Nat → σ → σ) (x1 y1 : Nat)
    (hx1 : x1 < GridSize)
    (hid : ∀ x y s, x < GridSize → y * GridSize + x < y1 * GridSize + x1 → body x y s = s)
    (s : σ) : loopBefore GridSize body s x1 y1 = s := by
  have h := loopBefore_indexed body
    (fun k st => k ≤ y1 * GridSize + x1 → st = s) GridSize ?_ s (fun _ => rfl) x1 y1
    (le_of_lt hx1)
  · exact h (le_refl _)
  · intro x y st hx hst hle
    rw [hid x y st hx (by omega)]
    exact hst (by omega)

/-- The sum over the grid of a function that vanishes outside a list of distinct
in-range cells. -/
theorem sum_cells_support (f : Nat → Nat → Int) (cells : List (Nat × Nat))
    (hnd : cells.Nodup) (hrange : ∀ c ∈ cells, c.1 < GridSize ∧ c.2 < GridSize)
    (hsupp : ∀ x y, (x, y) ∉ cells → f x y = 0) :
    ∑ y in Finset.range GridSize, ∑ x in Finset.range GridSize, f x y
      = (cells.map (fun c => f c.1 c.2)).sum := by
  rw [Finset.sum_comm, ← Finset.sum_product' (Finset.range GridSize) (Finset.range GridSize) f,
    ← List.sum_toFinset _ hnd]
  symm
  apply Finset.sum_subset
  · intro c hc
    rw [List.mem_toFinset] at hc
    rw [Finset.mem_product, Finset.mem_range, Finset.mem_range]
    exact hrange c hc
  · intro c _ hc
    rw [List.mem_toFinset] at hc
    exact hsupp c.1 c.2 hc

/-! ## Ticks in which no roll passes -/

/-- The reproduction loop records nothing when no reproduction roll passes. -/
theorem reprodLoop_still (w : World) (d : PeaceDraws) (g : List (List (Option Entity)))
    (hr : ∀ x y, ¬ d.reprodRoll x y < w.EntityStats.ReproductionRate) (st : ReprodState) :
    forCells (reprodBody w d g) st = st := by
  apply loopCells_inv (reprodBody w d g) (fun s => s = st) _ GridSize GridSize st rfl
  intro x y s hs
  rw [hs]
  unfold reprodBody
  cases getCell g x y none with
  | none => rfl
  | some ent =>
    dsimp only []
    rw [if_neg (hr x y)]
    split_ifs <;> rfl

/-- The crafting loop changes nothing when no craft roll passes. -/
theorem craftLoop_still (w : World) (d : PeaceDraws)
    (hc : ∀ x y, ¬ d.craftRoll x y < 2 / 100) (st : CraftState) :
    forCells (craftBody w d) st = st := by
  apply loopCells_inv (craftBody w d) (fun s => s = st) _ GridSize GridSize st rfl
  intro x y s hs
  rw [hs]
  unfold craftBody
  cases getCell st.ents x y none with
  | none => rfl
  | some ent =>
    dsimp only []
    cases lookupTribe w.Tribes ent.Tribe with
    | none => rfl
    | some cfg =>
      dsimp only []
      rw [if_neg (fun h => hc x y h.2)]

theorem installPeace_same (w : World) :
    installPeace w { ents := w.Entities, reprod := w.lastReprodTime, counters := w.nextEntityID }
      { ents := w.Entities, resources := w.resources } = w := by
  cases w
  rfl

/-- A peaceful tick in which no move is resolved and no reproduction or craft roll
passes is the mining and regrowth step. -/
theorem still_tick (w : World) (d : PeaceDraws) (hk : d.keyOrder = [])
    (hr : ∀ x y, ¬ d.reprodRoll x y < w.EntityStats.ReproductionRate)
    (hc : ∀ x y, ¬ d.craftRoll x y < 2 / 100) :
    PreWarUpdate w d = HandleMiningAndRegrowth w d.mineNow := by
  have hm : peaceMoved w d = { ents := w.Entities, reprod := w.lastReprodTime } :=
    resolveMoves_nil w (moveDraws w d) hk
  have hrep : peaceReprod w d
      = { counts := tribeCounts w.Entities
          skip := skipStart w (tribeCounts w.Entities)
          spawns := []
          reprod := w.lastReprodTime } := by
    unfold peaceReprod
    rw [hm]
    exact reprodLoop_still w d _ hr _
  have hcr : peaceCrafted w d = { ents := w.Entities, resources := w.resources } := by
    unfold peaceCrafted
    rw [hm]
    exact craftLoop_still w d hc _
  have hb : peaceBorn w d
      = { ents := w.Entities, reprod := w.lastReprodTime, counters := w.nextEntityID } := by
    unfold peaceBorn
    rw [hrep, hcr]
    rfl
  unfold PreWarUpdate
  rw [hb, hcr, installPeace_same]

theorem customRegistry_nomads : customRegistry [("1", "Nomads")] = [(1, customNomads 1)] := by
  decide

/-- The custom map that assigns the Nomads to red (1), loaded with no attempt to
place a starter: the terrain layer and the registry are replaced. -/
theorem InitCustomMap_nomads (w : World) (terrain : List Nat)
    (hw : w.Terrain.length = GridSize * GridSize)
    (hlen : terrain.length = GridSize * GridSize) :
    (InitCustomMap w terrain [("1", "Nomads")] (fun _ _ => [])).1
      = loadRegistry w terrain [(1, customNomads 1)] := by
  unfold InitCustomMap
  rw [if_neg (fun h => h hlen), customRegistry_nomads, if_neg (by decide), placeStarters_idle,
    copySlice_same (hlen.trans hw.symm)]

/-! ## The steps around a cell -/

/-- The mining impulse of a cell away from the edge of the grid, neighbour by
neighbour: `(x, ym)` is the cell above, `(x, yp)` the one below, `(xm, y)` the one
to the left and `(xp, y)` the one to the right. -/
theorem resourceDirs_interior (w : World) (x y xm xp ym yp : Nat) (hxm : xm + 1 = x)
    (hxp : xp = x + 1) (hym : ym + 1 = y) (hyp : yp = y + 1) (hx2 : xp < GridSize)
    (hy2 : yp < GridSize) :
    resourceDirs w x y
      = (if getCell w.Entities x ym none = none ∧
            (w.Terrain.getD (ym * GridSize + x) 0 = TerrainTrees ∨
              w.Terrain.getD (ym * GridSize + x) 0 = TerrainRocks) then [0] else []) ++
        ((if getCell w.Entities x yp none = none ∧
            (w.Terrain.getD (yp * GridSize + x) 0 = TerrainTrees ∨
              w.Terrain.getD (yp * GridSize + x) 0 = TerrainRocks) then [1] else []) ++
        ((if getCell w.Entities xm y none = none ∧
            (w.Terrain.getD (y * GridSize + xm) 0 = TerrainTrees ∨
              w.Terrain.getD (y * GridSize + xm) 0 = TerrainRocks) then [2] else []) ++
        (if getCell w.Entities xp y none = none ∧
            (w.Terrain.getD (y * GridSize + xp) 0 = TerrainTrees ∨
              w.Terrain.getD (y * GridSize + xp) 0 = TerrainRocks) then [3] else []))) := by
  have e0 : ((x : Int) + 0).toNat = x := by omega
  have e1 : ((y : Int) + -1).toNat = ym := by omega
  have e2 : ((y : Int) + 1).toNat = yp := by omega
  have e3 : ((x : Int) + -1).toNat = xm := by omega
  have e4 : ((x : Int) + 1).toNat = xp := by omega
  have e5 : ((y : Int) + 0).toNat = y := by omega
  have r0 : decide ((x : Int) + 0 ≥ 0 ∧ (x : Int) + 0 < GridSize ∧ (y : Int) + -1 ≥ 0 ∧
      (y : Int) + -1 < GridSize) = true := decide_eq_true (by unfold GridSize at *; omega)
  have r1 : decide ((x : Int) + 0 ≥ 0 ∧ (x : Int) + 0 < GridSize ∧ (y : Int) + 1 ≥ 0 ∧
      (y : Int) + 1 < GridSize) = true := decide_eq_true (by unfold GridSize at *; omega)
  have r2 : decide ((x : Int) + -1 ≥ 0 ∧ (x : Int) + -1 < GridSize ∧ (y : Int) + 0 ≥ 0 ∧
      (y : Int) + 0 < GridSize) = true := decide_eq_true (by unfold GridSize at *; omega)
  have r3 : decide ((x : Int) + 1 ≥ 0 ∧ (x : Int) + 1 < GridSize ∧ (y : Int) + 0 ≥ 0 ∧
      (y : Int) + 0 < GridSize) = true := decide_eq_true (by unfold GridSize at *; omega)
  unfold resourceDirs directions
  simp only [List.enum, List.enumFrom, List.filter_cons, List.filter_nil, r0, r1, r2, r3,
    e0, e1, e2, e3, e4, e5, Bool.true_and, Bool.and_eq_true, Bool.or_eq_true,
    decide_eq_true_eq]
  split_ifs <;> rfl

/-- The score of a step whose target is the in-range cell `(nx, ny)`. -/
theorem stepScore_at (w : World) (x y tribe k : Nat) (dir : Int × Int) (nx ny : Nat)
    (hk : directions[k]? = some dir) (hnx : (x : Int) + dir.1 = (nx : Int))
    (hny : (y : Int) + dir.2 = (ny : Int)) (hrx : nx < GridSize) (hry : ny < GridSize) :
    stepScore w x y tribe k
      = if getCell w.Entities nx ny none = none ∧
            IsPassable (w.Terrain.getD (ny * GridSize + nx) 0) = true then
          some (MoveScoreBonus (w.Terrain.getD (ny * GridSize + nx) 0) w tribe)
        else none := by
  unfold stepScore
  rw [hk]
  dsimp only []
  rw [hnx, hny, Int.toNat_natCast, Int.toNat_natCast,
    if_pos ⟨by omega, by exact_mod_cast hrx, by omega, by exact_mod_cast hry⟩]

/-- The visit of a cell by move collection when the mining impulse is taken. -/
theorem collectBody_impulse (w : World) (d : PeaceDraws) (x y : Nat)
    (moves : List PotentialMove) (ent : Entity) (he : getCell w.Entities x y none = some ent)
    (hroll : d.moveRoll x y < w.EntityStats.MoveChance)
    (hpos : (resourceDirs w x y).length > 0) (hm : d.mineRoll x y < 20 / 100) :
    collectBody w d x y moves
      = moves ++ [moveTo x y ((resourceDirs w x y).getD
          (d.minePick x y % (resourceDirs w x y).length) 0)] := by
  unfold collectBody
  rw [he]
  dsimp only []
  rw [if_pos hroll, if_pos ⟨hpos, hm⟩]

/-- The visit of a cell by move collection when one step only has a score greater
than 0 and the mining impulse is not taken. -/
theorem collectBody_only (w : World) (d : PeaceDraws) (x y : Nat)
    (moves : List PotentialMove) (ent : Entity) (k0 : Nat)
    (he : getCell w.Entities x y none = some ent)
    (hroll : d.moveRoll x y < w.EntityStats.MoveChance)
    (hnomine : ¬ d.mineRoll x y < 20 / 100)
    (hk0 : ∃ s, stepScore w x y ent.Tribe k0 = some s ∧ 0 < s)
    (hrest : ∀ k s, k ≠ k0 → stepScore w x y ent.Tribe k = some s → s ≤ 0) :
    collectBody w d x y moves = moves ++ [moveTo x y k0] := by
  obtain ⟨s0, hs0, hpos0⟩ := hk0
  obtain ⟨k, s, hc, hks, hpos, _⟩ :=
    (collectBody_scored w d x y moves ent he hroll (fun h => hnomine h.2)).1 ⟨k0, s0, hs0, hpos0⟩
  have hkk : k = k0 := by
    by_contra hne
    exact absurd (hrest k s hne hks) (not_le.2 hpos)
  rw [hc, hkk]

/-- Move collection on a grid with one entity. -/
theorem collectMoves_one (w : World) (d : PeaceDraws) (x1 y1 : Nat) (hx1 : x1 < GridSize)
    (hy1 : y1 < GridSize)
    (hempty : ∀ x y, (x ≠ x1 ∨ y ≠ y1) → getCell w.Entities x y none = none) :
    collectMoves w d = collectBody w d x1 y1 [] := by
  unfold collectMoves
  apply forCells_one (collectBody w d) x1 y1 hx1 hy1
  intro x y s hne
  unfold collectBody
  rw [hempty x y hne]

/-- Move collection on a grid with two entities. -/
theorem collectMoves_two (w : World) (d : PeaceDraws) (x1 y1 x2 y2 : Nat)
    (hx1 : x1 < GridSize) (hy1 : y1 < GridSize) (hx2 : x2 < GridSize) (hy2 : y2 < GridSize)
    (hlt : y1 * GridSize + x1 < y2 * GridSize + x2)
    (hempty : ∀ x y, (x ≠ x1 ∨ y ≠ y1) → (x ≠ x2 ∨ y ≠ y2) →
      getCell w.Entities x y none = none) :
    collectMoves w d = collectBody w d x2 y2 (collectBody w d x1 y1 []) := by
  unfold collectMoves
  apply forCells_two (collectBody w d) x1 y1 x2 y2 hx1 hy1 hx2 hy2 hlt
  intro x y s hne1 hne2
  unfold collectBody
  rw [hempty x y hne1 hne2]

/-- Move resolution when one move is collected and its target is the one target
visited. -/
theorem peaceMoved_single (w : World) (d : PeaceDraws) (m : PotentialMove)
    (hm : collectMoves w d = [m]) (hk : d.keyOrder = [(m.toX, m.toY)]) :
    (peaceMoved w d).ents
      = setCell (setCell w.Entities m.toX m.toY (getCell w.Entities m.fromX m.fromY none))
          m.fromX m.fromY none ∧
    (peaceMoved w d).reprod
      = setCell (setCell w.lastReprodTime m.toX m.toY
          (getCell w.lastReprodTime m.fromX m.fromY 0)) m.fromX m.fromY 0 := by
  have hmov : moversTo (moveDraws w d).moves (m.toX, m.toY) = [m] := by
    show moversTo (collectMoves w d) (m.toX, m.toY) = [m]
    rw [hm]
    unfold moversTo
    rw [List.filter_cons_of_pos (by simp)]
    rfl
  have h : peaceMoved w d
      = applyWinner w (moveDraws w d) { ents := w.Entities, reprod := w.lastReprodTime }
          (m.toX, m.toY) := by
    unfold peaceMoved resolveMoves
    show (d.keyOrder).foldl _ _ = _
    rw [hk]
    rfl
  rw [h]
  unfold applyWinner
  dsimp only []
  rw [hmov]
  have hget : ([m] : List PotentialMove).get? ((moveDraws w d).pick m.toX m.toY % [m].length)
      = some m := by
    have hz : (moveDraws w d).pick m.toX m.toY % [m].length = 0 := Nat.mod_one _
    rw [hz]
    rfl
  rw [hget]
  exact ⟨rfl, rfl⟩

/-- The reproduction loop on a grid with one entity records what the visit of its
cell records. -/
theorem reprodLoop_one (w : World) (d : PeaceDraws) (g : List (List (Option Entity)))
    (x1 y1 : Nat) (hx1 : x1 < GridSize) (hy1 : y1 < GridSize)
    (hempty : ∀ x y, (x ≠ x1 ∨ y ≠ y1) → getCell g x y none = none) (st : ReprodState) :
    forCells (reprodBody w d g) st = reprodBody w d g x1 y1 st ∧
    loopBefore GridSize (reprodBody w d g) st x1 y1 = st := by
  have hid : ∀ x y s, (x ≠ x1 ∨ y ≠ y1) → reprodBody w d g x y s = s := by
    intro x y s hne
    unfold reprodBody
    rw [hempty x y hne]
  refine ⟨forCells_one (reprodBody w d g) x1 y1 hx1 hy1 hid st, ?_⟩
  apply loopBefore_idle (reprodBody w d g) x1 y1 hx1
  intro x y s _ hlt
  apply hid
  by_contra hcon
  have h1 : x = x1 := by
    by_contra h
    exact hcon (Or.inl h)
  have h2 : y = y1 := by
    by_contra h
    exact hcon (Or.inr h)
  rw [h1, h2] at hlt
  exact absurd hlt (lt_irrefl _)

/-- The terrain that `HandleMiningAndRegrowth` leaves in an in-range cell of a world
in which no cell carries a clear timestamp: what the mining loop writes there. -/
theorem HandleMining_terrain (w : World) (now : Int) (hwf : w.WF)
    (hclear : ∀ x y, getCell w.lastClearedTime x y 0 = 0) (x y : Nat) (hx : x < GridSize)
    (hy : y < GridSize) :
    (HandleMiningAndRegrowth w now).Terrain.getD (y * GridSize + x) 0
      = (mineCell w.Tribes now (getCell w.Entities x y none)
          (w.Terrain.getD (y * GridSize + x) 0, 0)).1 := by
  have hT : (HandleMiningAndRegrowth w now).Terrain = (regrown w now).terrain := rfl
  have hm : (mined w now).terrain.length = GridSize * GridSize ∧ GridWF (mined w now).cleared := by
    unfold mined
    exact mineLoop_WF w.Entities w.Tribes now _ ⟨hwf.2.1, hwf.2.2.2⟩
  have h1 := regrowLoop_view w.Entities w.Tribes now x y hx hy (mined w now) hm
  have h2 : ((mined w now).terrain.getD (y * GridSize + x) 0,
      getCell (mined w now).cleared x y 0)
      = mineCell w.Tribes now (getCell w.Entities x y none)
          (w.Terrain.getD (y * GridSize + x) 0, getCell w.lastClearedTime x y 0) := by
    unfold mined
    exact mineLoop_view w.Entities w.Tribes now x y hx hy _ ⟨hwf.2.1, hwf.2.2.2⟩
  rw [hclear] at h2
  rw [hT]
  have h3 : (regrown w now).terrain.getD (y * GridSize + x) 0
      = (regrowCell w.Tribes now (getCell w.Entities x y none)
          (mineCell w.Tribes now (getCell w.Entities x y none)
            (w.Terrain.getD (y * GridSize + x) 0, 0))).1 := by
    rw [← h2]
    exact congrArg Prod.fst h1
  rw [h3]
  unfold regrowCell
  cases hocc : getCell w.Entities x y none with
  | none =>
    rw [if_pos rfl]
    have hz : (mineCell w.Tribes now none (w.Terrain.getD (y * GridSize + x) 0, (0 : Int))).2
        = 0 := rfl
    rw [if_neg (fun h => h.1 hz)]
  | some e =>
    rw [if_neg (fun h => by cases h)]

theorem rivals_ents (x y : Nat) :
    getCell rivals.Entities x y none
      = if x = 1 ∧ y = 1 then some (freshEntity 1 2 0)
        else if x = 0 ∧ y = 0 then some (freshEntity 1 1 0) else none :=
  twins_ents x y

theorem rivals_WF : rivals.WF :=
  ⟨twins_WF.1, twins_WF.2.1,
    GridWF_setCell (GridWF_setCell twins_WF.2.2.1 _ _ _) _ _ _, twins_WF.2.2.2⟩

theorem rivals_stamps :
    getCell rivals.lastReprodTime 0 0 0 = 7 ∧ getCell rivals.lastReprodTime 1 1 0 = 9 := by
  have hg := twins_WF.2.2.1
  have h0 : (0 : Nat) < GridSize := by decide
  have h1 : (1 : Nat) < GridSize := by decide
  have hg1 : GridWF (setCell twins.lastReprodTime 0 0 (7 : Int)) := GridWF_setCell hg _ _ _
  constructor
  · show getCell (setCell (setCell twins.lastReprodTime 0 0 7) 1 1 9) 0 0 0 = 7
    rw [getCell_setCell_ne _ _ _ _ _ _ _ (Or.inl (by decide))]
    exact getCell_setCell_self _ _ _ _ _ (by rw [hg.1]; exact h0)
      (by rw [GridWF_row hg h0]; exact h0)
  · show getCell (setCell (setCell twins.lastReprodTime 0 0 7) 1 1 9) 1 1 0 = 9
    exact getCell_setCell_self _ _ _ _ _ (by rw [hg1.1]; exact h1)
      (by rw [GridWF_row hg1 h1]; exact h1)

theorem rivalDraws_valid : MovesValid rivals rivalDraws.moves := by
  constructor
  · intro pm hpm
    have hpm2 : pm = { fromX := 0, fromY := 0, toX := 0, toY := 1 } ∨
        pm = { fromX := 1, fromY := 1, toX := 0, toY := 1 } := by
      simpa [rivalDraws] using hpm
    rcases hpm2 with rfl | rfl
    · refine ⟨by decide, by decide, by decide, by decide, ?_, ?_⟩
      · rw [rivals_ents]
        simp
      · rw [rivals_ents]
        simp
    · refine ⟨by decide, by decide, by decide, by decide, ?_, ?_⟩
      · rw [rivals_ents]
        simp
      · rw [rivals_ents]
        simp
  · decide

/-- Witness of C13, on the rivals: two entities contend for cell (0, 1); the second
is drawn, it takes the cell with its timestamp 9 and leaves (1, 1) vacant, and the
first is still in (0, 0) with its timestamp 7. -/
theorem resolveMoves_contested_witness :
    rivals.WF ∧ MovesValid rivals rivalDraws.moves ∧ rivalDraws.keyOrder.Nodup ∧
    ((0, 1) : Nat × Nat) ∈ rivalDraws.keyOrder ∧
    moversTo rivalDraws.moves (0, 1)
      = [{ fromX := 0, fromY := 0, toX := 0, toY := 1 },
         { fromX := 1, fromY := 1, toX := 0, toY := 1 }] ∧
    cellOf (resolveMoves rivals rivalDraws) 0 1 = (some (freshEntity 1 2 0), 9) ∧
    cellOf (resolveMoves rivals rivalDraws) 1 1 = (none, 0) ∧
    cellOf (resolveMoves rivals rivalDraws) 0 0 = (some (freshEntity 1 1 0), 7) := by
  have hmov : moversTo rivalDraws.moves (0, 1)
      = [{ fromX := 0, fromY := 0, toX := 0, toY := 1 },
         { fromX := 1, fromY := 1, toX := 0, toY := 1 }] := by decide
  obtain ⟨winner, _, hget, _, hT, hfrom, hothers⟩ :=
    resolveMoves_contested rivals rivalDraws rivals_WF rivalDraws_valid
      (List.nodup_singleton _) (0, 1) (List.mem_singleton_self _) (by rw [hmov]; simp)
  have hw : winner = { fromX := 1, fromY := 1, toX := 0, toY := 1 } := by
    rw [hmov] at hget
    have h2 : ([{ fromX := 0, fromY := 0, toX := 0, toY := 1 },
        { fromX := 1, fromY := 1, toX := 0, toY := 1 }] : List PotentialMove).get?
          (rivalDraws.pick 0 1 % 2)
        = some { fromX := 1, fromY := 1, toX := 0, toY := 1 } := rfl
    exact Option.some.inj (hget.symm.trans h2)
  subst hw
  have hloser := hothers { fromX := 0, fromY := 0, toX := 0, toY := 1 }
    (by rw [hmov]; exact List.mem_cons_self _ _) (by decide)
  have he1 : getCell rivals.Entities 1 1 none = some (freshEntity 1 2 0) := by
    rw [rivals_ents]
    simp
  have he0 : getCell rivals.Entities 0 0 none = some (freshEntity 1 1 0) := by
    rw [rivals_ents]
    simp
  refine ⟨rivals_WF, rivalDraws_valid, List.nodup_singleton _, List.mem_singleton_self _, hmov,
    ?_, hfrom, ?_⟩
  · rw [hT]
    show (getCell rivals.Entities 1 1 none, getCell rivals.lastReprodTime 1 1 0) = _
    rw [he1, rivals_stamps.2]
  · rw [hloser]
    show (getCell rivals.Entities 0 0 none, getCell rivals.lastReprodTime 0 0 0) = _
    rw [he0, rivals_stamps.1]

theorem crowd_ents (x y : Nat) (hx : x < GridSize) (hy : y < GridSize) :
    getCell crowd.Entities x y none
      = if y < 4 then some (freshEntity 1 (y * GridSize + x + 1) 0) else none := by
  show getCell ((List.range GridSize).map (fun y => (List.range GridSize).map (fun x =>
      if y < 4 then some (freshEntity 1 (y * GridSize + x + 1) 0) else none))) x y none = _
  unfold getCell
  have hrow : ((List.range GridSize).map (fun y => (List.range GridSize).map (fun x =>
      if y < 4 then some (freshEntity 1 (y * GridSize + x + 1) 0) else none))).getD y []
      = (List.range GridSize).map (fun x =>
          if y < 4 then some (freshEntity 1 (y * GridSize + x + 1) 0) else none) := by
    rw [List.getD_eq_getElem _ _ (by rw [List.length_map, List.length_range]; exact hy),
      List.getElem_map, List.getElem_range]
  rw [hrow, List.getD_eq_getElem _ _ (by rw [List.length_map, List.length_range]; exact hx),
    List.getElem_map, List.getElem_range]

theorem crowd_WF : crowd.WF := by
  have hw := withTribes_WF verticalTribes
  refine ⟨⟨?_, ?_⟩, ?_, hw.2.2.1, hw.2.2.2⟩
  · show ((List.range GridSize).map _).length = GridSize
    rw [List.length_map, List.length_range]
  · intro r hr
    have hr2 : r ∈ (List.range GridSize).map (fun y => (List.range GridSize).map (fun x =>
        if y < 4 then some (freshEntity 1 (y * GridSize + x + 1) 0) else none)) := hr
    obtain ⟨y, _, rfl⟩ := List.mem_map.1 hr2
    rw [List.length_map, List.length_range]
  · show (List.replicate (GridSize * GridSize) TerrainRed).length = GridSize * GridSize
    exact List.length_replicate _ _

/-- The crowd counts 400 Nomads. -/
theorem crowd_count : tribeCounts crowd.Entities 1 = 400 := by
  rw [tribeCounts_sum]
  have hcell : ∀ y ∈ Finset.range GridSize, ∀ x ∈ Finset.range GridSize,
      tribeInd (getCell crowd.Entities x y none) 1 = if y < 4 then 1 else 0 := by
    intro y hy x hx
    rw [crowd_ents x y (Finset.mem_range.1 hx) (Finset.mem_range.1 hy)]
    by_cases h4 : y < 4
    · rw [if_pos h4, if_pos h4]
      rfl
    · rw [if_neg h4, if_neg h4]
      rfl
  rw [Finset.sum_congr rfl (fun y hy => Finset.sum_congr rfl (hcell y hy))]
  simp only [Finset.sum_const, Finset.card_range, smul_eq_mul, nsmul_eq_mul]
  simp only [mul_ite, mul_one, mul_zero]
  rw [Finset.sum_ite, Finset.sum_const, Finset.sum_const]
  have hf : (Finset.filter (fun y => y < 4) (Finset.range GridSize)) = Finset.range 4 := by
    ext y
    simp only [Finset.mem_filter, Finset.mem_range]
    unfold GridSize
    omega
  rw [hf]
  simp [GridSize]

theorem crowd_moved :
    peaceMoved crowd birthDraws = { ents := crowd.Entities, reprod := crowd.lastReprodTime } :=
  resolveMoves_nil crowd (moveDraws crowd birthDraws) rfl

/-- Witness of C21, on the crowd: the 400 Nomads are over the ceiling of 300; every
reproduction roll passes and the Nomad of cell (0, 3) has a free red cell below it,
yet no birth is recorded for the Nomads and their population does not grow. -/
theorem density_ceiling_witness :
    crowd.WF ∧ tribeCounts (peaceMoved crowd birthDraws).ents 1 = 400 ∧ densityBound crowd = 301 ∧
    (∀ x y, birthDraws.reprodRoll x y < crowd.EntityStats.ReproductionRate) ∧
    canSpawn crowd (peaceMoved crowd birthDraws).ents 0 3 1 (0, 1) = true ∧
    overCeiling crowd (tribeCounts (peaceMoved crowd birthDraws).ents 1) ∧
    spawnCount (peaceReprod crowd birthDraws).spawns 1 = 0 ∧
    tribeCounts (PreWarUpdate crowd birthDraws).Entities 1
      ≤ tribeCounts (peaceMoved crowd birthDraws).ents 1 := by
  have hcount : tribeCounts (peaceMoved crowd birthDraws).ents 1 = 400 := by
    rw [crowd_moved]
    exact crowd_count
  have hover : overCeiling crowd (tribeCounts (peaceMoved crowd birthDraws).ents 1) := by
    rw [hcount]
    show (((400 : Int) : ℚ)) / ((GridSize * GridSize : Nat) : ℚ) > 30 / 1000
    unfold GridSize
    norm_num
  have hcan : canSpawn crowd (peaceMoved crowd birthDraws).ents 0 3 1 (0, 1) = true := by
    rw [crowd_moved]
    have hfree : getCell crowd.Entities 0 4 none = none := by
      rw [crowd_ents 0 4 (by decide) (by decide)]
      rfl
    have hterr : crowd.Terrain.getD (4 * GridSize + 0) 0 = TerrainRed := by
      show (List.replicate (GridSize * GridSize) TerrainRed).getD (4 * GridSize + 0) 0 = _
      rw [List.getD_eq_getElem _ _ (by rw [List.length_replicate]; decide)]
      exact List.getElem_replicate _ _
    have hrep : CanReproduceOn TerrainRed crowd 1 = true := by decide
    unfold canSpawn
    dsimp only []
    have hx : ((0 : Nat) : Int) + (0 : Int) = 0 := rfl
    have hy : ((3 : Nat) : Int) + (1 : Int) = 4 := rfl
    have h4 : Int.toNat 4 = 4 := rfl
    rw [hx, hy, Int.toNat_zero, h4, hfree, hterr, hrep]
    decide
  have hbound : densityBound crowd = 301 := densityBound_New
  have h := density_ceiling crowd birthDraws 1 crowd_WF
  exact ⟨crowd_WF, hcount, hbound, fun x y => by
    show (0 : ℚ) < 5 / 1000
    norm_num, hcan, hover, (h.2 hover).1, (h.2 hover).2⟩

/-! ## A camp of three Nomads -/

theorem campTerrain_length (code : Nat) : (campTerrain code).length = GridSize * GridSize := by
  unfold campTerrain
  rw [List.length_map, List.length_range]

theorem campTerrain_get (code i : Nat) (hi : i < GridSize * GridSize) :
    (campTerrain code).getD i 0
      = if i = 5 * GridSize + 5 ∨ i = 5 * GridSize + 6 ∨ i = 5 * GridSize + 7 then code
        else 0 := by
  unfold campTerrain
  rw [List.getD_eq_getElem _ _ (by rw [List.length_map, List.length_range]; exact hi),
    List.getElem_map, List.getElem_range]

theorem loadRegistry_rest (w : World) (terrain : List Nat) (tribes : List (Nat × TribeConfig)) :
    (loadRegistry w terrain tribes).Tribes = tribes ∧
    (loadRegistry w terrain tribes).resources = w.resources ∧
    (loadRegistry w terrain tribes).warStarted = w.warStarted ∧
    (loadRegistry w terrain tribes).EntityStats = w.EntityStats ∧
    (loadRegistry w terrain tribes).nextEntityID = w.nextEntityID :=
  ⟨rfl, rfl, rfl, rfl, rfl⟩

theorem spawnAt_rest (w : World) (x y tribe : Nat) :
    (spawnAt w x y tribe).Tribes = w.Tribes ∧
    (spawnAt w x y tribe).resources = w.resources ∧
    (spawnAt w x y tribe).warStarted = w.warStarted ∧
    (spawnAt w x y tribe).EntityStats = w.EntityStats ∧
    (spawnAt w x y tribe).lastClearedTime = w.lastClearedTime :=
  ⟨rfl, rfl, rfl, rfl, rfl⟩

/-- A type-3 placement on a free red cell, under the registry that assigns the
Nomads to red. -/
theorem spawn_on_red (w : World) (x y : Nat) (hx : x < GridSize) (hy : y < GridSize)
    (hfree : getCell w.Entities x y none = none) (hreg : w.Tribes = [(1, customNomads 1)])
    (hterr : w.Terrain.getD (y * GridSize + x) 0 = 1) :
    (PlaceEntity w (x : Int) (y : Int) 3).1 = spawnAt w x y 1 := by
  have h := placeEntity_spawn_eq w (x : Int) (y : Int) 1 (by omega) (by exact_mod_cast hx)
    (by omega) (by exact_mod_cast hy)
    (by rw [Int.toNat_natCast, Int.toNat_natCast]; exact hfree)
    (by
      rw [Int.toNat_natCast, Int.toNat_natCast, hterr]
      unfold GetTribeFromHomeTerrain
      rw [hreg]
      rfl)
  rw [h, Int.toNat_natCast, Int.toNat_natCast]

/-- The camp, placement by placement. -/
theorem camp_eq :
    camp = spawnAt (spawnAt (spawnAt
      (loadRegistry New (campTerrain TerrainRed) [(1, customNomads 1)]) 5 5 1) 6 5 1) 7 5 1 := by
  have h5 : (5 : Nat) < GridSize := by decide
  have h6 : (6 : Nat) < GridSize := by decide
  have h7 : (7 : Nat) < GridSize := by decide
  have hterr : ∀ x, x = 5 ∨ x = 6 ∨ x = 7 →
      (campTerrain TerrainRed).getD (5 * GridSize + x) 0 = 1 := by
    intro x hx
    rw [campTerrain_get _ _ (by unfold GridSize; omega), if_pos (by unfold GridSize; omega)]
    rfl
  have e1 := spawn_on_red (loadRegistry New (campTerrain TerrainRed) [(1, customNomads 1)]) 5 5
    h5 h5 (by rw [(loadRegistry_layers _ _ _).1]; exact New_entities 5 5)
    (loadRegistry_rest _ _ _).1
    (by rw [(loadRegistry_layers _ _ _).2.1]; exact hterr 5 (Or.inl rfl))
  have hfree2 : getCell (spawnAt (loadRegistry New (campTerrain TerrainRed)
      [(1, customNomads 1)]) 5 5 1).Entities 6 5 none = none := by
    show getCell (setCell New.Entities 5 5 _) 6 5 none = none
    rw [getCell_setCell_ne _ _ _ _ _ _ _ (Or.inl (by decide))]
    exact New_entities 6 5
  have e2 := spawn_on_red (spawnAt (loadRegistry New (campTerrain TerrainRed)
    [(1, customNomads 1)]) 5 5 1) 6 5 h6 h5 hfree2
    (by rw [(spawnAt_rest _ _ _ _).1]; exact (loadRegistry_rest _ _ _).1)
    (by rw [spawnAt_terrain, (loadRegistry_layers _ _ _).2.1]; exact hterr 6 (Or.inr (Or.inl rfl)))
  have hfree3 : getCell (spawnAt (spawnAt (loadRegistry New (campTerrain TerrainRed)
      [(1, customNomads 1)]) 5 5 1) 6 5 1).Entities 7 5 none = none := by
    show getCell (setCell (setCell New.Entities 5 5 _) 6 5 _) 7 5 none = none
    rw [getCell_setCell_ne _ _ _ _ _ _ _ (Or.inl (by decide)),
      getCell_setCell_ne _ _ _ _ _ _ _ (Or.inl (by decide))]
    exact New_entities 7 5
  have e3 := spawn_on_red (spawnAt (spawnAt (loadRegistry New (campTerrain TerrainRed)
    [(1, customNomads 1)]) 5 5 1) 6 5 1) 7 5 h7 h5 hfree3
    (by
      rw [(spawnAt_rest _ _ _ _).1, (spawnAt_rest _ _ _ _).1]
      exact (loadRegistry_rest _ _ _).1)
    (by
      rw [spawnAt_terrain, spawnAt_terrain, (loadRegistry_layers _ _ _).2.1]
      exact hterr 7 (Or.inr (Or.inr rfl)))
  unfold camp
  rw [InitCustomMap_nomads New _ New_WF.2.1 (campTerrain_length _)]
  exact ((congrArg (fun w => (PlaceEntity (PlaceEntity w 6 5 3).1 7 5 3).1) e1).trans
    (congrArg (fun w => (PlaceEntity w 7 5 3).1) e2)).trans e3

theorem camp_WF : camp.WF := by
  rw [camp_eq]
  exact spawnAt_WF (spawnAt_WF (spawnAt_WF
    (loadRegistry_WF New_WF _ _ (campTerrain_length _)) _ _ _) _ _ _) _ _ _

/-- The entity layer of the camp: three Nomads in a row. -/
theorem camp_ents (x y : Nat) :
    getCell camp.Entities x y none
      = if x = 7 ∧ y = 5 then some (freshEntity 1 3 0)
        else if x = 6 ∧ y = 5 then some (freshEntity 1 2 0)
        else if x = 5 ∧ y = 5 then some (freshEntity 1 1 0) else none := by
  have h5 : (5 : Nat) < GridSize := by decide
  have h6 : (6 : Nat) < GridSize := by decide
  have h7 : (7 : Nat) < GridSize := by decide
  have hG : GridWF New.Entities := New_WF.1
  have hG1 := GridWF_setCell hG 5 5 (some (freshEntity 1 1 0))
  have hG2 := GridWF_setCell hG1 6 5 (some (freshEntity 1 2 0))
  rw [camp_eq]
  show getCell (setCell (setCell (setCell New.Entities 5 5 (some (freshEntity 1 1 0)))
    6 5 (some (freshEntity 1 2 0))) 7 5 (some (freshEntity 1 3 0))) x y none = _
  by_cases hA : x = 7 ∧ y = 5
  · rw [if_pos hA, hA.1, hA.2]
    exact getCell_set_self hG2 h7 h5 _
  · rw [if_neg hA, getCell_setCell_ne _ _ _ _ _ _ _ (by omega)]
    by_cases hB : x = 6 ∧ y = 5
    · rw [if_pos hB, hB.1, hB.2]
      exact getCell_set_self hG1 h6 h5 _
    · rw [if_neg hB, getCell_setCell_ne _ _ _ _ _ _ _ (by omega)]
      by_cases hC : x = 5 ∧ y = 5
      · rw [if_pos hC, hC.1, hC.2]
        exact getCell_set_self hG h5 h5 _
      · rw [if_neg hC, getCell_setCell_ne _ _ _ _ _ _ _ (by omega)]
        exact New_entities x y

theorem campForest_eq :
    campForest = loadRegistry camp (campTerrain TerrainTrees) [(1, customNomads 1)] :=
  InitCustomMap_nomads camp _ camp_WF.2.1 (campTerrain_length _)

theorem campForest_WF : campForest.WF := by
  rw [campForest_eq]
  exact loadRegistry_WF camp_WF _ _ (campTerrain_length _)

theorem campForest_fields :
    campForest.Entities = camp.Entities ∧ campForest.Terrain = campTerrain TerrainTrees ∧
    campForest.Tribes = [(1, customNomads 1)] ∧ campForest.resources = (fun _ => none) ∧
    campForest.warStarted = false ∧ campForest.lastClearedTime = New.lastClearedTime := by
  rw [campForest_eq]
  refine ⟨(loadRegistry_layers _ _ _).1, (loadRegistry_layers _ _ _).2.1,
    (loadRegistry_rest _ _ _).1, ?_, ?_, ?_⟩
  · rw [(loadRegistry_rest _ _ _).2.1, camp_eq, (spawnAt_rest _ _ _ _).2.1,
      (spawnAt_rest _ _ _ _).2.1, (spawnAt_rest _ _ _ _).2.1, (loadRegistry_rest _ _ _).2.1]
    rfl
  · rw [(loadRegistry_rest _ _ _).2.2.1, camp_eq, (spawnAt_rest _ _ _ _).2.2.1,
      (spawnAt_rest _ _ _ _).2.2.1, (spawnAt_rest _ _ _ _).2.2.1, (loadRegistry_rest _ _ _).2.2.1]
    rfl
  · rw [(loadRegistry_layers _ _ _).2.2.2, camp_eq, (spawnAt_rest _ _ _ _).2.2.2.2,
      (spawnAt_rest _ _ _ _).2.2.2.2, (spawnAt_rest _ _ _ _).2.2.2.2,
      (loadRegistry_layers _ _ _).2.2.2]

theorem campForest_stats : campForest.EntityStats = New.EntityStats := by
  rw [campForest_eq, (loadRegistry_rest _ _ _).2.2.2.1, camp_eq, (spawnAt_rest _ _ _ _).2.2.2.1,
    (spawnAt_rest _ _ _ _).2.2.2.1, (spawnAt_rest _ _ _ _).2.2.2.1,
    (loadRegistry_rest _ _ _).2.2.2.1]

/-- The terrain that `HandleMiningAndRegrowth` leaves under a registered entity that
stands on forest or rock: the home terrain of its faction. -/
theorem HandleMiningAndRegrowth_mined (w : World) (now : Int) (hwf : w.WF) (x y : Nat)
    (e : Entity) (cfg : TribeConfig) (he : getCell w.Entities x y none = some e)
    (hcfg : lookupTribe w.Tribes e.Tribe = some cfg)
    (hres : w.Terrain.getD (y * GridSize + x) 0 = TerrainTrees ∨
      w.Terrain.getD (y * GridSize + x) 0 = TerrainRocks) :
    (HandleMiningAndRegrowth w now).Terrain.getD (y * GridSize + x) 0 = cfg.HomeTerrain := by
  have hr := getCell_some_inRange hwf.1 he
  have hT : (HandleMiningAndRegrowth w now).Terrain = (regrown w now).terrain := rfl
  rw [hT]
  unfold regrown
  rw [regrowLoop_cell w.Entities w.Tribes now x y hr.1 hr.2 e he]
  unfold mined
  rw [mineLoop_cell w.Entities w.Tribes now x y hr.1 hr.2 e cfg he hcfg _ ⟨hwf.2.1, hwf.2.2.2⟩]
  dsimp only []
  rw [if_pos hres]

theorem HandleMiningAndRegrowth_rest (w : World) (now : Int) :
    (HandleMiningAndRegrowth w now).resources = (mined w now).resources ∧
    (HandleMiningAndRegrowth w now).Entities = w.Entities ∧
    (HandleMiningAndRegrowth w now).Tribes = w.Tribes ∧
    (HandleMiningAndRegrowth w now).EntityStats = w.EntityStats ∧
    (HandleMiningAndRegrowth w now).lastReprodTime = w.lastReprodTime ∧
    (HandleMiningAndRegrowth w now).nextEntityID = w.nextEntityID ∧
    (HandleMiningAndRegrowth w now).warStarted = w.warStarted :=
  ⟨by
    unfold HandleMiningAndRegrowth
    rw [(withMined_frame _ _).2.2.1]
    unfold regrown
    exact regrowLoop_resources _ _ _ _, rfl, rfl, rfl, rfl, rfl, rfl⟩

/-- A ledger whose amounts are known. -/
theorem ledger_of_amounts {r : Nat → Option TribeResources} {t : Nat} {a b : Int}
    (h : ledgerOf r t = (a, b)) (hne : (a, b) ≠ ((0 : Int), (0 : Int))) :
    r t = some { Wood := a, Stone := b } := by
  unfold ledgerOf at h
  cases hr : r t with
  | none =>
    rw [hr] at h
    exact absurd h.symm hne
  | some res =>
    rw [hr] at h
    cases res
    cases h
    rfl

theorem rest_rolls (w : World) (hs : w.EntityStats = New.EntityStats) :
    (∀ x y, ¬ restDraws.reprodRoll x y < w.EntityStats.ReproductionRate) ∧
    (∀ x y, ¬ restDraws.craftRoll x y < 2 / 100) := by
  rw [hs]
  constructor
  · intro x y
    show ¬ ((1 : ℚ) < 5 / 1000)
    norm_num
  · intro x y
    show ¬ ((1 : ℚ) < 2 / 100)
    norm_num

/-- The forge is the camp in the forest after its forest is mined. -/
theorem forge_eq : forge = HandleMiningAndRegrowth campForest 1 := by
  unfold forge Update
  rw [campForest_fields.2.2.2.2.1]
  exact still_tick campForest restDraws rfl (rest_rolls _ campForest_stats).1
    (rest_rolls _ campForest_stats).2

theorem campForest_occupant (x : Nat) (hx : x = 5 ∨ x = 6 ∨ x = 7) :
    ∃ e, getCell campForest.Entities x 5 none = some e ∧ e.Tribe = 1 := by
  rw [campForest_fields.1, camp_ents]
  rcases hx with rfl | rfl | rfl
  · exact ⟨_, rfl, rfl⟩
  · exact ⟨_, rfl, rfl⟩
  · exact ⟨_, rfl, rfl⟩

theorem campForest_forest (x : Nat) (hx : x = 5 ∨ x = 6 ∨ x = 7) :
    campForest.Terrain.getD (5 * GridSize + x) 0 = TerrainTrees := by
  rw [campForest_fields.2.1, campTerrain_get _ _ (by unfold GridSize; omega),
    if_pos (by unfold GridSize; omega)]

/-- In the camp in the forest three Nomads stand on forest and none on rock. -/
theorem campForest_standing :
    standingOn campForest 1 TerrainTrees = 3 ∧ standingOn campForest 1 TerrainRocks = 0 := by
  have hout : ∀ code x y, (x, y) ∉ [((5 : Nat), (5 : Nat)), (6, 5), (7, 5)] →
      standsOn campForest 1 code x y = 0 := by
    intro code x y hxy
    have hnone : getCell campForest.Entities x y none = none := by
      rw [campForest_fields.1, camp_ents]
      simp only [List.mem_cons, Prod.mk.injEq, List.mem_singleton, List.not_mem_nil, or_false,
        not_or] at hxy
      rw [if_neg hxy.2.2, if_neg hxy.2.1, if_neg hxy.1]
    unfold standsOn
    rw [hnone]
  have hin : ∀ code x, x = 5 ∨ x = 6 ∨ x = 7 →
      standsOn campForest 1 code x 5 = if TerrainTrees = code then 1 else 0 := by
    intro code x hx
    obtain ⟨e, he, ht⟩ := campForest_occupant x hx
    unfold standsOn
    rw [he, campForest_forest x hx]
    dsimp only []
    by_cases hc : TerrainTrees = code
    · rw [if_pos hc, if_pos ⟨ht, hc⟩]
    · rw [if_neg hc, if_neg (fun h => hc h.2)]
  constructor
  · unfold standingOn
    rw [sum_cells_support _ [(5, 5), (6, 5), (7, 5)] (by decide) (by decide) (hout _)]
    show (standsOn campForest 1 TerrainTrees 5 5 + (standsOn campForest 1 TerrainTrees 6 5
      + (standsOn campForest 1 TerrainTrees 7 5 + 0)) : Int) = 3
    rw [hin _ 5 (Or.inl rfl), hin _ 6 (Or.inr (Or.inl rfl)), hin _ 7 (Or.inr (Or.inr rfl))]
    decide
  · unfold standingOn
    rw [sum_cells_support _ [(5, 5), (6, 5), (7, 5)] (by decide) (by decide) (hout _)]
    show (standsOn campForest 1 TerrainRocks 5 5 + (standsOn campForest 1 TerrainRocks 6 5
      + (standsOn campForest 1 TerrainRocks 7 5 + 0)) : Int) = 0
    rw [hin _ 5 (Or.inl rfl), hin _ 6 (Or.inr (Or.inl rfl)), hin _ 7 (Or.inr (Or.inr rfl))]
    decide

/-- The mining loop run on the camp in the forest leaves 3 wood to the Nomads. -/
theorem campForest_mined : ledgerOf (mined campForest 1).resources 1 = (3, 0) := by
  have h := mineLoop_credit campForest 1 campForest_WF 1
  have hreg : (lookupTribe campForest.Tribes 1).isSome = true := by
    rw [campForest_fields.2.2.1]
    rfl
  have h0 : ledgerOf campForest.resources 1 = (0, 0) := by
    rw [campForest_fields.2.2.2.1]
    rfl
  rw [if_pos hreg, if_pos hreg, campForest_standing.1, campForest_standing.2, h0] at h
  exact Prod.ext h.1 h.2

/-- The state of the forge: the three Nomads of the camp, on red again, with 3 wood
in the ledger of their faction. -/
theorem forge_fields :
    forge.Entities = camp.Entities ∧ forge.Tribes = [(1, customNomads 1)] ∧
    forge.resources 1 = some { Wood := 3, Stone := 0 } ∧
    forge.Terrain.getD (5 * GridSize + 5) 0 = TerrainRed ∧
    forge.EntityStats = New.EntityStats ∧ forge.warStarted = false := by
  rw [forge_eq]
  refine ⟨?_, ?_, ?_, ?_, ?_, ?_⟩
  · rw [(HandleMiningAndRegrowth_rest _ _).2.1]
    exact campForest_fields.1
  · rw [(HandleMiningAndRegrowth_rest _ _).2.2.1]
    exact campForest_fields.2.2.1
  · rw [(HandleMiningAndRegrowth_rest _ _).1]
    exact ledger_of_amounts campForest_mined (by decide)
  · obtain ⟨e, he, ht⟩ := campForest_occupant 5 (Or.inl rfl)
    have hcfg : lookupTribe campForest.Tribes e.Tribe = some (customNomads 1) := by
      rw [campForest_fields.2.2.1, ht]
      rfl
    exact HandleMiningAndRegrowth_mined campForest 1 campForest_WF 5 5 e _ he hcfg
      (Or.inl (campForest_forest 5 (Or.inl rfl)))
  · rw [(HandleMiningAndRegrowth_rest _ _).2.2.2.1]
    exact campForest_stats
  · rw [(HandleMiningAndRegrowth_rest _ _).2.2.2.2.2.2]
    exact campForest_fields.2.2.2.2.1

theorem forge_WF : forge.WF := by
  rw [forge_eq]
  exact HandleMiningAndRegrowth_WF _ _ campForest_WF

theorem camp_reachable : Reachable camp :=
  Reachable.op _ _ (Reachable.op _ _ (Reachable.op _ _ (Reachable.op _ _ Reachable.new
    (OpStep.initCustomMap _ _ _ _)) (OpStep.placeEntity _ _ _ _)) (OpStep.placeEntity _ _ _ _))
    (OpStep.placeEntity _ _ _ _)

theorem campForest_reachable : Reachable campForest :=
  Reachable.op _ _ camp_reachable (OpStep.initCustomMap _ _ _ _)

theorem forge_reachable : Reachable forge :=
  Reachable.op _ _ campForest_reachable (OpStep.update _ _ _ (quietDraws_tick _))

/-! ## The visit of one cell by a loop nest -/

/-- What the visits of the other cells preserve holds when the loop nest reaches a
cell. -/
theorem loopBefore_inv_other {σ : Type} (body : Nat → Nat → σ → σ) (I : σ → Prop)
    (cols x y : Nat)
    (hI : ∀ x2 y2 s, (x2 ≠ x ∨ y2 ≠ y) → I s → I (body x2 y2 s)) (s : σ) (hs : I s) :
    I (loopBefore cols body s x y) := by
  unfold loopBefore loopCells
  apply foldl_inv_mem _ I _ (fun s3 x3 hx3 hs3 =>
    hI x3 y s3 (Or.inl (ne_of_lt (List.mem_range.1 hx3))) hs3)
  apply foldl_inv_mem _ I _ (fun s2 y2 hy2 hs2 =>
    foldl_inv _ I (fun s3 x3 hs3 =>
      hI x3 y2 s3 (Or.inr (ne_of_lt (List.mem_range.1 hy2))) hs3) _ _ hs2)
  exact hs

/-- What the visits of the other cells preserve holds at the end of the loop nest
once it holds after the visit of a cell. -/
theorem loop_after_visit_other {σ : Type} (body : Nat → Nat → σ → σ) (I : σ → Prop)
    (rows cols x y : Nat) (hx : x < cols) (hy : y < rows)
    (hI : ∀ x2 y2 s, (x2 ≠ x ∨ y2 ≠ y) → I s → I (body x2 y2 s)) (s : σ)
    (h : I (body x y (loopBefore cols body s x y))) : I (loopCells rows cols body s) := by
  have hsplit : loopCells rows cols body s
      = (List.range' (y + 1) (rows - y - 1)).foldl
          (fun s y2 => (List.range cols).foldl (fun s x2 => body x2 y2 s) s)
          ((List.range cols).foldl (fun s x2 => body x2 y s) (loopCells y cols body s)) := by
    unfold loopCells
    rw [range_split hy, List.foldl_append, List.foldl_cons]
  rw [hsplit]
  apply foldl_inv_mem _ I _ (fun s2 y2 hy2 hs2 =>
    foldl_inv _ I (fun s3 x3 hs3 =>
      hI x3 y2 s3 (Or.inr (by
        have := (List.mem_range'_1.1 hy2).1
        omega)) hs3) _ _ hs2)
  rw [rowLoop_split body cols x y hx]
  apply foldl_inv_mem _ I _ (fun s3 x3 hx3 hs3 =>
    hI x3 y s3 (Or.inl (by
      have := (List.mem_range'_1.1 hx3).1
      omega)) hs3)
  exact h

/-- A write to an occupied cell is read back. -/
theorem getCell_setCell_occupied {g : List (List (Option Entity))} {x y : Nat} {e : Entity}
    (h : getCell g x y none = some e) (v : Option Entity) :
    getCell (setCell g x y v) x y none = v := by
  unfold getCell at h
  have hy : y < g.length := by
    by_contra hn
    rw [List.getD_eq_default _ _ (not_lt.1 hn)] at h
    cases h
  have hx : x < (g.getD y []).length := by
    by_contra hn
    rw [List.getD_eq_default _ _ (not_lt.1 hn)] at h
    cases h
  exact getCell_setCell_self _ _ _ _ _ hy hx

/-- The crafting body writes the entity layer at the cell it visits only. -/
theorem craftBody_other (w : World) (d : PeaceDraws) (x y x2 y2 : Nat) (st : CraftState)
    (hne : x2 ≠ x ∨ y2 ≠ y) :
    getCell (craftBody w d x2 y2 st).ents x y none = getCell st.ents x y none := by
  unfold craftBody
  cases getCell st.ents x2 y2 none with
  | none => rfl
  | some e =>
    dsimp only []
    cases lookupTribe w.Tribes e.Tribe with
    | none => rfl
    | some c =>
      dsimp only []
      split_ifs
      · cases st.resources e.Tribe with
        | none => rfl
        | some res =>
          dsimp only []
          exact getCell_setCell_ne _ _ _ _ _ _ _ (by
            rcases hne with h | h
            · exact Or.inl (fun e => h e.symm)
            · exact Or.inr (fun e => h e.symm))
      · rfl

/-- The event of a crafting visit, on any state of the loop. -/
theorem craftBody_event (w : World) (d : PeaceDraws) (x y : Nat) (st : CraftState)
    (ent : Entity) (cfg : TribeConfig) (res : TribeResources)
    (he : getCell st.ents x y none = some ent)
    (hcfg : lookupTribe w.Tribes ent.Tribe = some cfg)
    (hhome : w.Terrain.getD (y * GridSize + x) 0 = cfg.HomeTerrain)
    (hroll : d.craftRoll x y < 2 / 100) (hres : st.resources ent.Tribe = some res) :
    craftBody w d x y st
      = { ents := setCell st.ents x y
            (some (craftRank (craftArmor (craftWeapon (ent, res)))).1)
          resources := setKey st.resources ent.Tribe
            (craftRank (craftArmor (craftWeapon (ent, res)))).2 } := by
  unfold craftBody
  rw [he]
  dsimp only []
  rw [hcfg]
  dsimp only []
  rw [if_pos ⟨hhome, hroll⟩, hres]

/-- A crafting event in the tick: the loop reaches the cell with the entity that
movement left there, the visit is the event on the ledger as it is then, and the
entity it makes is in the cell at the end of the loop and at the end of the tick. -/
theorem craft_event_tick (w : World) (d : PeaceDraws) (x y : Nat) (hx : x < GridSize)
    (hy : y < GridSize) (ent : Entity) (cfg : TribeConfig) (res : TribeResources)
    (he : getCell (peaceMoved w d).ents x y none = some ent)
    (hcfg : lookupTribe w.Tribes ent.Tribe = some cfg)
    (hhome : w.Terrain.getD (y * GridSize + x) 0 = cfg.HomeTerrain)
    (hroll : d.craftRoll x y < 2 / 100)
    (hres : (craftBefore w d x y).resources ent.Tribe = some res) :
    getCell (craftBefore w d x y).ents x y none = some ent ∧
    craftBody w d x y (craftBefore w d x y)
      = { ents := setCell (craftBefore w d x y).ents x y
            (some (craftRank (craftArmor (craftWeapon (ent, res)))).1)
          resources := setKey (craftBefore w d x y).resources ent.Tribe
            (craftRank (craftArmor (craftWeapon (ent, res)))).2 } ∧
    getCell (peaceCrafted w d).ents x y none
      = some (craftRank (craftArmor (craftWeapon (ent, res)))).1 ∧
    (w.WF → getCell (PreWarUpdate w d).Entities x y none
      = some (craftRank (craftArmor (craftWeapon (ent, res)))).1) := by
  have hb : getCell (craftBefore w d x y).ents x y none = some ent := by
    unfold craftBefore
    exact loopBefore_inv_other (craftBody w d)
      (fun s => getCell s.ents x y none = some ent) GridSize x y
      (fun x2 y2 s hne hs => (craftBody_other w d x y x2 y2 s hne).trans hs) _ he
  have hev := craftBody_event w d x y (craftBefore w d x y) ent cfg res hb hcfg hhome hroll hres
  have hend : getCell (peaceCrafted w d).ents x y none
      = some (craftRank (craftArmor (craftWeapon (ent, res)))).1 := by
    unfold peaceCrafted forCells
    apply loop_after_visit_other (craftBody w d)
      (fun s => getCell s.ents x y none
        = some (craftRank (craftArmor (craftWeapon (ent, res)))).1) GridSize GridSize x y hx hy
      (fun x2 y2 s hne hs => (craftBody_other w d x y x2 y2 s hne).trans hs)
    show getCell (craftBody w d x y (craftBefore w d x y)).ents x y none = _
    rw [hev]
    exact getCell_setCell_occupied hb _
  refine ⟨hb, hev, hend, fun hwf => ?_⟩
  rw [PreWarUpdate_entities, (peaceBorn_keeps w d hwf (by rw [he]; exact fun h => by cases h)).1]
  exact hend

/-- C33: a crafting event (the occupant of the cell is registered, it stands on the
home terrain of its faction, the craft roll is below 2/100, and the faction has a
ledger) replaces the entity and the ledger of its faction by the result of the
weapon purchase, then the armor purchase, then the rank purchase, each made on the
stock left by the one before.  In the tick, the crafting loop reaches the cell with
the entity that movement left there; the event is made on the ledger as the earlier
visits of the loop left it, and the entity it makes is the occupant of the cell at
the end of the crafting loop and at the end of the tick.  Each purchase writes its
own field only and raises it by at most one tier: weapon and armor from none to
wood for 3 (armor 5) wood, from wood to stone for 3 (armor 5) stone, rank from base
to super for 50 wood and from super to mega for 100 wood; it is made only when the
stock covers its cost (and then it is made), and exactly that cost is deducted.  An
entity that does not stand on the home terrain of its faction is not changed by its
visit, consumes no resource, and is the same after the whole crafting loop. -/
theorem crafting_rule (w : World) (d : PeaceDraws) :
    (∀ x y st ent cfg res, getCell st.ents x y none = some ent →
      lookupTribe w.Tribes ent.Tribe = some cfg →
      w.Terrain.getD (y * GridSize + x) 0 = cfg.HomeTerrain → d.craftRoll x y < 2 / 100 →
      st.resources ent.Tribe = some res →
      craftBody w d x y st
        = { ents := setCell st.ents x y
              (some (craftRank (craftArmor (craftWeapon (ent, res)))).1)
            resources := setKey st.resources ent.Tribe
              (craftRank (craftArmor (craftWeapon (ent, res)))).2 }) ∧
    (∀ x y ent cfg res, x < GridSize → y < GridSize →
      getCell (peaceMoved w d).ents x y none = some ent →
      lookupTribe w.Tribes ent.Tribe = some cfg →
      w.Terrain.getD (y * GridSize + x) 0 = cfg.HomeTerrain → d.craftRoll x y < 2 / 100 →
      (craftBefore w d x y).resources ent.Tribe = some res →
      getCell (craftBefore w d x y).ents x y none = some ent ∧
      craftBody w d x y (craftBefore w d x y)
        = { ents := setCell (craftBefore w d x y).ents x y
              (some (craftRank (craftArmor (craftWeapon (ent, res)))).1)
            resources := setKey (craftBefore w d x y).resources ent.Tribe
              (craftRank (craftArmor (craftWeapon (ent, res)))).2 } ∧
      getCell (peaceCrafted w d).ents x y none
        = some (craftRank (craftArmor (craftWeapon (ent, res)))).1 ∧
      (w.WF → getCell (PreWarUpdate w d).Entities x y none
        = some (craftRank (craftArmor (craftWeapon (ent, res)))).1)) ∧
    (∀ x y st ent cfg, getCell st.ents x y none = some ent →
      lookupTribe w.Tribes ent.Tribe = some cfg →
      w.Terrain.getD (y * GridSize + x) 0 ≠ cfg.HomeTerrain → craftBody w d x y st = st) ∧
    (∀ x y ent cfg, getCell (peaceMoved w d).ents x y none = some ent →
      lookupTribe w.Tribes ent.Tribe = some cfg →
      w.Terrain.getD (y * GridSize + x) 0 ≠ cfg.HomeTerrain →
      getCell (peaceCrafted w d).ents x y none = some ent) ∧
    (∀ p : Entity × TribeResources,
      (craftWeapon p).1 = { p.1 with Weapon := (craftWeapon p).1.Weapon } ∧
      (((craftWeapon p).1.Weapon = p.1.Weapon ∧ (craftWeapon p).2 = p.2) ∨
        (p.1.Weapon = WeaponNone ∧ (craftWeapon p).1.Weapon = WeaponWood ∧ 3 ≤ p.2.Wood ∧
          (craftWeapon p).2.Wood = p.2.Wood - 3 ∧ (craftWeapon p).2.Stone = p.2.Stone) ∨
        (p.1.Weapon = WeaponWood ∧ (craftWeapon p).1.Weapon = WeaponStone ∧ 3 ≤ p.2.Stone ∧
          (craftWeapon p).2.Stone = p.2.Stone - 3 ∧ (craftWeapon p).2.Wood = p.2.Wood)) ∧
      (p.1.Weapon = WeaponNone → 3 ≤ p.2.Wood → (craftWeapon p).1.Weapon = WeaponWood) ∧
      (p.1.Weapon = WeaponWood → 3 ≤ p.2.Stone → (craftWeapon p).1.Weapon = WeaponStone)) ∧
    (∀ p : Entity × TribeResources,
      (craftArmor p).1 = { p.1 with Armor := (craftArmor p).1.Armor } ∧
      (((craftArmor p).1.Armor = p.1.Armor ∧ (craftArmor p).2 = p.2) ∨
        (p.1.Armor = ArmorNone ∧ (craftArmor p).1.Armor = ArmorWood ∧ 5 ≤ p.2.Wood ∧
          (craftArmor p).2.Wood = p.2.Wood - 5 ∧ (craftArmor p).2.Stone = p.2.Stone) ∨
        (p.1.Armor = ArmorWood ∧ (craftArmor p).1.Armor = ArmorStone ∧ 5 ≤ p.2.Stone ∧
          (craftArmor p).2.Stone = p.2.Stone - 5 ∧ (craftArmor p).2.Wood = p.2.Wood)) ∧
      (p.1.Armor = ArmorNone → 5 ≤ p.2.Wood → (craftArmor p).1.Armor = ArmorWood) ∧
      (p.1.Armor = ArmorWood → 5 ≤ p.2.Stone → (craftArmor p).1.Armor = ArmorStone)) ∧
    (∀ p : Entity × TribeResources,
      (craftRank p).1 = { p.1 with Rank := (craftRank p).1.Rank } ∧
      (((craftRank p).1.Rank = p.1.Rank ∧ (craftRank p).2 = p.2) ∨
        (p.1.Rank = RankBase ∧ (craftRank p).1.Rank = RankSuper ∧ 50 ≤ p.2.Wood ∧
          (craftRank p).2.Wood = p.2.Wood - 50 ∧ (craftRank p).2.Stone = p.2.Stone) ∨
        (p.1.Rank = RankSuper ∧ (craftRank p).1.Rank = RankMega ∧ 100 ≤ p.2.Wood ∧
          (craftRank p).2.Wood = p.2.Wood - 100 ∧ (craftRank p).2.Stone = p.2.Stone)) ∧
      (p.1.Rank = RankBase → 50 ≤ p.2.Wood → (craftRank p).1.Rank = RankSuper) ∧
      (p.1.Rank = RankSuper → 100 ≤ p.2.Wood → (craftRank p).1.Rank = RankMega)) := by
  refine ⟨?_, ?_, ?_, ?_, ?_, ?_, ?_⟩
  · intro x y st ent cfg res he hcfg hhome hroll hres
    exact craftBody_event w d x y st ent cfg res he hcfg hhome hroll hres
  · intro x y ent cfg res hx hy he hcfg hhome hroll hres
    exact craft_event_tick w d x y hx hy ent cfg res he hcfg hhome hroll hres
  · intro x y st ent cfg he hcfg haway
    unfold craftBody
    rw [he]
    dsimp only []
    rw [hcfg]
    dsimp only []
    rw [if_neg (fun h => haway h.1)]
  · intro x y ent cfg he hcfg haway
    exact craftLoop_away w d x y ent cfg hcfg haway _ he
  · intro p
    unfold craftWeapon
    by_cases h1 : p.1.Weapon = WeaponNone ∧ p.2.Wood ≥ 3
    · rw [if_pos h1]
      exact ⟨rfl, Or.inr (Or.inl ⟨h1.1, rfl, h1.2, rfl, rfl⟩), fun _ _ => rfl,
        fun h _ => absurd (h1.1.symm.trans h) (by decide)⟩
    · rw [if_neg h1]
      by_cases h2 : p.1.Weapon = WeaponWood ∧ p.2.Stone ≥ 3
      · rw [if_pos h2]
        exact ⟨rfl, Or.inr (Or.inr ⟨h2.1, rfl, h2.2, rfl, rfl⟩),
          fun h _ => absurd (h2.1.symm.trans h) (by decide), fun _ _ => rfl⟩
      · rw [if_neg h2]
        exact ⟨rfl, Or.inl ⟨rfl, rfl⟩, fun h hc => absurd ⟨h, hc⟩ h1,
          fun h hc => absurd ⟨h, hc⟩ h2⟩
  · intro p
    unfold craftArmor
    by_cases h1 : p.1.Armor = ArmorNone ∧ p.2.Wood ≥ 5
    · rw [if_pos h1]
      exact ⟨rfl, Or.inr (Or.inl ⟨h1.1, rfl, h1.2, rfl, rfl⟩), fun _ _ => rfl,
        fun h _ => absurd (h1.1.symm.trans h) (by decide)⟩
    · rw [if_neg h1]
      by_cases h2 : p.1.Armor = ArmorWood ∧ p.2.Stone ≥ 5
      · rw [if_pos h2]
        exact ⟨rfl, Or.inr (Or.inr ⟨h2.1, rfl, h2.2, rfl, rfl⟩),
          fun h _ => absurd (h2.1.symm.trans h) (by decide), fun _ _ => rfl⟩
      · rw [if_neg h2]
        exact ⟨rfl, Or.inl ⟨rfl, rfl⟩, fun h hc => absurd ⟨h, hc⟩ h1,
          fun h hc => absurd ⟨h, hc⟩ h2⟩
  · intro p
    unfold craftRank
    rw [RankUpgradeCost_values.1, RankUpgradeCost_values.2]
    by_cases h1 : p.1.Rank = RankBase ∧ p.2.Wood ≥ 50
    · rw [if_pos h1]
      exact ⟨rfl, Or.inr (Or.inl ⟨h1.1, rfl, h1.2, rfl, rfl⟩), fun _ _ => rfl,
        fun h _ => absurd (h1.1.symm.trans h) (by decide)⟩
    · rw [if_neg h1]
      by_cases h2 : p.1.Rank = RankSuper ∧ p.2.Wood ≥ 100
      · rw [if_pos h2]
        exact ⟨rfl, Or.inr (Or.inr ⟨h2.1, rfl, h2.2, rfl, rfl⟩),
          fun h _ => absurd (h2.1.symm.trans h) (by decide), fun _ _ => rfl⟩
      · rw [if_neg h2]
        exact ⟨rfl, Or.inl ⟨rfl, rfl⟩, fun h hc => absurd ⟨h, hc⟩ h1,
          fun h hc => absurd ⟨h, hc⟩ h2⟩

theorem setKey_read {α : Type} (r : Nat → Option α) (k : Nat) (v : α) :
    setKey r k v k = some v :=
  if_pos rfl

/-- No move is resolved when no target is visited. -/
theorem still_moved (w : World) (d : PeaceDraws) (hk : d.keyOrder = []) :
    (peaceMoved w d).ents = w.Entities ∧ (peaceMoved w d).reprod = w.lastReprodTime := by
  have h := resolveMoves_nil w (moveDraws w d) hk
  unfold peaceMoved
  rw [h]
  exact ⟨rfl, rfl⟩

/-- The crafting loop reaches a cell in the state it started from when no craft
roll passes before that cell. -/
theorem craftBefore_idle (w : World) (d : PeaceDraws) (x1 y1 : Nat) (hx1 : x1 < GridSize)
    (hroll : ∀ x y, y * GridSize + x < y1 * GridSize + x1 → ¬ d.craftRoll x y < 2 / 100) :
    (craftBefore w d x1 y1).ents = (peaceMoved w d).ents ∧
    (craftBefore w d x1 y1).resources = w.resources := by
  have h : craftBefore w d x1 y1
      = { ents := (peaceMoved w d).ents, resources := w.resources } := by
    unfold craftBefore
    apply loopBefore_idle (craftBody w d) x1 y1 hx1
    intro x y s _ hlt
    unfold craftBody
    cases getCell s.ents x y none with
    | none => rfl
    | some ent =>
      dsimp only []
      cases lookupTribe w.Tribes ent.Tribe with
      | none => rfl
      | some cfg =>
        dsimp only []
        rw [if_neg (fun h => hroll x y hlt h.2)]
  rw [h]
  exact ⟨rfl, rfl⟩

theorem craftDraws_before (x y : Nat) (hlt : y * GridSize + x < 5 * GridSize + 5) :
    ¬ craftDraws.craftRoll x y < 2 / 100 := by
  have hne : ¬ (x = 5 ∧ y = 5) := by
    rintro ⟨rfl, rfl⟩
    exact absurd hlt (lt_irrefl _)
  show ¬ ((if x = 5 ∧ y = 5 then (0 : ℚ) else 1) < 2 / 100)
  rw [if_neg hne]
  norm_num

/-- What a fresh entity whose faction owns 3 wood buys: a wooden weapon, for the 3
wood. -/
theorem craft_first :
    craftRank (craftArmor (craftWeapon (freshEntity 1 1 0, { Wood := 3, Stone := 0 })))
      = ({ freshEntity 1 1 0 with Weapon := WeaponWood }, { Wood := 0, Stone := 0 }) := by
  have h1 : craftWeapon (freshEntity 1 1 0, { Wood := 3, Stone := 0 })
      = ({ freshEntity 1 1 0 with Weapon := WeaponWood }, { Wood := 0, Stone := 0 }) := by
    unfold craftWeapon
    rw [if_pos ⟨rfl, by decide⟩]
    rfl
  have h2 : craftArmor ({ freshEntity 1 1 0 with Weapon := WeaponWood },
      ({ Wood := 0, Stone := 0 } : TribeResources))
      = ({ freshEntity 1 1 0 with Weapon := WeaponWood }, { Wood := 0, Stone := 0 }) := by
    unfold craftArmor
    rw [if_neg (fun h => absurd h.2 (by decide)), if_neg (fun h => absurd h.1 (by decide))]
  have h3 : craftRank ({ freshEntity 1 1 0 with Weapon := WeaponWood },
      ({ Wood := 0, Stone := 0 } : TribeResources))
      = ({ freshEntity 1 1 0 with Weapon := WeaponWood }, { Wood := 0, Stone := 0 }) := by
    unfold craftRank
    rw [if_neg (fun h => absurd h.2 (by decide)), if_neg (fun h => absurd h.1 (by decide))]
  rw [h1, h2, h3]

/-- Witness of C33, on the forge: in the tick in which the craft roll of cell (5, 5)
passes, the Nomad of that cell, on its red home terrain with 3 wood in the ledger of
its faction, buys a wooden weapon; the visit leaves no wood in the ledger, and the
armed Nomad is in the cell at the end of the tick. -/
theorem crafting_rule_witness :
    (5 : Nat) < GridSize ∧
    getCell (peaceMoved forge craftDraws).ents 5 5 none = some (freshEntity 1 1 0) ∧
    lookupTribe forge.Tribes (freshEntity 1 1 0).Tribe = some (customNomads 1) ∧
    forge.Terrain.getD (5 * GridSize + 5) 0 = (customNomads 1).HomeTerrain ∧
    craftDraws.craftRoll 5 5 < 2 / 100 ∧
    (craftBefore forge craftDraws 5 5).resources (freshEntity 1 1 0).Tribe
      = some { Wood := 3, Stone := 0 } ∧
    forge.WF ∧
    (craftBody forge craftDraws 5 5 (craftBefore forge craftDraws 5 5)).resources 1
      = some { Wood := 0, Stone := 0 } ∧
    getCell (PreWarUpdate forge craftDraws).Entities 5 5 none
      = some { freshEntity 1 1 0 with Weapon := WeaponWood } := by
  have h5 : (5 : Nat) < GridSize := by decide
  have he : getCell (peaceMoved forge craftDraws).ents 5 5 none = some (freshEntity 1 1 0) := by
    rw [(still_moved forge craftDraws rfl).1, forge_fields.1, camp_ents]
    rfl
  have hcfg : lookupTribe forge.Tribes (freshEntity 1 1 0).Tribe = some (customNomads 1) := by
    rw [forge_fields.2.1]
    rfl
  have hhome : forge.Terrain.getD (5 * GridSize + 5) 0 = (customNomads 1).HomeTerrain :=
    forge_fields.2.2.2.1
  have hroll : craftDraws.craftRoll 5 5 < 2 / 100 := by
    show (if (5 : Nat) = 5 ∧ (5 : Nat) = 5 then (0 : ℚ) else 1) < 2 / 100
    rw [if_pos ⟨rfl, rfl⟩]
    norm_num
  have hres : (craftBefore forge craftDraws 5 5).resources (freshEntity 1 1 0).Tribe
      = some { Wood := 3, Stone := 0 } := by
    rw [(craftBefore_idle forge craftDraws 5 5 h5 craftDraws_before).2,
      show (freshEntity 1 1 0).Tribe = 1 from rfl]
    exact forge_fields.2.2.1
  have h := (crafting_rule forge craftDraws).2.1 5 5 (freshEntity 1 1 0) (customNomads 1)
    { Wood := 3, Stone := 0 } h5 h5 he hcfg hhome hroll hres
  refine ⟨h5, he, hcfg, hhome, hroll, hres, forge_WF, ?_, ?_⟩
  · rw [h.2.1, craft_first]
    dsimp only []
    exact setKey_read _ _ _
  · rw [h.2.2.2 forge_WF, craft_first]

/-- The crafting loop comes down to the visit of one cell when no craft roll passes
elsewhere. -/
theorem peaceCrafted_one (w : World) (d : PeaceDraws) (x1 y1 : Nat) (hx1 : x1 < GridSize)
    (hy1 : y1 < GridSize)
    (hroll : ∀ x y, (x ≠ x1 ∨ y ≠ y1) → ¬ d.craftRoll x y < 2 / 100) :
    peaceCrafted w d = craftBody w d x1 y1 (craftBefore w d x1 y1) := by
  have hid : ∀ x y s, (x ≠ x1 ∨ y ≠ y1) → craftBody w d x y s = s := by
    intro x y s hne
    unfold craftBody
    cases getCell s.ents x y none with
    | none => rfl
    | some ent =>
      dsimp only []
      cases lookupTribe w.Tribes ent.Tribe with
      | none => rfl
      | some cfg =>
        dsimp only []
        rw [if_neg (fun h => hroll x y hne h.2)]
  have hb : craftBefore w d x1 y1
      = { ents := (peaceMoved w d).ents, resources := w.resources } := by
    unfold craftBefore
    apply loopBefore_idle (craftBody w d) x1 y1 hx1
    intro x y s hx hlt
    apply hid
    by_contra hcon
    have h1 : x = x1 := by
      by_contra h
      exact hcon (Or.inl h)
    have h2 : y = y1 := by
      by_contra h
      exact hcon (Or.inr h)
    rw [h1, h2] at hlt
    exact absurd hlt (lt_irrefl _)
  rw [hb]
  unfold peaceCrafted
  exact forCells_one (craftBody w d) x1 y1 hx1 hy1 hid _

theorem craftDraws_elsewhere (x y : Nat) (hne : x ≠ 5 ∨ y ≠ 5) :
    ¬ craftDraws.craftRoll x y < 2 / 100 := by
  have hn : ¬ (x = 5 ∧ y = 5) := by
    rintro ⟨rfl, rfl⟩
    rcases hne with h | h <;> exact h rfl
  show ¬ ((if x = 5 ∧ y = 5 then (0 : ℚ) else 1) < 2 / 100)
  rw [if_neg hn]
  norm_num

/-- The crafting loop of the tick of the forge leaves no wood to the Nomads. -/
theorem forge_crafted :
    (peaceCrafted forge craftDraws).resources 1 = some { Wood := 0, Stone := 0 } := by
  have h5 : (5 : Nat) < GridSize := by decide
  have he : getCell (peaceMoved forge craftDraws).ents 5 5 none = some (freshEntity 1 1 0) := by
    rw [(still_moved forge craftDraws rfl).1, forge_fields.1, camp_ents]
    rfl
  have hcfg : lookupTribe forge.Tribes (freshEntity 1 1 0).Tribe = some (customNomads 1) := by
    rw [forge_fields.2.1]
    rfl
  have hroll : craftDraws.craftRoll 5 5 < 2 / 100 := by
    show (if (5 : Nat) = 5 ∧ (5 : Nat) = 5 then (0 : ℚ) else 1) < 2 / 100
    rw [if_pos ⟨rfl, rfl⟩]
    norm_num
  have hres : (craftBefore forge craftDraws 5 5).resources (freshEntity 1 1 0).Tribe
      = some { Wood := 3, Stone := 0 } := by
    rw [(craftBefore_idle forge craftDraws 5 5 h5 craftDraws_before).2,
      show (freshEntity 1 1 0).Tribe = 1 from rfl]
    exact forge_fields.2.2.1
  have h := craft_event_tick forge craftDraws 5 5 h5 h5 (freshEntity 1 1 0) (customNomads 1)
    { Wood := 3, Stone := 0 } he hcfg forge_fields.2.2.2.1 hroll hres
  rw [peaceCrafted_one forge craftDraws 5 5 h5 h5 craftDraws_elsewhere, h.2.1, craft_first]
  dsimp only []
  exact setKey_read _ _ _

/-- The tick that makes the forge: the crafting loop leaves the empty ledger as it
is, and the mining loop credits 3 wood. -/
theorem campForest_tick :
    ledgerOf (peaceCrafted campForest restDraws).resources 1 = (0, 0) ∧
    ledgerOf (PreWarUpdate campForest restDraws).resources 1 = (3, 0) := by
  constructor
  · unfold peaceCrafted
    rw [craftLoop_still campForest restDraws (rest_rolls _ campForest_stats).2]
    dsimp only []
    rw [campForest_fields.2.2.2.1]
    rfl
  · rw [still_tick campForest restDraws rfl (rest_rolls _ campForest_stats).1
      (rest_rolls _ campForest_stats).2, (HandleMiningAndRegrowth_rest _ _).1]
    exact campForest_mined

/-- Witness of C19, on two reachable states.  In the camp in the forest the ledger
of the Nomads is empty; in the peaceful tick run on it the crafting loop leaves it
empty and the mining loop credits 3 wood.  In the forge, the state after that tick,
the Nomads own 3 wood; in the tick in which the craft roll of cell (5, 5) passes the
crafting loop takes the 3 wood.  No amount is negative. -/
theorem ledger_invariant_witness :
    Reachable campForest ∧ Reachable forge ∧
    GetTribeResources campForest 1 = (0, 0) ∧
    ledgerOf (peaceCrafted campForest restDraws).resources 1 = (0, 0) ∧
    ledgerOf (PreWarUpdate campForest restDraws).resources 1 = (3, 0) ∧
    LedgerLe (peaceCrafted campForest restDraws).resources
      (PreWarUpdate campForest restDraws).resources ∧
    GetTribeResources forge 1 = (3, 0) ∧
    ledgerOf (peaceCrafted forge craftDraws).resources 1 = (0, 0) ∧
    LedgerLe (peaceCrafted forge craftDraws).resources forge.resources ∧
    (∀ t, 0 ≤ (GetTribeResources forge t).1 ∧ 0 ≤ (GetTribeResources forge t).2) := by
  have hc := ledger_invariant campForest campForest_reachable
  have hf := ledger_invariant forge forge_reachable
  have h0 : GetTribeResources campForest 1 = (0, 0) := by
    unfold GetTribeResources
    rw [campForest_fields.2.2.2.1]
    rfl
  have h3 : GetTribeResources forge 1 = (3, 0) := ledgerOf_some forge_fields.2.2.1
  have hle : LedgerLe (peaceCrafted campForest restDraws).resources
      (PreWarUpdate campForest restDraws).resources := by
    rw [(hc.2.2 restDraws).2.2]
    exact (hc.2.2 restDraws).2.1
  exact ⟨campForest_reachable, forge_reachable, h0, campForest_tick.1, campForest_tick.2, hle,
    h3, ledgerOf_some forge_crafted, (hf.2.2 craftDraws).1, hf.2.1⟩

/-! ## A grove: one Nomad below a forest cell -/

theorem paintCell_rest (w : World) (x y typ : Nat) :
    (paintCell w x y typ).Tribes = w.Tribes ∧
    (paintCell w x y typ).resources = w.resources ∧
    (paintCell w x y typ).EntityStats = w.EntityStats ∧
    (paintCell w x y typ).lastClearedTime = w.lastClearedTime ∧
    (paintCell w x y typ).nextEntityID = w.nextEntityID :=
  ⟨rfl, rfl, rfl, rfl, rfl⟩

theorem groveGround_WF : groveGround.WF :=
  paintCell_WF (paintCell_WF (paintCell_WF (paintCell_WF (withTribes_WF _) _ _ _) _ _ _) _ _ _)
    _ _ _

theorem grove_WF : grove.WF := spawnAt_WF groveGround_WF _ _ _

/-- No entity stands on the ground of the grove. -/
theorem groveGround_ents (x y : Nat) : getCell groveGround.Entities x y none = none := by
  have hp : ∀ (w : World) (a b c : Nat), (∀ x y, getCell w.Entities x y none = none) →
      ∀ x y, getCell (paintCell w a b c).Entities x y none = none := by
    intro w a b c hw x y
    rw [paintCell_entities]
    rcases getCell_setCell_cases w.Entities a b x y none none with h | h
    · exact h
    · rw [h]
      exact hw x y
  exact hp _ 5 5 1 (hp _ 5 4 TerrainTrees (hp _ 5 3 1 (hp _ 5 2 1
    (withTribes_entities verticalTribes)))) x y

theorem groveGround_rest :
    groveGround.Tribes = verticalTribes ∧ groveGround.EntityStats = New.EntityStats ∧
    groveGround.lastClearedTime = New.lastClearedTime ∧
    groveGround.nextEntityID = (fun _ => none) ∧ groveGround.resources = (fun _ => none) :=
  ⟨rfl, rfl, rfl, rfl, rfl⟩

theorem grove_rest :
    grove.Tribes = verticalTribes ∧ grove.EntityStats = New.EntityStats ∧
    grove.lastClearedTime = New.lastClearedTime ∧ grove.Terrain = groveGround.Terrain ∧
    grove.resources = (fun _ => none) := by
  refine ⟨?_, ?_, ?_, spawnAt_terrain _ _ _ _, ?_⟩
  · exact (spawnAt_rest _ _ _ _).1.trans groveGround_rest.1
  · exact (spawnAt_rest _ _ _ _).2.2.2.1.trans groveGround_rest.2.1
  · exact (spawnAt_rest _ _ _ _).2.2.2.2.trans groveGround_rest.2.2.1
  · exact (spawnAt_rest _ _ _ _).2.1.trans groveGround_rest.2.2.2.2

/-- The entity layer of the grove: the Nomad of cell (5, 5). -/
theorem grove_ents (x y : Nat) :
    getCell grove.Entities x y none
      = if x = 5 ∧ y = 5 then some (freshEntity 1 1 0) else none := by
  have h5 : (5 : Nat) < GridSize := by decide
  show getCell (setCell groveGround.Entities 5 5 (some (freshEntity 1 1 0))) x y none = _
  by_cases hA : x = 5 ∧ y = 5
  · rw [if_pos hA, hA.1, hA.2]
    exact getCell_set_self groveGround_WF.1 h5 h5 _
  · rw [if_neg hA, getCell_setCell_ne _ _ _ _ _ _ _ (by omega)]
    exact groveGround_ents x y

/-- The terrain of the grove: red at (5, 2), (5, 3) and (5, 5), forest at (5, 4),
empty elsewhere. -/
theorem grove_terrain (j : Nat) :
    grove.Terrain.getD j 0
      = if j = 505 ∨ j = 305 ∨ j = 205 then 1 else if j = 405 then TerrainTrees else 0 := by
  have e2 : 2 * GridSize + 5 = 205 := rfl
  have e3 : 3 * GridSize + 5 = 305 := rfl
  have e4 : 4 * GridSize + 5 = 405 := rfl
  have e5 : 5 * GridSize + 5 = 505 := rfl
  rw [grove_rest.2.2.2.1, groveGround, paintCell_terrain, paintCell_terrain, paintCell_terrain,
    paintCell_terrain, e2, e3, e4, e5]
  have hlen : (withTribes verticalTribes).Terrain.length = 10000 := (withTribes_WF _).2.1
  by_cases h5 : j = 505
  · rw [if_pos (Or.inl h5), h5]
    exact getD_set_self _ _ _ _ (by
      rw [List.length_set, List.length_set, List.length_set, hlen]
      decide)
  · rw [getD_set_ne _ _ _ _ _ (fun e => h5 e.symm)]
    by_cases h4 : j = 405
    · rw [if_neg (by omega), if_pos h4, h4]
      exact getD_set_self _ _ _ _ (by rw [List.length_set, List.length_set, hlen]; decide)
    · rw [getD_set_ne _ _ _ _ _ (fun e => h4 e.symm)]
      by_cases h3 : j = 305
      · rw [if_pos (Or.inr (Or.inl h3)), h3]
        exact getD_set_self _ _ _ _ (by rw [List.length_set, hlen]; decide)
      · rw [getD_set_ne _ _ _ _ _ (fun e => h3 e.symm)]
        by_cases h2 : j = 205
        · rw [if_pos (Or.inr (Or.inr h2)), h2]
          exact getD_set_self _ _ _ _ (by rw [hlen]; decide)
        · rw [if_neg (by omega), if_neg h4, getD_set_ne _ _ _ _ _ (fun e => h2 e.symm)]
          exact withTribes_terrain verticalTribes j

/-- No reproduction timestamp is set in the grove. -/
theorem grove_stamps (x y : Nat) : getCell grove.lastReprodTime x y 0 = 0 := by
  have hp : ∀ (w : World) (a b c : Nat), (∀ x y, getCell w.lastReprodTime x y 0 = 0) →
      ∀ x y, getCell (paintCell w a b c).lastReprodTime x y 0 = 0 := by
    intro w a b c hw x y
    show getCell (setCell w.lastReprodTime a b 0) x y 0 = 0
    rcases getCell_setCell_cases w.lastReprodTime a b x y 0 0 with h | h
    · exact h
    · rw [h]
      exact hw x y
  have hbase : ∀ x y, getCell (withTribes verticalTribes).lastReprodTime x y 0 = 0 :=
    fun x y => zeroGrid_get x y
  have hg : ∀ x y, getCell groveGround.lastReprodTime x y 0 = 0 :=
    hp _ 5 5 1 (hp _ 5 4 TerrainTrees (hp _ 5 3 1 (hp _ 5 2 1 hbase)))
  show getCell (setCell groveGround.lastReprodTime 5 5 0) x y 0 = 0
  rcases getCell_setCell_cases groveGround.lastReprodTime 5 5 x y 0 0 with h | h
  · exact h
  · rw [h]
    exact hg x y

/-- No clear timestamp is set in the grove. -/
theorem grove_cleared (x y : Nat) : getCell grove.lastClearedTime x y 0 = 0 := by
  rw [grove_rest.2.2.1]
  exact zeroGrid_get x y

theorem grove_counter : grove.nextEntityID 1 = some 1 := by
  show setKey groveGround.nextEntityID 1 ((counterOf groveGround 1 + 1) % 2 ^ 32) 1 = some 1
  rw [setKey_read]
  rfl

theorem grove_count : tribeCounts grove.Entities 1 = 1 := by
  have h5 : (5 : Nat) < GridSize := by decide
  have e1 : tribeCounts grove.Entities 1
      = tribeCounts (setCell groveGround.Entities 5 5 (some (freshEntity 1 1 0))) 1 := rfl
  rw [e1, tribeCounts_setCell _ groveGround_WF.1 5 5 h5 h5,
    tribeCounts_empty _ groveGround_ents, groveGround_ents]
  rfl

theorem grove_registered : AllRegistered grove := by
  intro x y e he
  rw [grove_ents] at he
  split_ifs at he
  cases he
  rw [grove_rest.1]
  rfl

theorem grove_homes : NoWildHome grove := by
  intro p hp
  rw [grove_rest.1] at hp
  simp only [verticalTribes, List.mem_cons, List.mem_singleton, List.not_mem_nil, or_false]
    at hp
  rcases hp with rfl | rfl <;> exact ⟨by decide, by decide⟩

/-! ## The first tick of the grove: a move onto forest, a birth, the forest mined -/

theorem grove_entity : getCell grove.Entities 5 5 none = some (freshEntity 1 1 0) := by
  rw [grove_ents, if_pos ⟨rfl, rfl⟩]

theorem grove_empty (x y : Nat) (h : x ≠ 5 ∨ y ≠ 5) : getCell grove.Entities x y none = none := by
  rw [grove_ents, if_neg (by omega)]

/-- The mining impulse of the Nomad of the grove: the forest above it. -/
theorem grove_resourceDirs : resourceDirs grove 5 5 = [0] := by
  rw [resourceDirs_interior grove 5 5 4 6 4 6 rfl rfl rfl rfl (by decide) (by decide)]
  have t0 : grove.Terrain.getD (4 * GridSize + 5) 0 = TerrainTrees := by
    rw [grove_terrain]
    decide
  have t1 : grove.Terrain.getD (6 * GridSize + 5) 0 = 0 := by
    rw [grove_terrain]
    decide
  have t2 : grove.Terrain.getD (5 * GridSize + 4) 0 = 0 := by
    rw [grove_terrain]
    decide
  have t3 : grove.Terrain.getD (5 * GridSize + 6) 0 = 0 := by
    rw [grove_terrain]
    decide
  rw [t0, t1, t2, t3, if_pos ⟨grove_empty 5 4 (Or.inr (by decide)), Or.inl rfl⟩,
    if_neg (fun h => by rcases h.2 with h | h <;> cases h),
    if_neg (fun h => by rcases h.2 with h | h <;> cases h),
    if_neg (fun h => by rcases h.2 with h | h <;> cases h)]
  rfl

/-- Phase 1 of the first tick: the Nomad collects the move onto the forest cell. -/
theorem grove_collect :
    collectMoves grove groveDraws = [{ fromX := 5, fromY := 5, toX := 5, toY := 4 }] := by
  have h5 : (5 : Nat) < GridSize := by decide
  rw [collectMoves_one grove groveDraws 5 5 h5 h5 grove_empty,
    collectBody_impulse grove groveDraws 5 5 [] _ grove_entity
      (by
        rw [grove_rest.2.1]
        show (0 : ℚ) < 2 / 10
        norm_num)
      (by rw [grove_resourceDirs]; decide)
      (by
        show (0 : ℚ) < 20 / 100
        norm_num),
    grove_resourceDirs]
  rfl

/-- Phase 2 of the first tick: the Nomad is on the forest cell (5, 4). -/
theorem grove_moved (x y : Nat) :
    getCell (peaceMoved grove groveDraws).ents x y none
      = (if x = 5 ∧ y = 4 then some (freshEntity 1 1 0) else none) ∧
    getCell (peaceMoved grove groveDraws).reprod x y 0 = 0 := by
  have h5 : (5 : Nat) < GridSize := by decide
  have h4 : (4 : Nat) < GridSize := by decide
  have hm := peaceMoved_single grove groveDraws { fromX := 5, fromY := 5, toX := 5, toY := 4 }
    grove_collect rfl
  dsimp only [] at hm
  rw [hm.1, hm.2, grove_entity, grove_stamps]
  have hG1 := GridWF_setCell grove_WF.1 5 4 (some (freshEntity 1 1 0))
  constructor
  · by_cases hA : x = 5 ∧ y = 5
    · rw [hA.1, hA.2, getCell_set_self hG1 h5 h5, if_neg (by decide)]
    · rw [getCell_setCell_ne _ _ _ _ _ _ _ (by omega)]
      by_cases hB : x = 5 ∧ y = 4
      · rw [if_pos hB, hB.1, hB.2]
        exact getCell_set_self grove_WF.1 h5 h4 _
      · rw [if_neg hB, getCell_setCell_ne _ _ _ _ _ _ _ (by omega)]
        exact grove_empty x y (by omega)
  · rcases getCell_setCell_cases (setCell grove.lastReprodTime 5 4 0) 5 5 x y 0 0 with h | h
    · exact h
    · rw [h]
      rcases getCell_setCell_cases grove.lastReprodTime 5 4 x y 0 0 with h2 | h2
      · exact h2
      · rw [h2]
        exact grove_stamps x y

theorem grove_moved_count : tribeCounts (peaceMoved grove groveDraws).ents 1 = 1 := by
  rw [reloc_counts (peaceMoved_reloc grove groveDraws grove_WF (List.nodup_singleton _)) 1]
  exact grove_count

/-- Whether a child can be put in the in-range cell `(nx, ny)`. -/
theorem canSpawn_at (w : World) (g : List (List (Option Entity))) (x y tribe : Nat)
    (dir : Int × Int) (nx ny : Nat) (hnx : (x : Int) + dir.1 = (nx : Int))
    (hny : (y : Int) + dir.2 = (ny : Int)) (hrx : nx < GridSize) (hry : ny < GridSize) :
    canSpawn w g x y tribe dir
      = (decide (getCell g nx ny none = none) &&
          CanReproduceOn (w.Terrain.getD (ny * GridSize + nx) 0) w tribe) := by
  unfold canSpawn
  dsimp only []
  rw [hnx, hny, Int.toNat_natCast, Int.toNat_natCast,
    decide_eq_true (show (nx : Int) ≥ 0 ∧ (nx : Int) < GridSize ∧ (ny : Int) ≥ 0 ∧
      (ny : Int) < GridSize from ⟨by omega, by exact_mod_cast hrx, by omega,
        by exact_mod_cast hry⟩), Bool.true_and]

theorem grove_canReproduce : CanReproduceOn 1 grove 1 = true := by
  unfold CanReproduceOn
  rw [grove_rest.1]
  rfl

/-- The visit of cell (5, 4) by the reproduction loop of the first tick, from a
state in which the Nomads are not skipped: a birth is recorded for the red cell
(5, 3) above. -/
theorem grove_visit (counts : Nat → Int) (skip : Nat → Bool) (spawns : List Spawn)
    (reprod : List (List Int)) (hskip : skip 1 = false) (hstamp : getCell reprod 5 4 0 = 0) :
    (reprodBody grove groveDraws (peaceMoved grove groveDraws).ents 5 4
      { counts := counts, skip := skip, spawns := spawns, reprod := reprod }).spawns
      = spawns ++ [{ nx := 5, ny := 3, tribe := 1 }] := by
  have hent : getCell (peaceMoved grove groveDraws).ents 5 4 none = some (freshEntity 1 1 0) := by
    rw [(grove_moved 5 4).1, if_pos ⟨rfl, rfl⟩]
  have hroll : groveDraws.reprodRoll 5 4 < grove.EntityStats.ReproductionRate := by
    rw [grove_rest.2.1]
    show (0 : ℚ) < 5 / 1000
    norm_num
  have hup : canSpawn grove (peaceMoved grove groveDraws).ents 5 4 1 (0, -1) = true := by
    rw [canSpawn_at grove _ 5 4 1 (0, -1) 5 3 (by decide) (by decide) (by decide) (by decide),
      (grove_moved 5 3).1, if_neg (by decide), grove_terrain]
    have h : (if 3 * GridSize + 5 = 505 ∨ 3 * GridSize + 5 = 305 ∨ 3 * GridSize + 5 = 205
        then 1 else if 3 * GridSize + 5 = 405 then TerrainTrees else 0) = 1 := by decide
    rw [h, grove_canReproduce]
    rfl
  have hfind : (groveDraws.shuffled 5 4).find?
      (canSpawn grove (peaceMoved grove groveDraws).ents 5 4 (freshEntity 1 1 0).Tribe)
      = some (0, -1) := by
    show directions.find? (canSpawn grove (peaceMoved grove groveDraws).ents 5 4 1)
      = some (0, -1)
    unfold directions
    rw [List.find?_cons_of_pos _ hup]
  exact reprodBody_birth grove groveDraws _ 5 4
    { counts := counts, skip := skip, spawns := spawns, reprod := reprod }
    (freshEntity 1 1 0) (0, -1) hent hskip hstamp hroll hfind

theorem grove_moved_empty (x y : Nat) (h : x ≠ 5 ∨ y ≠ 4) :
    getCell (peaceMoved grove groveDraws).ents x y none = none := by
  rw [(grove_moved x y).1, if_neg (by omega)]

theorem grove_skip :
    skipStart grove (tribeCounts (peaceMoved grove groveDraws).ents) 1 = false := by
  unfold skipStart
  rw [grove_moved_count, grove_rest.2.1]
  have hlow : ¬ ((((1 : Int) : ℚ)) / ((GridSize * GridSize : Nat) : ℚ)
      > New.EntityStats.MaxDensityFraction) := by
    show ¬ ((((1 : Int) : ℚ)) / ((GridSize * GridSize : Nat) : ℚ) > 30 / 1000)
    unfold GridSize
    norm_num
  rw [decide_eq_false hlow, Bool.and_false]

/-- Phase 3 of the first tick: one birth is recorded, at the visit of cell (5, 4),
for cell (5, 3). -/
theorem grove_births :
    (peaceReprod grove groveDraws).spawns = [{ nx := 5, ny := 3, tribe := 1 }] ∧
    ({ nx := 5, ny := 3, tribe := 1 } : Spawn) ∈ newSpawns grove groveDraws 5 4 := by
  have h5 : (5 : Nat) < GridSize := by decide
  have h4 : (4 : Nat) < GridSize := by decide
  constructor
  · unfold peaceReprod
    rw [(reprodLoop_one grove groveDraws _ 5 4 h5 h4 grove_moved_empty _).1,
      grove_visit _ _ _ _ grove_skip (grove_moved 5 4).2]
    rfl
  · unfold newSpawns reprodBefore
    rw [(reprodLoop_one grove groveDraws _ 5 4 h5 h4 grove_moved_empty _).2,
      grove_visit _ _ _ _ grove_skip (grove_moved 5 4).2]
    dsimp only []
    rw [List.drop_left]
    exact List.mem_singleton.2 rfl

theorem groveDraws_nocraft (x y : Nat) : ¬ groveDraws.craftRoll x y < 2 / 100 := by
  show ¬ ((1 : ℚ) < 2 / 100)
  norm_num

/-- The entity layer once the birth of the first tick is applied. -/
theorem grove_born :
    (peaceBorn grove groveDraws).ents
      = setCell (peaceMoved grove groveDraws).ents 5 3 (some (freshEntity 1 2 0)) := by
  have hcr : (peaceCrafted grove groveDraws).ents = (peaceMoved grove groveDraws).ents := by
    unfold peaceCrafted
    rw [craftLoop_still grove groveDraws groveDraws_nocraft]
  unfold peaceBorn
  rw [grove_births.1, hcr]
  show (spawnStep grove groveDraws.reprodNow _ _).ents = _
  unfold spawnStep
  dsimp only []
  rw [grove_counter, grove_rest.1]
  rfl

/-- The entity layer at the end of the first tick: the child in (5, 3), its parent
in (5, 4), and nothing else. -/
theorem grove_after_ents (x y : Nat) :
    getCell (PreWarUpdate grove groveDraws).Entities x y none
      = if x = 5 ∧ y = 3 then some (freshEntity 1 2 0)
        else if x = 5 ∧ y = 4 then some (freshEntity 1 1 0) else none := by
  have h5 : (5 : Nat) < GridSize := by decide
  have h3 : (3 : Nat) < GridSize := by decide
  rw [PreWarUpdate_entities, grove_born]
  by_cases hA : x = 5 ∧ y = 3
  · rw [if_pos hA, hA.1, hA.2]
    exact getCell_set_self (peaceMoved_WF grove groveDraws grove_WF).1 h5 h3 _
  · rw [if_neg hA, getCell_setCell_ne _ _ _ _ _ _ _ (by omega)]
    exact (grove_moved x y).1

/-- The terrain at the end of the first tick: the forest of cell (5, 4) is mined to
red, every other in-range cell is as before. -/
theorem grove_after_terrain (x y : Nat) (hx : x < GridSize) (hy : y < GridSize) :
    (PreWarUpdate grove groveDraws).Terrain.getD (y * GridSize + x) 0
      = if x = 5 ∧ y = 4 then 1 else grove.Terrain.getD (y * GridSize + x) 0 := by
  have hclear : ∀ x y, getCell (installPeace grove (peaceBorn grove groveDraws)
      (peaceCrafted grove groveDraws)).lastClearedTime x y 0 = 0 := by
    intro x y
    rw [(installPeace_frame _ _ _).2.2.2.2.2.2]
    exact grove_cleared x y
  have h := HandleMining_terrain _ groveDraws.mineNow
    (installPeace_WF grove groveDraws grove_WF) hclear x y hx hy
  rw [(installPeace_frame _ _ _).2.2.2.2.1, (installPeace_frame _ _ _).2.2.2.2.2.1,
    (installPeace_frame _ _ _).2.2.2.1, ← PreWarUpdate_entities, grove_after_ents,
    grove_rest.1] at h
  unfold PreWarUpdate
  rw [h]
  by_cases hA : x = 5 ∧ y = 3
  · rw [if_pos hA, if_neg (by omega), hA.1, hA.2, grove_terrain]
    unfold mineCell
    dsimp only []
    rw [if_neg (by decide)]
  · rw [if_neg hA]
    by_cases hB : x = 5 ∧ y = 4
    · rw [if_pos hB, if_pos hB, hB.1, hB.2, grove_terrain]
      unfold mineCell
      dsimp only []
      rw [if_pos (by decide)]
      rfl
    · rw [if_neg hB, if_neg hB]
      rfl

theorem PreWarUpdate_tribes (w : World) (d : PeaceDraws) :
    (PreWarUpdate w d).Tribes = w.Tribes := rfl

theorem grove_after_rest :
    (PreWarUpdate grove groveDraws).Tribes = verticalTribes ∧
    (PreWarUpdate grove groveDraws).EntityStats = New.EntityStats ∧
    (PreWarUpdate grove groveDraws).WF :=
  ⟨(PreWarUpdate_tribes _ _).trans grove_rest.1, (PreWarUpdate_stats _ _).trans grove_rest.2.1,
    PreWarUpdate_WF grove groveDraws grove_WF⟩

theorem grove_after_count : tribeCounts (PreWarUpdate grove groveDraws).Entities 1 = 2 := by
  have h5 : (5 : Nat) < GridSize := by decide
  have h3 : (3 : Nat) < GridSize := by decide
  rw [PreWarUpdate_entities, grove_born,
    tribeCounts_setCell _ (peaceMoved_WF grove groveDraws grove_WF).1 5 3 h5 h3,
    grove_moved_count, (grove_moved 5 3).1, if_neg (by decide)]
  rfl

/-- Witness of C27, on the grove: in the tick the Nomad takes the mining impulse and
moves onto the forest cell (5, 4), a birth is recorded for cell (5, 3), and the
forest under the Nomad is mined; at the end of the tick cell (5, 4) is occupied and
carries neither forest nor rock, and the Nomads are 2 where they were 1. -/
theorem peaceful_tick_settles_witness :
    grove.WF ∧ groveDraws.keyOrder.Nodup ∧ AllRegistered grove ∧ NoWildHome grove ∧
    grove.Terrain.getD (4 * GridSize + 5) 0 = TerrainTrees ∧
    collectMoves grove groveDraws = [{ fromX := 5, fromY := 5, toX := 5, toY := 4 }] ∧
    (peaceReprod grove groveDraws).spawns = [{ nx := 5, ny := 3, tribe := 1 }] ∧
    getCell (PreWarUpdate grove groveDraws).Entities 5 4 none = some (freshEntity 1 1 0) ∧
    (PreWarUpdate grove groveDraws).Terrain.getD (4 * GridSize + 5) 0 ≠ TerrainTrees ∧
    (PreWarUpdate grove groveDraws).Terrain.getD (4 * GridSize + 5) 0 ≠ TerrainRocks ∧
    tribeCounts grove.Entities 1 = 1 ∧
    tribeCounts (PreWarUpdate grove groveDraws).Entities 1 = 2 ∧
    tribeCounts grove.Entities 1 ≤ tribeCounts (PreWarUpdate grove groveDraws).Entities 1 := by
  have h := peaceful_tick_settles grove groveDraws grove_WF (List.nodup_singleton _)
    grove_registered grove_homes
  have hocc : getCell (PreWarUpdate grove groveDraws).Entities 5 4 none
      = some (freshEntity 1 1 0) := by
    rw [grove_after_ents, if_neg (by decide), if_pos ⟨rfl, rfl⟩]
  have hforest : grove.Terrain.getD (4 * GridSize + 5) 0 = TerrainTrees := by
    rw [grove_terrain]
    decide
  have hclean := h.1 5 4 (by rw [hocc]; exact fun e => by cases e)
  exact ⟨grove_WF, List.nodup_singleton _, grove_registered, grove_homes, hforest,
    grove_collect, grove_births.1, hocc, hclean.1, hclean.2, grove_count, grove_after_count,
    h.2 1⟩

/-! ## A later tick of the grove: parent and child move, the cooldown holds -/

theorem after_score_red : MoveScoreBonus 1 (PreWarUpdate grove groveDraws) 1 = 2 := by
  have hown : IsOwnTerrain 1 (PreWarUpdate grove groveDraws) 1 = true := by
    unfold IsOwnTerrain
    rw [grove_after_rest.1]
    rfl
  unfold MoveScoreBonus
  rw [if_neg (by decide), if_neg (by decide), if_neg (by decide), hown, if_pos rfl]

theorem after_score_bare : MoveScoreBonus 0 (PreWarUpdate grove groveDraws) 1 = -2 := by
  unfold MoveScoreBonus
  exact if_pos rfl

/-- The score of a step toward an occupied cell: none. -/
theorem after_step_blocked (x y k : Nat) (dir : Int × Int) (nx ny : Nat)
    (hk : directions[k]? = some dir) (hnx : (x : Int) + dir.1 = (nx : Int))
    (hny : (y : Int) + dir.2 = (ny : Int)) (hrx : nx < GridSize) (hry : ny < GridSize)
    (hocc : getCell (PreWarUpdate grove groveDraws).Entities nx ny none ≠ none) :
    stepScore (PreWarUpdate grove groveDraws) x y 1 k = none := by
  rw [stepScore_at _ x y 1 k dir nx ny hk hnx hny hrx hry, if_neg (fun h => hocc h.1)]

/-- The score of a step toward a free red cell: 2. -/
theorem after_step_red (x y k : Nat) (dir : Int × Int) (nx ny : Nat)
    (hk : directions[k]? = some dir) (hnx : (x : Int) + dir.1 = (nx : Int))
    (hny : (y : Int) + dir.2 = (ny : Int)) (hrx : nx < GridSize) (hry : ny < GridSize)
    (hfree : getCell (PreWarUpdate grove groveDraws).Entities nx ny none = none)
    (ht : (PreWarUpdate grove groveDraws).Terrain.getD (ny * GridSize + nx) 0 = 1) :
    stepScore (PreWarUpdate grove groveDraws) x y 1 k = some 2 := by
  rw [stepScore_at _ x y 1 k dir nx ny hk hnx hny hrx hry, ht, if_pos ⟨hfree, rfl⟩,
    after_score_red]

/-- The score of a step toward a free empty cell: -2. -/
theorem after_step_bare (x y k : Nat) (dir : Int × Int) (nx ny : Nat)
    (hk : directions[k]? = some dir) (hnx : (x : Int) + dir.1 = (nx : Int))
    (hny : (y : Int) + dir.2 = (ny : Int)) (hrx : nx < GridSize) (hry : ny < GridSize)
    (hfree : getCell (PreWarUpdate grove groveDraws).Entities nx ny none = none)
    (ht : (PreWarUpdate grove groveDraws).Terrain.getD (ny * GridSize + nx) 0 = 0) :
    stepScore (PreWarUpdate grove groveDraws) x y 1 k = some (-2) := by
  rw [stepScore_at _ x y 1 k dir nx ny hk hnx hny hrx hry, ht, if_pos ⟨hfree, rfl⟩,
    after_score_bare]

/-- The cells around parent and child at the end of the first tick. -/
theorem after_cell (x y : Nat) (hx : x < GridSize) (hy : y < GridSize)
    (hne : ¬ (x = 5 ∧ y = 3)) (hne2 : ¬ (x = 5 ∧ y = 4)) :
    getCell (PreWarUpdate grove groveDraws).Entities x y none = none ∧
    (PreWarUpdate grove groveDraws).Terrain.getD (y * GridSize + x) 0
      = grove.Terrain.getD (y * GridSize + x) 0 := by
  rw [grove_after_ents, if_neg hne, if_neg hne2, grove_after_terrain x y hx hy, if_neg hne2]
  exact ⟨rfl, rfl⟩

theorem wander_rolls (x y : Nat) :
    wanderDraws.moveRoll x y < (PreWarUpdate grove groveDraws).EntityStats.MoveChance ∧
    ¬ wanderDraws.mineRoll x y < 20 / 100 ∧
    wanderDraws.reprodRoll x y
      < (PreWarUpdate grove groveDraws).EntityStats.ReproductionRate := by
  rw [grove_after_rest.2.1]
  refine ⟨?_, ?_, ?_⟩
  · show (0 : ℚ) < 2 / 10
    norm_num
  · show ¬ ((1 : ℚ) < 20 / 100)
    norm_num
  · show (0 : ℚ) < 5 / 1000
    norm_num

/-- Phase 1 of the later tick: the child collects the move up to the red cell
(5, 2), the parent the move down to the red cell (5, 5). -/
theorem after_collect :
    collectMoves (PreWarUpdate grove groveDraws) wanderDraws
      = [{ fromX := 5, fromY := 3, toX := 5, toY := 2 },
         { fromX := 5, fromY := 4, toX := 5, toY := 5 }] := by
  have h2 : (2 : Nat) < GridSize := by decide
  have h3 : (3 : Nat) < GridSize := by decide
  have h4 : (4 : Nat) < GridSize := by decide
  have h5 : (5 : Nat) < GridSize := by decide
  have h6 : (6 : Nat) < GridSize := by decide
  have hchild : getCell (PreWarUpdate grove groveDraws).Entities 5 3 none
      = some (freshEntity 1 2 0) := by
    rw [grove_after_ents, if_pos ⟨rfl, rfl⟩]
  have hparent : getCell (PreWarUpdate grove groveDraws).Entities 5 4 none
      = some (freshEntity 1 1 0) := by
    rw [grove_after_ents, if_neg (by decide), if_pos ⟨rfl, rfl⟩]
  have gt : ∀ j v, (if j = 505 ∨ j = 305 ∨ j = 205 then 1
      else if j = 405 then TerrainTrees else 0) = v → grove.Terrain.getD j 0 = v := by
    intro j v h
    rw [grove_terrain]
    exact h
  -- the steps of the child, from (5, 3)
  have c0 : stepScore (PreWarUpdate grove groveDraws) 5 3 1 0 = some 2 :=
    after_step_red 5 3 0 (0, -1) 5 2 rfl (by decide) (by decide) h5 h2
      (after_cell 5 2 h5 h2 (by decide) (by decide)).1
      ((after_cell 5 2 h5 h2 (by decide) (by decide)).2.trans (gt _ _ (by decide)))
  have c1 : stepScore (PreWarUpdate grove groveDraws) 5 3 1 1 = none :=
    after_step_blocked 5 3 1 (0, 1) 5 4 rfl (by decide) (by decide) h5 h4
      (by rw [hparent]; exact fun e => by cases e)
  have c2 : stepScore (PreWarUpdate grove groveDraws) 5 3 1 2 = some (-2) :=
    after_step_bare 5 3 2 (-1, 0) 4 3 rfl (by decide) (by decide) h4 h3
      (after_cell 4 3 h4 h3 (by decide) (by decide)).1
      ((after_cell 4 3 h4 h3 (by decide) (by decide)).2.trans (gt _ _ (by decide)))
  have c3 : stepScore (PreWarUpdate grove groveDraws) 5 3 1 3 = some (-2) :=
    after_step_bare 5 3 3 (1, 0) 6 3 rfl (by decide) (by decide) h6 h3
      (after_cell 6 3 h6 h3 (by decide) (by decide)).1
      ((after_cell 6 3 h6 h3 (by decide) (by decide)).2.trans (gt _ _ (by decide)))
  -- the steps of the parent, from (5, 4)
  have p0 : stepScore (PreWarUpdate grove groveDraws) 5 4 1 0 = none :=
    after_step_blocked 5 4 0 (0, -1) 5 3 rfl (by decide) (by decide) h5 h3
      (by rw [hchild]; exact fun e => by cases e)
  have p1 : stepScore (PreWarUpdate grove groveDraws) 5 4 1 1 = some 2 :=
    after_step_red 5 4 1 (0, 1) 5 5 rfl (by decide) (by decide) h5 h5
      (after_cell 5 5 h5 h5 (by decide) (by decide)).1
      ((after_cell 5 5 h5 h5 (by decide) (by decide)).2.trans (gt _ _ (by decide)))
  have p2 : stepScore (PreWarUpdate grove groveDraws) 5 4 1 2 = some (-2) :=
    after_step_bare 5 4 2 (-1, 0) 4 4 rfl (by decide) (by decide) h4 h4
      (after_cell 4 4 h4 h4 (by decide) (by decide)).1
      ((after_cell 4 4 h4 h4 (by decide) (by decide)).2.trans (gt _ _ (by decide)))
  have p3 : stepScore (PreWarUpdate grove groveDraws) 5 4 1 3 = some (-2) :=
    after_step_bare 5 4 3 (1, 0) 6 4 rfl (by decide) (by decide) h6 h4
      (after_cell 6 4 h6 h4 (by decide) (by decide)).1
      ((after_cell 6 4 h6 h4 (by decide) (by decide)).2.trans (gt _ _ (by decide)))
  have hc : collectBody (PreWarUpdate grove groveDraws) wanderDraws 5 3 []
      = [] ++ [moveTo 5 3 0] := by
    apply collectBody_only _ wanderDraws 5 3 [] (freshEntity 1 2 0) 0 hchild
      (wander_rolls 5 3).1 (wander_rolls 5 3).2.1 ⟨2, c0, by norm_num⟩
    intro k s hk hs
    have hs1 : stepScore (PreWarUpdate grove groveDraws) 5 3 1 k = some s := hs
    have hlt := stepScore_lt _ 5 3 1 k s hs1
    interval_cases k
    · exact absurd rfl hk
    · rw [c1] at hs1
      cases hs1
    · rw [c2] at hs1
      cases hs1
      norm_num
    · rw [c3] at hs1
      cases hs1
      norm_num
  have hp : ∀ moves, collectBody (PreWarUpdate grove groveDraws) wanderDraws 5 4 moves
      = moves ++ [moveTo 5 4 1] := by
    intro moves
    apply collectBody_only _ wanderDraws 5 4 moves (freshEntity 1 1 0) 1 hparent
      (wander_rolls 5 4).1 (wander_rolls 5 4).2.1 ⟨2, p1, by norm_num⟩
    intro k s hk hs
    have hs1 : stepScore (PreWarUpdate grove groveDraws) 5 4 1 k = some s := hs
    have hlt := stepScore_lt _ 5 4 1 k s hs1
    interval_cases k
    · rw [p0] at hs1
      cases hs1
    · exact absurd rfl hk
    · rw [p2] at hs1
      cases hs1
      norm_num
    · rw [p3] at hs1
      cases hs1
      norm_num
  rw [collectMoves_two _ wanderDraws 5 3 5 4 h5 h3 h5 h4 (by decide)
    (fun x y h1 h2 => by
      rw [grove_after_ents, if_neg (by omega), if_neg (by omega)]), hc, hp]
  rfl

/-- The cell in which the movement phase leaves an entity, from the moves
collected. -/
theorem posAfter_of_moves (w : World) (d : PeaceDraws) (l : List PotentialMove)
    (h : collectMoves w d = l) (p : Nat × Nat) :
    posAfter w d p
      = movedTo { moves := l, keyOrder := d.keyOrder, pick := d.pick,
                  hitRoll := fun _ _ _ => 0, convRoll := fun _ _ => 0 } p.1 p.2 := by
  unfold posAfter moveDraws
  rw [h]

/-- The movement phase of the later tick takes the parent from (5, 4) to (5, 5) and
the child from (5, 3) to (5, 2). -/
theorem after_positions :
    posAfter (PreWarUpdate grove groveDraws) wanderDraws (5, 4) = (5, 5) ∧
    posAfter (PreWarUpdate grove groveDraws) wanderDraws (5, 3) = (5, 2) := by
  rw [posAfter_of_moves _ wanderDraws _ after_collect, posAfter_of_moves _ wanderDraws _
    after_collect]
  exact ⟨by decide, by decide⟩

/-- Move resolution when two moves are collected, to distinct targets visited in
the order of collection (entity layer). -/
theorem peaceMoved_pair (w : World) (d : PeaceDraws) (m1 m2 : PotentialMove)
    (hm : collectMoves w d = [m1, m2])
    (hk : d.keyOrder = [(m1.toX, m1.toY), (m2.toX, m2.toY)])
    (hne : ¬ (m2.toX = m1.toX ∧ m2.toY = m1.toY)) :
    (peaceMoved w d).ents
      = setCell (setCell (setCell (setCell w.Entities m1.toX m1.toY
            (getCell w.Entities m1.fromX m1.fromY none)) m1.fromX m1.fromY none)
          m2.toX m2.toY (getCell w.Entities m2.fromX m2.fromY none)) m2.fromX m2.fromY none := by
  have hne2 : ¬ (m1.toX = m2.toX ∧ m1.toY = m2.toY) := fun h => hne ⟨h.1.symm, h.2.symm⟩
  have hmov1 : moversTo (moveDraws w d).moves (m1.toX, m1.toY) = [m1] := by
    show moversTo (collectMoves w d) (m1.toX, m1.toY) = [m1]
    rw [hm]
    unfold moversTo
    rw [List.filter_cons_of_pos (by simp), List.filter_cons_of_neg (by simpa using hne)]
    rfl
  have hmov2 : moversTo (moveDraws w d).moves (m2.toX, m2.toY) = [m2] := by
    show moversTo (collectMoves w d) (m2.toX, m2.toY) = [m2]
    rw [hm]
    unfold moversTo
    rw [List.filter_cons_of_neg (by simpa using hne2), List.filter_cons_of_pos (by simp)]
    rfl
  have h : peaceMoved w d
      = applyWinner w (moveDraws w d)
          (applyWinner w (moveDraws w d) { ents := w.Entities, reprod := w.lastReprodTime }
            (m1.toX, m1.toY)) (m2.toX, m2.toY) := by
    unfold peaceMoved resolveMoves
    show (d.keyOrder).foldl _ _ = _
    rw [hk]
    rfl
  have hget : ∀ (m : PotentialMove) (n : Nat), ([m] : List PotentialMove).get? (n % [m].length)
      = some m := by
    intro m n
    have hz : n % [m].length = 0 := Nat.mod_one _
    rw [hz]
    rfl
  rw [h]
  unfold applyWinner
  dsimp only []
  rw [hmov1, hmov2, hget, hget]

/-- The entity layer after the movement phase of the later tick: the child in cell
(5, 2), the parent in cell (5, 5), the cells (5, 3) and (5, 4) they left free. -/
theorem after_moved (x y : Nat) :
    getCell (peaceMoved (PreWarUpdate grove groveDraws) wanderDraws).ents x y none
      = if x = 5 ∧ y = 2 then some (freshEntity 1 2 0)
        else if x = 5 ∧ y = 5 then some (freshEntity 1 1 0) else none := by
  have h2 : (2 : Nat) < GridSize := by decide
  have h5 : (5 : Nat) < GridSize := by decide
  have hG := (PreWarUpdate_WF grove groveDraws grove_WF).1
  have hm := peaceMoved_pair (PreWarUpdate grove groveDraws) wanderDraws
    { fromX := 5, fromY := 3, toX := 5, toY := 2 } { fromX := 5, fromY := 4, toX := 5, toY := 5 }
    after_collect rfl (by decide)
  dsimp only [] at hm
  have hchild : getCell (PreWarUpdate grove groveDraws).Entities 5 3 none
      = some (freshEntity 1 2 0) := by
    rw [grove_after_ents, if_pos ⟨rfl, rfl⟩]
  have hparent : getCell (PreWarUpdate grove groveDraws).Entities 5 4 none
      = some (freshEntity 1 1 0) := by
    rw [grove_after_ents, if_neg (by decide), if_pos ⟨rfl, rfl⟩]
  rw [hm, hchild, hparent]
  have hG1 := GridWF_setCell hG 5 2 (some (freshEntity 1 2 0))
  have hG2 := GridWF_setCell hG1 5 3 none
  have hG3 := GridWF_setCell hG2 5 5 (some (freshEntity 1 1 0))
  by_cases hA : x = 5 ∧ y = 4
  · rw [hA.1, hA.2, getCell_set_self hG3 h5 (by decide), if_neg (by decide), if_neg (by decide)]
  · rw [getCell_setCell_ne _ _ _ _ _ _ _ (by omega)]
    by_cases hB : x = 5 ∧ y = 5
    · rw [hB.1, hB.2, getCell_set_self hG2 h5 h5, if_neg (by decide), if_pos ⟨rfl, rfl⟩]
    · rw [getCell_setCell_ne _ _ _ _ _ _ _ (by omega), if_neg hB]
      by_cases hC : x = 5 ∧ y = 3
      · rw [hC.1, hC.2, getCell_set_self hG1 h5 (by decide), if_neg (by decide)]
      · rw [getCell_setCell_ne _ _ _ _ _ _ _ (by omega)]
        by_cases hD : x = 5 ∧ y = 2
        · rw [hD.1, hD.2, getCell_set_self hG h5 h2, if_pos ⟨rfl, rfl⟩]
        · rw [getCell_setCell_ne _ _ _ _ _ _ _ (by omega), if_neg hD, grove_after_ents,
            if_neg hC, if_neg hA]

/-- The Nomads are not over the density ceiling at the start of the reproduction
loop of the later tick. -/
theorem after_skip :
    skipStart (PreWarUpdate grove groveDraws)
      (tribeCounts (peaceMoved (PreWarUpdate grove groveDraws) wanderDraws).ents) 1 = false := by
  unfold skipStart
  rw [reloc_counts (peaceMoved_reloc _ wanderDraws (PreWarUpdate_WF grove groveDraws grove_WF)
    (by decide)) 1, grove_after_count, grove_after_rest.2.1]
  have hlow : ¬ ((((2 : Int) : ℚ)) / ((GridSize * GridSize : Nat) : ℚ)
      > New.EntityStats.MaxDensityFraction) := by
    show ¬ ((((2 : Int) : ℚ)) / ((GridSize * GridSize : Nat) : ℚ) > 30 / 1000)
    unfold GridSize
    norm_num
  rw [decide_eq_false hlow, Bool.and_false]

/-- After the movement phase of the later tick a child could be put in the cell
each of the two left: in (5, 3) below the child, in (5, 4) above the parent. -/
theorem after_canSpawn :
    canSpawn (PreWarUpdate grove groveDraws)
      (peaceMoved (PreWarUpdate grove groveDraws) wanderDraws).ents 5 2 1 (0, 1) = true ∧
    canSpawn (PreWarUpdate grove groveDraws)
      (peaceMoved (PreWarUpdate grove groveDraws) wanderDraws).ents 5 5 1 (0, -1) = true := by
  have h3 : (3 : Nat) < GridSize := by decide
  have h4 : (4 : Nat) < GridSize := by decide
  have h5 : (5 : Nat) < GridSize := by decide
  have hcan : CanReproduceOn 1 (PreWarUpdate grove groveDraws) 1 = true := by
    unfold CanReproduceOn
    rw [grove_after_rest.1]
    rfl
  constructor
  · rw [canSpawn_at _ _ 5 2 1 (0, 1) 5 3 (by decide) (by decide) h5 h3, after_moved,
      if_neg (by decide), if_neg (by decide), grove_after_terrain 5 3 h5 h3,
      if_neg (by decide), grove_terrain, if_pos (by decide), hcan]
    rfl
  · rw [canSpawn_at _ _ 5 5 1 (0, -1) 5 4 (by decide) (by decide) h5 h4, after_moved,
      if_neg (by decide), if_neg (by decide), grove_after_terrain 5 4 h5 h4,
      if_pos ⟨rfl, rfl⟩, hcan]
    rfl

/-- Witness of C22, on the grove: the first tick, read at time 1, records the birth
of a child for cell (5, 3) at the visit of the parent in (5, 4), and both get
timestamp 1.  In the later tick, read at time 2, the movement phase takes the
parent to (5, 5) and the child to (5, 2); in the reproduction loop the Nomads are
not over the density ceiling, every reproduction roll passes and a free cell of
their own colour lies next to each of the two, so that only the cooldown test
(2 - 1 below the cooldown of 60 s) stands between them and a birth: none is
recorded, and at the end of the tick they are in their new cells with timestamp
1. -/
theorem cooldown_window_witness :
    grove.WF ∧ groveDraws.reprodNow ≠ 0 ∧
    ({ nx := 5, ny := 3, tribe := 1 } : Spawn) ∈ newSpawns grove groveDraws 5 4 ∧
    (∀ d ∈ [wanderDraws], d.keyOrder.Nodup ∧
      d.reprodNow - groveDraws.reprodNow < grove.EntityStats.ReprodCooldown) ∧
    Cooling (PreWarUpdate grove groveDraws) (5, 4) 1 ∧
    Cooling (PreWarUpdate grove groveDraws) (5, 3) 1 ∧
    posAfter (PreWarUpdate grove groveDraws) wanderDraws (5, 4) = (5, 5) ∧
    posAfter (PreWarUpdate grove groveDraws) wanderDraws (5, 3) = (5, 2) ∧
    getCell (peaceMoved (PreWarUpdate grove groveDraws) wanderDraws).ents 5 5 none
      = some (freshEntity 1 1 0) ∧
    getCell (peaceMoved (PreWarUpdate grove groveDraws) wanderDraws).ents 5 2 none
      = some (freshEntity 1 2 0) ∧
    skipStart (PreWarUpdate grove groveDraws)
      (tribeCounts (peaceMoved (PreWarUpdate grove groveDraws) wanderDraws).ents) 1 = false ∧
    (∀ x y, wanderDraws.reprodRoll x y
      < (PreWarUpdate grove groveDraws).EntityStats.ReproductionRate) ∧
    canSpawn (PreWarUpdate grove groveDraws)
      (peaceMoved (PreWarUpdate grove groveDraws) wanderDraws).ents 5 5 1 (0, -1) = true ∧
    canSpawn (PreWarUpdate grove groveDraws)
      (peaceMoved (PreWarUpdate grove groveDraws) wanderDraws).ents 5 2 1 (0, 1) = true ∧
    Dormant (PreWarUpdate grove groveDraws) (5, 4) [wanderDraws] ∧
    Dormant (PreWarUpdate grove groveDraws) (5, 3) [wanderDraws] ∧
    newSpawns (PreWarUpdate grove groveDraws) wanderDraws 5 5 = [] ∧
    newSpawns (PreWarUpdate grove groveDraws) wanderDraws 5 2 = [] ∧
    Cooling (PreWarUpdate (PreWarUpdate grove groveDraws) wanderDraws) (5, 5) 1 ∧
    Cooling (PreWarUpdate (PreWarUpdate grove groveDraws) wanderDraws) (5, 2) 1 := by
  have h0 : groveDraws.reprodNow ≠ 0 := by decide
  have hnd : wanderDraws.keyOrder.Nodup := by decide
  have hlt : wanderDraws.reprodNow - groveDraws.reprodNow < grove.EntityStats.ReprodCooldown := by
    rw [grove_rest.2.1]
    decide
  have hds : ∀ d ∈ [wanderDraws], d.keyOrder.Nodup ∧
      d.reprodNow - groveDraws.reprodNow < grove.EntityStats.ReprodCooldown := by
    intro d hd
    rw [List.mem_singleton.1 hd]
    exact ⟨hnd, hlt⟩
  have h := cooldown_window grove groveDraws [wanderDraws] 5 4 { nx := 5, ny := 3, tribe := 1 }
    grove_WF h0 grove_births.2 hds
  have hwf1 := PreWarUpdate_WF grove groveDraws grove_WF
  have hlt1 : wanderDraws.reprodNow - 1
      < (PreWarUpdate grove groveDraws).EntityStats.ReprodCooldown := by
    rw [PreWarUpdate_stats]
    exact hlt
  have hp : Cooling (PreWarUpdate grove groveDraws) (5, 4) 1 := h.1
  have hc : Cooling (PreWarUpdate grove groveDraws) (5, 3) 1 := h.2.1
  have tp := (cooling_tick _ wanderDraws hwf1 hnd (5, 4) 1 hp (by decide) hlt1).2.2
  have tc := (cooling_tick _ wanderDraws hwf1 hnd (5, 3) 1 hc (by decide) hlt1).2.2
  have np := h.2.2.1.2.2.1
  have nc := h.2.2.2.2.2.1
  rw [after_positions.1] at tp np
  rw [after_positions.2] at tc nc
  exact ⟨grove_WF, h0, grove_births.2, hds, hp, hc, after_positions.1, after_positions.2,
    by rw [after_moved, if_neg (by decide), if_pos ⟨rfl, rfl⟩],
    by rw [after_moved, if_pos ⟨rfl, rfl⟩],
    after_skip, fun x y => (wander_rolls x y).2.2, after_canSpawn.2, after_canSpawn.1,
    h.2.2.1, h.2.2.2, np, nc, tp, tc⟩

end Worldbox
